import Mathlib
/-!
# librttopo: the topology editors of `rtgeom_topo.c`

A shallow embedding of the low-level topology editors (`rtt_AddIsoEdge`,
`rtt_ModEdgeSplit`, `rtt_NewEdgesSplit`, `_rtt_AddEdge`, `_rtt_RemEdge`,
`_rtt_HealEdges`, ...) over an in-memory model of the storage back end.

* Identifiers (`Int`, a 64 bit integer in C) are `Int`.
* The back end is a record of three row tables plus id sequences; its callbacks
  are modelled after the callback table of the specification.
* The geometry kernel (GEOS and the point-array helpers) is a record of oracle
  functions `GEOM` that every editor receives as a parameter.
* `rterror` appends to the `errors` log of the state; an editor "succeeds" when
  it returns a value other than `-1` without raising an error.
-/

namespace RTTopo

/-! ## Data model -/

/-- Identifiers (`RTT_ELEMID` in C, a 64 bit integer) are integers. -/
abbrev RTT_ELEMID := Int

/-- A 2D vertex. Coordinates are abstract stand-ins for the C doubles. -/
structure POINT2D where
  x : Int
  y : Int
deriving DecidableEq, Repr

abbrev POINTARRAY := List POINT2D

/-- Line geometry of an edge: its vertex sequence. -/
abbrev RTLINE := POINTARRAY

/-- Bounding box. -/
structure GBOX where
  xmin : Int
  xmax : Int
  ymin : Int
  ymax : Int
deriving DecidableEq, Repr

structure RTT_ISO_NODE where
  node_id : Int
  containing_face : Int
  geom : POINT2D
deriving DecidableEq, Repr

structure RTT_ISO_EDGE where
  edge_id : Int
  start_node : Int
  end_node : Int
  face_left : Int
  face_right : Int
  next_left : Int
  next_right : Int
  geom : RTLINE
deriving DecidableEq, Repr

structure RTT_ISO_FACE where
  face_id : Int
  mbr : Option GBOX
deriving DecidableEq, Repr

/-- Column selectors of the edge table (the `RTT_COL_EDGE_*` bits). -/
inductive RTT_COL_EDGE where
  | EDGE_ID | START_NODE | END_NODE | FACE_LEFT | FACE_RIGHT
  | NEXT_LEFT | NEXT_RIGHT | GEOM
deriving DecidableEq, Repr

/-- Column selectors of the node table (the `RTT_COL_NODE_*` bits). -/
inductive RTT_COL_NODE where
  | NODE_ID | CONTAINING_FACE | GEOM
deriving DecidableEq, Repr

/-- The callbacks of the back-end interface. -/
inductive BeCall where
  | getNodeById | getEdgeById | getFaceById
  | getNodeWithinDistance2D | getEdgeWithinDistance2D
  | getNodeWithinBox2D | getEdgeWithinBox2D | getFaceWithinBox2D
  | getEdgeByNode | getEdgeByFace | getNodeByFace
  | getNextEdgeId
  | insertNodes | insertEdges | insertFaces
  | updateNodes | updateEdges
  | updateNodesById | updateEdgesById | updateFacesById
  | deleteNodesById | deleteFacesById | deleteEdges
  | getFaceContainingPoint | getRingEdges
  | updateTopoGeomEdgeSplit | updateTopoGeomFaceSplit
  | updateTopoGeomFaceHeal | updateTopoGeomEdgeHeal
  | checkTopoGeomRemEdge | checkTopoGeomRemNode
deriving DecidableEq, Repr

/-- What the core asked the face table to do (and failed assertions). -/
inductive BeEvent where
  | insertFace (id : Int)
  | updateFace (id : Int)
  | deleteFace (id : Int)
  | assertFailed (of : Int)
deriving DecidableEq, Repr

/-- The topology handle together with the rows held by its back end.
`failing` lists the callbacks that report an error, `events` logs the
face-table requests (most recent first), `errors` the `rterror` messages
(most recent first). -/
structure RTT_TOPOLOGY where
  nodes : List RTT_ISO_NODE
  edges : List RTT_ISO_EDGE
  faces : List RTT_ISO_FACE
  node_seq : Int
  edge_seq : Int
  face_seq : Int
  precision : Int
  failing : List BeCall
  events : List BeEvent
  errors : List String
deriving DecidableEq, Repr

/-- The geometry kernel and the spatial predicates of the back end, as oracles.
Integer results follow the C conventions (`2` is a GEOS exception). -/
structure GEOM where
  /-- The oracle for `rtgeom_is_simple` on a line. -/
  is_simple : RTLINE → Bool
  /-- The oracle for `RTGEOM2GEOS` followed by `GEOSPrepare` on a line: does it succeed? -/
  geos_line : RTLINE → Bool
  /-- The oracle for `GEOSPreparedContains(line, point)`. -/
  line_contains : RTLINE → POINT2D → Int
  /-- The oracle for `GEOSRelateBoundaryNodeRule(a, b, 2)`, nine characters or failure. -/
  relate : RTLINE → RTLINE → Option (List Char)
  /-- The oracle for `rtgeom_get_bbox` of a line. -/
  bbox : POINTARRAY → GBOX
  /-- Back-end predicate: the point lies in the box. -/
  pt_in_box : GBOX → POINT2D → Bool
  /-- Back-end predicate: the line meets the box. -/
  line_in_box : GBOX → RTLINE → Bool
  /-- Back-end predicate: the face box meets the box. -/
  box_in_box : GBOX → GBOX → Bool
  /-- Back-end predicate: point within distance of a point. -/
  pt_dwithin : POINT2D → POINT2D → Int → Bool
  /-- Back-end predicate: line within distance of a point. -/
  line_dwithin : RTLINE → POINT2D → Int → Bool
  /-- Back-end point-in-face lookup (`-1` for the universe, `-2` on error). -/
  face_containing : List RTT_ISO_EDGE → POINT2D → Int
  /-- The oracle for `rtgeom_split(line, point)`: the components, or failure. -/
  split : RTLINE → POINT2D → Option (List RTLINE)
  /-- The oracle for `azimuth_pt_pt`, in units where a full turn is `two_pi`. -/
  azimuth : POINT2D → POINT2D → Option Int
  /-- A full turn (`2 * M_PI`). -/
  two_pi : Int
  /-- The oracle for `ptarray_isccw`. -/
  isccw : POINTARRAY → Bool
  /-- The oracle for `GEOSPreparedContains(shell polygon, point)`. -/
  shell_contains : POINTARRAY → POINT2D → Int
  /-- The oracle for `RTGEOM2GEOS`/`GEOSPrepare` on a polygon shell: does it succeed? -/
  geos_shell : POINTARRAY → Bool
  /-- The oracle for `gbox_merge`: union of two boxes. -/
  gbox_merge : GBOX → GBOX → GBOX
  /-- The oracle for the bounding box of `rtt_GetFaceGeometry` built from the face edges. -/
  face_bbox : List RTT_ISO_EDGE → Option GBOX
  /-- The oracle for `_rtt_EdgeMotionArea(line, isclosed)`: can the area be built? -/
  motion_area : RTLINE → Bool → Bool
  /-- The oracle for `GEOSPreparedContains(motion area of the line, point)`. -/
  motion_contains : RTLINE → Bool → POINT2D → Int
  /-- The oracle for the interpolation `fp + (lp - fp) * 0.5` of `_rtt_GetInteriorEdgePoint`,
  which the C code computes in doubles. -/
  midpoint : POINT2D → POINT2D → POINT2D

/-- Report an error: the message is logged and control returns to the caller. -/
def rterror (T : RTT_TOPOLOGY) (msg : String) : RTT_TOPOLOGY :=
  { T with errors := msg :: T.errors }

/-- A record whose fields are all unset, standing for a C struct on the stack. -/
def blankEdge : RTT_ISO_EDGE :=
  { edge_id := 0, start_node := 0, end_node := 0, face_left := 0, face_right := 0,
    next_left := 0, next_right := 0, geom := [] }

/-- A node record whose fields are all unset. -/
def blankNode : RTT_ISO_NODE :=
  { node_id := 0, containing_face := 0, geom := { x := 0, y := 0 } }

end RTTopo

namespace RTTopo

/-! ## Back-end callbacks (in-memory model) -/

/-- Does row `e` agree with `sel` on every column of `fields`? -/
def edgeMatches (sel : RTT_ISO_EDGE) (fields : List RTT_COL_EDGE) (e : RTT_ISO_EDGE) : Bool :=
  (decide (RTT_COL_EDGE.EDGE_ID ∈ fields → e.edge_id = sel.edge_id)) &&
  (decide (RTT_COL_EDGE.START_NODE ∈ fields → e.start_node = sel.start_node)) &&
  (decide (RTT_COL_EDGE.END_NODE ∈ fields → e.end_node = sel.end_node)) &&
  (decide (RTT_COL_EDGE.FACE_LEFT ∈ fields → e.face_left = sel.face_left)) &&
  (decide (RTT_COL_EDGE.FACE_RIGHT ∈ fields → e.face_right = sel.face_right)) &&
  (decide (RTT_COL_EDGE.NEXT_LEFT ∈ fields → e.next_left = sel.next_left)) &&
  (decide (RTT_COL_EDGE.NEXT_RIGHT ∈ fields → e.next_right = sel.next_right)) &&
  (decide (RTT_COL_EDGE.GEOM ∈ fields → e.geom = sel.geom))

/-- Overwrite the columns `fields` of row `e` with the values held by `upd`. -/
def edgeAssign (upd : RTT_ISO_EDGE) (fields : List RTT_COL_EDGE) (e : RTT_ISO_EDGE) :
    RTT_ISO_EDGE :=
  { edge_id := if RTT_COL_EDGE.EDGE_ID ∈ fields then upd.edge_id else e.edge_id
    start_node := if RTT_COL_EDGE.START_NODE ∈ fields then upd.start_node else e.start_node
    end_node := if RTT_COL_EDGE.END_NODE ∈ fields then upd.end_node else e.end_node
    face_left := if RTT_COL_EDGE.FACE_LEFT ∈ fields then upd.face_left else e.face_left
    face_right := if RTT_COL_EDGE.FACE_RIGHT ∈ fields then upd.face_right else e.face_right
    next_left := if RTT_COL_EDGE.NEXT_LEFT ∈ fields then upd.next_left else e.next_left
    next_right := if RTT_COL_EDGE.NEXT_RIGHT ∈ fields then upd.next_right else e.next_right
    geom := if RTT_COL_EDGE.GEOM ∈ fields then upd.geom else e.geom }

/-- Does node row `n` agree with `sel` on every column of `fields`? -/
def nodeMatches (sel : RTT_ISO_NODE) (fields : List RTT_COL_NODE) (n : RTT_ISO_NODE) : Bool :=
  (decide (RTT_COL_NODE.NODE_ID ∈ fields → n.node_id = sel.node_id)) &&
  (decide (RTT_COL_NODE.CONTAINING_FACE ∈ fields → n.containing_face = sel.containing_face)) &&
  (decide (RTT_COL_NODE.GEOM ∈ fields → n.geom = sel.geom))

/-- Overwrite the columns `fields` of node row `n` with the values held by `upd`. -/
def nodeAssign (upd : RTT_ISO_NODE) (fields : List RTT_COL_NODE) (n : RTT_ISO_NODE) :
    RTT_ISO_NODE :=
  { node_id := if RTT_COL_NODE.NODE_ID ∈ fields then upd.node_id else n.node_id
    containing_face :=
      if RTT_COL_NODE.CONTAINING_FACE ∈ fields then upd.containing_face else n.containing_face
    geom := if RTT_COL_NODE.GEOM ∈ fields then upd.geom else n.geom }

/-- First row of a list with the given edge id. -/
def edgeRow (es : List RTT_ISO_EDGE) (id : Int) : Option RTT_ISO_EDGE :=
  es.find? (fun e => decide (e.edge_id = id))

/-- First row of a list with the given node id. -/
def nodeRow (ns : List RTT_ISO_NODE) (id : Int) : Option RTT_ISO_NODE :=
  ns.find? (fun n => decide (n.node_id = id))

/-- First row of a list with the given face id. -/
def faceRow (fs : List RTT_ISO_FACE) (id : Int) : Option RTT_ISO_FACE :=
  fs.find? (fun f => decide (f.face_id = id))

/-- Modelled from the spec: `getNodeById(ids, &count, fields)`, bulk fetch by id;
missing ids are dropped; `none` is the error answer (count `-1`). -/
def rtt_be_getNodeById (T : RTT_TOPOLOGY) (ids : List Int) :
    Option (List RTT_ISO_NODE) :=
  if BeCall.getNodeById ∈ T.failing then none
  else some (T.nodes.filter (fun n => decide (n.node_id ∈ ids)))

/-- Modelled from the spec: `getEdgeById(ids, &count, fields)`. -/
def rtt_be_getEdgeById (T : RTT_TOPOLOGY) (ids : List Int) :
    Option (List RTT_ISO_EDGE) :=
  if BeCall.getEdgeById ∈ T.failing then none
  else some (T.edges.filter (fun e => decide (e.edge_id ∈ ids)))

/-- Modelled from the spec: `getFaceById(ids, &count, fields)`. -/
def rtt_be_getFaceById (T : RTT_TOPOLOGY) (ids : List Int) :
    Option (List RTT_ISO_FACE) :=
  if BeCall.getFaceById ∈ T.failing then none
  else some (T.faces.filter (fun f => decide (f.face_id ∈ ids)))

/-- Modelled from the spec: `getNodeWithinDistance2D(pt, dist, &count, fields, limit)`,
point-proximity query; only the count is used by the callers modelled here. -/
def rtt_be_getNodeWithinDistance2D (G : GEOM) (T : RTT_TOPOLOGY) (pt : POINT2D) (dist : Int) :
    Option (List RTT_ISO_NODE) :=
  if BeCall.getNodeWithinDistance2D ∈ T.failing then none
  else some (T.nodes.filter (fun n => G.pt_dwithin n.geom pt dist))

/-- Modelled from the spec: `getEdgeWithinDistance2D(pt, dist, &count, fields, limit)`. -/
def rtt_be_getEdgeWithinDistance2D (G : GEOM) (T : RTT_TOPOLOGY) (pt : POINT2D) (dist : Int) :
    Option (List RTT_ISO_EDGE) :=
  if BeCall.getEdgeWithinDistance2D ∈ T.failing then none
  else some (T.edges.filter (fun e => G.line_dwithin e.geom pt dist))

/-- Modelled from the spec: `getNodeWithinBox2D(box, &count, fields, limit)`, bbox query. -/
def rtt_be_getNodeWithinBox2D (G : GEOM) (T : RTT_TOPOLOGY) (box : GBOX) :
    Option (List RTT_ISO_NODE) :=
  if BeCall.getNodeWithinBox2D ∈ T.failing then none
  else some (T.nodes.filter (fun n => G.pt_in_box box n.geom))

/-- Modelled from the spec: `getEdgeWithinBox2D(box, &count, fields, limit)`. -/
def rtt_be_getEdgeWithinBox2D (G : GEOM) (T : RTT_TOPOLOGY) (box : GBOX) :
    Option (List RTT_ISO_EDGE) :=
  if BeCall.getEdgeWithinBox2D ∈ T.failing then none
  else some (T.edges.filter (fun e => G.line_in_box box e.geom))

/-- Modelled from the spec: `getEdgeByNode(node_ids, &count, fields)`, all edges incident
to any of the node ids. -/
def rtt_be_getEdgeByNode (T : RTT_TOPOLOGY) (ids : List Int) :
    Option (List RTT_ISO_EDGE) :=
  if BeCall.getEdgeByNode ∈ T.failing then none
  else some (T.edges.filter (fun e => decide (e.start_node ∈ ids) || decide (e.end_node ∈ ids)))

/-- Modelled from the spec: `getEdgeByFace(face_ids, &count, fields, box)`, all edges bound
by those faces, optionally restricted to `box`. -/
def rtt_be_getEdgeByFace (G : GEOM) (T : RTT_TOPOLOGY) (ids : List Int)
    (box : Option GBOX) : Option (List RTT_ISO_EDGE) :=
  if BeCall.getEdgeByFace ∈ T.failing then none
  else some (T.edges.filter (fun e =>
    (decide (e.face_left ∈ ids) || decide (e.face_right ∈ ids)) &&
    (match box with
     | none => true
     | some b => G.line_in_box b e.geom)))

/-- Modelled from the spec: `getNodeByFace(face_ids, &count, fields, box)`, all nodes
contained in those faces, optionally restricted to `box`. -/
def rtt_be_getNodeByFace (G : GEOM) (T : RTT_TOPOLOGY) (ids : List Int)
    (box : Option GBOX) : Option (List RTT_ISO_NODE) :=
  if BeCall.getNodeByFace ∈ T.failing then none
  else some (T.nodes.filter (fun n =>
    decide (n.containing_face ∈ ids) &&
    (match box with
     | none => true
     | some b => G.pt_in_box b n.geom)))

/-- Modelled from the spec: `getNextEdgeId() → id`, allocate the next edge id
(`-1` on error). -/
def rtt_be_getNextEdgeId (T : RTT_TOPOLOGY) : RTT_TOPOLOGY × Int :=
  if BeCall.getNextEdgeId ∈ T.failing then (T, -1)
  else ({ T with edge_seq := T.edge_seq + 1 }, T.edge_seq)

/-- Modelled from the spec: `insertNodes(rows, n)` for one row; the back end back-fills
`node_id` when it is `-1`. Returns the state, the row as stored and the count
(`0` when the insertion fails). -/
def rtt_be_insertNodes (T : RTT_TOPOLOGY) (node : RTT_ISO_NODE) :
    RTT_TOPOLOGY × RTT_ISO_NODE × Int :=
  if BeCall.insertNodes ∈ T.failing then (T, node, 0)
  else if node.node_id = -1 then
    let row := { node with node_id := T.node_seq }
    ({ T with nodes := T.nodes ++ [row], node_seq := T.node_seq + 1 }, row, 1)
  else ({ T with nodes := T.nodes ++ [node] }, node, 1)

/-- One row of `insertEdges`: an `edge_id` of `-1` is back-filled from the sequence. -/
def insertEdgeRow (T : RTT_TOPOLOGY) (edge : RTT_ISO_EDGE) : RTT_TOPOLOGY × RTT_ISO_EDGE :=
  if edge.edge_id = -1 then
    let row := { edge with edge_id := T.edge_seq }
    ({ T with edges := T.edges ++ [row], edge_seq := T.edge_seq + 1 }, row)
  else ({ T with edges := T.edges ++ [edge] }, edge)

/-- Modelled from the spec: `insertEdges(rows, n)`; returns the state, the rows as stored
and the count (`-1` on error). -/
def rtt_be_insertEdges (T : RTT_TOPOLOGY) (rows : List RTT_ISO_EDGE) :
    RTT_TOPOLOGY × List RTT_ISO_EDGE × Int :=
  if BeCall.insertEdges ∈ T.failing then (T, rows, -1)
  else
    let r := rows.foldl
      (fun (acc : RTT_TOPOLOGY × List RTT_ISO_EDGE) e =>
        let p := insertEdgeRow acc.1 e
        (p.1, acc.2 ++ [p.2]))
      (T, [])
    (r.1, r.2, rows.length)

/-- Modelled from the spec: `insertFaces(rows, n)` for one row; `face_id` is back-filled
when it is `-1`. Returns the state, the row as stored and the count (`-1` on error). -/
def rtt_be_insertFaces (T : RTT_TOPOLOGY) (face : RTT_ISO_FACE) :
    RTT_TOPOLOGY × RTT_ISO_FACE × Int :=
  if BeCall.insertFaces ∈ T.failing then (T, face, -1)
  else
    let row : RTT_ISO_FACE :=
      if face.face_id = -1 then { face with face_id := T.face_seq } else face
    ({ T with faces := T.faces ++ [row],
              face_seq := if face.face_id = -1 then T.face_seq + 1 else T.face_seq,
              events := BeEvent.insertFace row.face_id :: T.events }, row, 1)

/-- Row selection of `updateEdges`: the row matches `sel` and, when an exclusion mask is
given, does not match `exc`. -/
def edgeSelected (sel : RTT_ISO_EDGE) (sel_fields : List RTT_COL_EDGE)
    (exc : RTT_ISO_EDGE) (exc_fields : List RTT_COL_EDGE) (e : RTT_ISO_EDGE) : Bool :=
  edgeMatches sel sel_fields e && !(!exc_fields.isEmpty && edgeMatches exc exc_fields e)

/-- Effect of `updateEdges` on one row. -/
def updateEdgeRow (sel : RTT_ISO_EDGE) (sel_fields : List RTT_COL_EDGE)
    (upd : RTT_ISO_EDGE) (upd_fields : List RTT_COL_EDGE)
    (exc : RTT_ISO_EDGE) (exc_fields : List RTT_COL_EDGE) (e : RTT_ISO_EDGE) : RTT_ISO_EDGE :=
  if edgeSelected sel sel_fields exc exc_fields e then edgeAssign upd upd_fields e else e

/-- Modelled from the spec: `updateEdges(sel, sel_mask, upd, upd_mask, exc, exc_mask)`:
select rows matching `sel` on `sel_mask`, excluding rows matching `exc` (when an
exclusion mask is given), and set their `upd_mask` fields. Returns the count. -/
def rtt_be_updateEdges (T : RTT_TOPOLOGY)
    (sel : RTT_ISO_EDGE) (sel_fields : List RTT_COL_EDGE)
    (upd : RTT_ISO_EDGE) (upd_fields : List RTT_COL_EDGE)
    (exc : RTT_ISO_EDGE) (exc_fields : List RTT_COL_EDGE) : RTT_TOPOLOGY × Int :=
  if BeCall.updateEdges ∈ T.failing then (T, -1)
  else
    ({ T with edges := T.edges.map (updateEdgeRow sel sel_fields upd upd_fields exc exc_fields) },
     ((T.edges.filter (edgeSelected sel sel_fields exc exc_fields)).length : Int))

/-- Row selection of `updateNodes`. -/
def nodeSelected (sel : RTT_ISO_NODE) (sel_fields : List RTT_COL_NODE)
    (exc : RTT_ISO_NODE) (exc_fields : List RTT_COL_NODE) (n : RTT_ISO_NODE) : Bool :=
  nodeMatches sel sel_fields n && !(!exc_fields.isEmpty && nodeMatches exc exc_fields n)

/-- Effect of `updateNodes` on one row. -/
def updateNodeRow (sel : RTT_ISO_NODE) (sel_fields : List RTT_COL_NODE)
    (upd : RTT_ISO_NODE) (upd_fields : List RTT_COL_NODE)
    (exc : RTT_ISO_NODE) (exc_fields : List RTT_COL_NODE) (n : RTT_ISO_NODE) : RTT_ISO_NODE :=
  if nodeSelected sel sel_fields exc exc_fields n then nodeAssign upd upd_fields n else n

/-- Modelled from the spec: `updateNodes(sel, sel_mask, upd, upd_mask, exc, exc_mask)`. -/
def rtt_be_updateNodes (T : RTT_TOPOLOGY)
    (sel : RTT_ISO_NODE) (sel_fields : List RTT_COL_NODE)
    (upd : RTT_ISO_NODE) (upd_fields : List RTT_COL_NODE)
    (exc : RTT_ISO_NODE) (exc_fields : List RTT_COL_NODE) : RTT_TOPOLOGY × Int :=
  if BeCall.updateNodes ∈ T.failing then (T, -1)
  else
    ({ T with nodes := T.nodes.map (updateNodeRow sel sel_fields upd upd_fields exc exc_fields) },
     ((T.nodes.filter (nodeSelected sel sel_fields exc exc_fields)).length : Int))

/-- Apply one by-id update row to an edge table. -/
def updateEdgeById (fields : List RTT_COL_EDGE) (es : List RTT_ISO_EDGE) (upd : RTT_ISO_EDGE) :
    List RTT_ISO_EDGE :=
  es.map (fun e => if e.edge_id = upd.edge_id then edgeAssign upd fields e else e)

/-- Modelled from the spec: `updateEdgesById(rows, n, fields)`, update by id.
Returns the number of rows updated. -/
def rtt_be_updateEdgesById (T : RTT_TOPOLOGY) (rows : List RTT_ISO_EDGE)
    (fields : List RTT_COL_EDGE) : RTT_TOPOLOGY × Int :=
  if BeCall.updateEdgesById ∈ T.failing then (T, -1)
  else
    ({ T with edges := rows.foldl (updateEdgeById fields) T.edges },
     ((rows.filter (fun u => T.edges.any (fun e => decide (e.edge_id = u.edge_id)))).length : Int))

/-- Apply one by-id update row to a node table. -/
def updateNodeById (fields : List RTT_COL_NODE) (ns : List RTT_ISO_NODE) (upd : RTT_ISO_NODE) :
    List RTT_ISO_NODE :=
  ns.map (fun n => if n.node_id = upd.node_id then nodeAssign upd fields n else n)

/-- Modelled from the spec: `updateNodesById(rows, n, fields)`, update by id. -/
def rtt_be_updateNodesById (T : RTT_TOPOLOGY) (rows : List RTT_ISO_NODE)
    (fields : List RTT_COL_NODE) : RTT_TOPOLOGY × Int :=
  if BeCall.updateNodesById ∈ T.failing then (T, -1)
  else
    ({ T with nodes := rows.foldl (updateNodeById fields) T.nodes },
     ((rows.filter (fun u => T.nodes.any (fun n => decide (n.node_id = u.node_id)))).length : Int))

/-- Apply one by-id MBR update to a face table. -/
def updateFaceById (fs : List RTT_ISO_FACE) (upd : RTT_ISO_FACE) : List RTT_ISO_FACE :=
  fs.map (fun f => if f.face_id = upd.face_id then { f with mbr := upd.mbr } else f)

/-- Modelled from the spec: `updateFacesById(rows, n)`, update the MBR by id.
Every requested id is logged. -/
def rtt_be_updateFacesById (T : RTT_TOPOLOGY) (rows : List RTT_ISO_FACE) :
    RTT_TOPOLOGY × Int :=
  let T1 := { T with events := (rows.map (fun r => BeEvent.updateFace r.face_id)).reverse ++ T.events }
  if BeCall.updateFacesById ∈ T.failing then (T1, -1)
  else
    ({ T1 with faces := rows.foldl updateFaceById T.faces },
     ((rows.filter (fun u => T.faces.any (fun f => decide (f.face_id = u.face_id)))).length : Int))

/-- Modelled from the spec: `deleteNodesById(ids, n)`. Returns the number of rows deleted. -/
def rtt_be_deleteNodesById (T : RTT_TOPOLOGY) (ids : List Int) : RTT_TOPOLOGY × Int :=
  if BeCall.deleteNodesById ∈ T.failing then (T, -1)
  else
    ({ T with nodes := T.nodes.filter (fun n => !decide (n.node_id ∈ ids)) },
     ((T.nodes.filter (fun n => decide (n.node_id ∈ ids))).length : Int))

/-- Modelled from the spec: `deleteFacesById(ids, n)`. Every requested id is logged. -/
def rtt_be_deleteFacesById (T : RTT_TOPOLOGY) (ids : List Int) : RTT_TOPOLOGY × Int :=
  let T1 := { T with events := (ids.map BeEvent.deleteFace).reverse ++ T.events }
  if BeCall.deleteFacesById ∈ T.failing then (T1, -1)
  else
    ({ T1 with faces := T.faces.filter (fun f => !decide (f.face_id ∈ ids)) },
     ((T.faces.filter (fun f => decide (f.face_id ∈ ids))).length : Int))

/-- Modelled from the spec: `deleteEdges(sel, sel_mask)`, delete the rows matching `sel`. -/
def rtt_be_deleteEdges (T : RTT_TOPOLOGY) (sel : RTT_ISO_EDGE)
    (sel_fields : List RTT_COL_EDGE) : RTT_TOPOLOGY × Int :=
  if BeCall.deleteEdges ∈ T.failing then (T, -1)
  else
    ({ T with edges := T.edges.filter (fun e => !edgeMatches sel sel_fields e) },
     ((T.edges.filter (fun e => edgeMatches sel sel_fields e)).length : Int))

/-- Modelled from the spec: `getFaceContainingPoint(pt) → face_id`, point-in-polygon over
the face table; `-1` for the universe, `-2` on error. -/
def rtt_be_getFaceContainingPoint (G : GEOM) (T : RTT_TOPOLOGY) (pt : POINT2D) : Int :=
  if BeCall.getFaceContainingPoint ∈ T.failing then -2
  else G.face_containing T.edges pt

/-- The successor of a signed edge in the linkage: `next_left` of the row when the signed
id is positive, `next_right` when it is negative; `0` when the row is missing. -/
def nextEdge (es : List RTT_ISO_EDGE) (h : Int) : Int :=
  match edgeRow es (if 0 < h then h else -h) with
  | some e => if 0 < h then e.next_left else e.next_right
  | none => 0

/-- Ring walk with fuel: collect signed ids from `cur` until the walk is back at `start`,
meets a missing row, or the fuel is used up. -/
def ringWalk (es : List RTT_ISO_EDGE) (start : Int) :
    Nat → Int → List Int → List Int
  | 0, _, acc => acc
  | fuel + 1, cur, acc =>
    let nxt := nextEdge es cur
    if nxt = start ∨ nxt = 0 ∨ nxt ∈ (acc ++ [cur]) then acc ++ [cur]
    else ringWalk es start fuel nxt (acc ++ [cur])

/-- Modelled from the spec: `getRingEdges(signed_edge, limit) → signed id list`, walk a face
ring via the `next_*` linkage in the back end. `none` is the error answer. -/
def rtt_be_getRingEdges (T : RTT_TOPOLOGY) (sedge : Int) : Option (List Int) :=
  if BeCall.getRingEdges ∈ T.failing then none
  else
    match edgeRow T.edges (if 0 < sedge then sedge else -sedge) with
    | none => none
    | some _ => some (ringWalk T.edges sedge (2 * T.edges.length) sedge [])

/-- Modelled from the spec: the `updateTopoGeom*` hooks and the `checkTopoGeomRem*` vetoes
answer non-zero unless the callback is listed as failing. -/
def rtt_be_hook (T : RTT_TOPOLOGY) (c : BeCall) : Int :=
  if c ∈ T.failing then 0 else 1

/-- The C function `rtt_be_ExistsCoincidentNode`. -/
def rtt_be_ExistsCoincidentNode (G : GEOM) (T : RTT_TOPOLOGY) (pt : POINT2D) :
    RTT_TOPOLOGY × Int :=
  match rtt_be_getNodeWithinDistance2D G T pt 0 with
  | none => (rterror T "Backend error", 0)
  | some l => (T, (l.length : Int))

/-- The C function `rtt_be_ExistsEdgeIntersectingPoint`. -/
def rtt_be_ExistsEdgeIntersectingPoint (G : GEOM) (T : RTT_TOPOLOGY) (pt : POINT2D) :
    RTT_TOPOLOGY × Int :=
  match rtt_be_getEdgeWithinDistance2D G T pt 0 with
  | none => (rterror T "Backend error", 0)
  | some l => (T, (l.length : Int))

end RTTopo

namespace RTTopo

/-! ## `_rtt_CheckEdgeCrossing`, `rtt_AddIsoNode`, `rtt_AddIsoEdge` -/

/-- Modelled from the spec: `GEOSRelatePatternMatch(matrix, pattern)` of the geometry
kernel: `1` on match, `0` on mismatch, `2` on a malformed argument. -/
def GEOSRelatePatternMatch (mat pat : List Char) : Int :=
  if mat.length ≠ 9 ∨ pat.length ≠ 9 then 2
  else if (List.zip mat pat).all (fun mp =>
      mp.2 = '*' || (mp.2 = 'T' && mp.1 ≠ 'F') || mp.2 = mp.1) then 1
  else 0

/-- Node loop of `_rtt_CheckEdgeCrossing`: the first offending node decides. -/
def checkCrossingNodes (G : GEOM) (start_node end_node : Int) (geom : RTLINE) :
    List RTT_ISO_NODE → Option String
  | [] => none
  | node :: rest =>
    if node.node_id = start_node then checkCrossingNodes G start_node end_node geom rest
    else if node.node_id = end_node then checkCrossingNodes G start_node end_node geom rest
    else
      let contains := G.line_contains geom node.geom
      if contains = 2 then some "GEOS exception on PreparedContains"
      else if contains ≠ 0 then some "SQL/MM Spatial exception - geometry crosses a node"
      else checkCrossingNodes G start_node end_node geom rest

/-- Edge loop of `_rtt_CheckEdgeCrossing`: the first offending edge decides. -/
def checkCrossingEdges (G : GEOM) (geom : RTLINE) (myself : Int) :
    List RTT_ISO_EDGE → Option String
  | [] => none
  | edge :: rest =>
    if edge.edge_id = myself then checkCrossingEdges G geom myself rest
    else if !G.geos_line edge.geom then some "Could not convert edge geometry to GEOS"
    else
      match G.relate edge.geom geom with
      | none => some "GEOSRelateBoundaryNodeRule error"
      | some relate =>
        let m0 := GEOSRelatePatternMatch relate "F********".toList
        if m0 ≠ 0 then
          if m0 = 2 then some "GEOSRelatePatternMatch error"
          else checkCrossingEdges G geom myself rest
        else
          let m1 := GEOSRelatePatternMatch relate "1FFF*FFF2".toList
          if m1 ≠ 0 then
            if m1 = 2 then some "GEOSRelatePatternMatch error"
            else some "SQL/MM Spatial exception - coincident edge"
          else
            let m2 := GEOSRelatePatternMatch relate "1********".toList
            if m2 ≠ 0 then
              if m2 = 2 then some "GEOSRelatePatternMatch error"
              else some "Spatial exception - geometry intersects edge"
            else
              let m3 := GEOSRelatePatternMatch relate "T********".toList
              if m3 ≠ 0 then
                if m3 = 2 then some "GEOSRelatePatternMatch error"
                else some "SQL/MM Spatial exception - geometry crosses edge"
              else checkCrossingEdges G geom myself rest

/-- The C function `_rtt_CheckEdgeCrossing`: `0` when the line does no harm, `-1` (after
`rterror`) on a crossing or an error. -/
def _rtt_CheckEdgeCrossing (G : GEOM) (T : RTT_TOPOLOGY) (start_node end_node : Int)
    (geom : RTLINE) (myself : Int) : RTT_TOPOLOGY × Int :=
  if !G.geos_line geom then (rterror T "Could not convert edge geometry to GEOS", -1)
  else
    let edgebox := G.bbox geom
    match rtt_be_getNodeWithinBox2D G T edgebox with
    | none => (rterror T "Backend error", -1)
    | some nodes =>
      match checkCrossingNodes G start_node end_node geom nodes with
      | some msg => (rterror T msg, -1)
      | none =>
        match rtt_be_getEdgeWithinBox2D G T edgebox with
        | none => (rterror T "Backend error", -1)
        | some edges =>
          match checkCrossingEdges G geom myself edges with
          | some msg => (rterror T msg, -1)
          | none => (T, 0)

/-- The C function `rtt_AddIsoNode`. -/
def rtt_AddIsoNode (G : GEOM) (T : RTT_TOPOLOGY) (face : Int) (pt : POINT2D)
    (skipISOChecks : Bool) : RTT_TOPOLOGY × Int :=
  let c1 := if skipISOChecks then (T, (0 : Int)) else rtt_be_ExistsCoincidentNode G T pt
  if c1.2 ≠ 0 then (rterror c1.1 "SQL/MM Spatial exception - coincident node", -1)
  else
    let c2 := if skipISOChecks then (c1.1, (0 : Int))
              else rtt_be_ExistsEdgeIntersectingPoint G c1.1 pt
    if c2.2 ≠ 0 then (rterror c2.1 "SQL/MM Spatial exception - edge crosses node.", -1)
    else
      let T2 := c2.1
      let found0 : Int :=
        if face = -1 ∨ skipISOChecks = false then rtt_be_getFaceContainingPoint G T2 pt else -1
      if (face = -1 ∨ skipISOChecks = false) ∧ found0 = -2 then (rterror T2 "Backend error", -1)
      else
        let foundInFace : Int :=
          if (face = -1 ∨ skipISOChecks = false) ∧ found0 = -1 then 0 else found0
        if face ≠ -1 ∧ skipISOChecks = false ∧ foundInFace ≠ face then
          (rterror T2 "SQL/MM Spatial exception - not within face", -1)
        else
          let face1 := if face = -1 then foundInFace else face
          let node : RTT_ISO_NODE := { node_id := -1, containing_face := face1, geom := pt }
          let r := rtt_be_insertNodes T2 node
          if r.2.2 = 0 then (rterror r.1 "Backend error", -1)
          else (r.1, r.2.1.node_id)

/-- Endpoint loop of `rtt_AddIsoEdge`: checks isolation, face agreement and the match of
the curve end points; yields the common containing face. -/
def isoEdgeEndpoints (startNode : Int) (geom : RTLINE) :
    List RTT_ISO_NODE → Int → Except String Int
  | [], containing_face => .ok containing_face
  | n :: rest, containing_face =>
    if n.containing_face = -1 then .error "SQL/MM Spatial exception - not isolated node"
    else if containing_face ≠ -1 ∧ containing_face ≠ n.containing_face then
      .error "SQL/MM Spatial exception - nodes in different faces"
    else
      let cf := if containing_face = -1 then n.containing_face else containing_face
      if n.node_id = startNode then
        if geom.head? ≠ some n.geom then
          .error "SQL/MM Spatial exception - start node not geometry start point."
        else isoEdgeEndpoints startNode geom rest cf
      else
        if geom.getLast? ≠ some n.geom then
          .error "SQL/MM Spatial exception - end node not geometry end point."
        else isoEdgeEndpoints startNode geom rest cf

/-- The C function `rtt_AddIsoEdge`. -/
def rtt_AddIsoEdge (G : GEOM) (T : RTT_TOPOLOGY) (startNode endNode : Int)
    (geom : RTLINE) : RTT_TOPOLOGY × Int :=
  if startNode = endNode then
    (rterror T "Closed edges would not be isolated, try rtt_AddEdgeNewFaces", -1)
  else if !G.is_simple geom then (rterror T "SQL/MM Spatial exception - curve not simple", -1)
  else
    match rtt_be_getNodeById T [startNode, endNode] with
    | none => (rterror T "Backend error", -1)
    | some endpoints =>
      if endpoints.length < 2 then
        (rterror T "SQL/MM Spatial exception - non-existent node", -1)
      else
        match isoEdgeEndpoints startNode geom endpoints (-1) with
        | .error msg => (rterror T msg, -1)
        | .ok cf0 =>
          let c := _rtt_CheckEdgeCrossing G T startNode endNode geom 0
          if c.2 ≠ 0 then (c.1, -1)
          else
            let a := rtt_be_getNextEdgeId c.1
            if a.2 = -1 then (rterror a.1 "Backend error", -1)
            else
              let containing_face := if cf0 = -1 then 0 else cf0
              let newedge : RTT_ISO_EDGE :=
                { edge_id := a.2, start_node := startNode, end_node := endNode,
                  face_left := containing_face, face_right := containing_face,
                  next_left := -a.2, next_right := a.2, geom := geom }
              let i := rtt_be_insertEdges a.1 [newedge]
              if i.2.2 = -1 then (rterror i.1 "Backend error", -1)
              else if i.2.2 = 0 then
                (rterror i.1 "Insertion of split edge failed (no reason)", -1)
              else
                let updated_nodes : List RTT_ISO_NODE :=
                  [ { blankNode with node_id := startNode, containing_face := -1 },
                    { blankNode with node_id := endNode, containing_face := -1 } ]
                let u := rtt_be_updateNodesById i.1 updated_nodes
                  [RTT_COL_NODE.CONTAINING_FACE]
                if u.2 = -1 then (rterror u.1 "Backend error", -1)
                else (u.1, a.2)

/-! ## `_rtt_EdgeSplit`, `rtt_ModEdgeSplit`, `rtt_NewEdgesSplit` -/

/-- The C function `_rtt_EdgeSplit`: fetch the edge, check for a coincident node, split
the curve. Yields the old edge row with the two (or more) components, or nothing after
`rterror`. -/
def _rtt_EdgeSplit (G : GEOM) (T : RTT_TOPOLOGY) (edge : Int) (pt : POINT2D)
    (skipISOChecks : Bool) : RTT_TOPOLOGY × Option (RTT_ISO_EDGE × List RTLINE) :=
  match rtt_be_getEdgeById T [edge] with
  | none => (rterror T "Backend error", none)
  | some [] => (rterror T "SQL/MM Spatial exception - non-existent edge", none)
  | some (oldedge :: _) =>
    let c := if skipISOChecks then (T, (0 : Int)) else rtt_be_ExistsCoincidentNode G T pt
    if c.2 ≠ 0 then (rterror c.1 "SQL/MM Spatial exception - coincident node", none)
    else
      match G.split oldedge.geom pt with
      | none => (rterror c.1 "could not split edge by point ?", none)
      | some split_col =>
        if split_col.length < 2 then
          (rterror c.1 "SQL/MM Spatial exception - point not on edge", none)
        else (c.1, some (oldedge, split_col))

/-- The C function `rtt_ModEdgeSplit`. -/
def rtt_ModEdgeSplit (G : GEOM) (T : RTT_TOPOLOGY) (edge : Int) (pt : POINT2D)
    (skipISOChecks : Bool) : RTT_TOPOLOGY × Int :=
  let s := _rtt_EdgeSplit G T edge pt skipISOChecks
  match s.2 with
  | none => (s.1, -1)
  | some (oldedge, split_col) =>
    let oldedge_geom := split_col.getD 0 []
    let newedge_geom := split_col.getD 1 []
    let node : RTT_ISO_NODE := { node_id := -1, containing_face := -1, geom := pt }
    let n := rtt_be_insertNodes s.1 node
    if n.2.2 = 0 then (rterror n.1 "Backend error", -1)
    else if n.2.1.node_id = -1 then
      (rterror n.1 "Backend coding error: insertNodes callback did not return node_id", -1)
    else
      let node_id := n.2.1.node_id
      let a := rtt_be_getNextEdgeId n.1
      if a.2 = -1 then (rterror a.1 "Backend error", -1)
      else
        let newedge1 : RTT_ISO_EDGE :=
          { edge_id := a.2, start_node := node_id, end_node := oldedge.end_node,
            face_left := oldedge.face_left, face_right := oldedge.face_right,
            next_left := if oldedge.next_left = -oldedge.edge_id then -a.2
                         else oldedge.next_left,
            next_right := -oldedge.edge_id, geom := newedge_geom }
        let i := rtt_be_insertEdges a.1 [newedge1]
        if i.2.2 = -1 then (rterror i.1 "Backend error", -1)
        else if i.2.2 = 0 then (rterror i.1 "Insertion of split edge failed (no reason)", -1)
        else
          let updedge : RTT_ISO_EDGE :=
            { blankEdge with geom := oldedge_geom, next_left := a.2, end_node := node_id }
          let u1 := rtt_be_updateEdges i.1 oldedge [RTT_COL_EDGE.EDGE_ID] updedge
            [RTT_COL_EDGE.GEOM, RTT_COL_EDGE.NEXT_LEFT, RTT_COL_EDGE.END_NODE] blankEdge []
          if u1.2 = -1 then (rterror u1.1 "Backend error", -1)
          else if u1.2 = 0 then
            (rterror u1.1 "Edge being split disappeared during operations?", -1)
          else if u1.2 > 1 then (rterror u1.1 "More than a single edge found with id !", -1)
          else
            let updedge2 : RTT_ISO_EDGE := { updedge with next_right := -a.2 }
            let excedge : RTT_ISO_EDGE := { blankEdge with edge_id := a.2 }
            let seledge2 : RTT_ISO_EDGE :=
              { blankEdge with next_right := -oldedge.edge_id, start_node := oldedge.end_node }
            let u2 := rtt_be_updateEdges u1.1 seledge2
              [RTT_COL_EDGE.NEXT_RIGHT, RTT_COL_EDGE.START_NODE] updedge2
              [RTT_COL_EDGE.NEXT_RIGHT] excedge [RTT_COL_EDGE.EDGE_ID]
            if u2.2 = -1 then (rterror u2.1 "Backend error", -1)
            else
              let updedge3 : RTT_ISO_EDGE := { updedge2 with next_left := -a.2 }
              let seledge3 : RTT_ISO_EDGE :=
                { seledge2 with next_left := -oldedge.edge_id, end_node := oldedge.end_node }
              let u3 := rtt_be_updateEdges u2.1 seledge3
                [RTT_COL_EDGE.NEXT_LEFT, RTT_COL_EDGE.END_NODE] updedge3
                [RTT_COL_EDGE.NEXT_LEFT] excedge [RTT_COL_EDGE.EDGE_ID]
              if u3.2 = -1 then (rterror u3.1 "Backend error", -1)
              else if rtt_be_hook u3.1 BeCall.updateTopoGeomEdgeSplit = 0 then
                (rterror u3.1 "Backend error", -1)
              else (u3.1, node_id)

/-- The C function `rtt_NewEdgesSplit`. -/
def rtt_NewEdgesSplit (G : GEOM) (T : RTT_TOPOLOGY) (edge : Int) (pt : POINT2D)
    (skipISOChecks : Bool) : RTT_TOPOLOGY × Int :=
  let s := _rtt_EdgeSplit G T edge pt skipISOChecks
  match s.2 with
  | none => (s.1, -1)
  | some (oldedge, split_col) =>
    let oldedge_geom := split_col.getD 0 []
    let newedge_geom := split_col.getD 1 []
    let node : RTT_ISO_NODE := { node_id := -1, containing_face := -1, geom := pt }
    let n := rtt_be_insertNodes s.1 node
    if n.2.2 = 0 then (rterror n.1 "Backend error", -1)
    else if n.2.1.node_id = -1 then
      (rterror n.1 "Backend coding error: insertNodes callback did not return node_id", -1)
    else
      let node_id := n.2.1.node_id
      let seledge0 : RTT_ISO_EDGE := { blankEdge with edge_id := edge }
      let d := rtt_be_deleteEdges n.1 seledge0 [RTT_COL_EDGE.EDGE_ID]
      if d.2 = -1 then (rterror d.1 "Backend error", -1)
      else
        let a0 := rtt_be_getNextEdgeId d.1
        if a0.2 = -1 then (rterror a0.1 "Backend error", -1)
        else
          let a1 := rtt_be_getNextEdgeId a0.1
          if a1.2 = -1 then (rterror a1.1 "Backend error", -1)
          else
            let new0 : RTT_ISO_EDGE :=
              { edge_id := a0.2, start_node := oldedge.start_node, end_node := node_id,
                face_left := oldedge.face_left, face_right := oldedge.face_right,
                next_left := a1.2,
                next_right :=
                  if oldedge.next_right = edge then a0.2
                  else if oldedge.next_right = -edge then -a1.2
                  else oldedge.next_right,
                geom := oldedge_geom }
            let new1 : RTT_ISO_EDGE :=
              { edge_id := a1.2, start_node := node_id, end_node := oldedge.end_node,
                face_left := oldedge.face_left, face_right := oldedge.face_right,
                next_right := -a0.2,
                next_left :=
                  if oldedge.next_left = -edge then -a1.2
                  else if oldedge.next_left = edge then a0.2
                  else oldedge.next_left,
                geom := newedge_geom }
            let i := rtt_be_insertEdges a1.1 [new0, new1]
            if i.2.2 = -1 then (rterror i.1 "Backend error", -1)
            else if i.2.2 = 0 then
              (rterror i.1 "Insertion of split edge failed (no reason)", -1)
            else
              let upd1 : RTT_ISO_EDGE := { blankEdge with next_right := a1.2 }
              let sel1 : RTT_ISO_EDGE :=
                { seledge0 with next_right := edge, start_node := oldedge.start_node }
              let u1 := rtt_be_updateEdges i.1 sel1
                [RTT_COL_EDGE.NEXT_RIGHT, RTT_COL_EDGE.START_NODE] upd1
                [RTT_COL_EDGE.NEXT_RIGHT] blankEdge []
              if u1.2 = -1 then (rterror u1.1 "Backend error", -1)
              else
                let upd2 : RTT_ISO_EDGE := { upd1 with next_right := -a0.2 }
                let sel2 : RTT_ISO_EDGE :=
                  { sel1 with next_right := -edge, start_node := oldedge.end_node }
                let u2 := rtt_be_updateEdges u1.1 sel2
                  [RTT_COL_EDGE.NEXT_RIGHT, RTT_COL_EDGE.START_NODE] upd2
                  [RTT_COL_EDGE.NEXT_RIGHT] blankEdge []
                if u2.2 = -1 then (rterror u2.1 "Backend error", -1)
                else
                  let upd3 : RTT_ISO_EDGE := { upd2 with next_left := a0.2 }
                  let sel3 : RTT_ISO_EDGE :=
                    { sel2 with next_left := edge, end_node := oldedge.start_node }
                  let u3 := rtt_be_updateEdges u2.1 sel3
                    [RTT_COL_EDGE.NEXT_LEFT, RTT_COL_EDGE.END_NODE] upd3
                    [RTT_COL_EDGE.NEXT_LEFT] blankEdge []
                  if u3.2 = -1 then (rterror u3.1 "Backend error", -1)
                  else
                    let upd4 : RTT_ISO_EDGE := { upd3 with next_left := -a1.2 }
                    let sel4 : RTT_ISO_EDGE :=
                      { sel3 with next_left := -edge, end_node := oldedge.end_node }
                    let u4 := rtt_be_updateEdges u3.1 sel4
                      [RTT_COL_EDGE.NEXT_LEFT, RTT_COL_EDGE.END_NODE] upd4
                      [RTT_COL_EDGE.NEXT_LEFT] blankEdge []
                    if u4.2 = -1 then (rterror u4.1 "Backend error", -1)
                    else if rtt_be_hook u4.1 BeCall.updateTopoGeomEdgeSplit = 0 then
                      (rterror u4.1 "Backend error", -1)
                    else (u4.1, node_id)

end RTTopo

namespace RTTopo

/-! ## Linkage invariants -/

/-- The signed ids (half-edges) of the stored edges. -/
def signedIds (es : List RTT_ISO_EDGE) : List Int :=
  es.map (fun e => e.edge_id) ++ es.map (fun e => -e.edge_id)

/-- The node a signed edge leaves: `start_node` when positive, `end_node` when negative. -/
def leavesNode (es : List RTT_ISO_EDGE) (h : Int) : Int :=
  match edgeRow es (if 0 < h then h else -h) with
  | some e => if 0 < h then e.start_node else e.end_node
  | none => 0

/-- The node at which a signed edge arrives. -/
def arrivesNode (es : List RTT_ISO_EDGE) (h : Int) : Int :=
  match edgeRow es (if 0 < h then h else -h) with
  | some e => if 0 < h then e.end_node else e.start_node
  | none => 0

/-- Do two rows link consistently? Row-wise form of: `next` is injective, and the successor
of a half-edge leaves the node at which the half-edge arrives. -/
def linkedPair (e f : RTT_ISO_EDGE) : Prop :=
  (e.next_left = f.edge_id → f.start_node = e.end_node) ∧
  (e.next_left = -f.edge_id → f.end_node = e.end_node) ∧
  (e.next_right = f.edge_id → f.start_node = e.start_node) ∧
  (e.next_right = -f.edge_id → f.end_node = e.start_node) ∧
  (e.next_left = f.next_left → e.edge_id = f.edge_id) ∧
  (e.next_right = f.next_right → e.edge_id = f.edge_id) ∧
  e.next_left ≠ f.next_right

instance (e f : RTT_ISO_EDGE) : Decidable (linkedPair e f) := by
  unfold linkedPair; infer_instance

/-- Well-formed linkage of an edge table: ids are positive and unique, every
`next_left`/`next_right` designates a stored edge, and every pair of rows links
consistently. With `next(+e) = next_left(e)` and `next(-e) = next_right(e)` this says that
`next` is a bijection on the signed ids of the stored edges and that `next(h)` leaves the
node at which `h` arrives. -/
def RingLinked (es : List RTT_ISO_EDGE) : Prop :=
  (∀ e ∈ es, 0 < e.edge_id) ∧
  (es.map (fun e => e.edge_id)).Nodup ∧
  (∀ e ∈ es, e.next_left ∈ signedIds es ∧ e.next_right ∈ signedIds es) ∧
  (∀ e ∈ es, ∀ f ∈ es, linkedPair e f)

instance (es : List RTT_ISO_EDGE) : Decidable (RingLinked es) := by
  unfold RingLinked; infer_instance

/-- The linkage as a function on signed ids: `next` maps the set of signed ids of stored
edges bijectively onto itself, and `next(h)` leaves the node at which `h` arrives. -/
def NextBijection (es : List RTT_ISO_EDGE) : Prop :=
  Set.BijOn (nextEdge es) {h | h ∈ signedIds es} {h | h ∈ signedIds es} ∧
  ∀ h ∈ signedIds es, leavesNode es (nextEdge es h) = arrivesNode es h

/-- Walking `next` from any signed edge returns to that signed edge. -/
def RingsClose (es : List RTT_ISO_EDGE) : Prop :=
  ∀ h ∈ signedIds es, ∃ n : Nat, 0 < n ∧ (nextEdge es)^[n] h = h

/-! ## A concrete geometry kernel for worked examples -/

/-- A permissive kernel: every curve is simple, nothing crosses, a split returns the part
up to the point and the part from the point on. -/
def testKernel : GEOM :=
  { is_simple := fun _ => true
    geos_line := fun _ => true
    line_contains := fun _ _ => 0
    relate := fun _ _ => some "FF1FF0102".toList
    bbox := fun _ => { xmin := 0, xmax := 0, ymin := 0, ymax := 0 }
    pt_in_box := fun _ _ => true
    line_in_box := fun _ _ => true
    box_in_box := fun _ _ => true
    pt_dwithin := fun p q _ => decide (p = q)
    line_dwithin := fun l p _ => decide (p ∈ l)
    face_containing := fun _ _ => -1
    split := fun l p => some [l.take 1 ++ [p], p :: l.drop 1]
    azimuth := fun p q => if p = q then none else some ((q.x - p.x) % 360)
    two_pi := 360
    isccw := fun _ => true
    shell_contains := fun _ _ => 0
    geos_shell := fun _ => true
    gbox_merge := fun a _ => a
    face_bbox := fun _ => some { xmin := 0, xmax := 0, ymin := 0, ymax := 0 }
    motion_area := fun _ _ => true
    motion_contains := fun _ _ _ => 0
    midpoint := fun fp lp =>
      { x := fp.x + (lp.x - fp.x) / 2, y := fp.y + (lp.y - fp.y) / 2 } }

/-- The empty topology: no rows, sequences starting at one, no failing callback. -/
def emptyTopology : RTT_TOPOLOGY :=
  { nodes := [], edges := [], faces := [], node_seq := 1, edge_seq := 1, face_seq := 1,
    precision := 0, failing := [], events := [], errors := [] }

end RTTopo

namespace RTTopo

/-! ## Edge tables produced by the editors -/

/-- What the three `updateEdges` requests of `rtt_ModEdgeSplit` do to one row, for the
split row `old`, new edge id `k`, new node id `m` and first half-line `g0`. -/
def modEdgeSplitRow (old : RTT_ISO_EDGE) (k m : Int) (g0 : RTLINE) (e : RTT_ISO_EDGE) :
    RTT_ISO_EDGE :=
  updateEdgeRow
    { blankEdge with next_right := -old.edge_id, start_node := old.end_node,
                     next_left := -old.edge_id, end_node := old.end_node }
    [RTT_COL_EDGE.NEXT_LEFT, RTT_COL_EDGE.END_NODE]
    { blankEdge with geom := g0, next_left := -k, end_node := m, next_right := -k }
    [RTT_COL_EDGE.NEXT_LEFT] { blankEdge with edge_id := k } [RTT_COL_EDGE.EDGE_ID]
    (updateEdgeRow
      { blankEdge with next_right := -old.edge_id, start_node := old.end_node }
      [RTT_COL_EDGE.NEXT_RIGHT, RTT_COL_EDGE.START_NODE]
      { blankEdge with geom := g0, next_left := k, end_node := m, next_right := -k }
      [RTT_COL_EDGE.NEXT_RIGHT] { blankEdge with edge_id := k } [RTT_COL_EDGE.EDGE_ID]
      (updateEdgeRow old [RTT_COL_EDGE.EDGE_ID]
        { blankEdge with geom := g0, next_left := k, end_node := m }
        [RTT_COL_EDGE.GEOM, RTT_COL_EDGE.NEXT_LEFT, RTT_COL_EDGE.END_NODE] blankEdge [] e))

/-- The row `rtt_ModEdgeSplit` inserts for the second half of the split edge. -/
def modEdgeSplitNew (old : RTT_ISO_EDGE) (k m : Int) (g1 : RTLINE) : RTT_ISO_EDGE :=
  { edge_id := k, start_node := m, end_node := old.end_node,
    face_left := old.face_left, face_right := old.face_right,
    next_left := if old.next_left = -old.edge_id then -k else old.next_left,
    next_right := -old.edge_id, geom := g1 }

/-- The edge table after a successful `rtt_ModEdgeSplit` of the row `old` with new edge id
`k`, new node id `m` and the two half-lines `g0`, `g1`: the insertion of the new edge
followed by the three `updateEdges` requests of the C function. -/
def modEdgeSplitEdges (es : List RTT_ISO_EDGE) (old : RTT_ISO_EDGE) (k m : Int)
    (g0 g1 : RTLINE) : List RTT_ISO_EDGE :=
  (es ++ [modEdgeSplitNew old k m g1]).map (modEdgeSplitRow old k m g0)

end RTTopo

namespace RTTopo

/-! ## Worked states -/

/-- Two isolated nodes in the universe face. -/
def topoTwoNodes : RTT_TOPOLOGY :=
  { emptyTopology with
    nodes := [ { node_id := 1, containing_face := 0, geom := { x := 0, y := 0 } },
               { node_id := 2, containing_face := 0, geom := { x := 10, y := 0 } } ]
    node_seq := 3 }

/-- One isolated edge `1` from node `1` to node `2` (seed scenario 2). -/
def topoOneEdge : RTT_TOPOLOGY :=
  { emptyTopology with
    nodes := [ { node_id := 1, containing_face := -1, geom := { x := 0, y := 0 } },
               { node_id := 2, containing_face := -1, geom := { x := 10, y := 0 } } ]
    edges := [ { edge_id := 1, start_node := 1, end_node := 2, face_left := 0, face_right := 0,
                 next_left := -1, next_right := 1,
                 geom := [{ x := 0, y := 0 }, { x := 10, y := 0 }] } ]
    node_seq := 3, edge_seq := 2 }

/-- Two edges leaving node `2`: edge `1` to node `1` and edge `2` to node `3`. -/
def topoTwoSpokes : RTT_TOPOLOGY :=
  { emptyTopology with
    nodes := [ { node_id := 1, containing_face := -1, geom := { x := 0, y := 0 } },
               { node_id := 2, containing_face := -1, geom := { x := 10, y := 0 } },
               { node_id := 3, containing_face := -1, geom := { x := 20, y := 0 } } ]
    edges := [ { edge_id := 1, start_node := 2, end_node := 1, face_left := 0, face_right := 0,
                 next_left := -1, next_right := 2,
                 geom := [{ x := 10, y := 0 }, { x := 0, y := 0 }] },
               { edge_id := 2, start_node := 2, end_node := 3, face_left := 0, face_right := 0,
                 next_left := -2, next_right := 1,
                 geom := [{ x := 10, y := 0 }, { x := 20, y := 0 }] } ]
    node_seq := 4, edge_seq := 3 }

end RTTopo

namespace RTTopo

/-! ## Point-array helpers, `_rtt_FindAdjacentEdges`, `_rtt_AddFaceSplit` -/

/-- Modelled from the spec: `rtgeom_remove_repeated_points(g, 0)` of the geometry library
(not in the sources at hand): consecutive equal vertices are collapsed, so that the two
vertices nearest to an end point are distinct. -/
def rtgeom_remove_repeated_points : POINTARRAY → POINTARRAY
  | [] => []
  | p :: rest =>
    match rtgeom_remove_repeated_points rest with
    | [] => [p]
    | q :: tl => if p = q then q :: tl else p :: q :: tl

/-- Modelled from the spec: `ptarray_append_ptarray(pa1, pa2, 0)` of the geometry library
(not in the sources at hand): the combined polyline; a first vertex of `pa2` equal to the
last vertex of `pa1` is not repeated, and with a gap between the two the call fails and
leaves `pa1` as it is. -/
def ptarray_append_ptarray (pa1 pa2 : POINTARRAY) : POINTARRAY :=
  match pa2 with
  | [] => pa1
  | q :: tl =>
    match pa1.getLast? with
    | none => pa2
    | some p => if p = q then pa1 ++ tl else pa1

/-- Vertex `i` of a point array (`getPoint2d_p`). -/
def getPoint2d_p (pa : POINTARRAY) (i : Nat) : POINT2D :=
  pa.getD i { x := 0, y := 0 }

/-- The C struct `edgeend`, the data gathered for one end of an edge. -/
structure edgeend where
  nextCW : Int
  cwFace : Int
  nextCCW : Int
  ccwFace : Int
  was_isolated : Int
  myaz : Int
deriving DecidableEq, Repr

/-- An `edgeend` with nothing known but its azimuth. -/
def edgeendOfAzimuth (az : Int) : edgeend :=
  { nextCW := 0, cwFace := -1, nextCCW := 0, ccwFace := -1, was_isolated := 0, myaz := az }

/-- Running state of the incident-edge loop of `_rtt_FindAdjacentEdges`. -/
structure AdjScan where
  data : edgeend
  minaz : Int
  maxaz : Int
deriving DecidableEq, Repr

/-- Loop body of `_rtt_FindAdjacentEdges` for an edge end with signed id `sid` whose
clockwise-side face is `cw` and counterclockwise-side face is `ccw`. -/
def adjUpdate (sid cw ccw azdif : Int) (s : AdjScan) : AdjScan :=
  if s.minaz = -1 then
    { data := { s.data with nextCW := sid, nextCCW := sid, cwFace := cw, ccwFace := ccw },
      minaz := azdif, maxaz := azdif }
  else if azdif < s.minaz then
    { s with data := { s.data with nextCW := sid, cwFace := cw }, minaz := azdif }
  else if azdif > s.maxaz then
    { s with data := { s.data with nextCCW := sid, ccwFace := ccw }, maxaz := azdif }
  else s

/-- Normalised azimuth difference (`if ( azdif < 0 ) azdif += 2 * M_PI`). -/
def azimuthDiff (G : GEOM) (az myaz : Int) : Int :=
  if az - myaz < 0 then az - myaz + G.two_pi else az - myaz

/-- Loop body of `_rtt_FindAdjacentEdges` for the first end of `edge` (cleaned vertices
`pa`), taken when the edge starts on `node`. -/
def findAdjacentStart (G : GEOM) (node : Int) (edge : RTT_ISO_EDGE) (pa : POINTARRAY)
    (s : AdjScan) : AdjScan × Option String :=
  if edge.start_node = node then
    match G.azimuth (getPoint2d_p pa 0) (getPoint2d_p pa 1) with
    | none => (s, some "error computing azimuth of edge first edgeend")
    | some az =>
      (adjUpdate edge.edge_id edge.face_left edge.face_right
        (azimuthDiff G az s.data.myaz) s, none)
  else (s, none)

/-- Loop body of `_rtt_FindAdjacentEdges` for the last end of `edge`, taken when the
edge ends on `node`. -/
def findAdjacentEnd (G : GEOM) (node : Int) (edge : RTT_ISO_EDGE) (pa : POINTARRAY)
    (s : AdjScan) : AdjScan × Option String :=
  if edge.end_node = node then
    match G.azimuth (getPoint2d_p pa (pa.length - 1)) (getPoint2d_p pa (pa.length - 2)) with
    | none => (s, some "error computing azimuth of edge last edgeend")
    | some az =>
      (adjUpdate (-edge.edge_id) edge.face_right edge.face_left
        (azimuthDiff G az s.data.myaz) s, none)
  else (s, none)

/-- The loop of `_rtt_FindAdjacentEdges` over the incident edges. Stops with a message at
the first corrupted edge, keeping what the scan has written so far. -/
def findAdjacentLoop (G : GEOM) (node myedge_id : Int) :
    List RTT_ISO_EDGE → AdjScan → AdjScan × Option String
  | [], s => (s, none)
  | edge :: rest, s =>
    if edge.edge_id = myedge_id then findAdjacentLoop G node myedge_id rest s
    else if (rtgeom_remove_repeated_points edge.geom).length < 2 then
      (s, some "corrupted topology: edge does not have two distinct points")
    else
      match findAdjacentStart G node edge (rtgeom_remove_repeated_points edge.geom) s with
      | (s1, some msg) => (s1, some msg)
      | (s1, none) =>
        match findAdjacentEnd G node edge (rtgeom_remove_repeated_points edge.geom) s1 with
        | (s2, some msg) => (s2, some msg)
        | (s2, none) => findAdjacentLoop G node myedge_id rest s2

/-- Start value of `minaz` and `maxaz` in `_rtt_FindAdjacentEdges`: the azimuth of the
other end of the same edge seen from this end, or the sentinel `-1`. -/
def adjInitialAz (G : GEOM) (data : edgeend) (other : Option edgeend) : Int :=
  match other with
  | some o => azimuthDiff G o.myaz data.myaz
  | none => -1

/-- The C function `_rtt_FindAdjacentEdges`: the first edges met going clockwise and
counterclockwise around `node` from the azimuth `data.myaz`. Returns the state, the
filled-in `data` and the number of incident edges (`0` on a back-end error, `-1` on a
corrupted topology). The parameter `myedge_id` is an `int` in C; the model agrees with it
when the edge identifiers fit `int`. -/
def _rtt_FindAdjacentEdges (G : GEOM) (T : RTT_TOPOLOGY) (node : Int) (data : edgeend)
    (other : Option edgeend) (myedge_id : Int) : RTT_TOPOLOGY × edgeend × Int :=
  let data0 : edgeend := { data with nextCW := 0, nextCCW := 0, cwFace := -1, ccwFace := -1 }
  let az0 : Int := adjInitialAz G data other
  match rtt_be_getEdgeByNode T [node] with
  | none => (rterror T "Backend error", data0, 0)
  | some edges =>
    let r := findAdjacentLoop G node myedge_id edges { data := data0, minaz := az0, maxaz := az0 }
    match r.2 with
    | some msg => (rterror T msg, r.1.data, -1)
    | none =>
      if myedge_id < 1 ∧ edges.length ≠ 0 ∧ r.1.data.cwFace ≠ r.1.data.ccwFace ∧
          r.1.data.cwFace ≠ -1 ∧ r.1.data.ccwFace ≠ -1 then
        (rterror T "Corrupted topology: adjacent edges bind different face", r.1.data, -1)
      else (T, r.1.data, (edges.length : Int))

/-- The C function `_rtt_GetInteriorEdgePoint`: a vertex other than the two end points,
or else the point the kernel interpolates half way between the end points when these
differ. -/
def _rtt_GetInteriorEdgePoint (G : GEOM) (edge : RTLINE) : Option POINT2D :=
  if edge.length < 2 then none
  else
    let fp := getPoint2d_p edge 0
    let lp := getPoint2d_p edge (edge.length - 1)
    match ((edge.drop 1).dropLast).find? (fun tp => !decide (tp = fp) && !decide (tp = lp)) with
    | some tp => some tp
    | none =>
      if fp = lp then none
      else some (G.midpoint fp lp)

/-- Absolute value of a signed edge id (`llabs`). -/
def llabs (x : Int) : Int := if x < 0 then -x else x

/-- Ids of the ring without repetition, in order of first appearance. The C loop keeps
the absolute value in an `int` (`absid`); the model agrees with it when the edge
identifiers fit `int`. -/
def ringEdgeIds : List Int → List Int → List Int
  | [], acc => acc
  | s :: rest, acc =>
    if llabs s ∈ acc then ringEdgeIds rest acc else ringEdgeIds rest (acc ++ [llabs s])

/-- The point sequence of the ring: the edge geometries in walking order, reversed for the
signed ids that are negative. `none` when a ring edge is missing from `ring_edges`. -/
def ringPoints (ring_edges : List RTT_ISO_EDGE) :
    List Int → Option POINTARRAY → Option POINTARRAY
  | [], pa => pa
  | eid :: rest, pa =>
    match edgeRow ring_edges (llabs eid) with
    | none => none
    | some edge =>
      let epa := if eid < 0 then edge.geom.reverse else edge.geom
      match pa with
      | none => ringPoints ring_edges rest (some epa)
      | some p => ringPoints ring_edges rest (some (ptarray_append_ptarray p epa))

/-- What the edge loop of `_rtt_AddFaceSplit` collects: rows whose `face_left` and rows
whose `face_right` become the new face. -/
structure FaceSplitScan where
  forward_edges : List RTT_ISO_EDGE
  backward_edges : List RTT_ISO_EDGE
deriving DecidableEq, Repr

/-- Inner loop (2.1) of `_rtt_AddFaceSplit`: look for edge `e` among the signed ids of
the ring, at most two hits. The C loop keeps the signed id in an `int` (`seid`); the model
agrees with it when the edge identifiers fit `int`. -/
def ringHits (e : RTT_ISO_EDGE) (newface_id : Int) :
    List Int → Nat → FaceSplitScan → Nat × FaceSplitScan
  | [], found, s => (found, s)
  | seid :: rest, found, s =>
    if seid = e.edge_id then
      let s1 := { s with forward_edges :=
        s.forward_edges ++ [{ blankEdge with edge_id := e.edge_id, face_left := newface_id }] }
      if found + 1 = 2 then (found + 1, s1) else ringHits e newface_id rest (found + 1) s1
    else if -seid = e.edge_id then
      let s1 := { s with backward_edges :=
        s.backward_edges ++ [{ blankEdge with edge_id := e.edge_id, face_right := newface_id }] }
      if found + 1 = 2 then (found + 1, s1) else ringHits e newface_id rest (found + 1) s1
    else ringHits e newface_id rest found s

/-- Loop (2) of `_rtt_AddFaceSplit` over the edges bounding the old face. -/
def faceSplitEdges (G : GEOM) (shell : POINTARRAY) (signed_edge_ids : List Int)
    (face newface_id : Int) (newface_outside : Bool) :
    List RTT_ISO_EDGE → FaceSplitScan → Except String FaceSplitScan
  | [], s => .ok s
  | e :: rest, s =>
    let h := ringHits e newface_id signed_edge_ids 0 s
    if h.1 ≠ 0 then
      faceSplitEdges G shell signed_edge_ids face newface_id newface_outside rest h.2
    else
      match _rtt_GetInteriorEdgePoint G e.geom with
      | none => .error "Could not find interior point for edge"
      | some ep =>
        let contains := G.shell_contains shell ep
        if contains = 2 then .error "GEOS exception on PreparedContains"
        else if newface_outside = true ∧ contains ≠ 0 then
          faceSplitEdges G shell signed_edge_ids face newface_id newface_outside rest s
        else if newface_outside = false ∧ contains = 0 then
          faceSplitEdges G shell signed_edge_ids face newface_id newface_outside rest s
        else
          let s1 : FaceSplitScan :=
            if e.face_left = face then
              { s with forward_edges := s.forward_edges ++
                  [{ blankEdge with edge_id := e.edge_id, face_left := newface_id }] }
            else s
          let s2 : FaceSplitScan :=
            if e.face_right = face then
              { s1 with backward_edges := s1.backward_edges ++
                  [{ blankEdge with edge_id := e.edge_id, face_right := newface_id }] }
            else s1
          faceSplitEdges G shell signed_edge_ids face newface_id newface_outside rest s2

/-- Node loop of `_rtt_AddFaceSplit`: the isolated nodes that move to the new face. -/
def faceSplitNodes (G : GEOM) (shell : POINTARRAY) (newface_id : Int)
    (newface_outside : Bool) :
    List RTT_ISO_NODE → List RTT_ISO_NODE → Except String (List RTT_ISO_NODE)
  | [], acc => .ok acc
  | n :: rest, acc =>
    let contains := G.shell_contains shell n.geom
    if contains = 2 then .error "GEOS exception on PreparedContains"
    else if newface_outside = true ∧ contains ≠ 0 then
      faceSplitNodes G shell newface_id newface_outside rest acc
    else if newface_outside = false ∧ contains = 0 then
      faceSplitNodes G shell newface_id newface_outside rest acc
    else
      faceSplitNodes G shell newface_id newface_outside rest
        (acc ++ [{ blankNode with node_id := n.node_id, containing_face := newface_id }])

/-- Last part of `_rtt_AddFaceSplit`: move the isolated nodes that lie in the new face. -/
def addFaceSplitNodes (G : GEOM) (T : RTT_TOPOLOGY) (shell : POINTARRAY) (face : Int)
    (newface : RTT_ISO_FACE) (newface_outside : Bool) : RTT_TOPOLOGY × Int :=
  match rtt_be_getNodeByFace G T [face] newface.mbr with
  | none => (rterror T "Backend error", -2)
  | some nodes =>
    if nodes.length = 0 then (T, newface.face_id)
    else
      match faceSplitNodes G shell newface.face_id newface_outside nodes [] with
      | .error msg => (rterror T msg, -2)
      | .ok updated_nodes =>
        if updated_nodes.length = 0 then (T, newface.face_id)
        else
          let u := rtt_be_updateNodesById T updated_nodes [RTT_COL_NODE.CONTAINING_FACE]
          if u.2 = -1 then (rterror u.1 "Backend error", -2)
          else (u.1, newface.face_id)

/-- Middle part of `_rtt_AddFaceSplit`: rebind the sides of the edges of the old face. -/
def addFaceSplitEdges (G : GEOM) (T : RTT_TOPOLOGY) (shell : POINTARRAY)
    (signed_edge_ids : List Int) (face : Int) (newface : RTT_ISO_FACE)
    (newface_outside : Bool) : RTT_TOPOLOGY × Int :=
  match rtt_be_getEdgeByFace G T [face] newface.mbr with
  | none => (rterror T "Backend error", -2)
  | some edges =>
    if !G.geos_shell shell then (rterror T "Could not convert shell geometry to GEOS", -2)
    else if edges.length = 0 then addFaceSplitNodes G T shell face newface newface_outside
    else
      match faceSplitEdges G shell signed_edge_ids face newface.face_id newface_outside edges
          { forward_edges := [], backward_edges := [] } with
      | .error msg => (rterror T msg, -2)
      | .ok scan =>
        let f :=
          if scan.forward_edges.length = 0 then (T, (0 : Int))
          else rtt_be_updateEdgesById T scan.forward_edges [RTT_COL_EDGE.FACE_LEFT]
        if scan.forward_edges.length ≠ 0 ∧ f.2 = -1 then (rterror f.1 "Backend error", -2)
        else if scan.forward_edges.length ≠ 0 ∧ f.2 ≠ (scan.forward_edges.length : Int) then
          (rterror f.1 "Unexpected error: edges updated when expecting another number", -2)
        else
          let b :=
            if scan.backward_edges.length = 0 then (f.1, (0 : Int))
            else rtt_be_updateEdgesById f.1 scan.backward_edges [RTT_COL_EDGE.FACE_RIGHT]
          if scan.backward_edges.length ≠ 0 ∧ b.2 = -1 then (rterror b.1 "Backend error", -2)
          else if scan.backward_edges.length ≠ 0 ∧
              b.2 ≠ (scan.backward_edges.length : Int) then
            (rterror b.1 "Unexpected error: edges updated when expecting another number", -2)
          else addFaceSplitNodes G b.1 shell face newface newface_outside

/-- First part of `_rtt_AddFaceSplit`: the ring of `sedge` and its point sequence.
`.ok none` when the ring also holds `-sedge` (the edge does not split a face), a message
on a back-end error or an inconsistent answer. -/
def addFaceSplitRing (T : RTT_TOPOLOGY) (sedge : Int) :
    Except String (Option (List Int × POINTARRAY)) :=
  match rtt_be_getRingEdges T sedge with
  | none => .error "Backend error (no ring edges for edge)"
  | some signed_edge_ids =>
    if -sedge ∈ signed_edge_ids then .ok none
    else
      match rtt_be_getEdgeById T (ringEdgeIds signed_edge_ids []) with
      | none => .error "Backend error"
      | some ring_edges =>
        if ring_edges.length ≠ (ringEdgeIds signed_edge_ids []).length then
          .error "Unexpected error: edges found when expecting another number"
        else
          match ringPoints ring_edges signed_edge_ids none with
          | none => .error "missing edge that was found in ring edges loop"
          | some pa => .ok (some (signed_edge_ids, pa))

/-- The `mbr_only` branch of `_rtt_AddFaceSplit`: for a counterclockwise ring, store the
box of the ring as MBR of `face`; the answer is `-1` unless the back end fails. -/
def addFaceSplitMbr (G : GEOM) (T : RTT_TOPOLOGY) (face : Int) (pa : POINTARRAY) :
    RTT_TOPOLOGY × Int :=
  if G.isccw pa = true then
    let u := rtt_be_updateFacesById T [{ face_id := face, mbr := some (G.bbox pa) }]
    if u.2 = -1 then (rterror u.1 "Backend error", -2)
    else if u.2 ≠ 1 then (rterror u.1 "Unexpected error: faces found when expecting 1", -2)
    else (u.1, -1)
  else (T, -1)

/-- The part of `_rtt_AddFaceSplit` that creates the new face: for a clockwise ring in a
real face (a hole, `hole = true`) the new face takes the MBR of the old one and lies
outside the ring; otherwise it takes the box of the ring. -/
def addFaceSplitNew (G : GEOM) (T : RTT_TOPOLOGY) (face : Int) (signed_edge_ids : List Int)
    (pa : POINTARRAY) (hole : Bool) : RTT_TOPOLOGY × Int :=
  match (if hole then rtt_be_getFaceById T [face] else some []) with
  | none => (rterror T "Backend error", -2)
  | some ofs =>
    if hole = true ∧ ofs.length ≠ 1 then
      (rterror T "Unexpected error: faces found when expecting 1", -2)
    else
      let i := rtt_be_insertFaces T
        { face_id := -1,
          mbr := if hole then (ofs.head?.bind (fun f => f.mbr)) else some (G.bbox pa) }
      if i.2.2 = -1 then (rterror i.1 "Backend error", -2)
      else if i.2.2 ≠ 1 then
        (rterror i.1 "Unexpected error: faces inserted when expecting 1", -2)
      else
        addFaceSplitEdges G i.1 pa signed_edge_ids face
          (if hole then { i.2.1 with mbr := none } else i.2.1) hole

/-- The C function `_rtt_AddFaceSplit`: add a split face by walking on the edge side.
Returns `0` if the edge does not form a ring, `-1` if no face can be created on the
requested side or only the MBR was requested, `-2` on error, else the id of the new face. -/
def _rtt_AddFaceSplit (G : GEOM) (T : RTT_TOPOLOGY) (sedge face : Int) (mbr_only : Bool) :
    RTT_TOPOLOGY × Int :=
  match addFaceSplitRing T sedge with
  | .error msg => (rterror T msg, -2)
  | .ok none => (T, 0)
  | .ok (some ring) =>
    if face = 0 ∧ G.isccw ring.2 = false then (T, -1)
    else if mbr_only = true ∧ face ≠ 0 then addFaceSplitMbr G T face ring.2
    else addFaceSplitNew G T face ring.1 ring.2 (decide (face ≠ 0 ∧ G.isccw ring.2 = false))

end RTTopo

namespace RTTopo

/-! ## `_rtt_AddEdge`, `rtt_AddEdgeModFace`, `rtt_AddEdgeNewFaces` -/

/-- What the endpoint loop of `_rtt_AddEdge` collects: the face of the new edge
(`face_left` and `face_right` are written together there) and the two node geometries. -/
structure EndpointScan where
  face : Int
  start_node_geom : Option POINT2D
  end_node_geom : Option POINT2D
deriving DecidableEq, Repr

/-- Endpoint loop of `_rtt_AddEdge`. End nodes in different faces raise `rterror`, after
which the loop goes on. -/
def addEdgeEndpoints (start_node end_node : Int) :
    List RTT_ISO_NODE → RTT_TOPOLOGY × EndpointScan → RTT_TOPOLOGY × EndpointScan
  | [], s => s
  | node :: rest, s =>
    let s1 : RTT_TOPOLOGY × EndpointScan :=
      if node.containing_face ≠ -1 then
        if s.2.face = -1 then (s.1, { s.2 with face := node.containing_face })
        else if s.2.face ≠ node.containing_face then
          (rterror s.1 "SQL/MM Spatial exception - geometry crosses an edge", s.2)
        else s
      else s
    let s2 : EndpointScan :=
      if node.node_id = start_node then { s1.2 with start_node_geom := some node.geom }
      else s1.2
    let s3 : EndpointScan :=
      if node.node_id = end_node then { s2 with end_node_geom := some node.geom } else s2
    addEdgeEndpoints start_node end_node rest (s1.1, s3)

/-- The checks `_rtt_AddEdge` makes on the end nodes unless `skipChecks` is set; a message
when one fails. -/
def addEdgeNodeChecks (s : EndpointScan) (p1 p2 : POINT2D) : Option String :=
  match s.start_node_geom with
  | none => some "SQL/MM Spatial exception - non-existent node"
  | some pn =>
    if pn ≠ p1 then some "SQL/MM Spatial exception - start node not geometry start point."
    else
      match s.end_node_geom with
      | none => some "SQL/MM Spatial exception - non-existent node"
      | some pm =>
        if pm ≠ p2 then some "SQL/MM Spatial exception - end node not geometry end point."
        else none

/-- The request of `_rtt_AddEdge` that makes `target` the successor of the signed edge
`prev`: `next_left` of edge `prev` when positive, `next_right` of edge `-prev` otherwise. -/
def addEdgeLinkPrev (T : RTT_TOPOLOGY) (prev target : Int) : RTT_TOPOLOGY × Int :=
  if prev > 0 then
    rtt_be_updateEdges T { blankEdge with edge_id := prev } [RTT_COL_EDGE.EDGE_ID]
      { blankEdge with next_left := target } [RTT_COL_EDGE.NEXT_LEFT] blankEdge []
  else
    rtt_be_updateEdges T { blankEdge with edge_id := -prev } [RTT_COL_EDGE.EDGE_ID]
      { blankEdge with next_right := target } [RTT_COL_EDGE.NEXT_RIGHT] blankEdge []

/-- The request of `_rtt_AddEdge` that clears `containing_face` of node `id`. -/
def addEdgeClearNode (T : RTT_TOPOLOGY) (id : Int) : RTT_TOPOLOGY × Int :=
  rtt_be_updateNodes T { blankNode with node_id := id } [RTT_COL_NODE.NODE_ID]
    { blankNode with containing_face := -1 } [RTT_COL_NODE.CONTAINING_FACE] blankNode []

/-- Tail of `_rtt_AddEdge` after the face-split analysis: tell the back end about the
split and, for `AddEdgeNewFaces`, drop the old face. -/
def addEdgeFinish (T : RTT_TOPOLOGY) (newedge : RTT_ISO_EDGE) (modFace : Bool) :
    RTT_TOPOLOGY × Int :=
  if newedge.face_left ≠ 0 then
    if rtt_be_hook T BeCall.updateTopoGeomFaceSplit = 0 then (rterror T "Backend error", -1)
    else if modFace = false then
      let d := rtt_be_deleteFacesById T [newedge.face_left]
      if d.2 = -1 then (rterror d.1 "Backend error", -1)
      else (d.1, newedge.edge_id)
    else (T, newedge.edge_id)
  else (T, newedge.edge_id)

/-- Face-split analysis of `_rtt_AddEdge` for the inserted and linked row `newedge`. The C
function keeps the answers of `_rtt_AddFaceSplit` in `int` variables (`newface1`,
`newface`); the model keeps the answer, which is the value of the C variable when the
face identifiers fit `int`. -/
def addEdgeFaceSplit (G : GEOM) (T : RTT_TOPOLOGY) (newedge : RTT_ISO_EDGE)
    (modFace : Bool) : RTT_TOPOLOGY × Int :=
  if modFace = false then
    let r1 := _rtt_AddFaceSplit G T (-newedge.edge_id) newedge.face_left false
    if r1.2 = 0 then (r1.1, newedge.edge_id)
    else
      let r := _rtt_AddFaceSplit G r1.1 newedge.edge_id newedge.face_left false
      addEdgeFinish r.1 newedge modFace
  else
    let r := _rtt_AddFaceSplit G T newedge.edge_id newedge.face_left false
    if r.2 = 0 then (r.1, newedge.edge_id)
    else if r.2 < 0 then
      let r2 := _rtt_AddFaceSplit G r.1 (-newedge.edge_id) newedge.face_left false
      if r2.2 < 0 then (r2.1, newedge.edge_id)
      else addEdgeFinish r2.1 newedge modFace
    else
      let r2 := _rtt_AddFaceSplit G r.1 (-newedge.edge_id) newedge.face_left true
      addEdgeFinish r2.1 newedge modFace

/-- Insertion and linking part of `_rtt_AddEdge`: insert the row, make it the successor of
`prev_left` and its reverse the successor of `prev_right`, clear `containing_face` of the
end nodes that were isolated, then run the face-split analysis. `prev_left` and
`prev_right` are the values of the C `int` variables when the identifiers fit `int`. -/
def addEdgeInsert (G : GEOM) (T : RTT_TOPOLOGY) (newedge : RTT_ISO_EDGE)
    (prev_left prev_right : Int) (span epan : edgeend) (modFace : Bool) :
    RTT_TOPOLOGY × Int :=
  let i := rtt_be_insertEdges T [newedge]
  if i.2.2 = -1 then (rterror i.1 "Backend error", -1)
  else if i.2.2 = 0 then (rterror i.1 "Insertion of split edge failed (no reason)", -1)
  else
    let u1 := if llabs prev_left ≠ newedge.edge_id
      then addEdgeLinkPrev i.1 prev_left newedge.edge_id else (i.1, (0 : Int))
    if llabs prev_left ≠ newedge.edge_id ∧ u1.2 = -1 then (rterror u1.1 "Backend error", -1)
    else
      let u2 := if llabs prev_right ≠ newedge.edge_id
        then addEdgeLinkPrev u1.1 prev_right (-newedge.edge_id) else (u1.1, (0 : Int))
      if llabs prev_right ≠ newedge.edge_id ∧ u2.2 = -1 then
        (rterror u2.1 "Backend error", -1)
      else
        let n1 := if span.was_isolated ≠ 0
          then addEdgeClearNode u2.1 newedge.start_node else (u2.1, (0 : Int))
        if span.was_isolated ≠ 0 ∧ n1.2 = -1 then (rterror n1.1 "Backend error", -1)
        else
          let n2 := if epan.was_isolated ≠ 0
            then addEdgeClearNode n1.1 newedge.end_node else (n1.1, (0 : Int))
          if epan.was_isolated ≠ 0 ∧ n2.2 = -1 then (rterror n2.1 "Backend error", -1)
          else addEdgeFaceSplit G n2.1 newedge modFace

/-- Second half of the adjacency part of `_rtt_AddEdge`: with the analysis of the start
node done (`span`, `found`) and `next_right`, `prev_left` and the faces derived from it,
analyse the end node, derive `next_left` and `prev_right`, check the faces, then insert
and link the row. The C function keeps `prev_right` in an `int`; the model keeps the
signed identifier, which is the value of the C variable when the identifiers fit `int`. -/
def addEdgeLinkEnd (G : GEOM) (T : RTT_TOPOLOGY) (newedge : RTT_ISO_EDGE)
    (prev_left : Int) (span epan : edgeend) (modFace : Bool) : RTT_TOPOLOGY × Int :=
  let b := _rtt_FindAdjacentEdges G T newedge.end_node epan
    (if newedge.start_node = newedge.end_node then some span else none) (-1)
  let next_left : Int :=
    if b.2.2 ≠ 0 then (if b.2.1.nextCW ≠ 0 then b.2.1.nextCW else newedge.edge_id)
    else (if newedge.start_node = newedge.end_node then newedge.edge_id
          else -newedge.edge_id)
  let prev_right : Int :=
    if b.2.2 ≠ 0 then (if b.2.1.nextCCW ≠ 0 then -b.2.1.nextCCW else -newedge.edge_id)
    else (if newedge.start_node = newedge.end_node then -newedge.edge_id
          else newedge.edge_id)
  let face_right : Int :=
    if b.2.2 ≠ 0 ∧ newedge.face_right = -1 then span.ccwFace else newedge.face_right
  let face_left : Int :=
    if b.2.2 ≠ 0 ∧ newedge.face_left = -1 then span.cwFace else newedge.face_left
  if face_left ≠ face_right then
    (rterror b.1 "Left/right faces mismatch: invalid topology ?", -1)
  else if face_left = -1 then
    (rterror b.1 "Could not derive edge face from linked primitives: invalid topology ?", -1)
  else
    addEdgeInsert G b.1
      { newedge with next_left := next_left, face_left := face_left,
                     face_right := face_right }
      prev_left prev_right span
      { b.2.1 with was_isolated := if b.2.2 ≠ 0 then 0 else 1 } modFace

/-- Adjacency part of `_rtt_AddEdge`: analyse the start node, derive `next_right`,
`prev_left` and the faces from it, then go on with the end node. `newedge` carries the id,
the end nodes, the geometry and the face found on the end nodes. The C function keeps
`prev_left` in an `int`; the model keeps the signed identifier, which is the value of the
C variable when the identifiers fit `int`. -/
def addEdgeLink (G : GEOM) (T : RTT_TOPOLOGY) (newedge : RTT_ISO_EDGE)
    (span epan : edgeend) (modFace : Bool) : RTT_TOPOLOGY × Int :=
  let a := _rtt_FindAdjacentEdges G T newedge.start_node span
    (if newedge.start_node = newedge.end_node then some epan else none) (-1)
  addEdgeLinkEnd G a.1
    { newedge with
      next_right :=
        if a.2.2 ≠ 0 then (if a.2.1.nextCW ≠ 0 then a.2.1.nextCW else -newedge.edge_id)
        else (if newedge.start_node = newedge.end_node then -newedge.edge_id
              else newedge.edge_id)
      face_right :=
        if a.2.2 ≠ 0 ∧ newedge.face_right = -1 then a.2.1.cwFace else newedge.face_right
      face_left :=
        if a.2.2 ≠ 0 ∧ newedge.face_left = -1 then a.2.1.ccwFace else newedge.face_left }
    (if a.2.2 ≠ 0 then (if a.2.1.nextCCW ≠ 0 then -a.2.1.nextCCW else newedge.edge_id)
     else (if newedge.start_node = newedge.end_node then newedge.edge_id
           else -newedge.edge_id))
    { a.2.1 with was_isolated := if a.2.2 ≠ 0 then 0 else 1 } epan modFace

/-- The two end directions of the new edge as `_rtt_AddEdge` computes them: first and last
vertex of the curve and the azimuths of the first and of the last segment, the latter
taken from the end point backwards. -/
def addEdgeAzimuths (G : GEOM) (geom : RTLINE) :
    Except String (POINT2D × POINT2D × Int × Int) :=
  let pa := rtgeom_remove_repeated_points geom
  if pa.length < 2 then .error "Invalid edge (no two distinct vertices exist)"
  else if getPoint2d_p pa 0 = getPoint2d_p pa 1 then
    .error "Invalid edge (no two distinct vertices exist)"
  else
    match G.azimuth (getPoint2d_p pa 0) (getPoint2d_p pa 1) with
    | none => .error "error computing azimuth of first edgeend"
    | some spanaz =>
      match G.azimuth (getPoint2d_p pa (pa.length - 1)) (getPoint2d_p pa (pa.length - 2)) with
      | none => .error "error computing azimuth of last edgeend"
      | some epanaz =>
        .ok (getPoint2d_p pa 0, getPoint2d_p pa (pa.length - 1), spanaz, epanaz)

/-- The C function `_rtt_AddEdge`. -/
def _rtt_AddEdge (G : GEOM) (T : RTT_TOPOLOGY) (start_node end_node : Int) (geom : RTLINE)
    (skipChecks modFace : Bool) : RTT_TOPOLOGY × Int :=
  if skipChecks = false ∧ G.is_simple geom = false then
    (rterror T "SQL/MM Spatial exception - curve not simple", -1)
  else
    match addEdgeAzimuths G geom with
    | .error msg => (rterror T msg, -1)
    | .ok az =>
      match rtt_be_getNodeById T
          (if start_node ≠ end_node then [start_node, end_node] else [start_node]) with
      | none => (rterror T "Backend error", -1)
      | some endpoints =>
        let s := addEdgeEndpoints start_node end_node endpoints
          (T, { face := -1, start_node_geom := none, end_node_geom := none })
        match (if skipChecks then none else addEdgeNodeChecks s.2 az.1 az.2.1) with
        | some msg => (rterror s.1 msg, -1)
        | none =>
          let c := if skipChecks then (s.1, (0 : Int))
            else _rtt_CheckEdgeCrossing G s.1 start_node end_node geom 0
          if c.2 ≠ 0 then (c.1, -1)
          else
            let n := rtt_be_getNextEdgeId c.1
            if n.2 = -1 then (rterror n.1 "Backend error", -1)
            else
              addEdgeLink G n.1
                { edge_id := n.2, start_node := start_node, end_node := end_node,
                  face_left := s.2.face, face_right := s.2.face,
                  next_left := 0, next_right := 0, geom := geom }
                (edgeendOfAzimuth az.2.2.1) (edgeendOfAzimuth az.2.2.2) modFace

/-- The C function `rtt_AddEdgeModFace`. -/
def rtt_AddEdgeModFace (G : GEOM) (T : RTT_TOPOLOGY) (start_node end_node : Int)
    (geom : RTLINE) (skipChecks : Bool) : RTT_TOPOLOGY × Int :=
  _rtt_AddEdge G T start_node end_node geom skipChecks true

/-- The C function `rtt_AddEdgeNewFaces`. -/
def rtt_AddEdgeNewFaces (G : GEOM) (T : RTT_TOPOLOGY) (start_node end_node : Int)
    (geom : RTLINE) (skipChecks : Bool) : RTT_TOPOLOGY × Int :=
  _rtt_AddEdge G T start_node end_node geom skipChecks false

end RTTopo

namespace RTTopo

/-! ## Successor maps written by the editors -/

/-- The columns of an edge row that make up the linkage. -/
def linkView (e : RTT_ISO_EDGE) : Int × Int × Int × Int × Int :=
  (e.edge_id, e.start_node, e.end_node, e.next_left, e.next_right)

/-- The step from `T` to `T'` leaves the linkage columns of every edge row and the set of
failing callbacks as they are. -/
def linksKept (T T' : RTT_TOPOLOGY) : Prop :=
  T'.edges.map linkView = T.edges.map linkView ∧ T'.failing = T.failing

/-- The successor map after `_rtt_AddEdge` has inserted edge `k` with `next_left = nl` and
`next_right = nr` and has made `k` the successor of `pl` and `-k` the successor of `pr`. -/
def addEdgeNext (next : Int → Int) (k nl nr pl pr : Int) (h : Int) : Int :=
  if h = k then nl else if h = -k then nr else if h = pr then -k else if h = pl then k
  else next h

/-- Effect on one row of the request that makes `target` the successor of `prev`. -/
def addEdgeLinkRow (prev target : Int) (e : RTT_ISO_EDGE) : RTT_ISO_EDGE :=
  if prev > 0 then
    updateEdgeRow { blankEdge with edge_id := prev } [RTT_COL_EDGE.EDGE_ID]
      { blankEdge with next_left := target } [RTT_COL_EDGE.NEXT_LEFT] blankEdge [] e
  else
    updateEdgeRow { blankEdge with edge_id := -prev } [RTT_COL_EDGE.EDGE_ID]
      { blankEdge with next_right := target } [RTT_COL_EDGE.NEXT_RIGHT] blankEdge [] e

/-- The edge table after `_rtt_AddEdge` has inserted the row `newedge` and linked
`prev_left` and `prev_right` to it. -/
def addEdgeEdges (es : List RTT_ISO_EDGE) (newedge : RTT_ISO_EDGE)
    (prev_left prev_right : Int) : List RTT_ISO_EDGE :=
  (if llabs prev_right ≠ newedge.edge_id
    then List.map (addEdgeLinkRow prev_right (-newedge.edge_id)) else id)
    ((if llabs prev_left ≠ newedge.edge_id
      then List.map (addEdgeLinkRow prev_left newedge.edge_id) else id)
      (es ++ [newedge]))

/-- The neighbours named by an adjacency analysis at `node`, when present, are signed ids
of stored edges that leave `node`. -/
def neighboursAtNode (es : List RTT_ISO_EDGE) (node : Int) (d : edgeend) : Prop :=
  (d.nextCW = 0 ∨ (d.nextCW ∈ signedIds es ∧ leavesNode es d.nextCW = node)) ∧
  (d.nextCCW = 0 ∨ (d.nextCCW ∈ signedIds es ∧ leavesNode es d.nextCCW = node))

/-- One adjacency analysis agrees with the linkage: it found both neighbours, and the
half-edge arriving along the counterclockwise neighbour has the clockwise neighbour as
its successor. -/
def neighboursLinked (es : List RTT_ISO_EDGE) (d : edgeend) : Prop :=
  d.nextCW ≠ 0 ∧ d.nextCCW ≠ 0 ∧ nextEdge es (-d.nextCCW) = d.nextCW

instance (es : List RTT_ISO_EDGE) (d : edgeend) : Decidable (neighboursLinked es d) := by
  unfold neighboursLinked; infer_instance

/-- The two adjacency analyses of a closed new edge agree with the linkage. Both ends
lie on the same node, so a neighbour missing at one end means that the other end of the new
edge comes first in that direction: the clockwise side of one end is empty exactly when
the counterclockwise side of the other end is, the successor of the half-edge arriving
along a counterclockwise neighbour is the first stored edge met clockwise, and the two
ends do not share their counterclockwise neighbour. -/
def neighboursLinkedClosed (es : List RTT_ISO_EDGE) (span epan : edgeend) : Prop :=
  (span.nextCW = 0 ↔ epan.nextCCW = 0) ∧ (epan.nextCW = 0 ↔ span.nextCCW = 0) ∧
  (span.nextCCW ≠ 0 → nextEdge es (-span.nextCCW) =
    if span.nextCW ≠ 0 then span.nextCW else epan.nextCW) ∧
  (epan.nextCCW ≠ 0 → nextEdge es (-epan.nextCCW) =
    if epan.nextCW ≠ 0 then epan.nextCW else span.nextCW) ∧
  (span.nextCCW ≠ 0 → span.nextCCW ≠ epan.nextCCW)

instance (es : List RTT_ISO_EDGE) (span epan : edgeend) :
    Decidable (neighboursLinkedClosed es span epan) := by
  unfold neighboursLinkedClosed; infer_instance

/-- The adjacency analyses `_rtt_AddEdge` makes for the curve `geom` between `start_node`
and `end_node` return neighbours that agree with the linkage of the stored edges, at
every end node where the analysis reports incident edges. -/
def AdjacencyConsistent (G : GEOM) (T : RTT_TOPOLOGY) (start_node end_node : Int)
    (geom : RTLINE) : Prop :=
  match addEdgeAzimuths G geom with
  | .error _ => True
  | .ok az =>
    if start_node = end_node then
      (_rtt_FindAdjacentEdges G T start_node (edgeendOfAzimuth az.2.2.1)
          (some (edgeendOfAzimuth az.2.2.2)) (-1)).2.2 ≠ 0 →
        neighboursLinkedClosed T.edges
          (_rtt_FindAdjacentEdges G T start_node (edgeendOfAzimuth az.2.2.1)
            (some (edgeendOfAzimuth az.2.2.2)) (-1)).2.1
          (_rtt_FindAdjacentEdges G T end_node (edgeendOfAzimuth az.2.2.2)
            (some (edgeendOfAzimuth az.2.2.1)) (-1)).2.1
    else
      ((_rtt_FindAdjacentEdges G T start_node (edgeendOfAzimuth az.2.2.1) none (-1)).2.2 ≠ 0 →
        neighboursLinked T.edges
          (_rtt_FindAdjacentEdges G T start_node (edgeendOfAzimuth az.2.2.1) none (-1)).2.1) ∧
      ((_rtt_FindAdjacentEdges G T end_node (edgeendOfAzimuth az.2.2.2) none (-1)).2.2 ≠ 0 →
        neighboursLinked T.edges
          (_rtt_FindAdjacentEdges G T end_node (edgeendOfAzimuth az.2.2.2) none (-1)).2.1)

instance (G : GEOM) (T : RTT_TOPOLOGY) (start_node end_node : Int) (geom : RTLINE) :
    Decidable (AdjacencyConsistent G T start_node end_node geom) := by
  unfold AdjacencyConsistent
  split
  · infer_instance
  · infer_instance

/-- The identifiers `_rtt_AddEdge` handles fit the C type `int`: the function keeps
`prev_left`, `prev_right` and the answers of `_rtt_AddFaceSplit` in `int` variables, while
identifiers are 64-bit. With the next edge and face identifiers at most `INT_MAX`, and the
stored identifiers positive and below the sequences, no conversion changes a value. -/
def idsFitInt (T : RTT_TOPOLOGY) : Prop :=
  T.edge_seq ≤ 2147483647 ∧ T.face_seq ≤ 2147483647

instance (T : RTT_TOPOLOGY) : Decidable (idsFitInt T) := by
  unfold idsFitInt; infer_instance

end RTTopo

namespace RTTopo

/-! ## `_rtt_RemEdge`, `rtt_RemEdgeModFace`, `rtt_RemEdgeNewFace` -/

/-- The `assert( of != 0 )` of `_rtt_UpdateEdgeFaceRef` and `_rtt_UpdateNodeFaceRef`: a
failing assertion is recorded in the event trace. -/
def assertOldFace (T : RTT_TOPOLOGY) (of : Int) : RTT_TOPOLOGY :=
  if of = 0 then { T with events := BeEvent.assertFailed of :: T.events } else T

/-- The C function `_rtt_UpdateEdgeFaceRef`: make the edges bound to face `of` refer to
face `nf` instead. -/
def _rtt_UpdateEdgeFaceRef (T : RTT_TOPOLOGY) (of nf : Int) : RTT_TOPOLOGY × Int :=
  let l := rtt_be_updateEdges (assertOldFace T of)
    { blankEdge with face_left := of } [RTT_COL_EDGE.FACE_LEFT]
    { blankEdge with face_left := nf } [RTT_COL_EDGE.FACE_LEFT] blankEdge []
  if l.2 = -1 then (l.1, -1)
  else
    let r := rtt_be_updateEdges l.1
      { blankEdge with face_left := of, face_right := of } [RTT_COL_EDGE.FACE_RIGHT]
      { blankEdge with face_left := nf, face_right := nf } [RTT_COL_EDGE.FACE_RIGHT]
      blankEdge []
    if r.2 = -1 then (r.1, -1) else (r.1, 0)

/-- The C function `_rtt_UpdateNodeFaceRef`: make the isolated nodes of face `of` refer to
face `nf` instead. -/
def _rtt_UpdateNodeFaceRef (T : RTT_TOPOLOGY) (of nf : Int) : RTT_TOPOLOGY × Int :=
  let u := rtt_be_updateNodes (assertOldFace T of)
    { blankNode with containing_face := of } [RTT_COL_NODE.CONTAINING_FACE]
    { blankNode with containing_face := nf } [RTT_COL_NODE.CONTAINING_FACE] blankNode []
  if u.2 = -1 then (u.1, -1) else (u.1, 0)

/-- Loop body of `_rtt_RemEdge` for `next_left`: the update row for an edge `e` whose
`next_left` is the removed edge, in either direction. -/
def remEdgeLeftUpdate (edge : RTT_ISO_EDGE) (edge_id : Int) (e : RTT_ISO_EDGE) :
    Option RTT_ISO_EDGE :=
  if e.edge_id = edge_id then none
  else if e.next_left = -edge_id then
    some { blankEdge with
      edge_id := e.edge_id
      next_left := if edge.next_left ≠ edge_id then edge.next_left else edge.next_right }
  else if e.next_left = edge_id then
    some { blankEdge with
      edge_id := e.edge_id
      next_left := if edge.next_right ≠ -edge_id then edge.next_right else edge.next_left }
  else none

/-- Loop body of `_rtt_RemEdge` for `next_right`. -/
def remEdgeRightUpdate (edge : RTT_ISO_EDGE) (edge_id : Int) (e : RTT_ISO_EDGE) :
    Option RTT_ISO_EDGE :=
  if e.edge_id = edge_id then none
  else if e.next_right = -edge_id then
    some { blankEdge with
      edge_id := e.edge_id
      next_right := if edge.next_left ≠ edge_id then edge.next_left else edge.next_right }
  else if e.next_right = edge_id then
    some { blankEdge with
      edge_id := e.edge_id
      next_right := if edge.next_right ≠ -edge_id then edge.next_right else edge.next_left }
  else none

/-- Number of edges other than `edge_id` on `node` among the fetched rows
(`fnode_edges`, `lnode_edges`). -/
def remEdgeNodeEdges (edge_id node : Int) (upd_edge : List RTT_ISO_EDGE) : Nat :=
  (upd_edge.filter (fun e =>
    !decide (e.edge_id = edge_id) &&
    (decide (e.start_node = node) || decide (e.end_node = node)))).length

/-- The MBR loop of `_rtt_RemEdge` over the two fetched faces: `box1` for the left face,
`box2` for the right face. -/
def remEdgeBoxes (edge : RTT_ISO_EDGE) :
    List RTT_ISO_FACE → Option GBOX × Option GBOX → Except String (Option GBOX × Option GBOX)
  | [], b => .ok b
  | f :: rest, b =>
    if f.face_id = edge.face_left then
      if b.1 = none then remEdgeBoxes edge rest (f.mbr, b.2)
      else .error "corrupted topology: more than 1 face have the left face id"
    else if f.face_id = edge.face_right then
      if b.2 = none then remEdgeBoxes edge rest (b.1, f.mbr)
      else .error "corrupted topology: more than 1 face have the right face id"
    else .error "Backend coding error: getFaceById returned face with non-requested id"

/-- Last part of `_rtt_RemEdge`: delete the edge, give the end nodes that became
isolated their containing face, delete the faces that were merged away. -/
def remEdgeDelete (T : RTT_TOPOLOGY) (edge : RTT_ISO_EDGE) (fnode_edges lnode_edges : Nat)
    (modFace : Bool) (floodface newface_id : Int) : RTT_TOPOLOGY × Int :=
  let d := rtt_be_deleteEdges T edge [RTT_COL_EDGE.EDGE_ID]
  if d.2 = -1 then (rterror d.1 "Backend error", -1)
  else
    let upd_node : List RTT_ISO_NODE :=
      (if fnode_edges = 0 then
        [{ blankNode with node_id := edge.start_node, containing_face := floodface }]
       else []) ++
      (if edge.end_node ≠ edge.start_node ∧ lnode_edges = 0 then
        [{ blankNode with node_id := edge.end_node, containing_face := floodface }]
       else [])
    let u := if upd_node.length ≠ 0
      then rtt_be_updateNodesById d.1 upd_node [RTT_COL_NODE.CONTAINING_FACE]
      else (d.1, (0 : Int))
    if upd_node.length ≠ 0 ∧ u.2 = -1 then (rterror u.1 "Backend error", -1)
    else if edge.face_left ≠ edge.face_right then
      let f := rtt_be_deleteFacesById u.1
        ((if edge.face_right ≠ floodface then [edge.face_right] else []) ++
         (if edge.face_left ≠ floodface then [edge.face_left] else []))
      if f.2 = -1 then (rterror f.1 "Backend error", -1)
      else (f.1, if modFace then floodface else newface_id)
    else (u.1, if modFace then floodface else newface_id)

/-- The `_rtt_UpdateEdgeFaceRef` / `_rtt_UpdateNodeFaceRef` pair of `_rtt_RemEdge` for one
side of the removed edge. -/
def remEdgeFaceRefs (T : RTT_TOPOLOGY) (of floodface : Int) : RTT_TOPOLOGY × Int :=
  if of ≠ floodface then
    let a := _rtt_UpdateEdgeFaceRef T of floodface
    if a.2 = -1 then (a.1, -1)
    else
      let b := _rtt_UpdateNodeFaceRef a.1 of floodface
      if b.2 = -1 then (b.1, -1) else (b.1, 0)
  else (T, 0)

/-- The part of `_rtt_RemEdge` run when two faces are healed, once the flood face is
known: rebind edges and nodes of the faces that go away, tell the back end. -/
def remEdgeHeal (T : RTT_TOPOLOGY) (edge : RTT_ISO_EDGE) (fnode_edges lnode_edges : Nat)
    (modFace : Bool) (floodface newface_id : Int) : RTT_TOPOLOGY × Int :=
  let a := remEdgeFaceRefs T edge.face_left floodface
  if a.2 = -1 then (rterror a.1 "Backend error", -1)
  else
    let b := remEdgeFaceRefs a.1 edge.face_right floodface
    if b.2 = -1 then (rterror b.1 "Backend error", -1)
    else if rtt_be_hook b.1 BeCall.updateTopoGeomFaceHeal = 0 then
      (rterror b.1 "updateTopoGeomFaceHeal", -1)
    else remEdgeDelete b.1 edge fnode_edges lnode_edges modFace floodface newface_id

/-- The part of `_rtt_RemEdge` that merges two real faces: the flood face is the right
face with the union of the two MBRs (`modFace`), or a new face with that MBR. -/
def remEdgeMerge (G : GEOM) (T : RTT_TOPOLOGY) (edge : RTT_ISO_EDGE)
    (fnode_edges lnode_edges : Nat) (modFace : Bool) : RTT_TOPOLOGY × Int :=
  match rtt_be_getFaceById T [edge.face_left, edge.face_right] with
  | none => (rterror T "Backend error", -1)
  | some faces =>
    match remEdgeBoxes edge faces (none, none) with
    | .error msg => (rterror T msg, -1)
    | .ok (none, _) => (rterror T "corrupted topology: no face have the left face id", -1)
    | .ok (some _, none) =>
      (rterror T "corrupted topology: no face have the right face id", -1)
    | .ok (some box1, some box2) =>
      if modFace then
        let u := rtt_be_updateFacesById T
          [{ face_id := edge.face_right, mbr := some (G.gbox_merge box2 box1) }]
        if u.2 = -1 then (rterror u.1 "Backend error", -1)
        else if u.2 ≠ 1 then
          (rterror u.1 "Unexpected error: faces updated when expecting 1", -1)
        else
          remEdgeHeal u.1 edge fnode_edges lnode_edges modFace edge.face_right
            edge.face_right
      else
        let i := rtt_be_insertFaces T
          { face_id := -1, mbr := some (G.gbox_merge box2 box1) }
        if i.2.2 = -1 then (rterror i.1 "Backend error", -1)
        else if i.2.2 ≠ 1 then
          (rterror i.1 "Unexpected error: faces inserted when expecting 1", -1)
        else
          remEdgeHeal i.1 edge fnode_edges lnode_edges modFace i.2.1.face_id i.2.1.face_id

/-- The part of `_rtt_RemEdge` after the linkage updates: find the flood face and go on. -/
def remEdgeFlood (G : GEOM) (T : RTT_TOPOLOGY) (edge : RTT_ISO_EDGE)
    (fnode_edges lnode_edges : Nat) (modFace : Bool) : RTT_TOPOLOGY × Int :=
  if edge.face_left = edge.face_right then
    remEdgeDelete T edge fnode_edges lnode_edges modFace edge.face_right 0
  else if edge.face_left = 0 ∨ edge.face_right = 0 then
    remEdgeHeal T edge fnode_edges lnode_edges modFace 0 0
  else remEdgeMerge G T edge fnode_edges lnode_edges modFace

/-- The linkage part of `_rtt_RemEdge` for the stored row `edge`: redirect the
`next_left` / `next_right` of the edges on its end nodes that designate it. The C
function collects the update rows in the arrays `upd_edge_left[2]` and
`upd_edge_right[2]` without a bound check; the model collects them in lists and agrees
with the C function when at most two rows are collected for each column. -/
def remEdgeRelink (G : GEOM) (T : RTT_TOPOLOGY) (edge : RTT_ISO_EDGE) (edge_id : Int)
    (modFace : Bool) : RTT_TOPOLOGY × Int :=
  match rtt_be_getEdgeByNode T
      (if edge.end_node ≠ edge.start_node then [edge.start_node, edge.end_node]
       else [edge.start_node]) with
  | none => (rterror T "Backend error", -1)
  | some upd_edge =>
    let u1 := if (upd_edge.filterMap (remEdgeLeftUpdate edge edge_id)).length ≠ 0
      then rtt_be_updateEdgesById T (upd_edge.filterMap (remEdgeLeftUpdate edge edge_id))
        [RTT_COL_EDGE.NEXT_LEFT]
      else (T, (0 : Int))
    if (upd_edge.filterMap (remEdgeLeftUpdate edge edge_id)).length ≠ 0 ∧ u1.2 = -1 then
      (rterror u1.1 "Backend error", -1)
    else
      let u2 := if (upd_edge.filterMap (remEdgeRightUpdate edge edge_id)).length ≠ 0
        then rtt_be_updateEdgesById u1.1 (upd_edge.filterMap (remEdgeRightUpdate edge edge_id))
          [RTT_COL_EDGE.NEXT_RIGHT]
        else (u1.1, (0 : Int))
      if (upd_edge.filterMap (remEdgeRightUpdate edge edge_id)).length ≠ 0 ∧ u2.2 = -1 then
        (rterror u2.1 "Backend error", -1)
      else
        remEdgeFlood G u2.1 edge (remEdgeNodeEdges edge_id edge.start_node upd_edge)
          (remEdgeNodeEdges edge_id edge.end_node upd_edge) modFace

/-- The C function `_rtt_RemEdge`. Returns `-1` on error, else the face that takes up the
space of the removed edge (`modFace`) or the face created (`0` if none). -/
def _rtt_RemEdge (G : GEOM) (T : RTT_TOPOLOGY) (edge_id : Int) (modFace : Bool) :
    RTT_TOPOLOGY × Int :=
  match rtt_be_getEdgeById T [edge_id] with
  | none => (rterror T "Backend error", -1)
  | some [] => (rterror T "SQL/MM Spatial exception - non-existent edge", -1)
  | some (edge :: _) =>
    if rtt_be_hook T BeCall.checkTopoGeomRemEdge = 0 then
      (rterror T "checkTopoGeomRemEdge", -1)
    else remEdgeRelink G T edge edge_id modFace

/-- The C function `rtt_RemEdgeModFace`. -/
def rtt_RemEdgeModFace (G : GEOM) (T : RTT_TOPOLOGY) (edge_id : Int) : RTT_TOPOLOGY × Int :=
  _rtt_RemEdge G T edge_id true

/-- The C function `rtt_RemEdgeNewFace`. -/
def rtt_RemEdgeNewFace (G : GEOM) (T : RTT_TOPOLOGY) (edge_id : Int) : RTT_TOPOLOGY × Int :=
  _rtt_RemEdge G T edge_id false

/-- The successor map after `_rtt_RemEdge` has removed edge `k` whose row had
`next_left = nl` and `next_right = nr`. -/
def remEdgeNext (next : Int → Int) (k nl nr : Int) (h : Int) : Int :=
  if next h = -k then (if nl ≠ k then nl else nr)
  else if next h = k then (if nr ≠ -k then nr else nl)
  else next h

/-- Effect of the linkage updates of `_rtt_RemEdge` on one row. -/
def remEdgeRow (edge : RTT_ISO_EDGE) (edge_id : Int) (e : RTT_ISO_EDGE) : RTT_ISO_EDGE :=
  { e with
    next_left := if e.edge_id ≠ edge_id ∧ e.next_left = -edge_id then
        (if edge.next_left ≠ edge_id then edge.next_left else edge.next_right)
      else if e.edge_id ≠ edge_id ∧ e.next_left = edge_id then
        (if edge.next_right ≠ -edge_id then edge.next_right else edge.next_left)
      else e.next_left
    next_right := if e.edge_id ≠ edge_id ∧ e.next_right = -edge_id then
        (if edge.next_left ≠ edge_id then edge.next_left else edge.next_right)
      else if e.edge_id ≠ edge_id ∧ e.next_right = edge_id then
        (if edge.next_right ≠ -edge_id then edge.next_right else edge.next_left)
      else e.next_right }

/-- The edge table after `_rtt_RemEdge` has removed the stored row `edge`: the linkage
updates on the other rows followed by the deletion of the row. -/
def remEdgeEdges (es : List RTT_ISO_EDGE) (edge : RTT_ISO_EDGE) : List RTT_ISO_EDGE :=
  (es.map (remEdgeRow edge edge.edge_id)).filter (fun e => !decide (e.edge_id = edge.edge_id))

end RTTopo

namespace RTTopo

/-! ## `_rtt_HealEdges`, `rtt_ModEdgeHeal`, `rtt_NewEdgeHeal` -/

/-- The lookup loop of `_rtt_HealEdges` over the fetched rows: the row with id `eid1` and
the row with id `eid2`; a second row with one of the two ids is a corrupted topology. -/
def healFind (eid1 eid2 : Int) :
    List RTT_ISO_EDGE → Option RTT_ISO_EDGE → Option RTT_ISO_EDGE →
      Except String (Option RTT_ISO_EDGE × Option RTT_ISO_EDGE)
  | [], e1, e2 => .ok (e1, e2)
  | x :: rest, e1, e2 =>
    if x.edge_id = eid1 then
      match e1 with
      | some _ => .error "Corrupted topology: multiple edges have id eid1"
      | none => healFind eid1 eid2 rest (some x) e2
    else if x.edge_id = eid2 then
      match e2 with
      | some _ => .error "Corrupted topology: multiple edges have id eid2"
      | none => healFind eid1 eid2 rest e1 (some x)
    else healFind eid1 eid2 rest e1 e2

/-- The locals `commonnode` and `caseno` of `_rtt_HealEdges`, and whether an edge id has
been written to the error buffer (`ptr != buf`). -/
structure HealScan where
  commonnode : Int
  caseno : Int
  other : Bool
deriving DecidableEq, Repr

/-- The loop over the edges incident to the candidate common node: an edge other than the
two being healed resets the candidate to `-1`. -/
def healScanEdges (eid1 eid2 : Int) (node_edges : List RTT_ISO_EDGE) (s : HealScan) :
    HealScan :=
  node_edges.foldl
    (fun s x =>
      if x.edge_id = eid1 then s
      else if x.edge_id = eid2 then s
      else { s with commonnode := -1, other := true })
    s

/-- The check of `_rtt_HealEdges` that no other edge is connected to the candidate common
node, if one was found; `none` is a back-end error. -/
def healCheckNode (T : RTT_TOPOLOGY) (eid1 eid2 : Int) (s : HealScan) : Option HealScan :=
  if s.commonnode ≠ -1 then
    match rtt_be_getEdgeByNode T [s.commonnode] with
    | none => none
    | some node_edges => some (healScanEdges eid1 eid2 node_edges s)
  else some s

/-- The search of `_rtt_HealEdges` for the common node: first the end node of `e1`
(cases 1 and 2), then its start node (cases 3 and 4). -/
def healCommon (T : RTT_TOPOLOGY) (eid1 eid2 : Int) (e1 e2 : RTT_ISO_EDGE) :
    Option HealScan :=
  match healCheckNode T eid1 eid2
      (if e1.end_node = e2.start_node then
        { commonnode := e1.end_node, caseno := 1, other := false }
       else if e1.end_node = e2.end_node then
        { commonnode := e1.end_node, caseno := 2, other := false }
       else { commonnode := -1, caseno := 0, other := false }) with
  | none => none
  | some s1 =>
    if s1.commonnode = -1 then
      healCheckNode T eid1 eid2
        (if e1.start_node = e2.start_node then
          { s1 with commonnode := e1.start_node, caseno := 3 }
         else if e1.start_node = e2.end_node then
          { s1 with commonnode := e1.start_node, caseno := 4 }
         else s1)
    else some s1

/-- Modelled from the spec: `ptarray_reverse` of the geometry library (not in the sources
at hand) reverses the vertex order. -/
def ptarray_reverse (pa : POINTARRAY) : POINTARRAY := pa.reverse

/-- What the `switch (caseno)` of `_rtt_HealEdges` computes: the healed edge (end nodes,
linkage and vertices) and the signs `e1freenode`, `e2freenode`, `e2sign`. -/
structure HealPlan where
  newedge : RTT_ISO_EDGE
  e1freenode : Int
  e2freenode : Int
  e2sign : Int
deriving DecidableEq, Repr

/-- The `switch (caseno)` of `_rtt_HealEdges`. -/
def healPlan (caseno : Int) (e1 e2 : RTT_ISO_EDGE) : HealPlan :=
  if caseno = 1 then
    { newedge := { blankEdge with
        geom := ptarray_append_ptarray e1.geom e2.geom
        start_node := e1.start_node
        end_node := e2.end_node
        next_left := e2.next_left
        next_right := e1.next_right }
      e1freenode := 1, e2freenode := -1, e2sign := 1 }
  else if caseno = 2 then
    { newedge := { blankEdge with
        geom := ptarray_append_ptarray e1.geom (ptarray_reverse e2.geom)
        start_node := e1.start_node
        end_node := e2.start_node
        next_left := e2.next_right
        next_right := e1.next_right }
      e1freenode := 1, e2freenode := 1, e2sign := -1 }
  else if caseno = 3 then
    { newedge := { blankEdge with
        geom := ptarray_append_ptarray (ptarray_reverse e2.geom) e1.geom
        end_node := e1.end_node
        start_node := e2.end_node
        next_left := e1.next_left
        next_right := e2.next_left }
      e1freenode := -1, e2freenode := -1, e2sign := -1 }
  else if caseno = 4 then
    { newedge := { blankEdge with
        geom := ptarray_append_ptarray e2.geom e1.geom
        end_node := e1.end_node
        start_node := e2.start_node
        next_left := e1.next_left
        next_right := e2.next_right }
      e1freenode := -1, e2freenode := 1, e2sign := 1 }
  else { newedge := blankEdge, e1freenode := 0, e2freenode := 0, e2sign := 0 }

/-- The part of `_rtt_HealEdges` that stores the healed edge: an update of the row of
`eid1` (`modEdge`), or the insertion of a new row with the faces of `e1`. Yields the id of
the healed edge, `none` on error. -/
def healStore (T : RTT_TOPOLOGY) (e1 newedge : RTT_ISO_EDGE) (eid1 : Int) (modEdge : Bool) :
    RTT_TOPOLOGY × Option Int :=
  if modEdge then
    let u := rtt_be_updateEdgesById T [{ newedge with edge_id := eid1 }]
      [RTT_COL_EDGE.NEXT_LEFT, RTT_COL_EDGE.NEXT_RIGHT, RTT_COL_EDGE.START_NODE,
       RTT_COL_EDGE.END_NODE, RTT_COL_EDGE.GEOM]
    if u.2 = -1 then (rterror u.1 "Backend error", none)
    else if u.2 ≠ 1 then
      (rterror u.1 "Unexpected error: edges updated when expecting 1", none)
    else (u.1, some eid1)
  else
    let i := rtt_be_insertEdges T
      [{ newedge with edge_id := -1, face_left := e1.face_left, face_right := e1.face_right }]
    if i.2.2 = -1 then (rterror i.1 "Backend error", none)
    else if i.2.2 = 0 then (rterror i.1 "Insertion of split edge failed (no reason)", none)
    else (i.1, some ((i.2.1.headD blankEdge).edge_id))

/-- The two `updateEdges` requests of `_rtt_HealEdges` that make every `next_left` and
every `next_right` equal to `sel` designate `upd` instead. -/
def healRelink (T : RTT_TOPOLOGY) (sel upd : Int) : RTT_TOPOLOGY × Int :=
  let l := rtt_be_updateEdges T
    { blankEdge with next_left := sel } [RTT_COL_EDGE.NEXT_LEFT]
    { blankEdge with next_left := upd } [RTT_COL_EDGE.NEXT_LEFT] blankEdge []
  if l.2 = -1 then (rterror l.1 "Backend error", -1)
  else
    let r := rtt_be_updateEdges l.1
      { blankEdge with next_left := sel, next_right := sel } [RTT_COL_EDGE.NEXT_RIGHT]
      { blankEdge with next_left := upd, next_right := upd } [RTT_COL_EDGE.NEXT_RIGHT]
      blankEdge []
    if r.2 = -1 then (rterror r.1 "Backend error", -1) else (r.1, 0)

/-- The end of `_rtt_HealEdges`: delete the second edge (and the first unless `modEdge`),
delete the common node, run the TopoGeometry hook. -/
def healDelete (T : RTT_TOPOLOGY) (e1 e2 : RTT_ISO_EDGE) (commonnode newid : Int)
    (modEdge : Bool) : RTT_TOPOLOGY × Int :=
  let d2 := rtt_be_deleteEdges T e2 [RTT_COL_EDGE.EDGE_ID]
  if d2.2 = -1 then (rterror d2.1 "Backend error", -1)
  else
    let d1 := if modEdge then (d2.1, (0 : Int))
      else rtt_be_deleteEdges d2.1 e1 [RTT_COL_EDGE.EDGE_ID]
    if d1.2 = -1 then (rterror d1.1 "Backend error", -1)
    else
      let n := rtt_be_deleteNodesById d1.1 [commonnode]
      if n.2 = -1 then (rterror n.1 "Backend error", -1)
      else if rtt_be_hook n.1 BeCall.updateTopoGeomEdgeHeal = 0 then
        (rterror n.1 "updateTopoGeomEdgeHeal", -1)
      else (n.1, if modEdge then commonnode else newid)

/-- The part of `_rtt_HealEdges` after the `switch`: store the healed edge, redirect the
references to the free end of `e2` (and of `e1` unless `modEdge`), delete. -/
def healApply (T : RTT_TOPOLOGY) (e1 e2 : RTT_ISO_EDGE) (eid1 eid2 commonnode : Int)
    (p : HealPlan) (modEdge : Bool) : RTT_TOPOLOGY × Int :=
  let s := healStore T e1 p.newedge eid1 modEdge
  match s.2 with
  | none => (s.1, -1)
  | some newid =>
    let a := healRelink s.1 (p.e2freenode * eid2) (p.e2freenode * newid * p.e2sign)
    if a.2 = -1 then (a.1, -1)
    else
      let b := if modEdge then (a.1, (0 : Int))
        else healRelink a.1 (p.e1freenode * eid1) (p.e1freenode * newid)
      if b.2 = -1 then (b.1, -1)
      else healDelete b.1 e1 e2 commonnode newid modEdge

/-- The part of `_rtt_HealEdges` that follows the lookup of the two rows. -/
def healFound (T : RTT_TOPOLOGY) (e1 e2 : RTT_ISO_EDGE) (eid1 eid2 : Int) (modEdge : Bool) :
    RTT_TOPOLOGY × Int :=
  if e1.start_node = e1.end_node then (rterror T "Edge eid1 is closed, cannot heal", -1)
  else if e2.start_node = e2.end_node then (rterror T "Edge eid2 is closed, cannot heal", -1)
  else
    match healCommon T eid1 eid2 e1 e2 with
    | none => (rterror T "Backend error", -1)
    | some s =>
      if s.commonnode = -1 then
        (rterror T (if s.other then "SQL/MM Spatial exception - other edges connected"
                    else "SQL/MM Spatial exception - non-connected edges"), -1)
      else if rtt_be_hook T BeCall.checkTopoGeomRemNode = 0 then
        (rterror T "checkTopoGeomRemNode", -1)
      else
        healApply
          (if s.caseno = 1 ∨ s.caseno = 2 ∨ s.caseno = 3 ∨ s.caseno = 4 then T
           else rterror T "Coding error: caseno should never happen")
          e1 e2 eid1 eid2 s.commonnode (healPlan s.caseno e1 e2) modEdge

/-- The C function `_rtt_HealEdges`. Returns `-1` on error, else the id of the removed
node (`modEdge`) or the id of the new edge. -/
def _rtt_HealEdges (T : RTT_TOPOLOGY) (eid1 eid2 : Int) (modEdge : Bool) :
    RTT_TOPOLOGY × Int :=
  if eid1 = eid2 then (rterror T "Cannot heal edge with itself, try with another", -1)
  else
    match rtt_be_getEdgeById T [eid1, eid2] with
    | none => (rterror T "Backend error", -1)
    | some edges =>
      match healFind eid1 eid2 edges none none with
      | .error msg => (rterror T msg, -1)
      | .ok (none, _) => (rterror T "SQL/MM Spatial exception - non-existent edge eid1", -1)
      | .ok (some _, none) =>
        (rterror T "SQL/MM Spatial exception - non-existent edge eid2", -1)
      | .ok (some e1, some e2) => healFound T e1 e2 eid1 eid2 modEdge

/-- The C function `rtt_ModEdgeHeal`. -/
def rtt_ModEdgeHeal (T : RTT_TOPOLOGY) (e1 e2 : Int) : RTT_TOPOLOGY × Int :=
  _rtt_HealEdges T e1 e2 true

/-- The C function `rtt_NewEdgeHeal`. -/
def rtt_NewEdgeHeal (T : RTT_TOPOLOGY) (e1 e2 : Int) : RTT_TOPOLOGY × Int :=
  _rtt_HealEdges T e1 e2 false

/-! ## The linkage written by `_rtt_HealEdges` -/

/-- The successor map after a heal. `a` and `b` are the signed ids of the two healed edges
that arrive at the common node, `H` is the signed id of the healed edge that leaves the
free node of the first edge. -/
def healNext (next : Int → Int) (a b H : Int) (h : Int) : Int :=
  if next (if h = H then -b else if h = -H then -a else h) = b then -H
  else if next (if h = H then -b else if h = -H then -a else h) = a then H
  else next (if h = H then -b else if h = -H then -a else h)

/-- Effect of the redirections of `_rtt_HealEdges` on one linkage value: first the
references to the free end of the second edge, then (unless `modEdge`) those to the free
end of the first edge. -/
def healValue (eid1 eid2 newid : Int) (p : HealPlan) (modEdge : Bool) (v : Int) : Int :=
  if modEdge = false ∧
      (if v = p.e2freenode * eid2 then p.e2freenode * newid * p.e2sign else v) =
        p.e1freenode * eid1
  then p.e1freenode * newid
  else if v = p.e2freenode * eid2 then p.e2freenode * newid * p.e2sign else v

/-- Effect of the redirections of `_rtt_HealEdges` on one row. -/
def healRow (eid1 eid2 newid : Int) (p : HealPlan) (modEdge : Bool) (e : RTT_ISO_EDGE) :
    RTT_ISO_EDGE :=
  { e with
    next_left := healValue eid1 eid2 newid p modEdge e.next_left
    next_right := healValue eid1 eid2 newid p modEdge e.next_right }

/-- The row of the healed edge as `_rtt_HealEdges` stores it, before the redirections. -/
def healStored (e1 : RTT_ISO_EDGE) (newid : Int) (p : HealPlan) : RTT_ISO_EDGE :=
  { p.newedge with edge_id := newid, face_left := e1.face_left, face_right := e1.face_right }

/-- The edge table after a successful `_rtt_HealEdges` of the stored rows `e1` and `e2`
with plan `p`, the healed edge having id `newid`. -/
def healEdges (es : List RTT_ISO_EDGE) (e1 e2 : RTT_ISO_EDGE) (newid : Int) (p : HealPlan)
    (modEdge : Bool) : List RTT_ISO_EDGE :=
  ((if modEdge then es.map (fun e => if e.edge_id = newid then healStored e1 newid p else e)
    else es ++ [healStored e1 newid p]).map
      (healRow e1.edge_id e2.edge_id newid p modEdge)).filter
    (fun e => !decide (e.edge_id = e2.edge_id) &&
      (modEdge || !decide (e.edge_id = e1.edge_id)))

end RTTopo

namespace RTTopo

/-! ## `rtt_GetFaceGeometry`, `rtt_ChangeEdgeGeom` -/

/-- The C function `_rtt_FirstDistinctVertex2D`: the first vertex different from `ref`,
going forward from index `start + 1` or backward from index `start - 1`. -/
def _rtt_FirstDistinctVertex2D (pa : POINTARRAY) (ref : POINT2D) (start : Nat)
    (forward : Bool) : Option POINT2D :=
  if forward then (pa.drop (start + 1)).find? (fun p => !decide (p = ref))
  else ((pa.take start).reverse).find? (fun p => !decide (p = ref))

/-- The C function `_rtt_InitEdgeEndByLine`: the two edge ends of a line whose first and
last vertex are `fp` and `lp`, each with its azimuth. -/
def _rtt_InitEdgeEndByLine (G : GEOM) (edge : RTLINE) (fp lp : POINT2D) :
    Except String (edgeend × edgeend) :=
  match _rtt_FirstDistinctVertex2D edge fp 0 true with
  | none => .error "Invalid edge (no two distinct vertices exist)"
  | some pt =>
    match G.azimuth fp pt with
    | none => .error "error computing azimuth of first edgeend"
    | some faz =>
      match _rtt_FirstDistinctVertex2D edge lp (edge.length - 1) false with
      | none => .error "Invalid edge (no two distinct vertices exist)"
      | some pt2 =>
        match G.azimuth lp pt2 with
        | none => .error "error computing azimuth of last edgeend"
        | some laz => .ok (edgeendOfAzimuth faz, edgeendOfAzimuth laz)

/-- The C function `rtt_GetFaceGeometry`, as far as `rtt_ChangeEdgeGeom` uses it: the
bounding box of the polygon built from the edges of the face (`none` for an empty
polygon), or a message when the C function raises an error and returns `NULL`. -/
def rtt_GetFaceGeometry (G : GEOM) (T : RTT_TOPOLOGY) (faceid : Int) :
    Except String (Option GBOX) :=
  if faceid = 0 then .error "SQL/MM Spatial exception - universal face has no geometry"
  else
    match rtt_be_getEdgeByFace G T [faceid] none with
    | none => .error "Backend error"
    | some edges =>
      if edges.length = 0 then
        match rtt_be_getFaceById T [faceid] with
        | none => .error "Backend error"
        | some faces =>
          if faces.length = 0 then .error "SQL/MM Spatial exception - non-existent face."
          else if faces.length > 1 then
            .error "Corrupted topology: multiple face records have face_id"
          else .ok none
      else .ok (G.face_bbox edges)

/-- The node loop of the motion-range check of `rtt_ChangeEdgeGeom`: a node other than the
end nodes must lie in both motion areas or in neither. -/
def changeEdgeMotionNodes (G : GEOM) (oldedge : RTT_ISO_EDGE) (geom : RTLINE)
    (isclosed : Bool) : List RTT_ISO_NODE → Option String
  | [] => none
  | n :: rest =>
    if n.node_id = oldedge.start_node then changeEdgeMotionNodes G oldedge geom isclosed rest
    else if n.node_id = oldedge.end_node then
      changeEdgeMotionNodes G oldedge geom isclosed rest
    else if G.motion_contains oldedge.geom isclosed n.geom = 2 ∨
        G.motion_contains geom isclosed n.geom = 2 then
      some "GEOS exception on PreparedContains"
    else if G.motion_contains oldedge.geom isclosed n.geom ≠
        G.motion_contains geom isclosed n.geom then
      some "Edge motion collision"
    else changeEdgeMotionNodes G oldedge geom isclosed rest

/-- The motion-range check of `rtt_ChangeEdgeGeom`. The C condition
`numnodes > ( 1 + isclosed ? 0 : 1 )` parses as `numnodes > ((1 + isclosed) ? 0 : 1)`,
that is `numnodes > 0`. -/
def changeEdgeMotion (G : GEOM) (T : RTT_TOPOLOGY) (oldedge : RTT_ISO_EDGE) (geom : RTLINE)
    (isclosed : Bool) : Option String :=
  match rtt_be_getNodeWithinBox2D G T (G.gbox_merge (G.bbox oldedge.geom) (G.bbox geom)) with
  | none => some "Backend error"
  | some nodes =>
    if nodes.length > (if 1 + (if isclosed then 1 else 0) ≠ 0 then 0 else 1) then
      if G.motion_area oldedge.geom isclosed = false then
        some "Could not compute edge motion area for old edge"
      else if G.motion_area geom isclosed = false then
        some "Could not compute edge motion area for new edge"
      else changeEdgeMotionNodes G oldedge geom isclosed nodes
    else none

/-- The checks of `rtt_ChangeEdgeGeom` on the end points and the winding of the new
line; a message when one fails. -/
def changeEdgeShape (G : GEOM) (oldedge : RTT_ISO_EDGE) (geom : RTLINE) : Option String :=
  if getPoint2d_p oldedge.geom 0 ≠ getPoint2d_p geom 0 then
    some "SQL/MM Spatial exception - start node not geometry start point."
  else if oldedge.geom.length < 2 then some "Corrupted topology: edge has less than 2 vertices"
  else if geom.length < 2 then some "Invalid edge: less than 2 vertices"
  else if getPoint2d_p geom (geom.length - 1) ≠
      getPoint2d_p oldedge.geom (oldedge.geom.length - 1) then
    some "SQL/MM Spatial exception - end node not geometry end point."
  else if oldedge.start_node = oldedge.end_node then
    if (_rtt_GetInteriorEdgePoint G geom).isNone then
      some "Invalid edge (no two distinct vertices exist)"
    else if G.isccw oldedge.geom ≠ G.isccw geom then some "Edge twist at node"
    else none
  else none

/-- The two `_rtt_FindAdjacentEdges` calls of `rtt_ChangeEdgeGeom` for the edge ends
`span` and `epan` of edge `edge_id`; the answers of the calls are not looked at. -/
def changeEdgeAdjacent (G : GEOM) (T : RTT_TOPOLOGY) (oldedge : RTT_ISO_EDGE)
    (span epan : edgeend) (isclosed : Bool) (edge_id : Int) :
    RTT_TOPOLOGY × edgeend × edgeend :=
  let a := _rtt_FindAdjacentEdges G T oldedge.start_node span
    (if isclosed then some epan else none) edge_id
  let b := _rtt_FindAdjacentEdges G a.1 oldedge.end_node epan
    (if isclosed then some a.2.1 else none) edge_id
  (b.1, a.2.1, b.2.1)

/-- The last part of `rtt_ChangeEdgeGeom`: recompute the MBR of the faces on the two
sides of the edge, the universe face excepted. A face geometry that could not be built
(`NULL`, which the C code does not check before using it) ends the model with `-1`. -/
def changeEdgeFaces (G : GEOM) (T : RTT_TOPOLOGY) (oldedge : RTT_ISO_EDGE) :
    RTT_TOPOLOGY × Int :=
  match (if oldedge.face_left ≠ 0 then
      (rtt_GetFaceGeometry G T oldedge.face_left).map
        (fun b => [({ face_id := oldedge.face_left, mbr := b } : RTT_ISO_FACE)])
    else .ok []) with
  | .error msg => (rterror T msg, -1)
  | .ok faces1 =>
    match (if oldedge.face_right ≠ 0 ∧ oldedge.face_right ≠ oldedge.face_left then
        (rtt_GetFaceGeometry G T oldedge.face_right).map
          (fun b => [({ face_id := oldedge.face_right, mbr := b } : RTT_ISO_FACE)])
      else .ok []) with
    | .error msg => (rterror T msg, -1)
    | .ok faces2 =>
      if (faces1 ++ faces2).length ≠ 0 then
        let u := rtt_be_updateFacesById T (faces1 ++ faces2)
        if u.2 ≠ ((faces1 ++ faces2).length : Int) then
          (rterror u.1 (if u.2 = -1 then "Backend error"
                        else "Unexpected error: faces found when expecting 1"), -1)
        else (u.1, 0)
      else (T, 0)

/-- The part of `rtt_ChangeEdgeGeom` that follows the checks of the new line: note the
neighbours of the two edge ends, store the new geometry, note the neighbours again and
bail out if they changed, then update the face MBRs. -/
def changeEdgeStore (G : GEOM) (T : RTT_TOPOLOGY) (oldedge : RTT_ISO_EDGE) (edge_id : Int)
    (geom : RTLINE) (isclosed : Bool) : RTT_TOPOLOGY × Int :=
  match _rtt_InitEdgeEndByLine G oldedge.geom (getPoint2d_p oldedge.geom 0)
      (getPoint2d_p oldedge.geom (oldedge.geom.length - 1)) with
  | .error msg => (rterror T msg, -1)
  | .ok pre =>
    let a := changeEdgeAdjacent G T oldedge pre.1 pre.2 isclosed edge_id
    let u := rtt_be_updateEdgesById a.1 [{ blankEdge with edge_id := edge_id, geom := geom }]
      [RTT_COL_EDGE.GEOM]
    if u.2 = -1 then (rterror u.1 "Backend error", -1)
    else if u.2 = 0 then (rterror u.1 "Unexpected error: edges updated when expecting 1", -1)
    else
      match _rtt_InitEdgeEndByLine G geom (getPoint2d_p oldedge.geom 0)
          (getPoint2d_p oldedge.geom (oldedge.geom.length - 1)) with
      | .error msg => (rterror u.1 msg, -1)
      | .ok post =>
        let b := changeEdgeAdjacent G u.1 oldedge post.1 post.2 isclosed edge_id
        if a.2.1.nextCW ≠ b.2.1.nextCW ∨ a.2.1.nextCCW ≠ b.2.1.nextCCW then
          (rterror b.1 "Edge changed disposition around start node", -1)
        else if a.2.2.nextCW ≠ b.2.2.nextCW ∨ a.2.2.nextCCW ≠ b.2.2.nextCCW then
          (rterror b.1 "Edge changed disposition around end node", -1)
        else changeEdgeFaces G b.1 oldedge

/-- The C function `rtt_ChangeEdgeGeom`. Returns `0` on success, `-1` on error. -/
def rtt_ChangeEdgeGeom (G : GEOM) (T : RTT_TOPOLOGY) (edge_id : Int) (geom : RTLINE) :
    RTT_TOPOLOGY × Int :=
  if G.is_simple geom = false then
    (rterror T "SQL/MM Spatial exception - curve not simple", -1)
  else
    match rtt_be_getEdgeById T [edge_id] with
    | none => (rterror T "Backend error", -1)
    | some [] => (rterror T "SQL/MM Spatial exception - non-existent edge", -1)
    | some (oldedge :: _) =>
      match changeEdgeShape G oldedge geom with
      | some msg => (rterror T msg, -1)
      | none =>
        let c := _rtt_CheckEdgeCrossing G T oldedge.start_node oldedge.end_node geom edge_id
        if c.2 ≠ 0 then (c.1, -1)
        else
          match changeEdgeMotion G c.1 oldedge geom
              (decide (oldedge.start_node = oldedge.end_node)) with
          | some msg => (rterror c.1 msg, -1)
          | none =>
            changeEdgeStore G c.1 oldedge edge_id geom
              (decide (oldedge.start_node = oldedge.end_node))

/-! ## The universe face in the requests to the back end -/

/-- A request that leaves the universe face alone: an insertion, or an MBR update or a
deletion of a face other than face `0`. A failed `assert( of != 0 )` is not one. -/
def benignEvent : BeEvent → Prop
  | BeEvent.insertFace _ => True
  | BeEvent.updateFace id => id ≠ 0
  | BeEvent.deleteFace id => id ≠ 0
  | BeEvent.assertFailed _ => False

instance (ev : BeEvent) : Decidable (benignEvent ev) := by
  cases ev <;> unfold benignEvent <;> infer_instance

/-- Going from `T` to `T'`, the back end was only asked for requests that leave the
universe face alone: the trace of `T'` is the trace of `T` with such requests on top. -/
def universeUntouched (T T' : RTT_TOPOLOGY) : Prop :=
  ∃ new : List BeEvent, T'.events = new ++ T.events ∧ ∀ ev ∈ new, benignEvent ev

end RTTopo

namespace RTTopo

/-! ## More worked states -/

/-- A dangling edge `1` (node `1` to node `2`) in the universe face, a closed edge `3` on
node `5` bounding face `1`, and a dangling edge `2` (node `3` to node `4`) inside
face `1`. -/
def topoInsideOutside : RTT_TOPOLOGY :=
  { emptyTopology with
    nodes := [ { node_id := 1, containing_face := -1, geom := { x := 0, y := 0 } },
               { node_id := 2, containing_face := -1, geom := { x := 10, y := 0 } },
               { node_id := 3, containing_face := -1, geom := { x := 40, y := 0 } },
               { node_id := 4, containing_face := -1, geom := { x := 30, y := 0 } },
               { node_id := 5, containing_face := -1, geom := { x := 20, y := 0 } } ]
    edges := [ { edge_id := 1, start_node := 1, end_node := 2, face_left := 0, face_right := 0,
                 next_left := -1, next_right := 1,
                 geom := [{ x := 0, y := 0 }, { x := 10, y := 0 }] },
               { edge_id := 2, start_node := 3, end_node := 4, face_left := 1, face_right := 1,
                 next_left := -2, next_right := 2,
                 geom := [{ x := 40, y := 0 }, { x := 30, y := 0 }] },
               { edge_id := 3, start_node := 5, end_node := 5, face_left := 1, face_right := 0,
                 next_left := 3, next_right := -3,
                 geom := [{ x := 20, y := 0 }, { x := 50, y := -20 }, { x := 50, y := 20 },
                          { x := 20, y := 0 }] } ]
    faces := [ { face_id := 1, mbr := some { xmin := 20, xmax := 50, ymin := -20, ymax := 20 } } ]
    node_seq := 6, edge_seq := 4, face_seq := 2 }

/-- A corrupted state: the dangling edge `1` (node `1` to node `2`) has face `1` on its
left and face `0` on its right; node `3` is isolated in the universe face. -/
def topoTwoSided : RTT_TOPOLOGY :=
  { emptyTopology with
    nodes := [ { node_id := 1, containing_face := -1, geom := { x := 0, y := 0 } },
               { node_id := 2, containing_face := -1, geom := { x := 10, y := 0 } },
               { node_id := 3, containing_face := 0, geom := { x := 10, y := 10 } } ]
    edges := [ { edge_id := 1, start_node := 1, end_node := 2, face_left := 1, face_right := 0,
                 next_left := -1, next_right := 1,
                 geom := [{ x := 0, y := 0 }, { x := 10, y := 0 }] } ]
    faces := [ { face_id := 1, mbr := some { xmin := 0, xmax := 10, ymin := 0, ymax := 10 } } ]
    node_seq := 4, edge_seq := 2, face_seq := 2 }

/-- The edge `1` of `topoOneEdge` (node `1` to node `2`) and a third node, isolated in
the universe face. -/
def topoEdgeAndNode : RTT_TOPOLOGY :=
  { topoOneEdge with
    nodes := topoOneEdge.nodes ++
      [ { node_id := 3, containing_face := 0, geom := { x := 10, y := 10 } } ]
    node_seq := 4 }

/-- The kernel `testKernel` with a metric point-to-point test: two points are within
distance `d` when the square of their distance is at most the square of `d`. -/
def metricKernel : GEOM :=
  { testKernel with
    pt_dwithin := fun p q d => decide ((p.x - q.x) ^ 2 + (p.y - q.y) ^ 2 ≤ d ^ 2) }

/-- The state `topoOneEdge` with a precision of two units. -/
def topoOneEdgeCoarse : RTT_TOPOLOGY :=
  { topoOneEdge with precision := 2 }

/-- Twice the signed area of a closed vertex sequence (shoelace sum): positive when the
ring winds counterclockwise. -/
def signedArea2 : POINTARRAY → Int
  | p :: q :: rest => p.x * q.y - q.x * p.y + signedArea2 (q :: rest)
  | _ => 0

/-- The kernel `testKernel` with the winding of a ring taken from its signed area. -/
def windingKernel : GEOM :=
  { testKernel with isccw := fun pa => decide (0 < signedArea2 pa) }

/-- Seed scenario 3: the state reached from `topoOneEdge` (seed scenario 2) by
`rtt_AddEdgeModFace(1, 2, LINESTRING(0 0, 5 5, 10 0))`. -/
def topoScenario3 : RTT_TOPOLOGY :=
  (rtt_AddEdgeModFace windingKernel topoOneEdge 1 2 [⟨0, 0⟩, ⟨5, 5⟩, ⟨10, 0⟩] false).1

end RTTopo

namespace RTTopo

/-! ## Effects of `_rtt_RemEdge` on the rows -/

/-- The columns of an edge row other than the linkage. -/
def faceView (e : RTT_ISO_EDGE) : Int × Int × Int × Int × Int × RTLINE :=
  (e.edge_id, e.start_node, e.end_node, e.face_left, e.face_right, e.geom)

/-- Effect of `_rtt_UpdateEdgeFaceRef(of, nf)` on one edge row. -/
def faceRefEdge (of nf : Int) (e : RTT_ISO_EDGE) : RTT_ISO_EDGE :=
  { e with
    face_left := if e.face_left = of then nf else e.face_left
    face_right := if e.face_right = of then nf else e.face_right }

/-- Effect of `_rtt_UpdateNodeFaceRef(of, nf)` on one node row. -/
def faceRefNode (of nf : Int) (n : RTT_ISO_NODE) : RTT_ISO_NODE :=
  { n with containing_face := if n.containing_face = of then nf else n.containing_face }

/-- Effect on one node row of the `updateNodesById` request of `_rtt_RemEdge`: an end
node of the removed edge on which no other edge was counted gets the flood face. -/
def remEdgeNode (edge : RTT_ISO_EDGE) (fnode_edges lnode_edges : Nat) (floodface : Int)
    (n : RTT_ISO_NODE) : RTT_ISO_NODE :=
  if (fnode_edges = 0 ∧ n.node_id = edge.start_node) ∨
      (edge.end_node ≠ edge.start_node ∧ lnode_edges = 0 ∧ n.node_id = edge.end_node) then
    { n with containing_face := floodface }
  else n

/-- The edge table after the linkage updates of `_rtt_RemEdge` for the stored row `edge`
fetched with id `edge_id`. -/
def remEdgeRelinked (es : List RTT_ISO_EDGE) (edge : RTT_ISO_EDGE) (edge_id : Int) :
    List RTT_ISO_EDGE :=
  ((es.filter (fun e =>
      decide (e.start_node ∈ (if edge.end_node ≠ edge.start_node
        then [edge.start_node, edge.end_node] else [edge.start_node])) ||
      decide (e.end_node ∈ (if edge.end_node ≠ edge.start_node
        then [edge.start_node, edge.end_node] else [edge.start_node])))).filterMap
    (remEdgeRightUpdate edge edge_id)).foldl (updateEdgeById [RTT_COL_EDGE.NEXT_RIGHT])
  (((es.filter (fun e =>
      decide (e.start_node ∈ (if edge.end_node ≠ edge.start_node
        then [edge.start_node, edge.end_node] else [edge.start_node])) ||
      decide (e.end_node ∈ (if edge.end_node ≠ edge.start_node
        then [edge.start_node, edge.end_node] else [edge.start_node])))).filterMap
    (remEdgeLeftUpdate edge edge_id)).foldl (updateEdgeById [RTT_COL_EDGE.NEXT_LEFT]) es)

/-- The face ids `_rtt_RemEdge` asks the back end to delete when the two sides of the
removed edge differ: the right and the left face, the flood face excepted. -/
def remEdgeGone (edge : RTT_ISO_EDGE) (floodface : Int) : List Int :=
  (if edge.face_right ≠ floodface then [edge.face_right] else []) ++
  (if edge.face_left ≠ floodface then [edge.face_left] else [])

/-- The rows `_rtt_RemEdge` collects for the linkage updates fit the arrays
`upd_edge_left[2]` and `upd_edge_right[2]` of the C function, which are filled without a
bound check: among the edges on the end nodes of the edge stored under `edge_id`, at most
two get a new `next_left` and at most two a new `next_right`. -/
def relinkFits (T : RTT_TOPOLOGY) (edge_id : Int) : Prop :=
  match edgeRow T.edges edge_id with
  | none => True
  | some edge =>
    ((T.edges.filter (fun e =>
        decide (e.start_node ∈ (if edge.end_node ≠ edge.start_node
          then [edge.start_node, edge.end_node] else [edge.start_node])) ||
        decide (e.end_node ∈ (if edge.end_node ≠ edge.start_node
          then [edge.start_node, edge.end_node] else [edge.start_node])))).filterMap
      (remEdgeLeftUpdate edge edge_id)).length ≤ 2 ∧
    ((T.edges.filter (fun e =>
        decide (e.start_node ∈ (if edge.end_node ≠ edge.start_node
          then [edge.start_node, edge.end_node] else [edge.start_node])) ||
        decide (e.end_node ∈ (if edge.end_node ≠ edge.start_node
          then [edge.start_node, edge.end_node] else [edge.start_node])))).filterMap
      (remEdgeRightUpdate edge edge_id)).length ≤ 2

instance (T : RTT_TOPOLOGY) (edge_id : Int) : Decidable (relinkFits T edge_id) := by
  unfold relinkFits
  cases edgeRow T.edges edge_id <;> infer_instance

end RTTopo

namespace RTTopo

/-! ## Isolated nodes and edges: `rtt_MoveIsoNode`, `rtt_RemoveIsoNode`, `rtt_RemIsoEdge` -/

/-- The C function `_rtt_GetIsoNode`: the first row fetched for `nid`, provided its
`containing_face` is set; nothing after `rterror`. -/
def _rtt_GetIsoNode (T : RTT_TOPOLOGY) (nid : Int) : RTT_TOPOLOGY × Option RTT_ISO_NODE :=
  match rtt_be_getNodeById T [nid] with
  | none => (rterror T "Backend error", none)
  | some [] => (rterror T "SQL/MM Spatial exception - non-existent node", none)
  | some (node :: _) =>
    if node.containing_face = -1 then
      (rterror T "SQL/MM Spatial exception - not isolated node", none)
    else (T, some node)

/-- The C function `rtt_MoveIsoNode`: `0` on success, `-1` on error. -/
def rtt_MoveIsoNode (G : GEOM) (T : RTT_TOPOLOGY) (nid : Int) (pt : POINT2D) :
    RTT_TOPOLOGY × Int :=
  let r := _rtt_GetIsoNode T nid
  match r.2 with
  | none => (r.1, -1)
  | some node =>
    let c1 := rtt_be_ExistsCoincidentNode G r.1 pt
    if c1.2 ≠ 0 then (rterror c1.1 "SQL/MM Spatial exception - coincident node", -1)
    else
      let c2 := rtt_be_ExistsEdgeIntersectingPoint G c1.1 pt
      if c2.2 ≠ 0 then (rterror c2.1 "SQL/MM Spatial exception - edge crosses node.", -1)
      else
        let u := rtt_be_updateNodesById c2.1 [{ node with node_id := nid, geom := pt }]
          [RTT_COL_NODE.GEOM]
        if u.2 = -1 then (rterror u.1 "Backend error", -1)
        else (u.1, 0)

/-- The C function `rtt_RemoveIsoNode`: `0` on success, `-1` on error. -/
def rtt_RemoveIsoNode (T : RTT_TOPOLOGY) (nid : Int) : RTT_TOPOLOGY × Int :=
  let r := _rtt_GetIsoNode T nid
  match r.2 with
  | none => (r.1, -1)
  | some _ =>
    let d := rtt_be_deleteNodesById r.1 [nid]
    if d.2 = -1 then (rterror d.1 "Backend error", -1)
    else if d.2 ≠ 1 then
      (rterror d.1 "Unexpected error: nodes deleted when expecting 1", -1)
    else (d.1, 0)

/-- The C function `rtt_RemIsoEdge`: `0` on success, `-1` on error. An empty answer of
`getEdgeById` is refused (as a back-end error when the array is `NULL`, as a non-existent
edge otherwise). -/
def rtt_RemIsoEdge (T : RTT_TOPOLOGY) (id : Int) : RTT_TOPOLOGY × Int :=
  match rtt_be_getEdgeById T [id] with
  | none => (rterror T "Backend error", -1)
  | some [] => (rterror T "SQL/MM Spatial exception - non-existent edge", -1)
  | some (edge :: more) =>
    if more.length ≠ 0 then
      (rterror T "Corrupted topology: more than a single edge have id", -1)
    else if edge.face_left ≠ edge.face_right then
      (rterror T "SQL/MM Spatial exception - not isolated edge", -1)
    else
      match rtt_be_getEdgeByNode T [edge.start_node, edge.end_node] with
      | none => (rterror T "Backend error", -1)
      | some es =>
        if es.any (fun e => !decide (e.edge_id = id)) then
          (rterror T "SQL/MM Spatial exception - not isolated edge", -1)
        else
          let d := rtt_be_deleteEdges T { blankEdge with edge_id := id } [RTT_COL_EDGE.EDGE_ID]
          if d.2 = -1 then (rterror d.1 "Backend error", -1)
          else if d.2 ≠ 1 then
            (rterror d.1 "Unexpected error: edges deleted when expecting 1", -1)
          else
            let upd_node : List RTT_ISO_NODE :=
              { blankNode with node_id := edge.start_node, containing_face := edge.face_left } ::
              (if edge.end_node ≠ edge.start_node then
                [{ blankNode with node_id := edge.end_node,
                                  containing_face := edge.face_left }]
               else [])
            let u := rtt_be_updateNodesById d.1 upd_node [RTT_COL_NODE.CONTAINING_FACE]
            if u.2 = -1 then (rterror u.1 "Backend error", -1)
            else (u.1, 0)

/-! ## Sequences of editing calls -/

/-- One call of an editing function of the library, with its arguments. -/
inductive TopoCall where
  | addIsoNode (face : Int) (pt : POINT2D) (skipISOChecks : Bool)
  | addIsoEdge (startNode endNode : Int) (geom : RTLINE)
  | addEdgeModFace (start_node end_node : Int) (geom : RTLINE) (skipChecks : Bool)
  | addEdgeNewFaces (start_node end_node : Int) (geom : RTLINE) (skipChecks : Bool)
  | modEdgeSplit (edge : Int) (pt : POINT2D) (skipISOChecks : Bool)
  | newEdgesSplit (edge : Int) (pt : POINT2D) (skipISOChecks : Bool)
  | moveIsoNode (nid : Int) (pt : POINT2D)
  | removeIsoNode (nid : Int)
  | remIsoEdge (id : Int)
  | remEdgeModFace (edge_id : Int)
  | remEdgeNewFace (edge_id : Int)
  | modEdgeHeal (e1 e2 : Int)
  | newEdgeHeal (e1 e2 : Int)
deriving DecidableEq, Repr

/-- Run one call on a state. -/
def TopoCall.run (G : GEOM) (T : RTT_TOPOLOGY) : TopoCall → RTT_TOPOLOGY × Int
  | .addIsoNode face pt skipISOChecks => rtt_AddIsoNode G T face pt skipISOChecks
  | .addIsoEdge startNode endNode geom => rtt_AddIsoEdge G T startNode endNode geom
  | .addEdgeModFace s e geom skipChecks => rtt_AddEdgeModFace G T s e geom skipChecks
  | .addEdgeNewFaces s e geom skipChecks => rtt_AddEdgeNewFaces G T s e geom skipChecks
  | .modEdgeSplit edge pt skipISOChecks => rtt_ModEdgeSplit G T edge pt skipISOChecks
  | .newEdgesSplit edge pt skipISOChecks => rtt_NewEdgesSplit G T edge pt skipISOChecks
  | .moveIsoNode nid pt => rtt_MoveIsoNode G T nid pt
  | .removeIsoNode nid => rtt_RemoveIsoNode T nid
  | .remIsoEdge id => rtt_RemIsoEdge T id
  | .remEdgeModFace edge_id => rtt_RemEdgeModFace G T edge_id
  | .remEdgeNewFace edge_id => rtt_RemEdgeNewFace G T edge_id
  | .modEdgeHeal e1 e2 => rtt_ModEdgeHeal T e1 e2
  | .newEdgeHeal e1 e2 => rtt_NewEdgeHeal T e1 e2

/-- Does the call leave the end-node checks of `_rtt_AddEdge` on (`skipChecks = 0`)?
Calls of the other functions always count as checked. -/
def TopoCall.checked : TopoCall → Bool
  | .addEdgeModFace _ _ _ skipChecks => !skipChecks
  | .addEdgeNewFaces _ _ _ skipChecks => !skipChecks
  | _ => true

/-- Run a sequence of calls from `T`; the state reached when every call succeeds (none
returns `-1`), nothing otherwise. -/
def runCalls (G : GEOM) : RTT_TOPOLOGY → List TopoCall → Option RTT_TOPOLOGY
  | T, [] => some T
  | T, c :: cs => if (c.run G T).2 = -1 then none else runCalls G (c.run G T).1 cs

/-- The node isolation invariant: `containing_face` is set on exactly the nodes no stored
edge starts or ends on. -/
def nodeIsolation (T : RTT_TOPOLOGY) : Prop :=
  ∀ n ∈ T.nodes, n.containing_face ≠ -1 ↔
    ∀ e ∈ T.edges, e.start_node ≠ n.node_id ∧ e.end_node ≠ n.node_id

instance (T : RTT_TOPOLOGY) : Decidable (nodeIsolation T) := by
  unfold nodeIsolation; infer_instance

/-- The identifier and the end nodes of an edge row. -/
def endView (e : RTT_ISO_EDGE) : Int × Int × Int := (e.edge_id, e.start_node, e.end_node)

/-- The identifier of a node row and whether its `containing_face` is unset. -/
def nodeFlag (n : RTT_ISO_NODE) : Int × Bool := (n.node_id, decide (n.containing_face = -1))

/-- The facts about a state that the editors rely on to keep the node isolation invariant:
the invariant itself, set face columns on every edge, identifiers below the sequences,
distinct edge identifiers, distinct node identifiers and a positive face sequence. -/
def isoSound (T : RTT_TOPOLOGY) : Prop :=
  nodeIsolation T ∧
  (∀ e ∈ T.edges, e.face_left ≠ -1 ∧ e.face_right ≠ -1) ∧
  (∀ e ∈ T.edges, e.edge_id < T.edge_seq ∧ e.start_node < T.node_seq ∧
    e.end_node < T.node_seq) ∧
  (T.edges.map (fun e => e.edge_id)).Nodup ∧
  (∀ n ∈ T.nodes, n.node_id < T.node_seq) ∧
  (T.nodes.map (fun n => n.node_id)).Nodup ∧
  0 < T.face_seq

/-- Node rows with the same identifier agree on whether `containing_face` is set. -/
def flagConsistent (T : RTT_TOPOLOGY) : Prop :=
  ∀ n ∈ T.nodes, ∀ m ∈ T.nodes, n.node_id = m.node_id →
    n.containing_face = -1 → m.containing_face = -1

/-- What the face-split steps need of a state: consistent node flags, a positive face
sequence and set face columns on every edge. -/
def isoPre (T : RTT_TOPOLOGY) : Prop :=
  flagConsistent T ∧ 0 < T.face_seq ∧ ∀ e ∈ T.edges, e.face_left ≠ -1 ∧ e.face_right ≠ -1

/-- A step from `T` to `T'` that, started where `isoPre` holds, ends where it holds and
keeps the identifiers of the node rows, which of them have `containing_face` set, and
the node and edge sequences. -/
def sideStep (T T' : RTT_TOPOLOGY) : Prop :=
  isoPre T → isoPre T' ∧ T'.nodes.map nodeFlag = T.nodes.map nodeFlag ∧
    T'.node_seq = T.node_seq ∧ T'.edge_seq = T.edge_seq

/-- A step that keeps the node table, the sequences, and every column of the edge rows
but the linkage. -/
def endsKept (T T' : RTT_TOPOLOGY) : Prop :=
  T'.edges.map faceView = T.edges.map faceView ∧ T'.nodes = T.nodes ∧
  T'.node_seq = T.node_seq ∧ T'.edge_seq = T.edge_seq ∧ T'.face_seq = T.face_seq

/-- The rows of a face-split scan carry the face `nf` on the side they are written to. -/
def scanCarries (nf : Int) (s : FaceSplitScan) : Prop :=
  (∀ u ∈ s.forward_edges, u.face_left = nf) ∧ (∀ u ∈ s.backward_edges, u.face_right = nf)

/-- Three calls, the second of which skips the checks of `_rtt_AddEdge` and names an end
node that is not stored. -/
def callsSkipping : List TopoCall :=
  [ .addIsoNode (-1) { x := 0, y := 0 } false,
    .addEdgeModFace 1 2 [{ x := 0, y := 0 }, { x := 10, y := 10 }] true,
    .addIsoNode (-1) { x := 5, y := 0 } false ]

/-- The state reached by `callsSkipping` from the empty topology: node `2` has
`containing_face = 0` and edge `1` ends on it. -/
def topoDanglingEnd : RTT_TOPOLOGY :=
  { nodes := [{ node_id := 1, containing_face := -1, geom := { x := 0, y := 0 } },
              { node_id := 2, containing_face := 0, geom := { x := 5, y := 0 } }],
    edges := [{ edge_id := 1, start_node := 1, end_node := 2, face_left := 0,
                face_right := 0, next_left := -1, next_right := 1,
                geom := [{ x := 0, y := 0 }, { x := 10, y := 10 }] }],
    faces := [], node_seq := 3, edge_seq := 2, face_seq := 1,
    precision := 0, failing := [], events := [], errors := [] }

/-- Three calls with the checks on: two isolated nodes and an edge between them. -/
def callsChecked : List TopoCall :=
  [ .addIsoNode (-1) { x := 0, y := 0 } false,
    .addIsoNode (-1) { x := 10, y := 10 } false,
    .addEdgeModFace 1 2 [{ x := 0, y := 0 }, { x := 10, y := 10 }] false ]

/-- The state reached by `callsChecked` from the empty topology. -/
def topoCheckedEdge : RTT_TOPOLOGY :=
  { nodes := [{ node_id := 1, containing_face := -1, geom := { x := 0, y := 0 } },
              { node_id := 2, containing_face := -1, geom := { x := 10, y := 10 } }],
    edges := [{ edge_id := 1, start_node := 1, end_node := 2, face_left := 0,
                face_right := 0, next_left := -1, next_right := 1,
                geom := [{ x := 0, y := 0 }, { x := 10, y := 10 }] }],
    faces := [], node_seq := 3, edge_seq := 2, face_seq := 1,
    precision := 0, failing := [], events := [], errors := [] }

end RTTopo

namespace RTTopo

/-! ## Adding an edge and removing it again -/

/-- The face on the left of a signed edge: `face_left` of the row for a positive id,
`face_right` for a negative one; `-1` when the row is missing. -/
def sideFace (es : List RTT_ISO_EDGE) (h : Int) : Int :=
  match edgeRow es (if 0 < h then h else -h) with
  | some e => if 0 < h then e.face_left else e.face_right
  | none => -1

/-- Every signed edge has the same face on its left as its successor: a ring bounds one
face. -/
def RingFaces (es : List RTT_ISO_EDGE) : Prop :=
  ∀ e ∈ es, sideFace es e.next_left = e.face_left ∧ sideFace es e.next_right = e.face_right

instance (es : List RTT_ISO_EDGE) : Decidable (RingFaces es) := by
  unfold RingFaces; infer_instance

/-- Effect of the two link requests of `_rtt_AddEdge` for the new edge `k` on one row:
the row of `prev_right` gets `-k` as successor, the row of `prev_left` gets `k`. -/
def addEdgeRow (k pl pr : Int) (e : RTT_ISO_EDGE) : RTT_ISO_EDGE :=
  { e with
    next_left :=
      if llabs pr ≠ k ∧ 0 < pr ∧ e.edge_id = pr then -k
      else if llabs pl ≠ k ∧ 0 < pl ∧ e.edge_id = pl then k
      else e.next_left
    next_right :=
      if llabs pr ≠ k ∧ ¬ 0 < pr ∧ e.edge_id = -pr then -k
      else if llabs pl ≠ k ∧ ¬ 0 < pl ∧ e.edge_id = -pl then k
      else e.next_right }

/-- The faces named by an adjacency analysis are the faces stored on the neighbours it
names: `cwFace` is the face on the left of the clockwise neighbour, `ccwFace` the face on
the right of the counterclockwise neighbour; without a neighbour the face is unset. -/
def neighbourFaces (es : List RTT_ISO_EDGE) (d : edgeend) : Prop :=
  (if d.nextCW = 0 then d.cwFace = -1 else d.cwFace = sideFace es d.nextCW) ∧
  (if d.nextCCW = 0 then d.ccwFace = -1 else d.ccwFace = sideFace es (-d.nextCCW))

/-- Effect of the two by-id requests of `_rtt_AddFaceSplit` on one edge row: the rows
listed in `fw` get the new face on the left, those listed in `bw` on the right. -/
def faceSplitRow (nf : Int) (fw bw : List Int) (e : RTT_ISO_EDGE) : RTT_ISO_EDGE :=
  { e with
    face_left := if e.edge_id ∈ fw then nf else e.face_left
    face_right := if e.edge_id ∈ bw then nf else e.face_right }

/-- Effect of the by-id request of `_rtt_AddFaceSplit` on one node row. -/
def faceSplitNode (nf : Int) (ids : List Int) (n : RTT_ISO_NODE) : RTT_ISO_NODE :=
  { n with containing_face := if n.node_id ∈ ids then nf else n.containing_face }

/-- A step that leaves the rows, the face identifiers, the sequences and the error log as
they are (the MBR of a face may change). -/
def idleStep (A B : RTT_TOPOLOGY) : Prop :=
  B.edges = A.edges ∧ B.nodes = A.nodes ∧
  B.faces.map (fun f => f.face_id) = A.faces.map (fun f => f.face_id) ∧
  B.face_seq = A.face_seq ∧ B.edge_seq = A.edge_seq ∧ B.node_seq = A.node_seq ∧
  B.failing = A.failing ∧ B.errors = A.errors

/-- A face split of face `f` along the ring of `sedge` that went through: one face was
added under the next identifier `nf` of the sequence, the sides of some edge rows and
some isolated nodes moved from `f` to `nf`, and the side of `sedge` itself is among them
while its other side is not. -/
def faceMade (f sedge : Int) (A B : RTT_TOPOLOGY) : Prop :=
  B.face_seq = A.face_seq + 1 ∧
  B.faces.map (fun f => f.face_id) = A.faces.map (fun f => f.face_id) ++ [A.face_seq] ∧
  B.edge_seq = A.edge_seq ∧ B.node_seq = A.node_seq ∧
  B.failing = A.failing ∧ B.errors = A.errors ∧
  ∃ fw bw ns : List Int,
    B.edges = A.edges.map (faceSplitRow A.face_seq fw bw) ∧
    B.nodes = A.nodes.map (faceSplitNode A.face_seq ns) ∧
    (∀ i ∈ fw, ∀ e ∈ A.edges, e.edge_id = i → e.face_left = f) ∧
    (∀ i ∈ bw, ∀ e ∈ A.edges, e.edge_id = i → e.face_right = f) ∧
    (∀ i ∈ ns, ∀ n ∈ A.nodes, n.node_id = i → n.containing_face = f) ∧
    (0 < sedge → sedge ∈ fw ∧ sedge ∉ bw) ∧
    (¬ 0 < sedge → -sedge ∈ bw ∧ -sedge ∉ fw)

/-- A step that allocates no face identifier and takes nothing off the error log. -/
def logKept (A B : RTT_TOPOLOGY) : Prop :=
  A.errors.length ≤ B.errors.length ∧ B.face_seq = A.face_seq

/-- A step that takes nothing off the error log and does not lower the face sequence. -/
def logGrows (A B : RTT_TOPOLOGY) : Prop :=
  A.errors.length ≤ B.errors.length ∧ A.face_seq ≤ B.face_seq

end RTTopo

namespace RTTopo

/-! ## States and relations for the cases of `_rtt_AddFaceSplit` -/

/-- Smallest box holding the vertices of a point array. -/
def boundsOf : POINTARRAY → GBOX
  | [] => { xmin := 0, xmax := 0, ymin := 0, ymax := 0 }
  | p :: rest =>
    rest.foldl
      (fun b q => { xmin := min b.xmin q.x, xmax := max b.xmax q.x,
                    ymin := min b.ymin q.y, ymax := max b.ymax q.y })
      { xmin := p.x, xmax := p.x, ymin := p.y, ymax := p.y }

/-- The kernel `windingKernel` with the box of a point array computed from its vertices. -/
def boxKernel : GEOM :=
  { windingKernel with bbox := boundsOf }

/-- A closed edge `1` on node `1`, wound counterclockwise, stored with the universe face on
both sides: the state `_rtt_AddEdge` has reached when it calls `_rtt_AddFaceSplit`. -/
def topoLoop : RTT_TOPOLOGY :=
  { emptyTopology with
    nodes := [ { node_id := 1, containing_face := -1, geom := { x := 0, y := 0 } } ]
    edges := [ { edge_id := 1, start_node := 1, end_node := 1, face_left := 0, face_right := 0,
                 next_left := 1, next_right := -1,
                 geom := [{ x := 0, y := 0 }, { x := 10, y := 0 }, { x := 0, y := 10 },
                          { x := 0, y := 0 }] } ]
    node_seq := 2, edge_seq := 2 }

/-- Face `1` bounded by the closed edge `1` (counterclockwise, on node `1`), and inside it
the closed edge `2` on node `2`, wound clockwise and stored with face `1` on both sides:
the state `_rtt_AddEdge` has reached when it calls `_rtt_AddFaceSplit` for edge `2`. -/
def topoHole : RTT_TOPOLOGY :=
  { emptyTopology with
    nodes := [ { node_id := 1, containing_face := -1, geom := { x := 0, y := 0 } },
               { node_id := 2, containing_face := -1, geom := { x := 20, y := 20 } } ]
    edges := [ { edge_id := 1, start_node := 1, end_node := 1, face_left := 1, face_right := 0,
                 next_left := 1, next_right := -1,
                 geom := [{ x := 0, y := 0 }, { x := 100, y := 0 }, { x := 0, y := 100 },
                          { x := 0, y := 0 }] },
               { edge_id := 2, start_node := 2, end_node := 2, face_left := 1, face_right := 1,
                 next_left := 2, next_right := -2,
                 geom := [{ x := 20, y := 20 }, { x := 20, y := 30 }, { x := 30, y := 20 },
                          { x := 20, y := 20 }] } ]
    faces := [ { face_id := 1, mbr := some { xmin := 0, xmax := 100, ymin := 0, ymax := 100 } } ]
    node_seq := 3, edge_seq := 3, face_seq := 2 }

/-- The face table is the same in `B` as in `A`, rows and sequence. -/
def facesKept (A B : RTT_TOPOLOGY) : Prop :=
  B.faces = A.faces ∧ B.face_seq = A.face_seq

/-- Nothing but the MBR of face `face` differs between `A` and `B`: the node and edge
tables, the face sequence and the other face rows are the same. -/
def mbrOnlyStep (face : Int) (A B : RTT_TOPOLOGY) : Prop :=
  B.edges = A.edges ∧ B.nodes = A.nodes ∧ B.face_seq = A.face_seq ∧
  (B.faces = A.faces ∨
   ∃ box : GBOX, B.faces = updateFaceById A.faces { face_id := face, mbr := some box })

end RTTopo

namespace RTTopo

/-! ## The verdict of the edge-crossing check, in the words of the specification -/

/-- The specification of the crossing check for one existing edge whose DE-9IM matrix
against the candidate line is `m`: accepted (`none`) when the interiors do not meet
(`m[0] = 'F'`), else `CoincidentEdge` on the pattern `1FFF*FFF2`, else `EdgesOverlap`
when `m[0] = '1'`, else `EdgesCross`; the verdicts are named by the messages the code
reports. -/
def crossingVerdict (m : List Char) : Option String :=
  if m.head? = some 'F' then none
  else if m.take 4 = ['1', 'F', 'F', 'F'] ∧ m.drop 5 = ['F', 'F', 'F', '2'] then
    some "SQL/MM Spatial exception - coincident edge"
  else if m.head? = some '1' then some "Spatial exception - geometry intersects edge"
  else some "SQL/MM Spatial exception - geometry crosses edge"

/-- The specification of `_rtt_CheckEdgeCrossing` for the nodes `nodes` and the edges
`edges` found in the box of the candidate line: a node other than the two end nodes that
the line contains is reported first (`NodeOnEdge`), then the first edge other than
`myself` with a verdict decides. -/
def crossingSpec (G : GEOM) (T : RTT_TOPOLOGY) (start_node end_node : Int) (geom : RTLINE)
    (myself : Int) (nodes : List RTT_ISO_NODE) (edges : List RTT_ISO_EDGE) :
    RTT_TOPOLOGY × Int :=
  if nodes.any (fun n => decide (n.node_id ≠ start_node) && decide (n.node_id ≠ end_node) &&
      decide (G.line_contains geom n.geom ≠ 0)) then
    (rterror T "SQL/MM Spatial exception - geometry crosses a node", -1)
  else
    match (edges.filter (fun ed => decide (ed.edge_id ≠ myself))).findSome?
        (fun ed => (G.relate ed.geom geom).bind crossingVerdict) with
    | some msg => (rterror T msg, -1)
    | none => (T, 0)

/-- A kernel that reports the matrix `1FF0FF102` for the lines that start at the origin
and `FF1FF0102` for the others, and finds the point `(5, 0)` on every line. -/
def crossKernel : GEOM :=
  { testKernel with
    relate := fun a _ =>
      if a.head? = some { x := 0, y := 0 } then some "1FF0FF102".toList
      else some "FF1FF0102".toList
    line_contains := fun _ p => if p = { x := 5, y := 0 } then 1 else 0 }

end RTTopo

namespace RTTopo

/-! ## Worked states for node moves and geometry changes -/

/-- The kernel `testKernel` with azimuths in degrees, clockwise from north, read off the
quadrant of the direction: `0`, `90`, `180`, `270` along the axes and `45`, `135`, `225`,
`315` inside the quadrants. -/
def compassKernel : GEOM :=
  { testKernel with
    azimuth := fun p q =>
      if q.x = p.x ∧ q.y = p.y then none
      else if q.x = p.x then (if p.y < q.y then some 0 else some 180)
      else if q.y = p.y then (if p.x < q.x then some 90 else some 270)
      else if p.x < q.x then (if p.y < q.y then some 45 else some 135)
      else (if p.y < q.y then some 315 else some 225)
    two_pi := 360 }

/-- The kernel `testKernel` with a point-in-face lookup for the triangle of `topoYard`:
face `1` for the points strictly inside it, the universe for the others. -/
def yardKernel : GEOM :=
  { testKernel with
    face_containing := fun _ p => if 0 < p.x ∧ 0 < p.y ∧ p.x + p.y < 100 then 1 else -1 }

/-- Face `1` bounded by the closed edge `1` on node `1` (the triangle with corners
`(0, 0)`, `(100, 0)`, `(0, 100)`), and node `2` isolated in the universe face at
`(200, 200)`. -/
def topoYard : RTT_TOPOLOGY :=
  { emptyTopology with
    nodes := [ { node_id := 1, containing_face := -1, geom := { x := 0, y := 0 } },
               { node_id := 2, containing_face := 0, geom := { x := 200, y := 200 } } ]
    edges := [ { edge_id := 1, start_node := 1, end_node := 1, face_left := 1, face_right := 0,
                 next_left := 1, next_right := -1,
                 geom := [{ x := 0, y := 0 }, { x := 100, y := 0 }, { x := 0, y := 100 },
                          { x := 0, y := 0 }] } ]
    faces := [ { face_id := 1, mbr := some { xmin := 0, xmax := 100, ymin := 0, ymax := 100 } } ]
    node_seq := 3, edge_seq := 2, face_seq := 2 }

/-- The state `topoYard` with one more node: node `3` at `(10, 10)`, isolated inside the
triangle, in face `1`. Node `2` is isolated outside it, in the universe face. -/
def topoYardPair : RTT_TOPOLOGY :=
  { topoYard with
    nodes := topoYard.nodes ++
      [ { node_id := 3, containing_face := 1, geom := { x := 10, y := 10 } } ]
    node_seq := 4 }

/-- The kernel `boxKernel` with azimuths in whole degrees, clockwise from north: `68`,
`79`, `281` and `292` for the four directions of slope `2/5` and `1/5` that occur in
`topoLens`, and the values of `compassKernel` along the axes and the diagonals; with the
DE-9IM matrix of two lines that meet in both end points (`FF1F0F1F2`) or in one
(`FF1F00102`); and with the union of two boxes and the test of a point against a box
computed from the coordinates. -/
def lensKernel : GEOM :=
  { boxKernel with
    azimuth := fun p q =>
      if q.x - p.x = 5 ∧ q.y - p.y = 2 then some 68
      else if q.x - p.x = 5 ∧ q.y - p.y = 1 then some 79
      else if q.x - p.x = -5 ∧ q.y - p.y = 1 then some 281
      else if q.x - p.x = -5 ∧ q.y - p.y = 2 then some 292
      else compassKernel.azimuth p q
    two_pi := 360
    relate := fun a b =>
      if a.head? = b.head? ∧ a.getLast? = b.getLast? then some "FF1F0F1F2".toList
      else some "FF1F00102".toList
    gbox_merge := fun a b =>
      { xmin := min a.xmin b.xmin, xmax := max a.xmax b.xmax,
        ymin := min a.ymin b.ymin, ymax := max a.ymax b.ymax }
    pt_in_box := fun b p =>
      decide (b.xmin ≤ p.x ∧ p.x ≤ b.xmax ∧ b.ymin ≤ p.y ∧ p.y ≤ b.ymax) }

/-- Two edges from node `1` at the origin to node `2` at `(10, 0)`, edge `1` through
`(5, 2)` and edge `2` above it through `(5, 5)`, with face `1` between them, and edge `3`
from node `1` west to node `3` at `(-10, 0)`. Around node `1`, clockwise from north: edge
`2` (45 degrees), edge `1` (68 degrees), edge `3` (270 degrees). -/
def topoLens : RTT_TOPOLOGY :=
  { emptyTopology with
    nodes := [ { node_id := 1, containing_face := -1, geom := { x := 0, y := 0 } },
               { node_id := 2, containing_face := -1, geom := { x := 10, y := 0 } },
               { node_id := 3, containing_face := -1, geom := { x := -10, y := 0 } } ]
    edges := [ { edge_id := 1, start_node := 1, end_node := 2, face_left := 1, face_right := 0,
                 next_left := -2, next_right := 3,
                 geom := [{ x := 0, y := 0 }, { x := 5, y := 2 }, { x := 10, y := 0 }] },
               { edge_id := 2, start_node := 1, end_node := 2, face_left := 0, face_right := 1,
                 next_left := -1, next_right := 1,
                 geom := [{ x := 0, y := 0 }, { x := 5, y := 5 }, { x := 10, y := 0 }] },
               { edge_id := 3, start_node := 1, end_node := 3, face_left := 0, face_right := 0,
                 next_left := -3, next_right := 2,
                 geom := [{ x := 0, y := 0 }, { x := -10, y := 0 }] } ]
    faces := [ { face_id := 1, mbr := some { xmin := 0, xmax := 10, ymin := 0, ymax := 5 } } ]
    node_seq := 4, edge_seq := 4, face_seq := 2 }

end RTTopo

namespace RTTopo

/-! ## `_rtt_FindNextRingEdge`, `_rtt_RotateElemidArray`, `rtt_GetFaceEdges` -/

/-- What `rtgeom_buildarea` hands back for the edges of a face: `NULL` (with or without a
message passed to `rterror`), an empty geometry, a polygon given by its rings (the shell
first), or a geometry that is not a polygon. -/
inductive FaceArea where
  | null (msg : Option String)
  | empty
  | polygon (rings : List POINTARRAY)
  | other
deriving DecidableEq, Repr

/-- The polygon builder of the geometry kernel, as an oracle. -/
structure AREAGEOM where
  /-- The oracle for `rtgeom_buildarea` on the collection of the given lines. -/
  buildarea : List RTLINE → FaceArea

/-- The C function `_rtt_FaceByEdges`: every edge of the list goes into the collection
handed to `rtgeom_buildarea`; without edges the answer is the empty polygon. -/
def _rtt_FaceByEdges (B : AREAGEOM) (edges : List RTT_ISO_EDGE) : FaceArea :=
  if edges.length = 0 then FaceArea.empty
  else B.buildarea (edges.map (fun e => e.geom))

/-- Loop body of `_rtt_FindNextRingEdge`: does the edge cover the ring from vertex `ifrom`
on, forward (its first vertex is the ring vertex and its first vertex other than that one
is the next ring vertex) or else backward (the same from its last vertex)? -/
def ringEdgeMatches (ring : POINTARRAY) (ifrom : Nat) (isoe : RTT_ISO_EDGE) : Bool :=
  let p1 := getPoint2d_p ring ifrom
  let forward : Bool :=
    if getPoint2d_p isoe.geom 0 = p1 then
      match (isoe.geom.drop 1).find? (fun p2 => !decide (p1 = p2)) with
      | some p2 => decide (getPoint2d_p ring (ifrom + 1) = p2)
      | none => false
    else false
  if forward then true
  else if getPoint2d_p isoe.geom (isoe.geom.length - 1) = p1 then
    match (isoe.geom.dropLast.reverse).find? (fun p2 => !decide (p1 = p2)) with
    | some p2 => decide (getPoint2d_p ring (ifrom + 1) = p2)
    | none => false
  else false

/-- The loop of `_rtt_FindNextRingEdge` from index `i` on: edges with the same face on both
sides are skipped, the first edge that matches decides. -/
def findNextRingEdgeFrom (ring : POINTARRAY) (ifrom : Nat) :
    List RTT_ISO_EDGE → Nat → Option Nat
  | [], _ => none
  | isoe :: rest, i =>
    if isoe.face_left = isoe.face_right then findNextRingEdgeFrom ring ifrom rest (i + 1)
    else if ringEdgeMatches ring ifrom isoe then some i
    else findNextRingEdgeFrom ring ifrom rest (i + 1)

/-- The C function `_rtt_FindNextRingEdge`: index of the edge defining the next portion of
the ring from vertex `ifrom`, `none` for the answer `-1`. -/
def _rtt_FindNextRingEdge (ring : POINTARRAY) (ifrom : Nat) (edges : List RTT_ISO_EDGE) :
    Option Nat :=
  findNextRingEdgeFrom ring ifrom edges 0

/-- The loop body of `_rtt_ReverseElemidArray`: `t = ary[from]; ary[from] = ary[to];
ary[to] = t`. -/
def swapElemid (ary : List Int) (i j : Int) : List Int :=
  (ary.set i.toNat (ary.getD j.toNat 0)).set j.toNat (ary.getD i.toNat 0)

/-- The `while (from < to)` loop of `_rtt_ReverseElemidArray`, with fuel. -/
def reverseElemidLoop : Nat → List Int → Int → Int → List Int
  | 0, ary, _, _ => ary
  | fuel + 1, ary, ifrom, ito =>
    if ifrom < ito then
      reverseElemidLoop fuel (swapElemid ary ifrom ito) (ifrom + 1) (ito - 1)
    else ary

/-- The C function `_rtt_ReverseElemidArray`: swap the values at `from` and `to` and move
both indexes inward while `from < to`. The distance of the indexes is fuel enough. -/
def _rtt_ReverseElemidArray (ary : List Int) (ifrom ito : Int) : List Int :=
  reverseElemidLoop (ito - ifrom).toNat ary ifrom ito

/-- The C function `_rtt_RotateElemidArray`. -/
def _rtt_RotateElemidArray (ary : List Int) (ifrom ito rotidx : Int) : List Int :=
  _rtt_ReverseElemidArray
    (_rtt_ReverseElemidArray (_rtt_ReverseElemidArray ary ifrom (rotidx - 1)) rotidx (ito - 1))
    ifrom (ito - 1)

/-- The signed id `rtt_GetFaceEdges` writes for a matched edge. -/
def faceEdgeSigned (face_id : Int) (nextedge : RTT_ISO_EDGE) : Int :=
  if nextedge.face_left = face_id then nextedge.edge_id else -nextedge.edge_id

/-- The `while ( j < ring->npoints-1 )` loop of `rtt_GetFaceEdges`, with fuel: find the
edge covering the ring from vertex `j`, move `j` to its other end, append its signed id
and set both faces of the row to `-1`. `none` when the fuel is used up, a message when no
edge is found. -/
def faceRingLoop (face_id : Int) (ring : POINTARRAY) :
    Nat → Nat → List RTT_ISO_EDGE → List Int →
    Option (Except String (List RTT_ISO_EDGE × List Int))
  | 0, _, _, _ => none
  | fuel + 1, j, edges, seid =>
    if j + 1 < ring.length then
      match _rtt_FindNextRingEdge ring j edges with
      | none => some (.error "No edge found to be defining geometry of face")
      | some edgeno =>
        faceRingLoop face_id ring fuel
          (j + ((edges.getD edgeno blankEdge).geom.length - 1))
          (edges.set edgeno
            { edges.getD edgeno blankEdge with face_left := -1, face_right := -1 })
          (seid ++ [faceEdgeSigned face_id (edges.getD edgeno blankEdge)])
    else some (.ok (edges, seid))

/-- The search for the smallest absolute id in `seid[prevseid .. nseid-1]`: the running
`minid` (with `0` for "none yet") and `minidx`. -/
def faceRingMin (seid : List Int) (prevseid nseid : Nat) : Int × Nat :=
  (List.range' prevseid (nseid - prevseid)).foldl
    (fun (m : Int × Nat) j =>
      if m.1 = 0 ∨ llabs (seid.getD j 0) < m.1 then (llabs (seid.getD j 0), j) else m)
    (0, 0)

/-- The "scroll" step of `rtt_GetFaceEdges` for the ids `seid[prevseid .. nseid-1]` of one
ring. -/
def faceRingScroll (seid : List Int) (prevseid nseid : Nat) : List Int :=
  if (nseid : Int) - (prevseid : Int) > 1 then
    if (faceRingMin seid prevseid nseid).2 ≠ prevseid then
      _rtt_RotateElemidArray seid prevseid nseid (faceRingMin seid prevseid nseid).2
    else seid
  else seid

/-- The loop of `rtt_GetFaceEdges` over the rings of the face polygon. The inner loop gets
one unit of fuel more than there are edges. -/
def faceRings (face_id : Int) :
    List POINTARRAY → List RTT_ISO_EDGE → List Int → Option (Except String (List Int))
  | [], _, seid => some (.ok seid)
  | ring :: rest, edges, seid =>
    match faceRingLoop face_id ring (edges.length + 1) 0 edges seid with
    | none => none
    | some (.error msg) => some (.error msg)
    | some (.ok r) =>
      faceRings face_id rest r.1 (faceRingScroll r.2 seid.length r.2.length)

/-- The C function `rtt_GetFaceEdges`: the state, the number of signed ids (`-1` on
error) and the array of signed ids. -/
def rtt_GetFaceEdges (G : GEOM) (B : AREAGEOM) (T : RTT_TOPOLOGY) (face_id : Int) :
    RTT_TOPOLOGY × Int × List Int :=
  match rtt_be_getEdgeByFace G T [face_id] none with
  | none => (rterror T "Backend error", -1, [])
  | some edges =>
    if edges.length = 0 then (T, 0, [])
    else
      match _rtt_FaceByEdges B edges with
      | FaceArea.null none => (T, -1, [])
      | FaceArea.null (some msg) => (rterror T msg, -1, [])
      | FaceArea.empty => (T, 0, [])
      | FaceArea.other => (rterror T "Geometry of face is not a polygon", -1, [])
      | FaceArea.polygon rings =>
        match faceRings face_id (if face_id ≠ 0 then rings.map List.reverse else rings)
            edges [] with
        | none => (T, -1, [])
        | some (.error msg) => (rterror T msg, -1, [])
        | some (.ok seid) => (T, (seid.length : Int), seid)

/-- An edge row `_rtt_FindNextRingEdge` still looks at: its two faces differ. -/
def ringEdgeLive (e : RTT_ISO_EDGE) : Bool :=
  decide (e.face_left ≠ e.face_right)

/-- The first id of a block of signed ids has the smallest absolute value of the block. -/
def smallestFirst (b : List Int) : Prop :=
  ∀ h ∈ b.head?, ∀ x ∈ b, llabs h ≤ llabs x

/-- The matched sequences of the rings, one block for each ring: what the inner loop of
`rtt_GetFaceEdges` appends for a ring before the block is scrolled. -/
def faceRingBlocks (face_id : Int) :
    List POINTARRAY → List RTT_ISO_EDGE → Option (List (List Int))
  | [], _ => some []
  | ring :: rest, edges =>
    match faceRingLoop face_id ring (edges.length + 1) 0 edges [] with
    | some (.ok r) => (faceRingBlocks face_id rest r.1).map (fun bs => r.2 :: bs)
    | _ => none

/-- A polygon builder that answers the triangle of `topoScenario3` for every input, its
ring starting at `(10, 0)` and wound clockwise. -/
def roofArea : AREAGEOM :=
  { buildarea := fun _ =>
      FaceArea.polygon [[{ x := 10, y := 0 }, { x := 0, y := 0 }, { x := 5, y := 5 },
        { x := 10, y := 0 }]] }

end RTTopo

namespace RTTopo

/-! ## `rtt_AddPoint` -/

/-- The measuring and snapping functions of the geometry kernel that `rtt_AddPoint` uses,
as oracles. Distances and tolerances are abstract stand-ins for the C doubles. -/
structure SNAPGEOM where
  /-- The oracle for `_rtt_minTolerance` of a point. -/
  min_tolerance : POINT2D → Int
  /-- The oracle for `rtgeom_mindistance2d` of a point and a point. -/
  pt_distance : POINT2D → POINT2D → Int
  /-- The oracle for `rtgeom_mindistance2d` of a line and a point. -/
  line_distance : RTLINE → POINT2D → Int
  /-- The oracle for `rtgeom_closest_point(line, point)`. -/
  closest_point : RTLINE → POINT2D → POINT2D
  /-- The oracle for `RTGEOM2GEOS` on a point: does it succeed? -/
  geos_point : POINT2D → Bool
  /-- The oracle for `GEOSContains(line, point)` (`2` is a GEOS exception). -/
  contains : RTLINE → POINT2D → Int
  /-- The oracle for `rtgeom_snap(line, point, tolerance)`. -/
  snap : RTLINE → POINT2D → Int → RTLINE

/-- Modelled from the spec: `qsort` with `compare_scored_pointer`, a sort by increasing
score; the C library leaves the order of rows with equal scores open, here it is the one
of insertion sort. -/
def sortByScore {α : Type} (score : α → Int) (l : List α) : List α :=
  l.insertionSort (fun a b => score a ≤ score b)

/-- The node loop of `rtt_AddPoint` on the running `id` and `mindist`: nodes that are not
closer than `tol` are skipped, a node is taken when no id is held yet (`! id`) or when it
is closer than the one held. -/
def addPointNodes (S : SNAPGEOM) (pt : POINT2D) (tol : Int) :
    List RTT_ISO_NODE → Int × Int → Int × Int
  | [], s => s
  | n :: rest, s =>
    if S.pt_distance n.geom pt ≥ tol then addPointNodes S pt tol rest s
    else if s.1 = 0 ∨ S.pt_distance n.geom pt < s.2 then
      addPointNodes S pt tol rest (n.node_id, S.pt_distance n.geom pt)
    else addPointNodes S pt tol rest s

/-- The split at the end of the edge loop of `rtt_AddPoint`. -/
def addPointSplit (G : GEOM) (T : RTT_TOPOLOGY) (e : RTT_ISO_EDGE) (prj : POINT2D) :
    RTT_TOPOLOGY × Int :=
  let m := rtt_ModEdgeSplit G T e.edge_id prj false
  if m.2 = -1 then (rterror m.1 "rtt_ModEdgeSplit failed", -1)
  else (m.1, m.2)

/-- The edge loop of `rtt_AddPoint`: project the point on the edge; an edge that does not
contain the projection is passed over while another edge is left, and is snapped to the
projection (its first vertex put back when the snap moved it) when it is the last one;
the edge is then split at the projection and the loop ends. `id` is the value held when
the loop starts. -/
def addPointEdges (G : GEOM) (S : SNAPGEOM) (T : RTT_TOPOLOGY) (pt : POINT2D) (id : Int) :
    List RTT_ISO_EDGE → RTT_TOPOLOGY × Int
  | [] => (T, id)
  | e :: rest =>
    if !S.geos_point (S.closest_point e.geom pt) then
      (rterror T "Could not convert edge geometry to GEOS", -1)
    else if !G.geos_line e.geom then
      (rterror T "Could not convert edge geometry to GEOS", -1)
    else if S.contains e.geom (S.closest_point e.geom pt) = 2 then
      (rterror T "GEOS exception on Contains", -1)
    else if S.contains e.geom (S.closest_point e.geom pt) = 0 then
      if rest.length ≠ 0 then addPointEdges G S T pt id rest
      else
        let prj := S.closest_point e.geom pt
        let snapline := S.snap e.geom prj (S.min_tolerance prj)
        let c := rtt_ChangeEdgeGeom G T e.edge_id
          (if getPoint2d_p e.geom 0 ≠ getPoint2d_p snapline 0
            then getPoint2d_p e.geom 0 :: snapline else snapline)
        if c.2 = -1 then (rterror c.1 "rtt_ChangeEdgeGeom failed", -1)
        else addPointSplit G c.1 e prj
    else addPointSplit G T e (S.closest_point e.geom pt)

/-- The edges `rtt_AddPoint` looks at: with more than one edge in the answer, those whose
distance to the point equals the smallest one, in sorted order. -/
def addPointNearest (S : SNAPGEOM) (pt : POINT2D) (edges : List RTT_ISO_EDGE) :
    List RTT_ISO_EDGE :=
  if edges.length > 1 then
    (sortByScore (fun e => S.line_distance e.geom pt) edges).filter
      (fun e => decide (S.line_distance e.geom pt =
        S.line_distance
          (((sortByScore (fun e => S.line_distance e.geom pt) edges).getD 0 blankEdge).geom)
          pt))
  else edges

/-- The C function `rtt_AddPoint` for a point without Z: the id of the node found or
created, `-1` on error. A tolerance of `0` stands for the precision of the topology or,
without one, the smallest tolerance the kernel computes for the point. The start value of
`mindist` is not read before it is written (`! id` holds at the start), it is `0` here. -/
def rtt_AddPoint (G : GEOM) (S : SNAPGEOM) (T : RTT_TOPOLOGY) (point : POINT2D) (tol0 : Int) :
    RTT_TOPOLOGY × Int :=
  let tol := if tol0 = 0 then (if T.precision ≠ 0 then T.precision else S.min_tolerance point)
             else tol0
  match rtt_be_getNodeWithinDistance2D G T point tol with
  | none => (rterror T "Backend error", -1)
  | some nodes =>
    let id := (addPointNodes S point tol
      (if nodes.length > 1 then sortByScore (fun n => S.pt_distance n.geom point) nodes
       else nodes) (0, 0)).1
    if nodes.length ≠ 0 ∧ id ≠ 0 then (T, id)
    else
      match rtt_be_getEdgeWithinDistance2D G T point tol with
      | none => (rterror T "Backend error", -1)
      | some edges =>
        if edges.length ≠ 0 then addPointEdges G S T point id (addPointNearest S point edges)
        else
          let a := rtt_AddIsoNode G T (-1) point false
          if a.2 = -1 then (rterror a.1 "rtt_AddIsoNode failed", -1)
          else (a.1, a.2)

/-- Distance of two points along the axes (the sum of the coordinate differences). -/
def taxiDistance (p q : POINT2D) : Int :=
  |p.x - q.x| + |p.y - q.y|

/-- Foot of a point on a line that lies on the x-axis: the point of the axis with the same
`x`, moved into the span of the line. -/
def axisFoot (l : RTLINE) (p : POINT2D) : POINT2D :=
  { x := max ((l.map (fun v => v.x)).foldl min (getPoint2d_p l 0).x)
          (min p.x ((l.map (fun v => v.x)).foldl max (getPoint2d_p l 0).x)),
    y := 0 }

/-- The kernel `testKernel` with the proximity queries of the back end answered by the
distance along the axes, for lines that lie on the x-axis: a node or a line is within
distance `d` of a point when its distance is at most `d`. -/
def taxiKernel : GEOM :=
  { testKernel with
    pt_dwithin := fun p q d => decide (taxiDistance p q ≤ d)
    line_dwithin := fun l p d => decide (taxiDistance (axisFoot l p) p ≤ d) }

/-- The measuring functions that go with `taxiKernel`: distances along the axes, the foot
on the x-axis as closest point, lines that contain the points of the axis strictly inside
their span, and a snap that leaves the line alone. -/
def taxiSnap : SNAPGEOM :=
  { min_tolerance := fun _ => 1
    pt_distance := taxiDistance
    line_distance := fun l p => taxiDistance (axisFoot l p) p
    closest_point := axisFoot
    geos_point := fun _ => true
    contains := fun l q =>
      if q.y = 0 ∧ (l.map (fun v => v.x)).foldl min (getPoint2d_p l 0).x < q.x ∧
          q.x < (l.map (fun v => v.x)).foldl max (getPoint2d_p l 0).x then 1 else 0
    snap := fun l _ _ => l }

end RTTopo

namespace RTTopo

/-! ## The state `_rtt_AddEdge` reaches before the face split -/

/-- Effect of the two requests of `_rtt_AddEdge` that clear `containing_face` of the end
nodes on one node row: `si` and `ei` tell whether the start node and the end node were
found without incident edge. -/
def addEdgeNode (s e : Int) (si ei : Bool) (n : RTT_ISO_NODE) : RTT_ISO_NODE :=
  if (si = true ∧ n.node_id = s) ∨ (ei = true ∧ n.node_id = e) then
    { n with containing_face := -1 }
  else n

/-- The state `_rtt_AddEdge` has reached when it starts the face-split analysis: the row
`N` inserted and linked after `pl` and `pr`, the end nodes found isolated cleared. -/
def addEdgeLinked (T : RTT_TOPOLOGY) (N : RTT_ISO_EDGE) (pl pr : Int) (si ei : Bool) :
    RTT_TOPOLOGY :=
  { T with
    edges := addEdgeEdges T.edges N pl pr
    nodes := T.nodes.map (addEdgeNode N.start_node N.end_node si ei) }

/-- The row `_rtt_AddEdge` inserts for the edge `k` from `s` to `t`, given the analyses
`A` (with count `fa`) of the start node and `B` (with count `fb`) of the end node and the
face `f` derived for both sides. -/
def addEdgePlanRow (k s t : Int) (A B : edgeend) (fa fb f : Int) (g : RTLINE) :
    RTT_ISO_EDGE :=
  { edge_id := k, start_node := s, end_node := t, face_left := f, face_right := f,
    next_left := if fb ≠ 0 then (if B.nextCW ≠ 0 then B.nextCW else k)
                 else (if s = t then k else -k),
    next_right := if fa ≠ 0 then (if A.nextCW ≠ 0 then A.nextCW else -k)
                  else (if s = t then -k else k),
    geom := g }

/-- The signed edge `_rtt_AddEdge` links the new edge `k` after (`prev_left`). -/
def addEdgePrevLeft (k s t : Int) (A : edgeend) (fa : Int) : Int :=
  if fa ≠ 0 then (if A.nextCCW ≠ 0 then -A.nextCCW else k) else (if s = t then k else -k)

/-- The signed edge `_rtt_AddEdge` links the reverse of the new edge `k` after
(`prev_right`). -/
def addEdgePrevRight (k s t : Int) (B : edgeend) (fb : Int) : Int :=
  if fb ≠ 0 then (if B.nextCCW ≠ 0 then -B.nextCCW else -k) else (if s = t then -k else k)

/-- The face `_rtt_AddEdge` derives for the left side of the new edge from the face
`face0` found on the end nodes and the analysis `A` of the start node. -/
def addEdgeFaceLeft (face0 : Int) (A : edgeend) (fa fb : Int) : Int :=
  if fb ≠ 0 ∧ (if fa ≠ 0 ∧ face0 = -1 then A.ccwFace else face0) = -1 then A.cwFace
  else (if fa ≠ 0 ∧ face0 = -1 then A.ccwFace else face0)

/-- The face `_rtt_AddEdge` derives for the right side of the new edge. -/
def addEdgeFaceRight (face0 : Int) (A : edgeend) (fa fb : Int) : Int :=
  if fb ≠ 0 ∧ (if fa ≠ 0 ∧ face0 = -1 then A.cwFace else face0) = -1 then A.ccwFace
  else (if fa ≠ 0 ∧ face0 = -1 then A.cwFace else face0)

/-- The new edge runs inside the face `f`: the end nodes that have a containing face lie in
`f`, and at both end nodes the sides of the neighbouring edges that face the new edge
carry `f`. -/
def EndFaces (G : GEOM) (T : RTT_TOPOLOGY) (s e : Int) (geom : RTLINE) (f : Int) : Prop :=
  (∀ n ∈ T.nodes, (n.node_id = s ∨ n.node_id = e) → n.containing_face ≠ -1 →
    n.containing_face = f) ∧
  match addEdgeAzimuths G geom with
  | .error _ => True
  | .ok az =>
    ((_rtt_FindAdjacentEdges G T s (edgeendOfAzimuth az.2.2.1)
        (if s = e then some (edgeendOfAzimuth az.2.2.2) else none) (-1)).2.1.nextCW ≠ 0 →
      sideFace T.edges (_rtt_FindAdjacentEdges G T s (edgeendOfAzimuth az.2.2.1)
        (if s = e then some (edgeendOfAzimuth az.2.2.2) else none) (-1)).2.1.nextCW = f) ∧
    ((_rtt_FindAdjacentEdges G T s (edgeendOfAzimuth az.2.2.1)
        (if s = e then some (edgeendOfAzimuth az.2.2.2) else none) (-1)).2.1.nextCCW ≠ 0 →
      sideFace T.edges (-(_rtt_FindAdjacentEdges G T s (edgeendOfAzimuth az.2.2.1)
        (if s = e then some (edgeendOfAzimuth az.2.2.2) else none) (-1)).2.1.nextCCW) = f) ∧
    ((_rtt_FindAdjacentEdges G T e (edgeendOfAzimuth az.2.2.2)
        (if s = e then some (edgeendOfAzimuth az.2.2.1) else none) (-1)).2.1.nextCW ≠ 0 →
      sideFace T.edges (_rtt_FindAdjacentEdges G T e (edgeendOfAzimuth az.2.2.2)
        (if s = e then some (edgeendOfAzimuth az.2.2.1) else none) (-1)).2.1.nextCW = f) ∧
    ((_rtt_FindAdjacentEdges G T e (edgeendOfAzimuth az.2.2.2)
        (if s = e then some (edgeendOfAzimuth az.2.2.1) else none) (-1)).2.1.nextCCW ≠ 0 →
      sideFace T.edges (-(_rtt_FindAdjacentEdges G T e (edgeendOfAzimuth az.2.2.2)
        (if s = e then some (edgeendOfAzimuth az.2.2.1) else none) (-1)).2.1.nextCCW) = f)

instance (G : GEOM) (T : RTT_TOPOLOGY) (s e : Int) (geom : RTLINE) (f : Int) :
    Decidable (EndFaces G T s e geom f) := by
  unfold EndFaces
  cases addEdgeAzimuths G geom <;> infer_instance

/-- The box of a ring that starts with the line, forward or reversed, meets the line: the
back end's box filter does not lose the new edge. -/
def boxCoversLine (G : GEOM) (line : RTLINE) : Prop :=
  ∀ tl : POINTARRAY, G.line_in_box (G.bbox (line ++ tl)) line = true ∧
    G.line_in_box (G.bbox (line.reverse ++ tl)) line = true

/-- A state `rtt_AddEdgeModFace` and `rtt_RemEdgeModFace` take as valid: well-formed
linkage, one face around every ring, the node isolation invariant, distinct node
identifiers, identifiers and face references below the sequences, and sequences within
the C type `int`. -/
def roundTripValid (T : RTT_TOPOLOGY) : Prop :=
  RingLinked T.edges ∧ RingFaces T.edges ∧ nodeIsolation T ∧
  (T.nodes.map (fun n => n.node_id)).Nodup ∧
  0 < T.edge_seq ∧ (∀ x ∈ T.edges, x.edge_id < T.edge_seq) ∧
  0 < T.face_seq ∧
  (∀ x ∈ T.edges, x.face_left < T.face_seq ∧ x.face_right < T.face_seq) ∧
  (∀ n ∈ T.nodes, n.containing_face < T.face_seq) ∧
  (∀ f ∈ T.faces, f.face_id < T.face_seq) ∧
  idsFitInt T

instance (T : RTT_TOPOLOGY) : Decidable (roundTripValid T) := by
  unfold roundTripValid; infer_instance

end RTTopo

namespace RTTopo

/-! ## What a failed `rtt_ChangeEdgeGeom` leaves behind -/

/-- The messages `rtt_ChangeEdgeGeom` reports for the failure `EdgeTwistAroundEndpoint`:
the neighbours of the edge around its start node, or around its end node, changed. -/
def twistMessage (m : String) : Prop :=
  m = "Edge changed disposition around start node" ∨
  m = "Edge changed disposition around end node"

instance (m : String) : Decidable (twistMessage m) := by
  unfold twistMessage; infer_instance

/-- The edge table with the geometry of the row stored under `edge_id` replaced by
`geom`: the effect of the `updateEdgesById` request of `rtt_ChangeEdgeGeom`. -/
def geomStored (es : List RTT_ISO_EDGE) (edge_id : Int) (geom : RTLINE) :
    List RTT_ISO_EDGE :=
  es.map (fun e => if e.edge_id = edge_id then { e with geom := geom } else e)

/-- Frame of a call `rtt_ChangeEdgeGeom(edge_id, geom)` that went from `T` to the answer
`R`: the node rows are the same, the edge rows are the same or differ by the geometry
stored for `edge_id`, and after a failure reported as `EdgeTwistAroundEndpoint` the face
rows are the same and the new geometry is stored. -/
def changeEdgeFrame (edge_id : Int) (geom : RTLINE) (T : RTT_TOPOLOGY)
    (R : RTT_TOPOLOGY × Int) : Prop :=
  R.1.nodes = T.nodes ∧
  (R.1.edges = T.edges ∨ R.1.edges = geomStored T.edges edge_id geom) ∧
  (R.2 = -1 → (∃ m, R.1.errors.head? = some m ∧ twistMessage m) →
    R.1.faces = T.faces ∧ R.1.edges = geomStored T.edges edge_id geom)

end RTTopo

namespace RTTopo

/-! ## A closed edge of zero area -/

/-- The kernel `boxKernel` with a winding test that counts a ring of zero signed area as
counterclockwise: a test by the sign of the area answers the same for such a ring walked
in either direction. -/
def tieKernel : GEOM :=
  { boxKernel with isccw := fun pa => decide (0 ≤ signedArea2 pa) }

/-- A closed line that runs out from `(0,0)` through `(10,0)` to `(10,10)` and back the
same way: five vertices, zero area. -/
def foldLine : RTLINE :=
  [{ x := 0, y := 0 }, { x := 10, y := 0 }, { x := 10, y := 10 }, { x := 10, y := 0 },
   { x := 0, y := 0 }]

/-- A topology holding only node `1` at `(0,0)`, isolated in the universe face. -/
def topoDot : RTT_TOPOLOGY :=
  { emptyTopology with
    nodes := [ { node_id := 1, containing_face := 0, geom := { x := 0, y := 0 } } ]
    node_seq := 2 }

/-- The closed edge `1` with geometry `foldLine` on node `1`, stored with the universe face
on both sides: the state `_rtt_AddEdge` has reached from `topoDot` when it calls
`_rtt_AddFaceSplit`. -/
def topoFold : RTT_TOPOLOGY :=
  { emptyTopology with
    nodes := [ { node_id := 1, containing_face := -1, geom := { x := 0, y := 0 } } ]
    edges := [ { edge_id := 1, start_node := 1, end_node := 1, face_left := 0, face_right := 0,
                 next_left := 1, next_right := -1, geom := foldLine } ]
    node_seq := 2, edge_seq := 2 }

end RTTopo

namespace RTTopo

/-! ## Generic lemmas: row lookup and the `next` function -/

theorem mem_signedIds {es : List RTT_ISO_EDGE} {h : Int} :
    h ∈ signedIds es ↔ ∃ e ∈ es, h = e.edge_id ∨ h = -e.edge_id := by
  unfold signedIds
  simp only [List.mem_append, List.mem_map]
  constructor
  · rintro (⟨e, he, rfl⟩ | ⟨e, he, rfl⟩)
    · exact ⟨e, he, Or.inl rfl⟩
    · exact ⟨e, he, Or.inr rfl⟩
  · rintro ⟨e, he, rfl | rfl⟩
    · exact Or.inl ⟨e, he, rfl⟩
    · exact Or.inr ⟨e, he, rfl⟩

theorem edgeRow_of_mem {es : List RTT_ISO_EDGE} {e : RTT_ISO_EDGE}
    (hnd : (es.map (fun e => e.edge_id)).Nodup) (he : e ∈ es) :
    edgeRow es e.edge_id = some e := by
  induction es with
  | nil => simp at he
  | cons a rest ih =>
    simp only [List.map_cons, List.nodup_cons, List.mem_map, not_exists, not_and] at hnd
    rcases List.mem_cons.1 he with rfl | hin
    · simp [edgeRow]
    · have hne : a.edge_id ≠ e.edge_id := fun h => hnd.1 e hin h.symm
      have := ih hnd.2 hin
      simp only [edgeRow] at this ⊢
      rw [List.find?_cons_of_neg _ (by simpa using hne)]
      exact this

theorem edgeRow_some {es : List RTT_ISO_EDGE} {id : Int} {e : RTT_ISO_EDGE}
    (h : edgeRow es id = some e) : e ∈ es ∧ e.edge_id = id := by
  unfold edgeRow at h
  exact ⟨List.mem_of_find?_eq_some h, by simpa using List.find?_some h⟩

theorem nextEdge_pos {es : List RTT_ISO_EDGE} {e : RTT_ISO_EDGE}
    (hnd : (es.map (fun e => e.edge_id)).Nodup) (he : e ∈ es) (hp : 0 < e.edge_id) :
    nextEdge es e.edge_id = e.next_left := by
  simp [nextEdge, hp, edgeRow_of_mem hnd he]

theorem nextEdge_neg {es : List RTT_ISO_EDGE} {e : RTT_ISO_EDGE}
    (hnd : (es.map (fun e => e.edge_id)).Nodup) (he : e ∈ es) (hp : 0 < e.edge_id) :
    nextEdge es (-e.edge_id) = e.next_right := by
  have h1 : ¬ (0 < -e.edge_id) := by omega
  simp [nextEdge, h1, hp.le, edgeRow_of_mem hnd he]

theorem leavesNode_pos {es : List RTT_ISO_EDGE} {e : RTT_ISO_EDGE}
    (hnd : (es.map (fun e => e.edge_id)).Nodup) (he : e ∈ es) (hp : 0 < e.edge_id) :
    leavesNode es e.edge_id = e.start_node := by
  simp [leavesNode, hp, edgeRow_of_mem hnd he]

theorem leavesNode_neg {es : List RTT_ISO_EDGE} {e : RTT_ISO_EDGE}
    (hnd : (es.map (fun e => e.edge_id)).Nodup) (he : e ∈ es) (hp : 0 < e.edge_id) :
    leavesNode es (-e.edge_id) = e.end_node := by
  have h1 : ¬ (0 < -e.edge_id) := by omega
  simp [leavesNode, h1, hp.le, edgeRow_of_mem hnd he]

theorem arrivesNode_pos {es : List RTT_ISO_EDGE} {e : RTT_ISO_EDGE}
    (hnd : (es.map (fun e => e.edge_id)).Nodup) (he : e ∈ es) (hp : 0 < e.edge_id) :
    arrivesNode es e.edge_id = e.end_node := by
  simp [arrivesNode, hp, edgeRow_of_mem hnd he]

theorem arrivesNode_neg {es : List RTT_ISO_EDGE} {e : RTT_ISO_EDGE}
    (hnd : (es.map (fun e => e.edge_id)).Nodup) (he : e ∈ es) (hp : 0 < e.edge_id) :
    arrivesNode es (-e.edge_id) = e.start_node := by
  have h1 : ¬ (0 < -e.edge_id) := by omega
  simp [arrivesNode, h1, hp.le, edgeRow_of_mem hnd he]

/-- An injective self-map of a finite set brings every element back to itself. -/
theorem iterate_returns {α : Type} (f : α → α) (S : Set α) (hfin : S.Finite)
    (hmaps : Set.MapsTo f S S) (hinj : Set.InjOn f S) {x : α} (hx : x ∈ S) :
    ∃ n : Nat, 0 < n ∧ f^[n] x = x := by
  have hiter : ∀ n : Nat, f^[n] x ∈ S := fun n => Set.MapsTo.iterate hmaps n hx
  haveI : Finite S := hfin
  obtain ⟨i, j, hij, heq⟩ :=
    Finite.exists_ne_map_eq_of_infinite (fun n : Nat => (⟨f^[n] x, hiter n⟩ : S))
  have heq' : f^[i] x = f^[j] x := congrArg Subtype.val heq
  have key : ∀ a b : Nat, f^[a] x = f^[a + b] x → f^[b] x = x := by
    intro a
    induction a with
    | zero => intro b h; simpa using h.symm
    | succ a ih =>
      intro b h
      apply ih
      have h1 : f (f^[a] x) = f (f^[a + b] x) := by
        rw [← Function.iterate_succ_apply' f a x, ← Function.iterate_succ_apply' f (a + b) x]
        have : a + 1 + b = (a + b) + 1 := by omega
        rw [this] at h
        exact h
      exact hinj (hiter a) (hiter (a + b)) h1
  rcases Nat.lt_or_gt_of_ne hij with hlt | hgt
  · refine ⟨j - i, by omega, key i (j - i) ?_⟩
    have : i + (j - i) = j := by omega
    rw [this]; exact heq'
  · refine ⟨i - j, by omega, key j (i - j) ?_⟩
    have : j + (i - j) = i := by omega
    rw [this]; exact heq'.symm

/-- Row-wise well-formed linkage makes `next` a bijection on the signed ids whose
successors leave the node of arrival. -/
theorem RingLinked.nextBijection {es : List RTT_ISO_EDGE} (h : RingLinked es) :
    NextBijection es := by
  obtain ⟨hpos, hnd, hcl, hpair⟩ := h
  have hmaps : Set.MapsTo (nextEdge es) {h | h ∈ signedIds es} {h | h ∈ signedIds es} := by
    intro x hx
    obtain ⟨e, he, rfl | rfl⟩ := mem_signedIds.1 hx
    · rw [Set.mem_setOf_eq, nextEdge_pos hnd he (hpos e he)]; exact (hcl e he).1
    · rw [Set.mem_setOf_eq, nextEdge_neg hnd he (hpos e he)]; exact (hcl e he).2
  have hinj : Set.InjOn (nextEdge es) {h | h ∈ signedIds es} := by
    intro x hx y hy hxy
    obtain ⟨e, he, rfl | rfl⟩ := mem_signedIds.1 hx <;>
    obtain ⟨f, hf, rfl | rfl⟩ := mem_signedIds.1 hy
    · rw [nextEdge_pos hnd he (hpos e he), nextEdge_pos hnd hf (hpos f hf)] at hxy
      exact (hpair e he f hf).2.2.2.2.1 hxy
    · rw [nextEdge_pos hnd he (hpos e he), nextEdge_neg hnd hf (hpos f hf)] at hxy
      exact absurd hxy (hpair e he f hf).2.2.2.2.2.2
    · rw [nextEdge_neg hnd he (hpos e he), nextEdge_pos hnd hf (hpos f hf)] at hxy
      exact absurd hxy.symm (hpair f hf e he).2.2.2.2.2.2
    · rw [nextEdge_neg hnd he (hpos e he), nextEdge_neg hnd hf (hpos f hf)] at hxy
      rw [(hpair e he f hf).2.2.2.2.2.1 hxy]
  have hfin : ({h | h ∈ signedIds es} : Set Int).Finite := List.finite_toSet _
  refine ⟨(Set.Finite.injOn_iff_bijOn_of_mapsTo hfin hmaps).1 hinj, ?_⟩
  · intro x hx
    obtain ⟨e, he, rfl | rfl⟩ := mem_signedIds.1 hx
    · rw [nextEdge_pos hnd he (hpos e he), arrivesNode_pos hnd he (hpos e he)]
      obtain ⟨f, hf, h1 | h1⟩ := mem_signedIds.1 (hcl e he).1
      · rw [h1, leavesNode_pos hnd hf (hpos f hf)]; exact (hpair e he f hf).1 h1
      · rw [h1, leavesNode_neg hnd hf (hpos f hf)]; exact (hpair e he f hf).2.1 h1
    · rw [nextEdge_neg hnd he (hpos e he), arrivesNode_neg hnd he (hpos e he)]
      obtain ⟨f, hf, h1 | h1⟩ := mem_signedIds.1 (hcl e he).2
      · rw [h1, leavesNode_pos hnd hf (hpos f hf)]; exact (hpair e he f hf).2.2.1 h1
      · rw [h1, leavesNode_neg hnd hf (hpos f hf)]; exact (hpair e he f hf).2.2.2.1 h1

/-- A bijective `next` closes every ring. -/
theorem NextBijection.closes_rings {es : List RTT_ISO_EDGE} (h : NextBijection es) :
    RingsClose es := by
  intro x hx
  exact iterate_returns (nextEdge es) {h | h ∈ signedIds es} (List.finite_toSet _)
    h.1.mapsTo h.1.injOn hx

theorem RingLinked.ringsClose {es : List RTT_ISO_EDGE} (h : RingLinked es) : RingsClose es :=
  h.nextBijection.closes_rings

/-- Conversely, with positive unique ids, a bijective `next` whose successors leave the
node of arrival is a row-wise well-formed linkage. -/
theorem NextBijection.ringLinked {es : List RTT_ISO_EDGE}
    (hpos : ∀ e ∈ es, 0 < e.edge_id) (hnd : (es.map (fun e => e.edge_id)).Nodup)
    (h : NextBijection es) : RingLinked es := by
  obtain ⟨⟨hmaps, hinj, -⟩, hleave⟩ := h
  have memp : ∀ e ∈ es, e.edge_id ∈ signedIds es := fun e he =>
    mem_signedIds.2 ⟨e, he, Or.inl rfl⟩
  have memn : ∀ e ∈ es, -e.edge_id ∈ signedIds es := fun e he =>
    mem_signedIds.2 ⟨e, he, Or.inr rfl⟩
  refine ⟨hpos, hnd, ?_, ?_⟩
  · intro e he
    have h1 := hmaps (memp e he)
    have h2 := hmaps (memn e he)
    rw [Set.mem_setOf_eq, nextEdge_pos hnd he (hpos e he)] at h1
    rw [Set.mem_setOf_eq, nextEdge_neg hnd he (hpos e he)] at h2
    exact ⟨h1, h2⟩
  · intro e he f hf
    have l1 := hleave _ (memp e he)
    have l2 := hleave _ (memn e he)
    rw [nextEdge_pos hnd he (hpos e he), arrivesNode_pos hnd he (hpos e he)] at l1
    rw [nextEdge_neg hnd he (hpos e he), arrivesNode_neg hnd he (hpos e he)] at l2
    have pe := hpos e he
    have pf := hpos f hf
    refine ⟨?_, ?_, ?_, ?_, ?_, ?_, ?_⟩
    · intro h1; rw [h1, leavesNode_pos hnd hf pf] at l1; exact l1
    · intro h1; rw [h1, leavesNode_neg hnd hf pf] at l1; exact l1
    · intro h1; rw [h1, leavesNode_pos hnd hf pf] at l2; exact l2
    · intro h1; rw [h1, leavesNode_neg hnd hf pf] at l2; exact l2
    · intro h1
      apply hinj (memp e he) (memp f hf)
      rw [nextEdge_pos hnd he pe, nextEdge_pos hnd hf pf]; exact h1
    · intro h1
      have := hinj (memn e he) (memn f hf)
        (by rw [nextEdge_neg hnd he pe, nextEdge_neg hnd hf pf]; exact h1)
      omega
    · intro h1
      have := hinj (memp e he) (memn f hf)
        (by rw [nextEdge_pos hnd he pe, nextEdge_neg hnd hf pf]; exact h1)
      omega

end RTTopo

namespace RTTopo

/-! ## Step lemmas for the back-end callbacks -/

theorem checkEdgeCrossing_ok (G : GEOM) (T : RTT_TOPOLOGY) (s t : Int) (g : RTLINE) (m : Int)
    (h : (_rtt_CheckEdgeCrossing G T s t g m).2 = 0) :
    (_rtt_CheckEdgeCrossing G T s t g m).1 = T := by
  unfold _rtt_CheckEdgeCrossing at h ⊢
  dsimp only at h ⊢
  repeat' split
  all_goals first | rfl | simp_all

theorem getNodeById_some {T : RTT_TOPOLOGY} {ids : List Int} {l : List RTT_ISO_NODE}
    (h : rtt_be_getNodeById T ids = some l) :
    l = T.nodes.filter (fun n => decide (n.node_id ∈ ids)) := by
  unfold rtt_be_getNodeById at h
  split_ifs at h
  exact (Option.some.inj h).symm

theorem getEdgeById_some {T : RTT_TOPOLOGY} {ids : List Int} {l : List RTT_ISO_EDGE}
    (h : rtt_be_getEdgeById T ids = some l) :
    l = T.edges.filter (fun e => decide (e.edge_id ∈ ids)) := by
  unfold rtt_be_getEdgeById at h
  split_ifs at h
  exact (Option.some.inj h).symm

theorem getEdgeByNode_some {T : RTT_TOPOLOGY} {ids : List Int} {l : List RTT_ISO_EDGE}
    (h : rtt_be_getEdgeByNode T ids = some l) :
    l = T.edges.filter (fun e => decide (e.start_node ∈ ids) || decide (e.end_node ∈ ids)) := by
  unfold rtt_be_getEdgeByNode at h
  split_ifs at h
  exact (Option.some.inj h).symm

/-- The first row fetched by id is the row found by `edgeRow`. -/
theorem filter_id_head {es : List RTT_ISO_EDGE} {id : Int} {e : RTT_ISO_EDGE}
    {rest : List RTT_ISO_EDGE}
    (h : es.filter (fun e => decide (e.edge_id ∈ [id])) = e :: rest) :
    edgeRow es id = some e := by
  have h1 : es.filter (fun e => decide (e.edge_id ∈ [id])) =
      es.filter (fun e => decide (e.edge_id = id)) := by
    congr 1; funext x; simp
  rw [h1] at h
  unfold edgeRow
  rw [← List.filter_head?, h]; rfl

theorem getNextEdgeId_ok {T T2 : RTT_TOPOLOGY} {id : Int}
    (h : rtt_be_getNextEdgeId T = (T2, id)) (hid : id ≠ -1) :
    id = T.edge_seq ∧ T2 = { T with edge_seq := T.edge_seq + 1 } := by
  unfold rtt_be_getNextEdgeId at h
  split_ifs at h
  · simp only [Prod.mk.injEq] at h; omega
  · simp only [Prod.mk.injEq] at h; exact ⟨h.2.symm, h.1.symm⟩

theorem insertNodes_ok {T T2 : RTT_TOPOLOGY} {n row : RTT_ISO_NODE} {ret : Int}
    (h : rtt_be_insertNodes T n = (T2, row, ret)) (hret : ret ≠ 0) (hid : n.node_id = -1) :
    row = { n with node_id := T.node_seq } ∧
    T2 = { T with nodes := T.nodes ++ [{ n with node_id := T.node_seq }],
                  node_seq := T.node_seq + 1 } := by
  unfold rtt_be_insertNodes at h
  split_ifs at h
  · simp only [Prod.mk.injEq] at h; omega
  · simp only [Prod.mk.injEq] at h; exact ⟨h.2.1.symm, h.1.symm⟩

theorem insertEdges_one {T T3 : RTT_TOPOLOGY} {e : RTT_ISO_EDGE} {rows : List RTT_ISO_EDGE}
    {ret : Int} (h : rtt_be_insertEdges T [e] = (T3, rows, ret)) (hret : ret ≠ -1)
    (hid : e.edge_id ≠ -1) :
    T3 = { T with edges := T.edges ++ [e] } := by
  unfold rtt_be_insertEdges at h
  split_ifs at h
  · simp only [Prod.mk.injEq] at h; omega
  · simp only [List.foldl_cons, List.foldl_nil, insertEdgeRow, if_neg hid, Prod.mk.injEq] at h
    exact h.1.symm

theorem insertEdges_two {T T3 : RTT_TOPOLOGY} {e1 e2 : RTT_ISO_EDGE}
    {rows : List RTT_ISO_EDGE}
    {ret : Int} (h : rtt_be_insertEdges T [e1, e2] = (T3, rows, ret)) (hret : ret ≠ -1)
    (hid1 : e1.edge_id ≠ -1) (hid2 : e2.edge_id ≠ -1) :
    T3 = { T with edges := T.edges ++ [e1, e2] } := by
  unfold rtt_be_insertEdges at h
  split_ifs at h
  · simp only [Prod.mk.injEq] at h; omega
  · simp only [List.foldl_cons, List.foldl_nil, insertEdgeRow, if_neg hid1, if_neg hid2,
      Prod.mk.injEq, List.append_assoc, List.singleton_append] at h
    exact h.1.symm

theorem updateNodesById_ok {T T4 : RTT_TOPOLOGY} {rows : List RTT_ISO_NODE}
    {fields : List RTT_COL_NODE} {ret : Int}
    (h : rtt_be_updateNodesById T rows fields = (T4, ret)) (hret : ret ≠ -1) :
    T4 = { T with nodes := rows.foldl (updateNodeById fields) T.nodes } := by
  unfold rtt_be_updateNodesById at h
  split_ifs at h
  · simp only [Prod.mk.injEq] at h; omega
  · simp only [Prod.mk.injEq] at h; exact h.1.symm

theorem updateEdgesById_ok {T T4 : RTT_TOPOLOGY} {rows : List RTT_ISO_EDGE}
    {fields : List RTT_COL_EDGE} {ret : Int}
    (h : rtt_be_updateEdgesById T rows fields = (T4, ret)) (hret : ret ≠ -1) :
    T4 = { T with edges := rows.foldl (updateEdgeById fields) T.edges } := by
  unfold rtt_be_updateEdgesById at h
  split_ifs at h
  · simp only [Prod.mk.injEq] at h; omega
  · simp only [Prod.mk.injEq] at h; exact h.1.symm

theorem updateEdges_ok {T T4 : RTT_TOPOLOGY} {sel upd exc : RTT_ISO_EDGE}
    {sf uf ef : List RTT_COL_EDGE} {ret : Int}
    (h : rtt_be_updateEdges T sel sf upd uf exc ef = (T4, ret)) (hret : ret ≠ -1) :
    T4 = { T with edges := T.edges.map (updateEdgeRow sel sf upd uf exc ef) } ∧
    ret = ((T.edges.filter (edgeSelected sel sf exc ef)).length : Int) := by
  unfold rtt_be_updateEdges at h
  split_ifs at h
  · simp only [Prod.mk.injEq] at h; omega
  · simp only [Prod.mk.injEq] at h; exact ⟨h.1.symm, h.2.symm⟩

theorem updateNodes_ok {T T4 : RTT_TOPOLOGY} {sel upd exc : RTT_ISO_NODE}
    {sf uf ef : List RTT_COL_NODE} {ret : Int}
    (h : rtt_be_updateNodes T sel sf upd uf exc ef = (T4, ret)) (hret : ret ≠ -1) :
    T4 = { T with nodes := T.nodes.map (updateNodeRow sel sf upd uf exc ef) } := by
  unfold rtt_be_updateNodes at h
  split_ifs at h
  · simp only [Prod.mk.injEq] at h; omega
  · simp only [Prod.mk.injEq] at h; exact h.1.symm

theorem deleteEdges_ok {T T4 : RTT_TOPOLOGY} {sel : RTT_ISO_EDGE}
    {sf : List RTT_COL_EDGE} {ret : Int}
    (h : rtt_be_deleteEdges T sel sf = (T4, ret)) (hret : ret ≠ -1) :
    T4 = { T with edges := T.edges.filter (fun e => !edgeMatches sel sf e) } := by
  unfold rtt_be_deleteEdges at h
  split_ifs at h
  · simp only [Prod.mk.injEq] at h; omega
  · simp only [Prod.mk.injEq] at h; exact h.1.symm

theorem deleteNodesById_ok {T T4 : RTT_TOPOLOGY} {ids : List Int} {ret : Int}
    (h : rtt_be_deleteNodesById T ids = (T4, ret)) (hret : ret ≠ -1) :
    T4 = { T with nodes := T.nodes.filter (fun n => !decide (n.node_id ∈ ids)) } := by
  unfold rtt_be_deleteNodesById at h
  split_ifs at h
  · simp only [Prod.mk.injEq] at h; omega
  · simp only [Prod.mk.injEq] at h; exact h.1.symm

theorem existsCoincidentNode_rows (G : GEOM) (T : RTT_TOPOLOGY) (pt : POINT2D) :
    (rtt_be_ExistsCoincidentNode G T pt).1 =
      { T with errors := (rtt_be_ExistsCoincidentNode G T pt).1.errors } := by
  unfold rtt_be_ExistsCoincidentNode
  split <;> rfl

theorem existsEdgeIntersectingPoint_rows (G : GEOM) (T : RTT_TOPOLOGY) (pt : POINT2D) :
    (rtt_be_ExistsEdgeIntersectingPoint G T pt).1 =
      { T with errors := (rtt_be_ExistsEdgeIntersectingPoint G T pt).1.errors } := by
  unfold rtt_be_ExistsEdgeIntersectingPoint
  split <;> rfl

/-- A successful `_rtt_EdgeSplit` leaves every row alone and yields the stored row of the
edge together with at least two components. -/
theorem edgeSplit_ok {G : GEOM} {T T1 : RTT_TOPOLOGY} {edge : Int} {pt : POINT2D}
    {skip : Bool} {old : RTT_ISO_EDGE} {col : List RTLINE}
    (h : _rtt_EdgeSplit G T edge pt skip = (T1, some (old, col))) :
    T1 = { T with errors := T1.errors } ∧ edgeRow T.edges edge = some old ∧
    G.split old.geom pt = some col ∧ 2 ≤ col.length := by
  unfold _rtt_EdgeSplit at h
  cases hg : rtt_be_getEdgeById T [edge] with
  | none => rw [hg] at h; simp at h
  | some l =>
    rw [hg] at h
    cases l with
    | nil => simp at h
    | cons o rest =>
      dsimp only at h
      have hrow := filter_id_head ((getEdgeById_some hg).symm)
      rcases hc : (if skip = true then (T, (0 : Int)) else rtt_be_ExistsCoincidentNode G T pt)
        with ⟨Tc, c⟩
      rw [hc] at h
      dsimp only at h
      have hTc : Tc = { T with errors := Tc.errors } := by
        by_cases hs : skip = true
        · rw [if_pos hs] at hc
          simp only [Prod.mk.injEq] at hc
          rw [← hc.1]
        · rw [if_neg hs] at hc
          have := existsCoincidentNode_rows G T pt
          rw [hc] at this
          exact this
      by_cases h1 : c ≠ 0
      · rw [if_pos h1] at h; simp at h
      rw [if_neg h1] at h
      cases hs : G.split o.geom pt with
      | none => rw [hs] at h; simp at h
      | some sc =>
        rw [hs] at h
        dsimp only at h
        by_cases h2 : sc.length < 2
        · rw [if_pos h2] at h; simp at h
        rw [if_neg h2] at h
        simp only [Prod.mk.injEq, Option.some.injEq] at h
        obtain ⟨h3, h4, h5⟩ := h
        subst h3 h4 h5
        exact ⟨hTc, hrow, hs, by omega⟩

end RTTopo

namespace RTTopo

/-! ## Rows of a well-formed linkage and row updates -/

/-- Facts about one stored row that the linkage proofs use: with `k` ahead of every stored
id, ids and successors lie strictly between `-k` and `k`. -/
theorem RingLinked.row_facts {es : List RTT_ISO_EDGE} (h : RingLinked es) {e : RTT_ISO_EDGE}
    (he : e ∈ es) {k : Int} (hk : ∀ x ∈ es, x.edge_id < k) :
    0 < e.edge_id ∧ e.edge_id < k ∧ -k < e.next_left ∧ e.next_left < k ∧
    -k < e.next_right ∧ e.next_right < k := by
  obtain ⟨hpos, -, hcl, -⟩ := h
  have h1 := hpos e he
  have h2 := hk e he
  obtain ⟨f, hf, hfl⟩ := mem_signedIds.1 (hcl e he).1
  obtain ⟨g, hg, hgl⟩ := mem_signedIds.1 (hcl e he).2
  have := hk f hf
  have := hk g hg
  have := hpos f hf
  have := hpos g hg
  omega

/-- Rows with the same id are the same row. -/
theorem RingLinked.row_eq {es : List RTT_ISO_EDGE} (h : RingLinked es) {e f : RTT_ISO_EDGE}
    (he : e ∈ es) (hf : f ∈ es) (hid : e.edge_id = f.edge_id) : e = f := by
  have h1 := edgeRow_of_mem h.2.1 he
  have h2 := edgeRow_of_mem h.2.1 hf
  rw [hid, h2] at h1
  exact (Option.some.inj h1).symm

theorem updateEdgeRow_edge_id (sel upd exc : RTT_ISO_EDGE) (sf uf ef : List RTT_COL_EDGE)
    (e : RTT_ISO_EDGE) :
    (updateEdgeRow sel sf upd uf exc ef e).edge_id =
      if edgeSelected sel sf exc ef e = true ∧ RTT_COL_EDGE.EDGE_ID ∈ uf then upd.edge_id
      else e.edge_id := by
  unfold updateEdgeRow edgeAssign
  by_cases h1 : edgeSelected sel sf exc ef e = true <;>
  by_cases h2 : RTT_COL_EDGE.EDGE_ID ∈ uf <;> simp [h1, h2]

theorem updateEdgeRow_start_node (sel upd exc : RTT_ISO_EDGE) (sf uf ef : List RTT_COL_EDGE)
    (e : RTT_ISO_EDGE) :
    (updateEdgeRow sel sf upd uf exc ef e).start_node =
      if edgeSelected sel sf exc ef e = true ∧ RTT_COL_EDGE.START_NODE ∈ uf then upd.start_node
      else e.start_node := by
  unfold updateEdgeRow edgeAssign
  by_cases h1 : edgeSelected sel sf exc ef e = true <;>
  by_cases h2 : RTT_COL_EDGE.START_NODE ∈ uf <;> simp [h1, h2]

theorem updateEdgeRow_end_node (sel upd exc : RTT_ISO_EDGE) (sf uf ef : List RTT_COL_EDGE)
    (e : RTT_ISO_EDGE) :
    (updateEdgeRow sel sf upd uf exc ef e).end_node =
      if edgeSelected sel sf exc ef e = true ∧ RTT_COL_EDGE.END_NODE ∈ uf then upd.end_node
      else e.end_node := by
  unfold updateEdgeRow edgeAssign
  by_cases h1 : edgeSelected sel sf exc ef e = true <;>
  by_cases h2 : RTT_COL_EDGE.END_NODE ∈ uf <;> simp [h1, h2]

theorem updateEdgeRow_face_left (sel upd exc : RTT_ISO_EDGE) (sf uf ef : List RTT_COL_EDGE)
    (e : RTT_ISO_EDGE) :
    (updateEdgeRow sel sf upd uf exc ef e).face_left =
      if edgeSelected sel sf exc ef e = true ∧ RTT_COL_EDGE.FACE_LEFT ∈ uf then upd.face_left
      else e.face_left := by
  unfold updateEdgeRow edgeAssign
  by_cases h1 : edgeSelected sel sf exc ef e = true <;>
  by_cases h2 : RTT_COL_EDGE.FACE_LEFT ∈ uf <;> simp [h1, h2]

theorem updateEdgeRow_face_right (sel upd exc : RTT_ISO_EDGE) (sf uf ef : List RTT_COL_EDGE)
    (e : RTT_ISO_EDGE) :
    (updateEdgeRow sel sf upd uf exc ef e).face_right =
      if edgeSelected sel sf exc ef e = true ∧ RTT_COL_EDGE.FACE_RIGHT ∈ uf then upd.face_right
      else e.face_right := by
  unfold updateEdgeRow edgeAssign
  by_cases h1 : edgeSelected sel sf exc ef e = true <;>
  by_cases h2 : RTT_COL_EDGE.FACE_RIGHT ∈ uf <;> simp [h1, h2]

theorem updateEdgeRow_next_left (sel upd exc : RTT_ISO_EDGE) (sf uf ef : List RTT_COL_EDGE)
    (e : RTT_ISO_EDGE) :
    (updateEdgeRow sel sf upd uf exc ef e).next_left =
      if edgeSelected sel sf exc ef e = true ∧ RTT_COL_EDGE.NEXT_LEFT ∈ uf then upd.next_left
      else e.next_left := by
  unfold updateEdgeRow edgeAssign
  by_cases h1 : edgeSelected sel sf exc ef e = true <;>
  by_cases h2 : RTT_COL_EDGE.NEXT_LEFT ∈ uf <;> simp [h1, h2]

theorem updateEdgeRow_next_right (sel upd exc : RTT_ISO_EDGE) (sf uf ef : List RTT_COL_EDGE)
    (e : RTT_ISO_EDGE) :
    (updateEdgeRow sel sf upd uf exc ef e).next_right =
      if edgeSelected sel sf exc ef e = true ∧ RTT_COL_EDGE.NEXT_RIGHT ∈ uf then upd.next_right
      else e.next_right := by
  unfold updateEdgeRow edgeAssign
  by_cases h1 : edgeSelected sel sf exc ef e = true <;>
  by_cases h2 : RTT_COL_EDGE.NEXT_RIGHT ∈ uf <;> simp [h1, h2]

theorem updateEdgeRow_geom (sel upd exc : RTT_ISO_EDGE) (sf uf ef : List RTT_COL_EDGE)
    (e : RTT_ISO_EDGE) :
    (updateEdgeRow sel sf upd uf exc ef e).geom =
      if edgeSelected sel sf exc ef e = true ∧ RTT_COL_EDGE.GEOM ∈ uf then upd.geom
      else e.geom := by
  unfold updateEdgeRow edgeAssign
  by_cases h1 : edgeSelected sel sf exc ef e = true <;>
  by_cases h2 : RTT_COL_EDGE.GEOM ∈ uf <;> simp [h1, h2]

theorem mem_signedIds_append {es : List RTT_ISO_EDGE} {e : RTT_ISO_EDGE} {x : Int} :
    x ∈ signedIds (es ++ [e]) ↔ x ∈ signedIds es ∨ x = e.edge_id ∨ x = -e.edge_id := by
  simp only [mem_signedIds, List.mem_append, List.mem_singleton]
  constructor
  · rintro ⟨f, hf | rfl, h⟩
    · exact Or.inl ⟨f, hf, h⟩
    · exact Or.inr h
  · rintro (⟨f, hf, h⟩ | h)
    · exact ⟨f, Or.inl hf, h⟩
    · exact ⟨e, Or.inr rfl, h⟩

theorem signedIds_map {es : List RTT_ISO_EDGE} (F : RTT_ISO_EDGE → RTT_ISO_EDGE)
    (hF : ∀ e ∈ es, (F e).edge_id = e.edge_id) : signedIds (es.map F) = signedIds es := by
  unfold signedIds
  simp only [List.map_map]
  congr 1 <;> apply List.map_congr_left <;> intro e he <;> simp [hF e he]

end RTTopo

namespace RTTopo

/-! ## Successor maps on sets of signed ids -/

/-- Inserting an edge `k` into a bijective successor map gives a bijective successor map,
when the plan `(nl, nr, pl, pr)` takes over the successors of `pl` and `pr`. -/
theorem addEdgeNext_bijOn (S : Set Int) (hfin : S.Finite) (next : Int → Int)
    (k nl nr pl pr : Int) (hbij : Set.BijOn next S S)
    (hk : 0 < k) (hb : ∀ h ∈ S, -k < h ∧ h < k)
    (hpl : pl = k ∨ pl = -k ∨ pl ∈ S) (hpr : pr = k ∨ pr = -k ∨ pr ∈ S)
    (hnl : nl = k ∨ nl = -k ∨ nl ∈ S) (hnr : nr = k ∨ nr = -k ∨ nr ∈ S)
    (e1 : pl = k → nl = k) (e2 : pl = -k → nr = k) (e3 : pr = -k → nr = -k)
    (e4 : pr = k → nl = -k)
    (hdist : pl ∈ S → pr ∈ S → pl ≠ pr)
    (hd1 : pl ∈ S → next pl = nr ∨ next pl = nl)
    (hd2 : pr ∈ S → next pr = nl ∨ next pr = nr) :
    Set.BijOn (addEdgeNext next k nl nr pl pr) (S ∪ {k, -k}) (S ∪ {k, -k}) := by
  have hfin' : (S ∪ {k, -k}).Finite := hfin.union (Set.toFinite _)
  have hkS : k ∉ S := fun h => by have := hb k h; omega
  have hkS' : -k ∉ S := fun h => by have := hb (-k) h; omega
  have hkk : -k ≠ k := by omega
  have hmem : ∀ x, (x = k ∨ x = -k ∨ x ∈ S) → x ∈ S ∪ {k, -k} := by
    intro x hx
    rcases hx with h | h | h
    · exact Or.inr (Or.inl h)
    · exact Or.inr (Or.inr h)
    · exact Or.inl h
  have hmaps : Set.MapsTo (addEdgeNext next k nl nr pl pr) (S ∪ {k, -k}) (S ∪ {k, -k}) := by
    intro h hh
    unfold addEdgeNext
    split_ifs
    · exact hmem _ hnl
    · exact hmem _ hnr
    · exact hmem _ (Or.inr (Or.inl rfl))
    · exact hmem _ (Or.inl rfl)
    · rcases hh with hh | hh | hh
      · exact Or.inl (hbij.mapsTo hh)
      · contradiction
      · contradiction
  refine (Set.Finite.surjOn_iff_bijOn_of_mapsTo hfin' hmaps).1 ?_
  have Nk : addEdgeNext next k nl nr pl pr k = nl := by simp [addEdgeNext]
  have Nk' : addEdgeNext next k nl nr pl pr (-k) = nr := by simp [addEdgeNext, hkk]
  have Npr : pr ∈ S → addEdgeNext next k nl nr pl pr pr = -k := by
    intro h
    have h1 : pr ≠ k := fun e => hkS (e ▸ h)
    have h2 : pr ≠ -k := fun e => hkS' (e ▸ h)
    simp [addEdgeNext, h1, h2]
  have Npl : pl ∈ S → pl ≠ pr → addEdgeNext next k nl nr pl pr pl = k := by
    intro h hne
    have h1 : pl ≠ k := fun e => hkS (e ▸ h)
    have h2 : pl ≠ -k := fun e => hkS' (e ▸ h)
    simp [addEdgeNext, h1, h2, hne]
  have Nx : ∀ x ∈ S, x ≠ pr → x ≠ pl → addEdgeNext next k nl nr pl pr x = next x := by
    intro x h hne1 hne2
    have h1 : x ≠ k := fun e => hkS (e ▸ h)
    have h2 : x ≠ -k := fun e => hkS' (e ▸ h)
    simp [addEdgeNext, h1, h2, hne1, hne2]
  have preK : ∃ x ∈ S ∪ {k, -k}, addEdgeNext next k nl nr pl pr x = k := by
    rcases hpl with h | h | h
    · exact ⟨k, hmem _ (Or.inl rfl), by rw [Nk, e1 h]⟩
    · exact ⟨-k, hmem _ (Or.inr (Or.inl rfl)), by rw [Nk', e2 h]⟩
    · refine ⟨pl, Or.inl h, Npl h ?_⟩
      rcases hpr with h' | h' | h'
      · intro e; exact hkS (h' ▸ e ▸ h)
      · intro e; exact hkS' (h' ▸ e ▸ h)
      · exact hdist h h'
  have preK' : ∃ x ∈ S ∪ {k, -k}, addEdgeNext next k nl nr pl pr x = -k := by
    rcases hpr with h | h | h
    · exact ⟨k, hmem _ (Or.inl rfl), by rw [Nk, e4 h]⟩
    · exact ⟨-k, hmem _ (Or.inr (Or.inl rfl)), by rw [Nk', e3 h]⟩
    · exact ⟨pr, Or.inl h, Npr h⟩
  intro y hy
  rcases hy with hy | hy | hy
  · obtain ⟨x, hx, hxy⟩ := hbij.surjOn hy
    by_cases c1 : x = pr
    · subst c1
      rcases hd2 hx with h | h
      · exact ⟨k, hmem _ (Or.inl rfl), by rw [Nk, ← hxy, h]⟩
      · exact ⟨-k, hmem _ (Or.inr (Or.inl rfl)), by rw [Nk', ← hxy, h]⟩
    · by_cases c2 : x = pl
      · subst c2
        rcases hd1 hx with h | h
        · exact ⟨-k, hmem _ (Or.inr (Or.inl rfl)), by rw [Nk', ← hxy, h]⟩
        · exact ⟨k, hmem _ (Or.inl rfl), by rw [Nk, ← hxy, h]⟩
      · exact ⟨x, Or.inl hx, by rw [Nx x hx c1 c2, hxy]⟩
  · obtain ⟨x, hx, hxy⟩ := preK
    exact ⟨x, hx, by rw [hxy, hy]⟩
  · obtain ⟨x, hx, hxy⟩ := preK'
    exact ⟨x, hx, by rw [hxy]; exact hy.symm⟩

theorem llabs_pos {x : Int} (h : 0 < x) : llabs x = x := by
  unfold llabs; rw [if_neg (by omega)]

theorem llabs_nonpos {x : Int} (h : ¬ 0 < x) : llabs x = -x := by
  unfold llabs
  by_cases h0 : x < 0
  · rw [if_pos h0]
  · rw [if_neg h0]; omega

theorem addEdge_left_arith (id k pl pr nl nr x : Int) (h0 : 0 < id) (hlt : id < k) :
    (if llabs pr ≠ k ∧ 0 < pr ∧ id = pr then -k
     else if llabs pl ≠ k ∧ 0 < pl ∧ id = pl then k else x) =
    (if id = k then nl else if id = -k then nr else if id = pr then -k
     else if id = pl then k else x) := by
  rw [if_neg (show ¬ id = k by omega), if_neg (show ¬ id = -k by omega)]
  by_cases c1 : id = pr
  · have hp : 0 < pr := by omega
    rw [if_pos c1, if_pos ⟨by rw [llabs_pos hp]; omega, hp, c1⟩]
  · rw [if_neg c1, if_neg (fun h => c1 h.2.2)]
    by_cases c2 : id = pl
    · have hp : 0 < pl := by omega
      rw [if_pos c2, if_pos ⟨by rw [llabs_pos hp]; omega, hp, c2⟩]
    · rw [if_neg c2, if_neg (fun h => c2 h.2.2)]

theorem addEdge_right_arith (id k pl pr nl nr x : Int) (h0 : 0 < id) (hlt : id < k) :
    (if llabs pr ≠ k ∧ ¬ 0 < pr ∧ id = -pr then -k
     else if llabs pl ≠ k ∧ ¬ 0 < pl ∧ id = -pl then k else x) =
    (if -id = k then nl else if -id = -k then nr else if -id = pr then -k
     else if -id = pl then k else x) := by
  rw [if_neg (show ¬ -id = k by omega), if_neg (show ¬ -id = -k by omega)]
  by_cases c1 : -id = pr
  · have hp : ¬ 0 < pr := by omega
    rw [if_pos c1, if_pos ⟨by rw [llabs_nonpos hp]; omega, hp, by omega⟩]
  · rw [if_neg c1, if_neg (fun h => c1 (by omega))]
    by_cases c2 : -id = pl
    · have hp : ¬ 0 < pl := by omega
      rw [if_pos c2, if_pos ⟨by rw [llabs_nonpos hp]; omega, hp, by omega⟩]
    · rw [if_neg c2, if_neg (fun h => c2 (by omega))]

theorem addEdge_new_left_arith (k pl pr x : Int) :
    (if llabs pr ≠ k ∧ 0 < pr ∧ k = pr then -k
     else if llabs pl ≠ k ∧ 0 < pl ∧ k = pl then k else x) = x := by
  rw [if_neg, if_neg]
  · rintro ⟨h1, h2, h3⟩; rw [llabs_pos h2] at h1; omega
  · rintro ⟨h1, h2, h3⟩; rw [llabs_pos h2] at h1; omega

theorem addEdge_new_right_arith (k pl pr x : Int) :
    (if llabs pr ≠ k ∧ ¬ 0 < pr ∧ k = -pr then -k
     else if llabs pl ≠ k ∧ ¬ 0 < pl ∧ k = -pl then k else x) = x := by
  rw [if_neg, if_neg]
  · rintro ⟨h1, h2, h3⟩; rw [llabs_nonpos h2] at h1; omega
  · rintro ⟨h1, h2, h3⟩; rw [llabs_nonpos h2] at h1; omega

/-- The linkage conditions only read the linkage columns of the rows. -/
theorem ringLinked_of_linkView {es es' : List RTT_ISO_EDGE}
    (hv : es'.map linkView = es.map linkView) (h : RingLinked es) : RingLinked es' := by
  have hid : es'.map (fun e => e.edge_id) = es.map (fun e => e.edge_id) := by
    have := congrArg (List.map (fun v : Int × Int × Int × Int × Int => v.1)) hv
    simpa [List.map_map, Function.comp_def, linkView] using this
  have hsig : signedIds es' = signedIds es := by
    unfold signedIds
    have h2 : es'.map (fun e => -e.edge_id) = es.map (fun e => -e.edge_id) := by
      have := congrArg (List.map (fun x : Int => -x)) hid
      simpa [List.map_map, Function.comp_def] using this
    rw [hid, h2]
  have hrow : ∀ e' ∈ es', ∃ e ∈ es, linkView e = linkView e' := by
    intro e' he'
    have : linkView e' ∈ es.map linkView := hv ▸ List.mem_map_of_mem _ he'
    obtain ⟨e, he, hee⟩ := List.mem_map.1 this
    exact ⟨e, he, hee⟩
  have flds : ∀ {e e' : RTT_ISO_EDGE}, linkView e = linkView e' →
      e.edge_id = e'.edge_id ∧ e.start_node = e'.start_node ∧ e.end_node = e'.end_node ∧
      e.next_left = e'.next_left ∧ e.next_right = e'.next_right := by
    intro e e' hee
    simp only [linkView, Prod.mk.injEq] at hee
    exact hee
  obtain ⟨h1, h2, h3, h4⟩ := h
  refine ⟨?_, ?_, ?_, ?_⟩
  · intro e' he'
    obtain ⟨e, he, hee⟩ := hrow e' he'
    rw [← (flds hee).1]; exact h1 e he
  · rw [hid]; exact h2
  · intro e' he'
    obtain ⟨e, he, hee⟩ := hrow e' he'
    rw [hsig, ← (flds hee).2.2.2.1, ← (flds hee).2.2.2.2]; exact h3 e he
  · intro e' he' f' hf'
    obtain ⟨e, he, hee⟩ := hrow e' he'
    obtain ⟨f, hf, hff⟩ := hrow f' hf'
    have := h4 e he f hf
    unfold linkedPair at this ⊢
    obtain ⟨a1, a2, a3, a4, a5⟩ := flds hee
    obtain ⟨b1, b2, b3, b4, b5⟩ := flds hff
    rw [← a1, ← a2, ← a3, ← a4, ← a5, ← b1, ← b2, ← b3, ← b4, ← b5]
    exact this

end RTTopo

namespace RTTopo

/-! ## `rtt_AddIsoEdge` -/

theorem isoEdgeEndpoints_ok (s : Int) (g : RTLINE) (f : Int) :
    ∀ (l : List RTT_ISO_NODE) (acc c : Int),
      (∀ n ∈ l, n.containing_face = f) → (acc = -1 ∨ acc = f) →
      isoEdgeEndpoints s g l acc = .ok c →
      (l ≠ [] → c = f ∧ f ≠ -1) ∧ (l = [] → c = acc) := by
  intro l
  induction l with
  | nil => intro acc c _ _ h; simp [isoEdgeEndpoints] at h; simp [h]
  | cons n rest ih =>
    intro acc c hall hacc h
    have hn : n.containing_face = f := hall n (List.mem_cons_self _ _)
    have hrest : ∀ x ∈ rest, x.containing_face = f := fun x hx => hall x (List.mem_cons_of_mem _ hx)
    unfold isoEdgeEndpoints at h
    dsimp only at h
    have hcf : (if acc = -1 then n.containing_face else acc) = f := by
      split_ifs <;> omega
    rw [hcf] at h
    split_ifs at h with h1 h2 h3 h4 h5
    all_goals
      have := ih f c hrest (Or.inr rfl) h
      refine ⟨fun _ => ?_, fun hc => by simp at hc⟩
      by_cases hr : rest = []
      · exact ⟨(this.2 hr), by omega⟩
      · exact this.1 hr

theorem updateNodes_two (ns : List RTT_ISO_NODE) (s t : Int) :
    List.foldl (updateNodeById [RTT_COL_NODE.CONTAINING_FACE]) ns
      [{ blankNode with node_id := s, containing_face := -1 },
       { blankNode with node_id := t, containing_face := -1 }] =
    ns.map (fun n => if n.node_id = s ∨ n.node_id = t then
      { n with containing_face := -1 } else n) := by
  simp only [List.foldl_cons, List.foldl_nil, updateNodeById, List.map_map]
  apply List.map_congr_left
  intro n _
  rcases n with ⟨id, cf, g⟩
  simp only [Function.comp, nodeAssign]
  by_cases h1 : id = s <;> by_cases h2 : id = t <;> simp_all

theorem rtt_AddIsoEdge_ok (G : GEOM) (T : RTT_TOPOLOGY) (startNode endNode f : Int)
    (geom : RTLINE) (R : RTT_TOPOLOGY × Int)
    (hface : ∀ n ∈ T.nodes, n.node_id = startNode ∨ n.node_id = endNode → n.containing_face = f)
    (h : rtt_AddIsoEdge G T startNode endNode geom = R)
    (hok : R.2 ≠ -1) :
    R.2 = T.edge_seq ∧
    R.1.edges = T.edges ++
      [{ edge_id := T.edge_seq, start_node := startNode, end_node := endNode,
         face_left := f, face_right := f, next_left := -T.edge_seq,
         next_right := T.edge_seq, geom := geom }] ∧
    R.1.nodes =
      T.nodes.map (fun n => if n.node_id = startNode ∨ n.node_id = endNode then
        { n with containing_face := -1 } else n) ∧
    R.1.faces = T.faces := by
  unfold rtt_AddIsoEdge at h
  dsimp only at h
  by_cases h1 : startNode = endNode
  · rw [if_pos h1] at h; subst h; exact absurd rfl hok
  rw [if_neg h1] at h
  by_cases h2 : (!G.is_simple geom) = true
  · rw [if_pos h2] at h; subst h; exact absurd rfl hok
  rw [if_neg h2] at h
  cases hn : rtt_be_getNodeById T [startNode, endNode] with
  | none => rw [hn] at h; subst h; exact absurd rfl hok
  | some endpoints =>
    rw [hn] at h
    dsimp only at h
    by_cases h3 : endpoints.length < 2
    · rw [if_pos h3] at h; subst h; exact absurd rfl hok
    rw [if_neg h3] at h
    cases hi : isoEdgeEndpoints startNode geom endpoints (-1) with
    | error msg => rw [hi] at h; subst h; exact absurd rfl hok
    | ok cf0 =>
      rw [hi] at h
      dsimp only at h
      rcases hc : _rtt_CheckEdgeCrossing G T startNode endNode geom 0 with ⟨T1, c⟩
      rw [hc] at h
      dsimp only at h
      by_cases h4 : c ≠ 0
      · rw [if_pos h4] at h; subst h; exact absurd rfl hok
      rw [if_neg h4] at h
      rcases hid : rtt_be_getNextEdgeId T1 with ⟨T2, id⟩
      rw [hid] at h
      dsimp only at h
      by_cases h5 : id = -1
      · rw [if_pos h5] at h; subst h; exact absurd rfl hok
      rw [if_neg h5] at h
      -- facts gathered so far
      have hT1 : T1 = T := by
        have := checkEdgeCrossing_ok G T startNode endNode geom 0 (by rw [hc]; simpa using h4)
        rw [hc] at this; exact this
      subst hT1
      obtain ⟨hidv, hT2⟩ := getNextEdgeId_ok hid h5
      have hne : endpoints ≠ [] := by
        intro h0; rw [h0] at h3; simp at h3
      have hcf := (isoEdgeEndpoints_ok startNode geom f endpoints (-1) cf0
        (by
          intro n hn'
          rw [getNodeById_some hn] at hn'
          have := List.mem_filter.1 hn'
          exact hface n this.1 (by simpa using this.2))
        (Or.inl rfl) hi).1 hne
      have hcf0 : (if cf0 = -1 then 0 else cf0) = f := by
        rw [if_neg (by omega)]; exact hcf.1
      rw [hcf0] at h
      rcases hins : rtt_be_insertEdges T2
        [{ edge_id := id, start_node := startNode, end_node := endNode, face_left := f,
           face_right := f, next_left := -id, next_right := id, geom := geom }]
        with ⟨T3, rows, ret⟩
      rw [hins] at h
      dsimp only at h
      by_cases h6 : ret = -1
      · rw [if_pos h6] at h; subst h; exact absurd rfl hok
      rw [if_neg h6] at h
      by_cases h7 : ret = 0
      · rw [if_pos h7] at h; subst h; exact absurd rfl hok
      rw [if_neg h7] at h
      have hT3 := insertEdges_one hins h6 h5
      rcases hupd : rtt_be_updateNodesById T3
        [{ node_id := startNode, containing_face := -1, geom := blankNode.geom },
         { node_id := endNode, containing_face := -1, geom := blankNode.geom }]
        [RTT_COL_NODE.CONTAINING_FACE] with ⟨T4, ret2⟩
      rw [hupd] at h
      dsimp only at h
      by_cases h8 : ret2 = -1
      · rw [if_pos h8] at h; subst h; exact absurd rfl hok
      rw [if_neg h8] at h
      have hT4 := updateNodesById_ok hupd h8
      subst h
      subst hT4 hT3 hT2 hidv
      refine ⟨rfl, rfl, ?_, rfl⟩
      exact updateNodes_two _ _ _

/-- C10 (`rtt_AddIsoEdge`, postcondition): a successful call on two nodes that share the
containing face `f` returns the edge id `k` handed out by the back end, appends exactly one
edge row `(k, startNode, endNode, f, f, -k, +k, geom)`, sets `containing_face = -1` on the
two endpoint rows and changes no other node, edge or face row. -/
theorem rtt_AddIsoEdge_post (G : GEOM) (T : RTT_TOPOLOGY) (startNode endNode f : Int)
    (geom : RTLINE)
    (hface : ∀ n ∈ T.nodes, n.node_id = startNode ∨ n.node_id = endNode → n.containing_face = f)
    (hok : (rtt_AddIsoEdge G T startNode endNode geom).2 ≠ -1) :
    (rtt_AddIsoEdge G T startNode endNode geom).2 = T.edge_seq ∧
    (rtt_AddIsoEdge G T startNode endNode geom).1.edges = T.edges ++
      [{ edge_id := T.edge_seq, start_node := startNode, end_node := endNode,
         face_left := f, face_right := f, next_left := -T.edge_seq,
         next_right := T.edge_seq, geom := geom }] ∧
    (rtt_AddIsoEdge G T startNode endNode geom).1.nodes =
      T.nodes.map (fun n => if n.node_id = startNode ∨ n.node_id = endNode then
        { n with containing_face := -1 } else n) ∧
    (rtt_AddIsoEdge G T startNode endNode geom).1.faces = T.faces :=
  rtt_AddIsoEdge_ok G T startNode endNode f geom _ hface rfl hok

theorem rtt_AddIsoEdge_post_witness :
    (rtt_AddIsoEdge testKernel topoTwoNodes 1 2
      [{ x := 0, y := 0 }, { x := 10, y := 0 }]).2 = 1 ∧
    (rtt_AddIsoEdge testKernel topoTwoNodes 1 2
      [{ x := 0, y := 0 }, { x := 10, y := 0 }]).1.edges =
      [{ edge_id := 1, start_node := 1, end_node := 2, face_left := 0, face_right := 0,
         next_left := -1, next_right := 1,
         geom := [{ x := 0, y := 0 }, { x := 10, y := 0 }] }] :=
  have h := rtt_AddIsoEdge_post testKernel topoTwoNodes 1 2 0
    [{ x := 0, y := 0 }, { x := 10, y := 0 }] (by decide) (by decide)
  ⟨h.1, h.2.1⟩

end RTTopo

namespace RTTopo

/-! ## `rtt_ModEdgeSplit` -/

theorem rtt_ModEdgeSplit_ok {G : GEOM} {T : RTT_TOPOLOGY} {edge : Int} {pt : POINT2D}
    {skip : Bool} {R : RTT_TOPOLOGY × Int}
    (h : rtt_ModEdgeSplit G T edge pt skip = R) (hok : R.2 ≠ -1) :
    ∃ old col, edgeRow T.edges edge = some old ∧ G.split old.geom pt = some col ∧
      2 ≤ col.length ∧ T.node_seq ≠ -1 ∧ T.edge_seq ≠ -1 ∧
      R.2 = T.node_seq ∧
      R.1.edges = modEdgeSplitEdges T.edges old T.edge_seq T.node_seq
        (col.getD 0 []) (col.getD 1 []) ∧
      R.1.nodes = T.nodes ++ [{ node_id := T.node_seq, containing_face := -1, geom := pt }] ∧
      R.1.faces = T.faces := by
  unfold rtt_ModEdgeSplit at h
  rcases hs : _rtt_EdgeSplit G T edge pt skip with ⟨T1, so⟩
  rw [hs] at h
  dsimp only at h
  cases so with
  | none => dsimp only at h; subst h; exact absurd rfl hok
  | some oc =>
    obtain ⟨old, col⟩ := oc
    dsimp only at h
    obtain ⟨hT1, hrow, hsplit, hlen⟩ := edgeSplit_ok hs
    rcases hn : rtt_be_insertNodes T1 { node_id := -1, containing_face := -1, geom := pt }
      with ⟨T2, row, ret⟩
    rw [hn] at h
    dsimp only at h
    by_cases h1 : ret = 0
    · rw [if_pos h1] at h; subst h; exact absurd rfl hok
    rw [if_neg h1] at h
    obtain ⟨hrowv, hT2⟩ := insertNodes_ok hn h1 rfl
    by_cases h2 : row.node_id = -1
    · rw [if_pos h2] at h; subst h; exact absurd rfl hok
    rw [if_neg h2] at h
    rcases ha : rtt_be_getNextEdgeId T2 with ⟨T3, k⟩
    rw [ha] at h
    dsimp only at h
    by_cases h3 : k = -1
    · rw [if_pos h3] at h; subst h; exact absurd rfl hok
    rw [if_neg h3] at h
    obtain ⟨hk, hT3⟩ := getNextEdgeId_ok ha h3
    rcases hi : rtt_be_insertEdges T3
        [{ edge_id := k, start_node := row.node_id, end_node := old.end_node,
           face_left := old.face_left, face_right := old.face_right,
           next_left := if old.next_left = -old.edge_id then -k else old.next_left,
           next_right := -old.edge_id, geom := col.getD 1 [] }] with ⟨T4, rows, ri⟩
    rw [hi] at h
    dsimp only at h
    by_cases h4 : ri = -1
    · rw [if_pos h4] at h; subst h; exact absurd rfl hok
    rw [if_neg h4] at h
    by_cases h5 : ri = 0
    · rw [if_pos h5] at h; subst h; exact absurd rfl hok
    rw [if_neg h5] at h
    have hT4 := insertEdges_one hi h4 h3
    rcases hu1 : rtt_be_updateEdges T4 old [RTT_COL_EDGE.EDGE_ID]
        { blankEdge with geom := col.getD 0 [], next_left := k, end_node := row.node_id }
        [RTT_COL_EDGE.GEOM, RTT_COL_EDGE.NEXT_LEFT, RTT_COL_EDGE.END_NODE] blankEdge []
        with ⟨T5, r1⟩
    rw [hu1] at h
    dsimp only at h
    by_cases h6 : r1 = -1
    · rw [if_pos h6] at h; subst h; exact absurd rfl hok
    rw [if_neg h6] at h
    by_cases h7 : r1 = 0
    · rw [if_pos h7] at h; subst h; exact absurd rfl hok
    rw [if_neg h7] at h
    by_cases h8 : r1 > 1
    · rw [if_pos h8] at h; subst h; exact absurd rfl hok
    rw [if_neg h8] at h
    obtain ⟨hT5, -⟩ := updateEdges_ok hu1 h6
    rcases hu2 : rtt_be_updateEdges T5
        { blankEdge with next_right := -old.edge_id, start_node := old.end_node }
        [RTT_COL_EDGE.NEXT_RIGHT, RTT_COL_EDGE.START_NODE]
        { blankEdge with geom := col.getD 0 [], next_left := k, end_node := row.node_id,
                         next_right := -k }
        [RTT_COL_EDGE.NEXT_RIGHT] { blankEdge with edge_id := k } [RTT_COL_EDGE.EDGE_ID]
        with ⟨T6, r2⟩
    rw [hu2] at h
    dsimp only at h
    by_cases h9 : r2 = -1
    · rw [if_pos h9] at h; subst h; exact absurd rfl hok
    rw [if_neg h9] at h
    obtain ⟨hT6, -⟩ := updateEdges_ok hu2 h9
    rcases hu3 : rtt_be_updateEdges T6
        { blankEdge with next_right := -old.edge_id, start_node := old.end_node,
                         next_left := -old.edge_id, end_node := old.end_node }
        [RTT_COL_EDGE.NEXT_LEFT, RTT_COL_EDGE.END_NODE]
        { blankEdge with geom := col.getD 0 [], next_left := -k, end_node := row.node_id,
                         next_right := -k }
        [RTT_COL_EDGE.NEXT_LEFT] { blankEdge with edge_id := k } [RTT_COL_EDGE.EDGE_ID]
        with ⟨T7, r3⟩
    rw [hu3] at h
    dsimp only at h
    by_cases h10 : r3 = -1
    · rw [if_pos h10] at h; subst h; exact absurd rfl hok
    rw [if_neg h10] at h
    obtain ⟨hT7, -⟩ := updateEdges_ok hu3 h10
    by_cases h11 : rtt_be_hook T7 BeCall.updateTopoGeomEdgeSplit = 0
    · rw [if_pos h11] at h; subst h; exact absurd rfl hok
    rw [if_neg h11] at h
    subst h
    have hns : T1.node_seq = T.node_seq := by rw [hT1]
    have hes : T1.edge_seq = T.edge_seq := by rw [hT1]
    have hed : T1.edges = T.edges := by rw [hT1]
    have hnd : T1.nodes = T.nodes := by rw [hT1]
    have hfc : T1.faces = T.faces := by rw [hT1]
    subst hT7 hT6 hT5 hT4 hT3 hk hT2 hrowv
    dsimp only at h2 h3 ⊢
    refine ⟨old, col, hrow, hsplit, hlen, ?_, ?_, hns, ?_, ?_, hfc⟩
    · rw [← hns]; exact h2
    · rw [← hes]; exact h3
    · rw [hed, hns, hes]
      simp only [modEdgeSplitEdges, List.map_map]
      rfl
    · rw [hnd, hns]

theorem modEdgeSplitRow_spec (old : RTT_ISO_EDGE) (k m : Int) (g0 : RTLINE)
    (e : RTT_ISO_EDGE) (ho : 0 < old.edge_id) (hk : 0 < k) (hek : e.edge_id ≠ k) :
    (modEdgeSplitRow old k m g0 e).edge_id = e.edge_id ∧
    (modEdgeSplitRow old k m g0 e).start_node = e.start_node ∧
    (modEdgeSplitRow old k m g0 e).face_left = e.face_left ∧
    (modEdgeSplitRow old k m g0 e).face_right = e.face_right ∧
    (modEdgeSplitRow old k m g0 e).end_node =
      (if e.edge_id = old.edge_id then m else e.end_node) ∧
    (modEdgeSplitRow old k m g0 e).next_left =
      (if e.edge_id = old.edge_id then k
       else if e.next_left = -old.edge_id ∧ e.end_node = old.end_node then -k
       else e.next_left) ∧
    (modEdgeSplitRow old k m g0 e).next_right =
      (if e.next_right = -old.edge_id ∧ e.start_node = old.end_node then -k
       else e.next_right) ∧
    (modEdgeSplitRow old k m g0 e).geom =
      (if e.edge_id = old.edge_id then g0 else e.geom) := by
  have hko : k ≠ -old.edge_id := by omega
  simp only [modEdgeSplitRow, updateEdgeRow_edge_id, updateEdgeRow_start_node,
    updateEdgeRow_end_node, updateEdgeRow_face_left, updateEdgeRow_face_right,
    updateEdgeRow_next_left, updateEdgeRow_next_right, updateEdgeRow_geom,
    edgeSelected, edgeMatches, blankEdge, List.mem_cons, List.mem_singleton,
    List.not_mem_nil, List.isEmpty_nil, List.isEmpty_cons, reduceCtorEq,
    Bool.and_eq_true, decide_eq_true_eq, Bool.not_eq_true', Bool.not_true, Bool.not_false,
    Bool.false_and, Bool.true_and, or_false, false_or, or_true, true_or, false_imp_iff,
    true_imp_iff, and_true, true_and, Bool.and_true, Bool.true_and, decide_True,
    decide_False, Bool.not_eq_false', decide_eq_false_iff_not, Bool.and_false, Bool.false_eq_true,
    and_false, false_and, if_false, if_true, not_false_eq_true, not_true_eq_false, and_self,
    Bool.decide_and, Bool.decide_eq_true, ite_true, ite_false]
  repeat' constructor
  all_goals (split_ifs <;> first | rfl | omega)

theorem modEdgeSplitRow_new (old : RTT_ISO_EDGE) (k m : Int) (g0 g1 : RTLINE)
    (ho : 0 < old.edge_id) (hk : 0 < k) (hok : old.edge_id ≠ k) :
    modEdgeSplitRow old k m g0 (modEdgeSplitNew old k m g1) = modEdgeSplitNew old k m g1 := by
  have hko : k ≠ old.edge_id := fun h => hok h.symm
  simp [modEdgeSplitRow, modEdgeSplitNew, updateEdgeRow, edgeSelected, edgeMatches, hko]

set_option maxHeartbeats 400000 in
/-- `rtt_ModEdgeSplit` keeps the linkage well formed. -/
theorem modEdgeSplitEdges_ringLinked {es : List RTT_ISO_EDGE} {old : RTT_ISO_EDGE}
    {k : Int} (m : Int) (g0 g1 : RTLINE) (h : RingLinked es) (hold : old ∈ es)
    (hk : ∀ x ∈ es, x.edge_id < k) :
    RingLinked (modEdgeSplitEdges es old k m g0 g1) := by
  have ho := h.1 old hold
  have hok : old.edge_id ≠ k := ne_of_lt (hk old hold)
  have hk0 : 0 < k := lt_trans ho (hk old hold)
  have hne : ∀ x ∈ es, x.edge_id ≠ k := fun x hx => ne_of_lt (hk x hx)
  have hK := modEdgeSplitRow_new old k m g0 g1 ho hk0 hok
  have hes : modEdgeSplitEdges es old k m g0 g1 =
      es.map (modEdgeSplitRow old k m g0) ++ [modEdgeSplitNew old k m g1] := by
    simp only [modEdgeSplitEdges, List.map_append, List.map_cons, List.map_nil, hK]
  have hid : ∀ e ∈ es, (modEdgeSplitRow old k m g0 e).edge_id = e.edge_id := fun e he =>
    (modEdgeSplitRow_spec old k m g0 e ho hk0 (hne e he)).1
  have hsig : ∀ x, x ∈ signedIds (modEdgeSplitEdges es old k m g0 g1) ↔
      x ∈ signedIds es ∨ x = k ∨ x = -k := by
    intro x
    rw [hes, mem_signedIds_append]
    have h1 : ∀ y, y ∈ signedIds (es.map (modEdgeSplitRow old k m g0)) ↔ y ∈ signedIds es := by
      intro y; rw [signedIds_map _ hid]
    rw [h1]; rfl
  have holdmem : -old.edge_id ∈ signedIds es := mem_signedIds.2 ⟨old, hold, Or.inr rfl⟩
  have holdcl := h.2.2.1 old hold
  have holdf := h.row_facts hold hk
  have hoo := h.2.2.2 old hold old hold
  refine ⟨?_, ?_, ?_, ?_⟩
  · intro e he
    rw [hes] at he
    rcases List.mem_append.1 he with he | he
    · obtain ⟨a, ha, rfl⟩ := List.mem_map.1 he
      rw [hid a ha]; exact h.1 a ha
    · rw [List.mem_singleton.1 he]; exact hk0
  · rw [hes, List.map_append, List.map_map]
    have : List.map ((fun e => e.edge_id) ∘ modEdgeSplitRow old k m g0) es =
        List.map (fun e => e.edge_id) es := by
      apply List.map_congr_left; intro e he; exact hid e he
    rw [this]
    apply List.Nodup.append h.2.1 (by simp)
    intro x hx hx'
    simp only [List.map_cons, List.map_nil, List.mem_singleton] at hx'
    obtain ⟨a, ha, rfl⟩ := List.mem_map.1 hx
    exact hne a ha hx'
  · intro e he
    rw [hsig, hsig]
    rw [hes] at he
    rcases List.mem_append.1 he with he | he
    · obtain ⟨a, ha, rfl⟩ := List.mem_map.1 he
      obtain ⟨-, -, -, -, -, hnl, hnr, -⟩ := modEdgeSplitRow_spec old k m g0 a ho hk0 (hne a ha)
      have hacl := h.2.2.1 a ha
      rw [hnl, hnr]
      constructor
      · split_ifs
        · exact Or.inr (Or.inl rfl)
        · exact Or.inr (Or.inr rfl)
        · exact Or.inl hacl.1
      · split_ifs
        · exact Or.inr (Or.inr rfl)
        · exact Or.inl hacl.2
    · rw [List.mem_singleton.1 he]
      simp only [modEdgeSplitNew]
      constructor
      · split_ifs
        · exact Or.inr (Or.inr rfl)
        · exact Or.inl holdcl.1
      · exact Or.inl holdmem
  · -- simplified description of the updated rows, using the old linkage
    have hrow : ∀ a ∈ es,
        (modEdgeSplitRow old k m g0 a).edge_id = a.edge_id ∧
        (modEdgeSplitRow old k m g0 a).start_node = a.start_node ∧
        (modEdgeSplitRow old k m g0 a).end_node =
          (if a.edge_id = old.edge_id then m else a.end_node) ∧
        (modEdgeSplitRow old k m g0 a).next_left =
          (if a.edge_id = old.edge_id then k
           else if a.next_left = -old.edge_id then -k else a.next_left) ∧
        (modEdgeSplitRow old k m g0 a).next_right =
          (if a.next_right = -old.edge_id then -k else a.next_right) := by
      intro a ha
      obtain ⟨a1, a2, -, -, a5, a6, a7, -⟩ := modEdgeSplitRow_spec old k m g0 a ho hk0 (hne a ha)
      have pao := h.2.2.2 a ha old hold
      have p2 := pao.2.1
      have p4 := pao.2.2.2.1
      refine ⟨a1, a2, a5, ?_, ?_⟩
      · rw [a6]; first | (split_ifs <;> omega) | omega
      · rw [a7]; first | (split_ifs <;> omega) | omega
    intro e he f hf
    rw [hes] at he hf
    rcases List.mem_append.1 he with he | he <;> rcases List.mem_append.1 hf with hf | hf
    · obtain ⟨a, ha, rfl⟩ := List.mem_map.1 he
      obtain ⟨b, hb, rfl⟩ := List.mem_map.1 hf
      obtain ⟨a1, a2, a5, a6, a7⟩ := hrow a ha
      obtain ⟨b1, b2, b5, b6, b7⟩ := hrow b hb
      have fa := h.row_facts ha hk
      have fb := h.row_facts hb hk
      have pab := h.2.2.2 a ha b hb
      unfold linkedPair
      rw [a1, a2, a5, a6, a7, b1, b2, b5, b6, b7]
      clear a1 a2 a5 a6 a7 b1 b2 b5 b6 b7 hrow hsig hes hid hK
      refine ⟨?_, ?_, ?_, ?_, ?_, ?_, ?_⟩
      · have := pab.1; first | (split_ifs <;> omega) | omega
      · have := pab.2.1; first | (split_ifs <;> omega) | omega
      · have := pab.2.2.1; first | (split_ifs <;> omega) | omega
      · have := pab.2.2.2.1; first | (split_ifs <;> omega) | omega
      · have := pab.2.2.2.2.1; first | (split_ifs <;> omega) | omega
      · have := pab.2.2.2.2.2.1; first | (split_ifs <;> omega) | omega
      · have := pab.2.2.2.2.2.2; first | (split_ifs <;> omega) | omega
    · obtain ⟨a, ha, rfl⟩ := List.mem_map.1 he
      rw [List.mem_singleton.1 hf]
      obtain ⟨a1, a2, a5, a6, a7⟩ := hrow a ha
      have fa := h.row_facts ha hk
      have pao := h.2.2.2 a ha old hold
      unfold linkedPair
      simp only [modEdgeSplitNew]
      rw [a1, a2, a5, a6, a7]
      clear a1 a2 a5 a6 a7 hrow hsig hes hid hK
      refine ⟨?_, ?_, ?_, ?_, ?_, ?_, ?_⟩
      · have := pao.1; first | (split_ifs <;> omega) | omega
      · have := pao.2.1; first | (split_ifs <;> omega) | omega
      · have := pao.2.2.1; first | (split_ifs <;> omega) | omega
      · have := pao.2.2.2.1; first | (split_ifs <;> omega) | omega
      · have := pao.2.2.2.2.1; first | (split_ifs <;> omega) | omega
      · have := pao.2.2.2.2.2.1; first | (split_ifs <;> omega) | omega
      · have := pao.2.2.2.2.2.2; first | (split_ifs <;> omega) | omega
    · obtain ⟨b, hb, rfl⟩ := List.mem_map.1 hf
      rw [List.mem_singleton.1 he]
      obtain ⟨b1, b2, b5, b6, b7⟩ := hrow b hb
      have fb := h.row_facts hb hk
      have pob := h.2.2.2 old hold b hb
      unfold linkedPair
      simp only [modEdgeSplitNew]
      rw [b1, b2, b5, b6, b7]
      clear b1 b2 b5 b6 b7 hrow hsig hes hid hK
      refine ⟨?_, ?_, ?_, ?_, ?_, ?_, ?_⟩
      · have := pob.1; first | (split_ifs <;> omega) | omega
      · have := pob.2.1; first | (split_ifs <;> omega) | omega
      · have := pob.2.2.1; first | (split_ifs <;> omega) | omega
      · have := pob.2.2.2.1; first | (split_ifs <;> omega) | omega
      · have := pob.2.2.2.2.1; first | (split_ifs <;> omega) | omega
      · have := pob.2.2.2.2.2.1; first | (split_ifs <;> omega) | omega
      · have := pob.2.2.2.2.2.2; first | (split_ifs <;> omega) | omega
    · rw [List.mem_singleton.1 he, List.mem_singleton.1 hf]
      unfold linkedPair
      simp only [modEdgeSplitNew]
      refine ⟨?_, ?_, ?_, ?_, ?_, ?_, ?_⟩
      · first | (split_ifs <;> omega) | omega
      · intro _; trivial
      · first | (split_ifs <;> omega) | omega
      · first | (split_ifs <;> omega) | omega
      · intro _; trivial
      · intro _; trivial
      · have := hoo.2.2.2.2.2.2; first | (split_ifs <;> omega) | omega

/-- C1 (`rtt_ModEdgeSplit` preserves ring closure): in a state whose linkage is well formed
(`next` is a bijection on the signed ids and `next(h)` leaves the node where `h` arrives) and
whose edge-id sequence is ahead of every stored edge id (the id handed out is fresh), a
successful `rtt_ModEdgeSplit(edge, pt)` yields a state whose linkage is again well formed,
so `next` is again such a bijection and walking `next` from any signed edge returns to it;
the split edge now ends at the new node (the returned id) and the new edge runs from the
new node to the old end node. -/
theorem rtt_ModEdgeSplit_ring_closure (G : GEOM) (T : RTT_TOPOLOGY) (edge : Int)
    (pt : POINT2D) (skipISOChecks : Bool)
    (hlink : RingLinked T.edges)
    (hfresh : ∀ e ∈ T.edges, e.edge_id < T.edge_seq)
    (hok : (rtt_ModEdgeSplit G T edge pt skipISOChecks).2 ≠ -1) :
    RingLinked (rtt_ModEdgeSplit G T edge pt skipISOChecks).1.edges ∧
    NextBijection (rtt_ModEdgeSplit G T edge pt skipISOChecks).1.edges ∧
    RingsClose (rtt_ModEdgeSplit G T edge pt skipISOChecks).1.edges ∧
    ∃ old e1 e2, edgeRow T.edges edge = some old ∧
      edgeRow (rtt_ModEdgeSplit G T edge pt skipISOChecks).1.edges edge = some e1 ∧
      edgeRow (rtt_ModEdgeSplit G T edge pt skipISOChecks).1.edges T.edge_seq = some e2 ∧
      e1.start_node = old.start_node ∧
      e1.end_node = (rtt_ModEdgeSplit G T edge pt skipISOChecks).2 ∧
      e2.start_node = (rtt_ModEdgeSplit G T edge pt skipISOChecks).2 ∧
      e2.end_node = old.end_node := by
  obtain ⟨old, col, hrow, -, -, -, -, hret, hedges, -, -⟩ := rtt_ModEdgeSplit_ok rfl hok
  obtain ⟨hold, hoid⟩ := edgeRow_some hrow
  have hR := modEdgeSplitEdges_ringLinked T.node_seq (col.getD 0 []) (col.getD 1 [])
    hlink hold hfresh
  rw [← hedges] at hR
  refine ⟨hR, hR.nextBijection, hR.ringsClose, old,
    modEdgeSplitRow old T.edge_seq T.node_seq (col.getD 0 []) old,
    modEdgeSplitNew old T.edge_seq T.node_seq (col.getD 1 []), hrow, ?_, ?_, ?_, ?_, ?_, ?_⟩
  · have ho := hlink.1 old hold
    have hk := hfresh old hold
    have hspec := modEdgeSplitRow_spec old T.edge_seq T.node_seq (col.getD 0 []) old ho
      (by omega) (by omega)
    have hmem : modEdgeSplitRow old T.edge_seq T.node_seq (col.getD 0 []) old ∈
        (rtt_ModEdgeSplit G T edge pt skipISOChecks).1.edges := by
      rw [hedges]
      exact List.mem_map.2 ⟨old, List.mem_append_left _ hold, rfl⟩
    have := edgeRow_of_mem hR.2.1 hmem
    rw [hspec.1, hoid] at this
    exact this
  · have hmem : modEdgeSplitNew old T.edge_seq T.node_seq (col.getD 1 []) ∈
        (rtt_ModEdgeSplit G T edge pt skipISOChecks).1.edges := by
      rw [hedges]
      have ho := hlink.1 old hold
      have hk := hfresh old hold
      have hK := modEdgeSplitRow_new old T.edge_seq T.node_seq (col.getD 0 []) (col.getD 1 [])
        ho (by omega) (by omega)
      exact List.mem_map.2 ⟨modEdgeSplitNew old T.edge_seq T.node_seq (col.getD 1 []),
        List.mem_append_right _ (List.mem_singleton.2 rfl), hK⟩
    exact edgeRow_of_mem hR.2.1 hmem
  · have ho := hlink.1 old hold
    have hk := hfresh old hold
    exact (modEdgeSplitRow_spec old T.edge_seq T.node_seq (col.getD 0 []) old ho
      (by omega) (by omega)).2.1
  · have ho := hlink.1 old hold
    have hk := hfresh old hold
    have := (modEdgeSplitRow_spec old T.edge_seq T.node_seq (col.getD 0 []) old ho
      (by omega) (by omega)).2.2.2.2.1
    rw [this, if_pos rfl, hret]
  · rw [hret]; rfl
  · rfl

theorem rtt_ModEdgeSplit_ring_closure_witness :
    RingLinked topoOneEdge.edges ∧
    RingLinked (rtt_ModEdgeSplit testKernel topoOneEdge 1 { x := 5, y := 0 } false).1.edges ∧
    RingsClose (rtt_ModEdgeSplit testKernel topoOneEdge 1 { x := 5, y := 0 } false).1.edges :=
  have h := rtt_ModEdgeSplit_ring_closure testKernel topoOneEdge 1 { x := 5, y := 0 } false
    (by decide) (by decide) (by decide)
  ⟨by decide, h.1, h.2.2.1⟩

end RTTopo

namespace RTTopo

/-! ## `rtt_NewEdgesSplit` and the linkage -/

/-- Claim C2, evaluated on a state where the claim fails: in `topoTwoSpokes` (edges `1` and
`2` both leaving node `2`, well linked) the call `rtt_NewEdgesSplit(2, POINT(15 0))` succeeds
with new node `4` and replaces edge `2` by edges `3` (node `2` to node `4`) and `4` (node `4`
to node `3`). Edge `1` had `next_right = 2`; the code rewrites it to `4`, the new edge that
leaves node `4`, although the half-edge `-1` arrives at node `2`. The half-edge `+4` then has
two predecessors (`-1` and `+3`), so the linkage of the result is no bijection. -/
theorem rtt_NewEdgesSplit_breaks_linkage :
    RingLinked topoTwoSpokes.edges ∧
    (rtt_NewEdgesSplit testKernel topoTwoSpokes 2 ⟨15, 0⟩ false).2 = 4 ∧
    (rtt_NewEdgesSplit testKernel topoTwoSpokes 2 ⟨15, 0⟩ false).1.edges.map
        (fun e => (e.edge_id, e.start_node, e.end_node, e.next_left, e.next_right)) =
      [(1, 2, 1, -1, 4), (3, 2, 4, 4, 1), (4, 4, 3, -4, -3)] ∧
    nextEdge (rtt_NewEdgesSplit testKernel topoTwoSpokes 2 ⟨15, 0⟩ false).1.edges (-1) = 4 ∧
    nextEdge (rtt_NewEdgesSplit testKernel topoTwoSpokes 2 ⟨15, 0⟩ false).1.edges 3 = 4 ∧
    arrivesNode (rtt_NewEdgesSplit testKernel topoTwoSpokes 2 ⟨15, 0⟩ false).1.edges (-1) = 2 ∧
    leavesNode (rtt_NewEdgesSplit testKernel topoTwoSpokes 2 ⟨15, 0⟩ false).1.edges 4 = 4 ∧
    ¬ RingLinked (rtt_NewEdgesSplit testKernel topoTwoSpokes 2 ⟨15, 0⟩ false).1.edges ∧
    ¬ NextBijection (rtt_NewEdgesSplit testKernel topoTwoSpokes 2 ⟨15, 0⟩ false).1.edges := by
  have hE : (rtt_NewEdgesSplit testKernel topoTwoSpokes 2 ⟨15, 0⟩ false).1.edges =
      [ { edge_id := 1, start_node := 2, end_node := 1, face_left := 0, face_right := 0,
          next_left := -1, next_right := 4, geom := [{ x := 10, y := 0 }, { x := 0, y := 0 }] },
        { edge_id := 3, start_node := 2, end_node := 4, face_left := 0, face_right := 0,
          next_left := 4, next_right := 1, geom := [{ x := 10, y := 0 }, { x := 15, y := 0 }] },
        { edge_id := 4, start_node := 4, end_node := 3, face_left := 0, face_right := 0,
          next_left := -4, next_right := -3,
          geom := [{ x := 15, y := 0 }, { x := 20, y := 0 }] } ] := by decide
  refine ⟨by decide, by decide, ?_, ?_, ?_, ?_, ?_, ?_, ?_⟩
  · rw [hE]; decide
  · rw [hE]; decide
  · rw [hE]; decide
  · rw [hE]; decide
  · rw [hE]; decide
  · rw [hE]; decide
  · rw [hE]
    intro hb
    exact absurd (NextBijection.ringLinked (by decide) (by decide) hb) (by decide)

end RTTopo

namespace RTTopo

/-! ## The edge table written by `_rtt_AddEdge` -/

theorem addEdgeLinkRow_fields (prev target : Int) (e : RTT_ISO_EDGE) :
    (addEdgeLinkRow prev target e).edge_id = e.edge_id ∧
    (addEdgeLinkRow prev target e).start_node = e.start_node ∧
    (addEdgeLinkRow prev target e).end_node = e.end_node ∧
    (addEdgeLinkRow prev target e).next_left =
      (if 0 < prev ∧ e.edge_id = prev then target else e.next_left) ∧
    (addEdgeLinkRow prev target e).next_right =
      (if ¬ 0 < prev ∧ e.edge_id = -prev then target else e.next_right) := by
  unfold addEdgeLinkRow
  by_cases hp : prev > 0
  · rw [if_pos hp]
    have hp' : 0 < prev := hp
    simp only [updateEdgeRow_edge_id, updateEdgeRow_start_node,
      updateEdgeRow_end_node, updateEdgeRow_next_left, updateEdgeRow_next_right,
      edgeSelected, edgeMatches, blankEdge, List.mem_cons, List.mem_singleton,
      List.not_mem_nil, List.isEmpty_nil, reduceCtorEq,
      Bool.and_eq_true, decide_eq_true_eq, Bool.not_eq_true', Bool.not_true, Bool.not_false,
      Bool.false_and, Bool.true_and, or_false, false_or, or_true, true_or, false_imp_iff,
      true_imp_iff, and_true, true_and, Bool.and_true, decide_True,
      decide_False, Bool.and_false, Bool.false_eq_true,
      and_false, false_and, if_false, if_true, not_false_eq_true, not_true_eq_false, and_self,
      Bool.decide_and, Bool.decide_eq_true, ite_true, ite_false, hp', not_true_eq_false]
  · rw [if_neg hp]
    have hp' : ¬ 0 < prev := hp
    simp only [updateEdgeRow_edge_id, updateEdgeRow_start_node,
      updateEdgeRow_end_node, updateEdgeRow_next_left, updateEdgeRow_next_right,
      edgeSelected, edgeMatches, blankEdge, List.mem_cons, List.mem_singleton,
      List.not_mem_nil, List.isEmpty_nil, reduceCtorEq,
      Bool.and_eq_true, decide_eq_true_eq, Bool.not_eq_true', Bool.not_true, Bool.not_false,
      Bool.false_and, Bool.true_and, or_false, false_or, or_true, true_or, false_imp_iff,
      true_imp_iff, and_true, true_and, Bool.and_true, decide_True,
      decide_False, Bool.and_false, Bool.false_eq_true,
      and_false, false_and, if_false, if_true, not_false_eq_true, not_true_eq_false, and_self,
      Bool.decide_and, Bool.decide_eq_true, ite_true, ite_false, hp']

/-- What the two link requests of `_rtt_AddEdge` do to one row. -/
theorem addEdgeEdges_eq (es : List RTT_ISO_EDGE) (N : RTT_ISO_EDGE) (pl pr : Int) :
    ∃ F : RTT_ISO_EDGE → RTT_ISO_EDGE,
      addEdgeEdges es N pl pr = (es ++ [N]).map F ∧
      ∀ e, (F e).edge_id = e.edge_id ∧ (F e).start_node = e.start_node ∧
        (F e).end_node = e.end_node ∧
        (F e).next_left =
          (if llabs pr ≠ N.edge_id ∧ 0 < pr ∧ e.edge_id = pr then -N.edge_id
           else if llabs pl ≠ N.edge_id ∧ 0 < pl ∧ e.edge_id = pl then N.edge_id
           else e.next_left) ∧
        (F e).next_right =
          (if llabs pr ≠ N.edge_id ∧ ¬ 0 < pr ∧ e.edge_id = -pr then -N.edge_id
           else if llabs pl ≠ N.edge_id ∧ ¬ 0 < pl ∧ e.edge_id = -pl then N.edge_id
           else e.next_right) := by
  unfold addEdgeEdges
  by_cases h1 : llabs pl ≠ N.edge_id <;> by_cases h2 : llabs pr ≠ N.edge_id
  · refine ⟨fun e => addEdgeLinkRow pr (-N.edge_id) (addEdgeLinkRow pl N.edge_id e), ?_, ?_⟩
    · rw [if_pos h1, if_pos h2, List.map_map]; rfl
    · intro e
      obtain ⟨a1, a2, a3, a4, a5⟩ := addEdgeLinkRow_fields pl N.edge_id e
      obtain ⟨b1, b2, b3, b4, b5⟩ :=
        addEdgeLinkRow_fields pr (-N.edge_id) (addEdgeLinkRow pl N.edge_id e)
      simp only [b1, b2, b3, b4, b5, a1, a2, a3, a4, a5, h1, h2, not_false_eq_true, true_and,
        ne_eq]
  · refine ⟨fun e => addEdgeLinkRow pl N.edge_id e, ?_, ?_⟩
    · rw [if_pos h1, if_neg h2]; rfl
    · intro e
      obtain ⟨a1, a2, a3, a4, a5⟩ := addEdgeLinkRow_fields pl N.edge_id e
      simp only [a1, a2, a3, a4, a5, h1, h2, not_false_eq_true, true_and, false_and,
        if_false, ne_eq]
  · refine ⟨fun e => addEdgeLinkRow pr (-N.edge_id) e, ?_, ?_⟩
    · rw [if_neg h1, if_pos h2]; rfl
    · intro e
      obtain ⟨b1, b2, b3, b4, b5⟩ := addEdgeLinkRow_fields pr (-N.edge_id) e
      simp only [b1, b2, b3, b4, b5, h1, h2, not_false_eq_true, true_and, false_and,
        if_false, ne_eq]
  · refine ⟨id, ?_, ?_⟩
    · rw [if_neg h1, if_neg h2]; simp
    · intro e
      simp only [id, h1, h2, false_and, if_false]
      exact ⟨trivial, trivial, trivial, trivial, trivial⟩

/-- Inserting and linking a new edge along a plan that takes over the successors of
`prev_left` and `prev_right` keeps the linkage well formed. -/
theorem addEdgeEdges_ringLinked {es : List RTT_ISO_EDGE} (N : RTT_ISO_EDGE) (pl pr : Int)
    (h : RingLinked es) (hk : ∀ x ∈ es, x.edge_id < N.edge_id) (hk0 : 0 < N.edge_id)
    (hpl : pl = N.edge_id ∨ pl = -N.edge_id ∨
      (pl ∈ signedIds es ∧ arrivesNode es pl = N.start_node))
    (hpr : pr = N.edge_id ∨ pr = -N.edge_id ∨
      (pr ∈ signedIds es ∧ arrivesNode es pr = N.end_node))
    (hnl : (N.next_left = N.edge_id ∧ N.start_node = N.end_node) ∨
      N.next_left = -N.edge_id ∨
      (N.next_left ∈ signedIds es ∧ leavesNode es N.next_left = N.end_node))
    (hnr : N.next_right = N.edge_id ∨
      (N.next_right = -N.edge_id ∧ N.start_node = N.end_node) ∨
      (N.next_right ∈ signedIds es ∧ leavesNode es N.next_right = N.start_node))
    (e1 : pl = N.edge_id → N.next_left = N.edge_id)
    (e2 : pl = -N.edge_id → N.next_right = N.edge_id)
    (e3 : pr = -N.edge_id → N.next_right = -N.edge_id)
    (e4 : pr = N.edge_id → N.next_left = -N.edge_id)
    (hdist : pl ∈ signedIds es → pr ∈ signedIds es → pl ≠ pr)
    (hd1 : pl ∈ signedIds es → nextEdge es pl = N.next_right ∨ nextEdge es pl = N.next_left)
    (hd2 : pr ∈ signedIds es → nextEdge es pr = N.next_left ∨ nextEdge es pr = N.next_right) :
    RingLinked (addEdgeEdges es N pl pr) := by
  obtain ⟨F, hF, hrow⟩ := addEdgeEdges_eq es N pl pr
  have NB := h.nextBijection
  obtain ⟨hpos, hnd, hcl, -⟩ := h
  have hes : addEdgeEdges es N pl pr = es.map F ++ [F N] := by
    rw [hF, List.map_append]; rfl
  have hb : ∀ x ∈ signedIds es, -N.edge_id < x ∧ x < N.edge_id ∧ x ≠ 0 := by
    intro x hx
    obtain ⟨e, he, hxe⟩ := mem_signedIds.1 hx
    have := hpos e he
    have := hk e he
    omega
  have hFNl : (F N).next_left = N.next_left := by
    rw [(hrow N).2.2.2.1]; exact addEdge_new_left_arith _ _ _ _
  have hFNr : (F N).next_right = N.next_right := by
    rw [(hrow N).2.2.2.2]; exact addEdge_new_right_arith _ _ _ _
  have hidF : ∀ e ∈ es, (F e).edge_id = e.edge_id := fun e _ => (hrow e).1
  have hpos' : ∀ e ∈ addEdgeEdges es N pl pr, 0 < e.edge_id := by
    intro e he
    rw [hF] at he
    obtain ⟨e0, he0, rfl⟩ := List.mem_map.1 he
    rw [(hrow e0).1]
    rcases List.mem_append.1 he0 with h1 | h1
    · exact hpos e0 h1
    · rw [List.mem_singleton.1 h1]; exact hk0
  have hnd' : ((addEdgeEdges es N pl pr).map (fun e => e.edge_id)).Nodup := by
    have : (addEdgeEdges es N pl pr).map (fun e => e.edge_id) =
        es.map (fun e => e.edge_id) ++ [N.edge_id] := by
      rw [hF, List.map_map, List.map_append]
      congr 1
      · apply List.map_congr_left; intro e _; exact (hrow e).1
      · simp [(hrow N).1]
    rw [this]
    refine List.Nodup.append hnd (List.nodup_singleton _) ?_
    intro x hx hx'
    rw [List.mem_singleton] at hx'
    obtain ⟨e, he, rfl⟩ := List.mem_map.1 hx
    have := hk e he
    omega
  have hsig : ∀ x, x ∈ signedIds (addEdgeEdges es N pl pr) ↔
      x ∈ signedIds es ∨ x = N.edge_id ∨ x = -N.edge_id := by
    intro x
    rw [hes, mem_signedIds_append, signedIds_map F hidF, (hrow N).1]
  have hmemF : ∀ e ∈ es, F e ∈ addEdgeEdges es N pl pr := by
    intro e he
    rw [hes]; exact List.mem_append_left _ (List.mem_map_of_mem F he)
  have hmemN : F N ∈ addEdgeEdges es N pl pr := by
    rw [hes]; exact List.mem_append_right _ (List.mem_singleton.2 rfl)
  have hkk : -N.edge_id ≠ N.edge_id := by omega
  -- the successor map of the new table
  have hnext : ∀ x ∈ signedIds (addEdgeEdges es N pl pr),
      nextEdge (addEdgeEdges es N pl pr) x =
        addEdgeNext (nextEdge es) N.edge_id N.next_left N.next_right pl pr x := by
    intro x hx
    rcases (hsig x).1 hx with hx | hx | hx
    · obtain ⟨e, he, hxe⟩ := mem_signedIds.1 hx
      have hp := hpos e he
      have hlt := hk e he
      have hp' : 0 < (F e).edge_id := by rw [(hrow e).1]; exact hp
      rcases hxe with rfl | rfl
      · have := nextEdge_pos hnd' (hmemF e he) hp'
        rw [(hrow e).1] at this
        rw [this, (hrow e).2.2.2.1]
        unfold addEdgeNext
        rw [nextEdge_pos hnd he hp]
        exact addEdge_left_arith _ _ _ _ _ _ _ hp hlt
      · have := nextEdge_neg hnd' (hmemF e he) hp'
        rw [(hrow e).1] at this
        rw [this, (hrow e).2.2.2.2]
        unfold addEdgeNext
        rw [nextEdge_neg hnd he hp]
        exact addEdge_right_arith _ _ _ _ _ _ _ hp hlt
    · subst hx
      have hp' : 0 < (F N).edge_id := by rw [(hrow N).1]; exact hk0
      have := nextEdge_pos hnd' hmemN hp'
      rw [(hrow N).1] at this
      rw [this, hFNl]
      simp [addEdgeNext]
    · subst hx
      have hp' : 0 < (F N).edge_id := by rw [(hrow N).1]; exact hk0
      have := nextEdge_neg hnd' hmemN hp'
      rw [(hrow N).1] at this
      rw [this, hFNr]
      simp [addEdgeNext, hkk]
  have hleave : ∀ x ∈ signedIds es,
      leavesNode (addEdgeEdges es N pl pr) x = leavesNode es x := by
    intro x hx
    obtain ⟨e, he, hxe⟩ := mem_signedIds.1 hx
    have hp := hpos e he
    have hp' : 0 < (F e).edge_id := by rw [(hrow e).1]; exact hp
    rcases hxe with rfl | rfl
    · have := leavesNode_pos hnd' (hmemF e he) hp'
      rw [(hrow e).1] at this
      rw [this, leavesNode_pos hnd he hp, (hrow e).2.1]
    · have := leavesNode_neg hnd' (hmemF e he) hp'
      rw [(hrow e).1] at this
      rw [this, leavesNode_neg hnd he hp, (hrow e).2.2.1]
  have harr : ∀ x ∈ signedIds es,
      arrivesNode (addEdgeEdges es N pl pr) x = arrivesNode es x := by
    intro x hx
    obtain ⟨e, he, hxe⟩ := mem_signedIds.1 hx
    have hp := hpos e he
    have hp' : 0 < (F e).edge_id := by rw [(hrow e).1]; exact hp
    rcases hxe with rfl | rfl
    · have := arrivesNode_pos hnd' (hmemF e he) hp'
      rw [(hrow e).1] at this
      rw [this, arrivesNode_pos hnd he hp, (hrow e).2.2.1]
    · have := arrivesNode_neg hnd' (hmemF e he) hp'
      rw [(hrow e).1] at this
      rw [this, arrivesNode_neg hnd he hp, (hrow e).2.1]
  have hpN : 0 < (F N).edge_id := by rw [(hrow N).1]; exact hk0
  have hleaveK : leavesNode (addEdgeEdges es N pl pr) N.edge_id = N.start_node := by
    have := leavesNode_pos hnd' hmemN hpN
    rw [(hrow N).1] at this
    rw [this, (hrow N).2.1]
  have hleaveK' : leavesNode (addEdgeEdges es N pl pr) (-N.edge_id) = N.end_node := by
    have := leavesNode_neg hnd' hmemN hpN
    rw [(hrow N).1] at this
    rw [this, (hrow N).2.2.1]
  have harrK : arrivesNode (addEdgeEdges es N pl pr) N.edge_id = N.end_node := by
    have := arrivesNode_pos hnd' hmemN hpN
    rw [(hrow N).1] at this
    rw [this, (hrow N).2.2.1]
  have harrK' : arrivesNode (addEdgeEdges es N pl pr) (-N.edge_id) = N.start_node := by
    have := arrivesNode_neg hnd' hmemN hpN
    rw [(hrow N).1] at this
    rw [this, (hrow N).2.1]
  -- the abstract bijection
  have hset : {x | x ∈ signedIds (addEdgeEdges es N pl pr)} =
      {x | x ∈ signedIds es} ∪ {N.edge_id, -N.edge_id} := by
    ext x
    simp only [Set.mem_setOf_eq, Set.mem_union, Set.mem_insert_iff, Set.mem_singleton_iff]
    exact hsig x
  have habs := addEdgeNext_bijOn {x | x ∈ signedIds es} (List.finite_toSet _) (nextEdge es)
    N.edge_id N.next_left N.next_right pl pr NB.1 hk0
    (fun x hx => ⟨(hb x hx).1, (hb x hx).2.1⟩)
    (by rcases hpl with h1 | h1 | h1
        · exact Or.inl h1
        · exact Or.inr (Or.inl h1)
        · exact Or.inr (Or.inr h1.1))
    (by rcases hpr with h1 | h1 | h1
        · exact Or.inl h1
        · exact Or.inr (Or.inl h1)
        · exact Or.inr (Or.inr h1.1))
    (by rcases hnl with h1 | h1 | h1
        · exact Or.inl h1.1
        · exact Or.inr (Or.inl h1)
        · exact Or.inr (Or.inr h1.1))
    (by rcases hnr with h1 | h1 | h1
        · exact Or.inl h1
        · exact Or.inr (Or.inl h1.1)
        · exact Or.inr (Or.inr h1.1))
    e1 e2 e3 e4 hdist hd1 hd2
  have hbij : Set.BijOn (nextEdge (addEdgeEdges es N pl pr))
      {x | x ∈ signedIds (addEdgeEdges es N pl pr)}
      {x | x ∈ signedIds (addEdgeEdges es N pl pr)} := by
    rw [hset]
    refine habs.congr ?_
    intro x hx
    rw [← hset] at hx
    exact (hnext x hx).symm
  refine NextBijection.ringLinked hpos' hnd' ⟨hbij, ?_⟩
  intro x hx
  rw [hnext x hx]
  rcases (hsig x).1 hx with hxS | hxk | hxk
  · have hbx := hb x hxS
    have hx1 : x ≠ N.edge_id := by omega
    have hx2 : x ≠ -N.edge_id := by omega
    rw [harr x hxS]
    unfold addEdgeNext
    rw [if_neg hx1, if_neg hx2]
    by_cases c1 : x = pr
    · rw [if_pos c1, hleaveK']
      rcases hpr with h1 | h1 | h1
      · omega
      · omega
      · rw [c1]; exact h1.2.symm
    · rw [if_neg c1]
      by_cases c2 : x = pl
      · rw [if_pos c2, hleaveK]
        rcases hpl with h1 | h1 | h1
        · omega
        · omega
        · rw [c2]; exact h1.2.symm
      · rw [if_neg c2, hleave _ (NB.1.mapsTo hxS)]
        exact NB.2 x hxS
  · subst hxk
    rw [harrK]
    have : addEdgeNext (nextEdge es) N.edge_id N.next_left N.next_right pl pr N.edge_id =
        N.next_left := by simp [addEdgeNext]
    rw [this]
    rcases hnl with h1 | h1 | h1
    · rw [h1.1, hleaveK]; exact h1.2
    · rw [h1, hleaveK']
    · rw [hleave _ h1.1]; exact h1.2
  · subst hxk
    rw [harrK']
    have : addEdgeNext (nextEdge es) N.edge_id N.next_left N.next_right pl pr (-N.edge_id) =
        N.next_right := by simp [addEdgeNext, hkk]
    rw [this]
    rcases hnr with h1 | h1 | h1
    · rw [h1, hleaveK]
    · rw [h1.1, hleaveK']; exact h1.2.symm
    · rw [hleave _ h1.1]; exact h1.2

end RTTopo

namespace RTTopo

/-! ## `_rtt_FindAdjacentEdges` -/

theorem adjUpdate_myaz (sid cw ccw azdif : Int) (s : AdjScan) :
    (adjUpdate sid cw ccw azdif s).data.myaz = s.data.myaz := by
  unfold adjUpdate
  split_ifs <;> rfl

theorem adjUpdate_sound {es : List RTT_ISO_EDGE} {node : Int} (sid cw ccw azdif : Int)
    (s : AdjScan) (hs : neighboursAtNode es node s.data)
    (hsid : sid ∈ signedIds es ∧ leavesNode es sid = node) :
    neighboursAtNode es node (adjUpdate sid cw ccw azdif s).data := by
  unfold adjUpdate
  unfold neighboursAtNode at hs ⊢
  split_ifs
  · exact ⟨Or.inr hsid, Or.inr hsid⟩
  · exact ⟨Or.inr hsid, hs.2⟩
  · exact ⟨hs.1, Or.inr hsid⟩
  · exact hs

theorem findAdjacentStart_sound (G : GEOM) {es : List RTT_ISO_EDGE} (node : Int)
    (hpos : ∀ e ∈ es, 0 < e.edge_id) (hnd : (es.map (fun e => e.edge_id)).Nodup)
    (edge : RTT_ISO_EDGE) (hedge : edge ∈ es) (pa : POINTARRAY) (s : AdjScan)
    (hs : neighboursAtNode es node s.data) :
    neighboursAtNode es node (findAdjacentStart G node edge pa s).1.data ∧
    (findAdjacentStart G node edge pa s).1.data.myaz = s.data.myaz := by
  unfold findAdjacentStart
  by_cases c2 : edge.start_node = node
  · rw [if_pos c2]
    cases haz : G.azimuth (getPoint2d_p pa 0) (getPoint2d_p pa 1) with
    | none => exact ⟨hs, rfl⟩
    | some az =>
      refine ⟨adjUpdate_sound _ _ _ _ s hs ⟨?_, ?_⟩, adjUpdate_myaz _ _ _ _ s⟩
      · exact mem_signedIds.2 ⟨edge, hedge, Or.inl rfl⟩
      · rw [leavesNode_pos hnd hedge (hpos edge hedge)]; exact c2
  · rw [if_neg c2]; exact ⟨hs, rfl⟩

theorem findAdjacentEnd_sound (G : GEOM) {es : List RTT_ISO_EDGE} (node : Int)
    (hpos : ∀ e ∈ es, 0 < e.edge_id) (hnd : (es.map (fun e => e.edge_id)).Nodup)
    (edge : RTT_ISO_EDGE) (hedge : edge ∈ es) (pa : POINTARRAY) (s : AdjScan)
    (hs : neighboursAtNode es node s.data) :
    neighboursAtNode es node (findAdjacentEnd G node edge pa s).1.data ∧
    (findAdjacentEnd G node edge pa s).1.data.myaz = s.data.myaz := by
  unfold findAdjacentEnd
  by_cases c2 : edge.end_node = node
  · rw [if_pos c2]
    cases haz : G.azimuth (getPoint2d_p pa (pa.length - 1))
        (getPoint2d_p pa (pa.length - 2)) with
    | none => exact ⟨hs, rfl⟩
    | some az =>
      refine ⟨adjUpdate_sound _ _ _ _ s hs ⟨?_, ?_⟩, adjUpdate_myaz _ _ _ _ s⟩
      · exact mem_signedIds.2 ⟨edge, hedge, Or.inr rfl⟩
      · rw [leavesNode_neg hnd hedge (hpos edge hedge)]; exact c2
  · rw [if_neg c2]; exact ⟨hs, rfl⟩

theorem findAdjacentLoop_sound (G : GEOM) {es : List RTT_ISO_EDGE} (node myedge_id : Int)
    (hpos : ∀ e ∈ es, 0 < e.edge_id) (hnd : (es.map (fun e => e.edge_id)).Nodup)
    (edges : List RTT_ISO_EDGE) (hsub : ∀ e ∈ edges, e ∈ es) (s : AdjScan)
    (hs : neighboursAtNode es node s.data) :
    neighboursAtNode es node (findAdjacentLoop G node myedge_id edges s).1.data ∧
    (findAdjacentLoop G node myedge_id edges s).1.data.myaz = s.data.myaz := by
  induction edges generalizing s with
  | nil => exact ⟨hs, rfl⟩
  | cons edge rest ih =>
    have hrest : ∀ e ∈ rest, e ∈ es := fun e he => hsub e (List.mem_cons_of_mem _ he)
    have hedge : edge ∈ es := hsub edge (List.mem_cons_self _ _)
    unfold findAdjacentLoop
    by_cases c0 : edge.edge_id = myedge_id
    · rw [if_pos c0]; exact ih hrest s hs
    · rw [if_neg c0]
      by_cases c1 : (rtgeom_remove_repeated_points edge.geom).length < 2
      · rw [if_pos c1]; exact ⟨hs, rfl⟩
      · rw [if_neg c1]
        have k := findAdjacentStart_sound G node hpos hnd edge hedge
          (rtgeom_remove_repeated_points edge.geom) s hs
        rcases h1 : findAdjacentStart G node edge
          (rtgeom_remove_repeated_points edge.geom) s with ⟨s1, _ | msg⟩
        · rw [h1] at k
          dsimp only at k ⊢
          have k' := findAdjacentEnd_sound G node hpos hnd edge hedge
            (rtgeom_remove_repeated_points edge.geom) s1 k.1
          rcases h2 : findAdjacentEnd G node edge
            (rtgeom_remove_repeated_points edge.geom) s1 with ⟨s2, _ | msg⟩
          · rw [h2] at k'
            dsimp only at k' ⊢
            obtain ⟨k5, k6⟩ := ih hrest s2 k'.1
            exact ⟨k5, k6.trans (k'.2.trans k.2)⟩
          · rw [h2] at k'
            exact ⟨k'.1, k'.2.trans k.2⟩
        · rw [h1] at k
          exact k

/-- What `_rtt_FindAdjacentEdges` returns: the rows are left alone, the neighbours it
names are stored half-edges leaving `node`, the azimuth is kept, and the count is zero
exactly when the back end reports no incident edge. -/
theorem findAdjacentEdges_sound (G : GEOM) (T : RTT_TOPOLOGY) (node : Int) (data : edgeend)
    (other : Option edgeend) (myedge_id : Int)
    (hpos : ∀ e ∈ T.edges, 0 < e.edge_id)
    (hnd : (T.edges.map (fun e => e.edge_id)).Nodup) :
    (_rtt_FindAdjacentEdges G T node data other myedge_id).1 =
      { T with errors := (_rtt_FindAdjacentEdges G T node data other myedge_id).1.errors } ∧
    neighboursAtNode T.edges node (_rtt_FindAdjacentEdges G T node data other myedge_id).2.1 ∧
    (_rtt_FindAdjacentEdges G T node data other myedge_id).2.1.myaz = data.myaz ∧
    ((_rtt_FindAdjacentEdges G T node data other myedge_id).2.2 = 0 ↔
      (rtt_be_getEdgeByNode T [node] = none ∨ rtt_be_getEdgeByNode T [node] = some [])) := by
  have h0 : neighboursAtNode T.edges node
      { data with nextCW := 0, nextCCW := 0, cwFace := -1, ccwFace := -1 } :=
    ⟨Or.inl rfl, Or.inl rfl⟩
  unfold _rtt_FindAdjacentEdges
  dsimp only
  cases hg : rtt_be_getEdgeByNode T [node] with
  | none => exact ⟨rfl, h0, rfl, by simp⟩
  | some edges =>
    dsimp only
    have hsub : ∀ e ∈ edges, e ∈ T.edges := by
      intro e he
      rw [getEdgeByNode_some hg] at he
      exact (List.mem_filter.1 he).1
    have k := findAdjacentLoop_sound G node myedge_id hpos hnd edges hsub
      { data := { data with nextCW := 0, nextCCW := 0, cwFace := -1, ccwFace := -1 },
        minaz := (adjInitialAz G data other),
        maxaz := (adjInitialAz G data other) } h0
    rcases hl : findAdjacentLoop G node myedge_id edges
      { data := { data with nextCW := 0, nextCCW := 0, cwFace := -1, ccwFace := -1 },
        minaz := (adjInitialAz G data other),
        maxaz := (adjInitialAz G data other) } with ⟨s1, _ | msg⟩
    · rw [hl] at k
      dsimp only at k ⊢
      split_ifs with hc
      · refine ⟨rfl, k.1, k.2, ?_⟩
        have : edges ≠ [] := fun h => hc.2.1 (by rw [h]; rfl)
        simp [this]
      · refine ⟨rfl, k.1, k.2, ?_⟩
        simp [List.length_eq_zero]
    · rw [hl] at k
      dsimp only at k ⊢
      refine ⟨rfl, k.1, k.2, ?_⟩
      have : edges ≠ [] := by
        rintro rfl
        simp [findAdjacentLoop] at hl
      simp [this]

/-- The answer of `_rtt_FindAdjacentEdges` depends on the state only through the edge rows
and the failing callbacks, and on `other` only through its azimuth. -/
theorem findAdjacentEdges_congr (G : GEOM) (T T' : RTT_TOPOLOGY) (node : Int) (data : edgeend)
    (other other' : Option edgeend) (myedge_id : Int)
    (he : T'.edges = T.edges) (hf : T'.failing = T.failing)
    (ho : other'.map (fun o => o.myaz) = other.map (fun o => o.myaz)) :
    (_rtt_FindAdjacentEdges G T' node data other' myedge_id).2 =
      (_rtt_FindAdjacentEdges G T node data other myedge_id).2 := by
  have hg : rtt_be_getEdgeByNode T' [node] = rtt_be_getEdgeByNode T [node] := by
    unfold rtt_be_getEdgeByNode; rw [he, hf]
  have haz : adjInitialAz G data other' = adjInitialAz G data other := by
    unfold adjInitialAz
    cases other <;> cases other' <;> simp_all
  unfold _rtt_FindAdjacentEdges
  dsimp only
  rw [hg, haz]
  cases rtt_be_getEdgeByNode T [node] with
  | none => rfl
  | some edges =>
    dsimp only
    rcases findAdjacentLoop G node myedge_id edges _ with ⟨s1, _ | msg⟩
    · dsimp only
      split_ifs <;> rfl
    · rfl

end RTTopo

namespace RTTopo

/-! ## Steps that keep the linkage columns -/

theorem linksKept.same (T : RTT_TOPOLOGY) : linksKept T T := ⟨rfl, rfl⟩

theorem linksKept.andThen {T T1 T2 : RTT_TOPOLOGY} (h1 : linksKept T T1) (h2 : linksKept T1 T2) :
    linksKept T T2 := ⟨h2.1.trans h1.1, h2.2.trans h1.2⟩

theorem linksKept_rterror {T T1 : RTT_TOPOLOGY} (msg : String) (h : linksKept T T1) :
    linksKept T (rterror T1 msg) := h

theorem linksKept_updateFacesById (T : RTT_TOPOLOGY) (rows : List RTT_ISO_FACE) :
    linksKept T (rtt_be_updateFacesById T rows).1 := by
  unfold rtt_be_updateFacesById
  dsimp only
  split_ifs <;> exact ⟨rfl, rfl⟩

theorem linksKept_insertFaces (T : RTT_TOPOLOGY) (face : RTT_ISO_FACE) :
    linksKept T (rtt_be_insertFaces T face).1 := by
  unfold rtt_be_insertFaces
  dsimp only
  split_ifs <;> exact ⟨rfl, rfl⟩

theorem linksKept_deleteFacesById (T : RTT_TOPOLOGY) (ids : List Int) :
    linksKept T (rtt_be_deleteFacesById T ids).1 := by
  unfold rtt_be_deleteFacesById
  dsimp only
  split_ifs <;> exact ⟨rfl, rfl⟩

theorem linksKept_updateNodesById (T : RTT_TOPOLOGY) (rows : List RTT_ISO_NODE)
    (fields : List RTT_COL_NODE) : linksKept T (rtt_be_updateNodesById T rows fields).1 := by
  unfold rtt_be_updateNodesById
  split_ifs <;> exact ⟨rfl, rfl⟩

theorem linksKept_updateNodes (T : RTT_TOPOLOGY) (sel upd exc : RTT_ISO_NODE)
    (sf uf ef : List RTT_COL_NODE) :
    linksKept T (rtt_be_updateNodes T sel sf upd uf exc ef).1 := by
  unfold rtt_be_updateNodes
  split_ifs <;> exact ⟨rfl, rfl⟩

/-- Updating only face columns by id keeps the linkage columns. -/
theorem updateEdgeById_linkView (fields : List RTT_COL_EDGE)
    (hf : ∀ c ∈ fields, c = RTT_COL_EDGE.FACE_LEFT ∨ c = RTT_COL_EDGE.FACE_RIGHT)
    (rows : List RTT_ISO_EDGE) (es : List RTT_ISO_EDGE) :
    (rows.foldl (updateEdgeById fields) es).map linkView = es.map linkView := by
  have h1 : RTT_COL_EDGE.EDGE_ID ∉ fields := fun h => by rcases hf _ h with h | h <;> cases h
  have h2 : RTT_COL_EDGE.START_NODE ∉ fields := fun h => by
    rcases hf _ h with h | h <;> cases h
  have h3 : RTT_COL_EDGE.END_NODE ∉ fields := fun h => by rcases hf _ h with h | h <;> cases h
  have h4 : RTT_COL_EDGE.NEXT_LEFT ∉ fields := fun h => by rcases hf _ h with h | h <;> cases h
  have h5 : RTT_COL_EDGE.NEXT_RIGHT ∉ fields := fun h => by
    rcases hf _ h with h | h <;> cases h
  induction rows generalizing es with
  | nil => rfl
  | cons u rest ih =>
    rw [List.foldl_cons, ih]
    unfold updateEdgeById
    rw [List.map_map]
    apply List.map_congr_left
    intro e _
    simp only [Function.comp]
    split_ifs
    · simp [linkView, edgeAssign, h1, h2, h3, h4, h5]
    · rfl

theorem linksKept_updateEdgesById (T : RTT_TOPOLOGY) (rows : List RTT_ISO_EDGE)
    (fields : List RTT_COL_EDGE)
    (hf : ∀ c ∈ fields, c = RTT_COL_EDGE.FACE_LEFT ∨ c = RTT_COL_EDGE.FACE_RIGHT) :
    linksKept T (rtt_be_updateEdgesById T rows fields).1 := by
  unfold rtt_be_updateEdgesById
  split_ifs
  · exact ⟨rfl, rfl⟩
  · exact ⟨updateEdgeById_linkView fields hf rows T.edges, rfl⟩

theorem linksKept_addFaceSplitNodes (G : GEOM) (T : RTT_TOPOLOGY) (shell : POINTARRAY)
    (face : Int) (newface : RTT_ISO_FACE) (outside : Bool) :
    linksKept T (addFaceSplitNodes G T shell face newface outside).1 := by
  unfold addFaceSplitNodes
  split
  · exact linksKept.same T
  · split_ifs
    · exact linksKept.same T
    · split
      · exact linksKept.same T
      · dsimp only
        split_ifs
        · exact linksKept.same T
        · exact linksKept_updateNodesById T _ _
        · exact linksKept_updateNodesById T _ _

theorem linksKept_addFaceSplitEdges (G : GEOM) (T : RTT_TOPOLOGY) (shell : POINTARRAY)
    (sids : List Int) (face : Int) (newface : RTT_ISO_FACE) (outside : Bool) :
    linksKept T (addFaceSplitEdges G T shell sids face newface outside).1 := by
  have hL : ∀ c ∈ [RTT_COL_EDGE.FACE_LEFT],
      c = RTT_COL_EDGE.FACE_LEFT ∨ c = RTT_COL_EDGE.FACE_RIGHT := by
    intro c hc; exact Or.inl (List.mem_singleton.1 hc)
  have hR : ∀ c ∈ [RTT_COL_EDGE.FACE_RIGHT],
      c = RTT_COL_EDGE.FACE_LEFT ∨ c = RTT_COL_EDGE.FACE_RIGHT := by
    intro c hc; exact Or.inr (List.mem_singleton.1 hc)
  unfold addFaceSplitEdges
  split
  · exact linksKept.same T
  · split_ifs
    · exact linksKept.same T
    · exact linksKept_addFaceSplitNodes G T shell face newface outside
    · split
      · exact linksKept.same T
      · rename_i scan _
        dsimp only
        have hf : linksKept T (if scan.forward_edges.length = 0 then (T, (0 : Int))
            else rtt_be_updateEdgesById T scan.forward_edges [RTT_COL_EDGE.FACE_LEFT]).1 := by
          split_ifs
          · exact linksKept.same T
          · exact linksKept_updateEdgesById T _ _ hL
        generalize (if scan.forward_edges.length = 0 then (T, (0 : Int))
            else rtt_be_updateEdgesById T scan.forward_edges [RTT_COL_EDGE.FACE_LEFT]) = f
          at hf ⊢
        have hb : linksKept T (if scan.backward_edges.length = 0 then (f.1, (0 : Int))
            else rtt_be_updateEdgesById f.1 scan.backward_edges
              [RTT_COL_EDGE.FACE_RIGHT]).1 := by
          split_ifs
          · exact hf
          · exact hf.andThen (linksKept_updateEdgesById f.1 _ _ hR)
        generalize (if scan.backward_edges.length = 0 then (f.1, (0 : Int))
            else rtt_be_updateEdgesById f.1 scan.backward_edges
              [RTT_COL_EDGE.FACE_RIGHT]) = b at hb ⊢
        split_ifs
        · exact hf
        · exact hf
        · exact hb
        · exact hb
        · exact hb.andThen (linksKept_addFaceSplitNodes G b.1 shell face newface outside)

theorem linksKept_addFaceSplitMbr (G : GEOM) (T : RTT_TOPOLOGY) (face : Int)
    (pa : POINTARRAY) : linksKept T (addFaceSplitMbr G T face pa).1 := by
  unfold addFaceSplitMbr
  dsimp only
  split_ifs <;> first
    | exact linksKept.same T
    | exact linksKept_updateFacesById T _

theorem linksKept_addFaceSplitNew (G : GEOM) (T : RTT_TOPOLOGY) (face : Int)
    (sids : List Int) (pa : POINTARRAY) (hole : Bool) :
    linksKept T (addFaceSplitNew G T face sids pa hole).1 := by
  unfold addFaceSplitNew
  split
  · exact linksKept.same T
  · dsimp only
    split_ifs <;> first
      | exact linksKept.same T
      | exact linksKept_insertFaces T _
      | exact (linksKept_insertFaces T _).andThen (linksKept_addFaceSplitEdges G _ _ _ _ _ _)

theorem linksKept_addFaceSplit (G : GEOM) (T : RTT_TOPOLOGY) (sedge face : Int)
    (mbr_only : Bool) : linksKept T (_rtt_AddFaceSplit G T sedge face mbr_only).1 := by
  unfold _rtt_AddFaceSplit
  split
  · exact linksKept.same T
  · exact linksKept.same T
  · split_ifs
    · exact linksKept.same T
    · exact linksKept_addFaceSplitMbr G T face _
    · exact linksKept_addFaceSplitNew G T face _ _ _

end RTTopo

namespace RTTopo

/-! ## `_rtt_AddEdge`: the linkage after a successful call -/

theorem linksKept_addEdgeFinish (T : RTT_TOPOLOGY) (newedge : RTT_ISO_EDGE) (modFace : Bool) :
    linksKept T (addEdgeFinish T newedge modFace).1 ∧
    ((addEdgeFinish T newedge modFace).2 = newedge.edge_id ∨
      (addEdgeFinish T newedge modFace).2 = -1) := by
  unfold addEdgeFinish
  dsimp only
  split_ifs
  · exact ⟨linksKept.same T, Or.inr rfl⟩
  · exact ⟨linksKept_deleteFacesById T _, Or.inr rfl⟩
  · exact ⟨linksKept_deleteFacesById T _, Or.inl rfl⟩
  · exact ⟨linksKept.same T, Or.inl rfl⟩
  · exact ⟨linksKept.same T, Or.inl rfl⟩

theorem linksKept_addEdgeFaceSplit (G : GEOM) (T : RTT_TOPOLOGY) (newedge : RTT_ISO_EDGE)
    (modFace : Bool) :
    linksKept T (addEdgeFaceSplit G T newedge modFace).1 ∧
    ((addEdgeFaceSplit G T newedge modFace).2 = newedge.edge_id ∨
      (addEdgeFaceSplit G T newedge modFace).2 = -1) := by
  unfold addEdgeFaceSplit
  by_cases hm : modFace = false
  · rw [if_pos hm]
    dsimp only
    have k1 := linksKept_addFaceSplit G T (-newedge.edge_id) newedge.face_left false
    generalize _rtt_AddFaceSplit G T (-newedge.edge_id) newedge.face_left false = r1 at k1 ⊢
    by_cases c : r1.2 = 0
    · rw [if_pos c]; exact ⟨k1, Or.inl rfl⟩
    · rw [if_neg c]
      have k2 := linksKept_addFaceSplit G r1.1 newedge.edge_id newedge.face_left false
      generalize _rtt_AddFaceSplit G r1.1 newedge.edge_id newedge.face_left false = r at k2 ⊢
      have k3 := linksKept_addEdgeFinish r.1 newedge modFace
      exact ⟨(k1.andThen k2).andThen k3.1, k3.2⟩
  · rw [if_neg hm]
    dsimp only
    have k1 := linksKept_addFaceSplit G T newedge.edge_id newedge.face_left false
    generalize _rtt_AddFaceSplit G T newedge.edge_id newedge.face_left false = r at k1 ⊢
    by_cases c : r.2 = 0
    · rw [if_pos c]; exact ⟨k1, Or.inl rfl⟩
    · rw [if_neg c]
      by_cases c2 : r.2 < 0
      · rw [if_pos c2]
        have k2 := linksKept_addFaceSplit G r.1 (-newedge.edge_id) newedge.face_left false
        generalize _rtt_AddFaceSplit G r.1 (-newedge.edge_id) newedge.face_left false = r2
          at k2 ⊢
        by_cases c3 : r2.2 < 0
        · rw [if_pos c3]; exact ⟨k1.andThen k2, Or.inl rfl⟩
        · rw [if_neg c3]
          have k3 := linksKept_addEdgeFinish r2.1 newedge modFace
          exact ⟨(k1.andThen k2).andThen k3.1, k3.2⟩
      · rw [if_neg c2]
        have k2 := linksKept_addFaceSplit G r.1 (-newedge.edge_id) newedge.face_left true
        generalize _rtt_AddFaceSplit G r.1 (-newedge.edge_id) newedge.face_left true = r2
          at k2 ⊢
        have k3 := linksKept_addEdgeFinish r2.1 newedge modFace
        exact ⟨(k1.andThen k2).andThen k3.1, k3.2⟩

/-- The link request of `_rtt_AddEdge`, when it succeeds, maps `addEdgeLinkRow` over the
edge table. -/
theorem addEdgeLinkPrev_ok {T T1 : RTT_TOPOLOGY} {prev target ret : Int}
    (h : addEdgeLinkPrev T prev target = (T1, ret)) (hret : ret ≠ -1) :
    T1 = { T with edges := T.edges.map (addEdgeLinkRow prev target) } := by
  unfold addEdgeLinkPrev at h
  by_cases hp : prev > 0
  · rw [if_pos hp] at h
    rw [(updateEdges_ok h hret).1]
    have : addEdgeLinkRow prev target = updateEdgeRow { blankEdge with edge_id := prev }
        [RTT_COL_EDGE.EDGE_ID] { blankEdge with next_left := target }
        [RTT_COL_EDGE.NEXT_LEFT] blankEdge [] := by
      funext e; unfold addEdgeLinkRow; rw [if_pos hp]
    rw [this]
  · rw [if_neg hp] at h
    rw [(updateEdges_ok h hret).1]
    have : addEdgeLinkRow prev target = updateEdgeRow { blankEdge with edge_id := -prev }
        [RTT_COL_EDGE.EDGE_ID] { blankEdge with next_right := target }
        [RTT_COL_EDGE.NEXT_RIGHT] blankEdge [] := by
      funext e; unfold addEdgeLinkRow; rw [if_neg hp]
    rw [this]

/-- A successful insertion part of `_rtt_AddEdge` leaves the edge table of `addEdgeEdges`,
up to face columns, and returns the id of the new edge. -/
theorem addEdgeInsert_ok {G : GEOM} {T : RTT_TOPOLOGY} {newedge : RTT_ISO_EDGE}
    {pl pr : Int} {span epan : edgeend} {modFace : Bool} {R : RTT_TOPOLOGY × Int}
    (h : addEdgeInsert G T newedge pl pr span epan modFace = R) (hok : R.2 ≠ -1)
    (hid : newedge.edge_id ≠ -1) :
    R.1.edges.map linkView = (addEdgeEdges T.edges newedge pl pr).map linkView ∧
    R.2 = newedge.edge_id := by
  unfold addEdgeInsert at h
  dsimp only at h
  rcases hi : rtt_be_insertEdges T [newedge] with ⟨T1, rows, ret⟩
  rw [hi] at h
  dsimp only at h
  by_cases c1 : ret = -1
  · rw [if_pos c1] at h; subst h; exact absurd rfl hok
  rw [if_neg c1] at h
  by_cases c2 : ret = 0
  · rw [if_pos c2] at h; subst h; exact absurd rfl hok
  rw [if_neg c2] at h
  have hT1 := insertEdges_one hi c1 hid
  -- first link
  have key1 : ∀ u1 : RTT_TOPOLOGY × Int,
      u1 = (if llabs pl ≠ newedge.edge_id
        then addEdgeLinkPrev T1 pl newedge.edge_id else (T1, (0 : Int))) →
      ¬ (llabs pl ≠ newedge.edge_id ∧ u1.2 = -1) →
      u1.1 = { T1 with edges := (if llabs pl ≠ newedge.edge_id
        then List.map (addEdgeLinkRow pl newedge.edge_id) else id) T1.edges } := by
    intro u1 hu1 hne
    by_cases c : llabs pl ≠ newedge.edge_id
    · rw [if_pos c] at hu1 ⊢
      have : u1.2 ≠ -1 := fun h => hne ⟨c, h⟩
      have hu1' : addEdgeLinkPrev T1 pl newedge.edge_id = (u1.1, u1.2) := hu1.symm
      exact addEdgeLinkPrev_ok hu1' this
    · rw [if_neg c] at hu1 ⊢
      rw [hu1]; rfl
  generalize hu1 : (if llabs pl ≠ newedge.edge_id
        then addEdgeLinkPrev T1 pl newedge.edge_id else (T1, (0 : Int))) = u1 at h
  by_cases c3 : llabs pl ≠ newedge.edge_id ∧ u1.2 = -1
  · rw [if_pos c3] at h; subst h; exact absurd rfl hok
  rw [if_neg c3] at h
  have hU1 := key1 u1 hu1.symm c3
  have key2 : ∀ u2 : RTT_TOPOLOGY × Int,
      u2 = (if llabs pr ≠ newedge.edge_id
        then addEdgeLinkPrev u1.1 pr (-newedge.edge_id) else (u1.1, (0 : Int))) →
      ¬ (llabs pr ≠ newedge.edge_id ∧ u2.2 = -1) →
      u2.1 = { u1.1 with edges := (if llabs pr ≠ newedge.edge_id
        then List.map (addEdgeLinkRow pr (-newedge.edge_id)) else id) u1.1.edges } := by
    intro u2 hu2 hne
    by_cases c : llabs pr ≠ newedge.edge_id
    · rw [if_pos c] at hu2 ⊢
      have : u2.2 ≠ -1 := fun h => hne ⟨c, h⟩
      have hu2' : addEdgeLinkPrev u1.1 pr (-newedge.edge_id) = (u2.1, u2.2) := hu2.symm
      exact addEdgeLinkPrev_ok hu2' this
    · rw [if_neg c] at hu2 ⊢
      rw [hu2]; rfl
  generalize hu2 : (if llabs pr ≠ newedge.edge_id
        then addEdgeLinkPrev u1.1 pr (-newedge.edge_id) else (u1.1, (0 : Int))) = u2 at h
  by_cases c4 : llabs pr ≠ newedge.edge_id ∧ u2.2 = -1
  · rw [if_pos c4] at h; subst h; exact absurd rfl hok
  rw [if_neg c4] at h
  have hU2 := key2 u2 hu2.symm c4
  have hedges : u2.1.edges = addEdgeEdges T.edges newedge pl pr := by
    rw [hU2, hU1, hT1]; rfl
  -- node updates
  have keyn : ∀ (X : RTT_TOPOLOGY) (c : Prop) [Decidable c] (id : Int),
      linksKept X (if c then addEdgeClearNode X id else (X, (0 : Int))).1 := by
    intro X c _ id
    split_ifs
    · exact linksKept_updateNodes X _ _ _ _ _ _
    · exact linksKept.same X
  have hn1 := keyn u2.1 (span.was_isolated ≠ 0) newedge.start_node
  generalize (if span.was_isolated ≠ 0
          then addEdgeClearNode u2.1 newedge.start_node else (u2.1, (0 : Int))) = n1 at h hn1
  by_cases c5 : span.was_isolated ≠ 0 ∧ n1.2 = -1
  · rw [if_pos c5] at h; subst h; exact absurd rfl hok
  rw [if_neg c5] at h
  have hn2 := keyn n1.1 (epan.was_isolated ≠ 0) newedge.end_node
  generalize (if epan.was_isolated ≠ 0
            then addEdgeClearNode n1.1 newedge.end_node else (n1.1, (0 : Int))) = n2 at h hn2
  by_cases c6 : epan.was_isolated ≠ 0 ∧ n2.2 = -1
  · rw [if_pos c6] at h; subst h; exact absurd rfl hok
  rw [if_neg c6] at h
  have hfs := linksKept_addEdgeFaceSplit G n2.1 newedge modFace
  rw [h] at hfs
  refine ⟨?_, ?_⟩
  · rw [← hedges]
    exact ((hn1.andThen hn2).andThen hfs.1).1
  · rcases hfs.2 with h1 | h1
    · exact h1
    · exact absurd h1 hok

/-- The end-node half of the adjacency part: on success the edge table is that of
`addEdgeEdges` for the row completed with the `next_left` derived from the analysis of the
end node, linked after `prev_left` and the `prev_right` derived from that analysis. -/
theorem addEdgeLinkEnd_ok {G : GEOM} {T : RTT_TOPOLOGY} {newedge : RTT_ISO_EDGE}
    {pl : Int} {span epan : edgeend} {modFace : Bool} {R : RTT_TOPOLOGY × Int}
    (h : addEdgeLinkEnd G T newedge pl span epan modFace = R) (hok : R.2 ≠ -1)
    (hid : newedge.edge_id ≠ -1)
    (hpos : ∀ e ∈ T.edges, 0 < e.edge_id)
    (hnd : (T.edges.map (fun e => e.edge_id)).Nodup) :
    ∃ fl fr : Int,
      R.1.edges.map linkView =
        (addEdgeEdges T.edges
          { newedge with
            next_left :=
              if (_rtt_FindAdjacentEdges G T newedge.end_node epan
                  (if newedge.start_node = newedge.end_node then some span else none)
                  (-1)).2.2 ≠ 0 then
                (if (_rtt_FindAdjacentEdges G T newedge.end_node epan
                    (if newedge.start_node = newedge.end_node then some span else none)
                    (-1)).2.1.nextCW ≠ 0
                 then (_rtt_FindAdjacentEdges G T newedge.end_node epan
                    (if newedge.start_node = newedge.end_node then some span else none)
                    (-1)).2.1.nextCW
                 else newedge.edge_id)
              else (if newedge.start_node = newedge.end_node then newedge.edge_id
                    else -newedge.edge_id)
            face_left := fl, face_right := fr }
          pl
          (if (_rtt_FindAdjacentEdges G T newedge.end_node epan
              (if newedge.start_node = newedge.end_node then some span else none)
              (-1)).2.2 ≠ 0 then
            (if (_rtt_FindAdjacentEdges G T newedge.end_node epan
                (if newedge.start_node = newedge.end_node then some span else none)
                (-1)).2.1.nextCCW ≠ 0
             then -(_rtt_FindAdjacentEdges G T newedge.end_node epan
                (if newedge.start_node = newedge.end_node then some span else none)
                (-1)).2.1.nextCCW
             else -newedge.edge_id)
           else (if newedge.start_node = newedge.end_node then -newedge.edge_id
                 else newedge.edge_id))).map linkView ∧
      R.2 = newedge.edge_id := by
  unfold addEdgeLinkEnd at h
  dsimp only at h
  have hs := findAdjacentEdges_sound G T newedge.end_node epan
    (if newedge.start_node = newedge.end_node then some span else none) (-1) hpos hnd
  generalize _rtt_FindAdjacentEdges G T newedge.end_node epan
    (if newedge.start_node = newedge.end_node then some span else none) (-1) = b at h hs ⊢
  generalize (if b.2.2 ≠ 0 ∧ newedge.face_left = -1 then span.cwFace
    else newedge.face_left) = fl at h
  generalize (if b.2.2 ≠ 0 ∧ newedge.face_right = -1 then span.ccwFace
    else newedge.face_right) = fr at h
  by_cases c1 : fl ≠ fr
  · rw [if_pos c1] at h; subst h; exact absurd rfl hok
  rw [if_neg c1] at h
  by_cases c2 : fl = -1
  · rw [if_pos c2] at h; subst h; exact absurd rfl hok
  rw [if_neg c2] at h
  have hE : b.1.edges = T.edges := by rw [hs.1]
  have := addEdgeInsert_ok h hok hid
  rw [hE] at this
  exact ⟨fl, fr, this⟩

theorem neg_signed {es : List RTT_ISO_EDGE} (hpos : ∀ e ∈ es, 0 < e.edge_id)
    (hnd : (es.map (fun e => e.edge_id)).Nodup) {x n : Int}
    (h : x ∈ signedIds es ∧ leavesNode es x = n) :
    -x ∈ signedIds es ∧ arrivesNode es (-x) = n := by
  obtain ⟨hx, hl⟩ := h
  obtain ⟨e, he, rfl | rfl⟩ := mem_signedIds.1 hx
  · refine ⟨mem_signedIds.2 ⟨e, he, Or.inr rfl⟩, ?_⟩
    rw [arrivesNode_neg hnd he (hpos e he), ← hl, leavesNode_pos hnd he (hpos e he)]
  · refine ⟨mem_signedIds.2 ⟨e, he, Or.inl (by omega)⟩, ?_⟩
    rw [neg_neg, arrivesNode_pos hnd he (hpos e he), ← hl, leavesNode_neg hnd he (hpos e he)]

set_option maxHeartbeats 1000000 in
/-- The linkage derived by `_rtt_AddEdge` from two adjacency analyses that agree with the
stored linkage keeps the linkage well formed. -/
theorem addEdge_plan_ringLinked {es : List RTT_ISO_EDGE} (hlink : RingLinked es)
    (k s t : Int) (hk : ∀ x ∈ es, x.edge_id < k) (hk0 : 0 < k)
    (A B : edgeend) (fa fb fl fr : Int) (g : RTLINE)
    (hA : neighboursAtNode es s A) (hB : neighboursAtNode es t B)
    (hzero : s = t → (fa = 0 ↔ fb = 0))
    (hcons : if s = t then (fa ≠ 0 → neighboursLinkedClosed es A B)
      else ((fa ≠ 0 → neighboursLinked es A) ∧ (fb ≠ 0 → neighboursLinked es B))) :
    RingLinked (addEdgeEdges es
      { edge_id := k, start_node := s, end_node := t, face_left := fl, face_right := fr,
        next_left := if fb ≠ 0 then (if B.nextCW ≠ 0 then B.nextCW else k)
                     else (if s = t then k else -k),
        next_right := if fa ≠ 0 then (if A.nextCW ≠ 0 then A.nextCW else -k)
                      else (if s = t then -k else k),
        geom := g }
      (if fa ≠ 0 then (if A.nextCCW ≠ 0 then -A.nextCCW else k)
       else (if s = t then k else -k))
      (if fb ≠ 0 then (if B.nextCCW ≠ 0 then -B.nextCCW else -k)
       else (if s = t then -k else k))) := by
  have hpos := hlink.1
  have hnd := hlink.2.1
  have hbd : ∀ x ∈ signedIds es, -k < x ∧ x < k ∧ x ≠ 0 := by
    intro x hx
    obtain ⟨e, he, hxe⟩ := mem_signedIds.1 hx
    have := hpos e he
    have := hk e he
    omega
  have hkS : k ∉ signedIds es := fun h => by have := hbd k h; omega
  have hkS' : -k ∉ signedIds es := fun h => by have := hbd (-k) h; omega
  -- facts on the four neighbours, when present
  have fAcw : A.nextCW ≠ 0 → (A.nextCW ∈ signedIds es ∧ leavesNode es A.nextCW = s) ∧
      (-k < A.nextCW ∧ A.nextCW < k) := fun h0 => by
    rcases hA.1 with h | h
    · exact absurd h h0
    · exact ⟨h, (hbd _ h.1).1, (hbd _ h.1).2.1⟩
  have fAccw : A.nextCCW ≠ 0 →
      (-A.nextCCW ∈ signedIds es ∧ arrivesNode es (-A.nextCCW) = s) ∧
      (-k < A.nextCCW ∧ A.nextCCW < k) := fun h0 => by
    rcases hA.2 with h | h
    · exact absurd h h0
    · exact ⟨neg_signed hpos hnd h, (hbd _ h.1).1, (hbd _ h.1).2.1⟩
  have fBcw : B.nextCW ≠ 0 → (B.nextCW ∈ signedIds es ∧ leavesNode es B.nextCW = t) ∧
      (-k < B.nextCW ∧ B.nextCW < k) := fun h0 => by
    rcases hB.1 with h | h
    · exact absurd h h0
    · exact ⟨h, (hbd _ h.1).1, (hbd _ h.1).2.1⟩
  have fBccw : B.nextCCW ≠ 0 →
      (-B.nextCCW ∈ signedIds es ∧ arrivesNode es (-B.nextCCW) = t) ∧
      (-k < B.nextCCW ∧ B.nextCCW < k) := fun h0 => by
    rcases hB.2 with h | h
    · exact absurd h h0
    · exact ⟨neg_signed hpos hnd h, (hbd _ h.1).1, (hbd _ h.1).2.1⟩
  by_cases hst : s = t
  · rw [if_pos hst] at hcons
    by_cases hfa : fa = 0
    · have hfb : fb = 0 := (hzero hst).1 hfa
      simp only [hfa, hfb, hst, ne_eq, not_true_eq_false, if_true, if_false]
      refine addEdgeEdges_ringLinked _ _ _ hlink hk hk0 ?_ ?_ ?_ ?_ ?_ ?_ ?_ ?_ ?_ ?_ ?_ <;>
        dsimp only
      · exact Or.inl rfl
      · exact Or.inr (Or.inl rfl)
      · exact Or.inl ⟨rfl, rfl⟩
      · exact Or.inr (Or.inl ⟨rfl, rfl⟩)
      · intro _; rfl
      · intro h; omega
      · intro _; rfl
      · intro h; omega
      · intro h; exact absurd h hkS
      · intro h; exact absurd h hkS
      · intro h; exact absurd h hkS'
    · have hfb : ¬ fb = 0 := fun h => hfa ((hzero hst).2 h)
      obtain ⟨c1, c2, c3, c4, c5⟩ := hcons hfa
      by_cases a1 : A.nextCW = 0 <;> by_cases b1 : B.nextCW = 0
      · -- no neighbour between the two ends on either side
        have b2 : B.nextCCW = 0 := c1.1 a1
        have a2 : A.nextCCW = 0 := c2.1 b1
        simp only [hfa, hfb, hst, a1, a2, b1, b2, ne_eq, not_true_eq_false,
          not_false_eq_true, if_true, if_false]
        refine addEdgeEdges_ringLinked _ _ _ hlink hk hk0 ?_ ?_ ?_ ?_ ?_ ?_ ?_ ?_ ?_ ?_ ?_ <;>
          dsimp only
        · exact Or.inl rfl
        · exact Or.inr (Or.inl rfl)
        · exact Or.inl ⟨rfl, rfl⟩
        · exact Or.inr (Or.inl ⟨rfl, rfl⟩)
        · intro _; rfl
        · intro h; omega
        · intro _; rfl
        · intro h; omega
        · intro h; exact absurd h hkS
        · intro h; exact absurd h hkS
        · intro h; exact absurd h hkS'
      · -- pattern (0,1,1,0)
        have b2 : B.nextCCW = 0 := c1.1 a1
        have a2 : ¬ A.nextCCW = 0 := fun h => b1 (c2.2 h)
        have n1 := c3 a2
        rw [if_neg (by simpa using a1)] at n1
        obtain ⟨m1, bd1⟩ := fAccw a2
        obtain ⟨m2, bd2⟩ := fBcw b1
        simp only [hfa, hfb, hst, a1, a2, b1, b2, ne_eq, not_true_eq_false,
          not_false_eq_true, if_true, if_false]
        refine addEdgeEdges_ringLinked _ _ _ hlink hk hk0 ?_ ?_ ?_ ?_ ?_ ?_ ?_ ?_ ?_ ?_ ?_ <;>
          dsimp only
        · exact Or.inr (Or.inr (hst ▸ m1))
        · exact Or.inr (Or.inl rfl)
        · exact Or.inr (Or.inr m2)
        · exact Or.inr (Or.inl ⟨rfl, rfl⟩)
        · intro h; omega
        · intro h; omega
        · intro _; rfl
        · intro h; omega
        · intro _ h; exact absurd h hkS'
        · intro _; exact Or.inr n1
        · intro h; exact absurd h hkS'
      · -- pattern (1,0,0,1)
        have a2 : A.nextCCW = 0 := c2.1 b1
        have b2 : ¬ B.nextCCW = 0 := fun h => a1 (c1.2 h)
        have n1 := c4 b2
        rw [if_neg (by simpa using b1)] at n1
        obtain ⟨m1, bd1⟩ := fBccw b2
        obtain ⟨m2, bd2⟩ := fAcw a1
        simp only [hfa, hfb, hst, a1, a2, b1, b2, ne_eq, not_true_eq_false,
          not_false_eq_true, if_true, if_false]
        refine addEdgeEdges_ringLinked _ _ _ hlink hk hk0 ?_ ?_ ?_ ?_ ?_ ?_ ?_ ?_ ?_ ?_ ?_ <;>
          dsimp only
        · exact Or.inl rfl
        · exact Or.inr (Or.inr m1)
        · exact Or.inl ⟨rfl, rfl⟩
        · exact Or.inr (Or.inr (hst ▸ m2))
        · intro _; rfl
        · intro h; omega
        · intro h; omega
        · intro h; omega
        · intro h; exact absurd h hkS
        · intro h; exact absurd h hkS
        · intro _; exact Or.inr n1
      · -- pattern (1,1,1,1)
        have a2 : ¬ A.nextCCW = 0 := fun h => b1 (c2.2 h)
        have b2 : ¬ B.nextCCW = 0 := fun h => a1 (c1.2 h)
        have n1 := c3 a2
        rw [if_pos (by simpa using a1)] at n1
        have n2 := c4 b2
        rw [if_pos (by simpa using b1)] at n2
        have n3 := c5 a2
        obtain ⟨m1, bd1⟩ := fAccw a2
        obtain ⟨m2, bd2⟩ := fBcw b1
        obtain ⟨m3, bd3⟩ := fBccw b2
        obtain ⟨m4, bd4⟩ := fAcw a1
        simp only [hfa, hfb, hst, a1, a2, b1, b2, ne_eq, not_true_eq_false,
          not_false_eq_true, if_true, if_false]
        refine addEdgeEdges_ringLinked _ _ _ hlink hk hk0 ?_ ?_ ?_ ?_ ?_ ?_ ?_ ?_ ?_ ?_ ?_ <;>
          dsimp only
        · exact Or.inr (Or.inr (hst ▸ m1))
        · exact Or.inr (Or.inr m3)
        · exact Or.inr (Or.inr m2)
        · exact Or.inr (Or.inr (hst ▸ m4))
        · intro h; omega
        · intro h; omega
        · intro h; omega
        · intro h; omega
        · intro _ _ h; exact n3 (by omega)
        · intro _; exact Or.inl n1
        · intro _; exact Or.inl n2
  · rw [if_neg hst] at hcons
    obtain ⟨cA, cB⟩ := hcons
    by_cases hfa : fa = 0 <;> by_cases hfb : fb = 0
    · simp only [hfa, hfb, hst, ne_eq, not_true_eq_false, if_true, if_false]
      refine addEdgeEdges_ringLinked _ _ _ hlink hk hk0 ?_ ?_ ?_ ?_ ?_ ?_ ?_ ?_ ?_ ?_ ?_ <;>
        dsimp only
      · exact Or.inr (Or.inl rfl)
      · exact Or.inl rfl
      · exact Or.inr (Or.inl rfl)
      · exact Or.inl rfl
      · intro h; omega
      · intro _; rfl
      · intro h; omega
      · intro _; rfl
      · intro h; exact absurd h hkS'
      · intro h; exact absurd h hkS'
      · intro h; exact absurd h hkS
    · obtain ⟨b1, b2, n2⟩ := cB hfb
      obtain ⟨m2, bd2⟩ := fBcw b1
      obtain ⟨m3, bd3⟩ := fBccw b2
      simp only [hfa, hfb, hst, b1, b2, ne_eq, not_true_eq_false,
        not_false_eq_true, if_true, if_false]
      refine addEdgeEdges_ringLinked _ _ _ hlink hk hk0 ?_ ?_ ?_ ?_ ?_ ?_ ?_ ?_ ?_ ?_ ?_ <;>
        dsimp only
      · exact Or.inr (Or.inl rfl)
      · exact Or.inr (Or.inr m3)
      · exact Or.inr (Or.inr m2)
      · exact Or.inl rfl
      · intro h; omega
      · intro _; rfl
      · intro h; omega
      · intro h; omega
      · intro h; exact absurd h hkS'
      · intro h; exact absurd h hkS'
      · intro _; exact Or.inl n2
    · obtain ⟨a1, a2, n1⟩ := cA hfa
      obtain ⟨m1, bd1⟩ := fAccw a2
      obtain ⟨m4, bd4⟩ := fAcw a1
      simp only [hfa, hfb, hst, a1, a2, ne_eq, not_true_eq_false,
        not_false_eq_true, if_true, if_false]
      refine addEdgeEdges_ringLinked _ _ _ hlink hk hk0 ?_ ?_ ?_ ?_ ?_ ?_ ?_ ?_ ?_ ?_ ?_ <;>
        dsimp only
      · exact Or.inr (Or.inr m1)
      · exact Or.inl rfl
      · exact Or.inr (Or.inl rfl)
      · exact Or.inr (Or.inr m4)
      · intro h; omega
      · intro h; omega
      · intro h; omega
      · intro _; rfl
      · intro _ h; exact absurd h hkS
      · intro _; exact Or.inl n1
      · intro h; exact absurd h hkS
    · obtain ⟨a1, a2, n1⟩ := cA hfa
      obtain ⟨b1, b2, n2⟩ := cB hfb
      obtain ⟨m1, bd1⟩ := fAccw a2
      obtain ⟨m2, bd2⟩ := fBcw b1
      obtain ⟨m3, bd3⟩ := fBccw b2
      obtain ⟨m4, bd4⟩ := fAcw a1
      simp only [hfa, hfb, hst, a1, a2, b1, b2, ne_eq, not_true_eq_false,
        not_false_eq_true, if_true, if_false]
      refine addEdgeEdges_ringLinked _ _ _ hlink hk hk0 ?_ ?_ ?_ ?_ ?_ ?_ ?_ ?_ ?_ ?_ ?_ <;>
        dsimp only
      · exact Or.inr (Or.inr m1)
      · exact Or.inr (Or.inr m3)
      · exact Or.inr (Or.inr m2)
      · exact Or.inr (Or.inr m4)
      · intro h; omega
      · intro h; omega
      · intro h; omega
      · intro h; omega
      · intro _ _ h
        apply hst
        rw [← m1.2, ← m3.2, h]
      · intro _; exact Or.inl n1
      · intro _; exact Or.inl n2

/-- The ids of the edge table written by `_rtt_AddEdge` and its new row. -/
theorem addEdgeEdges_rows (es : List RTT_ISO_EDGE) (N : RTT_ISO_EDGE) (pl pr : Int) :
    (addEdgeEdges es N pl pr).map (fun e => e.edge_id) =
      es.map (fun e => e.edge_id) ++ [N.edge_id] ∧
    ∃ row ∈ addEdgeEdges es N pl pr, row.edge_id = N.edge_id ∧
      row.start_node = N.start_node ∧ row.end_node = N.end_node := by
  obtain ⟨F, hF, hrow⟩ := addEdgeEdges_eq es N pl pr
  constructor
  · rw [hF, List.map_map, List.map_append]
    congr 1
    · apply List.map_congr_left; intro e _; exact (hrow e).1
    · simp [(hrow N).1]
  · refine ⟨F N, ?_, (hrow N).1, (hrow N).2.1, (hrow N).2.2.1⟩
    rw [hF]
    exact List.mem_map_of_mem F (List.mem_append_right _ (List.mem_singleton.2 rfl))

/-- A successful adjacency part of `_rtt_AddEdge`, run on a well-linked edge table with
analyses that agree with the linkage, leaves a well-linked edge table enlarged by the
new edge. -/
theorem addEdgeLink_ok {G : GEOM} {T : RTT_TOPOLOGY} {newedge : RTT_ISO_EDGE}
    {span epan : edgeend} {modFace : Bool} {R : RTT_TOPOLOGY × Int}
    (h : addEdgeLink G T newedge span epan modFace = R) (hok : R.2 ≠ -1)
    (hlink : RingLinked T.edges) (hk : ∀ x ∈ T.edges, x.edge_id < newedge.edge_id)
    (hk0 : 0 < newedge.edge_id)
    (hcons : if newedge.start_node = newedge.end_node then
        ((_rtt_FindAdjacentEdges G T newedge.start_node span (some epan) (-1)).2.2 ≠ 0 →
          neighboursLinkedClosed T.edges
            (_rtt_FindAdjacentEdges G T newedge.start_node span (some epan) (-1)).2.1
            (_rtt_FindAdjacentEdges G T newedge.end_node epan (some span) (-1)).2.1)
      else
        (((_rtt_FindAdjacentEdges G T newedge.start_node span none (-1)).2.2 ≠ 0 →
          neighboursLinked T.edges
            (_rtt_FindAdjacentEdges G T newedge.start_node span none (-1)).2.1) ∧
        ((_rtt_FindAdjacentEdges G T newedge.end_node epan none (-1)).2.2 ≠ 0 →
          neighboursLinked T.edges
            (_rtt_FindAdjacentEdges G T newedge.end_node epan none (-1)).2.1))) :
    RingLinked R.1.edges ∧ R.2 = newedge.edge_id ∧
    R.1.edges.map (fun e => e.edge_id) =
      T.edges.map (fun e => e.edge_id) ++ [newedge.edge_id] ∧
    ∃ row ∈ R.1.edges, row.edge_id = newedge.edge_id ∧
      row.start_node = newedge.start_node ∧ row.end_node = newedge.end_node := by
  have hpos := hlink.1
  have hnd := hlink.2.1
  have hid : newedge.edge_id ≠ -1 := by omega
  unfold addEdgeLink at h
  dsimp only at h
  have sa := findAdjacentEdges_sound G T newedge.start_node span
    (if newedge.start_node = newedge.end_node then some epan else none) (-1) hpos hnd
  -- the second analysis, as the hypothesis states it
  have sb := findAdjacentEdges_sound G T newedge.end_node epan
    (if newedge.start_node = newedge.end_node then some span else none) (-1) hpos hnd
  -- rephrase the hypothesis over the two analyses
  have hcons' : if newedge.start_node = newedge.end_node then
        ((_rtt_FindAdjacentEdges G T newedge.start_node span
            (if newedge.start_node = newedge.end_node then some epan else none) (-1)).2.2 ≠ 0 →
          neighboursLinkedClosed T.edges
            (_rtt_FindAdjacentEdges G T newedge.start_node span
              (if newedge.start_node = newedge.end_node then some epan else none) (-1)).2.1
            (_rtt_FindAdjacentEdges G T newedge.end_node epan
              (if newedge.start_node = newedge.end_node then some span else none) (-1)).2.1)
      else
        (((_rtt_FindAdjacentEdges G T newedge.start_node span
            (if newedge.start_node = newedge.end_node then some epan else none) (-1)).2.2 ≠ 0 →
          neighboursLinked T.edges
            (_rtt_FindAdjacentEdges G T newedge.start_node span
              (if newedge.start_node = newedge.end_node then some epan else none) (-1)).2.1) ∧
        ((_rtt_FindAdjacentEdges G T newedge.end_node epan
            (if newedge.start_node = newedge.end_node then some span else none) (-1)).2.2 ≠ 0 →
          neighboursLinked T.edges
            (_rtt_FindAdjacentEdges G T newedge.end_node epan
              (if newedge.start_node = newedge.end_node then some span else none)
              (-1)).2.1)) := by
    by_cases hst : newedge.start_node = newedge.end_node
    · simp only [if_pos hst] at hcons ⊢; exact hcons
    · simp only [if_neg hst] at hcons ⊢; exact hcons
  clear hcons
  have hzero : newedge.start_node = newedge.end_node →
      ((_rtt_FindAdjacentEdges G T newedge.start_node span
          (if newedge.start_node = newedge.end_node then some epan else none) (-1)).2.2 = 0 ↔
       (_rtt_FindAdjacentEdges G T newedge.end_node epan
          (if newedge.start_node = newedge.end_node then some span else none) (-1)).2.2 = 0) := by
    intro hst
    rw [sa.2.2.2, sb.2.2.2, hst]
  -- the second analysis, as the code makes it
  have hb : ∀ x : edgeend, x.myaz = span.myaz →
      (_rtt_FindAdjacentEdges G
        (_rtt_FindAdjacentEdges G T newedge.start_node span
          (if newedge.start_node = newedge.end_node then some epan else none) (-1)).1
        newedge.end_node epan
        (if newedge.start_node = newedge.end_node then some x else none) (-1)).2 =
      (_rtt_FindAdjacentEdges G T newedge.end_node epan
        (if newedge.start_node = newedge.end_node then some span else none) (-1)).2 := by
    intro x hx
    apply findAdjacentEdges_congr
    · rw [sa.1]
    · rw [sa.1]
    · split_ifs
      · simp [hx]
      · rfl
  generalize _rtt_FindAdjacentEdges G T newedge.start_node span
    (if newedge.start_node = newedge.end_node then some epan else none) (-1) = a
    at h sa hcons' hzero hb
  have hEa : a.1.edges = T.edges := by rw [sa.1]
  obtain ⟨fl, fr, hv, hR⟩ := addEdgeLinkEnd_ok h hok hid (by rw [hEa]; exact hpos)
    (by rw [hEa]; exact hnd)
  dsimp only at hv hR
  rw [hb { a.2.1 with was_isolated := if a.2.2 ≠ 0 then 0 else 1 } sa.2.2.1, hEa] at hv
  generalize _rtt_FindAdjacentEdges G T newedge.end_node epan
    (if newedge.start_node = newedge.end_node then some span else none) (-1) = b
    at hv sb hcons' hzero
  have key := addEdge_plan_ringLinked hlink newedge.edge_id newedge.start_node
    newedge.end_node hk hk0 a.2.1 b.2.1 a.2.2 b.2.2 fl fr newedge.geom sa.2.1 sb.2.1
    hzero hcons'
  have rows := addEdgeEdges_rows T.edges
    { edge_id := newedge.edge_id, start_node := newedge.start_node,
      end_node := newedge.end_node, face_left := fl, face_right := fr,
      next_left := if b.2.2 ≠ 0 then (if b.2.1.nextCW ≠ 0 then b.2.1.nextCW
          else newedge.edge_id)
        else (if newedge.start_node = newedge.end_node then newedge.edge_id
          else -newedge.edge_id),
      next_right := if a.2.2 ≠ 0 then (if a.2.1.nextCW ≠ 0 then a.2.1.nextCW
          else -newedge.edge_id)
        else (if newedge.start_node = newedge.end_node then -newedge.edge_id
          else newedge.edge_id),
      geom := newedge.geom }
    (if a.2.2 ≠ 0 then (if a.2.1.nextCCW ≠ 0 then -a.2.1.nextCCW else newedge.edge_id)
     else (if newedge.start_node = newedge.end_node then newedge.edge_id
       else -newedge.edge_id))
    (if b.2.2 ≠ 0 then (if b.2.1.nextCCW ≠ 0 then -b.2.1.nextCCW else -newedge.edge_id)
     else (if newedge.start_node = newedge.end_node then -newedge.edge_id
       else newedge.edge_id))
  refine ⟨ringLinked_of_linkView hv key, hR, ?_, ?_⟩
  · have := congrArg (List.map (fun v : Int × Int × Int × Int × Int => v.1)) hv
    simp only [List.map_map] at this
    exact this.trans rows.1
  · obtain ⟨row, hrow, r1, r2, r3⟩ := rows.2
    have : linkView row ∈ R.1.edges.map linkView := by
      rw [hv]; exact List.mem_map_of_mem _ hrow
    obtain ⟨row', hrow', hvv⟩ := List.mem_map.1 this
    simp only [linkView, Prod.mk.injEq] at hvv
    exact ⟨row', hrow', hvv.1.trans r1, hvv.2.1.trans r2, hvv.2.2.1.trans r3⟩

end RTTopo

namespace RTTopo

theorem errorsOnly_trans {T T1 T2 : RTT_TOPOLOGY} (h1 : T1 = { T with errors := T1.errors })
    (h2 : T2 = { T1 with errors := T2.errors }) : T2 = { T with errors := T2.errors } := by
  rw [h2, h1]

theorem addEdgeEndpoints_state (start_node end_node : Int) (l : List RTT_ISO_NODE)
    (s : RTT_TOPOLOGY × EndpointScan) :
    (addEdgeEndpoints start_node end_node l s).1 =
      { s.1 with errors := (addEdgeEndpoints start_node end_node l s).1.errors } := by
  induction l generalizing s with
  | nil => rfl
  | cons node rest ih =>
    unfold addEdgeEndpoints
    dsimp only
    refine errorsOnly_trans ?_ (ih _)
    dsimp only
    split_ifs <;> rfl

/-- State form of the closure theorem for `_rtt_AddEdge`. -/
theorem rtt_AddEdge_ok {G : GEOM} {T : RTT_TOPOLOGY} {start_node end_node : Int}
    {geom : RTLINE} {skipChecks modFace : Bool} {R : RTT_TOPOLOGY × Int}
    (h : _rtt_AddEdge G T start_node end_node geom skipChecks modFace = R)
    (hok : R.2 ≠ -1)
    (hlink : RingLinked T.edges) (hseq : 0 < T.edge_seq)
    (hfresh : ∀ x ∈ T.edges, x.edge_id < T.edge_seq)
    (hadj : AdjacencyConsistent G T start_node end_node geom) :
    RingLinked R.1.edges ∧ R.2 = T.edge_seq ∧
    R.1.edges.map (fun e => e.edge_id) = T.edges.map (fun e => e.edge_id) ++ [T.edge_seq] ∧
    ∃ row ∈ R.1.edges, row.edge_id = T.edge_seq ∧
      row.start_node = start_node ∧ row.end_node = end_node := by
  unfold _rtt_AddEdge at h
  by_cases c0 : skipChecks = false ∧ G.is_simple geom = false
  · rw [if_pos c0] at h; subst h; exact absurd rfl hok
  rw [if_neg c0] at h
  unfold AdjacencyConsistent at hadj
  cases haz : addEdgeAzimuths G geom with
  | error msg => rw [haz] at h; subst h; exact absurd rfl hok
  | ok az =>
    rw [haz] at h hadj
    dsimp only at h hadj
    cases hn : rtt_be_getNodeById T
        (if start_node ≠ end_node then [start_node, end_node] else [start_node]) with
    | none => rw [hn] at h; subst h; exact absurd rfl hok
    | some endpoints =>
      rw [hn] at h
      dsimp only at h
      have ks := addEdgeEndpoints_state start_node end_node endpoints
        (T, { face := -1, start_node_geom := none, end_node_geom := none })
      generalize addEdgeEndpoints start_node end_node endpoints
        (T, { face := -1, start_node_geom := none, end_node_geom := none }) = s at h ks
      dsimp only at ks
      cases hchk : (if skipChecks then none else addEdgeNodeChecks s.2 az.1 az.2.1) with
      | some msg => rw [hchk] at h; subst h; exact absurd rfl hok
      | none =>
        rw [hchk] at h
        dsimp only at h
        have kc : ∀ c : RTT_TOPOLOGY × Int,
            c = (if skipChecks then (s.1, (0 : Int))
              else _rtt_CheckEdgeCrossing G s.1 start_node end_node geom 0) →
            c.2 = 0 → c.1 = s.1 := by
          intro c hc h0
          by_cases hsk : skipChecks = true
          · rw [if_pos hsk] at hc; rw [hc]
          · rw [if_neg hsk] at hc
            rw [hc] at h0 ⊢
            exact checkEdgeCrossing_ok G s.1 start_node end_node geom 0 h0
        generalize hc : (if skipChecks then (s.1, (0 : Int))
              else _rtt_CheckEdgeCrossing G s.1 start_node end_node geom 0) = c at h
        by_cases c1 : c.2 ≠ 0
        · rw [if_pos c1] at h; subst h; exact absurd rfl hok
        rw [if_neg c1] at h
        have hc1 := kc c hc.symm (not_not.1 c1)
        rcases hid : rtt_be_getNextEdgeId c.1 with ⟨T2, id⟩
        rw [hid] at h
        dsimp only at h
        by_cases c2 : id = -1
        · rw [if_pos c2] at h; subst h; exact absurd rfl hok
        rw [if_neg c2] at h
        obtain ⟨hidv, hT2⟩ := getNextEdgeId_ok hid c2
        have hE : T2.edges = T.edges := by rw [hT2, hc1, ks]
        have hF : T2.failing = T.failing := by rw [hT2, hc1, ks]
        have hseqv : id = T.edge_seq := by rw [hidv, hc1, ks]
        subst hseqv
        have cg : ∀ (node : Int) (d : edgeend) (o : Option edgeend),
            (_rtt_FindAdjacentEdges G T2 node d o (-1)).2 =
              (_rtt_FindAdjacentEdges G T node d o (-1)).2 :=
          fun node d o => findAdjacentEdges_congr G T T2 node d o o (-1) hE hF rfl
        have res := addEdgeLink_ok h hok (by rw [hE]; exact hlink)
          (by rw [hE]; exact hfresh) hseq
          (by
            dsimp only
            simp only [cg, hE]
            exact hadj)
        dsimp only at res
        rw [hE] at res
        exact res

/-- Claim C3 (`rtt_AddEdgeModFace` with `modFace = true`, `rtt_AddEdgeNewFaces` with
`modFace = false`): when the stored linkage is well formed (`next` is a bijection on the
signed ids and every successor leaves the node of arrival), the back end hands out a
positive edge id ahead of the stored ones, the identifiers fit the C type `int` in which
the function keeps `prev_left` and `prev_right` (`idsFitInt`), and the adjacency analyses
at the two end nodes return neighbours that agree with the linkage, a successful
`_rtt_AddEdge` leaves a linkage that is again well formed over the edge set enlarged by
the new edge, which runs from `start_node` to `end_node`; so walking `next` from any
signed edge returns to it. Isolated end nodes and a closed new edge are included. -/
theorem rtt_AddEdge_ring_closure (G : GEOM) (T : RTT_TOPOLOGY) (start_node end_node : Int)
    (geom : RTLINE) (skipChecks modFace : Bool)
    (hlink : RingLinked T.edges) (hseq : 0 < T.edge_seq)
    (hfresh : ∀ x ∈ T.edges, x.edge_id < T.edge_seq)
    (hint : idsFitInt T)
    (hadj : AdjacencyConsistent G T start_node end_node geom)
    (hok : (_rtt_AddEdge G T start_node end_node geom skipChecks modFace).2 ≠ -1) :
    RingLinked (_rtt_AddEdge G T start_node end_node geom skipChecks modFace).1.edges ∧
    NextBijection (_rtt_AddEdge G T start_node end_node geom skipChecks modFace).1.edges ∧
    RingsClose (_rtt_AddEdge G T start_node end_node geom skipChecks modFace).1.edges ∧
    (_rtt_AddEdge G T start_node end_node geom skipChecks modFace).2 = T.edge_seq ∧
    (_rtt_AddEdge G T start_node end_node geom skipChecks modFace).1.edges.map
        (fun e => e.edge_id) = T.edges.map (fun e => e.edge_id) ++ [T.edge_seq] ∧
    ∃ row ∈ (_rtt_AddEdge G T start_node end_node geom skipChecks modFace).1.edges,
      row.edge_id = T.edge_seq ∧ row.start_node = start_node ∧ row.end_node = end_node := by
  obtain ⟨h1, h2, h3, h4⟩ := rtt_AddEdge_ok rfl hok hlink hseq hfresh hadj
  exact ⟨h1, h1.nextBijection, h1.ringsClose, h2, h3, h4⟩

theorem rtt_AddEdge_ring_closure_witness :
    RingLinked topoOneEdge.edges ∧ idsFitInt topoOneEdge ∧
    AdjacencyConsistent testKernel topoOneEdge 2 1
      [{ x := 10, y := 0 }, { x := 5, y := 5 }, { x := 0, y := 0 }] ∧
    RingLinked (_rtt_AddEdge testKernel topoOneEdge 2 1
      [{ x := 10, y := 0 }, { x := 5, y := 5 }, { x := 0, y := 0 }] false true).1.edges ∧
    RingsClose (_rtt_AddEdge testKernel topoOneEdge 2 1
      [{ x := 10, y := 0 }, { x := 5, y := 5 }, { x := 0, y := 0 }] false true).1.edges ∧
    (_rtt_AddEdge testKernel topoOneEdge 2 1
      [{ x := 10, y := 0 }, { x := 5, y := 5 }, { x := 0, y := 0 }] false true).2 = 2 :=
  have h := rtt_AddEdge_ring_closure testKernel topoOneEdge 2 1
    [{ x := 10, y := 0 }, { x := 5, y := 5 }, { x := 0, y := 0 }] false true
    (by decide) (by decide) (by decide) (by decide) (by decide) (by decide)
  ⟨by decide, by decide, by decide, h.1, h.2.2.1, h.2.2.2.1⟩

end RTTopo

namespace RTTopo

/-! ## Removing an edge from the successor map -/

/-- Removing edge `k` from a bijective successor map, with the predecessors of `k` and
`-k` taking over their successors, gives a bijective successor map on the other signed
ids. -/
theorem remEdgeNext_bijOn (S : Set Int) (hfin : S.Finite) (next : Int → Int)
    (hbij : Set.BijOn next S S) (k : Int) (hk : k ≠ 0) (hkS : k ∈ S) (hkS' : -k ∈ S) :
    Set.BijOn (remEdgeNext next k (next k) (next (-k))) (S \ {k, -k}) (S \ {k, -k}) := by
  have hkk : k ≠ -k := by omega
  have hinj : ∀ {a b : Int}, a ∈ S → b ∈ S → next a = next b → a = b :=
    fun ha hb h => hbij.injOn ha hb h
  have hmemS' : ∀ {x : Int}, x ∈ S \ {k, -k} ↔ x ∈ S ∧ x ≠ k ∧ x ≠ -k := by
    intro x
    simp only [Set.mem_diff, Set.mem_insert_iff, Set.mem_singleton_iff, not_or]
  have hmaps : Set.MapsTo (remEdgeNext next k (next k) (next (-k)))
      (S \ {k, -k}) (S \ {k, -k}) := by
    intro h hh
    obtain ⟨hS, h1, h2⟩ := hmemS'.1 hh
    rw [hmemS']
    unfold remEdgeNext
    by_cases c1 : next h = -k
    · rw [if_pos c1]
      by_cases c2 : next k ≠ k
      · rw [if_pos c2]
        refine ⟨hbij.mapsTo hkS, c2, ?_⟩
        intro e; exact h1 (hinj hS hkS (c1.trans e.symm))
      · rw [if_neg c2]
        have c2' : next k = k := not_not.1 c2
        refine ⟨hbij.mapsTo hkS', ?_, ?_⟩
        · intro e; exact hkk (hinj hkS hkS' (c2'.trans e.symm))
        · intro e; exact h2 (hinj hS hkS' (c1.trans e.symm))
    · rw [if_neg c1]
      by_cases c3 : next h = k
      · rw [if_pos c3]
        by_cases c4 : next (-k) ≠ -k
        · rw [if_pos c4]
          refine ⟨hbij.mapsTo hkS', ?_, c4⟩
          intro e; exact h2 (hinj hS hkS' (c3.trans e.symm))
        · rw [if_neg c4]
          have c4' : next (-k) = -k := not_not.1 c4
          refine ⟨hbij.mapsTo hkS, ?_, ?_⟩
          · intro e; exact h1 (hinj hS hkS (c3.trans e.symm))
          · intro e; exact hkk (hinj hkS hkS' (e.trans c4'.symm))
      · rw [if_neg c3]
        exact ⟨hbij.mapsTo hS, c3, c1⟩
  refine (Set.Finite.surjOn_iff_bijOn_of_mapsTo (hfin.subset Set.diff_subset) hmaps).1 ?_
  intro y hy
  obtain ⟨hyS, hy1, hy2⟩ := hmemS'.1 hy
  obtain ⟨x, hx, hxy⟩ := hbij.surjOn hyS
  obtain ⟨p, hp, hpk⟩ := hbij.surjOn hkS'
  obtain ⟨q, hq, hqk⟩ := hbij.surjOn hkS
  by_cases cx1 : x = k
  · rw [cx1] at hxy
    -- y = next k
    have p1 : p ≠ k := fun e => by rw [e] at hpk; omega
    by_cases cp : p = -k
    · rw [cp] at hpk
      have q1 : q ≠ k := fun e => by rw [e] at hqk; omega
      have q2 : q ≠ -k := fun e => by rw [e] at hqk; omega
      refine ⟨q, hmemS'.2 ⟨hq, q1, q2⟩, ?_⟩
      unfold remEdgeNext
      rw [if_neg (by omega), if_pos hqk, if_neg (not_not.2 hpk), hxy]
    · refine ⟨p, hmemS'.2 ⟨hp, p1, cp⟩, ?_⟩
      unfold remEdgeNext
      rw [if_pos hpk, if_pos (by omega), hxy]
  · by_cases cx2 : x = -k
    · rw [cx2] at hxy
      -- y = next (-k)
      have q2 : q ≠ -k := fun e => by rw [e] at hqk; omega
      by_cases cq : q = k
      · rw [cq] at hqk
        have p1 : p ≠ k := fun e => by rw [e] at hpk; omega
        have p2 : p ≠ -k := fun e => by rw [e] at hpk; omega
        refine ⟨p, hmemS'.2 ⟨hp, p1, p2⟩, ?_⟩
        unfold remEdgeNext
        rw [if_pos hpk, if_neg (not_not.2 hqk), hxy]
      · refine ⟨q, hmemS'.2 ⟨hq, cq, q2⟩, ?_⟩
        unfold remEdgeNext
        rw [if_neg (by omega), if_pos hqk, if_pos (by omega), hxy]
    · refine ⟨x, hmemS'.2 ⟨hx, cx1, cx2⟩, ?_⟩
      unfold remEdgeNext
      rw [if_neg (by omega), if_neg (by omega), hxy]

end RTTopo

namespace RTTopo

/-! ## The edge table written by `_rtt_RemEdge` -/

theorem mem_remEdgeEdges {es : List RTT_ISO_EDGE} {edge e' : RTT_ISO_EDGE} :
    e' ∈ remEdgeEdges es edge ↔
      ∃ e ∈ es, e.edge_id ≠ edge.edge_id ∧ e' = remEdgeRow edge edge.edge_id e := by
  unfold remEdgeEdges
  simp only [List.mem_filter, List.mem_map, Bool.not_eq_true', decide_eq_false_iff_not]
  constructor
  · rintro ⟨⟨e, he, rfl⟩, hne⟩
    exact ⟨e, he, hne, rfl⟩
  · rintro ⟨e, he, hne, rfl⟩
    exact ⟨⟨e, he, rfl⟩, hne⟩

theorem remEdgeEdges_ids (es : List RTT_ISO_EDGE) (edge : RTT_ISO_EDGE) :
    (remEdgeEdges es edge).map (fun e => e.edge_id) =
      (es.map (fun e => e.edge_id)).filter (fun i => !decide (i = edge.edge_id)) := by
  unfold remEdgeEdges
  rw [List.filter_map, List.map_map, List.filter_map]
  rfl

/-- Removing a stored edge and redirecting its predecessors keeps the linkage well
formed, and no remaining row designates the removed edge. -/
theorem remEdgeEdges_ringLinked {es : List RTT_ISO_EDGE} (h : RingLinked es)
    {edge : RTT_ISO_EDGE} (hedge : edge ∈ es) :
    RingLinked (remEdgeEdges es edge) ∧
    ∀ e ∈ remEdgeEdges es edge,
      e.next_left ≠ edge.edge_id ∧ e.next_left ≠ -edge.edge_id ∧
      e.next_right ≠ edge.edge_id ∧ e.next_right ≠ -edge.edge_id := by
  have NB := h.nextBijection
  obtain ⟨hpos, hnd, hcl, -⟩ := h
  have hk0 : 0 < edge.edge_id := hpos edge hedge
  have hkS : edge.edge_id ∈ signedIds es := mem_signedIds.2 ⟨edge, hedge, Or.inl rfl⟩
  have hkS' : -edge.edge_id ∈ signedIds es := mem_signedIds.2 ⟨edge, hedge, Or.inr rfl⟩
  have hnk : nextEdge es edge.edge_id = edge.next_left := nextEdge_pos hnd hedge hk0
  have hnk' : nextEdge es (-edge.edge_id) = edge.next_right := nextEdge_neg hnd hedge hk0
  have hpos' : ∀ e ∈ remEdgeEdges es edge, 0 < e.edge_id := by
    intro e' he'
    obtain ⟨e, he, -, rfl⟩ := mem_remEdgeEdges.1 he'
    exact hpos e he
  have hnd' : ((remEdgeEdges es edge).map (fun e => e.edge_id)).Nodup := by
    rw [remEdgeEdges_ids]; exact hnd.filter _
  have hsig : ∀ x, x ∈ signedIds (remEdgeEdges es edge) ↔
      x ∈ signedIds es ∧ x ≠ edge.edge_id ∧ x ≠ -edge.edge_id := by
    intro x
    rw [mem_signedIds, mem_signedIds]
    constructor
    · rintro ⟨e', he', hx⟩
      obtain ⟨e, he, hne, rfl⟩ := mem_remEdgeEdges.1 he'
      have hp := hpos e he
      have he1 : (remEdgeRow edge edge.edge_id e).edge_id = e.edge_id := rfl
      rw [he1] at hx
      refine ⟨⟨e, he, hx⟩, ?_, ?_⟩ <;> rcases hx with rfl | rfl <;> omega
    · rintro ⟨⟨e, he, hx⟩, h1, h2⟩
      have hne : e.edge_id ≠ edge.edge_id := by
        rcases hx with rfl | rfl
        · exact h1
        · intro e'; exact h2 (by rw [e'])
      exact ⟨_, mem_remEdgeEdges.2 ⟨e, he, hne, rfl⟩, hx⟩
  -- successor, start and end of the half-edges that stay
  have hrow : ∀ e ∈ es, e.edge_id ≠ edge.edge_id →
      nextEdge (remEdgeEdges es edge) e.edge_id =
        remEdgeNext (nextEdge es) edge.edge_id edge.next_left edge.next_right e.edge_id ∧
      nextEdge (remEdgeEdges es edge) (-e.edge_id) =
        remEdgeNext (nextEdge es) edge.edge_id edge.next_left edge.next_right (-e.edge_id) ∧
      leavesNode (remEdgeEdges es edge) e.edge_id = leavesNode es e.edge_id ∧
      leavesNode (remEdgeEdges es edge) (-e.edge_id) = leavesNode es (-e.edge_id) ∧
      arrivesNode (remEdgeEdges es edge) e.edge_id = arrivesNode es e.edge_id ∧
      arrivesNode (remEdgeEdges es edge) (-e.edge_id) = arrivesNode es (-e.edge_id) := by
    intro e he hne
    have hp := hpos e he
    have hm : remEdgeRow edge edge.edge_id e ∈ remEdgeEdges es edge :=
      mem_remEdgeEdges.2 ⟨e, he, hne, rfl⟩
    have hp' : 0 < (remEdgeRow edge edge.edge_id e).edge_id := hp
    have a1 := nextEdge_pos hnd' hm hp'
    have a2 := nextEdge_neg hnd' hm hp'
    have a3 := leavesNode_pos hnd' hm hp'
    have a4 := leavesNode_neg hnd' hm hp'
    have a5 := arrivesNode_pos hnd' hm hp'
    have a6 := arrivesNode_neg hnd' hm hp'
    have he1 : (remEdgeRow edge edge.edge_id e).edge_id = e.edge_id := rfl
    rw [he1] at a1 a2 a3 a4 a5 a6
    rw [a1, a2, a3, a4, a5, a6, leavesNode_pos hnd he hp, leavesNode_neg hnd he hp,
      arrivesNode_pos hnd he hp, arrivesNode_neg hnd he hp]
    refine ⟨?_, ?_, rfl, rfl, rfl, rfl⟩
    · unfold remEdgeNext
      rw [nextEdge_pos hnd he hp]
      simp only [remEdgeRow, hne, ne_eq, not_false_eq_true, true_and]
    · unfold remEdgeNext
      rw [nextEdge_neg hnd he hp]
      simp only [remEdgeRow, hne, ne_eq, not_false_eq_true, true_and]
  have hall : ∀ x ∈ signedIds (remEdgeEdges es edge),
      nextEdge (remEdgeEdges es edge) x =
        remEdgeNext (nextEdge es) edge.edge_id edge.next_left edge.next_right x ∧
      leavesNode (remEdgeEdges es edge) x = leavesNode es x ∧
      arrivesNode (remEdgeEdges es edge) x = arrivesNode es x := by
    intro x hx
    obtain ⟨hxS, h1, h2⟩ := (hsig x).1 hx
    obtain ⟨e, he, hxe⟩ := mem_signedIds.1 hxS
    have hne : e.edge_id ≠ edge.edge_id := by
      rcases hxe with rfl | rfl
      · exact h1
      · intro e'; exact h2 (by rw [e'])
    obtain ⟨r1, r2, r3, r4, r5, r6⟩ := hrow e he hne
    rcases hxe with rfl | rfl
    · exact ⟨r1, r3, r5⟩
    · exact ⟨r2, r4, r6⟩
  have hset : {x | x ∈ signedIds (remEdgeEdges es edge)} =
      {x | x ∈ signedIds es} \ {edge.edge_id, -edge.edge_id} := by
    ext x
    simp only [Set.mem_setOf_eq, Set.mem_diff, Set.mem_insert_iff, Set.mem_singleton_iff,
      not_or]
    exact hsig x
  have habs := remEdgeNext_bijOn {x | x ∈ signedIds es} (List.finite_toSet _) (nextEdge es)
    NB.1 edge.edge_id (by omega) hkS hkS'
  rw [hnk, hnk'] at habs
  have hbij : Set.BijOn (nextEdge (remEdgeEdges es edge))
      {x | x ∈ signedIds (remEdgeEdges es edge)}
      {x | x ∈ signedIds (remEdgeEdges es edge)} := by
    rw [hset]
    refine habs.congr ?_
    intro x hx
    rw [← hset] at hx
    exact (hall x hx).1.symm
  have hnode : ∀ x ∈ signedIds (remEdgeEdges es edge),
      leavesNode (remEdgeEdges es edge) (nextEdge (remEdgeEdges es edge) x) =
        arrivesNode (remEdgeEdges es edge) x := by
    intro x hx
    have hnx : nextEdge (remEdgeEdges es edge) x ∈ signedIds (remEdgeEdges es edge) :=
      hbij.mapsTo hx
    rw [(hall _ hnx).2.1, (hall x hx).1, (hall x hx).2.2]
    obtain ⟨hxS, h1, h2⟩ := (hsig x).1 hx
    have old := NB.2 x hxS
    have oldk := NB.2 _ hkS
    have oldk' := NB.2 _ hkS'
    rw [hnk] at oldk
    rw [hnk'] at oldk'
    have lk : leavesNode es edge.edge_id = edge.start_node := leavesNode_pos hnd hedge hk0
    have lk' : leavesNode es (-edge.edge_id) = edge.end_node := leavesNode_neg hnd hedge hk0
    have ak : arrivesNode es edge.edge_id = edge.end_node := arrivesNode_pos hnd hedge hk0
    have ak' : arrivesNode es (-edge.edge_id) = edge.start_node :=
      arrivesNode_neg hnd hedge hk0
    unfold remEdgeNext
    by_cases c1 : nextEdge es x = -edge.edge_id
    · rw [if_pos c1]
      rw [c1] at old
      by_cases c2 : edge.next_left ≠ edge.edge_id
      · rw [if_pos c2]; omega
      · rw [if_neg c2]
        rw [not_not.1 c2] at oldk
        omega
    · rw [if_neg c1]
      by_cases c3 : nextEdge es x = edge.edge_id
      · rw [if_pos c3]
        rw [c3] at old
        by_cases c4 : edge.next_right ≠ -edge.edge_id
        · rw [if_pos c4]; omega
        · rw [if_neg c4]
          rw [not_not.1 c4] at oldk'
          omega
      · rw [if_neg c3]; exact old
  refine ⟨NextBijection.ringLinked hpos' hnd' ⟨hbij, hnode⟩, ?_⟩
  intro e' he'
  have hp := hpos' e' he'
  have m1 : nextEdge (remEdgeEdges es edge) e'.edge_id ∈ signedIds (remEdgeEdges es edge) :=
    hbij.mapsTo (mem_signedIds.2 ⟨e', he', Or.inl rfl⟩)
  have m2 : nextEdge (remEdgeEdges es edge) (-e'.edge_id) ∈
      signedIds (remEdgeEdges es edge) :=
    hbij.mapsTo (mem_signedIds.2 ⟨e', he', Or.inr rfl⟩)
  rw [nextEdge_pos hnd' he' hp] at m1
  rw [nextEdge_neg hnd' he' hp] at m2
  exact ⟨((hsig _).1 m1).2.1, ((hsig _).1 m1).2.2, ((hsig _).1 m2).2.1, ((hsig _).1 m2).2.2⟩

end RTTopo

namespace RTTopo

/-! ## `_rtt_RemEdge`: the rows after a successful call -/

/-- Updates by id act row by row. -/
theorem foldl_updateEdgeById (flds : List RTT_COL_EDGE) (rows es : List RTT_ISO_EDGE) :
    rows.foldl (updateEdgeById flds) es =
      es.map (fun x => rows.foldl
        (fun acc r => if acc.edge_id = r.edge_id then edgeAssign r flds acc else acc) x) := by
  induction rows generalizing es with
  | nil => simp
  | cons r rest ih =>
    rw [List.foldl_cons, ih]
    unfold updateEdgeById
    rw [List.map_map]
    rfl

theorem foldl_rows_other (flds : List RTT_COL_EDGE) (rows : List RTT_ISO_EDGE)
    (x : RTT_ISO_EDGE) (h : ∀ r ∈ rows, r.edge_id ≠ x.edge_id) :
    rows.foldl (fun acc r => if acc.edge_id = r.edge_id then edgeAssign r flds acc else acc) x
      = x := by
  induction rows with
  | nil => rfl
  | cons r rest ih =>
    rw [List.foldl_cons, if_neg (fun e => h r (List.mem_cons_self _ _) e.symm)]
    exact ih (fun r' hr' => h r' (List.mem_cons_of_mem _ hr'))

/-- The rows a scan of `l` produces act on a row `x` through the one entry of `l` with
the id of `x`. -/
theorem foldl_rows_filterMap (flds : List RTT_COL_EDGE) (hid : RTT_COL_EDGE.EDGE_ID ∉ flds)
    (g : RTT_ISO_EDGE → Option RTT_ISO_EDGE)
    (hg : ∀ e r, g e = some r → r.edge_id = e.edge_id)
    (l : List RTT_ISO_EDGE) (hnd : (l.map (fun e => e.edge_id)).Nodup)
    (x : RTT_ISO_EDGE) :
    (l.filterMap g).foldl
      (fun acc r => if acc.edge_id = r.edge_id then edgeAssign r flds acc else acc) x =
    match l.find? (fun e => decide (e.edge_id = x.edge_id)) with
    | none => x
    | some e => match g e with
      | none => x
      | some r => edgeAssign r flds x := by
  induction l with
  | nil => rfl
  | cons a rest ih =>
    simp only [List.map_cons, List.nodup_cons, List.mem_map, not_exists, not_and] at hnd
    by_cases c : a.edge_id = x.edge_id
    · rw [List.find?_cons_of_pos _ (by simpa using c)]
      dsimp only
      have hrest : ∀ r ∈ rest.filterMap g, r.edge_id ≠ x.edge_id := by
        intro r hr
        obtain ⟨e, he, hge⟩ := List.mem_filterMap.1 hr
        rw [hg e r hge, ← c]
        exact fun h => hnd.1 e he h
      cases hga : g a with
      | none =>
        rw [List.filterMap_cons_none hga]
        dsimp only
        exact foldl_rows_other flds _ x hrest
      | some r =>
        rw [List.filterMap_cons_some hga, List.foldl_cons,
          if_pos (by rw [hg a r hga, c])]
        dsimp only
        apply foldl_rows_other
        intro r' hr'
        have : (edgeAssign r flds x).edge_id = x.edge_id := by
          simp [edgeAssign, hid]
        rw [this]; exact hrest r' hr'
    · rw [List.find?_cons_of_neg _ (by simpa using c)]
      cases hga : g a with
      | none =>
        rw [List.filterMap_cons_none hga]
        exact ih hnd.2
      | some r =>
        rw [List.filterMap_cons_some hga, List.foldl_cons,
          if_neg (by rw [hg a r hga]; exact fun h => c h.symm)]
        exact ih hnd.2

theorem nodup_filter_ids {es : List RTT_ISO_EDGE} (p : RTT_ISO_EDGE → Bool)
    (hnd : (es.map (fun e => e.edge_id)).Nodup) :
    ((es.filter p).map (fun e => e.edge_id)).Nodup :=
  List.Nodup.sublist (List.Sublist.map _ (List.filter_sublist es)) hnd

/-- Looking up the id of a stored row among the rows that satisfy `p`. -/
theorem find_filter_id {es : List RTT_ISO_EDGE} (p : RTT_ISO_EDGE → Bool)
    (hnd : (es.map (fun e => e.edge_id)).Nodup) {e : RTT_ISO_EDGE} (he : e ∈ es) :
    (es.filter p).find? (fun x => decide (x.edge_id = e.edge_id)) =
      if p e then some e else none := by
  by_cases hp : p e = true
  · rw [if_pos hp]
    exact edgeRow_of_mem (nodup_filter_ids p hnd) (List.mem_filter.2 ⟨he, hp⟩)
  · rw [if_neg hp]
    rw [List.find?_eq_none]
    intro x hx hxe
    have hx' := List.mem_filter.1 hx
    have h1 := edgeRow_of_mem hnd hx'.1
    have h2 := edgeRow_of_mem hnd he
    rw [of_decide_eq_true hxe, h2] at h1
    rw [Option.some.inj h1] at hp
    exact hp hx'.2

theorem remEdge_left_apply (edge e : RTT_ISO_EDGE) (inF : Bool)
    (hin : e.edge_id ≠ edge.edge_id →
      (e.next_left = -edge.edge_id ∨ e.next_left = edge.edge_id) → inF = true) :
    (match (if inF = true then some e else none) with
      | none => e
      | some e' => match remEdgeLeftUpdate edge edge.edge_id e' with
        | none => e
        | some r => edgeAssign r [RTT_COL_EDGE.NEXT_LEFT] e) =
      { e with next_left := (remEdgeRow edge edge.edge_id e).next_left } := by
  rcases e with ⟨id, s, t, fl, fr, nl, nr, g⟩
  dsimp only at hin
  by_cases c0 : id = edge.edge_id
  · have h1 : remEdgeLeftUpdate edge edge.edge_id
        { edge_id := id, start_node := s, end_node := t, face_left := fl, face_right := fr,
          next_left := nl, next_right := nr, geom := g } = none := by
      unfold remEdgeLeftUpdate; rw [if_pos c0]
    have h2 : (remEdgeRow edge edge.edge_id
        { edge_id := id, start_node := s, end_node := t, face_left := fl, face_right := fr,
          next_left := nl, next_right := nr, geom := g }).next_left = nl := by
      unfold remEdgeRow
      dsimp only
      rw [if_neg (fun h => h.1 c0), if_neg (fun h => h.1 c0)]
    rw [h2]
    cases inF
    · rfl
    · dsimp only [if_true]
      simp only [if_true, h1]
  · by_cases c1 : nl = -edge.edge_id
    · have h1 : remEdgeLeftUpdate edge edge.edge_id
          { edge_id := id, start_node := s, end_node := t, face_left := fl, face_right := fr,
            next_left := nl, next_right := nr, geom := g } = some { blankEdge with
            edge_id := id
            next_left := if edge.next_left ≠ edge.edge_id then edge.next_left
              else edge.next_right } := by
        unfold remEdgeLeftUpdate; rw [if_neg c0, if_pos c1]
      have h2 : (remEdgeRow edge edge.edge_id
          { edge_id := id, start_node := s, end_node := t, face_left := fl, face_right := fr,
            next_left := nl, next_right := nr, geom := g }).next_left =
            if edge.next_left ≠ edge.edge_id then edge.next_left else edge.next_right := by
        unfold remEdgeRow
        dsimp only
        rw [if_pos ⟨c0, c1⟩]
      rw [h2, hin c0 (Or.inl c1)]
      simp only [if_true, h1, edgeAssign, List.mem_singleton, reduceCtorEq, if_false]
    · by_cases c2 : nl = edge.edge_id
      · have h1 : remEdgeLeftUpdate edge edge.edge_id
            { edge_id := id, start_node := s, end_node := t, face_left := fl, face_right := fr,
              next_left := nl, next_right := nr, geom := g } = some { blankEdge with
              edge_id := id
              next_left := if edge.next_right ≠ -edge.edge_id then edge.next_right
                else edge.next_left } := by
          unfold remEdgeLeftUpdate; rw [if_neg c0, if_neg c1, if_pos c2]
        have h2 : (remEdgeRow edge edge.edge_id
            { edge_id := id, start_node := s, end_node := t, face_left := fl, face_right := fr,
              next_left := nl, next_right := nr, geom := g }).next_left =
              if edge.next_right ≠ -edge.edge_id then edge.next_right else edge.next_left := by
          unfold remEdgeRow
          dsimp only
          rw [if_neg (fun h => c1 h.2), if_pos ⟨c0, c2⟩]
        rw [h2, hin c0 (Or.inr c2)]
        simp only [if_true, h1, edgeAssign, List.mem_singleton, reduceCtorEq, if_false]
      · have h1 : remEdgeLeftUpdate edge edge.edge_id
            { edge_id := id, start_node := s, end_node := t, face_left := fl, face_right := fr,
              next_left := nl, next_right := nr, geom := g } = none := by
          unfold remEdgeLeftUpdate; rw [if_neg c0, if_neg c1, if_neg c2]
        have h2 : (remEdgeRow edge edge.edge_id
            { edge_id := id, start_node := s, end_node := t, face_left := fl, face_right := fr,
              next_left := nl, next_right := nr, geom := g }).next_left = nl := by
          unfold remEdgeRow
          dsimp only
          rw [if_neg (fun h => c1 h.2), if_neg (fun h => c2 h.2)]
        rw [h2]
        cases inF
        · rfl
        · simp only [if_true, h1]

theorem remEdge_right_apply (edge e : RTT_ISO_EDGE) (inF : Bool) (x : Int)
    (hin : e.edge_id ≠ edge.edge_id →
      (e.next_right = -edge.edge_id ∨ e.next_right = edge.edge_id) → inF = true) :
    (match (if inF = true then some e else none) with
      | none => { e with next_left := x }
      | some e' => match remEdgeRightUpdate edge edge.edge_id e' with
        | none => { e with next_left := x }
        | some r => edgeAssign r [RTT_COL_EDGE.NEXT_RIGHT] { e with next_left := x }) =
      { e with next_left := x, next_right := (remEdgeRow edge edge.edge_id e).next_right } := by
  rcases e with ⟨id, s, t, fl, fr, nl, nr, g⟩
  dsimp only at hin
  by_cases c0 : id = edge.edge_id
  · have h1 : remEdgeRightUpdate edge edge.edge_id
        { edge_id := id, start_node := s, end_node := t, face_left := fl, face_right := fr,
          next_left := nl, next_right := nr, geom := g } = none := by
      unfold remEdgeRightUpdate; rw [if_pos c0]
    have h2 : (remEdgeRow edge edge.edge_id
        { edge_id := id, start_node := s, end_node := t, face_left := fl, face_right := fr,
          next_left := nl, next_right := nr, geom := g }).next_right = nr := by
      unfold remEdgeRow
      dsimp only
      rw [if_neg (fun h => h.1 c0), if_neg (fun h => h.1 c0)]
    rw [h2]
    cases inF
    · rfl
    · simp only [if_true, h1]
  · by_cases c1 : nr = -edge.edge_id
    · have h1 : remEdgeRightUpdate edge edge.edge_id
          { edge_id := id, start_node := s, end_node := t, face_left := fl, face_right := fr,
            next_left := nl, next_right := nr, geom := g } = some { blankEdge with
            edge_id := id
            next_right := if edge.next_left ≠ edge.edge_id then edge.next_left
              else edge.next_right } := by
        unfold remEdgeRightUpdate; rw [if_neg c0, if_pos c1]
      have h2 : (remEdgeRow edge edge.edge_id
          { edge_id := id, start_node := s, end_node := t, face_left := fl, face_right := fr,
            next_left := nl, next_right := nr, geom := g }).next_right =
            if edge.next_left ≠ edge.edge_id then edge.next_left else edge.next_right := by
        unfold remEdgeRow
        dsimp only
        rw [if_pos ⟨c0, c1⟩]
      rw [h2, hin c0 (Or.inl c1)]
      simp only [if_true, h1, edgeAssign, List.mem_singleton, reduceCtorEq, if_false]
    · by_cases c2 : nr = edge.edge_id
      · have h1 : remEdgeRightUpdate edge edge.edge_id
            { edge_id := id, start_node := s, end_node := t, face_left := fl, face_right := fr,
              next_left := nl, next_right := nr, geom := g } = some { blankEdge with
              edge_id := id
              next_right := if edge.next_right ≠ -edge.edge_id then edge.next_right
                else edge.next_left } := by
          unfold remEdgeRightUpdate; rw [if_neg c0, if_neg c1, if_pos c2]
        have h2 : (remEdgeRow edge edge.edge_id
            { edge_id := id, start_node := s, end_node := t, face_left := fl, face_right := fr,
              next_left := nl, next_right := nr, geom := g }).next_right =
              if edge.next_right ≠ -edge.edge_id then edge.next_right else edge.next_left := by
          unfold remEdgeRow
          dsimp only
          rw [if_neg (fun h => c1 h.2), if_pos ⟨c0, c2⟩]
        rw [h2, hin c0 (Or.inr c2)]
        simp only [if_true, h1, edgeAssign, List.mem_singleton, reduceCtorEq, if_false]
      · have h1 : remEdgeRightUpdate edge edge.edge_id
            { edge_id := id, start_node := s, end_node := t, face_left := fl, face_right := fr,
              next_left := nl, next_right := nr, geom := g } = none := by
          unfold remEdgeRightUpdate; rw [if_neg c0, if_neg c1, if_neg c2]
        have h2 : (remEdgeRow edge edge.edge_id
            { edge_id := id, start_node := s, end_node := t, face_left := fl, face_right := fr,
              next_left := nl, next_right := nr, geom := g }).next_right = nr := by
          unfold remEdgeRow
          dsimp only
          rw [if_neg (fun h => c1 h.2), if_neg (fun h => c2 h.2)]
        rw [h2]
        cases inF
        · rfl
        · simp only [if_true, h1]

/-- The two linkage updates of `_rtt_RemEdge`, computed from the rows on the end nodes
of `edge`, redirect every row of a well-linked table that designates `edge`. -/
theorem remEdge_relink_rows {es : List RTT_ISO_EDGE} (hlink : RingLinked es)
    {edge : RTT_ISO_EDGE} (hedge : edge ∈ es) (ids : List Int)
    (hs : edge.start_node ∈ ids) (ht : edge.end_node ∈ ids) :
    ((es.filter (fun e => decide (e.start_node ∈ ids) || decide (e.end_node ∈ ids))).filterMap
        (remEdgeRightUpdate edge edge.edge_id)).foldl
      (updateEdgeById [RTT_COL_EDGE.NEXT_RIGHT])
      (((es.filter (fun e => decide (e.start_node ∈ ids) || decide (e.end_node ∈ ids))).filterMap
        (remEdgeLeftUpdate edge edge.edge_id)).foldl
      (updateEdgeById [RTT_COL_EDGE.NEXT_LEFT]) es) =
    es.map (remEdgeRow edge edge.edge_id) := by
  have hnd := hlink.2.1
  rw [foldl_updateEdgeById, foldl_updateEdgeById, List.map_map]
  apply List.map_congr_left
  intro e he
  have hpair := hlink.2.2.2 e he edge hedge
  have hgL : ∀ e r, remEdgeLeftUpdate edge edge.edge_id e = some r → r.edge_id = e.edge_id := by
    intro e r h
    unfold remEdgeLeftUpdate at h
    split_ifs at h <;> first | (cases h; rfl) | cases h
  have hgR : ∀ e r, remEdgeRightUpdate edge edge.edge_id e = some r →
      r.edge_id = e.edge_id := by
    intro e r h
    unfold remEdgeRightUpdate at h
    split_ifs at h <;> first | (cases h; rfl) | cases h
  have hndF := nodup_filter_ids
    (fun e => decide (e.start_node ∈ ids) || decide (e.end_node ∈ ids)) hnd
  have hfe := find_filter_id
    (fun e => decide (e.start_node ∈ ids) || decide (e.end_node ∈ ids)) hnd he
  have hL := foldl_rows_filterMap [RTT_COL_EDGE.NEXT_LEFT] (by simp)
    (remEdgeLeftUpdate edge edge.edge_id) hgL _ hndF e
  rw [hfe] at hL
  have hinL : e.edge_id ≠ edge.edge_id →
      (e.next_left = -edge.edge_id ∨ e.next_left = edge.edge_id) →
      (decide (e.start_node ∈ ids) || decide (e.end_node ∈ ids)) = true := by
    intro _ h
    have : e.end_node ∈ ids := by
      rcases h with h | h
      · rw [← hpair.2.1 h]; exact ht
      · rw [← hpair.1 h]; exact hs
    simp [this]
  have hinR : e.edge_id ≠ edge.edge_id →
      (e.next_right = -edge.edge_id ∨ e.next_right = edge.edge_id) →
      (decide (e.start_node ∈ ids) || decide (e.end_node ∈ ids)) = true := by
    intro _ h
    have : e.start_node ∈ ids := by
      rcases h with h | h
      · rw [← hpair.2.2.2.1 h]; exact ht
      · rw [← hpair.2.2.1 h]; exact hs
    simp [this]
  rw [remEdge_left_apply edge e _ hinL] at hL
  simp only [Function.comp]
  rw [hL]
  have hR := foldl_rows_filterMap [RTT_COL_EDGE.NEXT_RIGHT] (by simp)
    (remEdgeRightUpdate edge edge.edge_id) hgR _ hndF
    { e with next_left := (remEdgeRow edge edge.edge_id e).next_left }
  dsimp only at hR
  rw [hfe] at hR
  rw [remEdge_right_apply edge e _ _ hinR] at hR
  rw [hR]
  rfl

end RTTopo

namespace RTTopo

theorem linksKept_updateEdges_faces (T : RTT_TOPOLOGY) (sel upd exc : RTT_ISO_EDGE)
    (sf uf ef : List RTT_COL_EDGE)
    (hf : ∀ c ∈ uf, c = RTT_COL_EDGE.FACE_LEFT ∨ c = RTT_COL_EDGE.FACE_RIGHT) :
    linksKept T (rtt_be_updateEdges T sel sf upd uf exc ef).1 := by
  have h1 : RTT_COL_EDGE.EDGE_ID ∉ uf := fun h => by rcases hf _ h with h | h <;> cases h
  have h2 : RTT_COL_EDGE.START_NODE ∉ uf := fun h => by rcases hf _ h with h | h <;> cases h
  have h3 : RTT_COL_EDGE.END_NODE ∉ uf := fun h => by rcases hf _ h with h | h <;> cases h
  have h4 : RTT_COL_EDGE.NEXT_LEFT ∉ uf := fun h => by rcases hf _ h with h | h <;> cases h
  have h5 : RTT_COL_EDGE.NEXT_RIGHT ∉ uf := fun h => by rcases hf _ h with h | h <;> cases h
  unfold rtt_be_updateEdges
  split_ifs
  · exact ⟨rfl, rfl⟩
  · refine ⟨?_, rfl⟩
    dsimp only
    rw [List.map_map]
    apply List.map_congr_left
    intro e _
    simp only [Function.comp, updateEdgeRow]
    split_ifs
    · simp [linkView, edgeAssign, h1, h2, h3, h4, h5]
    · rfl

theorem linksKept_assertOldFace (T : RTT_TOPOLOGY) (of : Int) :
    linksKept T (assertOldFace T of) := by
  unfold assertOldFace
  split_ifs <;> exact ⟨rfl, rfl⟩

theorem linksKept_UpdateEdgeFaceRef (T : RTT_TOPOLOGY) (of nf : Int) :
    linksKept T (_rtt_UpdateEdgeFaceRef T of nf).1 := by
  have hL : ∀ c ∈ [RTT_COL_EDGE.FACE_LEFT],
      c = RTT_COL_EDGE.FACE_LEFT ∨ c = RTT_COL_EDGE.FACE_RIGHT := by
    intro c hc; exact Or.inl (List.mem_singleton.1 hc)
  have hR : ∀ c ∈ [RTT_COL_EDGE.FACE_RIGHT],
      c = RTT_COL_EDGE.FACE_LEFT ∨ c = RTT_COL_EDGE.FACE_RIGHT := by
    intro c hc; exact Or.inr (List.mem_singleton.1 hc)
  unfold _rtt_UpdateEdgeFaceRef
  dsimp only
  have k1 := (linksKept_assertOldFace T of).andThen
    (linksKept_updateEdges_faces (assertOldFace T of) { blankEdge with face_left := of }
      { blankEdge with face_left := nf } blankEdge [RTT_COL_EDGE.FACE_LEFT]
      [RTT_COL_EDGE.FACE_LEFT] [] hL)
  generalize rtt_be_updateEdges (assertOldFace T of) { blankEdge with face_left := of }
      [RTT_COL_EDGE.FACE_LEFT] { blankEdge with face_left := nf }
      [RTT_COL_EDGE.FACE_LEFT] blankEdge [] = l at k1 ⊢
  have k2 := k1.andThen (linksKept_updateEdges_faces l.1
      { blankEdge with face_left := of, face_right := of }
      { blankEdge with face_left := nf, face_right := nf } blankEdge
      [RTT_COL_EDGE.FACE_RIGHT] [RTT_COL_EDGE.FACE_RIGHT] [] hR)
  split_ifs
  · exact k1
  · exact k2
  · exact k2

theorem linksKept_UpdateNodeFaceRef (T : RTT_TOPOLOGY) (of nf : Int) :
    linksKept T (_rtt_UpdateNodeFaceRef T of nf).1 := by
  unfold _rtt_UpdateNodeFaceRef
  dsimp only
  have k1 := (linksKept_assertOldFace T of).andThen
    (linksKept_updateNodes (assertOldFace T of) { blankNode with containing_face := of }
      { blankNode with containing_face := nf } blankNode [RTT_COL_NODE.CONTAINING_FACE]
      [RTT_COL_NODE.CONTAINING_FACE] [])
  split_ifs <;> exact k1

theorem linksKept_remEdgeFaceRefs (T : RTT_TOPOLOGY) (of floodface : Int) :
    linksKept T (remEdgeFaceRefs T of floodface).1 := by
  unfold remEdgeFaceRefs
  dsimp only
  have k1 := linksKept_UpdateEdgeFaceRef T of floodface
  generalize _rtt_UpdateEdgeFaceRef T of floodface = a at k1 ⊢
  have k2 := k1.andThen (linksKept_UpdateNodeFaceRef a.1 of floodface)
  split_ifs
  · exact k1
  · exact k2
  · exact k2
  · exact linksKept.same T

/-- Filtering on the id commutes with taking the linkage columns. -/
theorem filter_linkView_congr {es1 es2 : List RTT_ISO_EDGE} (k : Int)
    (h : es1.map linkView = es2.map linkView) :
    (es1.filter (fun e => !decide (e.edge_id = k))).map linkView =
      (es2.filter (fun e => !decide (e.edge_id = k))).map linkView := by
  have key : ∀ es : List RTT_ISO_EDGE,
      (es.filter (fun e => !decide (e.edge_id = k))).map linkView =
        (es.map linkView).filter (fun v => !decide (v.1 = k)) := by
    intro es
    rw [List.filter_map]
    rfl
  rw [key, key, h]

/-- A successful last part of `_rtt_RemEdge` deletes the row of the edge and leaves the
other edge rows alone. -/
theorem remEdgeDelete_ok {T : RTT_TOPOLOGY} {edge : RTT_ISO_EDGE} {fn ln : Nat}
    {modFace : Bool} {ff nf : Int} {R : RTT_TOPOLOGY × Int}
    (h : remEdgeDelete T edge fn ln modFace ff nf = R) (hok : R.2 ≠ -1) :
    R.1.edges = T.edges.filter (fun e => !decide (e.edge_id = edge.edge_id)) := by
  unfold remEdgeDelete at h
  dsimp only at h
  rcases hd : rtt_be_deleteEdges T edge [RTT_COL_EDGE.EDGE_ID] with ⟨T1, ret⟩
  rw [hd] at h
  dsimp only at h
  by_cases c1 : ret = -1
  · rw [if_pos c1] at h; subst h; exact absurd rfl hok
  rw [if_neg c1] at h
  have hT1 := deleteEdges_ok hd c1
  have hE : T1.edges = T.edges.filter (fun e => !decide (e.edge_id = edge.edge_id)) := by
    rw [hT1]
    dsimp only
    congr 1
    funext e
    simp [edgeMatches]
  have keyn : ∀ (c : Prop) [Decidable c] (rows : List RTT_ISO_NODE),
      (if c then rtt_be_updateNodesById T1 rows [RTT_COL_NODE.CONTAINING_FACE]
        else (T1, (0 : Int))).1.edges = T1.edges := by
    intro c _ rows
    split_ifs
    · exact (by unfold rtt_be_updateNodesById; split_ifs <;> rfl)
    · rfl
  have hu := keyn (((if fn = 0 then
        [({ blankNode with node_id := edge.start_node, containing_face := ff } : RTT_ISO_NODE)]
       else []) ++
      (if edge.end_node ≠ edge.start_node ∧ ln = 0 then
        [({ blankNode with node_id := edge.end_node, containing_face := ff } : RTT_ISO_NODE)]
       else [])).length ≠ 0) ((if fn = 0 then
        [({ blankNode with node_id := edge.start_node, containing_face := ff } : RTT_ISO_NODE)]
       else []) ++
      (if edge.end_node ≠ edge.start_node ∧ ln = 0 then
        [({ blankNode with node_id := edge.end_node, containing_face := ff } : RTT_ISO_NODE)]
       else []))
  generalize (if ((if fn = 0 then
        [({ blankNode with node_id := edge.start_node, containing_face := ff } : RTT_ISO_NODE)]
       else []) ++
      (if edge.end_node ≠ edge.start_node ∧ ln = 0 then
        [({ blankNode with node_id := edge.end_node, containing_face := ff } : RTT_ISO_NODE)]
       else [])).length ≠ 0 then rtt_be_updateNodesById T1 ((if fn = 0 then
        [({ blankNode with node_id := edge.start_node, containing_face := ff } : RTT_ISO_NODE)]
       else []) ++
      (if edge.end_node ≠ edge.start_node ∧ ln = 0 then
        [({ blankNode with node_id := edge.end_node, containing_face := ff } : RTT_ISO_NODE)]
       else [])) [RTT_COL_NODE.CONTAINING_FACE] else (T1, (0 : Int))) = u at h hu
  generalize ((if fn = 0 then
        [({ blankNode with node_id := edge.start_node, containing_face := ff } : RTT_ISO_NODE)]
       else []) ++
      (if edge.end_node ≠ edge.start_node ∧ ln = 0 then
        [({ blankNode with node_id := edge.end_node, containing_face := ff } : RTT_ISO_NODE)]
       else [])).length = n at h
  by_cases c2 : n ≠ 0 ∧ u.2 = -1
  · rw [if_pos c2] at h; subst h; exact absurd rfl hok
  rw [if_neg c2] at h
  by_cases c3 : edge.face_left ≠ edge.face_right
  · rw [if_pos c3] at h
    have hf := (linksKept_deleteFacesById u.1
      ((if edge.face_right ≠ ff then [edge.face_right] else []) ++
         (if edge.face_left ≠ ff then [edge.face_left] else [])))
    have hfe : (rtt_be_deleteFacesById u.1
      ((if edge.face_right ≠ ff then [edge.face_right] else []) ++
         (if edge.face_left ≠ ff then [edge.face_left] else []))).1.edges = u.1.edges := by
      unfold rtt_be_deleteFacesById
      dsimp only
      split_ifs <;> rfl
    generalize rtt_be_deleteFacesById u.1
      ((if edge.face_right ≠ ff then [edge.face_right] else []) ++
         (if edge.face_left ≠ ff then [edge.face_left] else [])) = f at h hf hfe
    by_cases c4 : f.2 = -1
    · rw [if_pos c4] at h; subst h; exact absurd rfl hok
    rw [if_neg c4] at h
    subst h
    dsimp only
    rw [hfe, hu, hE]
  · rw [if_neg c3] at h
    subst h
    dsimp only
    rw [hu, hE]

theorem remEdgeHeal_ok {T : RTT_TOPOLOGY} {edge : RTT_ISO_EDGE} {fn ln : Nat}
    {modFace : Bool} {ff nf : Int} {R : RTT_TOPOLOGY × Int}
    (h : remEdgeHeal T edge fn ln modFace ff nf = R) (hok : R.2 ≠ -1) :
    R.1.edges.map linkView =
      (T.edges.filter (fun e => !decide (e.edge_id = edge.edge_id))).map linkView := by
  unfold remEdgeHeal at h
  dsimp only at h
  have k1 := linksKept_remEdgeFaceRefs T edge.face_left ff
  generalize remEdgeFaceRefs T edge.face_left ff = a at h k1
  by_cases c1 : a.2 = -1
  · rw [if_pos c1] at h; subst h; exact absurd rfl hok
  rw [if_neg c1] at h
  have k2 := k1.andThen (linksKept_remEdgeFaceRefs a.1 edge.face_right ff)
  generalize remEdgeFaceRefs a.1 edge.face_right ff = b at h k2
  by_cases c2 : b.2 = -1
  · rw [if_pos c2] at h; subst h; exact absurd rfl hok
  rw [if_neg c2] at h
  by_cases c3 : rtt_be_hook b.1 BeCall.updateTopoGeomFaceHeal = 0
  · rw [if_pos c3] at h; subst h; exact absurd rfl hok
  rw [if_neg c3] at h
  rw [remEdgeDelete_ok h hok]
  exact filter_linkView_congr _ k2.1

theorem remEdgeMerge_ok {G : GEOM} {T : RTT_TOPOLOGY} {edge : RTT_ISO_EDGE} {fn ln : Nat}
    {modFace : Bool} {R : RTT_TOPOLOGY × Int}
    (h : remEdgeMerge G T edge fn ln modFace = R) (hok : R.2 ≠ -1) :
    R.1.edges.map linkView =
      (T.edges.filter (fun e => !decide (e.edge_id = edge.edge_id))).map linkView := by
  unfold remEdgeMerge at h
  cases hf : rtt_be_getFaceById T [edge.face_left, edge.face_right] with
  | none => rw [hf] at h; subst h; exact absurd rfl hok
  | some faces =>
    rw [hf] at h
    dsimp only at h
    rcases hb : remEdgeBoxes edge faces (none, none) with msg | ⟨b1, b2⟩
    · rw [hb] at h; subst h; exact absurd rfl hok
    · rw [hb] at h
      cases b1 with
      | none => subst h; exact absurd rfl hok
      | some box1 =>
        cases b2 with
        | none => subst h; exact absurd rfl hok
        | some box2 =>
          dsimp only at h
          by_cases hm : modFace = true
          · rw [if_pos hm] at h
            have k1 := linksKept_updateFacesById T
              [{ face_id := edge.face_right, mbr := some (G.gbox_merge box2 box1) }]
            generalize rtt_be_updateFacesById T
              [{ face_id := edge.face_right, mbr := some (G.gbox_merge box2 box1) }] = u
              at h k1
            by_cases c1 : u.2 = -1
            · rw [if_pos c1] at h; subst h; exact absurd rfl hok
            rw [if_neg c1] at h
            by_cases c2 : u.2 ≠ 1
            · rw [if_pos c2] at h; subst h; exact absurd rfl hok
            rw [if_neg c2] at h
            rw [remEdgeHeal_ok h hok]
            exact filter_linkView_congr _ k1.1
          · rw [if_neg hm] at h
            have k1 := linksKept_insertFaces T
              { face_id := -1, mbr := some (G.gbox_merge box2 box1) }
            generalize rtt_be_insertFaces T
              { face_id := -1, mbr := some (G.gbox_merge box2 box1) } = i at h k1
            by_cases c1 : i.2.2 = -1
            · rw [if_pos c1] at h; subst h; exact absurd rfl hok
            rw [if_neg c1] at h
            by_cases c2 : i.2.2 ≠ 1
            · rw [if_pos c2] at h; subst h; exact absurd rfl hok
            rw [if_neg c2] at h
            rw [remEdgeHeal_ok h hok]
            exact filter_linkView_congr _ k1.1

theorem remEdgeFlood_ok {G : GEOM} {T : RTT_TOPOLOGY} {edge : RTT_ISO_EDGE} {fn ln : Nat}
    {modFace : Bool} {R : RTT_TOPOLOGY × Int}
    (h : remEdgeFlood G T edge fn ln modFace = R) (hok : R.2 ≠ -1) :
    R.1.edges.map linkView =
      (T.edges.filter (fun e => !decide (e.edge_id = edge.edge_id))).map linkView := by
  unfold remEdgeFlood at h
  by_cases c1 : edge.face_left = edge.face_right
  · rw [if_pos c1] at h
    rw [remEdgeDelete_ok h hok]
  · rw [if_neg c1] at h
    by_cases c2 : edge.face_left = 0 ∨ edge.face_right = 0
    · rw [if_pos c2] at h
      exact remEdgeHeal_ok h hok
    · rw [if_neg c2] at h
      exact remEdgeMerge_ok h hok

/-- A successful linkage part of `_rtt_RemEdge` on a well-linked table leaves the edge
table of `remEdgeEdges`, up to face columns. -/
theorem remEdgeRelink_ok {G : GEOM} {T : RTT_TOPOLOGY} {edge : RTT_ISO_EDGE}
    {modFace : Bool} {R : RTT_TOPOLOGY × Int}
    (h : remEdgeRelink G T edge edge.edge_id modFace = R) (hok : R.2 ≠ -1)
    (hlink : RingLinked T.edges) (hedge : edge ∈ T.edges) :
    R.1.edges.map linkView = (remEdgeEdges T.edges edge).map linkView := by
  unfold remEdgeRelink at h
  cases hg : rtt_be_getEdgeByNode T
      (if edge.end_node ≠ edge.start_node then [edge.start_node, edge.end_node]
       else [edge.start_node]) with
  | none => rw [hg] at h; subst h; exact absurd rfl hok
  | some upd_edge =>
    rw [hg] at h
    dsimp only at h
    have hfetch := getEdgeByNode_some hg
    have hs : edge.start_node ∈ (if edge.end_node ≠ edge.start_node
        then [edge.start_node, edge.end_node] else [edge.start_node]) := by
      split_ifs <;> simp
    have ht : edge.end_node ∈ (if edge.end_node ≠ edge.start_node
        then [edge.start_node, edge.end_node] else [edge.start_node]) := by
      split_ifs with c
      · simp
      · simp [not_not.1 c]
    have hrows := remEdge_relink_rows hlink hedge _ hs ht
    rw [← hfetch] at hrows
    generalize upd_edge.filterMap (remEdgeLeftUpdate edge edge.edge_id) = rowsL at h hrows
    generalize upd_edge.filterMap (remEdgeRightUpdate edge edge.edge_id) = rowsR at h hrows
    -- first update
    have key : ∀ (X : RTT_TOPOLOGY) (rows : List RTT_ISO_EDGE) (flds : List RTT_COL_EDGE)
        (u : RTT_TOPOLOGY × Int),
        u = (if rows.length ≠ 0 then rtt_be_updateEdgesById X rows flds else (X, (0 : Int))) →
        ¬ (rows.length ≠ 0 ∧ u.2 = -1) →
        u.1.edges = rows.foldl (updateEdgeById flds) X.edges := by
      intro X rows flds u hu hne
      by_cases c : rows.length ≠ 0
      · rw [if_pos c] at hu
        have : u.2 ≠ -1 := fun h => hne ⟨c, h⟩
        have hu' : rtt_be_updateEdgesById X rows flds = (u.1, u.2) := hu.symm
        rw [updateEdgesById_ok hu' this]
      · rw [if_neg c] at hu
        have : rows = [] := List.length_eq_zero.1 (not_not.1 c)
        rw [hu, this]; rfl
    generalize hu1 : (if rowsL.length ≠ 0
      then rtt_be_updateEdgesById T rowsL [RTT_COL_EDGE.NEXT_LEFT]
      else (T, (0 : Int))) = u1 at h
    by_cases c1 : rowsL.length ≠ 0 ∧ u1.2 = -1
    · rw [if_pos c1] at h; subst h; exact absurd rfl hok
    rw [if_neg c1] at h
    have hU1 := key T rowsL _ u1 hu1.symm c1
    generalize hu2 : (if rowsR.length ≠ 0
      then rtt_be_updateEdgesById u1.1 rowsR [RTT_COL_EDGE.NEXT_RIGHT]
      else (u1.1, (0 : Int))) = u2 at h
    by_cases c2 : rowsR.length ≠ 0 ∧ u2.2 = -1
    · rw [if_pos c2] at h; subst h; exact absurd rfl hok
    rw [if_neg c2] at h
    have hU2 := key u1.1 rowsR _ u2 hu2.symm c2
    rw [hU1, hrows] at hU2
    rw [remEdgeFlood_ok h hok, hU2]
    rfl

/-- State form of the closure theorem for `_rtt_RemEdge`. -/
theorem rtt_RemEdge_ok {G : GEOM} {T : RTT_TOPOLOGY} {edge_id : Int} {modFace : Bool}
    {R : RTT_TOPOLOGY × Int}
    (h : _rtt_RemEdge G T edge_id modFace = R) (hok : R.2 ≠ -1)
    (hlink : RingLinked T.edges) :
    ∃ edge ∈ T.edges, edge.edge_id = edge_id ∧
      R.1.edges.map linkView = (remEdgeEdges T.edges edge).map linkView := by
  unfold _rtt_RemEdge at h
  cases hg : rtt_be_getEdgeById T [edge_id] with
  | none => rw [hg] at h; subst h; exact absurd rfl hok
  | some l =>
    rw [hg] at h
    cases l with
    | nil => subst h; exact absurd rfl hok
    | cons edge rest =>
      dsimp only at h
      have hrow := edgeRow_some (filter_id_head (getEdgeById_some hg).symm)
      by_cases c1 : rtt_be_hook T BeCall.checkTopoGeomRemEdge = 0
      · rw [if_pos c1] at h; subst h; exact absurd rfl hok
      rw [if_neg c1] at h
      rw [← hrow.2] at h
      exact ⟨edge, hrow.1, hrow.2, remEdgeRelink_ok h hok hlink hrow.1⟩

/-- Claim C4 (`rtt_RemEdgeModFace` with `modFace = true`, `rtt_RemEdgeNewFace` with
`modFace = false`): when the stored linkage is well formed (`next` is a bijection on the
signed ids and every successor leaves the node of arrival), after a successful
`_rtt_RemEdge(edge_id)` the edge rows are the former ones without `edge_id`, none of them
has `next_left` or `next_right` equal to `+edge_id` or `-edge_id`, and the linkage is
again well formed, so `next` is such a bijection on the remaining signed ids; a removed
edge that is dangling or a closed loop is included. -/
theorem rtt_RemEdge_ring_closure (G : GEOM) (T : RTT_TOPOLOGY) (edge_id : Int)
    (modFace : Bool) (hlink : RingLinked T.edges)
    (hok : (_rtt_RemEdge G T edge_id modFace).2 ≠ -1) :
    RingLinked (_rtt_RemEdge G T edge_id modFace).1.edges ∧
    NextBijection (_rtt_RemEdge G T edge_id modFace).1.edges ∧
    RingsClose (_rtt_RemEdge G T edge_id modFace).1.edges ∧
    (∀ e ∈ (_rtt_RemEdge G T edge_id modFace).1.edges,
      e.next_left ≠ edge_id ∧ e.next_left ≠ -edge_id ∧
      e.next_right ≠ edge_id ∧ e.next_right ≠ -edge_id) ∧
    (_rtt_RemEdge G T edge_id modFace).1.edges.map (fun e => e.edge_id) =
      (T.edges.map (fun e => e.edge_id)).filter (fun i => !decide (i = edge_id)) ∧
    edge_id ∈ T.edges.map (fun e => e.edge_id) := by
  obtain ⟨edge, hedge, hid, hv⟩ := rtt_RemEdge_ok rfl hok hlink
  subst hid
  obtain ⟨k1, k2⟩ := remEdgeEdges_ringLinked hlink hedge
  have hR := ringLinked_of_linkView hv k1
  refine ⟨hR, hR.nextBijection, hR.ringsClose, ?_, ?_, ?_⟩
  · intro e he
    have : linkView e ∈ (remEdgeEdges T.edges edge).map linkView := by
      rw [← hv]; exact List.mem_map_of_mem _ he
    obtain ⟨e0, he0, hvv⟩ := List.mem_map.1 this
    simp only [linkView, Prod.mk.injEq] at hvv
    have := k2 e0 he0
    rw [← hvv.2.2.2.1, ← hvv.2.2.2.2]
    exact this
  · have := congrArg (List.map (fun v : Int × Int × Int × Int × Int => v.1)) hv
    simp only [List.map_map] at this
    rw [← remEdgeEdges_ids]
    exact this
  · exact List.mem_map_of_mem _ hedge

theorem rtt_RemEdge_ring_closure_witness :
    RingLinked topoTwoSpokes.edges ∧
    (_rtt_RemEdge testKernel topoTwoSpokes 1 true).2 = 0 ∧
    RingLinked (_rtt_RemEdge testKernel topoTwoSpokes 1 true).1.edges ∧
    (_rtt_RemEdge testKernel topoTwoSpokes 1 true).1.edges.map (fun e => e.edge_id) = [2] :=
  have h := rtt_RemEdge_ring_closure testKernel topoTwoSpokes 1 true (by decide) (by decide)
  ⟨by decide, by decide, h.1, by decide⟩

end RTTopo

namespace RTTopo

/-! ## Healing two edges in the successor map -/

/-- Healing at a node where only the half-edges `a` and `b` arrive: replacing the four
half-edges `a`, `-a`, `b`, `-b` by `H` and `-H` in a bijective successor map gives a
bijective successor map. -/
theorem healNext_bijOn (S : Set Int) (hfin : S.Finite) (next : Int → Int)
    (hbij : Set.BijOn next S S) (a b H : Int)
    (ha : a ∈ S) (hb : b ∈ S) (hb' : -b ∈ S) (ha' : -a ∈ S)
    (ha0 : a ≠ 0) (hb0 : b ≠ 0) (hab : a ≠ b) (hab' : a ≠ -b) (hH0 : H ≠ 0)
    (hna : next a = -a ∨ next a = -b) (hnb : next b = -a ∨ next b = -b)
    (hH : H = a ∨ (H ∉ S ∧ -H ∉ S)) :
    Set.BijOn (healNext next a b H)
      {x | (x ∈ S ∧ x ≠ a ∧ x ≠ -a ∧ x ≠ b ∧ x ≠ -b) ∨ x = H ∨ x = -H}
      {x | (x ∈ S ∧ x ≠ a ∧ x ≠ -a ∧ x ≠ b ∧ x ≠ -b) ∨ x = H ∨ x = -H} := by
  have hinj : ∀ {x y : Int}, x ∈ S → y ∈ S → next x = next y → x = y :=
    fun hx hy h => hbij.injOn hx hy h
  have hnab : next a ≠ next b := fun e => hab (hinj ha hb e)
  -- a half-edge other than `a` and `b` is not followed by `-a` or `-b`
  have hout : ∀ q ∈ S, q ≠ a → q ≠ b → next q ≠ -a ∧ next q ≠ -b := by
    intro q hq qa qb
    constructor
    · intro e
      rcases hna with h1 | h1
      · exact qa (hinj hq ha (e.trans h1.symm))
      · rcases hnb with h2 | h2
        · exact qb (hinj hq hb (e.trans h2.symm))
        · exact hnab (h1.trans h2.symm)
    · intro e
      rcases hna with h1 | h1
      · rcases hnb with h2 | h2
        · exact hnab (h1.trans h2.symm)
        · exact qb (hinj hq hb (e.trans h2.symm))
      · exact qa (hinj hq ha (e.trans h1.symm))
  -- the other half-edges are neither `H` nor `-H`
  have hoth : ∀ x ∈ S, x ≠ a → x ≠ -a → x ≠ H ∧ x ≠ -H := by
    intro x hx x1 x2
    rcases hH with h | ⟨h1, h2⟩
    · rw [h]; exact ⟨x1, x2⟩
    · constructor
      · intro e; rw [e] at hx; exact h1 hx
      · intro e; rw [e] at hx; exact h2 hx
  -- what `healNext` reads is a half-edge other than `a` and `b`
  have hpre : ∀ x, ((x ∈ S ∧ x ≠ a ∧ x ≠ -a ∧ x ≠ b ∧ x ≠ -b) ∨ x = H ∨ x = -H) →
      (if x = H then -b else if x = -H then -a else x) ∈ S ∧
      (if x = H then -b else if x = -H then -a else x) ≠ a ∧
      (if x = H then -b else if x = -H then -a else x) ≠ b := by
    intro x hx
    by_cases c1 : x = H
    · rw [if_pos c1]
      exact ⟨hb', fun e => hab' e.symm, by omega⟩
    · rw [if_neg c1]
      by_cases c2 : x = -H
      · rw [if_pos c2]
        exact ⟨ha', by omega, by omega⟩
      · rw [if_neg c2]
        rcases hx with ⟨h1, h2, -, h3, -⟩ | h | h
        · exact ⟨h1, h2, h3⟩
        · exact absurd h c1
        · exact absurd h c2
  -- every half-edge other than `a` and `b` is read for some half-edge of the new set
  have hpost : ∀ q ∈ S, q ≠ a → q ≠ b →
      ∃ x, ((x ∈ S ∧ x ≠ a ∧ x ≠ -a ∧ x ≠ b ∧ x ≠ -b) ∨ x = H ∨ x = -H) ∧
        (if x = H then -b else if x = -H then -a else x) = q := by
    intro q hq qa qb
    by_cases c1 : q = -b
    · exact ⟨H, Or.inr (Or.inl rfl), by rw [if_pos rfl, c1]⟩
    · by_cases c2 : q = -a
      · refine ⟨-H, Or.inr (Or.inr rfl), ?_⟩
        rw [if_neg (by omega), if_pos rfl, c2]
      · obtain ⟨o1, o2⟩ := hoth q hq qa c2
        exact ⟨q, Or.inl ⟨hq, qa, c2, qb, c1⟩, by rw [if_neg o1, if_neg o2]⟩
  have hmaps : Set.MapsTo (healNext next a b H)
      {x | (x ∈ S ∧ x ≠ a ∧ x ≠ -a ∧ x ≠ b ∧ x ≠ -b) ∨ x = H ∨ x = -H}
      {x | (x ∈ S ∧ x ≠ a ∧ x ≠ -a ∧ x ≠ b ∧ x ≠ -b) ∨ x = H ∨ x = -H} := by
    intro x hx
    have hq : healNext next a b H x =
        (if next (if x = H then -b else if x = -H then -a else x) = b then -H
         else if next (if x = H then -b else if x = -H then -a else x) = a then H
         else next (if x = H then -b else if x = -H then -a else x)) := rfl
    rw [Set.mem_setOf_eq, hq]
    obtain ⟨p1', p2', p3'⟩ := hpre x hx
    obtain ⟨o1, o2⟩ := hout _ p1' p2' p3'
    by_cases c1 : next (if x = H then -b else if x = -H then -a else x) = b
    · rw [if_pos c1]; exact Or.inr (Or.inr rfl)
    · rw [if_neg c1]
      by_cases c2 : next (if x = H then -b else if x = -H then -a else x) = a
      · rw [if_pos c2]; exact Or.inr (Or.inl rfl)
      · rw [if_neg c2]
        exact Or.inl ⟨hbij.mapsTo p1', c2, o1, c1, o2⟩
  have hfin' : ({x | (x ∈ S ∧ x ≠ a ∧ x ≠ -a ∧ x ≠ b ∧ x ≠ -b) ∨ x = H ∨ x = -H} :
      Set Int).Finite := by
    refine (hfin.union (Set.toFinite {H, -H})).subset ?_
    intro x hx
    rcases hx with ⟨h, -⟩ | h | h
    · exact Or.inl h
    · exact Or.inr (Or.inl h)
    · exact Or.inr (Or.inr h)
  refine (Set.Finite.surjOn_iff_bijOn_of_mapsTo hfin' hmaps).1 ?_
  intro z hz
  -- the half-edge followed by `z`, or by what `z` replaces
  have hsrc : ∃ q ∈ S, q ≠ a ∧ q ≠ b ∧
      (if next q = b then -H else if next q = a then H else next q) = z := by
    rcases hz with ⟨z1, z2, z3, z4, z5⟩ | h | h
    · obtain ⟨q, hq, e⟩ := hbij.surjOn z1
      refine ⟨q, hq, ?_, ?_, ?_⟩
      · intro c; rw [c] at e; rcases hna with h1 | h1 <;> omega
      · intro c; rw [c] at e; rcases hnb with h1 | h1 <;> omega
      · rw [e, if_neg z4, if_neg z2]
    · obtain ⟨q, hq, e⟩ := hbij.surjOn ha
      refine ⟨q, hq, ?_, ?_, ?_⟩
      · intro c; rw [c] at e; rcases hna with h1 | h1 <;> omega
      · intro c; rw [c] at e; rcases hnb with h1 | h1 <;> omega
      · rw [e, if_neg hab, if_pos rfl, h]
    · obtain ⟨q, hq, e⟩ := hbij.surjOn hb
      refine ⟨q, hq, ?_, ?_, ?_⟩
      · intro c; rw [c] at e; rcases hna with h1 | h1 <;> omega
      · intro c; rw [c] at e; rcases hnb with h1 | h1 <;> omega
      · rw [e, if_pos rfl, h]
  obtain ⟨q, hq, qa, qb, hz'⟩ := hsrc
  obtain ⟨x, hx, hxq⟩ := hpost q hq qa qb
  refine ⟨x, hx, ?_⟩
  have hq' : healNext next a b H x =
      (if next (if x = H then -b else if x = -H then -a else x) = b then -H
       else if next (if x = H then -b else if x = -H then -a else x) = a then H
       else next (if x = H then -b else if x = -H then -a else x)) := rfl
  rw [hq', hxq]
  exact hz'

end RTTopo

namespace RTTopo

/-! ## Rows of the edge table written by `_rtt_HealEdges` -/

theorem healEdges_ids (es : List RTT_ISO_EDGE) (e1 e2 : RTT_ISO_EDGE) (newid : Int)
    (p : HealPlan) (modEdge : Bool) :
    (healEdges es e1 e2 newid p modEdge).map (fun e => e.edge_id) =
      (es.map (fun e => e.edge_id) ++ (if modEdge = true then [] else [newid])).filter
        (fun i => !decide (i = e2.edge_id) && (modEdge || !decide (i = e1.edge_id))) := by
  have hP : (fun e : RTT_ISO_EDGE => !decide (e.edge_id = e2.edge_id) &&
      (modEdge || !decide (e.edge_id = e1.edge_id))) =
      (fun i => !decide (i = e2.edge_id) && (modEdge || !decide (i = e1.edge_id))) ∘
        (fun e : RTT_ISO_EDGE => e.edge_id) := rfl
  have hR : (fun e : RTT_ISO_EDGE => e.edge_id) ∘ healRow e1.edge_id e2.edge_id newid p modEdge =
      fun e => e.edge_id := rfl
  unfold healEdges
  rw [hP, ← List.filter_map, List.map_map, hR]
  congr 1
  cases modEdge with
  | true =>
    rw [if_pos rfl, if_pos rfl, List.append_nil, List.map_map]
    apply List.map_congr_left
    intro e _
    show (if e.edge_id = newid then healStored e1 newid p else e).edge_id = e.edge_id
    by_cases c : e.edge_id = newid
    · rw [if_pos c, c]; rfl
    · rw [if_neg c]
  | false =>
    rw [if_neg (by decide), if_neg (by decide), List.map_append]
    rfl

theorem mem_healEdges {es : List RTT_ISO_EDGE} {e1 e2 : RTT_ISO_EDGE} {newid : Int}
    {p : HealPlan} {modEdge : Bool}
    (h1 : e1 ∈ es) (hne : e1.edge_id ≠ e2.edge_id)
    (hnew : (modEdge = true ∧ newid = e1.edge_id) ∨
      (modEdge = false ∧ newid ≠ e1.edge_id ∧ newid ≠ e2.edge_id))
    {e' : RTT_ISO_EDGE} :
    e' ∈ healEdges es e1 e2 newid p modEdge ↔
      (∃ e ∈ es, e.edge_id ≠ e1.edge_id ∧ e.edge_id ≠ e2.edge_id ∧
        e' = healRow e1.edge_id e2.edge_id newid p modEdge e) ∨
      e' = healRow e1.edge_id e2.edge_id newid p modEdge (healStored e1 newid p) := by
  unfold healEdges
  rcases hnew with ⟨hm, hid⟩ | ⟨hm, hid1, hid2⟩
  · subst hm
    rw [if_pos rfl]
    simp only [List.mem_filter, List.mem_map, Bool.true_or, Bool.and_true, Bool.not_eq_true',
      decide_eq_false_iff_not]
    constructor
    · rintro ⟨⟨x, ⟨e, he, rfl⟩, rfl⟩, hx⟩
      by_cases c : e.edge_id = newid
      · rw [if_pos c]; exact Or.inr rfl
      · rw [if_neg c] at hx ⊢
        exact Or.inl ⟨e, he, by rw [← hid]; exact c, hx, rfl⟩
    · rintro (⟨e, he, n1, n2, rfl⟩ | rfl)
      · refine ⟨⟨_, ⟨e, he, rfl⟩, ?_⟩, n2⟩
        rw [if_neg (by rw [hid]; exact n1)]
      · refine ⟨⟨_, ⟨e1, h1, rfl⟩, ?_⟩, ?_⟩
        · rw [if_pos hid.symm]
        · show newid ≠ e2.edge_id
          rw [hid]; exact hne
  · subst hm
    rw [if_neg (by decide)]
    simp only [List.mem_filter, List.mem_map, List.mem_append, List.mem_singleton,
      Bool.false_or, Bool.and_eq_true, Bool.not_eq_true', decide_eq_false_iff_not]
    constructor
    · rintro ⟨⟨x, (hx | rfl), rfl⟩, n2, n1⟩
      · exact Or.inl ⟨x, hx, n1, n2, rfl⟩
      · exact Or.inr rfl
    · rintro (⟨e, he, n1, n2, rfl⟩ | rfl)
      · exact ⟨⟨e, Or.inl he, rfl⟩, n2, n1⟩
      · exact ⟨⟨_, Or.inr rfl, rfl⟩, hid2, hid1⟩

theorem heal_fresh_arith {f n i : Int} (hf : f = 1 ∨ f = -1) (h1 : n ≠ i) (h2 : n ≠ -i) :
    -(f * n) ≠ f * i := by
  rcases hf with f | f <;> rw [f] <;> omega

/-- The two values written by the redirections, in terms of the half-edge `H` of the
healed edge that leaves the free node of the first edge. -/
theorem healValue_eq (eid1 eid2 newid : Int) (p : HealPlan) (modEdge : Bool)
    (hf1 : p.e1freenode = 1 ∨ p.e1freenode = -1) (hf2 : p.e2freenode = 1 ∨ p.e2freenode = -1)
    (hs : p.e2sign = -(p.e1freenode * p.e2freenode))
    (hnew : modEdge = true → newid = eid1)
    (hfr : modEdge = false → newid ≠ eid1 ∧ newid ≠ -eid1) (v : Int) :
    healValue eid1 eid2 newid p modEdge v =
      (if v = p.e2freenode * eid2 then -(p.e1freenode * newid)
       else if v = p.e1freenode * eid1 then p.e1freenode * newid else v) := by
  unfold healValue
  have e1 : p.e2freenode * newid * p.e2sign = -(p.e1freenode * newid) := by
    rw [hs]
    rcases hf1 with h | h <;> rcases hf2 with h' | h' <;> rw [h, h'] <;> ring
  rw [e1]
  cases modEdge with
  | true =>
    rw [if_neg (by simp)]
    by_cases c1 : v = p.e2freenode * eid2
    · rw [if_pos c1, if_pos c1]
    · rw [if_neg c1, if_neg c1]
      by_cases c2 : v = p.e1freenode * eid1
      · rw [if_pos c2, hnew rfl, c2]
      · rw [if_neg c2]
  | false =>
    by_cases c1 : v = p.e2freenode * eid2
    · simp only [if_pos c1]
      rw [if_neg (fun h => heal_fresh_arith hf1 (hfr rfl).1 (hfr rfl).2 h.2)]
    · simp only [if_neg c1]
      by_cases c2 : v = p.e1freenode * eid1
      · rw [if_pos ⟨trivial, c2⟩, if_pos c2]
      · rw [if_neg (fun h => c2 h.2), if_neg c2]

end RTTopo

namespace RTTopo

/-! ## The linkage after `_rtt_HealEdges` -/

/-- Facts about the half-edge of a stored edge selected by a sign `f`: with `f = 1` the
half-edge `+e` which arrives at the end node, with `f = -1` the half-edge `-e`. -/
theorem signed_half_facts {es : List RTT_ISO_EDGE} (hnd : (es.map (fun e => e.edge_id)).Nodup)
    {e : RTT_ISO_EDGE} (he : e ∈ es) (hp : 0 < e.edge_id) {f : Int} (hf : f = 1 ∨ f = -1) :
    (f * e.edge_id = e.edge_id ∨ f * e.edge_id = -e.edge_id) ∧
    f * e.edge_id ∈ signedIds es ∧ -(f * e.edge_id) ∈ signedIds es ∧
    arrivesNode es (f * e.edge_id) = (if f = 1 then e.end_node else e.start_node) ∧
    leavesNode es (f * e.edge_id) = (if f = 1 then e.start_node else e.end_node) ∧
    leavesNode es (-(f * e.edge_id)) = (if f = 1 then e.end_node else e.start_node) ∧
    arrivesNode es (-(f * e.edge_id)) = (if f = 1 then e.start_node else e.end_node) ∧
    nextEdge es (f * e.edge_id) = (if f = 1 then e.next_left else e.next_right) ∧
    nextEdge es (-(f * e.edge_id)) = (if f = 1 then e.next_right else e.next_left) := by
  have m1 : e.edge_id ∈ signedIds es := mem_signedIds.2 ⟨e, he, Or.inl rfl⟩
  have m2 : -e.edge_id ∈ signedIds es := mem_signedIds.2 ⟨e, he, Or.inr rfl⟩
  rcases hf with f1 | f1
  · subst f1
    rw [one_mul]
    simp only [if_true]
    exact ⟨Or.inl trivial, m1, m2, arrivesNode_pos hnd he hp, leavesNode_pos hnd he hp,
      leavesNode_neg hnd he hp, arrivesNode_neg hnd he hp, nextEdge_pos hnd he hp,
      nextEdge_neg hnd he hp⟩
  · subst f1
    have e1 : (-1 : Int) * e.edge_id = -e.edge_id := by ring
    have hq : ¬ ((-1 : Int) = 1) := by decide
    rw [e1, neg_neg]
    simp only [if_neg hq]
    exact ⟨Or.inr trivial, m2, m1, arrivesNode_neg hnd he hp, leavesNode_neg hnd he hp,
      leavesNode_pos hnd he hp, arrivesNode_pos hnd he hp, nextEdge_neg hnd he hp,
      nextEdge_pos hnd he hp⟩

theorem heal_distinct_arith {i j a b : Int} (pi : 0 < i) (pj : 0 < j) (hij : i ≠ j)
    (ha : a = i ∨ a = -i) (hb : b = j ∨ b = -j) :
    a ≠ b ∧ a ≠ -b ∧ a ≠ 0 ∧ b ≠ 0 := by omega

theorem heal_leave_arith {y g i j a b : Int} (hyg : y = g ∨ y = -g)
    (ha : a = i ∨ a = -i) (hb : b = j ∨ b = -j) (hya : y ≠ a) (hyb : y ≠ b)
    (e : g = i ∨ g = j) : y = -a ∨ y = -b := by omega

theorem heal_sign_arith {f n : Int} (hf : f = 1 ∨ f = -1) :
    (f = 1 ∧ f * n = n) ∨ (f = -1 ∧ f * n = -n) := by
  rcases hf with f | f <;> rw [f] <;> omega

theorem heal_other_arith {x g i : Int} (hx : x = g ∨ x = -g) (pg : 0 < g) (pi : 0 < i)
    (hgi : g ≠ i) : x ≠ i ∧ x ≠ -i := by omega

theorem heal_other_id_arith {x g i : Int} (hx : x = g ∨ x = -g) (h1 : x ≠ i) (h2 : x ≠ -i) :
    g ≠ i := by omega

theorem heal_signed_arith {x i a : Int} (ha : a = i ∨ a = -i) :
    (x ≠ i ∧ x ≠ -i ↔ x ≠ a ∧ x ≠ -a) ∧ (x = i ∨ x = -i ↔ x = a ∨ x = -a) := by omega

theorem heal_nonzero_arith {n H : Int} (hn : 0 < n) (hH : H = n ∨ H = -n) :
    H ≠ 0 ∧ H ≠ -H ∧ -H ≠ H := by omega

set_option maxHeartbeats 1000000 in
/-- Healing two stored edges at a node of degree two keeps the linkage well formed. -/
theorem healEdges_linked {es : List RTT_ISO_EDGE} (h : RingLinked es)
    {e1 e2 : RTT_ISO_EDGE} (h1 : e1 ∈ es) (h2 : e2 ∈ es) (hne : e1.edge_id ≠ e2.edge_id)
    (hc1 : e1.start_node ≠ e1.end_node) (hc2 : e2.start_node ≠ e2.end_node)
    {p : HealPlan} {c : Int}
    (hf1 : p.e1freenode = 1 ∨ p.e1freenode = -1) (hf2 : p.e2freenode = 1 ∨ p.e2freenode = -1)
    (hs : p.e2sign = -(p.e1freenode * p.e2freenode))
    (harr1 : (if p.e1freenode = 1 then e1.end_node else e1.start_node) = c)
    (harr2 : (if p.e2freenode = 1 then e2.end_node else e2.start_node) = c)
    (hstart : p.newedge.start_node =
      if p.e1freenode = 1 then e1.start_node
      else if p.e2freenode = 1 then e2.start_node else e2.end_node)
    (hend : p.newedge.end_node =
      if p.e1freenode = 1 then (if p.e2freenode = 1 then e2.start_node else e2.end_node)
      else e1.end_node)
    (hnl : p.newedge.next_left =
      if p.e1freenode = 1 then (if p.e2freenode = 1 then e2.next_right else e2.next_left)
      else e1.next_left)
    (hnr : p.newedge.next_right =
      if p.e1freenode = 1 then e1.next_right
      else if p.e2freenode = 1 then e2.next_right else e2.next_left)
    (honly : ∀ x ∈ es, (x.start_node = c ∨ x.end_node = c) →
      x.edge_id = e1.edge_id ∨ x.edge_id = e2.edge_id)
    {newid : Int} {modEdge : Bool}
    (hnew : (modEdge = true ∧ newid = e1.edge_id) ∨
      (modEdge = false ∧ ∀ x ∈ es, x.edge_id < newid)) :
    RingLinked (healEdges es e1 e2 newid p modEdge) ∧
    (∀ x, x ∈ signedIds (healEdges es e1 e2 newid p modEdge) ↔
      (x ∈ signedIds es ∧ x ≠ e1.edge_id ∧ x ≠ -e1.edge_id ∧ x ≠ e2.edge_id ∧
        x ≠ -e2.edge_id) ∨ x = newid ∨ x = -newid) ∧
    leavesNode (healEdges es e1 e2 newid p modEdge) (p.e1freenode * newid) =
      leavesNode es (p.e1freenode * e1.edge_id) ∧
    leavesNode (healEdges es e1 e2 newid p modEdge) (-(p.e1freenode * newid)) =
      leavesNode es (p.e2freenode * e2.edge_id) ∧
    (nextEdge es (p.e1freenode * e1.edge_id) = -(p.e1freenode * e1.edge_id) ∨
      nextEdge es (p.e1freenode * e1.edge_id) = -(p.e2freenode * e2.edge_id)) := by
  have NB := h.nextBijection
  obtain ⟨hpos, hnd, hcl, -⟩ := h
  have p1 : 0 < e1.edge_id := hpos e1 h1
  have p2 : 0 < e2.edge_id := hpos e2 h2
  have hnewpos : 0 < newid := by
    rcases hnew with ⟨-, e⟩ | ⟨-, e⟩
    · rw [e]; exact p1
    · exact lt_trans p1 (e e1 h1)
  have hfreshid : (modEdge = true ∧ newid = e1.edge_id) ∨
      (modEdge = false ∧ newid ≠ e1.edge_id ∧ newid ≠ e2.edge_id) := by
    rcases hnew with ⟨m, e⟩ | ⟨m, e⟩
    · exact Or.inl ⟨m, e⟩
    · exact Or.inr ⟨m, ne_of_gt (e e1 h1), ne_of_gt (e e2 h2)⟩
  have hmem : ∀ e', e' ∈ healEdges es e1 e2 newid p modEdge ↔
      (∃ e ∈ es, e.edge_id ≠ e1.edge_id ∧ e.edge_id ≠ e2.edge_id ∧
        e' = healRow e1.edge_id e2.edge_id newid p modEdge e) ∨
      e' = healRow e1.edge_id e2.edge_id newid p modEdge (healStored e1 newid p) :=
    fun e' => mem_healEdges h1 hne hfreshid
  have hvm : modEdge = true → newid = e1.edge_id := by
    intro m
    rcases hnew with ⟨-, e⟩ | ⟨m', -⟩
    · exact e
    · rw [m] at m'; exact absurd m' (by decide)
  have hvf : modEdge = false → newid ≠ e1.edge_id ∧ newid ≠ -e1.edge_id := by
    intro m
    rcases hnew with ⟨m', -⟩ | ⟨-, e⟩
    · rw [m] at m'; exact absurd m' (by decide)
    · exact ⟨ne_of_gt (e e1 h1), ne_of_gt (lt_trans (neg_lt_zero.2 p1) hnewpos)⟩
  have hv := healValue_eq e1.edge_id e2.edge_id newid p modEdge hf1 hf2 hs hvm hvf
  obtain ⟨A0, A1, A2, A3, A4, A5, A6, A7, A8⟩ := signed_half_facts hnd h1 p1 hf1
  obtain ⟨B0, B1, B2, B3, B4, B5, B6, B7, B8⟩ := signed_half_facts hnd h2 p2 hf2
  have hHf : (p.e1freenode = 1 ∧ p.e1freenode * newid = newid) ∨
      (p.e1freenode = -1 ∧ p.e1freenode * newid = -newid) := heal_sign_arith hf1
  have hHa : modEdge = true → p.e1freenode * newid = p.e1freenode * e1.edge_id := by
    intro m
    rcases hnew with ⟨-, e⟩ | ⟨m', -⟩
    · rw [e]
    · rw [m] at m'; exact absurd m' (by decide)
  rw [harr1] at A3 A5
  rw [harr2] at B3 B5
  -- name the three half-edges
  generalize p.e1freenode * e1.edge_id = a at *
  generalize p.e2freenode * e2.edge_id = b at *
  generalize p.e1freenode * newid = H at *
  have ha_free : leavesNode es a ≠ c := by
    rw [A4, ← harr1]
    by_cases f : p.e1freenode = 1
    · rw [if_pos f, if_pos f]; exact hc1
    · rw [if_neg f, if_neg f]; exact fun e => hc1 e.symm
  have hb_free : leavesNode es b ≠ c := by
    rw [B4, ← harr2]
    by_cases f : p.e2freenode = 1
    · rw [if_pos f, if_pos f]; exact hc2
    · rw [if_neg f, if_neg f]; exact fun e => hc2 e.symm
  obtain ⟨hab, hab', ha0, hb0⟩ := heal_distinct_arith p1 p2 hne A0 B0
  -- only `-a` and `-b` leave the common node
  have hleave : ∀ y ∈ signedIds es, leavesNode es y = c → y = -a ∨ y = -b := by
    intro y hy hl
    obtain ⟨g, hg, hyg⟩ := mem_signedIds.1 hy
    have pg := hpos g hg
    have hgc : g.start_node = c ∨ g.end_node = c := by
      rcases hyg with e | e
      · rw [e, leavesNode_pos hnd hg pg] at hl; exact Or.inl hl
      · rw [e, leavesNode_neg hnd hg pg] at hl; exact Or.inr hl
    have hya : y ≠ a := fun e => ha_free (by rw [← e]; exact hl)
    have hyb : y ≠ b := fun e => hb_free (by rw [← e]; exact hl)
    exact heal_leave_arith hyg A0 B0 hya hyb (honly g hg hgc)
  have hna : nextEdge es a = -a ∨ nextEdge es a = -b :=
    hleave _ (NB.1.mapsTo A1) (by rw [NB.2 a A1]; exact A3)
  have hnb : nextEdge es b = -a ∨ nextEdge es b = -b :=
    hleave _ (NB.1.mapsTo B1) (by rw [NB.2 b B1]; exact B3)
  -- the new table: ids
  have hpos' : ∀ e ∈ healEdges es e1 e2 newid p modEdge, 0 < e.edge_id := by
    intro e' he'
    rcases (hmem e').1 he' with ⟨e, he, -, -, rfl⟩ | rfl
    · exact hpos e he
    · exact hnewpos
  have hnd' : ((healEdges es e1 e2 newid p modEdge).map (fun e => e.edge_id)).Nodup := by
    rw [healEdges_ids]
    apply List.Nodup.filter
    rcases hnew with ⟨m, -⟩ | ⟨m, e⟩
    · rw [if_pos m, List.append_nil]; exact hnd
    · rw [if_neg (by rw [m]; decide)]
      refine List.Nodup.append hnd (List.nodup_singleton _) ?_
      intro x hx hx'
      rw [List.mem_singleton] at hx'
      obtain ⟨g, hg, rfl⟩ := List.mem_map.1 hx
      exact absurd hx' (ne_of_lt (e g hg))
  have hrm : healRow e1.edge_id e2.edge_id newid p modEdge (healStored e1 newid p) ∈
      healEdges es e1 e2 newid p modEdge := (hmem _).2 (Or.inr rfl)
  have hHn : H = newid ∨ H = -newid := by
    rcases hHf with ⟨-, e⟩ | ⟨-, e⟩
    · exact Or.inl e
    · exact Or.inr e
  obtain ⟨hH0, hHH, hHH'⟩ := heal_nonzero_arith hnewpos hHn
  -- stored ids other than the two healed ones differ from the healed id
  have hfr : ∀ g ∈ es, g.edge_id ≠ e1.edge_id → g.edge_id ≠ newid := by
    intro g hg n1
    rcases hnew with ⟨-, e⟩ | ⟨-, e⟩
    · rw [e]; exact n1
    · exact ne_of_lt (e g hg)
  have hsig : ∀ x, x ∈ signedIds (healEdges es e1 e2 newid p modEdge) ↔
      (x ∈ signedIds es ∧ x ≠ e1.edge_id ∧ x ≠ -e1.edge_id ∧ x ≠ e2.edge_id ∧
        x ≠ -e2.edge_id) ∨ x = newid ∨ x = -newid := by
    intro x
    rw [mem_signedIds, mem_signedIds]
    constructor
    · rintro ⟨e', he', hx⟩
      rcases (hmem e').1 he' with ⟨e, he, n1, n2, rfl⟩ | rfl
      · have hx' : x = e.edge_id ∨ x = -e.edge_id := hx
        obtain ⟨q1, q2⟩ := heal_other_arith hx' (hpos e he) p1 n1
        obtain ⟨q3, q4⟩ := heal_other_arith hx' (hpos e he) p2 n2
        exact Or.inl ⟨⟨e, he, hx'⟩, q1, q2, q3, q4⟩
      · exact Or.inr hx
    · rintro (⟨⟨e, he, hx⟩, q1, q2, q3, q4⟩ | hx)
      · exact ⟨_, (hmem _).2 (Or.inl ⟨e, he, heal_other_id_arith hx q1 q2,
          heal_other_id_arith hx q3 q4, rfl⟩), hx⟩
      · exact ⟨_, hrm, hx⟩
  have hsig' : ∀ x, x ∈ signedIds (healEdges es e1 e2 newid p modEdge) ↔
      (x ∈ signedIds es ∧ x ≠ a ∧ x ≠ -a ∧ x ≠ b ∧ x ≠ -b) ∨ x = H ∨ x = -H := by
    intro x
    rw [hsig x, ← (heal_signed_arith hHn).2, ← and_assoc (a := x ≠ a),
      ← (heal_signed_arith A0).1, ← (heal_signed_arith B0).1, and_assoc (a := x ≠ e1.edge_id)]
  -- an ordinary half-edge is neither `H` nor `-H`
  have hordH : ∀ x ∈ signedIds es, x ≠ a → x ≠ -a → x ≠ H ∧ x ≠ -H := by
    intro x hx xa xa'
    obtain ⟨g, hg, hxg⟩ := mem_signedIds.1 hx
    have n1 : g.edge_id ≠ e1.edge_id :=
      heal_other_id_arith hxg ((heal_signed_arith A0).1.2 ⟨xa, xa'⟩).1
        ((heal_signed_arith A0).1.2 ⟨xa, xa'⟩).2
    exact (heal_signed_arith hHn).1.1
      (heal_other_arith hxg (hpos g hg) hnewpos (hfr g hg n1))
  -- successor and end nodes of the half-edges of the new table
  have hall : ∀ x ∈ signedIds (healEdges es e1 e2 newid p modEdge),
      nextEdge (healEdges es e1 e2 newid p modEdge) x = healNext (nextEdge es) a b H x ∧
      leavesNode (healEdges es e1 e2 newid p modEdge) x =
        (if x = H then leavesNode es a else if x = -H then leavesNode es b
         else leavesNode es x) ∧
      arrivesNode (healEdges es e1 e2 newid p modEdge) x =
        (if x = H then leavesNode es b else if x = -H then leavesNode es a
         else arrivesNode es x) := by
    intro x hx
    have hN : ∀ z, healNext (nextEdge es) a b H z =
        (if nextEdge es (if z = H then -b else if z = -H then -a else z) = b then -H
         else if nextEdge es (if z = H then -b else if z = -H then -a else z) = a then H
         else nextEdge es (if z = H then -b else if z = -H then -a else z)) := fun _ => rfl
    rw [hN]
    rcases (hsig x).1 hx with ⟨hxS, q1, q2, q3, q4⟩ | hxn
    · obtain ⟨e, he, hxe⟩ := mem_signedIds.1 hxS
      have n1 : e.edge_id ≠ e1.edge_id := heal_other_id_arith hxe q1 q2
      have n2 : e.edge_id ≠ e2.edge_id := heal_other_id_arith hxe q3 q4
      have hp := hpos e he
      have hm : healRow e1.edge_id e2.edge_id newid p modEdge e ∈
          healEdges es e1 e2 newid p modEdge := (hmem _).2 (Or.inl ⟨e, he, n1, n2, rfl⟩)
      have hp' : 0 < (healRow e1.edge_id e2.edge_id newid p modEdge e).edge_id := hp
      obtain ⟨o1, o2⟩ := hordH x hxS ((heal_signed_arith A0).1.1 ⟨q1, q2⟩).1
        ((heal_signed_arith A0).1.1 ⟨q1, q2⟩).2
      rw [if_neg o1, if_neg o2, if_neg o1, if_neg o2, if_neg o1, if_neg o2]
      rcases hxe with rfl | rfl
      · have a1 := nextEdge_pos hnd' hm hp'
        have a3 := leavesNode_pos hnd' hm hp'
        have a5 := arrivesNode_pos hnd' hm hp'
        have he1 : (healRow e1.edge_id e2.edge_id newid p modEdge e).edge_id = e.edge_id := rfl
        rw [he1] at a1 a3 a5
        rw [a1, a3, a5, leavesNode_pos hnd he hp, arrivesNode_pos hnd he hp,
          nextEdge_pos hnd he hp]
        exact ⟨hv e.next_left, rfl, rfl⟩
      · have a1 := nextEdge_neg hnd' hm hp'
        have a3 := leavesNode_neg hnd' hm hp'
        have a5 := arrivesNode_neg hnd' hm hp'
        have he1 : (healRow e1.edge_id e2.edge_id newid p modEdge e).edge_id = e.edge_id := rfl
        rw [he1] at a1 a3 a5
        rw [a1, a3, a5, leavesNode_neg hnd he hp, arrivesNode_neg hnd he hp,
          nextEdge_neg hnd he hp]
        exact ⟨hv e.next_right, rfl, rfl⟩
    · have hp' : 0 < (healRow e1.edge_id e2.edge_id newid p modEdge
          (healStored e1 newid p)).edge_id := hnewpos
      have a1 := nextEdge_pos hnd' hrm hp'
      have a2 := nextEdge_neg hnd' hrm hp'
      have a3 := leavesNode_pos hnd' hrm hp'
      have a4 := leavesNode_neg hnd' hrm hp'
      have a5 := arrivesNode_pos hnd' hrm hp'
      have a6 := arrivesNode_neg hnd' hrm hp'
      have he1 : (healRow e1.edge_id e2.edge_id newid p modEdge
          (healStored e1 newid p)).edge_id = newid := rfl
      have r1 : (healRow e1.edge_id e2.edge_id newid p modEdge
          (healStored e1 newid p)).next_left =
          healValue e1.edge_id e2.edge_id newid p modEdge p.newedge.next_left := rfl
      have r2 : (healRow e1.edge_id e2.edge_id newid p modEdge
          (healStored e1 newid p)).next_right =
          healValue e1.edge_id e2.edge_id newid p modEdge p.newedge.next_right := rfl
      have r3 : (healRow e1.edge_id e2.edge_id newid p modEdge
          (healStored e1 newid p)).start_node = p.newedge.start_node := rfl
      have r4 : (healRow e1.edge_id e2.edge_id newid p modEdge
          (healStored e1 newid p)).end_node = p.newedge.end_node := rfl
      rw [he1, r1, hv] at a1
      rw [he1, r2, hv] at a2
      rw [he1, r3] at a3 a6
      rw [he1, r4] at a4 a5
      rcases hHf with ⟨f, hH⟩ | ⟨f, hH⟩
      · rw [hnl, if_pos f, ← B8] at a1
        rw [hnr, if_pos f] at a2
        rw [if_pos f] at A8 A4
        rw [← A8] at a2
        rw [hstart, if_pos f, ← A4] at a3 a6
        rw [hend, if_pos f, ← B4] at a4 a5
        rcases hxn with rfl | rfl
        · rw [← hH] at a1 a3 a5 ⊢
          simp only [if_true]
          exact ⟨a1, a3, a5⟩
        · rw [← hH] at a2 a4 a6 ⊢
          simp only [if_neg hHH', if_true]
          exact ⟨a2, a4, a6⟩
      · have f' : ¬ (p.e1freenode = 1) := by rw [f]; decide
        rw [hnl, if_neg f'] at a1
        rw [hnr, if_neg f', ← B8] at a2
        rw [if_neg f'] at A8 A4
        rw [← A8] at a1
        rw [hstart, if_neg f', ← B4] at a3 a6
        rw [hend, if_neg f', ← A4] at a4 a5
        have hn : newid = -H := by rw [hH, neg_neg]
        rcases hxn with rfl | rfl
        · rw [hn] at a1 a3 a5 ⊢
          simp only [if_neg hHH', if_true]
          exact ⟨a1, a3, a5⟩
        · rw [← hH] at a2 a4 a6 ⊢
          simp only [if_true]
          exact ⟨a2, a4, a6⟩
  have hset : {x | x ∈ signedIds (healEdges es e1 e2 newid p modEdge)} =
      {x | (x ∈ {x | x ∈ signedIds es} ∧ x ≠ a ∧ x ≠ -a ∧ x ≠ b ∧ x ≠ -b) ∨
        x = H ∨ x = -H} := by
    ext x
    exact hsig' x
  have hHS : H = a ∨ (H ∉ {x | x ∈ signedIds es} ∧ -H ∉ {x | x ∈ signedIds es}) := by
    rcases hnew with ⟨m, -⟩ | ⟨-, e⟩
    · exact Or.inl (hHa m)
    · right
      have key : ∀ x ∈ signedIds es, x ≠ H ∧ x ≠ -H := by
        intro x hx
        obtain ⟨g, hg, hxg⟩ := mem_signedIds.1 hx
        exact (heal_signed_arith hHn).1.1
          (heal_other_arith hxg (hpos g hg) hnewpos (ne_of_lt (e g hg)))
      exact ⟨fun hm => (key _ hm).1 rfl, fun hm => (key _ hm).2 rfl⟩
  have habs := healNext_bijOn {x | x ∈ signedIds es} (List.finite_toSet _) (nextEdge es)
    NB.1 a b H A1 B1 B2 A2 ha0 hb0 hab hab' hH0 hna hnb hHS
  have hbij : Set.BijOn (nextEdge (healEdges es e1 e2 newid p modEdge))
      {x | x ∈ signedIds (healEdges es e1 e2 newid p modEdge)}
      {x | x ∈ signedIds (healEdges es e1 e2 newid p modEdge)} := by
    rw [hset]
    refine habs.congr ?_
    intro x hx
    rw [← hset] at hx
    exact (hall x hx).1.symm
  -- what `healNext` reads for a half-edge of the new table
  have hpre : ∀ x ∈ signedIds (healEdges es e1 e2 newid p modEdge),
      (if x = H then -b else if x = -H then -a else x) ∈ signedIds es ∧
      (if x = H then -b else if x = -H then -a else x) ≠ a ∧
      (if x = H then -b else if x = -H then -a else x) ≠ b ∧
      arrivesNode es (if x = H then -b else if x = -H then -a else x) =
        (if x = H then leavesNode es b else if x = -H then leavesNode es a
         else arrivesNode es x) := by
    intro x hx
    by_cases c1 : x = H
    · rw [if_pos c1, if_pos c1, B6, B4]
      exact ⟨B2, fun e => hab' e.symm, fun e => hb0 (by omega), rfl⟩
    · rw [if_neg c1, if_neg c1]
      by_cases c2 : x = -H
      · rw [if_pos c2, if_pos c2, A6, A4]
        exact ⟨A2, fun e => ha0 (by omega), fun e => hab' (by omega), rfl⟩
      · rw [if_neg c2, if_neg c2]
        rcases (hsig' x).1 hx with ⟨q0, q1, -, q3, -⟩ | q | q
        · exact ⟨q0, q1, q3, rfl⟩
        · exact absurd q c1
        · exact absurd q c2
  have hnode : ∀ x ∈ signedIds (healEdges es e1 e2 newid p modEdge),
      leavesNode (healEdges es e1 e2 newid p modEdge)
        (nextEdge (healEdges es e1 e2 newid p modEdge) x) =
        arrivesNode (healEdges es e1 e2 newid p modEdge) x := by
    intro x hx
    have hnx : nextEdge (healEdges es e1 e2 newid p modEdge) x ∈
        signedIds (healEdges es e1 e2 newid p modEdge) := hbij.mapsTo hx
    obtain ⟨y1, y2, y3, y4⟩ := hpre x hx
    rw [(hall _ hnx).2.1, (hall x hx).1, (hall x hx).2.2, ← y4]
    have hN : healNext (nextEdge es) a b H x =
        (if nextEdge es (if x = H then -b else if x = -H then -a else x) = b then -H
         else if nextEdge es (if x = H then -b else if x = -H then -a else x) = a then H
         else nextEdge es (if x = H then -b else if x = -H then -a else x)) := rfl
    rw [hN]
    generalize (if x = H then -b else if x = -H then -a else x) = y at y1 y2 y3 ⊢
    have old := NB.2 y y1
    by_cases c1 : nextEdge es y = b
    · rw [if_pos c1, if_neg hHH', if_pos rfl, ← old, c1]
    · rw [if_neg c1]
      by_cases c2 : nextEdge es y = a
      · rw [if_pos c2, if_pos rfl, ← old, c2]
      · rw [if_neg c2]
        have hvS : nextEdge es y ∈ signedIds es := NB.1.mapsTo y1
        have hva' : nextEdge es y ≠ -a := by
          intro e
          rcases hna with k | k
          · exact y2 (NB.1.injOn y1 A1 (e.trans k.symm))
          · rcases hnb with k' | k'
            · exact y3 (NB.1.injOn y1 B1 (e.trans k'.symm))
            · exact hab (NB.1.injOn A1 B1 (k.trans k'.symm))
        obtain ⟨o1, o2⟩ := hordH _ hvS c2 hva'
        rw [if_neg o1, if_neg o2]
        exact old
  refine ⟨NextBijection.ringLinked hpos' hnd' ⟨hbij, hnode⟩, hsig, ?_, ?_, hna⟩
  · have := (hall H ((hsig' H).2 (Or.inr (Or.inl rfl)))).2.1
    rw [if_pos rfl] at this
    exact this
  · have := (hall (-H) ((hsig' (-H)).2 (Or.inr (Or.inr rfl)))).2.1
    rw [if_neg hHH', if_pos rfl] at this
    exact this

end RTTopo

namespace RTTopo

/-! ## Symbolic execution of `_rtt_HealEdges` -/

theorem healScanEdges_lost (eid1 eid2 : Int) (l : List RTT_ISO_EDGE) (s : HealScan)
    (h : s.commonnode = -1) : (healScanEdges eid1 eid2 l s).commonnode = -1 := by
  induction l generalizing s with
  | nil => exact h
  | cons x rest ih =>
    unfold healScanEdges
    rw [List.foldl_cons]
    apply ih
    by_cases c1 : x.edge_id = eid1
    · rw [if_pos c1]; exact h
    · rw [if_neg c1]
      by_cases c2 : x.edge_id = eid2
      · rw [if_pos c2]; exact h
      · rw [if_neg c2]

theorem healScanEdges_kept (eid1 eid2 : Int) (l : List RTT_ISO_EDGE) (s : HealScan)
    (h : (healScanEdges eid1 eid2 l s).commonnode ≠ -1) :
    healScanEdges eid1 eid2 l s = s ∧ ∀ x ∈ l, x.edge_id = eid1 ∨ x.edge_id = eid2 := by
  induction l generalizing s with
  | nil => exact ⟨rfl, fun x hx => absurd hx (List.not_mem_nil x)⟩
  | cons x rest ih =>
    have hstep : healScanEdges eid1 eid2 (x :: rest) s =
        healScanEdges eid1 eid2 rest
          (if x.edge_id = eid1 then s
           else if x.edge_id = eid2 then s
           else { s with commonnode := -1, other := true }) := rfl
    rw [hstep] at h ⊢
    by_cases c1 : x.edge_id = eid1
    · rw [if_pos c1] at h ⊢
      obtain ⟨i1, i2⟩ := ih s h
      refine ⟨i1, fun y hy => ?_⟩
      rcases List.mem_cons.1 hy with rfl | hy'
      · exact Or.inl c1
      · exact i2 y hy'
    · rw [if_neg c1] at h ⊢
      by_cases c2 : x.edge_id = eid2
      · rw [if_pos c2] at h ⊢
        obtain ⟨i1, i2⟩ := ih s h
        refine ⟨i1, fun y hy => ?_⟩
        rcases List.mem_cons.1 hy with rfl | hy'
        · exact Or.inr c2
        · exact i2 y hy'
      · rw [if_neg c2] at h
        exact absurd (healScanEdges_lost eid1 eid2 rest _ rfl) h

/-- A candidate common node that survives the check has no other edge connected. -/
theorem healCheckNode_ok {T : RTT_TOPOLOGY} {eid1 eid2 : Int} {s s' : HealScan}
    (h : healCheckNode T eid1 eid2 s = some s') (hc : s'.commonnode ≠ -1) :
    s' = s ∧ ∀ x ∈ T.edges, (x.start_node = s.commonnode ∨ x.end_node = s.commonnode) →
      x.edge_id = eid1 ∨ x.edge_id = eid2 := by
  unfold healCheckNode at h
  by_cases c : s.commonnode ≠ -1
  · rw [if_pos c] at h
    cases hg : rtt_be_getEdgeByNode T [s.commonnode] with
    | none => rw [hg] at h; exact absurd h (by simp)
    | some l =>
      rw [hg] at h
      have h' : healScanEdges eid1 eid2 l s = s' := Option.some.inj h
      rw [← h'] at hc ⊢
      obtain ⟨k1, k2⟩ := healScanEdges_kept eid1 eid2 l s hc
      refine ⟨k1, fun x hx hn => k2 x ?_⟩
      rw [getEdgeByNode_some hg]
      simp only [List.mem_filter, List.mem_singleton, Bool.or_eq_true, decide_eq_true_eq]
      exact ⟨hx, hn⟩
  · rw [if_neg c] at h
    have h' : s = s' := Option.some.inj h
    rw [← h'] at hc
    exact absurd hc c

/-- A common node found by `_rtt_HealEdges` is an end node of both edges and no other
edge is connected to it; `caseno` tells which end nodes meet. -/
theorem healCommon_ok {T : RTT_TOPOLOGY} {eid1 eid2 : Int} {e1 e2 : RTT_ISO_EDGE}
    {s : HealScan} (h : healCommon T eid1 eid2 e1 e2 = some s) (hc : s.commonnode ≠ -1) :
    ((s.caseno = 1 ∧ e1.end_node = s.commonnode ∧ e2.start_node = s.commonnode) ∨
     (s.caseno = 2 ∧ e1.end_node = s.commonnode ∧ e2.end_node = s.commonnode) ∨
     (s.caseno = 3 ∧ e1.start_node = s.commonnode ∧ e2.start_node = s.commonnode) ∨
     (s.caseno = 4 ∧ e1.start_node = s.commonnode ∧ e2.end_node = s.commonnode)) ∧
    ∀ x ∈ T.edges, (x.start_node = s.commonnode ∨ x.end_node = s.commonnode) →
      x.edge_id = eid1 ∨ x.edge_id = eid2 := by
  unfold healCommon at h
  generalize hs0 : (if e1.end_node = e2.start_node then
        ({ commonnode := e1.end_node, caseno := 1, other := false } : HealScan)
       else if e1.end_node = e2.end_node then
        { commonnode := e1.end_node, caseno := 2, other := false }
       else { commonnode := -1, caseno := 0, other := false }) = s0 at h
  cases h1 : healCheckNode T eid1 eid2 s0 with
  | none => rw [h1] at h; exact absurd h (by simp)
  | some s1 =>
    rw [h1] at h
    dsimp only at h
    by_cases c1 : s1.commonnode = -1
    · rw [if_pos c1] at h
      generalize hs2 : (if e1.start_node = e2.start_node then
          ({ s1 with commonnode := e1.start_node, caseno := 3 } : HealScan)
         else if e1.start_node = e2.end_node then
          { s1 with commonnode := e1.start_node, caseno := 4 }
         else s1) = s2 at h
      obtain ⟨k1, k2⟩ := healCheckNode_ok h hc
      subst k1
      refine ⟨?_, k2⟩
      by_cases d1 : e1.start_node = e2.start_node
      · rw [if_pos d1] at hs2
        subst hs2
        exact Or.inr (Or.inr (Or.inl ⟨rfl, rfl, d1.symm⟩))
      · rw [if_neg d1] at hs2
        by_cases d2 : e1.start_node = e2.end_node
        · rw [if_pos d2] at hs2
          subst hs2
          exact Or.inr (Or.inr (Or.inr ⟨rfl, rfl, d2.symm⟩))
        · rw [if_neg d2] at hs2
          subst hs2
          exact absurd c1 hc
    · rw [if_neg c1] at h
      have h' : s1 = s := Option.some.inj h
      subst h'
      obtain ⟨k1, k2⟩ := healCheckNode_ok h1 hc
      subst k1
      refine ⟨?_, k2⟩
      by_cases d1 : e1.end_node = e2.start_node
      · rw [if_pos d1] at hs0
        subst hs0
        exact Or.inl ⟨rfl, rfl, d1.symm⟩
      · rw [if_neg d1] at hs0
        by_cases d2 : e1.end_node = e2.end_node
        · rw [if_pos d2] at hs0
          subst hs0
          exact Or.inr (Or.inl ⟨rfl, rfl, d2.symm⟩)
        · rw [if_neg d2] at hs0
          subst hs0
          exact absurd rfl hc

theorem healScanEdges_all (eid1 eid2 : Int) (l : List RTT_ISO_EDGE) (s : HealScan)
    (h : ∀ x ∈ l, x.edge_id = eid1 ∨ x.edge_id = eid2) : healScanEdges eid1 eid2 l s = s := by
  induction l with
  | nil => rfl
  | cons x rest ih =>
    have hstep : healScanEdges eid1 eid2 (x :: rest) s =
        healScanEdges eid1 eid2 rest
          (if x.edge_id = eid1 then s
           else if x.edge_id = eid2 then s
           else { s with commonnode := -1, other := true }) := rfl
    rw [hstep]
    have hrest := ih (fun y hy => h y (List.mem_cons_of_mem _ hy))
    rcases h x (List.mem_cons_self _ _) with c | c
    · rw [if_pos c]; exact hrest
    · by_cases c1 : x.edge_id = eid1
      · rw [if_pos c1]; exact hrest
      · rw [if_neg c1, if_pos c]; exact hrest

/-- The end node of the first edge is tried first: when it is the start node of the second
edge and no other edge is connected to it, it is the common node (case 1). -/
theorem healCommon_first {T : RTT_TOPOLOGY} {eid1 eid2 : Int} {e1 e2 : RTT_ISO_EDGE}
    {s : HealScan} (h : healCommon T eid1 eid2 e1 e2 = some s)
    (hmeet : e1.end_node = e2.start_node) (hc : e1.end_node ≠ -1)
    (honly : ∀ x ∈ T.edges, (x.start_node = e1.end_node ∨ x.end_node = e1.end_node) →
      x.edge_id = eid1 ∨ x.edge_id = eid2) :
    s = { commonnode := e1.end_node, caseno := 1, other := false } := by
  unfold healCommon at h
  rw [if_pos hmeet] at h
  have hchk : healCheckNode T eid1 eid2
      { commonnode := e1.end_node, caseno := 1, other := false } =
      match rtt_be_getEdgeByNode T [e1.end_node] with
      | none => none
      | some node_edges => some (healScanEdges eid1 eid2 node_edges
          { commonnode := e1.end_node, caseno := 1, other := false }) := by
    unfold healCheckNode
    rw [if_pos (show ({ commonnode := e1.end_node, caseno := 1, other := false } :
      HealScan).commonnode ≠ -1 from hc)] <;> rfl
  rw [hchk] at h
  cases hg : rtt_be_getEdgeByNode T [e1.end_node] with
  | none => rw [hg] at h; exact absurd h (by simp)
  | some l =>
    rw [hg] at h
    dsimp only at h
    have hall : ∀ x ∈ l, x.edge_id = eid1 ∨ x.edge_id = eid2 := by
      intro x hx
      rw [getEdgeByNode_some hg] at hx
      simp only [List.mem_filter, List.mem_singleton, Bool.or_eq_true,
        decide_eq_true_eq] at hx
      exact honly x hx.1 hx.2
    rw [healScanEdges_all eid1 eid2 l _ hall] at h
    rw [if_neg hc] at h
    exact (Option.some.inj h).symm

/-- The rows found by the lookup loop of `_rtt_HealEdges`. -/
theorem healFind_ok {eid1 eid2 : Int} {l : List RTT_ISO_EDGE} {a b : Option RTT_ISO_EDGE}
    {e1 e2 : RTT_ISO_EDGE} (h : healFind eid1 eid2 l a b = .ok (some e1, some e2)) :
    (a = some e1 ∨ (e1 ∈ l ∧ e1.edge_id = eid1)) ∧
    (b = some e2 ∨ (e2 ∈ l ∧ e2.edge_id = eid2)) := by
  induction l generalizing a b with
  | nil =>
    unfold healFind at h
    simp only [Except.ok.injEq, Prod.mk.injEq] at h
    exact ⟨Or.inl h.1, Or.inl h.2⟩
  | cons x rest ih =>
    unfold healFind at h
    by_cases c1 : x.edge_id = eid1
    · rw [if_pos c1] at h
      cases a with
      | some v => exact absurd h (by simp)
      | none =>
        dsimp only at h
        obtain ⟨i1, i2⟩ := ih h
        constructor
        · rcases i1 with i | ⟨i, j⟩
          · have i' := Option.some.inj i
            subst i'
            exact Or.inr ⟨List.mem_cons_self _ _, c1⟩
          · exact Or.inr ⟨List.mem_cons_of_mem _ i, j⟩
        · rcases i2 with i | ⟨i, j⟩
          · exact Or.inl i
          · exact Or.inr ⟨List.mem_cons_of_mem _ i, j⟩
    · rw [if_neg c1] at h
      by_cases c2 : x.edge_id = eid2
      · rw [if_pos c2] at h
        cases b with
        | some v => exact absurd h (by simp)
        | none =>
          dsimp only at h
          obtain ⟨i1, i2⟩ := ih h
          constructor
          · rcases i1 with i | ⟨i, j⟩
            · exact Or.inl i
            · exact Or.inr ⟨List.mem_cons_of_mem _ i, j⟩
          · rcases i2 with i | ⟨i, j⟩
            · have i' := Option.some.inj i
              subst i'
              exact Or.inr ⟨List.mem_cons_self _ _, c2⟩
            · exact Or.inr ⟨List.mem_cons_of_mem _ i, j⟩
      · rw [if_neg c2] at h
        obtain ⟨i1, i2⟩ := ih h
        constructor
        · rcases i1 with i | ⟨i, j⟩
          · exact Or.inl i
          · exact Or.inr ⟨List.mem_cons_of_mem _ i, j⟩
        · rcases i2 with i | ⟨i, j⟩
          · exact Or.inl i
          · exact Or.inr ⟨List.mem_cons_of_mem _ i, j⟩

/-- What the `switch (caseno)` yields in each of the four cases, in terms of the signs
`e1freenode` and `e2freenode`. -/
theorem healPlan_facts {caseno c : Int} {e1 e2 : RTT_ISO_EDGE}
    (hcase : (caseno = 1 ∧ e1.end_node = c ∧ e2.start_node = c) ∨
     (caseno = 2 ∧ e1.end_node = c ∧ e2.end_node = c) ∨
     (caseno = 3 ∧ e1.start_node = c ∧ e2.start_node = c) ∨
     (caseno = 4 ∧ e1.start_node = c ∧ e2.end_node = c)) :
    ((healPlan caseno e1 e2).e1freenode = 1 ∨ (healPlan caseno e1 e2).e1freenode = -1) ∧
    ((healPlan caseno e1 e2).e2freenode = 1 ∨ (healPlan caseno e1 e2).e2freenode = -1) ∧
    (healPlan caseno e1 e2).e2sign =
      -((healPlan caseno e1 e2).e1freenode * (healPlan caseno e1 e2).e2freenode) ∧
    (if (healPlan caseno e1 e2).e1freenode = 1 then e1.end_node else e1.start_node) = c ∧
    (if (healPlan caseno e1 e2).e2freenode = 1 then e2.end_node else e2.start_node) = c ∧
    (healPlan caseno e1 e2).newedge.start_node =
      (if (healPlan caseno e1 e2).e1freenode = 1 then e1.start_node
       else if (healPlan caseno e1 e2).e2freenode = 1 then e2.start_node else e2.end_node) ∧
    (healPlan caseno e1 e2).newedge.end_node =
      (if (healPlan caseno e1 e2).e1freenode = 1 then
        (if (healPlan caseno e1 e2).e2freenode = 1 then e2.start_node else e2.end_node)
       else e1.end_node) ∧
    (healPlan caseno e1 e2).newedge.next_left =
      (if (healPlan caseno e1 e2).e1freenode = 1 then
        (if (healPlan caseno e1 e2).e2freenode = 1 then e2.next_right else e2.next_left)
       else e1.next_left) ∧
    (healPlan caseno e1 e2).newedge.next_right =
      (if (healPlan caseno e1 e2).e1freenode = 1 then e1.next_right
       else if (healPlan caseno e1 e2).e2freenode = 1 then e2.next_right
       else e2.next_left) := by
  rcases hcase with ⟨rfl, k1, k2⟩ | ⟨rfl, k1, k2⟩ | ⟨rfl, k1, k2⟩ | ⟨rfl, k1, k2⟩
  · exact ⟨Or.inl rfl, Or.inr rfl, rfl, k1, k2, rfl, rfl, rfl, rfl⟩
  · exact ⟨Or.inl rfl, Or.inl rfl, rfl, k1, k2, rfl, rfl, rfl, rfl⟩
  · exact ⟨Or.inr rfl, Or.inr rfl, rfl, k1, k2, rfl, rfl, rfl, rfl⟩
  · exact ⟨Or.inr rfl, Or.inl rfl, rfl, k1, k2, rfl, rfl, rfl, rfl⟩

end RTTopo

namespace RTTopo

/-! ## The state written by `_rtt_HealEdges` -/

/-- Effect of one pair of redirections on a row. -/
theorem healRelink_row (sel upd : Int) (e : RTT_ISO_EDGE) :
    updateEdgeRow { blankEdge with next_left := sel, next_right := sel }
        [RTT_COL_EDGE.NEXT_RIGHT]
        { blankEdge with next_left := upd, next_right := upd } [RTT_COL_EDGE.NEXT_RIGHT]
        blankEdge []
      (updateEdgeRow { blankEdge with next_left := sel } [RTT_COL_EDGE.NEXT_LEFT]
        { blankEdge with next_left := upd } [RTT_COL_EDGE.NEXT_LEFT] blankEdge [] e) =
      { e with
        next_left := if e.next_left = sel then upd else e.next_left
        next_right := if e.next_right = sel then upd else e.next_right } := by
  rcases e with ⟨id, sn, en, fl, fr, nl, nr, g⟩
  by_cases c1 : nl = sel <;> by_cases c2 : nr = sel <;>
    simp [updateEdgeRow, edgeSelected, edgeMatches, edgeAssign, c1, c2]

/-- A successful pair of redirections rewrites the two linkage columns and nothing else. -/
theorem healRelink_ok {T : RTT_TOPOLOGY} {sel upd : Int} {R : RTT_TOPOLOGY × Int}
    (h : healRelink T sel upd = R) (hok : R.2 ≠ -1) :
    R.1 = { T with edges := T.edges.map (fun e => { e with
        next_left := if e.next_left = sel then upd else e.next_left
        next_right := if e.next_right = sel then upd else e.next_right }) } := by
  unfold healRelink at h
  dsimp only at h
  rcases hl : rtt_be_updateEdges T { blankEdge with next_left := sel }
    [RTT_COL_EDGE.NEXT_LEFT] { blankEdge with next_left := upd } [RTT_COL_EDGE.NEXT_LEFT]
    blankEdge [] with ⟨T1, r1⟩
  rw [hl] at h
  dsimp only at h
  by_cases c1 : r1 = -1
  · rw [if_pos c1] at h; subst h; exact absurd rfl hok
  rw [if_neg c1] at h
  rcases hr : rtt_be_updateEdges T1 { blankEdge with next_left := sel, next_right := sel }
    [RTT_COL_EDGE.NEXT_RIGHT] { blankEdge with next_left := upd, next_right := upd }
    [RTT_COL_EDGE.NEXT_RIGHT] blankEdge [] with ⟨T2, r2⟩
  rw [hr] at h
  dsimp only at h
  by_cases c2 : r2 = -1
  · rw [if_pos c2] at h; subst h; exact absurd rfl hok
  rw [if_neg c2] at h
  subst h
  obtain ⟨k1, -⟩ := updateEdges_ok hl c1
  obtain ⟨k2, -⟩ := updateEdges_ok hr c2
  subst k1 k2
  dsimp only
  rw [List.map_map]
  congr 1
  apply List.map_congr_left
  intro e _
  exact healRelink_row sel upd e

/-- A successful store of the healed edge. -/
theorem healStore_ok {T T1 : RTT_TOPOLOGY} {e1 newedge : RTT_ISO_EDGE} {eid1 newid : Int}
    {modEdge : Bool} (h : healStore T e1 newedge eid1 modEdge = (T1, some newid)) :
    (modEdge = true ∧ newid = eid1 ∧
      T1 = { T with edges := T.edges.map (fun e =>
        if e.edge_id = eid1 then
          { e with
            next_left := newedge.next_left
            next_right := newedge.next_right
            start_node := newedge.start_node
            end_node := newedge.end_node
            geom := newedge.geom }
        else e) }) ∨
    (modEdge = false ∧ newid = T.edge_seq ∧
      T1 = { T with
        edges := T.edges ++ [{ newedge with
          edge_id := T.edge_seq
          face_left := e1.face_left
          face_right := e1.face_right }]
        edge_seq := T.edge_seq + 1 }) := by
  unfold healStore at h
  cases modEdge with
  | true =>
    rw [if_pos rfl] at h
    dsimp only at h
    rcases hu : rtt_be_updateEdgesById T [{ newedge with edge_id := eid1 }]
      [RTT_COL_EDGE.NEXT_LEFT, RTT_COL_EDGE.NEXT_RIGHT, RTT_COL_EDGE.START_NODE,
       RTT_COL_EDGE.END_NODE, RTT_COL_EDGE.GEOM] with ⟨T2, r⟩
    rw [hu] at h
    dsimp only at h
    by_cases c1 : r = -1
    · rw [if_pos c1] at h; simp at h
    rw [if_neg c1] at h
    by_cases c2 : r ≠ 1
    · rw [if_pos c2] at h; simp at h
    rw [if_neg c2] at h
    simp only [Prod.mk.injEq, Option.some.injEq] at h
    obtain ⟨k1, k2⟩ := h
    subst k1 k2
    have k := updateEdgesById_ok hu c1
    refine Or.inl ⟨rfl, rfl, ?_⟩
    rw [k]
    congr 1
  | false =>
    rw [if_neg (by decide)] at h
    dsimp only at h
    have hi : ∀ row : RTT_ISO_EDGE, row.edge_id = -1 → rtt_be_insertEdges T [row] =
        if BeCall.insertEdges ∈ T.failing then (T, [row], -1)
        else
          ({ T with
              edges := T.edges ++ [{ row with edge_id := T.edge_seq }]
              edge_seq := T.edge_seq + 1 },
           [{ row with edge_id := T.edge_seq }], 1) := by
      intro row hrow
      unfold rtt_be_insertEdges
      by_cases c : BeCall.insertEdges ∈ T.failing
      · rw [if_pos c, if_pos c]
      · rw [if_neg c, if_neg c]
        simp [insertEdgeRow, hrow]
    rw [hi _ rfl] at h
    by_cases c : BeCall.insertEdges ∈ T.failing
    · rw [if_pos c] at h; simp at h
    · rw [if_neg c] at h
      simp only [Prod.mk.injEq, Option.some.injEq] at h
      rw [if_neg (by decide), if_neg (by decide)] at h
      simp only [Prod.mk.injEq, Option.some.injEq, List.headD_cons] at h
      exact Or.inr ⟨rfl, h.2.symm, h.1.symm⟩

/-- A successful end of `_rtt_HealEdges` deletes the edge rows and the common node. -/
theorem healDelete_ok {T : RTT_TOPOLOGY} {e1 e2 : RTT_ISO_EDGE} {c newid : Int}
    {modEdge : Bool} {R : RTT_TOPOLOGY × Int}
    (h : healDelete T e1 e2 c newid modEdge = R) (hok : R.2 ≠ -1) :
    R.1 = { T with
      edges := T.edges.filter (fun e => !decide (e.edge_id = e2.edge_id) &&
        (modEdge || !decide (e.edge_id = e1.edge_id)))
      nodes := T.nodes.filter (fun n => !decide (n.node_id ∈ [c])) } ∧
    R.2 = (if modEdge = true then c else newid) := by
  unfold healDelete at h
  dsimp only at h
  rcases hd2 : rtt_be_deleteEdges T e2 [RTT_COL_EDGE.EDGE_ID] with ⟨T1, r1⟩
  rw [hd2] at h
  dsimp only at h
  by_cases c1 : r1 = -1
  · rw [if_pos c1] at h; subst h; exact absurd rfl hok
  rw [if_neg c1] at h
  have k1 := deleteEdges_ok hd2 c1
  rcases hd1 : (if modEdge = true then (T1, (0 : Int))
      else rtt_be_deleteEdges T1 e1 [RTT_COL_EDGE.EDGE_ID]) with ⟨T2, r2⟩
  rw [hd1] at h
  dsimp only at h
  by_cases c2 : r2 = -1
  · rw [if_pos c2] at h; subst h; exact absurd rfl hok
  rw [if_neg c2] at h
  rcases hn : rtt_be_deleteNodesById T2 [c] with ⟨T3, r3⟩
  rw [hn] at h
  dsimp only at h
  by_cases c3 : r3 = -1
  · rw [if_pos c3] at h; subst h; exact absurd rfl hok
  rw [if_neg c3] at h
  by_cases c4 : rtt_be_hook T3 BeCall.updateTopoGeomEdgeHeal = 0
  · rw [if_pos c4] at h; subst h; exact absurd rfl hok
  rw [if_neg c4] at h
  subst h
  refine ⟨?_, rfl⟩
  dsimp only
  rw [deleteNodesById_ok hn c3]
  have hT2 : T2 = { T with edges := T.edges.filter (fun e =>
      !decide (e.edge_id = e2.edge_id) && (modEdge || !decide (e.edge_id = e1.edge_id))) } := by
    cases modEdge with
    | true =>
      rw [if_pos rfl] at hd1
      simp only [Prod.mk.injEq] at hd1
      rw [← hd1.1, k1]
      congr 1
      apply List.filter_congr
      intro e _
      simp [edgeMatches]
    | false =>
      rw [if_neg (by decide)] at hd1
      rw [deleteEdges_ok hd1 c2, k1]
      dsimp only
      rw [List.filter_filter]
      congr 1
      apply List.filter_congr
      intro e _
      simp [edgeMatches, Bool.and_comm]
  rw [hT2]

theorem healRow_mod (eid1 eid2 newid : Int) (p : HealPlan) (e : RTT_ISO_EDGE) :
    healRow eid1 eid2 newid p true e =
      { e with
        next_left := if e.next_left = p.e2freenode * eid2 then p.e2freenode * newid * p.e2sign
          else e.next_left
        next_right := if e.next_right = p.e2freenode * eid2 then p.e2freenode * newid * p.e2sign
          else e.next_right } := by
  simp [healRow, healValue]

theorem healRow_new (eid1 eid2 newid : Int) (p : HealPlan) (e : RTT_ISO_EDGE) :
    healRow eid1 eid2 newid p false e =
      (fun e : RTT_ISO_EDGE => { e with
        next_left := if e.next_left = p.e1freenode * eid1 then p.e1freenode * newid
          else e.next_left
        next_right := if e.next_right = p.e1freenode * eid1 then p.e1freenode * newid
          else e.next_right })
      { e with
        next_left := if e.next_left = p.e2freenode * eid2 then p.e2freenode * newid * p.e2sign
          else e.next_left
        next_right := if e.next_right = p.e2freenode * eid2 then p.e2freenode * newid * p.e2sign
          else e.next_right } := by
  simp [healRow, healValue]

/-- The row written by the by-id update of `_rtt_HealEdges` is the stored healed edge. -/
theorem healStored_mod {es : List RTT_ISO_EDGE} (hnd : (es.map (fun e => e.edge_id)).Nodup)
    {e1 : RTT_ISO_EDGE} (h1 : e1 ∈ es) (p : HealPlan) :
    es.map (fun e =>
      if e.edge_id = e1.edge_id then
        { e with
          next_left := p.newedge.next_left
          next_right := p.newedge.next_right
          start_node := p.newedge.start_node
          end_node := p.newedge.end_node
          geom := p.newedge.geom }
      else e) =
    es.map (fun e => if e.edge_id = e1.edge_id then healStored e1 e1.edge_id p else e) := by
  apply List.map_congr_left
  intro e he
  by_cases c : e.edge_id = e1.edge_id
  · rw [if_pos c, if_pos c]
    have h2 := edgeRow_of_mem hnd he
    rw [c, edgeRow_of_mem hnd h1] at h2
    rw [← Option.some.inj h2]
    rfl
  · rw [if_neg c, if_neg c]

/-- A successful second half of `_rtt_HealEdges` writes the healed table, removes the
common node and touches nothing else. -/
theorem healApply_ok {T : RTT_TOPOLOGY} {e1 e2 : RTT_ISO_EDGE} {c : Int} {p : HealPlan}
    {modEdge : Bool} {R : RTT_TOPOLOGY × Int}
    (h : healApply T e1 e2 e1.edge_id e2.edge_id c p modEdge = R) (hok : R.2 ≠ -1)
    (hnd : (T.edges.map (fun e => e.edge_id)).Nodup) (h1 : e1 ∈ T.edges) :
    R.1 = { T with
      edges := healEdges T.edges e1 e2 (if modEdge = true then e1.edge_id else T.edge_seq)
        p modEdge
      nodes := T.nodes.filter (fun n => !decide (n.node_id ∈ [c]))
      edge_seq := if modEdge = true then T.edge_seq else T.edge_seq + 1 } ∧
    R.2 = (if modEdge = true then c else T.edge_seq) := by
  unfold healApply at h
  dsimp only at h
  rcases hs : healStore T e1 p.newedge e1.edge_id modEdge with ⟨T1, o⟩
  rw [hs] at h
  cases o with
  | none => dsimp only at h; subst h; exact absurd rfl hok
  | some newid =>
    dsimp only at h
    rcases ha : healRelink T1 (p.e2freenode * e2.edge_id)
      (p.e2freenode * newid * p.e2sign) with ⟨T2, r2⟩
    rw [ha] at h
    dsimp only at h
    by_cases c1 : r2 = -1
    · rw [if_pos c1] at h; subst h; exact absurd rfl hok
    rw [if_neg c1] at h
    have ka := healRelink_ok ha c1
    dsimp only at ka
    rcases hb : (if modEdge = true then (T2, (0 : Int))
      else healRelink T2 (p.e1freenode * e1.edge_id) (p.e1freenode * newid)) with ⟨T3, r3⟩
    rw [hb] at h
    dsimp only at h
    by_cases c2 : r3 = -1
    · rw [if_pos c2] at h; subst h; exact absurd rfl hok
    rw [if_neg c2] at h
    obtain ⟨kd, kr⟩ := healDelete_ok h hok
    rcases healStore_ok hs with ⟨m, hid, k1⟩ | ⟨m, hid, k1⟩
    · subst m
      rw [if_pos rfl] at hb kr ⊢
      simp only [Prod.mk.injEq] at hb
      obtain ⟨hb1, -⟩ := hb
      subst hb1 hid
      refine ⟨?_, kr⟩
      rw [kd, ka, k1]
      simp only [if_true]
      unfold healEdges
      rw [if_pos rfl, healStored_mod hnd h1 p]
      congr 2
    · subst m
      rw [if_neg (by decide)] at hb kr ⊢
      have kb := healRelink_ok hb c2
      dsimp only at kb
      subst hid
      refine ⟨?_, kr⟩
      rw [kd, kb, ka, k1]
      simp only [Bool.false_eq_true, if_false]
      unfold healEdges
      rw [if_neg (by decide), List.map_map]
      congr 2
      apply List.map_congr_left
      intro e _
      exact (healRow_new e1.edge_id e2.edge_id T.edge_seq p e).symm

end RTTopo

namespace RTTopo

/-! ## `_rtt_HealEdges` keeps the linkage well formed -/

/-- A successful `_rtt_HealEdges` found two distinct open stored edges meeting at a node
to which no other edge is connected, and wrote the healed table. -/
theorem rtt_HealEdges_ok {T : RTT_TOPOLOGY} {eid1 eid2 : Int} {modEdge : Bool}
    {R : RTT_TOPOLOGY × Int} (h : _rtt_HealEdges T eid1 eid2 modEdge = R) (hok : R.2 ≠ -1)
    (hnd : (T.edges.map (fun e => e.edge_id)).Nodup) :
    ∃ (e1 e2 : RTT_ISO_EDGE) (s : HealScan), e1 ∈ T.edges ∧ e2 ∈ T.edges ∧
      e1.edge_id = eid1 ∧ e2.edge_id = eid2 ∧
      eid1 ≠ eid2 ∧ e1.start_node ≠ e1.end_node ∧ e2.start_node ≠ e2.end_node ∧
      healCommon T eid1 eid2 e1 e2 = some s ∧ s.commonnode ≠ -1 ∧
      ((s.caseno = 1 ∧ e1.end_node = s.commonnode ∧ e2.start_node = s.commonnode) ∨
       (s.caseno = 2 ∧ e1.end_node = s.commonnode ∧ e2.end_node = s.commonnode) ∨
       (s.caseno = 3 ∧ e1.start_node = s.commonnode ∧ e2.start_node = s.commonnode) ∨
       (s.caseno = 4 ∧ e1.start_node = s.commonnode ∧ e2.end_node = s.commonnode)) ∧
      (∀ x ∈ T.edges, (x.start_node = s.commonnode ∨ x.end_node = s.commonnode) →
        x.edge_id = eid1 ∨ x.edge_id = eid2) ∧
      R.1 = { T with
        edges := healEdges T.edges e1 e2 (if modEdge = true then eid1 else T.edge_seq)
          (healPlan s.caseno e1 e2) modEdge
        nodes := T.nodes.filter (fun n => !decide (n.node_id ∈ [s.commonnode]))
        edge_seq := if modEdge = true then T.edge_seq else T.edge_seq + 1 } ∧
      R.2 = (if modEdge = true then s.commonnode else T.edge_seq) := by
  unfold _rtt_HealEdges at h
  by_cases c0 : eid1 = eid2
  · rw [if_pos c0] at h; subst h; exact absurd rfl hok
  rw [if_neg c0] at h
  cases hg : rtt_be_getEdgeById T [eid1, eid2] with
  | none => rw [hg] at h; dsimp only at h; subst h; exact absurd rfl hok
  | some l =>
    rw [hg] at h
    dsimp only at h
    have hl := getEdgeById_some hg
    rcases hf : healFind eid1 eid2 l none none with msg | ⟨o1, o2⟩
    · rw [hf] at h; dsimp only at h; subst h; exact absurd rfl hok
    rw [hf] at h
    cases o1 with
    | none => dsimp only at h; subst h; exact absurd rfl hok
    | some e1 =>
      cases o2 with
      | none => dsimp only at h; subst h; exact absurd rfl hok
      | some e2 =>
        dsimp only at h
        obtain ⟨f1, f2⟩ := healFind_ok hf
        have m1 : e1 ∈ l ∧ e1.edge_id = eid1 := by
          rcases f1 with f | f
          · exact absurd f (by simp)
          · exact f
        have m2 : e2 ∈ l ∧ e2.edge_id = eid2 := by
          rcases f2 with f | f
          · exact absurd f (by simp)
          · exact f
        have h1 : e1 ∈ T.edges := by
          have := m1.1; rw [hl] at this; exact List.mem_of_mem_filter this
        have h2 : e2 ∈ T.edges := by
          have := m2.1; rw [hl] at this; exact List.mem_of_mem_filter this
        unfold healFound at h
        by_cases c1 : e1.start_node = e1.end_node
        · rw [if_pos c1] at h; subst h; exact absurd rfl hok
        rw [if_neg c1] at h
        by_cases c2 : e2.start_node = e2.end_node
        · rw [if_pos c2] at h; subst h; exact absurd rfl hok
        rw [if_neg c2] at h
        cases hc : healCommon T eid1 eid2 e1 e2 with
        | none => rw [hc] at h; dsimp only at h; subst h; exact absurd rfl hok
        | some s =>
          rw [hc] at h
          dsimp only at h
          by_cases c3 : s.commonnode = -1
          · rw [if_pos c3] at h; subst h; exact absurd rfl hok
          rw [if_neg c3] at h
          by_cases c4 : rtt_be_hook T BeCall.checkTopoGeomRemNode = 0
          · rw [if_pos c4] at h; subst h; exact absurd rfl hok
          rw [if_neg c4] at h
          obtain ⟨hcase, honly⟩ := healCommon_ok hc c3
          have hval : s.caseno = 1 ∨ s.caseno = 2 ∨ s.caseno = 3 ∨ s.caseno = 4 := by
            rcases hcase with k | k | k | k
            · exact Or.inl k.1
            · exact Or.inr (Or.inl k.1)
            · exact Or.inr (Or.inr (Or.inl k.1))
            · exact Or.inr (Or.inr (Or.inr k.1))
          rw [if_pos hval] at h
          obtain ⟨i1, i2⟩ := m1
          obtain ⟨j1, j2⟩ := m2
          subst i2 j2
          obtain ⟨k1, k2⟩ := healApply_ok h hok hnd h1
          exact ⟨e1, e2, s, h1, h2, rfl, rfl, c0, c1, c2, hc, c3, hcase, honly, k1, k2⟩

end RTTopo

namespace RTTopo

/-! ## References to the free ends of the healed edges -/

theorem heal_free_arith {r i b : Int} (hi : 0 < i) (hr : r = i ∨ r = -i) (hb : b = i ∨ b = -i)
    (hne : r ≠ -b) : r = b := by omega

theorem heal_target_arith {H n : Int} (hH : H = n ∨ H = -n) :
    (H = n ∨ H = -n) ∧ (-H = n ∨ -H = -n) := by omega

set_option maxHeartbeats 1000000 in
/-- After a heal, a row that designated the free end of a removed edge designates the healed
edge, with the sign that leaves the same node. -/
theorem healEdges_redirect {es : List RTT_ISO_EDGE} (h : RingLinked es)
    {e1 e2 : RTT_ISO_EDGE} (h1 : e1 ∈ es) (h2 : e2 ∈ es) (hne : e1.edge_id ≠ e2.edge_id)
    (hc1 : e1.start_node ≠ e1.end_node) (hc2 : e2.start_node ≠ e2.end_node)
    {p : HealPlan} {c : Int}
    (hf1 : p.e1freenode = 1 ∨ p.e1freenode = -1) (hf2 : p.e2freenode = 1 ∨ p.e2freenode = -1)
    (hs : p.e2sign = -(p.e1freenode * p.e2freenode))
    (harr1 : (if p.e1freenode = 1 then e1.end_node else e1.start_node) = c)
    (harr2 : (if p.e2freenode = 1 then e2.end_node else e2.start_node) = c)
    (hstart : p.newedge.start_node =
      if p.e1freenode = 1 then e1.start_node
      else if p.e2freenode = 1 then e2.start_node else e2.end_node)
    (hend : p.newedge.end_node =
      if p.e1freenode = 1 then (if p.e2freenode = 1 then e2.start_node else e2.end_node)
      else e1.end_node)
    (hnl : p.newedge.next_left =
      if p.e1freenode = 1 then (if p.e2freenode = 1 then e2.next_right else e2.next_left)
      else e1.next_left)
    (hnr : p.newedge.next_right =
      if p.e1freenode = 1 then e1.next_right
      else if p.e2freenode = 1 then e2.next_right else e2.next_left)
    (honly : ∀ x ∈ es, (x.start_node = c ∨ x.end_node = c) →
      x.edge_id = e1.edge_id ∨ x.edge_id = e2.edge_id)
    {newid : Int} {modEdge : Bool}
    (hnew : (modEdge = true ∧ newid = e1.edge_id) ∨
      (modEdge = false ∧ ∀ x ∈ es, x.edge_id < newid)) :
    ∀ r, (r = e2.edge_id ∨ r = -e2.edge_id ∨
        (modEdge = false ∧ (r = e1.edge_id ∨ r = -e1.edge_id))) →
      leavesNode es r ≠ c →
      ∀ x ∈ es, x.edge_id ≠ e2.edge_id → (modEdge = false → x.edge_id ≠ e1.edge_id) →
      ∀ x' ∈ healEdges es e1 e2 newid p modEdge, x'.edge_id = x.edge_id →
        (x.next_left = r → (x'.next_left = newid ∨ x'.next_left = -newid) ∧
          leavesNode (healEdges es e1 e2 newid p modEdge) x'.next_left = leavesNode es r) ∧
        (x.next_right = r → (x'.next_right = newid ∨ x'.next_right = -newid) ∧
          leavesNode (healEdges es e1 e2 newid p modEdge) x'.next_right =
            leavesNode es r) := by
  obtain ⟨-, -, L1, L2, hna⟩ := healEdges_linked h h1 h2 hne hc1 hc2 hf1 hf2 hs harr1 harr2
    hstart hend hnl hnr honly hnew
  have hrow : ∀ {x y : RTT_ISO_EDGE}, x ∈ es → y ∈ es → x.edge_id = y.edge_id → x = y :=
    fun hx hy e => h.row_eq hx hy e
  obtain ⟨hpos, hnd, -, -⟩ := h
  have p1 : 0 < e1.edge_id := hpos e1 h1
  have p2 : 0 < e2.edge_id := hpos e2 h2
  have hnewpos : 0 < newid := by
    rcases hnew with ⟨-, e⟩ | ⟨-, e⟩
    · rw [e]; exact p1
    · exact lt_trans p1 (e e1 h1)
  have hfreshid : (modEdge = true ∧ newid = e1.edge_id) ∨
      (modEdge = false ∧ newid ≠ e1.edge_id ∧ newid ≠ e2.edge_id) := by
    rcases hnew with ⟨m, e⟩ | ⟨m, e⟩
    · exact Or.inl ⟨m, e⟩
    · exact Or.inr ⟨m, ne_of_gt (e e1 h1), ne_of_gt (e e2 h2)⟩
  have hmem : ∀ e', e' ∈ healEdges es e1 e2 newid p modEdge ↔
      (∃ e ∈ es, e.edge_id ≠ e1.edge_id ∧ e.edge_id ≠ e2.edge_id ∧
        e' = healRow e1.edge_id e2.edge_id newid p modEdge e) ∨
      e' = healRow e1.edge_id e2.edge_id newid p modEdge (healStored e1 newid p) :=
    fun e' => mem_healEdges h1 hne hfreshid
  have hvm : modEdge = true → newid = e1.edge_id := by
    intro m
    rcases hnew with ⟨-, e⟩ | ⟨m', -⟩
    · exact e
    · rw [m] at m'; exact absurd m' (by decide)
  have hvf : modEdge = false → newid ≠ e1.edge_id ∧ newid ≠ -e1.edge_id := by
    intro m
    rcases hnew with ⟨m', -⟩ | ⟨-, e⟩
    · rw [m] at m'; exact absurd m' (by decide)
    · exact ⟨ne_of_gt (e e1 h1), ne_of_gt (lt_trans (neg_lt_zero.2 p1) hnewpos)⟩
  have hv := healValue_eq e1.edge_id e2.edge_id newid p modEdge hf1 hf2 hs hvm hvf
  obtain ⟨A0, -, -, A3, -, A5, -, A7, A8⟩ := signed_half_facts hnd h1 p1 hf1
  obtain ⟨B0, -, -, -, -, B5, -, -, -⟩ := signed_half_facts hnd h2 p2 hf2
  have hHf : (p.e1freenode = 1 ∧ p.e1freenode * newid = newid) ∨
      (p.e1freenode = -1 ∧ p.e1freenode * newid = -newid) := heal_sign_arith hf1
  rw [harr1] at A5
  rw [harr2] at B5
  generalize p.e1freenode * e1.edge_id = a at *
  generalize p.e2freenode * e2.edge_id = b at *
  generalize p.e1freenode * newid = H at *
  have hHn : H = newid ∨ H = -newid := by
    rcases hHf with ⟨-, e⟩ | ⟨-, e⟩
    · exact Or.inl e
    · exact Or.inr e
  obtain ⟨hab, hab', ha0, hb0⟩ := heal_distinct_arith p1 p2 hne A0 B0
  have hnab : nextEdge es a ≠ b := by
    rcases hna with k | k <;> rw [k]
    · exact fun e => hab' (by rw [← e, neg_neg])
    · exact fun e => hb0 (by omega)
  -- the value written in place of a reference to a free end
  have key : ∀ r, (r = e2.edge_id ∨ r = -e2.edge_id ∨
        (modEdge = false ∧ (r = e1.edge_id ∨ r = -e1.edge_id))) →
      leavesNode es r ≠ c →
      (healValue e1.edge_id e2.edge_id newid p modEdge r = newid ∨
        healValue e1.edge_id e2.edge_id newid p modEdge r = -newid) ∧
      leavesNode (healEdges es e1 e2 newid p modEdge)
        (healValue e1.edge_id e2.edge_id newid p modEdge r) = leavesNode es r ∧
      (r = b ∨ (modEdge = false ∧ r = a)) := by
    intro r hr hl
    rw [hv]
    rcases hr with k | k | ⟨m, k⟩
    · have rb : r = b := heal_free_arith p2 (Or.inl k) B0 (fun e => hl (by rw [e]; exact B5))
      rw [if_pos rb, rb]
      exact ⟨(heal_target_arith hHn).2, L2, Or.inl rfl⟩
    · have rb : r = b := heal_free_arith p2 (Or.inr k) B0 (fun e => hl (by rw [e]; exact B5))
      rw [if_pos rb, rb]
      exact ⟨(heal_target_arith hHn).2, L2, Or.inl rfl⟩
    · have ra : r = a := heal_free_arith p1 k A0 (fun e => hl (by rw [e]; exact A5))
      rw [if_neg (by rw [ra]; exact hab), if_pos ra, ra]
      exact ⟨hHn, L1, Or.inr ⟨m, rfl⟩⟩
  intro r hr hl x hx n2 n1 x' hx' hid
  obtain ⟨k1, k2, k3⟩ := key r hr hl
  rcases (hmem x').1 hx' with ⟨e, he, -, -, rfl⟩ | rfl
  · have hex : e = x := hrow he hx hid
    subst hex
    constructor
    · intro e'
      have : (healRow e1.edge_id e2.edge_id newid p modEdge e).next_left =
          healValue e1.edge_id e2.edge_id newid p modEdge r := by rw [← e']; rfl
      rw [this]
      exact ⟨k1, k2⟩
    · intro e'
      have : (healRow e1.edge_id e2.edge_id newid p modEdge e).next_right =
          healValue e1.edge_id e2.edge_id newid p modEdge r := by rw [← e']; rfl
      rw [this]
      exact ⟨k1, k2⟩
  · -- the row is the healed edge: the update keeps the row of the first edge
    have hid' : newid = x.edge_id := hid
    rcases hnew with ⟨m, e⟩ | ⟨m, e⟩
    · have hx1 : x = e1 := hrow hx h1 (by rw [← hid', e])
      subst hx1
      have rb : r = b := by
        rcases k3 with k | ⟨m', -⟩
        · exact k
        · rw [m] at m'; exact absurd m' (by decide)
      have r1 : (healRow x.edge_id e2.edge_id newid p modEdge
          (healStored x newid p)).next_left =
          healValue x.edge_id e2.edge_id newid p modEdge p.newedge.next_left := rfl
      have r2 : (healRow x.edge_id e2.edge_id newid p modEdge
          (healStored x newid p)).next_right =
          healValue x.edge_id e2.edge_id newid p modEdge p.newedge.next_right := rfl
      rw [r1, r2]
      rcases hHf with ⟨f, -⟩ | ⟨f, -⟩
      · rw [if_pos f] at A7
        rw [hnr, if_pos f]
        constructor
        · intro e'
          rw [← A7, rb] at e'
          exact absurd e' hnab
        · intro e'
          rw [e']
          exact ⟨k1, k2⟩
      · have f' : ¬ (p.e1freenode = 1) := by rw [f]; decide
        rw [if_neg f'] at A7
        rw [hnl, if_neg f']
        constructor
        · intro e'
          rw [e']
          exact ⟨k1, k2⟩
        · intro e'
          rw [← A7, rb] at e'
          exact absurd e' hnab
    · exact absurd hid' (ne_of_gt (e x hx))

end RTTopo

namespace RTTopo

/-- C5: `rtt_ModEdgeHeal` / `rtt_NewEdgeHeal` leave no stale linkage. For a state with
well-formed linkage (`next` is a bijection on the stored signed edges and every successor
leaves the node of arrival; for `rtt_NewEdgeHeal` the id sequence is ahead of the stored
ids) and a successful `_rtt_HealEdges(eid1, eid2)`, in whichever of the four end-node cases:
the linkage is again well formed, no stored edge has `next_left` or `next_right` equal to
`±eid2` (nor `±eid1` for `rtt_NewEdgeHeal`), and every row that designated the free end of
a removed edge designates the healed edge with the sign that leaves the same node. -/
theorem rtt_HealEdges_no_stale_linkage (T : RTT_TOPOLOGY) (eid1 eid2 : Int) (modEdge : Bool)
    (hlink : RingLinked T.edges)
    (hfresh : modEdge = false → ∀ e ∈ T.edges, e.edge_id < T.edge_seq)
    (hok : (_rtt_HealEdges T eid1 eid2 modEdge).2 ≠ -1) :
    RingLinked (_rtt_HealEdges T eid1 eid2 modEdge).1.edges ∧
    NextBijection (_rtt_HealEdges T eid1 eid2 modEdge).1.edges ∧
    RingsClose (_rtt_HealEdges T eid1 eid2 modEdge).1.edges ∧
    (∀ x ∈ (_rtt_HealEdges T eid1 eid2 modEdge).1.edges,
      x.next_left ≠ eid2 ∧ x.next_left ≠ -eid2 ∧ x.next_right ≠ eid2 ∧ x.next_right ≠ -eid2) ∧
    (modEdge = false → ∀ x ∈ (_rtt_HealEdges T eid1 eid2 modEdge).1.edges,
      x.next_left ≠ eid1 ∧ x.next_left ≠ -eid1 ∧ x.next_right ≠ eid1 ∧ x.next_right ≠ -eid1) ∧
    ∃ c healed : Int,
      healed = (if modEdge = true then eid1 else T.edge_seq) ∧
      (_rtt_HealEdges T eid1 eid2 modEdge).2 = (if modEdge = true then c else healed) ∧
      (leavesNode T.edges eid1 = c ∨ arrivesNode T.edges eid1 = c) ∧
      (leavesNode T.edges eid2 = c ∨ arrivesNode T.edges eid2 = c) ∧
      (∃ row ∈ (_rtt_HealEdges T eid1 eid2 modEdge).1.edges, row.edge_id = healed) ∧
      ∀ r, (r = eid2 ∨ r = -eid2 ∨ (modEdge = false ∧ (r = eid1 ∨ r = -eid1))) →
        leavesNode T.edges r ≠ c →
        ∀ x ∈ T.edges, x.edge_id ≠ eid2 → (modEdge = false → x.edge_id ≠ eid1) →
        ∀ x' ∈ (_rtt_HealEdges T eid1 eid2 modEdge).1.edges, x'.edge_id = x.edge_id →
          (x.next_left = r → (x'.next_left = healed ∨ x'.next_left = -healed) ∧
            leavesNode (_rtt_HealEdges T eid1 eid2 modEdge).1.edges x'.next_left =
              leavesNode T.edges r) ∧
          (x.next_right = r → (x'.next_right = healed ∨ x'.next_right = -healed) ∧
            leavesNode (_rtt_HealEdges T eid1 eid2 modEdge).1.edges x'.next_right =
              leavesNode T.edges r) := by
  obtain ⟨e1, e2, s, h1, h2, i1, i2, hne, c1, c2, -, -, hcase, honly, hR, hret⟩ :=
    rtt_HealEdges_ok rfl hok hlink.2.1
  subst i1 i2
  obtain ⟨hf1, hf2, hs, harr1, harr2, hstart, hend, hnl, hnr⟩ := healPlan_facts hcase
  have hE : (_rtt_HealEdges T e1.edge_id e2.edge_id modEdge).1.edges =
      healEdges T.edges e1 e2 (if modEdge = true then e1.edge_id else T.edge_seq)
        (healPlan s.caseno e1 e2) modEdge := by rw [hR]
  have hnew : (modEdge = true ∧
        (if modEdge = true then e1.edge_id else T.edge_seq) = e1.edge_id) ∨
      (modEdge = false ∧
        ∀ x ∈ T.edges, x.edge_id < (if modEdge = true then e1.edge_id else T.edge_seq)) := by
    cases modEdge with
    | true => exact Or.inl ⟨rfl, rfl⟩
    | false => exact Or.inr ⟨rfl, hfresh rfl⟩
  have p1 : 0 < e1.edge_id := hlink.1 e1 h1
  have p2 : 0 < e2.edge_id := hlink.1 e2 h2
  have hnewpos : 0 < (if modEdge = true then e1.edge_id else T.edge_seq) := by
    cases modEdge with
    | true => exact p1
    | false => exact lt_trans p1 (hfresh rfl e1 h1)
  have hnew2 : (if modEdge = true then e1.edge_id else T.edge_seq) ≠ e2.edge_id := by
    cases modEdge with
    | true => exact hne
    | false => exact ne_of_gt (hfresh rfl e2 h2)
  have hnew1 : modEdge = false →
      (if modEdge = true then e1.edge_id else T.edge_seq) ≠ e1.edge_id := by
    intro m
    subst m
    exact ne_of_gt (hfresh rfl e1 h1)
  obtain ⟨hRL, hsig, -, -, -⟩ := healEdges_linked hlink h1 h2 hne c1 c2 hf1 hf2 hs harr1
    harr2 hstart hend hnl hnr honly hnew
  have hred := healEdges_redirect hlink h1 h2 hne c1 c2 hf1 hf2 hs harr1 harr2 hstart hend
    hnl hnr honly hnew
  rw [← hE] at hRL hsig hred
  have hnd := hlink.2.1
  have hret' : (_rtt_HealEdges T e1.edge_id e2.edge_id modEdge).2 =
      (if modEdge = true then s.commonnode
       else (if modEdge = true then e1.edge_id else T.edge_seq)) := by
    rw [hret]
    cases modEdge <;> rfl
  clear hret
  generalize (if modEdge = true then e1.edge_id else T.edge_seq) = newid at *
  generalize (_rtt_HealEdges T e1.edge_id e2.edge_id modEdge).1.edges = es' at *
  -- values of the new linkage are signed ids of the new table
  have hval : ∀ x ∈ es', ∀ v, (v = x.next_left ∨ v = x.next_right) →
      (v ≠ e2.edge_id ∧ v ≠ -e2.edge_id) ∧
      (modEdge = false → v ≠ e1.edge_id ∧ v ≠ -e1.edge_id) := by
    intro x hx v hv
    have hm : v ∈ signedIds es' := by
      rcases hv with k | k <;> rw [k]
      · exact (hRL.2.2.1 x hx).1
      · exact (hRL.2.2.1 x hx).2
    rcases (hsig v).1 hm with ⟨-, q1, q2, q3, q4⟩ | k
    · exact ⟨⟨q3, q4⟩, fun _ => ⟨q1, q2⟩⟩
    · exact ⟨heal_other_arith k hnewpos p2 hnew2,
        fun m => heal_other_arith k hnewpos p1 (hnew1 m)⟩
  refine ⟨hRL, hRL.nextBijection, hRL.ringsClose, ?_, ?_, s.commonnode, newid, rfl, hret',
    ?_, ?_, ?_, hred⟩
  · intro x hx
    exact ⟨(hval x hx _ (Or.inl rfl)).1.1, (hval x hx _ (Or.inl rfl)).1.2,
      (hval x hx _ (Or.inr rfl)).1.1, (hval x hx _ (Or.inr rfl)).1.2⟩
  · intro m x hx
    exact ⟨((hval x hx _ (Or.inl rfl)).2 m).1, ((hval x hx _ (Or.inl rfl)).2 m).2,
      ((hval x hx _ (Or.inr rfl)).2 m).1, ((hval x hx _ (Or.inr rfl)).2 m).2⟩
  · rw [leavesNode_pos hnd h1 p1, arrivesNode_pos hnd h1 p1]
    rcases hcase with k | k | k | k
    · exact Or.inr k.2.1
    · exact Or.inr k.2.1
    · exact Or.inl k.2.1
    · exact Or.inl k.2.1
  · rw [leavesNode_pos hnd h2 p2, arrivesNode_pos hnd h2 p2]
    rcases hcase with k | k | k | k
    · exact Or.inl k.2.2
    · exact Or.inr k.2.2
    · exact Or.inl k.2.2
    · exact Or.inr k.2.2
  · obtain ⟨row, hrow, hid⟩ := mem_signedIds.1 ((hsig newid).2 (Or.inr (Or.inl rfl)))
    refine ⟨row, hrow, ?_⟩
    have := hRL.1 row hrow
    omega

/-- C5 at work: healing the two spokes of `topoTwoSpokes` (case 3, both edges start at the
common node) into a new edge `3`. -/
theorem rtt_HealEdges_no_stale_linkage_witness :
    RingLinked topoTwoSpokes.edges ∧
    (∀ e ∈ topoTwoSpokes.edges, e.edge_id < topoTwoSpokes.edge_seq) ∧
    (rtt_NewEdgeHeal topoTwoSpokes 1 2).2 = 3 ∧
    RingLinked (_rtt_HealEdges topoTwoSpokes 1 2 false).1.edges ∧
    (∀ x ∈ (_rtt_HealEdges topoTwoSpokes 1 2 false).1.edges,
      x.next_left ≠ 2 ∧ x.next_left ≠ -2 ∧ x.next_right ≠ 2 ∧ x.next_right ≠ -2) ∧
    (∀ x ∈ (_rtt_HealEdges topoTwoSpokes 1 2 false).1.edges,
      x.next_left ≠ 1 ∧ x.next_left ≠ -1 ∧ x.next_right ≠ 1 ∧ x.next_right ≠ -1) :=
  have h := rtt_HealEdges_no_stale_linkage topoTwoSpokes 1 2 false (by decide)
    (fun _ => by decide) (by decide)
  ⟨by decide, by decide, by decide, h.1, h.2.2.2.1, h.2.2.2.2.1 rfl⟩

end RTTopo

namespace RTTopo

/-! ## Split then heal -/

theorem edge_row_ext {a b : RTT_ISO_EDGE} (h1 : a.edge_id = b.edge_id)
    (h2 : a.start_node = b.start_node) (h3 : a.end_node = b.end_node)
    (h4 : a.face_left = b.face_left) (h5 : a.face_right = b.face_right)
    (h6 : a.next_left = b.next_left) (h7 : a.next_right = b.next_right)
    (h8 : a.geom = b.geom) : a = b := by
  rcases a with ⟨a1, a2, a3, a4, a5, a6, a7, a8⟩
  rcases b with ⟨b1, b2, b3, b4, b5, b6, b7, b8⟩
  simp only at h1 h2 h3 h4 h5 h6 h7 h8
  subst h1 h2 h3 h4 h5 h6 h7 h8
  rfl

/-- The redirection of a case 1 heal in place: references to `-k` become `-e`. -/
theorem healValue_case_one (e k : Int) (a b : RTT_ISO_EDGE) (v : Int) :
    healValue e k e (healPlan 1 a b) true v = if v = -k then -e else v := by
  simp [healValue, healPlan]

theorem splitHeal_value_arith {v e k : Int} (hk : v ≠ -k) :
    (if (if v = -e then -k else v) = -k then -e else (if v = -e then -k else v)) = v := by
  by_cases c : v = -e
  · rw [if_pos c, if_pos rfl, c]
  · rw [if_neg c, if_neg hk]

theorem splitHeal_cond_arith {v e k : Int} (c : Prop) [Decidable c] (hk : v ≠ -k) :
    (if (if v = -e ∧ c then -k else v) = -k then -e else (if v = -e ∧ c then -k else v)) =
      v := by
  by_cases c1 : v = -e ∧ c
  · rw [if_pos c1, if_pos rfl, c1.1]
  · rw [if_neg c1, if_neg hk]

/-- What a case 1 heal in place does to a row written by `rtt_ModEdgeSplit`: the row is
as before the split, except that the split edge has the two halves as its vertices. -/
theorem splitHeal_row (old : RTT_ISO_EDGE) (k m : Int) (g0 g1 : RTLINE) (x : RTT_ISO_EDGE)
    (ho : 0 < old.edge_id) (hk : 0 < k) (hxk : x.edge_id ≠ k)
    (hxo : x.edge_id = old.edge_id → x = old)
    (hl : x.next_left ≠ -k) (hr : x.next_right ≠ -k) :
    healRow old.edge_id k old.edge_id
      (healPlan 1 (modEdgeSplitRow old k m g0 old) (modEdgeSplitNew old k m g1)) true
      (if (modEdgeSplitRow old k m g0 x).edge_id = old.edge_id then
        healStored (modEdgeSplitRow old k m g0 old) old.edge_id
          (healPlan 1 (modEdgeSplitRow old k m g0 old) (modEdgeSplitNew old k m g1))
       else modEdgeSplitRow old k m g0 x) =
    (if x.edge_id = old.edge_id then
      { x with geom := ptarray_append_ptarray g0 g1 } else x) := by
  obtain ⟨s1, s2, s3, s4, s5, s6, s7, s8⟩ := modEdgeSplitRow_spec old k m g0 x ho hk hxk
  rw [s1]
  by_cases c : x.edge_id = old.edge_id
  · have hx := hxo c
    subst hx
    rw [if_pos rfl, if_pos rfl]
    apply edge_row_ext
    · rfl
    · exact s2
    · rfl
    · exact s3
    · exact s4
    · show healValue x.edge_id k x.edge_id _ true
        (modEdgeSplitNew x k m g1).next_left = x.next_left
      rw [healValue_case_one]
      exact splitHeal_value_arith hl
    · show healValue x.edge_id k x.edge_id _ true
        (modEdgeSplitRow x k m g0 x).next_right = x.next_right
      rw [healValue_case_one, s7]
      exact splitHeal_cond_arith _ hr
    · show ptarray_append_ptarray (modEdgeSplitRow x k m g0 x).geom g1 = _
      rw [s8, if_pos rfl]
  · rw [if_neg c, if_neg c]
    apply edge_row_ext
    · exact s1
    · exact s2
    · show (modEdgeSplitRow old k m g0 x).end_node = x.end_node
      rw [s5, if_neg c]
    · exact s3
    · exact s4
    · show healValue old.edge_id k old.edge_id _ true
        (modEdgeSplitRow old k m g0 x).next_left = x.next_left
      rw [healValue_case_one, s6, if_neg c]
      exact splitHeal_cond_arith _ hl
    · show healValue old.edge_id k old.edge_id _ true
        (modEdgeSplitRow old k m g0 x).next_right = x.next_right
      rw [healValue_case_one, s7]
      exact splitHeal_cond_arith _ hr
    · show (modEdgeSplitRow old k m g0 x).geom = x.geom
      rw [s8, if_neg c]

/-- The edge table after a split followed by a case 1 heal in place. -/
theorem splitHeal_edges {es : List RTT_ISO_EDGE} (hlink : RingLinked es) {old : RTT_ISO_EDGE}
    (hold : old ∈ es) {k : Int} (hfresh : ∀ e ∈ es, e.edge_id < k) (m : Int)
    (g0 g1 : RTLINE) :
    healEdges (modEdgeSplitEdges es old k m g0 g1) (modEdgeSplitRow old k m g0 old)
      (modEdgeSplitNew old k m g1) old.edge_id
      (healPlan 1 (modEdgeSplitRow old k m g0 old) (modEdgeSplitNew old k m g1)) true =
    es.map (fun x => if x.edge_id = old.edge_id then
      { x with geom := ptarray_append_ptarray g0 g1 } else x) := by
  have ho := hlink.1 old hold
  have hko : old.edge_id ≠ k := ne_of_lt (hfresh old hold)
  have hk0 : 0 < k := lt_trans ho (hfresh old hold)
  have hK := modEdgeSplitRow_new old k m g0 g1 ho hk0 hko
  have hes : modEdgeSplitEdges es old k m g0 g1 =
      es.map (modEdgeSplitRow old k m g0) ++ [modEdgeSplitNew old k m g1] := by
    simp only [modEdgeSplitEdges, List.map_append, List.map_cons, List.map_nil, hK]
  have s1 : (modEdgeSplitRow old k m g0 old).edge_id = old.edge_id :=
    (modEdgeSplitRow_spec old k m g0 old ho hk0 hko).1
  have s2 : (modEdgeSplitNew old k m g1).edge_id = k := rfl
  unfold healEdges
  rw [if_pos rfl, hes, s1, s2, List.map_append, List.map_append, List.filter_append,
    List.map_map, List.map_map]
  have hnew : List.filter (fun e : RTT_ISO_EDGE => !decide (e.edge_id = k) &&
        (true || !decide (e.edge_id = old.edge_id)))
      (List.map (healRow old.edge_id k old.edge_id
        (healPlan 1 (modEdgeSplitRow old k m g0 old) (modEdgeSplitNew old k m g1)) true)
        (List.map (fun e => if e.edge_id = old.edge_id then
          healStored (modEdgeSplitRow old k m g0 old) old.edge_id
            (healPlan 1 (modEdgeSplitRow old k m g0 old) (modEdgeSplitNew old k m g1))
          else e) [modEdgeSplitNew old k m g1])) = [] := by
    have c : ¬ ((modEdgeSplitNew old k m g1).edge_id = old.edge_id) := fun e => hko e.symm
    simp only [List.map_cons, List.map_nil, if_neg c]
    rw [List.filter_cons_of_neg]
    · rfl
    · show ¬ ((!decide (k = k) && (true || !decide (k = old.edge_id))) = true)
      simp
  rw [hnew, List.append_nil]
  have hrows : ∀ x ∈ es,
      ((healRow old.edge_id k old.edge_id
        (healPlan 1 (modEdgeSplitRow old k m g0 old) (modEdgeSplitNew old k m g1)) true ∘
        (fun e => if e.edge_id = old.edge_id then
          healStored (modEdgeSplitRow old k m g0 old) old.edge_id
            (healPlan 1 (modEdgeSplitRow old k m g0 old) (modEdgeSplitNew old k m g1))
          else e)) ∘ modEdgeSplitRow old k m g0) x =
      (if x.edge_id = old.edge_id then
        { x with geom := ptarray_append_ptarray g0 g1 } else x) := by
    intro x hx
    obtain ⟨f1, f2, f3, f4, f5, f6⟩ := hlink.row_facts hx hfresh
    exact splitHeal_row old k m g0 g1 x ho hk0 (ne_of_lt f2)
      (fun e => hlink.row_eq hx hold e) (ne_of_gt f3) (ne_of_gt f5)
  rw [List.map_congr_left hrows]
  apply List.filter_eq_self.2
  intro y hy
  obtain ⟨x, hx, rfl⟩ := List.mem_map.1 hy
  have hxk : x.edge_id ≠ k := ne_of_lt (hfresh x hx)
  have hid : (if x.edge_id = old.edge_id then
      ({ x with geom := ptarray_append_ptarray g0 g1 } : RTT_ISO_EDGE) else x).edge_id =
      x.edge_id := by
    by_cases c : x.edge_id = old.edge_id
    · rw [if_pos c]
    · rw [if_neg c]
  rw [hid]
  simp [hxk]

end RTTopo

namespace RTTopo

/-- C6: split then heal is the identity on the rows. For a state with well-formed linkage
whose id sequences hand out unused ids, a successful `rtt_ModEdgeSplit(e, p)` creates node
`m` and edge `k`; a successful `rtt_ModEdgeHeal(e, k)` right after it returns `m`, removes
edge `k` and node `m`, and leaves every edge row as before the split except that the
vertices of `e` are the two halves appended, and every node row and face row as before. -/
theorem rtt_ModEdgeSplit_ModEdgeHeal_identity (G : GEOM) (T : RTT_TOPOLOGY) (edge : Int)
    (pt : POINT2D) (skipISOChecks : Bool)
    (hlink : RingLinked T.edges)
    (hfresh : ∀ e ∈ T.edges, e.edge_id < T.edge_seq)
    (hnodes : ∀ n ∈ T.nodes, n.node_id ≠ T.node_seq)
    (hends : ∀ e ∈ T.edges, e.start_node ≠ T.node_seq ∧ e.end_node ≠ T.node_seq)
    (hsplit : (rtt_ModEdgeSplit G T edge pt skipISOChecks).2 ≠ -1)
    (hheal : (rtt_ModEdgeHeal (rtt_ModEdgeSplit G T edge pt skipISOChecks).1 edge
      T.edge_seq).2 ≠ -1) :
    ∃ old col, edgeRow T.edges edge = some old ∧ G.split old.geom pt = some col ∧
      (∃ krow ∈ (rtt_ModEdgeSplit G T edge pt skipISOChecks).1.edges,
        krow.edge_id = T.edge_seq ∧
        krow.start_node = (rtt_ModEdgeSplit G T edge pt skipISOChecks).2 ∧
        krow.end_node = old.end_node) ∧
      (∃ n ∈ (rtt_ModEdgeSplit G T edge pt skipISOChecks).1.nodes,
        n.node_id = (rtt_ModEdgeSplit G T edge pt skipISOChecks).2) ∧
      (rtt_ModEdgeHeal (rtt_ModEdgeSplit G T edge pt skipISOChecks).1 edge T.edge_seq).2 =
        (rtt_ModEdgeSplit G T edge pt skipISOChecks).2 ∧
      (∀ x ∈ (rtt_ModEdgeHeal (rtt_ModEdgeSplit G T edge pt skipISOChecks).1 edge
        T.edge_seq).1.edges, x.edge_id ≠ T.edge_seq) ∧
      (∀ n ∈ (rtt_ModEdgeHeal (rtt_ModEdgeSplit G T edge pt skipISOChecks).1 edge
        T.edge_seq).1.nodes, n.node_id ≠ (rtt_ModEdgeSplit G T edge pt skipISOChecks).2) ∧
      (rtt_ModEdgeHeal (rtt_ModEdgeSplit G T edge pt skipISOChecks).1 edge T.edge_seq).1.edges =
        T.edges.map (fun x => if x.edge_id = edge then
          { x with geom := ptarray_append_ptarray (col.getD 0 []) (col.getD 1 []) }
          else x) ∧
      (rtt_ModEdgeHeal (rtt_ModEdgeSplit G T edge pt skipISOChecks).1 edge T.edge_seq).1.nodes =
        T.nodes ∧
      (rtt_ModEdgeHeal (rtt_ModEdgeSplit G T edge pt skipISOChecks).1 edge T.edge_seq).1.faces =
        T.faces := by
  obtain ⟨old, col, hrow, hsp, -, hns, -, hret, hE, hN, hF⟩ := rtt_ModEdgeSplit_ok rfl hsplit
  obtain ⟨hold, hid⟩ := edgeRow_some hrow
  subst hid
  have ho := hlink.1 old hold
  have hko : old.edge_id ≠ T.edge_seq := ne_of_lt (hfresh old hold)
  have hk0 : 0 < T.edge_seq := lt_trans ho (hfresh old hold)
  have hS := modEdgeSplitEdges_ringLinked T.node_seq (col.getD 0 []) (col.getD 1 []) hlink
    hold hfresh
  have hK := modEdgeSplitRow_new old T.edge_seq T.node_seq (col.getD 0 []) (col.getD 1 [])
    ho hk0 hko
  have hes : modEdgeSplitEdges T.edges old T.edge_seq T.node_seq (col.getD 0 [])
      (col.getD 1 []) =
      T.edges.map (modEdgeSplitRow old T.edge_seq T.node_seq (col.getD 0 [])) ++
        [modEdgeSplitNew old T.edge_seq T.node_seq (col.getD 1 [])] := by
    simp only [modEdgeSplitEdges, List.map_append, List.map_cons, List.map_nil, hK]
  have hedges := splitHeal_edges hlink hold hfresh T.node_seq (col.getD 0 []) (col.getD 1 [])
  obtain ⟨t1, -, -, -, t5, -, -, -⟩ := modEdgeSplitRow_spec old T.edge_seq T.node_seq
    (col.getD 0 []) old ho hk0 hko
  rw [if_pos rfl] at t5
  unfold rtt_ModEdgeHeal at hheal ⊢
  generalize rtt_ModEdgeSplit G T old.edge_id pt skipISOChecks = S at *
  rw [← hE] at hS hes hedges
  obtain ⟨e1, e2, s, h1, h2, i1, i2, -, -, -, hcom, -, -, -, hR, hret2⟩ :=
    rtt_HealEdges_ok rfl hheal hS.2.1
  have m1 : modEdgeSplitRow old T.edge_seq T.node_seq (col.getD 0 []) old ∈ S.1.edges := by
    rw [hes]
    exact List.mem_append_left _ (List.mem_map_of_mem _ hold)
  have m2 : modEdgeSplitNew old T.edge_seq T.node_seq (col.getD 1 []) ∈ S.1.edges := by
    rw [hes]
    exact List.mem_append_right _ (List.mem_singleton_self _)
  have he1 : e1 = modEdgeSplitRow old T.edge_seq T.node_seq (col.getD 0 []) old :=
    hS.row_eq h1 m1 (i1.trans t1.symm)
  have he2 : e2 = modEdgeSplitNew old T.edge_seq T.node_seq (col.getD 1 []) :=
    hS.row_eq h2 m2 i2
  subst he1 he2
  have honly : ∀ x ∈ S.1.edges,
      (x.start_node = (modEdgeSplitRow old T.edge_seq T.node_seq (col.getD 0 []) old).end_node ∨
       x.end_node = (modEdgeSplitRow old T.edge_seq T.node_seq (col.getD 0 []) old).end_node) →
      x.edge_id = old.edge_id ∨ x.edge_id = T.edge_seq := by
    intro x hx hxm
    rw [t5] at hxm
    rw [hes] at hx
    rcases List.mem_append.1 hx with hx' | hx'
    · obtain ⟨y, hy, rfl⟩ := List.mem_map.1 hx'
      obtain ⟨u1, u2, -, -, u5, -, -, -⟩ := modEdgeSplitRow_spec old T.edge_seq T.node_seq
        (col.getD 0 []) y ho hk0 (ne_of_lt (hfresh y hy))
      rw [u1]
      rw [u2, u5] at hxm
      by_cases c : y.edge_id = old.edge_id
      · exact Or.inl c
      · rw [if_neg c] at hxm
        rcases hxm with k | k
        · exact absurd k (hends y hy).1
        · exact absurd k (hends y hy).2
    · rw [List.mem_singleton.1 hx']
      exact Or.inr rfl
  have hs := healCommon_first hcom (by rw [t5]; rfl) (by rw [t5]; exact hns) honly
  subst hs
  rw [t5] at hR hret2
  rw [if_pos rfl] at hR hret2
  rw [hedges] at hR
  have hnodes' : S.1.nodes.filter (fun n => !decide (n.node_id ∈ [T.node_seq])) = T.nodes := by
    rw [hN, List.filter_append]
    have a1 : T.nodes.filter (fun n => !decide (n.node_id ∈ [T.node_seq])) = T.nodes := by
      apply List.filter_eq_self.2
      intro n hn
      simp [hnodes n hn]
    have a2 : List.filter (fun n : RTT_ISO_NODE => !decide (n.node_id ∈ [T.node_seq]))
        [{ node_id := T.node_seq, containing_face := -1, geom := pt }] = [] := by
      rw [List.filter_cons_of_neg]
      · rfl
      · simp
    rw [a1, a2, List.append_nil]
  rw [hnodes'] at hR
  refine ⟨old, col, hrow, hsp, ⟨_, m2, rfl, hret.symm, rfl⟩, ?_, ?_, ?_, ?_, ?_, ?_, ?_⟩
  · rw [hN, hret]
    exact ⟨_, List.mem_append_right _ (List.mem_singleton_self _), rfl⟩
  · rw [hret2, hret]
  · intro x hx
    rw [hR] at hx
    obtain ⟨y, hy, rfl⟩ := List.mem_map.1 hx
    have hyk : y.edge_id ≠ T.edge_seq := ne_of_lt (hfresh y hy)
    by_cases c : y.edge_id = old.edge_id
    · rw [if_pos c]; exact hyk
    · rw [if_neg c]; exact hyk
  · intro n hn
    rw [hR] at hn
    rw [hret]
    exact hnodes n hn
  · rw [hR]
  · rw [hR]
  · rw [hR]
    exact hF

/-- C6 at work: splitting the edge of `topoOneEdge` at `(5, 0)` and healing it again. -/
theorem rtt_ModEdgeSplit_ModEdgeHeal_identity_witness :
    RingLinked topoOneEdge.edges ∧
    (rtt_ModEdgeSplit testKernel topoOneEdge 1 { x := 5, y := 0 } false).2 = 3 ∧
    (rtt_ModEdgeHeal (rtt_ModEdgeSplit testKernel topoOneEdge 1 { x := 5, y := 0 } false).1 1
      2).2 = 3 ∧
    ∃ old col, edgeRow topoOneEdge.edges 1 = some old ∧
      testKernel.split old.geom { x := 5, y := 0 } = some col ∧
      (rtt_ModEdgeHeal (rtt_ModEdgeSplit testKernel topoOneEdge 1 { x := 5, y := 0 } false).1 1
        2).1.edges =
        topoOneEdge.edges.map (fun x => if x.edge_id = 1 then
          { x with geom := ptarray_append_ptarray (col.getD 0 []) (col.getD 1 []) }
          else x) ∧
      (rtt_ModEdgeHeal (rtt_ModEdgeSplit testKernel topoOneEdge 1 { x := 5, y := 0 } false).1 1
        2).1.nodes = topoOneEdge.nodes ∧
      (rtt_ModEdgeHeal (rtt_ModEdgeSplit testKernel topoOneEdge 1 { x := 5, y := 0 } false).1 1
        2).1.faces = topoOneEdge.faces :=
  have h := rtt_ModEdgeSplit_ModEdgeHeal_identity testKernel topoOneEdge 1 { x := 5, y := 0 }
    false (by decide) (by decide) (by decide) (by decide) (by decide) (by decide)
  ⟨by decide, by decide, by decide,
    h.choose, h.choose_spec.choose, h.choose_spec.choose_spec.1,
    h.choose_spec.choose_spec.2.1,
    h.choose_spec.choose_spec.2.2.2.2.2.2.2.1,
    h.choose_spec.choose_spec.2.2.2.2.2.2.2.2.1,
    h.choose_spec.choose_spec.2.2.2.2.2.2.2.2.2⟩

end RTTopo

namespace RTTopo

/-! ## Requests that leave the universe face alone -/

theorem universeUntouched_same (T : RTT_TOPOLOGY) : universeUntouched T T :=
  ⟨[], rfl, fun _ h => absurd h (List.not_mem_nil _)⟩

theorem universeUntouched_of_events {T T' : RTT_TOPOLOGY} (h : T'.events = T.events) :
    universeUntouched T T' :=
  ⟨[], h, fun _ h => absurd h (List.not_mem_nil _)⟩

theorem universeUntouched.followedBy {T T1 T2 : RTT_TOPOLOGY} (h1 : universeUntouched T T1)
    (h2 : universeUntouched T1 T2) : universeUntouched T T2 := by
  obtain ⟨n1, e1, b1⟩ := h1
  obtain ⟨n2, e2, b2⟩ := h2
  refine ⟨n2 ++ n1, by rw [e2, e1, List.append_assoc], ?_⟩
  intro ev hev
  rcases List.mem_append.1 hev with h | h
  · exact b2 ev h
  · exact b1 ev h

theorem universeUntouched_rterror {T T1 : RTT_TOPOLOGY} (msg : String)
    (h : universeUntouched T T1) : universeUntouched T (rterror T1 msg) := h

theorem uu_updateFacesById (T : RTT_TOPOLOGY) (rows : List RTT_ISO_FACE)
    (h : ∀ r ∈ rows, r.face_id ≠ 0) :
    universeUntouched T (rtt_be_updateFacesById T rows).1 := by
  have key : ∀ ev ∈ (rows.map (fun r => BeEvent.updateFace r.face_id)).reverse,
      benignEvent ev := by
    intro ev hev
    obtain ⟨r, hr, rfl⟩ := List.mem_map.1 (List.mem_reverse.1 hev)
    exact h r hr
  unfold rtt_be_updateFacesById
  dsimp only
  split_ifs
  · exact ⟨_, rfl, key⟩
  · exact ⟨_, rfl, key⟩

theorem uu_deleteFacesById (T : RTT_TOPOLOGY) (ids : List Int) (h : ∀ i ∈ ids, i ≠ 0) :
    universeUntouched T (rtt_be_deleteFacesById T ids).1 := by
  have key : ∀ ev ∈ (ids.map BeEvent.deleteFace).reverse, benignEvent ev := by
    intro ev hev
    obtain ⟨r, hr, rfl⟩ := List.mem_map.1 (List.mem_reverse.1 hev)
    exact h r hr
  unfold rtt_be_deleteFacesById
  dsimp only
  split_ifs
  · exact ⟨_, rfl, key⟩
  · exact ⟨_, rfl, key⟩

theorem uu_insertFaces (T : RTT_TOPOLOGY) (face : RTT_ISO_FACE) :
    universeUntouched T (rtt_be_insertFaces T face).1 := by
  unfold rtt_be_insertFaces
  dsimp only
  split_ifs
  · exact universeUntouched_same T
  · refine ⟨[_], rfl, ?_⟩
    intro ev hev
    rw [List.mem_singleton.1 hev]
    trivial
  · refine ⟨[_], rfl, ?_⟩
    intro ev hev
    rw [List.mem_singleton.1 hev]
    trivial

theorem uu_updateNodesById (T : RTT_TOPOLOGY) (rows : List RTT_ISO_NODE)
    (fields : List RTT_COL_NODE) :
    universeUntouched T (rtt_be_updateNodesById T rows fields).1 := by
  unfold rtt_be_updateNodesById
  split_ifs <;> exact universeUntouched_of_events rfl

theorem uu_updateNodes (T : RTT_TOPOLOGY) (sel upd exc : RTT_ISO_NODE)
    (sf uf ef : List RTT_COL_NODE) :
    universeUntouched T (rtt_be_updateNodes T sel sf upd uf exc ef).1 := by
  unfold rtt_be_updateNodes
  split_ifs <;> exact universeUntouched_of_events rfl

theorem uu_updateEdgesById (T : RTT_TOPOLOGY) (rows : List RTT_ISO_EDGE)
    (fields : List RTT_COL_EDGE) :
    universeUntouched T (rtt_be_updateEdgesById T rows fields).1 := by
  unfold rtt_be_updateEdgesById
  split_ifs <;> exact universeUntouched_of_events rfl

theorem uu_updateEdges (T : RTT_TOPOLOGY) (sel upd exc : RTT_ISO_EDGE)
    (sf uf ef : List RTT_COL_EDGE) :
    universeUntouched T (rtt_be_updateEdges T sel sf upd uf exc ef).1 := by
  unfold rtt_be_updateEdges
  split_ifs <;> exact universeUntouched_of_events rfl

theorem uu_deleteEdges (T : RTT_TOPOLOGY) (sel : RTT_ISO_EDGE) (sf : List RTT_COL_EDGE) :
    universeUntouched T (rtt_be_deleteEdges T sel sf).1 := by
  unfold rtt_be_deleteEdges
  split_ifs <;> exact universeUntouched_of_events rfl

theorem uu_getNextEdgeId (T : RTT_TOPOLOGY) :
    universeUntouched T (rtt_be_getNextEdgeId T).1 := by
  unfold rtt_be_getNextEdgeId
  split_ifs <;> exact universeUntouched_of_events rfl

theorem insertEdges_events (T : RTT_TOPOLOGY) (rows : List RTT_ISO_EDGE) :
    (rtt_be_insertEdges T rows).1.events = T.events := by
  have key : ∀ (l : List RTT_ISO_EDGE) (acc : RTT_TOPOLOGY × List RTT_ISO_EDGE),
      (l.foldl (fun (acc : RTT_TOPOLOGY × List RTT_ISO_EDGE) e =>
        ((insertEdgeRow acc.1 e).1, acc.2 ++ [(insertEdgeRow acc.1 e).2])) acc).1.events =
        acc.1.events := by
    intro l
    induction l with
    | nil => intro acc; rfl
    | cons x rest ih =>
      intro acc
      rw [List.foldl_cons, ih]
      unfold insertEdgeRow
      split_ifs <;> rfl
  unfold rtt_be_insertEdges
  split_ifs
  · rfl
  · exact key rows (T, [])

theorem uu_insertEdges (T : RTT_TOPOLOGY) (rows : List RTT_ISO_EDGE) :
    universeUntouched T (rtt_be_insertEdges T rows).1 :=
  universeUntouched_of_events (insertEdges_events T rows)

theorem uu_findAdjacentEdges (G : GEOM) (T : RTT_TOPOLOGY) (node : Int) (data : edgeend)
    (other : Option edgeend) (myedge_id : Int) :
    universeUntouched T (_rtt_FindAdjacentEdges G T node data other myedge_id).1 := by
  unfold _rtt_FindAdjacentEdges
  dsimp only
  split
  · exact universeUntouched_same T
  · split
    · exact universeUntouched_same T
    · split_ifs <;> exact universeUntouched_same T

theorem uu_checkEdgeCrossing (G : GEOM) (T : RTT_TOPOLOGY) (s t : Int) (g : RTLINE)
    (m : Int) : universeUntouched T (_rtt_CheckEdgeCrossing G T s t g m).1 := by
  unfold _rtt_CheckEdgeCrossing
  dsimp only
  repeat' split
  all_goals exact universeUntouched_same T

theorem uu_addEdgeEndpoints (start_node end_node : Int) (l : List RTT_ISO_NODE)
    (s : RTT_TOPOLOGY × EndpointScan) :
    universeUntouched s.1 (addEdgeEndpoints start_node end_node l s).1 := by
  have h := addEdgeEndpoints_state start_node end_node l s
  exact universeUntouched_of_events (by rw [h])

end RTTopo

namespace RTTopo

/-! ## `_rtt_AddFaceSplit` and `_rtt_AddEdge` leave the universe face alone -/

theorem uu_addFaceSplitNodes (G : GEOM) (T : RTT_TOPOLOGY) (shell : POINTARRAY)
    (face : Int) (newface : RTT_ISO_FACE) (outside : Bool) :
    universeUntouched T (addFaceSplitNodes G T shell face newface outside).1 := by
  unfold addFaceSplitNodes
  split
  · exact universeUntouched_same T
  · split_ifs
    · exact universeUntouched_same T
    · split
      · exact universeUntouched_same T
      · dsimp only
        split_ifs
        · exact universeUntouched_same T
        · exact uu_updateNodesById T _ _
        · exact uu_updateNodesById T _ _

theorem uu_addFaceSplitEdges (G : GEOM) (T : RTT_TOPOLOGY) (shell : POINTARRAY)
    (sids : List Int) (face : Int) (newface : RTT_ISO_FACE) (outside : Bool) :
    universeUntouched T (addFaceSplitEdges G T shell sids face newface outside).1 := by
  unfold addFaceSplitEdges
  split
  · exact universeUntouched_same T
  · split_ifs
    · exact universeUntouched_same T
    · exact uu_addFaceSplitNodes G T shell face newface outside
    · split
      · exact universeUntouched_same T
      · rename_i scan _
        dsimp only
        have hf : universeUntouched T (if scan.forward_edges.length = 0 then (T, (0 : Int))
            else rtt_be_updateEdgesById T scan.forward_edges [RTT_COL_EDGE.FACE_LEFT]).1 := by
          split_ifs
          · exact universeUntouched_same T
          · exact uu_updateEdgesById T _ _
        generalize (if scan.forward_edges.length = 0 then (T, (0 : Int))
            else rtt_be_updateEdgesById T scan.forward_edges [RTT_COL_EDGE.FACE_LEFT]) = f
          at hf ⊢
        have hb : universeUntouched T (if scan.backward_edges.length = 0 then (f.1, (0 : Int))
            else rtt_be_updateEdgesById f.1 scan.backward_edges
              [RTT_COL_EDGE.FACE_RIGHT]).1 := by
          split_ifs
          · exact hf
          · exact hf.followedBy (uu_updateEdgesById f.1 _ _)
        generalize (if scan.backward_edges.length = 0 then (f.1, (0 : Int))
            else rtt_be_updateEdgesById f.1 scan.backward_edges
              [RTT_COL_EDGE.FACE_RIGHT]) = b at hb ⊢
        split_ifs
        · exact hf
        · exact hf
        · exact hb
        · exact hb
        · exact hb.followedBy (uu_addFaceSplitNodes G b.1 shell face newface outside)

theorem uu_addFaceSplitMbr (G : GEOM) (T : RTT_TOPOLOGY) (face : Int) (pa : POINTARRAY)
    (hface : face ≠ 0) : universeUntouched T (addFaceSplitMbr G T face pa).1 := by
  have hrows : ∀ r ∈ [({ face_id := face, mbr := some (G.bbox pa) } : RTT_ISO_FACE)],
      r.face_id ≠ 0 := by
    intro r hr
    rw [List.mem_singleton.1 hr]
    exact hface
  unfold addFaceSplitMbr
  dsimp only
  split_ifs <;> first
    | exact universeUntouched_same T
    | exact uu_updateFacesById T _ hrows

theorem uu_addFaceSplitNew (G : GEOM) (T : RTT_TOPOLOGY) (face : Int)
    (sids : List Int) (pa : POINTARRAY) (hole : Bool) :
    universeUntouched T (addFaceSplitNew G T face sids pa hole).1 := by
  unfold addFaceSplitNew
  split
  · exact universeUntouched_same T
  · dsimp only
    split_ifs <;> first
      | exact universeUntouched_same T
      | exact uu_insertFaces T _
      | exact (uu_insertFaces T _).followedBy (uu_addFaceSplitEdges G _ _ _ _ _ _)

theorem uu_addFaceSplit (G : GEOM) (T : RTT_TOPOLOGY) (sedge face : Int)
    (mbr_only : Bool) : universeUntouched T (_rtt_AddFaceSplit G T sedge face mbr_only).1 := by
  unfold _rtt_AddFaceSplit
  split
  · exact universeUntouched_same T
  · exact universeUntouched_same T
  · split_ifs with h1 h2
    · exact universeUntouched_same T
    · exact uu_addFaceSplitMbr G T face _ h2.2
    · exact uu_addFaceSplitNew G T face _ _ _

theorem uu_addEdgeFinish (T : RTT_TOPOLOGY) (newedge : RTT_ISO_EDGE) (modFace : Bool) :
    universeUntouched T (addEdgeFinish T newedge modFace).1 := by
  unfold addEdgeFinish
  by_cases c : newedge.face_left ≠ 0
  · have hids : ∀ i ∈ [newedge.face_left], i ≠ 0 := by
      intro i hi
      rw [List.mem_singleton.1 hi]
      exact c
    rw [if_pos c]
    dsimp only
    split_ifs <;> first
      | exact universeUntouched_same T
      | exact uu_deleteFacesById T _ hids
  · rw [if_neg c]
    exact universeUntouched_same T

theorem uu_addEdgeFaceSplit (G : GEOM) (T : RTT_TOPOLOGY) (newedge : RTT_ISO_EDGE)
    (modFace : Bool) : universeUntouched T (addEdgeFaceSplit G T newedge modFace).1 := by
  unfold addEdgeFaceSplit
  by_cases m : modFace = false
  · rw [if_pos m]
    dsimp only
    have k1 := uu_addFaceSplit G T (-newedge.edge_id) newedge.face_left false
    generalize _rtt_AddFaceSplit G T (-newedge.edge_id) newedge.face_left false = r1 at k1 ⊢
    split_ifs
    · exact k1
    · have k2 := uu_addFaceSplit G r1.1 newedge.edge_id newedge.face_left false
      generalize _rtt_AddFaceSplit G r1.1 newedge.edge_id newedge.face_left false = r at k2 ⊢
      exact (k1.followedBy k2).followedBy (uu_addEdgeFinish r.1 newedge modFace)
  · rw [if_neg m]
    dsimp only
    have k1 := uu_addFaceSplit G T newedge.edge_id newedge.face_left false
    generalize _rtt_AddFaceSplit G T newedge.edge_id newedge.face_left false = r at k1 ⊢
    split_ifs
    · exact k1
    · have k2 := uu_addFaceSplit G r.1 (-newedge.edge_id) newedge.face_left false
      generalize _rtt_AddFaceSplit G r.1 (-newedge.edge_id) newedge.face_left false = r2
        at k2 ⊢
      exact k1.followedBy k2
    · have k2 := uu_addFaceSplit G r.1 (-newedge.edge_id) newedge.face_left false
      generalize _rtt_AddFaceSplit G r.1 (-newedge.edge_id) newedge.face_left false = r2
        at k2 ⊢
      exact (k1.followedBy k2).followedBy (uu_addEdgeFinish r2.1 newedge modFace)
    · have k2 := uu_addFaceSplit G r.1 (-newedge.edge_id) newedge.face_left true
      generalize _rtt_AddFaceSplit G r.1 (-newedge.edge_id) newedge.face_left true = r2
        at k2 ⊢
      exact (k1.followedBy k2).followedBy (uu_addEdgeFinish r2.1 newedge modFace)

theorem uu_addEdgeLinkPrev (T : RTT_TOPOLOGY) (prev target : Int) :
    universeUntouched T (addEdgeLinkPrev T prev target).1 := by
  unfold addEdgeLinkPrev
  split_ifs <;> exact uu_updateEdges T _ _ _ _ _ _

theorem uu_addEdgeInsert (G : GEOM) (T : RTT_TOPOLOGY) (newedge : RTT_ISO_EDGE)
    (pl pr : Int) (span epan : edgeend) (modFace : Bool) :
    universeUntouched T (addEdgeInsert G T newedge pl pr span epan modFace).1 := by
  unfold addEdgeInsert
  dsimp only
  have ki := uu_insertEdges T [newedge]
  generalize rtt_be_insertEdges T [newedge] = i at ki ⊢
  by_cases c1 : i.2.2 = -1
  · rw [if_pos c1]; exact ki
  rw [if_neg c1]
  by_cases c2 : i.2.2 = 0
  · rw [if_pos c2]; exact ki
  rw [if_neg c2]
  have ku1 : universeUntouched T (if llabs pl ≠ newedge.edge_id
      then addEdgeLinkPrev i.1 pl newedge.edge_id else (i.1, (0 : Int))).1 := by
    split_ifs
    · exact ki.followedBy (uu_addEdgeLinkPrev _ _ _)
    · exact ki
  generalize (if llabs pl ≠ newedge.edge_id
      then addEdgeLinkPrev i.1 pl newedge.edge_id else (i.1, (0 : Int))) = u1 at ku1 ⊢
  by_cases c3 : llabs pl ≠ newedge.edge_id ∧ u1.2 = -1
  · rw [if_pos c3]; exact ku1
  rw [if_neg c3]
  have ku2 : universeUntouched T (if llabs pr ≠ newedge.edge_id
      then addEdgeLinkPrev u1.1 pr (-newedge.edge_id) else (u1.1, (0 : Int))).1 := by
    split_ifs
    · exact ku1.followedBy (uu_addEdgeLinkPrev _ _ _)
    · exact ku1
  generalize (if llabs pr ≠ newedge.edge_id
      then addEdgeLinkPrev u1.1 pr (-newedge.edge_id) else (u1.1, (0 : Int))) = u2 at ku2 ⊢
  by_cases c4 : llabs pr ≠ newedge.edge_id ∧ u2.2 = -1
  · rw [if_pos c4]; exact ku2
  rw [if_neg c4]
  have kn1 : universeUntouched T (if span.was_isolated ≠ 0
      then addEdgeClearNode u2.1 newedge.start_node else (u2.1, (0 : Int))).1 := by
    split_ifs
    · exact ku2.followedBy (uu_updateNodes _ _ _ _ _ _ _)
    · exact ku2
  generalize (if span.was_isolated ≠ 0
      then addEdgeClearNode u2.1 newedge.start_node else (u2.1, (0 : Int))) = n1 at kn1 ⊢
  by_cases c5 : span.was_isolated ≠ 0 ∧ n1.2 = -1
  · rw [if_pos c5]; exact kn1
  rw [if_neg c5]
  have kn2 : universeUntouched T (if epan.was_isolated ≠ 0
      then addEdgeClearNode n1.1 newedge.end_node else (n1.1, (0 : Int))).1 := by
    split_ifs
    · exact kn1.followedBy (uu_updateNodes _ _ _ _ _ _ _)
    · exact kn1
  generalize (if epan.was_isolated ≠ 0
      then addEdgeClearNode n1.1 newedge.end_node else (n1.1, (0 : Int))) = n2 at kn2 ⊢
  by_cases c6 : epan.was_isolated ≠ 0 ∧ n2.2 = -1
  · rw [if_pos c6]; exact kn2
  rw [if_neg c6]
  exact kn2.followedBy (uu_addEdgeFaceSplit G n2.1 newedge modFace)

theorem uu_addEdgeLinkEnd (G : GEOM) (T : RTT_TOPOLOGY) (newedge : RTT_ISO_EDGE)
    (pl : Int) (span epan : edgeend) (modFace : Bool) :
    universeUntouched T (addEdgeLinkEnd G T newedge pl span epan modFace).1 := by
  unfold addEdgeLinkEnd
  dsimp only
  have kb := uu_findAdjacentEdges G T newedge.end_node epan
    (if newedge.start_node = newedge.end_node then some span else none) (-1)
  generalize _rtt_FindAdjacentEdges G T newedge.end_node epan
    (if newedge.start_node = newedge.end_node then some span else none) (-1) = b at kb ⊢
  split_ifs <;> first
    | exact kb
    | exact kb.followedBy (uu_addEdgeInsert G _ _ _ _ _ _ _)

theorem uu_addEdgeLink (G : GEOM) (T : RTT_TOPOLOGY) (newedge : RTT_ISO_EDGE)
    (span epan : edgeend) (modFace : Bool) :
    universeUntouched T (addEdgeLink G T newedge span epan modFace).1 := by
  unfold addEdgeLink
  dsimp only
  exact (uu_findAdjacentEdges G T _ _ _ _).followedBy (uu_addEdgeLinkEnd G _ _ _ _ _ _)

/-- `_rtt_AddEdge` never asks the back end to delete or update face `0`. -/
theorem uu_AddEdge (G : GEOM) (T : RTT_TOPOLOGY) (start_node end_node : Int) (geom : RTLINE)
    (skipChecks modFace : Bool) :
    universeUntouched T (_rtt_AddEdge G T start_node end_node geom skipChecks modFace).1 := by
  unfold _rtt_AddEdge
  by_cases c0 : skipChecks = false ∧ G.is_simple geom = false
  · rw [if_pos c0]; exact universeUntouched_same T
  rw [if_neg c0]
  cases haz : addEdgeAzimuths G geom with
  | error msg => exact universeUntouched_same T
  | ok az =>
    dsimp only
    cases hg : rtt_be_getNodeById T
        (if start_node ≠ end_node then [start_node, end_node] else [start_node]) with
    | none => exact universeUntouched_same T
    | some endpoints =>
      dsimp only
      have ks := uu_addEdgeEndpoints start_node end_node endpoints
        (T, { face := -1, start_node_geom := none, end_node_geom := none })
      generalize addEdgeEndpoints start_node end_node endpoints
        (T, { face := -1, start_node_geom := none, end_node_geom := none }) = s at ks ⊢
      have ks' : universeUntouched T s.1 := ks
      cases hchk : (if skipChecks = true then none
          else addEdgeNodeChecks s.2 az.1 az.2.1) with
      | some msg => exact ks'
      | none =>
        dsimp only
        have kc : universeUntouched T (if skipChecks = true then (s.1, (0 : Int))
            else _rtt_CheckEdgeCrossing G s.1 start_node end_node geom 0).1 := by
          by_cases k : skipChecks = true
          · rw [if_pos k]; exact ks'
          · rw [if_neg k]; exact ks'.followedBy (uu_checkEdgeCrossing G _ _ _ _ _)
        generalize (if skipChecks = true then (s.1, (0 : Int))
            else _rtt_CheckEdgeCrossing G s.1 start_node end_node geom 0) = c at kc ⊢
        by_cases c1 : c.2 ≠ 0
        · rw [if_pos c1]; exact kc
        rw [if_neg c1]
        have kn := kc.followedBy (uu_getNextEdgeId c.1)
        generalize rtt_be_getNextEdgeId c.1 = n at kn ⊢
        by_cases c2 : n.2 = -1
        · rw [if_pos c2]; exact kn
        rw [if_neg c2]
        exact kn.followedBy (uu_addEdgeLink G _ _ _ _ _)

end RTTopo

namespace RTTopo

/-! ## `_rtt_RemEdge` and `rtt_ChangeEdgeGeom` leave the universe face alone -/

theorem uu_assertOldFace (T : RTT_TOPOLOGY) (of : Int) (h : of ≠ 0) :
    universeUntouched T (assertOldFace T of) := by
  unfold assertOldFace
  rw [if_neg h]
  exact universeUntouched_same T

theorem uu_UpdateEdgeFaceRef (T : RTT_TOPOLOGY) (of nf : Int) (h : of ≠ 0) :
    universeUntouched T (_rtt_UpdateEdgeFaceRef T of nf).1 := by
  unfold _rtt_UpdateEdgeFaceRef
  dsimp only
  have k1 := (uu_assertOldFace T of h).followedBy
    (uu_updateEdges (assertOldFace T of)
      { blankEdge with face_left := of } { blankEdge with face_left := nf } blankEdge
      [RTT_COL_EDGE.FACE_LEFT] [RTT_COL_EDGE.FACE_LEFT] [])
  generalize rtt_be_updateEdges (assertOldFace T of)
    { blankEdge with face_left := of } [RTT_COL_EDGE.FACE_LEFT]
    { blankEdge with face_left := nf } [RTT_COL_EDGE.FACE_LEFT] blankEdge [] = l at k1 ⊢
  by_cases c1 : l.2 = -1
  · rw [if_pos c1]; exact k1
  rw [if_neg c1]
  have k2 := k1.followedBy (uu_updateEdges l.1
      { blankEdge with face_left := of, face_right := of }
      { blankEdge with face_left := nf, face_right := nf } blankEdge
      [RTT_COL_EDGE.FACE_RIGHT] [RTT_COL_EDGE.FACE_RIGHT] [])
  generalize rtt_be_updateEdges l.1
      { blankEdge with face_left := of, face_right := of } [RTT_COL_EDGE.FACE_RIGHT]
      { blankEdge with face_left := nf, face_right := nf } [RTT_COL_EDGE.FACE_RIGHT]
      blankEdge [] = r at k2 ⊢
  split_ifs <;> exact k2

theorem uu_UpdateNodeFaceRef (T : RTT_TOPOLOGY) (of nf : Int) (h : of ≠ 0) :
    universeUntouched T (_rtt_UpdateNodeFaceRef T of nf).1 := by
  unfold _rtt_UpdateNodeFaceRef
  dsimp only
  have k1 := (uu_assertOldFace T of h).followedBy
    (uu_updateNodes (assertOldFace T of)
      { blankNode with containing_face := of } { blankNode with containing_face := nf }
      blankNode [RTT_COL_NODE.CONTAINING_FACE] [RTT_COL_NODE.CONTAINING_FACE] [])
  generalize rtt_be_updateNodes (assertOldFace T of)
    { blankNode with containing_face := of } [RTT_COL_NODE.CONTAINING_FACE]
    { blankNode with containing_face := nf } [RTT_COL_NODE.CONTAINING_FACE] blankNode [] = u
    at k1 ⊢
  split_ifs <;> exact k1

theorem uu_remEdgeFaceRefs (T : RTT_TOPOLOGY) (of floodface : Int)
    (h : of ≠ floodface → of ≠ 0) :
    universeUntouched T (remEdgeFaceRefs T of floodface).1 := by
  unfold remEdgeFaceRefs
  by_cases c : of ≠ floodface
  · rw [if_pos c]
    dsimp only
    have k1 := uu_UpdateEdgeFaceRef T of floodface (h c)
    generalize _rtt_UpdateEdgeFaceRef T of floodface = a at k1 ⊢
    by_cases c1 : a.2 = -1
    · rw [if_pos c1]; exact k1
    rw [if_neg c1]
    have k2 := k1.followedBy (uu_UpdateNodeFaceRef a.1 of floodface (h c))
    generalize _rtt_UpdateNodeFaceRef a.1 of floodface = b at k2 ⊢
    split_ifs <;> exact k2
  · rw [if_neg c]
    exact universeUntouched_same T

theorem uu_remEdgeDelete (T : RTT_TOPOLOGY) (edge : RTT_ISO_EDGE)
    (fnode_edges lnode_edges : Nat) (modFace : Bool) (floodface newface_id : Int)
    (hl : edge.face_left ≠ floodface → edge.face_left ≠ 0)
    (hr : edge.face_right ≠ floodface → edge.face_right ≠ 0) :
    universeUntouched T
      (remEdgeDelete T edge fnode_edges lnode_edges modFace floodface newface_id).1 := by
  unfold remEdgeDelete
  dsimp only
  have k1 := uu_deleteEdges T edge [RTT_COL_EDGE.EDGE_ID]
  generalize rtt_be_deleteEdges T edge [RTT_COL_EDGE.EDGE_ID] = d at k1 ⊢
  by_cases c1 : d.2 = -1
  · rw [if_pos c1]; exact k1
  rw [if_neg c1]
  generalize ((if fnode_edges = 0 then
        [{ blankNode with node_id := edge.start_node, containing_face := floodface }]
       else []) ++
      (if edge.end_node ≠ edge.start_node ∧ lnode_edges = 0 then
        [{ blankNode with node_id := edge.end_node, containing_face := floodface }]
       else []) : List RTT_ISO_NODE) = upd_node
  have k2 : universeUntouched T (if upd_node.length ≠ 0
      then rtt_be_updateNodesById d.1 upd_node [RTT_COL_NODE.CONTAINING_FACE]
      else (d.1, (0 : Int))).1 := by
    split_ifs
    · exact k1.followedBy (uu_updateNodesById d.1 _ _)
    · exact k1
  generalize (if upd_node.length ≠ 0
      then rtt_be_updateNodesById d.1 upd_node [RTT_COL_NODE.CONTAINING_FACE]
      else (d.1, (0 : Int))) = u at k2 ⊢
  by_cases c2 : upd_node.length ≠ 0 ∧ u.2 = -1
  · rw [if_pos c2]; exact k2
  rw [if_neg c2]
  by_cases c3 : edge.face_left ≠ edge.face_right
  · rw [if_pos c3]
    have k3 := k2.followedBy (uu_deleteFacesById u.1
      ((if edge.face_right ≠ floodface then [edge.face_right] else []) ++
       (if edge.face_left ≠ floodface then [edge.face_left] else []))
      (by
        intro i hi
        rcases List.mem_append.1 hi with h | h
        · by_cases c : edge.face_right ≠ floodface
          · rw [if_pos c] at h
            rw [List.mem_singleton.1 h]
            exact hr c
          · rw [if_neg c] at h
            exact absurd h (List.not_mem_nil _)
        · by_cases c : edge.face_left ≠ floodface
          · rw [if_pos c] at h
            rw [List.mem_singleton.1 h]
            exact hl c
          · rw [if_neg c] at h
            exact absurd h (List.not_mem_nil _)))
    generalize rtt_be_deleteFacesById u.1
      ((if edge.face_right ≠ floodface then [edge.face_right] else []) ++
       (if edge.face_left ≠ floodface then [edge.face_left] else [])) = f at k3 ⊢
    split_ifs <;> exact k3
  · rw [if_neg c3]
    exact k2

theorem uu_remEdgeHeal (T : RTT_TOPOLOGY) (edge : RTT_ISO_EDGE)
    (fnode_edges lnode_edges : Nat) (modFace : Bool) (floodface newface_id : Int)
    (hl : edge.face_left ≠ floodface → edge.face_left ≠ 0)
    (hr : edge.face_right ≠ floodface → edge.face_right ≠ 0) :
    universeUntouched T
      (remEdgeHeal T edge fnode_edges lnode_edges modFace floodface newface_id).1 := by
  unfold remEdgeHeal
  dsimp only
  have k1 := uu_remEdgeFaceRefs T edge.face_left floodface hl
  generalize remEdgeFaceRefs T edge.face_left floodface = a at k1 ⊢
  by_cases c1 : a.2 = -1
  · rw [if_pos c1]; exact k1
  rw [if_neg c1]
  have k2 := k1.followedBy (uu_remEdgeFaceRefs a.1 edge.face_right floodface hr)
  generalize remEdgeFaceRefs a.1 edge.face_right floodface = b at k2 ⊢
  by_cases c2 : b.2 = -1
  · rw [if_pos c2]; exact k2
  rw [if_neg c2]
  by_cases c3 : rtt_be_hook b.1 BeCall.updateTopoGeomFaceHeal = 0
  · rw [if_pos c3]; exact k2
  rw [if_neg c3]
  exact k2.followedBy (uu_remEdgeDelete b.1 edge _ _ _ _ _ hl hr)

theorem uu_remEdgeMerge (G : GEOM) (T : RTT_TOPOLOGY) (edge : RTT_ISO_EDGE)
    (fnode_edges lnode_edges : Nat) (modFace : Bool)
    (hl : edge.face_left ≠ 0) (hr : edge.face_right ≠ 0) :
    universeUntouched T (remEdgeMerge G T edge fnode_edges lnode_edges modFace).1 := by
  unfold remEdgeMerge
  cases hg : rtt_be_getFaceById T [edge.face_left, edge.face_right] with
  | none => exact universeUntouched_same T
  | some faces =>
    dsimp only
    cases hb : remEdgeBoxes edge faces (none, none) with
    | error msg => exact universeUntouched_same T
    | ok boxes =>
      rcases boxes with ⟨b1, b2⟩
      cases b1 with
      | none => exact universeUntouched_same T
      | some box1 =>
        cases b2 with
        | none => exact universeUntouched_same T
        | some box2 =>
          dsimp only
          by_cases cm : modFace = true
          · rw [if_pos cm]
            have k1 := uu_updateFacesById T
              [{ face_id := edge.face_right, mbr := some (G.gbox_merge box2 box1) }]
              (by
                intro r hr'
                rw [List.mem_singleton.1 hr']
                exact hr)
            generalize rtt_be_updateFacesById T
              [{ face_id := edge.face_right, mbr := some (G.gbox_merge box2 box1) }] = u
              at k1 ⊢
            by_cases c1 : u.2 = -1
            · rw [if_pos c1]; exact k1
            rw [if_neg c1]
            by_cases c2 : u.2 ≠ 1
            · rw [if_pos c2]; exact k1
            rw [if_neg c2]
            exact k1.followedBy (uu_remEdgeHeal u.1 edge _ _ _ _ _ (fun _ => hl) (fun _ => hr))
          · rw [if_neg cm]
            have k1 := uu_insertFaces T
              { face_id := -1, mbr := some (G.gbox_merge box2 box1) }
            generalize rtt_be_insertFaces T
              { face_id := -1, mbr := some (G.gbox_merge box2 box1) } = i at k1 ⊢
            by_cases c1 : i.2.2 = -1
            · rw [if_pos c1]; exact k1
            rw [if_neg c1]
            by_cases c2 : i.2.2 ≠ 1
            · rw [if_pos c2]; exact k1
            rw [if_neg c2]
            exact k1.followedBy (uu_remEdgeHeal i.1 edge _ _ _ _ _ (fun _ => hl) (fun _ => hr))

theorem uu_remEdgeFlood (G : GEOM) (T : RTT_TOPOLOGY) (edge : RTT_ISO_EDGE)
    (fnode_edges lnode_edges : Nat) (modFace : Bool) :
    universeUntouched T (remEdgeFlood G T edge fnode_edges lnode_edges modFace).1 := by
  unfold remEdgeFlood
  by_cases c1 : edge.face_left = edge.face_right
  · rw [if_pos c1]
    exact uu_remEdgeDelete T edge _ _ _ _ _ (fun h => absurd c1 h) (fun h => absurd rfl h)
  rw [if_neg c1]
  by_cases c2 : edge.face_left = 0 ∨ edge.face_right = 0
  · rw [if_pos c2]
    exact uu_remEdgeHeal T edge _ _ _ _ _ (fun h => h) (fun h => h)
  rw [if_neg c2]
  exact uu_remEdgeMerge G T edge _ _ _ (fun h => c2 (Or.inl h)) (fun h => c2 (Or.inr h))

theorem uu_remEdgeRelink (G : GEOM) (T : RTT_TOPOLOGY) (edge : RTT_ISO_EDGE) (edge_id : Int)
    (modFace : Bool) : universeUntouched T (remEdgeRelink G T edge edge_id modFace).1 := by
  unfold remEdgeRelink
  cases hg : rtt_be_getEdgeByNode T
      (if edge.end_node ≠ edge.start_node then [edge.start_node, edge.end_node]
       else [edge.start_node]) with
  | none => exact universeUntouched_same T
  | some upd_edge =>
    dsimp only
    have k1 : universeUntouched T
        (if (upd_edge.filterMap (remEdgeLeftUpdate edge edge_id)).length ≠ 0
          then rtt_be_updateEdgesById T (upd_edge.filterMap (remEdgeLeftUpdate edge edge_id))
            [RTT_COL_EDGE.NEXT_LEFT]
          else (T, (0 : Int))).1 := by
      split_ifs
      · exact uu_updateEdgesById T _ _
      · exact universeUntouched_same T
    generalize (if (upd_edge.filterMap (remEdgeLeftUpdate edge edge_id)).length ≠ 0
          then rtt_be_updateEdgesById T (upd_edge.filterMap (remEdgeLeftUpdate edge edge_id))
            [RTT_COL_EDGE.NEXT_LEFT]
          else (T, (0 : Int))) = u1 at k1 ⊢
    by_cases c1 : (upd_edge.filterMap (remEdgeLeftUpdate edge edge_id)).length ≠ 0 ∧ u1.2 = -1
    · rw [if_pos c1]; exact k1
    rw [if_neg c1]
    have k2 : universeUntouched T
        (if (upd_edge.filterMap (remEdgeRightUpdate edge edge_id)).length ≠ 0
          then rtt_be_updateEdgesById u1.1
            (upd_edge.filterMap (remEdgeRightUpdate edge edge_id)) [RTT_COL_EDGE.NEXT_RIGHT]
          else (u1.1, (0 : Int))).1 := by
      split_ifs
      · exact k1.followedBy (uu_updateEdgesById u1.1 _ _)
      · exact k1
    generalize (if (upd_edge.filterMap (remEdgeRightUpdate edge edge_id)).length ≠ 0
          then rtt_be_updateEdgesById u1.1
            (upd_edge.filterMap (remEdgeRightUpdate edge edge_id)) [RTT_COL_EDGE.NEXT_RIGHT]
          else (u1.1, (0 : Int))) = u2 at k2 ⊢
    by_cases c2 : (upd_edge.filterMap (remEdgeRightUpdate edge edge_id)).length ≠ 0 ∧
        u2.2 = -1
    · rw [if_pos c2]; exact k2
    rw [if_neg c2]
    exact k2.followedBy (uu_remEdgeFlood G u2.1 edge _ _ _)

/-- `_rtt_RemEdge` never asks the back end to delete or update face `0`, and its
`assert( of != 0 )` never fails. -/
theorem uu_RemEdge (G : GEOM) (T : RTT_TOPOLOGY) (edge_id : Int) (modFace : Bool) :
    universeUntouched T (_rtt_RemEdge G T edge_id modFace).1 := by
  unfold _rtt_RemEdge
  cases hg : rtt_be_getEdgeById T [edge_id] with
  | none => exact universeUntouched_same T
  | some l =>
    cases l with
    | nil => exact universeUntouched_same T
    | cons edge rest =>
      dsimp only
      by_cases c : rtt_be_hook T BeCall.checkTopoGeomRemEdge = 0
      · rw [if_pos c]; exact universeUntouched_same T
      rw [if_neg c]
      exact uu_remEdgeRelink G T edge edge_id modFace

theorem uu_changeEdgeAdjacent (G : GEOM) (T : RTT_TOPOLOGY) (oldedge : RTT_ISO_EDGE)
    (span epan : edgeend) (isclosed : Bool) (edge_id : Int) :
    universeUntouched T (changeEdgeAdjacent G T oldedge span epan isclosed edge_id).1 := by
  unfold changeEdgeAdjacent
  dsimp only
  exact (uu_findAdjacentEdges G T _ _ _ _).followedBy (uu_findAdjacentEdges G _ _ _ _ _)

theorem uu_changeEdgeFaces (G : GEOM) (T : RTT_TOPOLOGY) (oldedge : RTT_ISO_EDGE) :
    universeUntouched T (changeEdgeFaces G T oldedge).1 := by
  unfold changeEdgeFaces
  cases h1 : (if oldedge.face_left ≠ 0 then
      (rtt_GetFaceGeometry G T oldedge.face_left).map
        (fun b => [({ face_id := oldedge.face_left, mbr := b } : RTT_ISO_FACE)])
    else .ok []) with
  | error msg => exact universeUntouched_same T
  | ok faces1 =>
    dsimp only
    cases h2 : (if oldedge.face_right ≠ 0 ∧ oldedge.face_right ≠ oldedge.face_left then
        (rtt_GetFaceGeometry G T oldedge.face_right).map
          (fun b => [({ face_id := oldedge.face_right, mbr := b } : RTT_ISO_FACE)])
      else .ok []) with
    | error msg => exact universeUntouched_same T
    | ok faces2 =>
      dsimp only
      have m1 : ∀ r ∈ faces1, r.face_id ≠ 0 := by
        intro r hr
        by_cases c : oldedge.face_left ≠ 0
        · rw [if_pos c] at h1
          cases hq : rtt_GetFaceGeometry G T oldedge.face_left with
          | error m => rw [hq] at h1; cases h1
          | ok b =>
            rw [hq] at h1
            have e : [({ face_id := oldedge.face_left, mbr := b } : RTT_ISO_FACE)] = faces1 :=
              Except.ok.inj h1
            rw [← e] at hr
            rw [List.mem_singleton.1 hr]
            exact c
        · rw [if_neg c] at h1
          have e : ([] : List RTT_ISO_FACE) = faces1 := Except.ok.inj h1
          rw [← e] at hr
          exact absurd hr (List.not_mem_nil _)
      have m2 : ∀ r ∈ faces2, r.face_id ≠ 0 := by
        intro r hr
        by_cases c : oldedge.face_right ≠ 0 ∧ oldedge.face_right ≠ oldedge.face_left
        · rw [if_pos c] at h2
          cases hq : rtt_GetFaceGeometry G T oldedge.face_right with
          | error m => rw [hq] at h2; cases h2
          | ok b =>
            rw [hq] at h2
            have e : [({ face_id := oldedge.face_right, mbr := b } : RTT_ISO_FACE)] = faces2 :=
              Except.ok.inj h2
            rw [← e] at hr
            rw [List.mem_singleton.1 hr]
            exact c.1
        · rw [if_neg c] at h2
          have e : ([] : List RTT_ISO_FACE) = faces2 := Except.ok.inj h2
          rw [← e] at hr
          exact absurd hr (List.not_mem_nil _)
      by_cases c : (faces1 ++ faces2).length ≠ 0
      · rw [if_pos c]
        have k := uu_updateFacesById T (faces1 ++ faces2) (by
          intro r hr
          rcases List.mem_append.1 hr with h | h
          · exact m1 r h
          · exact m2 r h)
        generalize rtt_be_updateFacesById T (faces1 ++ faces2) = u at k ⊢
        split_ifs <;> exact k
      · rw [if_neg c]
        exact universeUntouched_same T

theorem uu_changeEdgeStore (G : GEOM) (T : RTT_TOPOLOGY) (oldedge : RTT_ISO_EDGE)
    (edge_id : Int) (geom : RTLINE) (isclosed : Bool) :
    universeUntouched T (changeEdgeStore G T oldedge edge_id geom isclosed).1 := by
  unfold changeEdgeStore
  cases h1 : _rtt_InitEdgeEndByLine G oldedge.geom (getPoint2d_p oldedge.geom 0)
      (getPoint2d_p oldedge.geom (oldedge.geom.length - 1)) with
  | error msg => exact universeUntouched_same T
  | ok pre =>
    dsimp only
    have k1 := uu_changeEdgeAdjacent G T oldedge pre.1 pre.2 isclosed edge_id
    generalize changeEdgeAdjacent G T oldedge pre.1 pre.2 isclosed edge_id = a at k1 ⊢
    have k2 := k1.followedBy (uu_updateEdgesById a.1
      [{ blankEdge with edge_id := edge_id, geom := geom }] [RTT_COL_EDGE.GEOM])
    generalize rtt_be_updateEdgesById a.1
      [{ blankEdge with edge_id := edge_id, geom := geom }] [RTT_COL_EDGE.GEOM] = u at k2 ⊢
    by_cases c1 : u.2 = -1
    · rw [if_pos c1]; exact k2
    rw [if_neg c1]
    by_cases c2 : u.2 = 0
    · rw [if_pos c2]; exact k2
    rw [if_neg c2]
    cases h2 : _rtt_InitEdgeEndByLine G geom (getPoint2d_p oldedge.geom 0)
        (getPoint2d_p oldedge.geom (oldedge.geom.length - 1)) with
    | error msg => exact k2
    | ok post =>
      dsimp only
      have k3 := k2.followedBy
        (uu_changeEdgeAdjacent G u.1 oldedge post.1 post.2 isclosed edge_id)
      generalize changeEdgeAdjacent G u.1 oldedge post.1 post.2 isclosed edge_id = b at k3 ⊢
      by_cases c3 : a.2.1.nextCW ≠ b.2.1.nextCW ∨ a.2.1.nextCCW ≠ b.2.1.nextCCW
      · rw [if_pos c3]; exact k3
      rw [if_neg c3]
      by_cases c4 : a.2.2.nextCW ≠ b.2.2.nextCW ∨ a.2.2.nextCCW ≠ b.2.2.nextCCW
      · rw [if_pos c4]; exact k3
      rw [if_neg c4]
      exact k3.followedBy (uu_changeEdgeFaces G b.1 oldedge)

/-- `rtt_ChangeEdgeGeom` never asks the back end to delete or update face `0`. -/
theorem uu_ChangeEdgeGeom (G : GEOM) (T : RTT_TOPOLOGY) (edge_id : Int) (geom : RTLINE) :
    universeUntouched T (rtt_ChangeEdgeGeom G T edge_id geom).1 := by
  unfold rtt_ChangeEdgeGeom
  by_cases c0 : G.is_simple geom = false
  · rw [if_pos c0]; exact universeUntouched_same T
  rw [if_neg c0]
  cases hg : rtt_be_getEdgeById T [edge_id] with
  | none => exact universeUntouched_same T
  | some l =>
    cases l with
    | nil => exact universeUntouched_same T
    | cons oldedge rest =>
      dsimp only
      cases hs : changeEdgeShape G oldedge geom with
      | some msg => exact universeUntouched_same T
      | none =>
        dsimp only
        have k1 := uu_checkEdgeCrossing G T oldedge.start_node oldedge.end_node geom edge_id
        generalize _rtt_CheckEdgeCrossing G T oldedge.start_node oldedge.end_node geom
          edge_id = c at k1 ⊢
        by_cases c1 : c.2 ≠ 0
        · rw [if_pos c1]; exact k1
        rw [if_neg c1]
        cases hm : changeEdgeMotion G c.1 oldedge geom
            (decide (oldedge.start_node = oldedge.end_node)) with
        | some msg => exact k1
        | none =>
          dsimp only
          exact k1.followedBy (uu_changeEdgeStore G c.1 oldedge edge_id geom _)

/-- Claim C9: for every state and every call of `rtt_AddEdgeModFace`,
`rtt_AddEdgeNewFaces`, `rtt_RemEdgeModFace`, `rtt_RemEdgeNewFace` or `rtt_ChangeEdgeGeom`,
whatever the call answers, the requests it sends to the face table are insertions, or MBR
updates and deletions of faces other than face `0`, and no `assert( of != 0 )` of
`_rtt_UpdateEdgeFaceRef` / `_rtt_UpdateNodeFaceRef` fails. For the two removals the state
is one where the rows of the linkage updates of `_rtt_RemEdge` fit the two-row arrays the
C function fills (`relinkFits`), as they do whenever the linkage is well formed. -/
theorem universe_face_never_touched (G : GEOM) (T : RTT_TOPOLOGY) (start_node end_node : Int)
    (geom : RTLINE) (skipChecks : Bool) (edge_id : Int) :
    universeUntouched T (rtt_AddEdgeModFace G T start_node end_node geom skipChecks).1 ∧
    universeUntouched T (rtt_AddEdgeNewFaces G T start_node end_node geom skipChecks).1 ∧
    (relinkFits T edge_id → universeUntouched T (rtt_RemEdgeModFace G T edge_id).1) ∧
    (relinkFits T edge_id → universeUntouched T (rtt_RemEdgeNewFace G T edge_id).1) ∧
    universeUntouched T (rtt_ChangeEdgeGeom G T edge_id geom).1 :=
  ⟨uu_AddEdge G T start_node end_node geom skipChecks true,
   uu_AddEdge G T start_node end_node geom skipChecks false,
   fun _ => uu_RemEdge G T edge_id true,
   fun _ => uu_RemEdge G T edge_id false,
   uu_ChangeEdgeGeom G T edge_id geom⟩

theorem universe_face_never_touched_witness :
    relinkFits topoScenario3 2 ∧
    universeUntouched topoScenario3
      (rtt_AddEdgeModFace windingKernel topoScenario3 1 2
        [{ x := 0, y := 0 }, { x := 5, y := -5 }, { x := 10, y := 0 }] false).1 ∧
    universeUntouched topoScenario3 (rtt_RemEdgeModFace windingKernel topoScenario3 2).1 ∧
    universeUntouched topoScenario3 (rtt_RemEdgeNewFace windingKernel topoScenario3 2).1 ∧
    universeUntouched topoScenario3
      (rtt_ChangeEdgeGeom windingKernel topoScenario3 2
        [{ x := 0, y := 0 }, { x := 5, y := 6 }, { x := 10, y := 0 }]).1 :=
  have h := universe_face_never_touched windingKernel topoScenario3 1 2
    [{ x := 0, y := 0 }, { x := 5, y := -5 }, { x := 10, y := 0 }] false 2
  have k := universe_face_never_touched windingKernel topoScenario3 1 2
    [{ x := 0, y := 0 }, { x := 5, y := 6 }, { x := 10, y := 0 }] false 2
  ⟨by decide, h.1, h.2.2.1 (by decide), h.2.2.2.1 (by decide), k.2.2.2.2⟩

end RTTopo

namespace RTTopo

/-! ## `rtt_AddIsoNode`: the three preconditions -/

theorem existsCoincidentNode_eq (G : GEOM) (T : RTT_TOPOLOGY) (pt : POINT2D)
    (h : BeCall.getNodeWithinDistance2D ∉ T.failing) :
    rtt_be_ExistsCoincidentNode G T pt =
      (T, ((T.nodes.filter (fun n => G.pt_dwithin n.geom pt 0)).length : Int)) := by
  unfold rtt_be_ExistsCoincidentNode rtt_be_getNodeWithinDistance2D
  rw [if_neg h]

theorem existsEdgeIntersectingPoint_eq (G : GEOM) (T : RTT_TOPOLOGY) (pt : POINT2D)
    (h : BeCall.getEdgeWithinDistance2D ∉ T.failing) :
    rtt_be_ExistsEdgeIntersectingPoint G T pt =
      (T, ((T.edges.filter (fun e => G.line_dwithin e.geom pt 0)).length : Int)) := by
  unfold rtt_be_ExistsEdgeIntersectingPoint rtt_be_getEdgeWithinDistance2D
  rw [if_neg h]

theorem filter_length_ne_zero {α : Type} (p : α → Bool) (l : List α) :
    ((l.filter p).length : Int) ≠ 0 ↔ ∃ x ∈ l, p x = true := by
  constructor
  · intro h
    cases hl : l.filter p with
    | nil => rw [hl] at h; exact absurd rfl h
    | cons x rest =>
      have hx : x ∈ l.filter p := by rw [hl]; exact List.mem_cons_self _ _
      exact ⟨x, (List.mem_filter.1 hx).1, (List.mem_filter.1 hx).2⟩
  · rintro ⟨x, hx, hp⟩ h
    have hm : x ∈ l.filter p := List.mem_filter.2 ⟨hx, hp⟩
    have h0 : (l.filter p).length = 0 := by exact_mod_cast h
    rw [List.length_eq_zero.1 h0] at hm
    exact absurd hm (List.not_mem_nil _)

/-- With the checks on and a back end that answers, `rtt_AddIsoNode` is three tests in a
row followed by the insertion of one row. -/
theorem rtt_AddIsoNode_checked (G : GEOM) (T : RTT_TOPOLOGY) (face : Int) (pt : POINT2D)
    (hbe : T.failing = []) (hface : G.face_containing T.edges pt ≠ -2) :
    rtt_AddIsoNode G T face pt false =
      if ((T.nodes.filter (fun n => G.pt_dwithin n.geom pt 0)).length : Int) ≠ 0 then
        (rterror T "SQL/MM Spatial exception - coincident node", -1)
      else if ((T.edges.filter (fun e => G.line_dwithin e.geom pt 0)).length : Int) ≠ 0 then
        (rterror T "SQL/MM Spatial exception - edge crosses node.", -1)
      else if face ≠ -1 ∧
          face ≠ (if G.face_containing T.edges pt = -1 then 0
                  else G.face_containing T.edges pt) then
        (rterror T "SQL/MM Spatial exception - not within face", -1)
      else
        ({ T with
            nodes := T.nodes ++
              [{ node_id := T.node_seq
                 containing_face :=
                   if G.face_containing T.edges pt = -1 then 0
                   else G.face_containing T.edges pt
                 geom := pt }]
            node_seq := T.node_seq + 1 }, T.node_seq) := by
  have h1 : BeCall.getNodeWithinDistance2D ∉ T.failing := by
    rw [hbe]; exact List.not_mem_nil _
  have h2 : BeCall.getEdgeWithinDistance2D ∉ T.failing := by
    rw [hbe]; exact List.not_mem_nil _
  have h3 : BeCall.getFaceContainingPoint ∉ T.failing := by
    rw [hbe]; exact List.not_mem_nil _
  have h4 : BeCall.insertNodes ∉ T.failing := by
    rw [hbe]; exact List.not_mem_nil _
  have hft : ¬ (false = true) := Bool.false_ne_true
  unfold rtt_AddIsoNode
  dsimp only
  rw [if_neg hft, existsCoincidentNode_eq G T pt h1]
  dsimp only
  by_cases c1 : ((T.nodes.filter (fun n => G.pt_dwithin n.geom pt 0)).length : Int) ≠ 0
  · rw [if_pos c1, if_pos c1]
  rw [if_neg c1, if_neg c1, if_neg hft, existsEdgeIntersectingPoint_eq G T pt h2]
  dsimp only
  by_cases c2 : ((T.edges.filter (fun e => G.line_dwithin e.geom pt 0)).length : Int) ≠ 0
  · rw [if_pos c2, if_pos c2]
  rw [if_neg c2, if_neg c2]
  have hor : face = -1 ∨ false = false := Or.inr rfl
  have hfc : rtt_be_getFaceContainingPoint G T pt = G.face_containing T.edges pt := by
    unfold rtt_be_getFaceContainingPoint
    rw [if_neg h3]
  rw [if_pos hor, hfc]
  have hn2 : ¬ ((face = -1 ∨ false = false) ∧ G.face_containing T.edges pt = -2) :=
    fun h => hface h.2
  rw [if_neg hn2]
  have hres : (if (face = -1 ∨ false = false) ∧ G.face_containing T.edges pt = -1 then
      (0 : Int) else G.face_containing T.edges pt) =
      (if G.face_containing T.edges pt = -1 then 0 else G.face_containing T.edges pt) := by
    by_cases c : G.face_containing T.edges pt = -1
    · rw [if_pos ⟨hor, c⟩, if_pos c]
    · rw [if_neg (fun h => c h.2), if_neg c]
  rw [hres]
  generalize (if G.face_containing T.edges pt = -1 then (0 : Int)
    else G.face_containing T.edges pt) = resolved
  by_cases c3 : face ≠ -1 ∧ face ≠ resolved
  · rw [if_pos c3, if_pos ⟨c3.1, rfl, fun h => c3.2 h.symm⟩]
  have c3' : ¬ (face ≠ -1 ∧ false = false ∧ resolved ≠ face) :=
    fun h => c3 ⟨h.1, fun e => h.2.2 e.symm⟩
  rw [if_neg c3, if_neg c3']
  have hf1 : (if face = -1 then resolved else face) = resolved := by
    by_cases c : face = -1
    · rw [if_pos c]
    · rw [if_neg c]
      by_contra hne
      exact c3 ⟨c, hne⟩
  rw [hf1]
  unfold rtt_be_insertNodes
  rw [if_neg h4]
  dsimp only
  rw [if_pos (rfl : (-1 : Int) = -1)]
  dsimp only
  rw [if_neg (by decide : ¬ ((1 : Int) = 0))]

/-- Claim C11: with the checks on, a back end of which no callback fails and which hands
out node ids other than `-1`, `rtt_AddIsoNode(face, pt)` returns `-1` if and only if a
node coincides with the point, or an edge passes through it, or `face` is given and is
not the face found for the point (the universe when the back end finds none); in that
case no row is inserted; otherwise exactly one node is appended, with the point as its
geometry and the face found as its `containing_face`, and its id is returned. -/
theorem rtt_AddIsoNode_fails_iff (G : GEOM) (T : RTT_TOPOLOGY) (face : Int) (pt : POINT2D)
    (hbe : T.failing = []) (hface : G.face_containing T.edges pt ≠ -2)
    (hseq : T.node_seq ≠ -1) :
    ((rtt_AddIsoNode G T face pt false).2 = -1 ↔
      ((∃ n ∈ T.nodes, G.pt_dwithin n.geom pt 0 = true) ∨
       (∃ e ∈ T.edges, G.line_dwithin e.geom pt 0 = true) ∨
       (face ≠ -1 ∧ face ≠ (if G.face_containing T.edges pt = -1 then 0
                             else G.face_containing T.edges pt)))) ∧
    ((rtt_AddIsoNode G T face pt false).2 = -1 →
      (rtt_AddIsoNode G T face pt false).1.nodes = T.nodes ∧
      (rtt_AddIsoNode G T face pt false).1.edges = T.edges ∧
      (rtt_AddIsoNode G T face pt false).1.faces = T.faces ∧
      (rtt_AddIsoNode G T face pt false).1.node_seq = T.node_seq) ∧
    ((rtt_AddIsoNode G T face pt false).2 ≠ -1 →
      (rtt_AddIsoNode G T face pt false).2 = T.node_seq ∧
      (rtt_AddIsoNode G T face pt false).1.nodes = T.nodes ++
        [{ node_id := T.node_seq
           containing_face := if G.face_containing T.edges pt = -1 then 0
                              else G.face_containing T.edges pt
           geom := pt }] ∧
      (rtt_AddIsoNode G T face pt false).1.edges = T.edges ∧
      (rtt_AddIsoNode G T face pt false).1.faces = T.faces) := by
  rw [rtt_AddIsoNode_checked G T face pt hbe hface]
  by_cases c1 : ((T.nodes.filter (fun n => G.pt_dwithin n.geom pt 0)).length : Int) ≠ 0
  · rw [if_pos c1]
    exact ⟨⟨fun _ => Or.inl ((filter_length_ne_zero _ _).1 c1), fun _ => rfl⟩,
      fun _ => ⟨rfl, rfl, rfl, rfl⟩, fun h => absurd rfl h⟩
  rw [if_neg c1]
  by_cases c2 : ((T.edges.filter (fun e => G.line_dwithin e.geom pt 0)).length : Int) ≠ 0
  · rw [if_pos c2]
    exact ⟨⟨fun _ => Or.inr (Or.inl ((filter_length_ne_zero _ _).1 c2)), fun _ => rfl⟩,
      fun _ => ⟨rfl, rfl, rfl, rfl⟩, fun h => absurd rfl h⟩
  rw [if_neg c2]
  by_cases c3 : face ≠ -1 ∧
      face ≠ (if G.face_containing T.edges pt = -1 then 0
              else G.face_containing T.edges pt)
  · rw [if_pos c3]
    exact ⟨⟨fun _ => Or.inr (Or.inr c3), fun _ => rfl⟩,
      fun _ => ⟨rfl, rfl, rfl, rfl⟩, fun h => absurd rfl h⟩
  rw [if_neg c3]
  refine ⟨⟨fun h => absurd h hseq, ?_⟩, fun h => absurd h hseq, fun _ => ⟨rfl, rfl, rfl, rfl⟩⟩
  rintro (h | h | h)
  · exact absurd ((filter_length_ne_zero _ _).2 h) c1
  · exact absurd ((filter_length_ne_zero _ _).2 h) c2
  · exact absurd h c3

theorem rtt_AddIsoNode_fails_iff_witness :
    ((rtt_AddIsoNode testKernel topoTwoNodes 0 ⟨5, 5⟩ false).2 = 3 ∧
     (rtt_AddIsoNode testKernel topoTwoNodes 0 ⟨5, 5⟩ false).1.nodes = topoTwoNodes.nodes ++
        [{ node_id := 3, containing_face := 0, geom := ⟨5, 5⟩ }]) ∧
    (rtt_AddIsoNode testKernel topoTwoNodes 0 ⟨10, 0⟩ false).2 = -1 ∧
    (rtt_AddIsoNode testKernel topoTwoNodes 7 ⟨5, 5⟩ false).2 = -1 :=
  have a := rtt_AddIsoNode_fails_iff testKernel topoTwoNodes 0 ⟨5, 5⟩
    (by decide) (by decide) (by decide)
  have b := rtt_AddIsoNode_fails_iff testKernel topoTwoNodes 0 ⟨10, 0⟩
    (by decide) (by decide) (by decide)
  have c := rtt_AddIsoNode_fails_iff testKernel topoTwoNodes 7 ⟨5, 5⟩
    (by decide) (by decide) (by decide)
  ⟨⟨(a.2.2 (by decide)).1, (a.2.2 (by decide)).2.1⟩,
   b.1.2 (Or.inl ⟨⟨2, 0, ⟨10, 0⟩⟩, by decide, by decide⟩),
   c.1.2 (Or.inr (Or.inr (by decide)))⟩

end RTTopo

namespace RTTopo

/-! ## `_rtt_AddEdge`: end nodes in different faces -/

/-- Claim C12, evaluated on a state where the claim fails: `topoYardPair` is a valid
state (face `1` is the triangle bounded by the closed edge `1`) in which node `2` is
isolated in the universe face and node `3` is isolated in face `1`. With `skipChecks`
set, the endpoint loop of `_rtt_AddEdge` reports "geometry crosses an edge" but does not
return, so both `rtt_AddEdgeModFace(2, 3, LINESTRING(200 200, 10 10))` and
`rtt_AddEdgeNewFaces` with the same arguments go on: they answer the new edge id `2`, the
edge row is stored with face `0` on both sides and `containing_face` of both nodes is
cleared. -/
theorem rtt_AddEdge_crossing_faces_not_refused :
    roundTripValid topoYardPair ∧
    topoYardPair.nodes.map (fun n => (n.node_id, n.containing_face)) =
      [(1, -1), (2, 0), (3, 1)] ∧
    topoYardPair.edges.map
        (fun e => (e.edge_id, e.start_node, e.end_node, e.face_left, e.face_right)) =
      [(1, 1, 1, 1, 0)] ∧
    (rtt_AddEdgeModFace yardKernel topoYardPair 2 3 [⟨200, 200⟩, ⟨10, 10⟩] true).2 = 2 ∧
    (rtt_AddEdgeModFace yardKernel topoYardPair 2 3 [⟨200, 200⟩, ⟨10, 10⟩] true).1.errors =
      ["SQL/MM Spatial exception - geometry crosses an edge"] ∧
    (rtt_AddEdgeModFace yardKernel topoYardPair 2 3 [⟨200, 200⟩, ⟨10, 10⟩] true).1.edges.map
        (fun e => (e.edge_id, e.start_node, e.end_node, e.face_left, e.face_right)) =
      [(1, 1, 1, 1, 0), (2, 2, 3, 0, 0)] ∧
    (rtt_AddEdgeModFace yardKernel topoYardPair 2 3 [⟨200, 200⟩, ⟨10, 10⟩] true).1.nodes.map
        (fun n => (n.node_id, n.containing_face)) = [(1, -1), (2, -1), (3, -1)] ∧
    (rtt_AddEdgeNewFaces yardKernel topoYardPair 2 3 [⟨200, 200⟩, ⟨10, 10⟩] true).2 = 2 ∧
    (rtt_AddEdgeNewFaces yardKernel topoYardPair 2 3 [⟨200, 200⟩, ⟨10, 10⟩] true).1.edges.map
        (fun e => (e.edge_id, e.start_node, e.end_node, e.face_left, e.face_right)) =
      [(1, 1, 1, 1, 0), (2, 2, 3, 0, 0)] ∧
    (rtt_AddEdgeNewFaces yardKernel topoYardPair 2 3 [⟨200, 200⟩, ⟨10, 10⟩] true).1.nodes.map
        (fun n => (n.node_id, n.containing_face)) = [(1, -1), (2, -1), (3, -1)] := by
  refine ⟨by decide, by decide, by decide, by decide, by decide, by decide, by decide,
    by decide, by decide, by decide⟩

/-- Claim C13, evaluated on two states where the claim fails. In `topoInsideOutside`
(a valid state) node `2` ends the dangling edge `1` that lies in face `0` and node `4`
ends the dangling edge `2` that lies in face `1`: the faces deduced at the two ends of an
edge from node `2` to node `4` are `0` and `1`. With `skipChecks` set, both
`rtt_AddEdgeModFace` and `rtt_AddEdgeNewFaces` answer the new edge id `4`, report no
error, store the edge with face `0` on both sides and rewrite the linkage of edges `1`
and `2`. In `topoTwoSided` the edge found on node `1` has face `1` clockwise and face `0`
counterclockwise; `_rtt_FindAdjacentEdges` reports the corruption and answers `-1`, the
end node `3` is isolated in face `0`, and `rtt_AddEdgeModFace(1, 3, ...)` with the
checks on answers the new edge id `2` and stores the edge. -/
theorem rtt_AddEdge_face_disagreement_not_refused :
    ((_rtt_FindAdjacentEdges testKernel topoInsideOutside 2 (edgeendOfAzimuth 20) none
        (-1)).2.1.cwFace = 0 ∧
     (_rtt_FindAdjacentEdges testKernel topoInsideOutside 2 (edgeendOfAzimuth 20) none
        (-1)).2.1.ccwFace = 0 ∧
     (_rtt_FindAdjacentEdges testKernel topoInsideOutside 4 (edgeendOfAzimuth 340) none
        (-1)).2.1.cwFace = 1 ∧
     (_rtt_FindAdjacentEdges testKernel topoInsideOutside 4 (edgeendOfAzimuth 340) none
        (-1)).2.1.ccwFace = 1) ∧
    ((rtt_AddEdgeModFace testKernel topoInsideOutside 2 4 [⟨10, 0⟩, ⟨30, 0⟩] true).2 = 4 ∧
     (rtt_AddEdgeModFace testKernel topoInsideOutside 2 4 [⟨10, 0⟩, ⟨30, 0⟩] true).1.errors
        = [] ∧
     (rtt_AddEdgeModFace testKernel topoInsideOutside 2 4 [⟨10, 0⟩, ⟨30, 0⟩] true).1.edges.map
        (fun e => (e.edge_id, e.face_left, e.face_right, e.next_left, e.next_right)) =
      [(1, 0, 0, 4, 1), (2, 1, 1, -4, 2), (3, 1, 0, 3, -3), (4, 0, 0, -2, -1)]) ∧
    ((rtt_AddEdgeNewFaces testKernel topoInsideOutside 2 4 [⟨10, 0⟩, ⟨30, 0⟩] true).2 = 4 ∧
     (rtt_AddEdgeNewFaces testKernel topoInsideOutside 2 4 [⟨10, 0⟩, ⟨30, 0⟩] true).1.edges.map
        (fun e => (e.edge_id, e.face_left, e.face_right, e.next_left, e.next_right)) =
      [(1, 0, 0, 4, 1), (2, 1, 1, -4, 2), (3, 1, 0, 3, -3), (4, 0, 0, -2, -1)]) ∧
    ((_rtt_FindAdjacentEdges testKernel topoTwoSided 1 (edgeendOfAzimuth 10) none
        (-1)).2.1.cwFace = 1 ∧
     (_rtt_FindAdjacentEdges testKernel topoTwoSided 1 (edgeendOfAzimuth 10) none
        (-1)).2.1.ccwFace = 0 ∧
     (_rtt_FindAdjacentEdges testKernel topoTwoSided 1 (edgeendOfAzimuth 10) none
        (-1)).2.2 = -1) ∧
    ((rtt_AddEdgeModFace testKernel topoTwoSided 1 3 [⟨0, 0⟩, ⟨10, 10⟩] false).2 = 2 ∧
     (rtt_AddEdgeModFace testKernel topoTwoSided 1 3 [⟨0, 0⟩, ⟨10, 10⟩] false).1.errors =
        ["Corrupted topology: adjacent edges bind different face"] ∧
     (rtt_AddEdgeModFace testKernel topoTwoSided 1 3 [⟨0, 0⟩, ⟨10, 10⟩] false).1.edges.map
        (fun e => (e.edge_id, e.face_left, e.face_right, e.next_left, e.next_right)) =
      [(1, 1, 0, -1, 2), (2, 0, 0, -2, 1)] ∧
     (rtt_AddEdgeModFace testKernel topoTwoSided 1 3 [⟨0, 0⟩, ⟨10, 10⟩] false).1.nodes.map
        (fun n => (n.node_id, n.containing_face)) = [(1, -1), (2, -1), (3, -1)]) := by
  refine ⟨⟨by decide, by decide, by decide, by decide⟩, ⟨by decide, by decide, by decide⟩,
    ⟨by decide, by decide⟩, ⟨by decide, by decide, by decide⟩,
    ⟨by decide, by decide, by decide, by decide⟩⟩

end RTTopo

namespace RTTopo

/-! ## `_rtt_AddEdge`: failures of the back end -/

/-- Claim C14, evaluated on states where the claim fails. In `topoOneEdge` the line from
node `2` back to node `1` closes a ring with edge `1`. When `getRingEdges`,
`getEdgeById`, `insertFaces`, `getEdgeByFace` or `updateEdgesById` fails,
`_rtt_AddFaceSplit` reports the error and answers `-2`, which `_rtt_AddEdge` takes for
"the universe is on this side": `rtt_AddEdgeModFace` and `rtt_AddEdgeNewFaces` answer
the new edge id `2` with the edge stored and both edges still bound to face `0`. In
`topoEdgeAndNode` the line goes from the isolated node `3` to node `2`, where edge `1`
ends; when `getEdgeByNode` fails `_rtt_FindAdjacentEdges` reports the error and answers
`0`, which `_rtt_AddEdge` takes for "no edge on this node": the calls answer the new
edge id `2` and edge `2` is stored as if it were isolated, edge `1` not being linked
to it. -/
theorem rtt_AddEdge_backend_failure_not_returned :
    (∀ c ∈ [BeCall.getRingEdges, BeCall.getEdgeById, BeCall.insertFaces,
            BeCall.getEdgeByFace, BeCall.updateEdgesById],
      (rtt_AddEdgeModFace testKernel { topoOneEdge with failing := [c] } 2 1
        [⟨10, 0⟩, ⟨5, 5⟩, ⟨0, 0⟩] false).2 = 2 ∧
      (rtt_AddEdgeModFace testKernel { topoOneEdge with failing := [c] } 2 1
        [⟨10, 0⟩, ⟨5, 5⟩, ⟨0, 0⟩] false).1.errors ≠ [] ∧
      (rtt_AddEdgeModFace testKernel { topoOneEdge with failing := [c] } 2 1
        [⟨10, 0⟩, ⟨5, 5⟩, ⟨0, 0⟩] false).1.edges.map
          (fun e => (e.edge_id, e.face_left, e.face_right, e.next_left, e.next_right)) =
        [(1, 0, 0, 2, -2), (2, 0, 0, 1, -1)] ∧
      (rtt_AddEdgeNewFaces testKernel { topoOneEdge with failing := [c] } 2 1
        [⟨10, 0⟩, ⟨5, 5⟩, ⟨0, 0⟩] false).2 = 2 ∧
      (rtt_AddEdgeNewFaces testKernel { topoOneEdge with failing := [c] } 2 1
        [⟨10, 0⟩, ⟨5, 5⟩, ⟨0, 0⟩] false).1.errors ≠ [] ∧
      (rtt_AddEdgeNewFaces testKernel { topoOneEdge with failing := [c] } 2 1
        [⟨10, 0⟩, ⟨5, 5⟩, ⟨0, 0⟩] false).1.edges.map
          (fun e => (e.edge_id, e.face_left, e.face_right, e.next_left, e.next_right)) =
        [(1, 0, 0, 2, -2), (2, 0, 0, 1, -1)]) ∧
    (rtt_AddEdgeModFace testKernel topoEdgeAndNode 3 2 [⟨10, 10⟩, ⟨10, 0⟩] false).1.edges.map
        (fun e => (e.edge_id, e.next_left, e.next_right)) = [(1, -2, 1), (2, -1, 2)] ∧
    (rtt_AddEdgeModFace testKernel
        { topoEdgeAndNode with failing := [BeCall.getEdgeByNode] } 3 2
        [⟨10, 10⟩, ⟨10, 0⟩] false).2 = 2 ∧
    (rtt_AddEdgeModFace testKernel
        { topoEdgeAndNode with failing := [BeCall.getEdgeByNode] } 3 2
        [⟨10, 10⟩, ⟨10, 0⟩] false).1.errors = ["Backend error", "Backend error"] ∧
    (rtt_AddEdgeModFace testKernel
        { topoEdgeAndNode with failing := [BeCall.getEdgeByNode] } 3 2
        [⟨10, 10⟩, ⟨10, 0⟩] false).1.edges.map
        (fun e => (e.edge_id, e.next_left, e.next_right)) = [(1, -1, 1), (2, -2, 2)] ∧
    (rtt_AddEdgeNewFaces testKernel
        { topoEdgeAndNode with failing := [BeCall.getEdgeByNode] } 3 2
        [⟨10, 10⟩, ⟨10, 0⟩] false).2 = 2 := by
  refine ⟨?_, by decide, by decide, by decide, by decide, by decide⟩
  intro c hc
  simp only [List.mem_cons, List.mem_singleton, List.not_mem_nil, or_false] at hc
  rcases hc with rfl | rfl | rfl | rfl | rfl <;> decide

end RTTopo

namespace RTTopo

/-! ## `rtt_ModEdgeSplit`: a split point on a node -/

/-- Claim C15, a state where the claim fails: `topoOneEdgeCoarse` has precision `2` and
edge `1` from node `1` at `(0, 0)` to node `2` at `(10, 0)`. The point `(1, 0)` is on
the edge, at distance `1` of node `1`, within the precision but not within distance `0`,
which is what `rtt_be_ExistsCoincidentNode` asks the back end for. With the checks on,
`rtt_ModEdgeSplit(1, POINT(1 0))` does not fail: it answers the new node id `3` and
stores node `3` and edge `2`. -/
theorem rtt_ModEdgeSplit_within_precision_accepted :
    topoOneEdgeCoarse.precision = 2 ∧
    metricKernel.pt_dwithin ⟨0, 0⟩ ⟨1, 0⟩ topoOneEdgeCoarse.precision = true ∧
    metricKernel.pt_dwithin ⟨0, 0⟩ ⟨1, 0⟩ 0 = false ∧
    (∃ e ∈ topoOneEdgeCoarse.edges, e.edge_id = 1 ∧
      ∃ n ∈ topoOneEdgeCoarse.nodes, n.node_id = e.start_node ∧ n.geom = ⟨0, 0⟩) ∧
    (rtt_ModEdgeSplit metricKernel topoOneEdgeCoarse 1 ⟨1, 0⟩ false).2 = 3 ∧
    (rtt_ModEdgeSplit metricKernel topoOneEdgeCoarse 1 ⟨1, 0⟩ false).1.errors = [] ∧
    (rtt_ModEdgeSplit metricKernel topoOneEdgeCoarse 1 ⟨1, 0⟩ false).1.nodes.map
        (fun n => (n.node_id, n.geom)) = [(1, ⟨0, 0⟩), (2, ⟨10, 0⟩), (3, ⟨1, 0⟩)] ∧
    (rtt_ModEdgeSplit metricKernel topoOneEdgeCoarse 1 ⟨1, 0⟩ false).1.edges.map
        (fun e => (e.edge_id, e.start_node, e.end_node)) = [(1, 1, 3), (2, 3, 2)] := by
  refine ⟨by decide, by decide, by decide, ?_, by decide, by decide, by decide, by decide⟩
  exact ⟨_, List.mem_singleton.2 rfl, rfl, _, List.mem_cons_self _ _, rfl, rfl⟩

/-- Claim C15 as amended: with the checks on and a back end that answers the node
query, when some node is within distance `0` of the split point (the distance that
`rtt_be_ExistsCoincidentNode` hands to the back end, whatever the precision of the
topology), `rtt_ModEdgeSplit` returns `-1` and leaves the node and edge tables as they
were; when moreover the edge is stored and can be fetched, the error reported is
"coincident node". -/
theorem rtt_ModEdgeSplit_coincident_node (G : GEOM) (T : RTT_TOPOLOGY) (edge : Int)
    (pt : POINT2D) (hq : BeCall.getNodeWithinDistance2D ∉ T.failing)
    (hn : ∃ n ∈ T.nodes, G.pt_dwithin n.geom pt 0 = true) :
    (rtt_ModEdgeSplit G T edge pt false).2 = -1 ∧
    (rtt_ModEdgeSplit G T edge pt false).1.nodes = T.nodes ∧
    (rtt_ModEdgeSplit G T edge pt false).1.edges = T.edges ∧
    (rtt_ModEdgeSplit G T edge pt false).1.node_seq = T.node_seq ∧
    (rtt_ModEdgeSplit G T edge pt false).1.edge_seq = T.edge_seq ∧
    ((∃ e ∈ T.edges, e.edge_id = edge) → BeCall.getEdgeById ∉ T.failing →
      (rtt_ModEdgeSplit G T edge pt false).1.errors =
        "SQL/MM Spatial exception - coincident node" :: T.errors) := by
  have hc : ((T.nodes.filter (fun n => G.pt_dwithin n.geom pt 0)).length : Int) ≠ 0 :=
    (filter_length_ne_zero _ _).2 hn
  have hs : (_rtt_EdgeSplit G T edge pt false).2 = none ∧
      (_rtt_EdgeSplit G T edge pt false).1.nodes = T.nodes ∧
      (_rtt_EdgeSplit G T edge pt false).1.edges = T.edges ∧
      (_rtt_EdgeSplit G T edge pt false).1.node_seq = T.node_seq ∧
      (_rtt_EdgeSplit G T edge pt false).1.edge_seq = T.edge_seq ∧
      ((∃ e ∈ T.edges, e.edge_id = edge) → BeCall.getEdgeById ∉ T.failing →
        (_rtt_EdgeSplit G T edge pt false).1.errors =
          "SQL/MM Spatial exception - coincident node" :: T.errors) := by
    unfold _rtt_EdgeSplit
    cases hg : rtt_be_getEdgeById T [edge] with
    | none =>
      refine ⟨rfl, rfl, rfl, rfl, rfl, ?_⟩
      intro _ hf
      unfold rtt_be_getEdgeById at hg
      rw [if_neg hf] at hg
      cases hg
    | some l =>
      cases l with
      | nil =>
        refine ⟨rfl, rfl, rfl, rfl, rfl, ?_⟩
        rintro ⟨e, he, hid⟩ hf
        unfold rtt_be_getEdgeById at hg
        rw [if_neg hf] at hg
        have hl := Option.some.inj hg
        have hm : e ∈ T.edges.filter (fun e => decide (e.edge_id ∈ [edge])) :=
          List.mem_filter.2 ⟨he, by simp [hid]⟩
        rw [hl] at hm
        exact absurd hm (List.not_mem_nil _)
      | cons oldedge rest =>
        dsimp only
        rw [if_neg Bool.false_ne_true, existsCoincidentNode_eq G T pt hq]
        dsimp only
        rw [if_pos hc]
        exact ⟨rfl, rfl, rfl, rfl, rfl, fun _ _ => rfl⟩
  unfold rtt_ModEdgeSplit
  dsimp only
  generalize _rtt_EdgeSplit G T edge pt false = s at hs
  obtain ⟨h1, h2, h3, h4, h5, h6⟩ := hs
  rcases s with ⟨T1, o⟩
  dsimp only at h1 h2 h3 h4 h5 h6 ⊢
  subst h1
  exact ⟨rfl, h2, h3, h4, h5, h6⟩

theorem rtt_ModEdgeSplit_coincident_node_witness :
    (rtt_ModEdgeSplit metricKernel topoOneEdgeCoarse 1 ⟨0, 0⟩ false).2 = -1 ∧
    (rtt_ModEdgeSplit metricKernel topoOneEdgeCoarse 1 ⟨0, 0⟩ false).1.nodes =
      topoOneEdgeCoarse.nodes ∧
    (rtt_ModEdgeSplit metricKernel topoOneEdgeCoarse 1 ⟨0, 0⟩ false).1.edges =
      topoOneEdgeCoarse.edges :=
  have h := rtt_ModEdgeSplit_coincident_node metricKernel topoOneEdgeCoarse 1 ⟨0, 0⟩
    (by decide) ⟨⟨1, -1, ⟨0, 0⟩⟩, by decide, by decide⟩
  ⟨h.1, h.2.1, h.2.2.1⟩

end RTTopo

namespace RTTopo

/-! ## Seed scenario 6 -/

/-- Claim C18, where the claim fails: in the state of seed scenario 3 (edge `1` and the
new edge `2` both run from node `1` to node `2`, edge `2` bounds face `1` on its right
and the universe on its left), after `rtt_RemEdgeModFace(2)` the nodes `1` and `2` are
still the end nodes of edge `1` and their `containing_face` is `-1` (unset), not `0`. -/
theorem scenario6_endpoints_stay_unset :
    (rtt_AddEdgeModFace windingKernel topoOneEdge 1 2 [⟨0, 0⟩, ⟨5, 5⟩, ⟨10, 0⟩] false).2 = 2 ∧
    topoScenario3.edges.map
        (fun e => (e.edge_id, e.start_node, e.end_node, e.face_left, e.face_right)) =
      [(1, 1, 2, 1, 0), (2, 1, 2, 0, 1)] ∧
    (rtt_RemEdgeModFace windingKernel topoScenario3 2).2 ≠ -1 ∧
    (rtt_RemEdgeModFace windingKernel topoScenario3 2).1.edges.map
        (fun e => (e.edge_id, e.start_node, e.end_node)) = [(1, 1, 2)] ∧
    (rtt_RemEdgeModFace windingKernel topoScenario3 2).1.nodes.map
        (fun n => (n.node_id, n.containing_face)) = [(1, -1), (2, -1)] ∧
    ¬ (∀ n ∈ (rtt_RemEdgeModFace windingKernel topoScenario3 2).1.nodes,
        n.containing_face = 0) := by
  refine ⟨by decide, by decide, by decide, by decide, by decide, by decide⟩

/-- Claim C18 as amended: in the state of seed scenario 3, `rtt_RemEdgeModFace(2)`
succeeds and answers the flood face `0`; face `1` is dissolved into face `0` (its row is
deleted), edge `1` is left with `face_left = face_right = 0` and is linked to itself,
the node table is unchanged, and the two end nodes, which still bound edge `1`, keep
`containing_face = -1`: the result is the state of seed scenario 2 but for the
sequences. -/
theorem scenario6_RemEdgeModFace :
    topoScenario3.nodes = topoOneEdge.nodes ∧
    topoScenario3.faces.map (fun f => f.face_id) = [1] ∧
    topoScenario3.edges.map
        (fun e => (e.edge_id, e.start_node, e.end_node, e.face_left, e.face_right)) =
      [(1, 1, 2, 1, 0), (2, 1, 2, 0, 1)] ∧
    (rtt_RemEdgeModFace windingKernel topoScenario3 2).2 = 0 ∧
    (rtt_RemEdgeModFace windingKernel topoScenario3 2).1.faces = [] ∧
    (rtt_RemEdgeModFace windingKernel topoScenario3 2).1.edges = topoOneEdge.edges ∧
    (rtt_RemEdgeModFace windingKernel topoScenario3 2).1.edges.map
        (fun e => (e.edge_id, e.face_left, e.face_right)) = [(1, 0, 0)] ∧
    (rtt_RemEdgeModFace windingKernel topoScenario3 2).1.nodes = topoScenario3.nodes ∧
    (rtt_RemEdgeModFace windingKernel topoScenario3 2).1.nodes.map
        (fun n => (n.node_id, n.containing_face)) = [(1, -1), (2, -1)] ∧
    (rtt_RemEdgeModFace windingKernel topoScenario3 2).1.errors = [] := by
  refine ⟨by decide, by decide, by decide, by decide, by decide, by decide, by decide,
    by decide, by decide, by decide⟩

end RTTopo

namespace RTTopo

/-! ## The edge left by `_rtt_HealEdges` -/

/-- The vertices of the healed edge in each of the four cases, in terms of the signs
`e1freenode` and `e2freenode`. -/
theorem healPlan_geom {caseno c : Int} {e1 e2 : RTT_ISO_EDGE}
    (hcase : (caseno = 1 ∧ e1.end_node = c ∧ e2.start_node = c) ∨
     (caseno = 2 ∧ e1.end_node = c ∧ e2.end_node = c) ∨
     (caseno = 3 ∧ e1.start_node = c ∧ e2.start_node = c) ∨
     (caseno = 4 ∧ e1.start_node = c ∧ e2.end_node = c)) :
    (healPlan caseno e1 e2).newedge.geom =
      (if (healPlan caseno e1 e2).e1freenode = 1 then
        ptarray_append_ptarray e1.geom
          (if (healPlan caseno e1 e2).e2freenode = 1 then ptarray_reverse e2.geom
           else e2.geom)
       else
        ptarray_append_ptarray
          (if (healPlan caseno e1 e2).e2freenode = 1 then e2.geom
           else ptarray_reverse e2.geom) e1.geom) := by
  rcases hcase with ⟨rfl, -, -⟩ | ⟨rfl, -, -⟩ | ⟨rfl, -, -⟩ | ⟨rfl, -, -⟩ <;> rfl

/-- Claim C20, where the claim fails: in `topoTwoSpokes` edge `1` runs from node `2` to
node `1` and edge `2` from node `2` to node `3`, both dangling at their far end, so
`next_left` is `-1` on edge `1` and `-2` on edge `2`. `rtt_ModEdgeHeal(1, 2)` succeeds
and leaves edge `1` from node `3` to node `1` with `next_right = 1`, not the `-2` that
edge `2` held at its free end; `rtt_NewEdgeHeal(1, 2)` leaves edge `3` with
`next_left = -3` and `next_right = 3`, not the `-1` and `-2` held by the two edges. -/
theorem rtt_HealEdges_outer_links_renamed :
    topoTwoSpokes.edges.map
        (fun e => (e.edge_id, e.start_node, e.end_node, e.next_left, e.next_right)) =
      [(1, 2, 1, -1, 2), (2, 2, 3, -2, 1)] ∧
    (rtt_ModEdgeHeal topoTwoSpokes 1 2).2 = 2 ∧
    (rtt_ModEdgeHeal topoTwoSpokes 1 2).1.edges.map
        (fun e => (e.edge_id, e.start_node, e.end_node, e.next_left, e.next_right)) =
      [(1, 3, 1, -1, 1)] ∧
    (rtt_NewEdgeHeal topoTwoSpokes 1 2).2 = 3 ∧
    (rtt_NewEdgeHeal topoTwoSpokes 1 2).1.edges.map
        (fun e => (e.edge_id, e.start_node, e.end_node, e.next_left, e.next_right)) =
      [(3, 3, 1, -3, 3)] := by
  refine ⟨by decide, by decide, by decide, by decide, by decide⟩

/-- Claim C20 as amended: for a state with unique edge ids (and, for `rtt_NewEdgeHeal`,
an id sequence that is not the id of a stored edge nor its opposite) and a successful
heal of `eid1` and `eid2`, there are the stored rows `e1`, `e2`, the common node `c` and
the signs `f1`, `f2` (`1` when the edge ends on `c`, `-1` when it starts there) such
that: the call returns `c` (`rtt_ModEdgeHeal`) or the new id (`rtt_NewEdgeHeal`); node
`c` is deleted; the edge ids are the old ones less `eid2` (less `eid1` too and with the
new id for `rtt_NewEdgeHeal`); the healed row has the id `eid1` or the new id, the faces
of `e1`, runs from one free end node to the other in the direction of `e1`, with the
vertices of both edges, and takes `next_left` and `next_right` from the fields of `e1`
and `e2` at their free ends, where a value that designates the half-edge of `e2` (or of
`e1`) leaving its free end node is replaced by the half-edge of the healed edge leaving
that node. -/
theorem rtt_HealEdges_result (T : RTT_TOPOLOGY) (eid1 eid2 : Int) (modEdge : Bool)
    (hnd : (T.edges.map (fun e => e.edge_id)).Nodup)
    (hfresh : modEdge = false →
      ∀ e ∈ T.edges, e.edge_id ≠ T.edge_seq ∧ e.edge_id ≠ -T.edge_seq)
    (hok : (_rtt_HealEdges T eid1 eid2 modEdge).2 ≠ -1) :
    ∃ (e1 e2 healed : RTT_ISO_EDGE) (c f1 f2 newid : Int),
      e1 ∈ T.edges ∧ e1.edge_id = eid1 ∧ e2 ∈ T.edges ∧ e2.edge_id = eid2 ∧
      (f1 = 1 ∨ f1 = -1) ∧ (f2 = 1 ∨ f2 = -1) ∧
      (if f1 = 1 then e1.end_node else e1.start_node) = c ∧
      (if f2 = 1 then e2.end_node else e2.start_node) = c ∧
      newid = (if modEdge = true then eid1 else T.edge_seq) ∧
      (_rtt_HealEdges T eid1 eid2 modEdge).2 = (if modEdge = true then c else newid) ∧
      (_rtt_HealEdges T eid1 eid2 modEdge).1.nodes =
        T.nodes.filter (fun n => !decide (n.node_id ∈ [c])) ∧
      (_rtt_HealEdges T eid1 eid2 modEdge).1.edges.map (fun e => e.edge_id) =
        (T.edges.map (fun e => e.edge_id) ++ (if modEdge = true then [] else [newid])).filter
          (fun i => !decide (i = eid2) && (modEdge || !decide (i = eid1))) ∧
      healed ∈ (_rtt_HealEdges T eid1 eid2 modEdge).1.edges ∧
      healed.edge_id = newid ∧
      healed.face_left = e1.face_left ∧ healed.face_right = e1.face_right ∧
      healed.start_node =
        (if f1 = 1 then e1.start_node else if f2 = 1 then e2.start_node else e2.end_node) ∧
      healed.end_node =
        (if f1 = 1 then (if f2 = 1 then e2.start_node else e2.end_node) else e1.end_node) ∧
      healed.geom =
        (if f1 = 1 then
          ptarray_append_ptarray e1.geom (if f2 = 1 then ptarray_reverse e2.geom else e2.geom)
         else
          ptarray_append_ptarray (if f2 = 1 then e2.geom else ptarray_reverse e2.geom)
            e1.geom) ∧
      healed.next_left =
        (fun v : Int => if v = f2 * eid2 then -(f1 * newid)
          else if v = f1 * eid1 then f1 * newid else v)
        (if f1 = 1 then (if f2 = 1 then e2.next_right else e2.next_left)
         else e1.next_left) ∧
      healed.next_right =
        (fun v : Int => if v = f2 * eid2 then -(f1 * newid)
          else if v = f1 * eid1 then f1 * newid else v)
        (if f1 = 1 then e1.next_right
         else if f2 = 1 then e2.next_right else e2.next_left) := by
  obtain ⟨e1, e2, s, h1, h2, i1, i2, hne, -, -, -, -, hcase, -, hR, hret⟩ :=
    rtt_HealEdges_ok rfl hok hnd
  subst i1 i2
  obtain ⟨hf1, hf2, hs, harr1, harr2, hstart, hend, hnl, hnr⟩ := healPlan_facts hcase
  have hgeom := healPlan_geom hcase
  have hE : (_rtt_HealEdges T e1.edge_id e2.edge_id modEdge).1.edges =
      healEdges T.edges e1 e2 (if modEdge = true then e1.edge_id else T.edge_seq)
        (healPlan s.caseno e1 e2) modEdge := by rw [hR]
  have hN : (_rtt_HealEdges T e1.edge_id e2.edge_id modEdge).1.nodes =
      T.nodes.filter (fun n => !decide (n.node_id ∈ [s.commonnode])) := by rw [hR]
  have hnew : (modEdge = true ∧
        (if modEdge = true then e1.edge_id else T.edge_seq) = e1.edge_id) ∨
      (modEdge = false ∧
        (if modEdge = true then e1.edge_id else T.edge_seq) ≠ e1.edge_id ∧
        (if modEdge = true then e1.edge_id else T.edge_seq) ≠ e2.edge_id) := by
    cases modEdge with
    | true => exact Or.inl ⟨rfl, rfl⟩
    | false =>
      exact Or.inr ⟨rfl, fun h => (hfresh rfl e1 h1).1 h.symm,
        fun h => (hfresh rfl e2 h2).1 h.symm⟩
  have hv := healValue_eq e1.edge_id e2.edge_id
    (if modEdge = true then e1.edge_id else T.edge_seq) (healPlan s.caseno e1 e2) modEdge
    hf1 hf2 hs (by intro m; rw [if_pos m])
    (by
      intro m
      subst m
      have k := hfresh rfl e1 h1
      exact ⟨fun h => k.1 h.symm, fun h => k.2 (by
        have h' : T.edge_seq = -e1.edge_id := h
        omega)⟩)
  have hret' : (_rtt_HealEdges T e1.edge_id e2.edge_id modEdge).2 =
      (if modEdge = true then s.commonnode
       else (if modEdge = true then e1.edge_id else T.edge_seq)) := by
    rw [hret]
    cases modEdge <;> rfl
  generalize (if modEdge = true then e1.edge_id else T.edge_seq) = newid at *
  generalize healPlan s.caseno e1 e2 = p at *
  refine ⟨e1, e2, healRow e1.edge_id e2.edge_id newid p modEdge (healStored e1 newid p),
    s.commonnode, p.e1freenode, p.e2freenode, newid, h1, rfl, h2, rfl, hf1, hf2, harr1,
    harr2, rfl, hret', hN, ?_, ?_, rfl, rfl, rfl, hstart, hend, hgeom, ?_, ?_⟩
  · rw [hE]
    exact healEdges_ids T.edges e1 e2 newid p modEdge
  · rw [hE]
    exact (mem_healEdges h1 hne hnew).2 (Or.inr rfl)
  · show healValue e1.edge_id e2.edge_id newid p modEdge p.newedge.next_left = _
    rw [hv, hnl]
  · show healValue e1.edge_id e2.edge_id newid p modEdge p.newedge.next_right = _
    rw [hv, hnr]

theorem rtt_HealEdges_result_witness :
    ∃ (e1 e2 healed : RTT_ISO_EDGE) (c f1 f2 newid : Int),
      e1 ∈ topoTwoSpokes.edges ∧ e1.edge_id = 1 ∧ e2 ∈ topoTwoSpokes.edges ∧ e2.edge_id = 2 ∧
      (f1 = 1 ∨ f1 = -1) ∧ (f2 = 1 ∨ f2 = -1) ∧
      (if f1 = 1 then e1.end_node else e1.start_node) = c ∧
      (if f2 = 1 then e2.end_node else e2.start_node) = c ∧
      newid = (if false = true then 1 else topoTwoSpokes.edge_seq) ∧
      (_rtt_HealEdges topoTwoSpokes 1 2 false).2 = (if false = true then c else newid) ∧
      (_rtt_HealEdges topoTwoSpokes 1 2 false).1.nodes =
        topoTwoSpokes.nodes.filter (fun n => !decide (n.node_id ∈ [c])) ∧
      (_rtt_HealEdges topoTwoSpokes 1 2 false).1.edges.map (fun e => e.edge_id) =
        (topoTwoSpokes.edges.map (fun e => e.edge_id) ++
          (if false = true then [] else [newid])).filter
          (fun i => !decide (i = 2) && (false || !decide (i = 1))) ∧
      healed ∈ (_rtt_HealEdges topoTwoSpokes 1 2 false).1.edges ∧
      healed.edge_id = newid ∧
      healed.face_left = e1.face_left ∧ healed.face_right = e1.face_right ∧
      healed.start_node =
        (if f1 = 1 then e1.start_node else if f2 = 1 then e2.start_node else e2.end_node) ∧
      healed.end_node =
        (if f1 = 1 then (if f2 = 1 then e2.start_node else e2.end_node) else e1.end_node) ∧
      healed.geom =
        (if f1 = 1 then
          ptarray_append_ptarray e1.geom (if f2 = 1 then ptarray_reverse e2.geom else e2.geom)
         else
          ptarray_append_ptarray (if f2 = 1 then e2.geom else ptarray_reverse e2.geom)
            e1.geom) ∧
      healed.next_left =
        (fun v : Int => if v = f2 * 2 then -(f1 * newid)
          else if v = f1 * 1 then f1 * newid else v)
        (if f1 = 1 then (if f2 = 1 then e2.next_right else e2.next_left)
         else e1.next_left) ∧
      healed.next_right =
        (fun v : Int => if v = f2 * 2 then -(f1 * newid)
          else if v = f1 * 1 then f1 * newid else v)
        (if f1 = 1 then e1.next_right
         else if f2 = 1 then e2.next_right else e2.next_left) :=
  rtt_HealEdges_result topoTwoSpokes 1 2 false (by decide) (by decide) (by decide)

end RTTopo

namespace RTTopo

/-! ## How `_rtt_HealEdges` fails -/

/-- With unique ids the lookup loop finds the rows that `find?` finds. -/
theorem healFind_nodup (eid1 eid2 : Int) (hne : eid1 ≠ eid2) (l : List RTT_ISO_EDGE)
    (hnd : (l.map (fun e => e.edge_id)).Nodup) (a b : Option RTT_ISO_EDGE)
    (ha : a ≠ none → ∀ x ∈ l, x.edge_id ≠ eid1)
    (hb : b ≠ none → ∀ x ∈ l, x.edge_id ≠ eid2) :
    healFind eid1 eid2 l a b =
      .ok ((match l.find? (fun x => decide (x.edge_id = eid1)) with
            | some x => some x
            | none => a),
           (match l.find? (fun x => decide (x.edge_id = eid2)) with
            | some x => some x
            | none => b)) := by
  induction l generalizing a b with
  | nil => rfl
  | cons x rest ih =>
    have hnd' : (rest.map (fun e => e.edge_id)).Nodup := (List.nodup_cons.1 hnd).2
    have hx : ∀ y ∈ rest, y.edge_id ≠ x.edge_id := by
      intro y hy e
      exact (List.nodup_cons.1 hnd).1 (List.mem_map.2 ⟨y, hy, e⟩)
    unfold healFind
    by_cases c1 : x.edge_id = eid1
    · rw [if_pos c1]
      have ha' : a = none := by
        by_contra hn
        exact ha hn x (List.mem_cons_self _ _) c1
      subst ha'
      dsimp only
      have hnone1 : rest.find? (fun y => decide (y.edge_id = eid1)) = none := by
        rw [List.find?_eq_none]
        intro y hy
        have := hx y hy
        simp only [decide_eq_true_eq]
        rw [← c1]
        exact this
      rw [ih hnd' (some x) b (fun _ y hy => by rw [← c1]; exact hx y hy)
        (fun hn y hy => hb hn y (List.mem_cons_of_mem _ hy)), hnone1]
      have hf1 : (x :: rest).find? (fun y => decide (y.edge_id = eid1)) = some x := by
        rw [List.find?_cons_of_pos]
        simp only [decide_eq_true_eq]
        exact c1
      have hf2 : (x :: rest).find? (fun y => decide (y.edge_id = eid2)) =
          rest.find? (fun y => decide (y.edge_id = eid2)) := by
        rw [List.find?_cons_of_neg]
        simp only [decide_eq_true_eq]
        rw [c1]
        exact hne
      rw [hf1, hf2]
    · rw [if_neg c1]
      have hf1 : (x :: rest).find? (fun y => decide (y.edge_id = eid1)) =
          rest.find? (fun y => decide (y.edge_id = eid1)) := by
        rw [List.find?_cons_of_neg]
        simp only [decide_eq_true_eq]
        exact c1
      by_cases c2 : x.edge_id = eid2
      · rw [if_pos c2]
        have hb' : b = none := by
          by_contra hn
          exact hb hn x (List.mem_cons_self _ _) c2
        subst hb'
        dsimp only
        have hnone2 : rest.find? (fun y => decide (y.edge_id = eid2)) = none := by
          rw [List.find?_eq_none]
          intro y hy
          have := hx y hy
          simp only [decide_eq_true_eq]
          rw [← c2]
          exact this
        rw [ih hnd' a (some x) (fun hn y hy => ha hn y (List.mem_cons_of_mem _ hy))
          (fun _ y hy => by rw [← c2]; exact hx y hy), hnone2]
        have hf2 : (x :: rest).find? (fun y => decide (y.edge_id = eid2)) = some x := by
          rw [List.find?_cons_of_pos]
          simp only [decide_eq_true_eq]
          exact c2
        rw [hf1, hf2]
      · rw [if_neg c2]
        have hf2 : (x :: rest).find? (fun y => decide (y.edge_id = eid2)) =
            rest.find? (fun y => decide (y.edge_id = eid2)) := by
          rw [List.find?_cons_of_neg]
          simp only [decide_eq_true_eq]
          exact c2
        rw [ih hnd' a b (fun hn y hy => ha hn y (List.mem_cons_of_mem _ hy))
          (fun hn y hy => hb hn y (List.mem_cons_of_mem _ hy)), hf1, hf2]

/-- Looking up an id among the rows fetched for a list of ids that holds it. -/
theorem find_fetched (es : List RTT_ISO_EDGE) (ids : List Int) (id : Int) (hid : id ∈ ids) :
    (es.filter (fun e => decide (e.edge_id ∈ ids))).find? (fun x => decide (x.edge_id = id)) =
      edgeRow es id := by
  unfold edgeRow
  rw [List.find?_filter]
  congr 1
  funext x
  by_cases c : x.edge_id = id
  · have hin : x.edge_id ∈ ids := by rw [c]; exact hid
    simp [c, hid]
  · simp [c]

theorem edgeRow_none {es : List RTT_ISO_EDGE} {id : Int} (h : ∀ e ∈ es, e.edge_id ≠ id) :
    edgeRow es id = none := by
  unfold edgeRow
  rw [List.find?_eq_none]
  intro x hx
  simp only [decide_eq_true_eq]
  exact h x hx

theorem edgeRow_mem {es : List RTT_ISO_EDGE} (hnd : (es.map (fun e => e.edge_id)).Nodup)
    {e : RTT_ISO_EDGE} {id : Int} (he : e ∈ es) (hid : e.edge_id = id) :
    edgeRow es id = some e := by
  rw [← hid]
  exact edgeRow_of_mem hnd he

/-- The rows that `_rtt_HealEdges` works on, for a back end that answers and a table with
unique ids. -/
theorem rtt_HealEdges_rows (T : RTT_TOPOLOGY) (eid1 eid2 : Int) (modEdge : Bool)
    (hq : BeCall.getEdgeById ∉ T.failing)
    (hnd : (T.edges.map (fun e => e.edge_id)).Nodup) (hne : eid1 ≠ eid2) :
    _rtt_HealEdges T eid1 eid2 modEdge =
      match edgeRow T.edges eid1, edgeRow T.edges eid2 with
      | none, _ => (rterror T "SQL/MM Spatial exception - non-existent edge eid1", -1)
      | some _, none => (rterror T "SQL/MM Spatial exception - non-existent edge eid2", -1)
      | some e1, some e2 => healFound T e1 e2 eid1 eid2 modEdge := by
  unfold _rtt_HealEdges
  rw [if_neg hne]
  have hg : rtt_be_getEdgeById T [eid1, eid2] =
      some (T.edges.filter (fun e => decide (e.edge_id ∈ [eid1, eid2]))) := by
    unfold rtt_be_getEdgeById
    rw [if_neg hq]
  rw [hg]
  dsimp only
  rw [healFind_nodup eid1 eid2 hne _ (nodup_filter_ids _ hnd) none none
    (fun h => absurd rfl h) (fun h => absurd rfl h)]
  rw [find_fetched T.edges [eid1, eid2] eid1 (List.mem_cons_self _ _),
    find_fetched T.edges [eid1, eid2] eid2 (List.mem_cons_of_mem _ (List.mem_cons_self _ _))]
  cases h1 : edgeRow T.edges eid1 with
  | none => rfl
  | some e1 =>
    cases h2 : edgeRow T.edges eid2 with
    | none => rfl
    | some e2 => rfl

end RTTopo

namespace RTTopo

/-! ## The search for the common node -/

/-- An edge other than the two being healed resets the candidate node. -/
theorem healScanEdges_third (eid1 eid2 : Int) (l : List RTT_ISO_EDGE) (s : HealScan)
    (h : ∃ x ∈ l, x.edge_id ≠ eid1 ∧ x.edge_id ≠ eid2) :
    healScanEdges eid1 eid2 l s = { s with commonnode := -1, other := true } := by
  induction l generalizing s with
  | nil =>
    obtain ⟨x, hx, -⟩ := h
    exact absurd hx (List.not_mem_nil x)
  | cons x rest ih =>
    have hstep : healScanEdges eid1 eid2 (x :: rest) s =
        healScanEdges eid1 eid2 rest
          (if x.edge_id = eid1 then s
           else if x.edge_id = eid2 then s
           else { s with commonnode := -1, other := true }) := rfl
    rw [hstep]
    by_cases hr : ∃ y ∈ rest, y.edge_id ≠ eid1 ∧ y.edge_id ≠ eid2
    · rw [ih _ hr]
      by_cases c1 : x.edge_id = eid1
      · rw [if_pos c1]
      · rw [if_neg c1]
        by_cases c2 : x.edge_id = eid2
        · rw [if_pos c2]
        · rw [if_neg c2]
    · have hall : ∀ y ∈ rest, y.edge_id = eid1 ∨ y.edge_id = eid2 := by
        intro y hy
        by_contra hn
        exact hr ⟨y, hy, fun e => hn (Or.inl e), fun e => hn (Or.inr e)⟩
      rw [healScanEdges_all eid1 eid2 rest _ hall]
      obtain ⟨y, hy, n1, n2⟩ := h
      rcases List.mem_cons.1 hy with e | hy'
      · subst e
        rw [if_neg n1, if_neg n2]
      · exact absurd ⟨y, hy', n1, n2⟩ hr

theorem healCheckNode_unset (T : RTT_TOPOLOGY) (eid1 eid2 : Int) (s : HealScan)
    (h : s.commonnode = -1) : healCheckNode T eid1 eid2 s = some s := by
  unfold healCheckNode
  rw [if_neg (fun hn => hn h)]

theorem healCheckNode_free (T : RTT_TOPOLOGY) (eid1 eid2 : Int) (s : HealScan)
    (hq : BeCall.getEdgeByNode ∉ T.failing)
    (h : ∀ x ∈ T.edges, (x.start_node = s.commonnode ∨ x.end_node = s.commonnode) →
      x.edge_id = eid1 ∨ x.edge_id = eid2) :
    healCheckNode T eid1 eid2 s = some s := by
  by_cases c : s.commonnode = -1
  · exact healCheckNode_unset T eid1 eid2 s c
  unfold healCheckNode rtt_be_getEdgeByNode
  rw [if_pos c, if_neg hq]
  dsimp only
  rw [healScanEdges_all]
  intro x hx
  have hx' := List.mem_filter.1 hx
  apply h x hx'.1
  have := hx'.2
  simp only [List.mem_singleton, Bool.or_eq_true, decide_eq_true_eq] at this
  exact this

theorem healCheckNode_third (T : RTT_TOPOLOGY) (eid1 eid2 : Int) (s : HealScan)
    (hq : BeCall.getEdgeByNode ∉ T.failing) (hc : s.commonnode ≠ -1)
    (h : ∃ x ∈ T.edges, x.edge_id ≠ eid1 ∧ x.edge_id ≠ eid2 ∧
      (x.start_node = s.commonnode ∨ x.end_node = s.commonnode)) :
    healCheckNode T eid1 eid2 s = some { s with commonnode := -1, other := true } := by
  unfold healCheckNode rtt_be_getEdgeByNode
  rw [if_pos hc, if_neg hq]
  dsimp only
  rw [healScanEdges_third]
  obtain ⟨x, hx, n1, n2, hn⟩ := h
  refine ⟨x, List.mem_filter.2 ⟨hx, ?_⟩, n1, n2⟩
  simp only [List.mem_singleton, Bool.or_eq_true, decide_eq_true_eq]
  exact hn

/-- What the search for the common node yields, for a back end that answers: a node
when some end node shared by the two open edges has no other edge, and else the note
whether a shared node was seen. -/
theorem healCommon_class (T : RTT_TOPOLOGY) (eid1 eid2 : Int) (e1 e2 : RTT_ISO_EDGE)
    (hq : BeCall.getEdgeByNode ∉ T.failing)
    (hs1 : e1.start_node ≠ -1) (ht1 : e1.end_node ≠ -1) :
    ∃ s, healCommon T eid1 eid2 e1 e2 = some s ∧
      (s.commonnode ≠ -1 ↔
        ∃ n, ((n = e1.start_node ∨ n = e1.end_node) ∧
              (n = e2.start_node ∨ n = e2.end_node)) ∧
          ¬ ∃ x ∈ T.edges, x.edge_id ≠ eid1 ∧ x.edge_id ≠ eid2 ∧
            (x.start_node = n ∨ x.end_node = n)) ∧
      (s.commonnode = -1 →
        (s.other = true ↔
          ∃ n, (n = e1.start_node ∨ n = e1.end_node) ∧
               (n = e2.start_node ∨ n = e2.end_node))) ∧
      (s.commonnode ≠ -1 → s.caseno = 1 ∨ s.caseno = 2 ∨ s.caseno = 3 ∨ s.caseno = 4) := by
  -- the candidate taken from the end node of the first edge
  have hA : ∃ A : HealScan,
      (if e1.end_node = e2.start_node then
        ({ commonnode := e1.end_node, caseno := 1, other := false } : HealScan)
       else if e1.end_node = e2.end_node then
        { commonnode := e1.end_node, caseno := 2, other := false }
       else { commonnode := -1, caseno := 0, other := false }) = A ∧
      A.other = false ∧
      ((e1.end_node = e2.start_node ∨ e1.end_node = e2.end_node) →
        A.commonnode = e1.end_node ∧ (A.caseno = 1 ∨ A.caseno = 2)) ∧
      (¬ (e1.end_node = e2.start_node ∨ e1.end_node = e2.end_node) → A.commonnode = -1) := by
    refine ⟨_, rfl, ?_, ?_, ?_⟩
    · split_ifs <;> rfl
    · intro h
      by_cases c1 : e1.end_node = e2.start_node
      · rw [if_pos c1]; exact ⟨rfl, Or.inl rfl⟩
      · rw [if_neg c1]
        have c2 : e1.end_node = e2.end_node := h.resolve_left c1
        rw [if_pos c2]; exact ⟨rfl, Or.inr rfl⟩
    · intro h
      rw [if_neg (fun c => h (Or.inl c)), if_neg (fun c => h (Or.inr c))]
  obtain ⟨A, hAeq, hAo, hAs, hAn⟩ := hA
  -- the candidate taken from the start node of the first edge
  have hB : ∀ s1 : HealScan, ∃ B : HealScan,
      (if e1.start_node = e2.start_node then
        ({ s1 with commonnode := e1.start_node, caseno := 3 } : HealScan)
       else if e1.start_node = e2.end_node then
        { s1 with commonnode := e1.start_node, caseno := 4 }
       else s1) = B ∧
      B.other = s1.other ∧
      ((e1.start_node = e2.start_node ∨ e1.start_node = e2.end_node) →
        B.commonnode = e1.start_node ∧ (B.caseno = 3 ∨ B.caseno = 4)) ∧
      (¬ (e1.start_node = e2.start_node ∨ e1.start_node = e2.end_node) → B = s1) := by
    intro s1
    refine ⟨_, rfl, ?_, ?_, ?_⟩
    · split_ifs <;> rfl
    · intro h
      by_cases c1 : e1.start_node = e2.start_node
      · rw [if_pos c1]; exact ⟨rfl, Or.inl rfl⟩
      · rw [if_neg c1]
        have c2 : e1.start_node = e2.end_node := h.resolve_left c1
        rw [if_pos c2]; exact ⟨rfl, Or.inr rfl⟩
    · intro h
      rw [if_neg (fun c => h (Or.inl c)), if_neg (fun c => h (Or.inr c))]
  unfold healCommon
  rw [hAeq]
  clear hAeq
  -- the second stage, run on a first-stage result without a node
  have stage2 : ∀ s1 : HealScan, s1.commonnode = -1 →
      (s1.other = true ↔ ((e1.end_node = e2.start_node ∨ e1.end_node = e2.end_node) ∧
        ∃ x ∈ T.edges, x.edge_id ≠ eid1 ∧ x.edge_id ≠ eid2 ∧
          (x.start_node = e1.end_node ∨ x.end_node = e1.end_node))) →
      ((e1.end_node = e2.start_node ∨ e1.end_node = e2.end_node) → s1.other = true) →
      ∃ s, healCheckNode T eid1 eid2
          (if e1.start_node = e2.start_node then
            ({ s1 with commonnode := e1.start_node, caseno := 3 } : HealScan)
           else if e1.start_node = e2.end_node then
            { s1 with commonnode := e1.start_node, caseno := 4 }
           else s1) = some s ∧
        (s.commonnode ≠ -1 ↔
          ∃ n, ((n = e1.start_node ∨ n = e1.end_node) ∧
                (n = e2.start_node ∨ n = e2.end_node)) ∧
            ¬ ∃ x ∈ T.edges, x.edge_id ≠ eid1 ∧ x.edge_id ≠ eid2 ∧
              (x.start_node = n ∨ x.end_node = n)) ∧
        (s.commonnode = -1 →
          (s.other = true ↔
            ∃ n, (n = e1.start_node ∨ n = e1.end_node) ∧
                 (n = e2.start_node ∨ n = e2.end_node))) ∧
        (s.commonnode ≠ -1 →
          s.caseno = 1 ∨ s.caseno = 2 ∨ s.caseno = 3 ∨ s.caseno = 4) := by
    intro s1 hs1c hs1o hs1sh
    obtain ⟨B, hBeq, hBo, hBs, hBn⟩ := hB s1
    rw [hBeq]
    clear hBeq
    by_cases S2 : e1.start_node = e2.start_node ∨ e1.start_node = e2.end_node
    · obtain ⟨hBc, hBcase⟩ := hBs S2
      have hBne : B.commonnode ≠ -1 := by rw [hBc]; exact hs1
      by_cases th2 : ∃ x ∈ T.edges, x.edge_id ≠ eid1 ∧ x.edge_id ≠ eid2 ∧
          (x.start_node = e1.start_node ∨ x.end_node = e1.start_node)
      · refine ⟨_, healCheckNode_third T eid1 eid2 B hq hBne (by rw [hBc]; exact th2),
          ?_, ?_, ?_⟩
        · constructor
          · intro h; exact absurd rfl h
          · rintro ⟨n, ⟨hn1, hn2⟩, hfree⟩
            exfalso
            rcases hn1 with e | e
            · rw [e] at hfree; exact hfree th2
            · rw [e] at hfree hn2
              have hsh : e1.end_node = e2.start_node ∨ e1.end_node = e2.end_node := hn2
              exact hfree ((hs1o.1 (hs1sh hsh)).2)
        · intro _
          constructor
          · intro _
            exact ⟨e1.start_node, Or.inl rfl, S2⟩
          · intro _; rfl
        · intro h; exact absurd rfl h
      · have hfree : ∀ x ∈ T.edges,
            (x.start_node = B.commonnode ∨ x.end_node = B.commonnode) →
            x.edge_id = eid1 ∨ x.edge_id = eid2 := by
          intro x hx hn
          rw [hBc] at hn
          by_contra hcon
          exact th2 ⟨x, hx, fun e => hcon (Or.inl e), fun e => hcon (Or.inr e), hn⟩
        refine ⟨B, healCheckNode_free T eid1 eid2 B hq hfree, ?_, ?_, ?_⟩
        · constructor
          · intro _
            exact ⟨e1.start_node, ⟨Or.inl rfl, S2⟩, th2⟩
          · intro _; exact hBne
        · intro h; exact absurd h hBne
        · intro _
          rcases hBcase with k | k
          · exact Or.inr (Or.inr (Or.inl k))
          · exact Or.inr (Or.inr (Or.inr k))
    · have hBs1 := hBn S2
      subst hBs1
      refine ⟨B, healCheckNode_unset T eid1 eid2 B hs1c, ?_, ?_, ?_⟩
      · constructor
        · intro h; exact absurd hs1c h
        · rintro ⟨n, ⟨hn1, hn2⟩, hfree⟩
          exfalso
          rcases hn1 with e | e
          · rw [e] at hn2; exact S2 hn2
          · rw [e] at hfree hn2
            have hsh : e1.end_node = e2.start_node ∨ e1.end_node = e2.end_node := hn2
            exact hfree ((hs1o.1 (hs1sh hsh)).2)
      · intro _
        constructor
        · intro ho
          exact ⟨e1.end_node, Or.inr rfl, (hs1o.1 ho).1⟩
        · rintro ⟨n, hn1, hn2⟩
          rcases hn1 with e | e
          · rw [e] at hn2; exact absurd hn2 S2
          · rw [e] at hn2; exact hs1sh hn2
      · intro h; exact absurd hs1c h
  by_cases S1 : e1.end_node = e2.start_node ∨ e1.end_node = e2.end_node
  · obtain ⟨hAc, hAcase⟩ := hAs S1
    have hAne : A.commonnode ≠ -1 := by rw [hAc]; exact ht1
    by_cases th1 : ∃ x ∈ T.edges, x.edge_id ≠ eid1 ∧ x.edge_id ≠ eid2 ∧
        (x.start_node = e1.end_node ∨ x.end_node = e1.end_node)
    · rw [healCheckNode_third T eid1 eid2 A hq hAne (by rw [hAc]; exact th1)]
      dsimp only
      rw [if_pos (rfl : (-1 : Int) = -1)]
      exact stage2 { A with commonnode := -1, other := true } rfl
        ⟨fun _ => ⟨S1, th1⟩, fun _ => rfl⟩ (fun _ => rfl)
    · have hfree : ∀ x ∈ T.edges,
          (x.start_node = A.commonnode ∨ x.end_node = A.commonnode) →
          x.edge_id = eid1 ∨ x.edge_id = eid2 := by
        intro x hx hn
        rw [hAc] at hn
        by_contra hcon
        exact th1 ⟨x, hx, fun e => hcon (Or.inl e), fun e => hcon (Or.inr e), hn⟩
      rw [healCheckNode_free T eid1 eid2 A hq hfree]
      dsimp only
      rw [if_neg hAne]
      refine ⟨A, rfl, ?_, ?_, ?_⟩
      · constructor
        · intro _
          exact ⟨e1.end_node, ⟨Or.inr rfl, S1⟩, th1⟩
        · intro _; exact hAne
      · intro h; exact absurd h hAne
      · intro _
        rcases hAcase with k | k
        · exact Or.inl k
        · exact Or.inr (Or.inl k)
  · have hAc := hAn S1
    rw [healCheckNode_unset T eid1 eid2 A hAc]
    dsimp only
    rw [if_pos hAc]
    exact stage2 A hAc
      ⟨fun h => by rw [hAo] at h; exact absurd h (by decide), fun h => absurd h.1 S1⟩
      (fun h => absurd h S1)

end RTTopo

namespace RTTopo

/-! ## `_rtt_HealEdges` on a back end that answers -/

theorem length_ne_neg_one {α : Type} (l : List α) : (l.length : Int) ≠ -1 := by
  have := Int.natCast_nonneg l.length
  omega

theorem healStore_run (T : RTT_TOPOLOGY) (e1 newedge : RTT_ISO_EDGE) (modEdge : Bool)
    (hbe : T.failing = []) (h1 : e1 ∈ T.edges) :
    ∃ T1, healStore T e1 newedge e1.edge_id modEdge =
        (T1, some (if modEdge = true then e1.edge_id else T.edge_seq)) ∧
      T1.failing = [] := by
  unfold healStore
  cases modEdge with
  | true =>
    rw [if_pos rfl]
    dsimp only
    have hu : (rtt_be_updateEdgesById T [{ newedge with edge_id := e1.edge_id }]
        [RTT_COL_EDGE.NEXT_LEFT, RTT_COL_EDGE.NEXT_RIGHT, RTT_COL_EDGE.START_NODE,
         RTT_COL_EDGE.END_NODE, RTT_COL_EDGE.GEOM]).2 = 1 ∧
        (rtt_be_updateEdgesById T [{ newedge with edge_id := e1.edge_id }]
        [RTT_COL_EDGE.NEXT_LEFT, RTT_COL_EDGE.NEXT_RIGHT, RTT_COL_EDGE.START_NODE,
         RTT_COL_EDGE.END_NODE, RTT_COL_EDGE.GEOM]).1.failing = [] := by
      unfold rtt_be_updateEdgesById
      rw [if_neg (by rw [hbe]; exact List.not_mem_nil _)]
      have hany : T.edges.any (fun e => decide (e.edge_id = e1.edge_id)) = true :=
        List.any_eq_true.2 ⟨e1, h1, by simp⟩
      have hcount : ([({ newedge with edge_id := e1.edge_id } : RTT_ISO_EDGE)].filter
          (fun u => T.edges.any (fun e => decide (e.edge_id = u.edge_id)))).length = 1 := by
        simp only [List.filter_cons, hany, if_true, List.filter_nil, List.length_singleton]
      dsimp only
      rw [hcount]
      exact ⟨rfl, hbe⟩
    generalize rtt_be_updateEdgesById T [{ newedge with edge_id := e1.edge_id }]
        [RTT_COL_EDGE.NEXT_LEFT, RTT_COL_EDGE.NEXT_RIGHT, RTT_COL_EDGE.START_NODE,
         RTT_COL_EDGE.END_NODE, RTT_COL_EDGE.GEOM] = u at hu ⊢
    rw [hu.1, if_neg (by decide), if_neg (by decide)]
    exact ⟨_, rfl, hu.2⟩
  | false =>
    rw [if_neg Bool.false_ne_true]
    dsimp only
    have hi : (rtt_be_insertEdges T
        [{ newedge with edge_id := -1, face_left := e1.face_left,
                        face_right := e1.face_right }]).2.2 = 1 ∧
        ((rtt_be_insertEdges T
        [{ newedge with edge_id := -1, face_left := e1.face_left,
                        face_right := e1.face_right }]).2.1.headD blankEdge).edge_id =
          T.edge_seq ∧
        (rtt_be_insertEdges T
        [{ newedge with edge_id := -1, face_left := e1.face_left,
                        face_right := e1.face_right }]).1.failing = [] := by
      unfold rtt_be_insertEdges
      rw [if_neg (by rw [hbe]; exact List.not_mem_nil _)]
      exact ⟨rfl, rfl, hbe⟩
    generalize rtt_be_insertEdges T
        [{ newedge with edge_id := -1, face_left := e1.face_left,
                        face_right := e1.face_right }] = i at hi ⊢
    rw [hi.1, if_neg (by decide), if_neg (by decide), hi.2.1]
    exact ⟨_, rfl, hi.2.2⟩

theorem updateEdges_run (T : RTT_TOPOLOGY) (sel upd exc : RTT_ISO_EDGE)
    (sf uf ef : List RTT_COL_EDGE) (h : T.failing = []) :
    (rtt_be_updateEdges T sel sf upd uf exc ef).2 ≠ -1 ∧
    (rtt_be_updateEdges T sel sf upd uf exc ef).1.failing = [] := by
  unfold rtt_be_updateEdges
  rw [if_neg (by rw [h]; exact List.not_mem_nil _)]
  exact ⟨length_ne_neg_one _, h⟩

theorem deleteEdges_run (T : RTT_TOPOLOGY) (sel : RTT_ISO_EDGE) (sf : List RTT_COL_EDGE)
    (h : T.failing = []) :
    (rtt_be_deleteEdges T sel sf).2 ≠ -1 ∧ (rtt_be_deleteEdges T sel sf).1.failing = [] := by
  unfold rtt_be_deleteEdges
  rw [if_neg (by rw [h]; exact List.not_mem_nil _)]
  exact ⟨length_ne_neg_one _, h⟩

theorem deleteNodesById_run (T : RTT_TOPOLOGY) (ids : List Int) (h : T.failing = []) :
    (rtt_be_deleteNodesById T ids).2 ≠ -1 ∧ (rtt_be_deleteNodesById T ids).1.failing = [] := by
  unfold rtt_be_deleteNodesById
  rw [if_neg (by rw [h]; exact List.not_mem_nil _)]
  exact ⟨length_ne_neg_one _, h⟩

theorem hook_run (T : RTT_TOPOLOGY) (c : BeCall) (h : T.failing = []) :
    rtt_be_hook T c ≠ 0 := by
  unfold rtt_be_hook
  rw [if_neg (by rw [h]; exact List.not_mem_nil _)]
  decide

theorem healRelink_run (T : RTT_TOPOLOGY) (sel upd : Int) (hbe : T.failing = []) :
    ∃ T1, healRelink T sel upd = (T1, 0) ∧ T1.failing = [] := by
  unfold healRelink
  dsimp only
  obtain ⟨r1, f1⟩ := updateEdges_run T { blankEdge with next_left := sel }
    { blankEdge with next_left := upd } blankEdge [RTT_COL_EDGE.NEXT_LEFT]
    [RTT_COL_EDGE.NEXT_LEFT] [] hbe
  generalize rtt_be_updateEdges T { blankEdge with next_left := sel }
    [RTT_COL_EDGE.NEXT_LEFT] { blankEdge with next_left := upd } [RTT_COL_EDGE.NEXT_LEFT]
    blankEdge [] = l at r1 f1 ⊢
  rw [if_neg r1]
  obtain ⟨r2, f2⟩ := updateEdges_run l.1
    { blankEdge with next_left := sel, next_right := sel }
    { blankEdge with next_left := upd, next_right := upd } blankEdge
    [RTT_COL_EDGE.NEXT_RIGHT] [RTT_COL_EDGE.NEXT_RIGHT] [] f1
  generalize rtt_be_updateEdges l.1
    { blankEdge with next_left := sel, next_right := sel } [RTT_COL_EDGE.NEXT_RIGHT]
    { blankEdge with next_left := upd, next_right := upd } [RTT_COL_EDGE.NEXT_RIGHT]
    blankEdge [] = r at r2 f2 ⊢
  rw [if_neg r2]
  exact ⟨_, rfl, f2⟩

theorem healDelete_run (T : RTT_TOPOLOGY) (e1 e2 : RTT_ISO_EDGE) (c newid : Int)
    (modEdge : Bool) (hbe : T.failing = []) :
    (healDelete T e1 e2 c newid modEdge).2 = (if modEdge = true then c else newid) := by
  unfold healDelete
  dsimp only
  obtain ⟨r1, f1⟩ := deleteEdges_run T e2 [RTT_COL_EDGE.EDGE_ID] hbe
  generalize rtt_be_deleteEdges T e2 [RTT_COL_EDGE.EDGE_ID] = d2 at r1 f1 ⊢
  rw [if_neg r1]
  have hd1 : (if modEdge = true then (d2.1, (0 : Int))
      else rtt_be_deleteEdges d2.1 e1 [RTT_COL_EDGE.EDGE_ID]).2 ≠ -1 ∧
      (if modEdge = true then (d2.1, (0 : Int))
      else rtt_be_deleteEdges d2.1 e1 [RTT_COL_EDGE.EDGE_ID]).1.failing = [] := by
    cases modEdge with
    | true =>
      rw [if_pos rfl]
      exact ⟨by show (0 : Int) ≠ -1; decide, f1⟩
    | false =>
      rw [if_neg Bool.false_ne_true]
      exact deleteEdges_run d2.1 e1 [RTT_COL_EDGE.EDGE_ID] f1
  generalize (if modEdge = true then (d2.1, (0 : Int))
      else rtt_be_deleteEdges d2.1 e1 [RTT_COL_EDGE.EDGE_ID]) = d1 at hd1 ⊢
  rw [if_neg hd1.1]
  obtain ⟨r3, f3⟩ := deleteNodesById_run d1.1 [c] hd1.2
  generalize rtt_be_deleteNodesById d1.1 [c] = n at r3 f3 ⊢
  rw [if_neg r3, if_neg (hook_run n.1 _ f3)]

/-- On a back end that answers, the part of `_rtt_HealEdges` after the `switch` runs to
its end. -/
theorem healApply_run (T : RTT_TOPOLOGY) (e1 e2 : RTT_ISO_EDGE) (c : Int) (p : HealPlan)
    (modEdge : Bool) (hbe : T.failing = []) (h1 : e1 ∈ T.edges) :
    (healApply T e1 e2 e1.edge_id e2.edge_id c p modEdge).2 =
      (if modEdge = true then c else T.edge_seq) := by
  unfold healApply
  dsimp only
  obtain ⟨T1, hs, hf1⟩ := healStore_run T e1 p.newedge modEdge hbe h1
  rw [hs]
  dsimp only
  obtain ⟨T2, ha, hf2⟩ := healRelink_run T1 (p.e2freenode * e2.edge_id)
    (p.e2freenode * (if modEdge = true then e1.edge_id else T.edge_seq) * p.e2sign) hf1
  rw [ha]
  dsimp only
  rw [if_neg (by decide)]
  cases modEdge with
  | true =>
    rw [if_pos rfl]
    dsimp only
    rw [if_neg (by decide)]
    exact healDelete_run T2 e1 e2 c _ true hf2
  | false =>
    rw [if_neg Bool.false_ne_true]
    obtain ⟨T3, hb, hf3⟩ := healRelink_run T2 (p.e1freenode * e1.edge_id)
      (p.e1freenode * (if false = true then e1.edge_id else T.edge_seq)) hf2
    rw [hb]
    dsimp only
    rw [if_neg (by decide)]
    exact healDelete_run T3 e1 e2 c _ false hf3

end RTTopo

namespace RTTopo

/-! ## The failure classes of `_rtt_HealEdges` -/

theorem rterror_ne (T : RTT_TOPOLOGY) {a b : String} (h : a ≠ b) :
    ((rterror T a, (-1 : Int)) : RTT_TOPOLOGY × Int) ≠ (rterror T b, -1) := by
  intro e
  have e' : a :: T.errors = b :: T.errors := congrArg (fun r => r.1.errors) e
  exact h (List.cons.inj e').1

/-- Claim C19: `_rtt_HealEdges(eid1, eid2)` fails with "cannot heal edge with itself"
when the two ids are equal, whatever the back end does. For a back end of which no
callback fails (the veto hook included) and an edge table with unique ids: it fails with
"non-existent edge" when a row is missing, with "edge is closed" when one of the two
edges has `start_node = end_node`; for two open edges (whose end nodes are not the
sentinel `-1`, the id sequence not being `-1` either) it fails with "non-connected edges"
if and only if the edges share no end node, with "other edges connected" if and only if
they share an end node and every shared node is an end node of some third edge, and it
succeeds if and only if some shared node is an end node of no third edge. Every failure
leaves the state as it was but for the error message. -/
theorem rtt_HealEdges_failure_classes (T : RTT_TOPOLOGY) (eid1 eid2 : Int) (modEdge : Bool) :
    (eid1 = eid2 → _rtt_HealEdges T eid1 eid2 modEdge =
      (rterror T "Cannot heal edge with itself, try with another", -1)) ∧
    (T.failing = [] → (T.edges.map (fun e => e.edge_id)).Nodup → eid1 ≠ eid2 →
      ((∀ e ∈ T.edges, e.edge_id ≠ eid1) → _rtt_HealEdges T eid1 eid2 modEdge =
        (rterror T "SQL/MM Spatial exception - non-existent edge eid1", -1)) ∧
      ((∃ e ∈ T.edges, e.edge_id = eid1) → (∀ e ∈ T.edges, e.edge_id ≠ eid2) →
        _rtt_HealEdges T eid1 eid2 modEdge =
          (rterror T "SQL/MM Spatial exception - non-existent edge eid2", -1)) ∧
      (∀ e1 ∈ T.edges, ∀ e2 ∈ T.edges, e1.edge_id = eid1 → e2.edge_id = eid2 →
        (e1.start_node = e1.end_node → _rtt_HealEdges T eid1 eid2 modEdge =
          (rterror T "Edge eid1 is closed, cannot heal", -1)) ∧
        (e1.start_node ≠ e1.end_node → e2.start_node = e2.end_node →
          _rtt_HealEdges T eid1 eid2 modEdge =
            (rterror T "Edge eid2 is closed, cannot heal", -1)) ∧
        (e1.start_node ≠ e1.end_node → e2.start_node ≠ e2.end_node →
          e1.start_node ≠ -1 → e1.end_node ≠ -1 → T.edge_seq ≠ -1 →
          (_rtt_HealEdges T eid1 eid2 modEdge =
              (rterror T "SQL/MM Spatial exception - non-connected edges", -1) ↔
            ¬ ∃ n, (n = e1.start_node ∨ n = e1.end_node) ∧
                   (n = e2.start_node ∨ n = e2.end_node)) ∧
          (_rtt_HealEdges T eid1 eid2 modEdge =
              (rterror T "SQL/MM Spatial exception - other edges connected", -1) ↔
            (∃ n, (n = e1.start_node ∨ n = e1.end_node) ∧
                  (n = e2.start_node ∨ n = e2.end_node)) ∧
            ∀ n, ((n = e1.start_node ∨ n = e1.end_node) ∧
                  (n = e2.start_node ∨ n = e2.end_node)) →
              ∃ x ∈ T.edges, x.edge_id ≠ eid1 ∧ x.edge_id ≠ eid2 ∧
                (x.start_node = n ∨ x.end_node = n)) ∧
          ((_rtt_HealEdges T eid1 eid2 modEdge).2 ≠ -1 ↔
            ∃ n, ((n = e1.start_node ∨ n = e1.end_node) ∧
                  (n = e2.start_node ∨ n = e2.end_node)) ∧
              ¬ ∃ x ∈ T.edges, x.edge_id ≠ eid1 ∧ x.edge_id ≠ eid2 ∧
                (x.start_node = n ∨ x.end_node = n))))) := by
  constructor
  · intro h
    unfold _rtt_HealEdges
    rw [if_pos h]
  intro hbe hnd hne
  have hf : ∀ k : BeCall, k ∉ T.failing := by
    intro k; rw [hbe]; exact List.not_mem_nil _
  have hrows := rtt_HealEdges_rows T eid1 eid2 modEdge (hf _) hnd hne
  refine ⟨?_, ?_, ?_⟩
  · intro h1
    rw [hrows, edgeRow_none h1]
  · rintro ⟨e, he, hid⟩ h2
    rw [hrows, edgeRow_mem hnd he hid, edgeRow_none h2]
  intro e1 h1 e2 h2 i1 i2
  rw [hrows, edgeRow_mem hnd h1 i1, edgeRow_mem hnd h2 i2]
  dsimp only
  clear hrows
  refine ⟨?_, ?_, ?_⟩
  · intro c1
    unfold healFound
    rw [if_pos c1]
  · intro c1 c2
    unfold healFound
    rw [if_neg c1, if_pos c2]
  intro c1 c2 hs1 ht1 hseq
  unfold healFound
  rw [if_neg c1, if_neg c2]
  obtain ⟨s, hs, P1, P2, P3⟩ := healCommon_class T eid1 eid2 e1 e2 (hf _) hs1 ht1
  rw [hs]
  dsimp only
  by_cases c : s.commonnode = -1
  · rw [if_pos c]
    have hnofree : ¬ ∃ n, ((n = e1.start_node ∨ n = e1.end_node) ∧
        (n = e2.start_node ∨ n = e2.end_node)) ∧
        ¬ ∃ x ∈ T.edges, x.edge_id ≠ eid1 ∧ x.edge_id ≠ eid2 ∧
          (x.start_node = n ∨ x.end_node = n) := fun h => (P1.2 h) c
    cases ho : s.other with
    | false =>
      have hnsh : ¬ ∃ n, (n = e1.start_node ∨ n = e1.end_node) ∧
          (n = e2.start_node ∨ n = e2.end_node) := by
        intro h
        have := (P2 c).2 h
        rw [ho] at this
        exact absurd this (by decide)
      rw [if_neg Bool.false_ne_true]
      refine ⟨⟨fun _ => hnsh, fun _ => rfl⟩, ⟨fun h => ?_, fun h => absurd h.1 hnsh⟩,
        ⟨fun h => absurd rfl h, fun h => absurd h hnofree⟩⟩
      exact absurd h (rterror_ne T (by decide))
    | true =>
      have hsh : ∃ n, (n = e1.start_node ∨ n = e1.end_node) ∧
          (n = e2.start_node ∨ n = e2.end_node) := (P2 c).1 ho
      rw [if_pos rfl]
      refine ⟨⟨fun h => ?_, fun h => absurd hsh h⟩, ⟨fun _ => ⟨hsh, ?_⟩, fun _ => rfl⟩,
        ⟨fun h => absurd rfl h, fun h => absurd h hnofree⟩⟩
      · exact absurd h (rterror_ne T (by decide))
      · intro n hn
        by_contra hth
        exact hnofree ⟨n, hn, hth⟩
  · rw [if_neg c, if_neg (hook_run T _ hbe), if_pos (P3 c)]
    subst i1 i2
    have hret := healApply_run T e1 e2 s.commonnode (healPlan s.caseno e1 e2) modEdge hbe h1
    have hok : (healApply T e1 e2 e1.edge_id e2.edge_id s.commonnode
        (healPlan s.caseno e1 e2) modEdge).2 ≠ -1 := by
      rw [hret]
      cases modEdge with
      | true => rw [if_pos rfl]; exact c
      | false => rw [if_neg Bool.false_ne_true]; exact hseq
    have hfree := P1.1 c
    have hsh : ∃ n, (n = e1.start_node ∨ n = e1.end_node) ∧
        (n = e2.start_node ∨ n = e2.end_node) := by
      obtain ⟨n, hn, -⟩ := hfree
      exact ⟨n, hn⟩
    refine ⟨⟨fun h => ?_, fun h => absurd hsh h⟩, ⟨fun h => ?_, fun h => ?_⟩,
      ⟨fun _ => hfree, fun _ => hok⟩⟩
    · rw [h] at hok
      exact absurd rfl hok
    · rw [h] at hok
      exact absurd rfl hok
    · obtain ⟨n, hn, hfr⟩ := hfree
      exact absurd (h.2 n hn) hfr

theorem rtt_HealEdges_failure_classes_witness :
    _rtt_HealEdges topoTwoSpokes 1 1 true =
      (rterror topoTwoSpokes "Cannot heal edge with itself, try with another", -1) ∧
    _rtt_HealEdges topoTwoSpokes 1 5 true =
      (rterror topoTwoSpokes "SQL/MM Spatial exception - non-existent edge eid2", -1) ∧
    (_rtt_HealEdges topoTwoSpokes 1 2 true).2 ≠ -1 :=
  have h := rtt_HealEdges_failure_classes topoTwoSpokes 1 1 true
  have k := (rtt_HealEdges_failure_classes topoTwoSpokes 1 5 true).2
    (by decide) (by decide) (by decide)
  have m := (rtt_HealEdges_failure_classes topoTwoSpokes 1 2 true).2
    (by decide) (by decide) (by decide)
  ⟨h.1 rfl, k.2.1 (by decide) (by decide),
   ((m.2.2 ⟨1, 2, 1, 0, 0, -1, 2, [⟨10, 0⟩, ⟨0, 0⟩]⟩ (by decide)
      ⟨2, 2, 3, 0, 0, -2, 1, [⟨10, 0⟩, ⟨20, 0⟩]⟩ (by decide) rfl rfl).2.2
      (by decide) (by decide) (by decide) (by decide) (by decide)).2.2.2
    ⟨2, by decide, by decide⟩⟩

end RTTopo

namespace RTTopo

/-! ## The requests of `_rtt_RemEdge`, row by row -/

theorem updateFacesById_ok {T T4 : RTT_TOPOLOGY} {rows : List RTT_ISO_FACE} {ret : Int}
    (h : rtt_be_updateFacesById T rows = (T4, ret)) (hret : ret ≠ -1) :
    T4 = { T with
      faces := rows.foldl updateFaceById T.faces
      events := (rows.map (fun r => BeEvent.updateFace r.face_id)).reverse ++ T.events } := by
  unfold rtt_be_updateFacesById at h
  dsimp only at h
  split_ifs at h
  · simp only [Prod.mk.injEq] at h; omega
  · simp only [Prod.mk.injEq] at h; exact h.1.symm

theorem deleteFacesById_ok {T T4 : RTT_TOPOLOGY} {ids : List Int} {ret : Int}
    (h : rtt_be_deleteFacesById T ids = (T4, ret)) (hret : ret ≠ -1) :
    T4 = { T with
      faces := T.faces.filter (fun f => !decide (f.face_id ∈ ids))
      events := (ids.map BeEvent.deleteFace).reverse ++ T.events } := by
  unfold rtt_be_deleteFacesById at h
  dsimp only at h
  split_ifs at h
  · simp only [Prod.mk.injEq] at h; omega
  · simp only [Prod.mk.injEq] at h; exact h.1.symm

theorem insertFaces_ok {T T2 : RTT_TOPOLOGY} {mbr : Option GBOX} {row : RTT_ISO_FACE}
    {ret : Int} (h : rtt_be_insertFaces T { face_id := -1, mbr := mbr } = (T2, row, ret))
    (hret : ret ≠ -1) :
    row = { face_id := T.face_seq, mbr := mbr } ∧
    T2 = { T with
      faces := T.faces ++ [{ face_id := T.face_seq, mbr := mbr }]
      face_seq := T.face_seq + 1
      events := BeEvent.insertFace T.face_seq :: T.events } := by
  unfold rtt_be_insertFaces at h
  dsimp only at h
  by_cases c : BeCall.insertFaces ∈ T.failing
  · rw [if_pos c] at h
    simp only [Prod.mk.injEq] at h; omega
  · rw [if_neg c] at h
    simp only [if_true, Prod.mk.injEq] at h
    exact ⟨h.2.1.symm, h.1.symm⟩

theorem faceRefEdge_self (f : Int) (e : RTT_ISO_EDGE) : faceRefEdge f f e = e := by
  rcases e with ⟨id, s, t, fl, fr, nl, nr, g⟩
  unfold faceRefEdge
  dsimp only
  by_cases c1 : fl = f <;> by_cases c2 : fr = f <;> simp [c1, c2]

theorem faceRefNode_self (f : Int) (n : RTT_ISO_NODE) : faceRefNode f f n = n := by
  rcases n with ⟨id, cf, g⟩
  unfold faceRefNode
  dsimp only
  by_cases c1 : cf = f <;> simp [c1]

theorem faceRef_edge_row (of nf : Int) (e : RTT_ISO_EDGE) :
    updateEdgeRow { blankEdge with face_left := of, face_right := of }
        [RTT_COL_EDGE.FACE_RIGHT]
        { blankEdge with face_left := nf, face_right := nf } [RTT_COL_EDGE.FACE_RIGHT]
        blankEdge []
      (updateEdgeRow { blankEdge with face_left := of } [RTT_COL_EDGE.FACE_LEFT]
        { blankEdge with face_left := nf } [RTT_COL_EDGE.FACE_LEFT] blankEdge [] e) =
      faceRefEdge of nf e := by
  rcases e with ⟨id, sn, en, fl, fr, nl, nr, g⟩
  by_cases c1 : fl = of <;> by_cases c2 : fr = of <;>
    simp [updateEdgeRow, edgeSelected, edgeMatches, edgeAssign, faceRefEdge, c1, c2]

theorem faceRef_node_row (of nf : Int) (n : RTT_ISO_NODE) :
    updateNodeRow { blankNode with containing_face := of } [RTT_COL_NODE.CONTAINING_FACE]
        { blankNode with containing_face := nf } [RTT_COL_NODE.CONTAINING_FACE] blankNode [] n =
      faceRefNode of nf n := by
  rcases n with ⟨id, cf, g⟩
  by_cases c1 : cf = of <;>
    simp [updateNodeRow, nodeSelected, nodeMatches, nodeAssign, faceRefNode, c1]

/-- A successful `_rtt_UpdateEdgeFaceRef` rebinds the two face columns of every row. -/
theorem UpdateEdgeFaceRef_ok {T : RTT_TOPOLOGY} {of nf : Int} {R : RTT_TOPOLOGY × Int}
    (h : _rtt_UpdateEdgeFaceRef T of nf = R) (hok : R.2 ≠ -1) :
    R.1 = { T with edges := T.edges.map (faceRefEdge of nf), events := R.1.events } := by
  unfold _rtt_UpdateEdgeFaceRef at h
  dsimp only at h
  rcases hl : rtt_be_updateEdges (assertOldFace T of)
    { blankEdge with face_left := of } [RTT_COL_EDGE.FACE_LEFT]
    { blankEdge with face_left := nf } [RTT_COL_EDGE.FACE_LEFT] blankEdge [] with ⟨T1, r1⟩
  rw [hl] at h
  dsimp only at h
  by_cases c1 : r1 = -1
  · rw [if_pos c1] at h; subst h; exact absurd rfl hok
  rw [if_neg c1] at h
  have hT1 := (updateEdges_ok hl c1).1
  rcases hr : rtt_be_updateEdges T1
      { blankEdge with face_left := of, face_right := of } [RTT_COL_EDGE.FACE_RIGHT]
      { blankEdge with face_left := nf, face_right := nf } [RTT_COL_EDGE.FACE_RIGHT]
      blankEdge [] with ⟨T2, r2⟩
  rw [hr] at h
  dsimp only at h
  by_cases c2 : r2 = -1
  · rw [if_pos c2] at h; subst h; exact absurd rfl hok
  rw [if_neg c2] at h
  have hT2 := (updateEdges_ok hr c2).1
  subst h hT2 hT1
  dsimp only
  rw [List.map_map]
  have hrow : (updateEdgeRow { blankEdge with face_left := of, face_right := of }
        [RTT_COL_EDGE.FACE_RIGHT]
        { blankEdge with face_left := nf, face_right := nf } [RTT_COL_EDGE.FACE_RIGHT]
        blankEdge []) ∘
      (updateEdgeRow { blankEdge with face_left := of } [RTT_COL_EDGE.FACE_LEFT]
        { blankEdge with face_left := nf } [RTT_COL_EDGE.FACE_LEFT] blankEdge []) =
      faceRefEdge of nf := by
    funext e
    exact faceRef_edge_row of nf e
  rw [hrow]
  unfold assertOldFace
  split_ifs <;> rfl

/-- A successful `_rtt_UpdateNodeFaceRef` rebinds `containing_face` of every row. -/
theorem UpdateNodeFaceRef_ok {T : RTT_TOPOLOGY} {of nf : Int} {R : RTT_TOPOLOGY × Int}
    (h : _rtt_UpdateNodeFaceRef T of nf = R) (hok : R.2 ≠ -1) :
    R.1 = { T with nodes := T.nodes.map (faceRefNode of nf), events := R.1.events } := by
  unfold _rtt_UpdateNodeFaceRef at h
  dsimp only at h
  rcases hl : rtt_be_updateNodes (assertOldFace T of)
    { blankNode with containing_face := of } [RTT_COL_NODE.CONTAINING_FACE]
    { blankNode with containing_face := nf } [RTT_COL_NODE.CONTAINING_FACE] blankNode []
    with ⟨T1, r1⟩
  rw [hl] at h
  dsimp only at h
  by_cases c1 : r1 = -1
  · rw [if_pos c1] at h; subst h; exact absurd rfl hok
  rw [if_neg c1] at h
  have hT1 := updateNodes_ok hl c1
  subst h hT1
  dsimp only
  have hrow : (updateNodeRow { blankNode with containing_face := of }
      [RTT_COL_NODE.CONTAINING_FACE]
      { blankNode with containing_face := nf } [RTT_COL_NODE.CONTAINING_FACE] blankNode []) =
      faceRefNode of nf := by
    funext n
    exact faceRef_node_row of nf n
  rw [hrow]
  unfold assertOldFace
  split_ifs <;> rfl

/-- A successful rebinding of one side of the removed edge. -/
theorem remEdgeFaceRefs_state {T : RTT_TOPOLOGY} {of ff : Int} {R : RTT_TOPOLOGY × Int}
    (h : remEdgeFaceRefs T of ff = R) (hok : R.2 ≠ -1) :
    R.1 = { T with
      edges := T.edges.map (faceRefEdge of ff)
      nodes := T.nodes.map (faceRefNode of ff)
      events := R.1.events } := by
  unfold remEdgeFaceRefs at h
  by_cases c : of ≠ ff
  · rw [if_pos c] at h
    dsimp only at h
    rcases ha : _rtt_UpdateEdgeFaceRef T of ff with ⟨T1, r1⟩
    rw [ha] at h
    dsimp only at h
    by_cases c1 : r1 = -1
    · rw [if_pos c1] at h; subst h; exact absurd rfl hok
    rw [if_neg c1] at h
    have hT1 := UpdateEdgeFaceRef_ok ha c1
    rcases hb : _rtt_UpdateNodeFaceRef T1 of ff with ⟨T2, r2⟩
    rw [hb] at h
    dsimp only at h
    by_cases c2 : r2 = -1
    · rw [if_pos c2] at h; subst h; exact absurd rfl hok
    rw [if_neg c2] at h
    have hT2 := UpdateNodeFaceRef_ok hb c2
    subst h
    dsimp only at hT1 hT2 ⊢
    rw [hT2, hT1]
  · rw [if_neg c] at h
    have e : of = ff := by
      by_contra hn
      exact c hn
    subst h e
    dsimp only
    have h1 : T.edges.map (faceRefEdge of of) = T.edges := by
      rw [List.map_congr_left (fun e _ => faceRefEdge_self of e), List.map_id']
    have h2 : T.nodes.map (faceRefNode of of) = T.nodes := by
      rw [List.map_congr_left (fun e _ => faceRefNode_self of e), List.map_id']
    rw [h1, h2]

end RTTopo

namespace RTTopo

/-! ## The last part of `_rtt_RemEdge`, row by row -/

theorem remEdge_node_assign (id ff : Int) (n : RTT_ISO_NODE) :
    nodeAssign { blankNode with node_id := id, containing_face := ff }
      [RTT_COL_NODE.CONTAINING_FACE] n = { n with containing_face := ff } := by
  rcases n with ⟨i, cf, g⟩
  simp [nodeAssign]

/-- The `updateNodesById` request of `_rtt_RemEdge` gives the flood face to the end nodes
on which no other edge was counted. -/
theorem remEdge_nodes (edge : RTT_ISO_EDGE) (fn ln : Nat) (ff : Int)
    (ns : List RTT_ISO_NODE) :
    ((if fn = 0 then
        [({ blankNode with node_id := edge.start_node, containing_face := ff } : RTT_ISO_NODE)]
       else []) ++
      (if edge.end_node ≠ edge.start_node ∧ ln = 0 then
        [({ blankNode with node_id := edge.end_node, containing_face := ff } : RTT_ISO_NODE)]
       else [])).foldl (updateNodeById [RTT_COL_NODE.CONTAINING_FACE]) ns =
      ns.map (remEdgeNode edge fn ln ff) := by
  by_cases c1 : fn = 0
  · by_cases c2 : edge.end_node ≠ edge.start_node ∧ ln = 0
    · rw [if_pos c1, if_pos c2]
      simp only [List.singleton_append, List.foldl_cons, List.foldl_nil]
      unfold updateNodeById
      rw [List.map_map]
      apply List.map_congr_left
      intro n _
      simp only [Function.comp_apply, remEdge_node_assign]
      unfold remEdgeNode
      by_cases d1 : n.node_id = edge.start_node
      · rw [if_pos d1, if_pos (Or.inl ⟨c1, d1⟩)]
        by_cases d2 : n.node_id = edge.end_node
        · rw [if_pos d2]
        · rw [if_neg d2]
      · rw [if_neg d1]
        by_cases d2 : n.node_id = edge.end_node
        · rw [if_pos d2, if_pos (Or.inr ⟨c2.1, c2.2, d2⟩)]
        · rw [if_neg d2, if_neg]
          rintro (h | h)
          · exact d1 h.2
          · exact d2 h.2.2
    · rw [if_pos c1, if_neg c2]
      simp only [List.append_nil, List.foldl_cons, List.foldl_nil]
      unfold updateNodeById
      apply List.map_congr_left
      intro n _
      simp only [remEdge_node_assign]
      unfold remEdgeNode
      by_cases d1 : n.node_id = edge.start_node
      · rw [if_pos d1, if_pos (Or.inl ⟨c1, d1⟩)]
      · rw [if_neg d1, if_neg]
        rintro (h | h)
        · exact d1 h.2
        · exact c2 ⟨h.1, h.2.1⟩
  · by_cases c2 : edge.end_node ≠ edge.start_node ∧ ln = 0
    · rw [if_neg c1, if_pos c2]
      simp only [List.nil_append, List.foldl_cons, List.foldl_nil]
      unfold updateNodeById
      apply List.map_congr_left
      intro n _
      simp only [remEdge_node_assign]
      unfold remEdgeNode
      by_cases d2 : n.node_id = edge.end_node
      · rw [if_pos d2, if_pos (Or.inr ⟨c2.1, c2.2, d2⟩)]
      · rw [if_neg d2, if_neg]
        rintro (h | h)
        · exact c1 h.1
        · exact d2 h.2.2
    · rw [if_neg c1, if_neg c2]
      simp only [List.append_nil, List.foldl_nil]
      symm
      have : ∀ n ∈ ns, remEdgeNode edge fn ln ff n = n := by
        intro n _
        unfold remEdgeNode
        rw [if_neg]
        rintro (h | h)
        · exact c1 h.1
        · exact c2 ⟨h.1, h.2.1⟩
      rw [List.map_congr_left this, List.map_id']

/-- A successful last part of `_rtt_RemEdge`: the rows it leaves and its answer. -/
theorem remEdgeDelete_state {T : RTT_TOPOLOGY} {edge : RTT_ISO_EDGE} {fn ln : Nat}
    {modFace : Bool} {ff nf : Int} {R : RTT_TOPOLOGY × Int}
    (h : remEdgeDelete T edge fn ln modFace ff nf = R) (hok : R.2 ≠ -1) :
    R.1 = { T with
      edges := T.edges.filter (fun e => !decide (e.edge_id = edge.edge_id))
      nodes := T.nodes.map (remEdgeNode edge fn ln ff)
      faces := if edge.face_left ≠ edge.face_right
        then T.faces.filter (fun f => !decide (f.face_id ∈ remEdgeGone edge ff))
        else T.faces
      events := R.1.events } ∧
    R.2 = (if modFace = true then ff else nf) := by
  unfold remEdgeDelete at h
  dsimp only at h
  rcases hd : rtt_be_deleteEdges T edge [RTT_COL_EDGE.EDGE_ID] with ⟨T1, ret⟩
  rw [hd] at h
  dsimp only at h
  by_cases c1 : ret = -1
  · rw [if_pos c1] at h; subst h; exact absurd rfl hok
  rw [if_neg c1] at h
  have hT1 := deleteEdges_ok hd c1
  have hE : T.edges.filter (fun e => !edgeMatches edge [RTT_COL_EDGE.EDGE_ID] e) =
      T.edges.filter (fun e => !decide (e.edge_id = edge.edge_id)) := by
    congr 1
    funext e
    simp [edgeMatches]
  rw [hE] at hT1
  clear hd hE
  have hN := remEdge_nodes edge fn ln ff T1.nodes
  -- the node request
  have hu : ∃ ev, (if ((if fn = 0 then
        [({ blankNode with node_id := edge.start_node, containing_face := ff } : RTT_ISO_NODE)]
       else []) ++
      (if edge.end_node ≠ edge.start_node ∧ ln = 0 then
        [({ blankNode with node_id := edge.end_node, containing_face := ff } : RTT_ISO_NODE)]
       else [])).length ≠ 0 then rtt_be_updateNodesById T1 ((if fn = 0 then
        [({ blankNode with node_id := edge.start_node, containing_face := ff } : RTT_ISO_NODE)]
       else []) ++
      (if edge.end_node ≠ edge.start_node ∧ ln = 0 then
        [({ blankNode with node_id := edge.end_node, containing_face := ff } : RTT_ISO_NODE)]
       else [])) [RTT_COL_NODE.CONTAINING_FACE] else (T1, (0 : Int))) = ev ∧
      (¬ (((if fn = 0 then
        [({ blankNode with node_id := edge.start_node, containing_face := ff } : RTT_ISO_NODE)]
       else []) ++
      (if edge.end_node ≠ edge.start_node ∧ ln = 0 then
        [({ blankNode with node_id := edge.end_node, containing_face := ff } : RTT_ISO_NODE)]
       else [])).length ≠ 0 ∧ ev.2 = -1) →
        ev.1 = { T1 with nodes := T1.nodes.map (remEdgeNode edge fn ln ff) }) := by
    refine ⟨_, rfl, ?_⟩
    intro hn
    rw [← hN]
    generalize ((if fn = 0 then
        [({ blankNode with node_id := edge.start_node, containing_face := ff } : RTT_ISO_NODE)]
       else []) ++
      (if edge.end_node ≠ edge.start_node ∧ ln = 0 then
        [({ blankNode with node_id := edge.end_node, containing_face := ff } : RTT_ISO_NODE)]
       else [])) = rows at hn ⊢
    by_cases c : rows.length ≠ 0
    · rw [if_pos c] at hn ⊢
      rcases hq : rtt_be_updateNodesById T1 rows [RTT_COL_NODE.CONTAINING_FACE] with ⟨T2, r2⟩
      rw [hq] at hn
      have hr : r2 ≠ -1 := fun e => hn ⟨c, e⟩
      exact updateNodesById_ok hq hr
    · rw [if_neg c]
      have hl : rows = [] := by
        by_contra hne
        exact c (fun e => hne (List.length_eq_zero.1 e))
      rw [hl]
      rfl
  obtain ⟨u, hueq, hustate⟩ := hu
  rw [hueq] at h
  clear hueq hN
  generalize ((if fn = 0 then
        [({ blankNode with node_id := edge.start_node, containing_face := ff } : RTT_ISO_NODE)]
       else []) ++
      (if edge.end_node ≠ edge.start_node ∧ ln = 0 then
        [({ blankNode with node_id := edge.end_node, containing_face := ff } : RTT_ISO_NODE)]
       else [])).length = n at h hustate
  by_cases c2 : n ≠ 0 ∧ u.2 = -1
  · rw [if_pos c2] at h; subst h; exact absurd rfl hok
  rw [if_neg c2] at h
  have hU := hustate c2
  clear hustate
  by_cases c3 : edge.face_left ≠ edge.face_right
  · rw [if_pos c3] at h
    rw [if_pos c3]
    rcases hf : rtt_be_deleteFacesById u.1
      ((if edge.face_right ≠ ff then [edge.face_right] else []) ++
         (if edge.face_left ≠ ff then [edge.face_left] else [])) with ⟨T3, r3⟩
    rw [hf] at h
    dsimp only at h
    by_cases c4 : r3 = -1
    · rw [if_pos c4] at h; subst h; exact absurd rfl hok
    rw [if_neg c4] at h
    have hT3 := deleteFacesById_ok hf c4
    subst h
    dsimp only
    refine ⟨?_, rfl⟩
    rw [hT3, hU, hT1]
    rfl
  · rw [if_neg c3] at h
    rw [if_neg c3]
    subst h
    dsimp only
    refine ⟨?_, rfl⟩
    rw [hU, hT1]

end RTTopo

namespace RTTopo

/-! ## The state left by a successful `_rtt_RemEdge` -/

/-- A successful heal of the two sides of the removed edge into the flood face. -/
theorem remEdgeHeal_state {T : RTT_TOPOLOGY} {edge : RTT_ISO_EDGE} {fn ln : Nat}
    {modFace : Bool} {ff nf : Int} {R : RTT_TOPOLOGY × Int}
    (h : remEdgeHeal T edge fn ln modFace ff nf = R) (hok : R.2 ≠ -1) :
    R.1 = { T with
      edges := (T.edges.map
        (fun e => faceRefEdge edge.face_right ff (faceRefEdge edge.face_left ff e))).filter
          (fun e => !decide (e.edge_id = edge.edge_id))
      nodes := (T.nodes.map
        (fun n => faceRefNode edge.face_right ff (faceRefNode edge.face_left ff n))).map
          (remEdgeNode edge fn ln ff)
      faces := if edge.face_left ≠ edge.face_right
        then T.faces.filter (fun f => !decide (f.face_id ∈ remEdgeGone edge ff))
        else T.faces
      events := R.1.events } ∧
    R.2 = (if modFace = true then ff else nf) := by
  unfold remEdgeHeal at h
  dsimp only at h
  rcases ha : remEdgeFaceRefs T edge.face_left ff with ⟨T1, r1⟩
  rw [ha] at h
  dsimp only at h
  by_cases c1 : r1 = -1
  · rw [if_pos c1] at h; subst h; exact absurd rfl hok
  rw [if_neg c1] at h
  have hT1 := remEdgeFaceRefs_state ha c1
  rcases hb : remEdgeFaceRefs T1 edge.face_right ff with ⟨T2, r2⟩
  rw [hb] at h
  dsimp only at h
  by_cases c2 : r2 = -1
  · rw [if_pos c2] at h; subst h; exact absurd rfl hok
  rw [if_neg c2] at h
  have hT2 := remEdgeFaceRefs_state hb c2
  by_cases c3 : rtt_be_hook T2 BeCall.updateTopoGeomFaceHeal = 0
  · rw [if_pos c3] at h; subst h; exact absurd rfl hok
  rw [if_neg c3] at h
  obtain ⟨k1, k2⟩ := remEdgeDelete_state h hok
  refine ⟨?_, k2⟩
  dsimp only at hT1 hT2
  rw [k1, hT2, hT1]
  dsimp only
  simp only [List.map_map]
  rfl

/-- What the MBR loop found: each box is the MBR of a fetched face with the id of that
side. -/
theorem remEdgeBoxes_ok (edge : RTT_ISO_EDGE) (fs : List RTT_ISO_FACE)
    (b : Option GBOX × Option GBOX) (box1 box2 : GBOX)
    (h : remEdgeBoxes edge fs b = .ok (some box1, some box2)) :
    (b.1 = some box1 ∨ ∃ f ∈ fs, f.face_id = edge.face_left ∧ f.mbr = some box1) ∧
    (b.2 = some box2 ∨ ∃ f ∈ fs, f.face_id = edge.face_right ∧ f.mbr = some box2) := by
  induction fs generalizing b with
  | nil =>
    unfold remEdgeBoxes at h
    have e := Except.ok.inj h
    rw [e]
    exact ⟨Or.inl rfl, Or.inl rfl⟩
  | cons f rest ih =>
    unfold remEdgeBoxes at h
    by_cases c1 : f.face_id = edge.face_left
    · rw [if_pos c1] at h
      by_cases c2 : b.1 = none
      · rw [if_pos c2] at h
        obtain ⟨i1, i2⟩ := ih _ h
        refine ⟨?_, ?_⟩
        · rcases i1 with i | ⟨g, hg, j⟩
          · exact Or.inr ⟨f, List.mem_cons_self _ _, c1, i⟩
          · exact Or.inr ⟨g, List.mem_cons_of_mem _ hg, j⟩
        · rcases i2 with i | ⟨g, hg, j⟩
          · exact Or.inl i
          · exact Or.inr ⟨g, List.mem_cons_of_mem _ hg, j⟩
      · rw [if_neg c2] at h
        cases h
    · rw [if_neg c1] at h
      by_cases c3 : f.face_id = edge.face_right
      · rw [if_pos c3] at h
        by_cases c4 : b.2 = none
        · rw [if_pos c4] at h
          obtain ⟨i1, i2⟩ := ih _ h
          refine ⟨?_, ?_⟩
          · rcases i1 with i | ⟨g, hg, j⟩
            · exact Or.inl i
            · exact Or.inr ⟨g, List.mem_cons_of_mem _ hg, j⟩
          · rcases i2 with i | ⟨g, hg, j⟩
            · exact Or.inr ⟨f, List.mem_cons_self _ _, c3, i⟩
            · exact Or.inr ⟨g, List.mem_cons_of_mem _ hg, j⟩
        · rw [if_neg c4] at h
          cases h
      · rw [if_neg c3] at h
        cases h

/-- A successful merge of two faces other than the universe: the flood face is the right
face with the union of the two MBRs (`modFace`) or a new face with that MBR. -/
theorem remEdgeMerge_state {G : GEOM} {T : RTT_TOPOLOGY} {edge : RTT_ISO_EDGE} {fn ln : Nat}
    {modFace : Bool} {R : RTT_TOPOLOGY × Int}
    (h : remEdgeMerge G T edge fn ln modFace = R) (hok : R.2 ≠ -1) :
    ∃ (box1 box2 : GBOX) (ff : Int) (F : List RTT_ISO_FACE),
      (∃ f ∈ T.faces, f.face_id = edge.face_left ∧ f.mbr = some box1) ∧
      (∃ f ∈ T.faces, f.face_id = edge.face_right ∧ f.mbr = some box2) ∧
      ((modFace = true ∧ ff = edge.face_right ∧
        F = T.faces.map (fun f => if f.face_id = edge.face_right
          then { f with mbr := some (G.gbox_merge box2 box1) } else f) ∧
        R.1.face_seq = T.face_seq) ∨
       (modFace = false ∧ ff = T.face_seq ∧
        F = T.faces ++ [{ face_id := T.face_seq, mbr := some (G.gbox_merge box2 box1) }] ∧
        R.1.face_seq = T.face_seq + 1)) ∧
      R.1 = { T with
        edges := (T.edges.map
          (fun e => faceRefEdge edge.face_right ff (faceRefEdge edge.face_left ff e))).filter
            (fun e => !decide (e.edge_id = edge.edge_id))
        nodes := (T.nodes.map
          (fun n => faceRefNode edge.face_right ff (faceRefNode edge.face_left ff n))).map
            (remEdgeNode edge fn ln ff)
        faces := if edge.face_left ≠ edge.face_right
          then F.filter (fun f => !decide (f.face_id ∈ remEdgeGone edge ff))
          else F
        face_seq := R.1.face_seq
        events := R.1.events } ∧
      R.2 = ff := by
  unfold remEdgeMerge at h
  cases hf : rtt_be_getFaceById T [edge.face_left, edge.face_right] with
  | none => rw [hf] at h; subst h; exact absurd rfl hok
  | some faces =>
    rw [hf] at h
    dsimp only at h
    have hfs : faces = T.faces.filter
        (fun f => decide (f.face_id ∈ [edge.face_left, edge.face_right])) := by
      unfold rtt_be_getFaceById at hf
      split_ifs at hf
      exact (Option.some.inj hf).symm
    rcases hb : remEdgeBoxes edge faces (none, none) with msg | ⟨b1, b2⟩
    · rw [hb] at h; subst h; exact absurd rfl hok
    · rw [hb] at h
      cases b1 with
      | none => dsimp only at h; subst h; exact absurd rfl hok
      | some box1 =>
        cases b2 with
        | none => dsimp only at h; subst h; exact absurd rfl hok
        | some box2 =>
          dsimp only at h
          obtain ⟨i1, i2⟩ := remEdgeBoxes_ok edge faces (none, none) box1 box2 hb
          have m1 : ∃ f ∈ T.faces, f.face_id = edge.face_left ∧ f.mbr = some box1 := by
            rcases i1 with i | ⟨f, hfm, j⟩
            · cases i
            · rw [hfs] at hfm
              exact ⟨f, List.mem_of_mem_filter hfm, j⟩
          have m2 : ∃ f ∈ T.faces, f.face_id = edge.face_right ∧ f.mbr = some box2 := by
            rcases i2 with i | ⟨f, hfm, j⟩
            · cases i
            · rw [hfs] at hfm
              exact ⟨f, List.mem_of_mem_filter hfm, j⟩
          cases modFace with
          | true =>
            rw [if_pos rfl] at h
            rcases hu : rtt_be_updateFacesById T
              [{ face_id := edge.face_right, mbr := some (G.gbox_merge box2 box1) }]
              with ⟨T1, r1⟩
            rw [hu] at h
            dsimp only at h
            by_cases c1 : r1 = -1
            · rw [if_pos c1] at h; subst h; exact absurd rfl hok
            rw [if_neg c1] at h
            by_cases c2 : r1 ≠ 1
            · rw [if_pos c2] at h; subst h; exact absurd rfl hok
            rw [if_neg c2] at h
            have hT1 := updateFacesById_ok hu c1
            obtain ⟨k1, k2⟩ := remEdgeHeal_state h hok
            have hseq : R.1.face_seq = T.face_seq := by rw [k1, hT1]
            refine ⟨box1, box2, edge.face_right, _, m1, m2,
              Or.inl ⟨rfl, rfl, rfl, hseq⟩, ?_, ?_⟩
            · rw [k1, hT1]
              rfl
            · rw [k2]; rfl
          | false =>
            rw [if_neg Bool.false_ne_true] at h
            rcases hi : rtt_be_insertFaces T
              { face_id := -1, mbr := some (G.gbox_merge box2 box1) } with ⟨T1, row, r1⟩
            rw [hi] at h
            dsimp only at h
            by_cases c1 : r1 = -1
            · rw [if_pos c1] at h; subst h; exact absurd rfl hok
            rw [if_neg c1] at h
            by_cases c2 : r1 ≠ 1
            · rw [if_pos c2] at h; subst h; exact absurd rfl hok
            rw [if_neg c2] at h
            obtain ⟨hrow, hT1⟩ := insertFaces_ok hi c1
            subst hrow
            dsimp only at h
            obtain ⟨k1, k2⟩ := remEdgeHeal_state h hok
            have hseq : R.1.face_seq = T.face_seq + 1 := by rw [k1, hT1]
            refine ⟨box1, box2, T.face_seq, _, m1, m2,
              Or.inr ⟨rfl, rfl, rfl, hseq⟩, ?_, ?_⟩
            · rw [k1, hT1]
            · rw [k2]; rfl

end RTTopo

namespace RTTopo

/-! ## The flood face of `_rtt_RemEdge` -/

/-- A successful `_rtt_RemEdge` after the linkage updates: the flood face `ff`, the face
created `nf` (`0` if none) and the rows left. -/
theorem remEdgeFlood_state {G : GEOM} {T : RTT_TOPOLOGY} {edge : RTT_ISO_EDGE} {fn ln : Nat}
    {modFace : Bool} {R : RTT_TOPOLOGY × Int}
    (h : remEdgeFlood G T edge fn ln modFace = R) (hok : R.2 ≠ -1) :
    ∃ (ff nf : Int) (F : List RTT_ISO_FACE),
      ((edge.face_left = edge.face_right ∧ ff = edge.face_right ∧ nf = 0 ∧ F = T.faces ∧
          R.1.face_seq = T.face_seq) ∨
       (edge.face_left ≠ edge.face_right ∧ (edge.face_left = 0 ∨ edge.face_right = 0) ∧
          ff = 0 ∧ nf = 0 ∧
          F = T.faces.filter (fun f => !decide (f.face_id ∈ remEdgeGone edge 0)) ∧
          R.1.face_seq = T.face_seq) ∨
       (edge.face_left ≠ edge.face_right ∧ edge.face_left ≠ 0 ∧ edge.face_right ≠ 0 ∧
          ∃ box1 box2 : GBOX,
            (∃ f ∈ T.faces, f.face_id = edge.face_left ∧ f.mbr = some box1) ∧
            (∃ f ∈ T.faces, f.face_id = edge.face_right ∧ f.mbr = some box2) ∧
            ((modFace = true ∧ ff = edge.face_right ∧ nf = edge.face_right ∧
              F = (T.faces.map (fun f => if f.face_id = edge.face_right
                then { f with mbr := some (G.gbox_merge box2 box1) } else f)).filter
                  (fun f => !decide (f.face_id ∈ remEdgeGone edge ff)) ∧
              R.1.face_seq = T.face_seq) ∨
             (modFace = false ∧ ff = T.face_seq ∧ nf = T.face_seq ∧
              F = (T.faces ++ [({ face_id := T.face_seq,
                                  mbr := some (G.gbox_merge box2 box1) } : RTT_ISO_FACE)]).filter
                  (fun f => !decide (f.face_id ∈ remEdgeGone edge ff)) ∧
              R.1.face_seq = T.face_seq + 1)))) ∧
      R.1 = { T with
        edges := (T.edges.map
          (fun e => faceRefEdge edge.face_right ff (faceRefEdge edge.face_left ff e))).filter
            (fun e => !decide (e.edge_id = edge.edge_id))
        nodes := (T.nodes.map
          (fun n => faceRefNode edge.face_right ff (faceRefNode edge.face_left ff n))).map
            (remEdgeNode edge fn ln ff)
        faces := F
        face_seq := R.1.face_seq
        events := R.1.events } ∧
      R.2 = (if modFace = true then ff else nf) := by
  unfold remEdgeFlood at h
  by_cases c1 : edge.face_left = edge.face_right
  · rw [if_pos c1] at h
    obtain ⟨k1, k2⟩ := remEdgeDelete_state h hok
    have hseq : R.1.face_seq = T.face_seq := by rw [k1]
    refine ⟨edge.face_right, 0, T.faces, Or.inl ⟨c1, rfl, rfl, rfl, hseq⟩, ?_, k2⟩
    have h1 : T.edges.map (fun e =>
        faceRefEdge edge.face_right edge.face_right
          (faceRefEdge edge.face_left edge.face_right e)) = T.edges := by
      rw [c1, List.map_congr_left (fun e _ => by
        rw [faceRefEdge_self, faceRefEdge_self]), List.map_id']
    have h2 : T.nodes.map (fun n =>
        faceRefNode edge.face_right edge.face_right
          (faceRefNode edge.face_left edge.face_right n)) = T.nodes := by
      rw [c1, List.map_congr_left (fun e _ => by
        rw [faceRefNode_self, faceRefNode_self]), List.map_id']
    rw [h1, h2]
    rw [if_neg (fun hn => hn c1)] at k1
    rw [k1]
  rw [if_neg c1] at h
  by_cases c2 : edge.face_left = 0 ∨ edge.face_right = 0
  · rw [if_pos c2] at h
    obtain ⟨k1, k2⟩ := remEdgeHeal_state h hok
    rw [if_pos c1] at k1
    have hseq : R.1.face_seq = T.face_seq := by rw [k1]
    refine ⟨0, 0, _, Or.inr (Or.inl ⟨c1, c2, rfl, rfl, rfl, hseq⟩), ?_, k2⟩
    rw [k1]
  rw [if_neg c2] at h
  obtain ⟨box1, box2, ff, F, m1, m2, hcase, k1, k2⟩ := remEdgeMerge_state h hok
  rw [if_pos c1] at k1
  have n1 : edge.face_left ≠ 0 := fun e => c2 (Or.inl e)
  have n2 : edge.face_right ≠ 0 := fun e => c2 (Or.inr e)
  rcases hcase with ⟨hm, hff, hF, hseq⟩ | ⟨hm, hff, hF, hseq⟩
  · refine ⟨ff, edge.face_right, _, Or.inr (Or.inr ⟨c1, n1, n2, box1, box2, m1, m2,
      Or.inl ⟨hm, hff, rfl, ?_, hseq⟩⟩), k1, ?_⟩
    · rw [hF]
    · rw [k2, hm, if_pos rfl]
  · refine ⟨ff, T.face_seq, _, Or.inr (Or.inr ⟨c1, n1, n2, box1, box2, m1, m2,
      Or.inr ⟨hm, hff, rfl, ?_, hseq⟩⟩), k1, ?_⟩
    · rw [hF]
    · rw [k2, hm, if_neg Bool.false_ne_true, hff]

/-- The state left by a successful `_rtt_RemEdge`: the row `edge` fetched for `edge_id`,
the flood face `ff`, the face created `nf` (`0` if none), and every table. -/
theorem rtt_RemEdge_state {G : GEOM} {T : RTT_TOPOLOGY} {edge_id : Int} {modFace : Bool}
    {R : RTT_TOPOLOGY × Int}
    (h : _rtt_RemEdge G T edge_id modFace = R) (hok : R.2 ≠ -1) :
    ∃ (edge : RTT_ISO_EDGE) (ff nf : Int) (F : List RTT_ISO_FACE),
      edgeRow T.edges edge_id = some edge ∧
      ((edge.face_left = edge.face_right ∧ ff = edge.face_right ∧ nf = 0 ∧ F = T.faces ∧
          R.1.face_seq = T.face_seq) ∨
       (edge.face_left ≠ edge.face_right ∧ (edge.face_left = 0 ∨ edge.face_right = 0) ∧
          ff = 0 ∧ nf = 0 ∧
          F = T.faces.filter (fun f => !decide (f.face_id ∈ remEdgeGone edge 0)) ∧
          R.1.face_seq = T.face_seq) ∨
       (edge.face_left ≠ edge.face_right ∧ edge.face_left ≠ 0 ∧ edge.face_right ≠ 0 ∧
          ∃ box1 box2 : GBOX,
            (∃ f ∈ T.faces, f.face_id = edge.face_left ∧ f.mbr = some box1) ∧
            (∃ f ∈ T.faces, f.face_id = edge.face_right ∧ f.mbr = some box2) ∧
            ((modFace = true ∧ ff = edge.face_right ∧ nf = edge.face_right ∧
              F = (T.faces.map (fun f => if f.face_id = edge.face_right
                then { f with mbr := some (G.gbox_merge box2 box1) } else f)).filter
                  (fun f => !decide (f.face_id ∈ remEdgeGone edge ff)) ∧
              R.1.face_seq = T.face_seq) ∨
             (modFace = false ∧ ff = T.face_seq ∧ nf = T.face_seq ∧
              F = (T.faces ++ [({ face_id := T.face_seq,
                                  mbr := some (G.gbox_merge box2 box1) } : RTT_ISO_FACE)]).filter
                  (fun f => !decide (f.face_id ∈ remEdgeGone edge ff)) ∧
              R.1.face_seq = T.face_seq + 1)))) ∧
      R.1 = { T with
        edges := ((remEdgeRelinked T.edges edge edge_id).map
          (fun e => faceRefEdge edge.face_right ff (faceRefEdge edge.face_left ff e))).filter
            (fun e => !decide (e.edge_id = edge.edge_id))
        nodes := (T.nodes.map
          (fun n => faceRefNode edge.face_right ff (faceRefNode edge.face_left ff n))).map
            (remEdgeNode edge
              (remEdgeNodeEdges edge_id edge.start_node
                (T.edges.filter (fun e =>
                  decide (e.start_node ∈ (if edge.end_node ≠ edge.start_node
                    then [edge.start_node, edge.end_node] else [edge.start_node])) ||
                  decide (e.end_node ∈ (if edge.end_node ≠ edge.start_node
                    then [edge.start_node, edge.end_node] else [edge.start_node])))))
              (remEdgeNodeEdges edge_id edge.end_node
                (T.edges.filter (fun e =>
                  decide (e.start_node ∈ (if edge.end_node ≠ edge.start_node
                    then [edge.start_node, edge.end_node] else [edge.start_node])) ||
                  decide (e.end_node ∈ (if edge.end_node ≠ edge.start_node
                    then [edge.start_node, edge.end_node] else [edge.start_node])))))
              ff)
        faces := F
        face_seq := R.1.face_seq
        events := R.1.events } ∧
      R.2 = (if modFace = true then ff else nf) := by
  unfold _rtt_RemEdge at h
  cases hg : rtt_be_getEdgeById T [edge_id] with
  | none => rw [hg] at h; subst h; exact absurd rfl hok
  | some l =>
    rw [hg] at h
    cases l with
    | nil => subst h; exact absurd rfl hok
    | cons edge rest =>
      dsimp only at h
      have hrow : edgeRow T.edges edge_id = some edge := by
        have := getEdgeById_some hg
        exact filter_id_head this.symm
      by_cases c : rtt_be_hook T BeCall.checkTopoGeomRemEdge = 0
      · rw [if_pos c] at h; subst h; exact absurd rfl hok
      rw [if_neg c] at h
      unfold remEdgeRelink at h
      cases hn : rtt_be_getEdgeByNode T
          (if edge.end_node ≠ edge.start_node then [edge.start_node, edge.end_node]
           else [edge.start_node]) with
      | none => rw [hn] at h; subst h; exact absurd rfl hok
      | some upd_edge =>
        rw [hn] at h
        dsimp only at h
        have hfetch := getEdgeByNode_some hn
        have key : ∀ (X : RTT_TOPOLOGY) (rows : List RTT_ISO_EDGE)
            (flds : List RTT_COL_EDGE) (u : RTT_TOPOLOGY × Int),
            u = (if rows.length ≠ 0 then rtt_be_updateEdgesById X rows flds
                 else (X, (0 : Int))) →
            ¬ (rows.length ≠ 0 ∧ u.2 = -1) →
            u.1 = { X with edges := rows.foldl (updateEdgeById flds) X.edges } := by
          intro X rows flds u hu hne
          by_cases c : rows.length ≠ 0
          · rw [if_pos c] at hu
            have : u.2 ≠ -1 := fun h => hne ⟨c, h⟩
            have hu' : rtt_be_updateEdgesById X rows flds = (u.1, u.2) := hu.symm
            exact updateEdgesById_ok hu' this
          · rw [if_neg c] at hu
            have : rows = [] := List.length_eq_zero.1 (not_not.1 c)
            rw [hu, this]; rfl
        generalize hu1 : (if (upd_edge.filterMap (remEdgeLeftUpdate edge edge_id)).length ≠ 0
          then rtt_be_updateEdgesById T (upd_edge.filterMap (remEdgeLeftUpdate edge edge_id))
            [RTT_COL_EDGE.NEXT_LEFT]
          else (T, (0 : Int))) = u1 at h
        by_cases c1 : (upd_edge.filterMap (remEdgeLeftUpdate edge edge_id)).length ≠ 0 ∧
            u1.2 = -1
        · rw [if_pos c1] at h; subst h; exact absurd rfl hok
        rw [if_neg c1] at h
        have hU1 := key T _ _ u1 hu1.symm c1
        generalize hu2 : (if (upd_edge.filterMap (remEdgeRightUpdate edge edge_id)).length ≠ 0
          then rtt_be_updateEdgesById u1.1
            (upd_edge.filterMap (remEdgeRightUpdate edge edge_id)) [RTT_COL_EDGE.NEXT_RIGHT]
          else (u1.1, (0 : Int))) = u2 at h
        by_cases c2 : (upd_edge.filterMap (remEdgeRightUpdate edge edge_id)).length ≠ 0 ∧
            u2.2 = -1
        · rw [if_pos c2] at h; subst h; exact absurd rfl hok
        rw [if_neg c2] at h
        have hU2 := key u1.1 _ _ u2 hu2.symm c2
        obtain ⟨ff, nf, F, hspec, k1, k2⟩ := remEdgeFlood_state h hok
        have hstate : u2.1 = { T with edges := remEdgeRelinked T.edges edge edge_id } := by
          rw [hU2, hU1, hfetch]
          rfl
        rw [hstate] at k1 hspec
        dsimp only at k1 hspec
        rw [hfetch] at k1
        exact ⟨edge, ff, nf, F, hrow, hspec, k1, k2⟩

end RTTopo

namespace RTTopo

/-! ## `_rtt_RemEdge`: the flood face and the dissolved faces -/

theorem faceView_foldl_links (flds : List RTT_COL_EDGE)
    (hf : ∀ c ∈ flds, c = RTT_COL_EDGE.NEXT_LEFT ∨ c = RTT_COL_EDGE.NEXT_RIGHT)
    (rows : List RTT_ISO_EDGE) (x : RTT_ISO_EDGE) :
    faceView (rows.foldl
      (fun acc r => if acc.edge_id = r.edge_id then edgeAssign r flds acc else acc) x) =
      faceView x := by
  have h1 : RTT_COL_EDGE.EDGE_ID ∉ flds := fun h => by rcases hf _ h with h | h <;> cases h
  have h2 : RTT_COL_EDGE.START_NODE ∉ flds := fun h => by rcases hf _ h with h | h <;> cases h
  have h3 : RTT_COL_EDGE.END_NODE ∉ flds := fun h => by rcases hf _ h with h | h <;> cases h
  have h4 : RTT_COL_EDGE.FACE_LEFT ∉ flds := fun h => by rcases hf _ h with h | h <;> cases h
  have h5 : RTT_COL_EDGE.FACE_RIGHT ∉ flds := fun h => by rcases hf _ h with h | h <;> cases h
  have h6 : RTT_COL_EDGE.GEOM ∉ flds := fun h => by rcases hf _ h with h | h <;> cases h
  induction rows generalizing x with
  | nil => rfl
  | cons r rest ih =>
    rw [List.foldl_cons, ih]
    by_cases c : x.edge_id = r.edge_id
    · rw [if_pos c]
      unfold faceView edgeAssign
      simp only [if_neg h1, if_neg h2, if_neg h3, if_neg h4, if_neg h5, if_neg h6]
    · rw [if_neg c]

/-- The linkage updates of `_rtt_RemEdge` leave the other columns alone. -/
theorem remEdgeRelinked_faceView (es : List RTT_ISO_EDGE) (edge : RTT_ISO_EDGE)
    (edge_id : Int) :
    (remEdgeRelinked es edge edge_id).map faceView = es.map faceView := by
  unfold remEdgeRelinked
  rw [foldl_updateEdgeById, foldl_updateEdgeById, List.map_map, List.map_map]
  apply List.map_congr_left
  intro x _
  simp only [Function.comp_apply]
  rw [faceView_foldl_links _ (by
    intro c hc; exact Or.inr (List.mem_singleton.1 hc)),
    faceView_foldl_links _ (by
    intro c hc; exact Or.inl (List.mem_singleton.1 hc))]

/-- Rebinding the left face then the right face of the removed edge: a face column equal
to one of the two becomes the flood face. -/
theorem faceRef_compose (l r ff : Int) (e : RTT_ISO_EDGE) :
    faceRefEdge r ff (faceRefEdge l ff e) =
      { e with
        face_left := if e.face_left = l ∨ e.face_left = r then ff else e.face_left
        face_right := if e.face_right = l ∨ e.face_right = r then ff else e.face_right } := by
  rcases e with ⟨id, s, t, fl, fr, nl, nr, g⟩
  unfold faceRefEdge
  dsimp only
  have key : ∀ x : Int, (if (if x = l then ff else x) = r then ff
      else (if x = l then ff else x)) = (if x = l ∨ x = r then ff else x) := by
    intro x
    by_cases c1 : x = l
    · rw [if_pos c1, if_pos (Or.inl c1)]
      split_ifs <;> rfl
    · rw [if_neg c1]
      by_cases c2 : x = r
      · rw [if_pos c2, if_pos (Or.inr c2)]
      · rw [if_neg c2, if_neg (fun h => h.elim c1 c2)]
  rw [key fl, key fr]

theorem faceRefNode_compose (l r ff : Int) (n : RTT_ISO_NODE) :
    faceRefNode r ff (faceRefNode l ff n) =
      { n with containing_face :=
          if n.containing_face = l ∨ n.containing_face = r then ff else n.containing_face } := by
  rcases n with ⟨id, cf, g⟩
  unfold faceRefNode
  dsimp only
  by_cases c1 : cf = l
  · rw [if_pos c1, if_pos (Or.inl c1)]
    split_ifs <;> rfl
  · rw [if_neg c1]
    by_cases c2 : cf = r
    · rw [if_pos c2, if_pos (Or.inr c2)]
    · rw [if_neg c2, if_neg (fun h => h.elim c1 c2)]

/-- The columns other than the linkage after a rebinding and the deletion of a row depend
on those columns only. -/
theorem faceView_rebind_filter (es1 es2 : List RTT_ISO_EDGE) (l r ff k : Int)
    (h : es1.map faceView = es2.map faceView) :
    ((es1.map (fun e => faceRefEdge r ff (faceRefEdge l ff e))).filter
        (fun e => !decide (e.edge_id = k))).map faceView =
      ((es2.filter (fun e => !decide (e.edge_id = k))).map
        (fun e => faceRefEdge r ff (faceRefEdge l ff e))).map faceView := by
  have hmap : ∀ es : List RTT_ISO_EDGE,
      ((es.map (fun e => faceRefEdge r ff (faceRefEdge l ff e))).filter
        (fun e => !decide (e.edge_id = k))).map faceView =
      ((es.map faceView).filter (fun v => !decide (v.1 = k))).map
        (fun v => (v.1, v.2.1, v.2.2.1,
          (if v.2.2.2.1 = l ∨ v.2.2.2.1 = r then ff else v.2.2.2.1),
          (if v.2.2.2.2.1 = l ∨ v.2.2.2.2.1 = r then ff else v.2.2.2.2.1), v.2.2.2.2.2)) := by
    intro es
    induction es with
    | nil => rfl
    | cons x rest ih =>
      rw [List.map_cons, List.map_cons]
      by_cases c : x.edge_id = k
      · have p1 : (!decide ((faceRefEdge r ff (faceRefEdge l ff x)).edge_id = k)) = false := by
          have : (faceRefEdge r ff (faceRefEdge l ff x)).edge_id = x.edge_id := rfl
          rw [this]; simp [c]
        have p2 : (!decide ((faceView x).1 = k)) = false := by
          have : (faceView x).1 = x.edge_id := rfl
          rw [this]; simp [c]
        simp only [List.filter_cons, p1, p2, Bool.false_eq_true, if_false]
        exact ih
      · have p1 : (!decide ((faceRefEdge r ff (faceRefEdge l ff x)).edge_id = k)) = true := by
          have : (faceRefEdge r ff (faceRefEdge l ff x)).edge_id = x.edge_id := rfl
          rw [this]; simp [c]
        have p2 : (!decide ((faceView x).1 = k)) = true := by
          have : (faceView x).1 = x.edge_id := rfl
          rw [this]; simp [c]
        simp only [List.filter_cons, p1, p2, if_true, List.map_cons]
        rw [ih]
        congr 1
        rw [faceRef_compose]
        rfl
  have hflt : ∀ es : List RTT_ISO_EDGE,
      ((es.filter (fun e => !decide (e.edge_id = k))).map
        (fun e => faceRefEdge r ff (faceRefEdge l ff e))).map faceView =
      ((es.map faceView).filter (fun v => !decide (v.1 = k))).map
        (fun v => (v.1, v.2.1, v.2.2.1,
          (if v.2.2.2.1 = l ∨ v.2.2.2.1 = r then ff else v.2.2.2.1),
          (if v.2.2.2.2.1 = l ∨ v.2.2.2.2.1 = r then ff else v.2.2.2.2.1), v.2.2.2.2.2)) := by
    intro es
    induction es with
    | nil => rfl
    | cons x rest ih =>
      rw [List.map_cons]
      by_cases c : x.edge_id = k
      · have p1 : (!decide (x.edge_id = k)) = false := by simp [c]
        have p2 : (!decide ((faceView x).1 = k)) = false := by
          have : (faceView x).1 = x.edge_id := rfl
          rw [this]; simp [c]
        simp only [List.filter_cons, p1, p2, Bool.false_eq_true, if_false]
        exact ih
      · have p1 : (!decide (x.edge_id = k)) = true := by simp [c]
        have p2 : (!decide ((faceView x).1 = k)) = true := by
          have : (faceView x).1 = x.edge_id := rfl
          rw [this]; simp [c]
        simp only [List.filter_cons, p1, p2, if_true, List.map_cons]
        rw [ih]
        congr 1
        rw [faceRef_compose]
        rfl
  rw [hmap es1, hflt es2, h]

end RTTopo

namespace RTTopo

/-! ## Claims on the faces merged by `_rtt_RemEdge` -/

/-- The state left by a successful `_rtt_RemEdge`, the linkage columns apart. -/
theorem rtt_RemEdge_rows {G : GEOM} {T : RTT_TOPOLOGY} {edge_id : Int} {modFace : Bool}
    {R : RTT_TOPOLOGY × Int}
    (h : _rtt_RemEdge G T edge_id modFace = R) (hok : R.2 ≠ -1) :
    ∃ (edge : RTT_ISO_EDGE) (ff nf : Int) (fn ln : Nat),
      edgeRow T.edges edge_id = some edge ∧
      ((edge.face_left = edge.face_right ∧ ff = edge.face_right ∧ nf = 0 ∧
          R.1.faces = T.faces ∧ R.1.face_seq = T.face_seq) ∨
       (edge.face_left ≠ edge.face_right ∧ (edge.face_left = 0 ∨ edge.face_right = 0) ∧
          ff = 0 ∧ nf = 0 ∧
          R.1.faces = T.faces.filter (fun f => !decide (f.face_id ∈ remEdgeGone edge 0)) ∧
          R.1.face_seq = T.face_seq) ∨
       (edge.face_left ≠ edge.face_right ∧ edge.face_left ≠ 0 ∧ edge.face_right ≠ 0 ∧
          ∃ box1 box2 : GBOX,
            (∃ f ∈ T.faces, f.face_id = edge.face_left ∧ f.mbr = some box1) ∧
            (∃ f ∈ T.faces, f.face_id = edge.face_right ∧ f.mbr = some box2) ∧
            ((modFace = true ∧ ff = edge.face_right ∧ nf = edge.face_right ∧
              R.1.faces = (T.faces.map (fun f => if f.face_id = edge.face_right
                then { f with mbr := some (G.gbox_merge box2 box1) } else f)).filter
                  (fun f => !decide (f.face_id ∈ remEdgeGone edge ff)) ∧
              R.1.face_seq = T.face_seq) ∨
             (modFace = false ∧ ff = T.face_seq ∧ nf = T.face_seq ∧
              R.1.faces = (T.faces ++ [({ face_id := T.face_seq,
                                          mbr := some (G.gbox_merge box2 box1) } : RTT_ISO_FACE)]).filter
                  (fun f => !decide (f.face_id ∈ remEdgeGone edge ff)) ∧
              R.1.face_seq = T.face_seq + 1)))) ∧
      R.1.edges.map faceView =
        ((T.edges.filter (fun e => !decide (e.edge_id = edge_id))).map
          (fun e => { e with
            face_left := if e.face_left = edge.face_left ∨ e.face_left = edge.face_right
              then ff else e.face_left,
            face_right := if e.face_right = edge.face_left ∨ e.face_right = edge.face_right
              then ff else e.face_right })).map faceView ∧
      R.1.nodes =
        (T.nodes.map (fun n => { n with containing_face :=
          if n.containing_face = edge.face_left ∨ n.containing_face = edge.face_right
          then ff else n.containing_face })).map (remEdgeNode edge fn ln ff) ∧
      R.1.node_seq = T.node_seq ∧ R.1.edge_seq = T.edge_seq ∧
      R.2 = (if modFace = true then ff else nf) := by
  obtain ⟨edge, ff, nf, F, hrow, hspec, k1, k2⟩ := rtt_RemEdge_state h hok
  have hid : edge.edge_id = edge_id := (edgeRow_some hrow).2
  have hF : R.1.faces = F := by rw [k1]
  have hE : R.1.edges = ((remEdgeRelinked T.edges edge edge_id).map
      (fun e => faceRefEdge edge.face_right ff (faceRefEdge edge.face_left ff e))).filter
        (fun e => !decide (e.edge_id = edge.edge_id)) := by rw [k1]
  have hN : ∃ fn ln : Nat, R.1.nodes = (T.nodes.map
      (fun n => faceRefNode edge.face_right ff (faceRefNode edge.face_left ff n))).map
        (remEdgeNode edge fn ln ff) := ⟨_, _, by rw [k1]⟩
  obtain ⟨fn, ln, hN⟩ := hN
  have hs1 : R.1.node_seq = T.node_seq := by rw [k1]
  have hs2 : R.1.edge_seq = T.edge_seq := by rw [k1]
  clear k1
  refine ⟨edge, ff, nf, fn, ln, hrow, ?_, ?_, ?_, hs1, hs2, k2⟩
  · rw [hF]
    exact hspec
  · rw [hE, faceView_rebind_filter _ T.edges _ _ _ _
      (remEdgeRelinked_faceView T.edges edge edge_id), hid]
    congr 1
    apply List.map_congr_left
    intro e _
    exact faceRef_compose _ _ _ e
  · rw [hN]
    congr 1
    apply List.map_congr_left
    intro n _
    exact faceRefNode_compose _ _ _ n

/-- Claim C16: for every successful `_rtt_RemEdge` on the stored edge `edge` with faces
`l = face_left` and `r = face_right`, in a state where the rows of the linkage updates
fit the two-row arrays the C function fills (`relinkFits`), there is a flood face `ff` to which every face
column equal to `l` or `r` of the other edges and every `containing_face` equal to `l` or
`r` is rebound, and which is given to the end nodes left without an edge. If `l = r`
then `ff = r` and the face table is unchanged; if `l ≠ r` and one of them is `0` then
`ff = 0`; if both are non-zero and distinct, `rtt_RemEdgeModFace` takes `ff = r` and
sets the MBR of face `r` to the union of the two MBRs, and `rtt_RemEdgeNewFace` inserts a
face with the next id of the sequence and that MBR and takes it as `ff`.
`rtt_RemEdgeModFace` returns `ff`; `rtt_RemEdgeNewFace` returns the id of the face it
inserted, or `0` when it inserted none. -/
theorem rtt_RemEdge_flood_face (G : GEOM) (T : RTT_TOPOLOGY) (edge_id : Int)
    (modFace : Bool) (hok : (_rtt_RemEdge G T edge_id modFace).2 ≠ -1)
    (hfit : relinkFits T edge_id) :
    ∃ (edge : RTT_ISO_EDGE) (ff : Int) (fn ln : Nat),
      edgeRow T.edges edge_id = some edge ∧
      (_rtt_RemEdge G T edge_id modFace).1.edges.map faceView =
        ((T.edges.filter (fun e => !decide (e.edge_id = edge_id))).map
          (fun e => { e with
            face_left := if e.face_left = edge.face_left ∨ e.face_left = edge.face_right
              then ff else e.face_left,
            face_right := if e.face_right = edge.face_left ∨ e.face_right = edge.face_right
              then ff else e.face_right })).map faceView ∧
      (_rtt_RemEdge G T edge_id modFace).1.nodes =
        (T.nodes.map (fun n => { n with containing_face :=
          if n.containing_face = edge.face_left ∨ n.containing_face = edge.face_right
          then ff else n.containing_face })).map (remEdgeNode edge fn ln ff) ∧
      (edge.face_left = edge.face_right →
        ff = edge.face_right ∧ (_rtt_RemEdge G T edge_id modFace).1.faces = T.faces) ∧
      (edge.face_left ≠ edge.face_right → (edge.face_left = 0 ∨ edge.face_right = 0) →
        ff = 0 ∧
        (_rtt_RemEdge G T edge_id modFace).1.faces =
          T.faces.filter (fun f => !decide (f.face_id ∈ remEdgeGone edge 0))) ∧
      (edge.face_left ≠ edge.face_right → edge.face_left ≠ 0 → edge.face_right ≠ 0 →
        ∃ box1 box2 : GBOX,
          (∃ f ∈ T.faces, f.face_id = edge.face_left ∧ f.mbr = some box1) ∧
          (∃ f ∈ T.faces, f.face_id = edge.face_right ∧ f.mbr = some box2) ∧
          (modFace = true → ff = edge.face_right ∧
            (_rtt_RemEdge G T edge_id modFace).1.faces =
              (T.faces.map (fun f => if f.face_id = edge.face_right
                then { f with mbr := some (G.gbox_merge box2 box1) } else f)).filter
                  (fun f => !decide (f.face_id ∈ remEdgeGone edge ff))) ∧
          (modFace = false → ff = T.face_seq ∧
            (_rtt_RemEdge G T edge_id modFace).1.faces =
              (T.faces ++ [({ face_id := T.face_seq,
                              mbr := some (G.gbox_merge box2 box1) } : RTT_ISO_FACE)]).filter
                  (fun f => !decide (f.face_id ∈ remEdgeGone edge ff)) ∧
            ({ face_id := T.face_seq, mbr := some (G.gbox_merge box2 box1) } : RTT_ISO_FACE) ∈
              (_rtt_RemEdge G T edge_id modFace).1.faces)) ∧
      (modFace = true → (_rtt_RemEdge G T edge_id modFace).2 = ff) ∧
      (modFace = false → (_rtt_RemEdge G T edge_id modFace).2 =
        (if edge.face_left ≠ edge.face_right ∧ edge.face_left ≠ 0 ∧ edge.face_right ≠ 0
         then T.face_seq else 0)) := by
  obtain ⟨edge, ff, nf, fn, ln, hrow, hspec, hE, hN, -, -, hret⟩ := rtt_RemEdge_rows rfl hok
  refine ⟨edge, ff, fn, ln, hrow, hE, hN, ?_, ?_, ?_, ?_, ?_⟩
  · intro c
    rcases hspec with ⟨-, h2, -, h4, -⟩ | ⟨n, -⟩ | ⟨n, -⟩
    · exact ⟨h2, h4⟩
    · exact absurd c n
    · exact absurd c n
  · intro c1 c2
    rcases hspec with ⟨e, -⟩ | ⟨-, -, h3, -, h5, -⟩ | ⟨-, n1, n2, -⟩
    · exact absurd e c1
    · exact ⟨h3, h5⟩
    · rcases c2 with c | c
      · exact absurd c n1
      · exact absurd c n2
  · intro c1 n1 n2
    rcases hspec with ⟨e, -⟩ | ⟨-, z, -⟩ | ⟨-, -, -, box1, box2, m1, m2, hcase⟩
    · exact absurd e c1
    · rcases z with c | c
      · exact absurd c n1
      · exact absurd c n2
    · refine ⟨box1, box2, m1, m2, ?_, ?_⟩
      · intro hm
        rcases hcase with ⟨-, h2, -, h4, -⟩ | ⟨hm', -⟩
        · exact ⟨h2, h4⟩
        · rw [hm] at hm'; exact absurd hm' (by decide)
      · intro hm
        rcases hcase with ⟨hm', -⟩ | ⟨-, h2, -, h4, -⟩
        · rw [hm] at hm'; exact absurd hm' (by decide)
        · refine ⟨h2, h4, ?_⟩
          rw [h4]
          refine List.mem_filter.2 ⟨List.mem_append_right _ (List.mem_singleton.2 rfl), ?_⟩
          have hnot : T.face_seq ∉ remEdgeGone edge ff := by
            unfold remEdgeGone
            rw [← h2]
            intro hin
            rcases List.mem_append.1 hin with q | q
            · by_cases d : edge.face_right ≠ ff
              · rw [if_pos d] at q
                exact d (List.mem_singleton.1 q).symm
              · rw [if_neg d] at q
                exact absurd q (List.not_mem_nil _)
            · by_cases d : edge.face_left ≠ ff
              · rw [if_pos d] at q
                exact d (List.mem_singleton.1 q).symm
              · rw [if_neg d] at q
                exact absurd q (List.not_mem_nil _)
          simp only [Bool.not_eq_true', decide_eq_false_iff_not]
          exact hnot
  · intro hm
    rw [hret, if_pos hm]
  · intro hm
    rw [hret, hm, if_neg Bool.false_ne_true]
    rcases hspec with ⟨e, -, h3, -⟩ | ⟨-, z, -, h4, -⟩ | ⟨c1, n1, n2, _, _, _, _, hcase⟩
    · rw [h3, if_neg (fun q => q.1 e)]
    · rw [h4, if_neg]
      intro q
      rcases z with c | c
      · exact q.2.1 c
      · exact q.2.2 c
    · rw [if_pos ⟨c1, n1, n2⟩]
      rcases hcase with ⟨hm', -⟩ | ⟨-, -, h3, -⟩
      · rw [hm] at hm'; exact absurd hm' (by decide)
      · exact h3

theorem rtt_RemEdge_flood_face_witness :
    ∃ (edge : RTT_ISO_EDGE) (ff : Int) (fn ln : Nat),
      edgeRow topoScenario3.edges 2 = some edge ∧
      (_rtt_RemEdge windingKernel topoScenario3 2 true).1.edges.map faceView =
        ((topoScenario3.edges.filter (fun e => !decide (e.edge_id = 2))).map
          (fun e => { e with
            face_left := if e.face_left = edge.face_left ∨ e.face_left = edge.face_right
              then ff else e.face_left,
            face_right := if e.face_right = edge.face_left ∨ e.face_right = edge.face_right
              then ff else e.face_right })).map faceView ∧
      (_rtt_RemEdge windingKernel topoScenario3 2 true).1.nodes =
        (topoScenario3.nodes.map (fun n => { n with containing_face :=
          if n.containing_face = edge.face_left ∨ n.containing_face = edge.face_right
          then ff else n.containing_face })).map (remEdgeNode edge fn ln ff) ∧
      (edge.face_left = edge.face_right →
        ff = edge.face_right ∧
        (_rtt_RemEdge windingKernel topoScenario3 2 true).1.faces = topoScenario3.faces) ∧
      (edge.face_left ≠ edge.face_right → (edge.face_left = 0 ∨ edge.face_right = 0) →
        ff = 0 ∧
        (_rtt_RemEdge windingKernel topoScenario3 2 true).1.faces =
          topoScenario3.faces.filter (fun f => !decide (f.face_id ∈ remEdgeGone edge 0))) ∧
      (edge.face_left ≠ edge.face_right → edge.face_left ≠ 0 → edge.face_right ≠ 0 →
        ∃ box1 box2 : GBOX,
          (∃ f ∈ topoScenario3.faces, f.face_id = edge.face_left ∧ f.mbr = some box1) ∧
          (∃ f ∈ topoScenario3.faces, f.face_id = edge.face_right ∧ f.mbr = some box2) ∧
          (true = true → ff = edge.face_right ∧
            (_rtt_RemEdge windingKernel topoScenario3 2 true).1.faces =
              (topoScenario3.faces.map (fun f => if f.face_id = edge.face_right
                then { f with mbr := some (windingKernel.gbox_merge box2 box1) }
                else f)).filter
                  (fun f => !decide (f.face_id ∈ remEdgeGone edge ff))) ∧
          (true = false → ff = topoScenario3.face_seq ∧
            (_rtt_RemEdge windingKernel topoScenario3 2 true).1.faces =
              (topoScenario3.faces ++ [({ face_id := topoScenario3.face_seq,
                                          mbr := some (windingKernel.gbox_merge box2 box1) } : RTT_ISO_FACE)]).filter
                  (fun f => !decide (f.face_id ∈ remEdgeGone edge ff)) ∧
            ({ face_id := topoScenario3.face_seq,
               mbr := some (windingKernel.gbox_merge box2 box1) } : RTT_ISO_FACE) ∈
              (_rtt_RemEdge windingKernel topoScenario3 2 true).1.faces)) ∧
      (true = true → (_rtt_RemEdge windingKernel topoScenario3 2 true).2 = ff) ∧
      (true = false → (_rtt_RemEdge windingKernel topoScenario3 2 true).2 =
        (if edge.face_left ≠ edge.face_right ∧ edge.face_left ≠ 0 ∧ edge.face_right ≠ 0
         then topoScenario3.face_seq else 0)) :=
  rtt_RemEdge_flood_face windingKernel topoScenario3 2 true (by decide) (by decide)

end RTTopo

namespace RTTopo

/-- A face id asked to be dissolved is in `remEdgeGone`. -/
theorem mem_remEdgeGone (edge : RTT_ISO_EDGE) (ff d : Int)
    (hd : d = edge.face_left ∨ d = edge.face_right) (hne : d ≠ ff) :
    d ∈ remEdgeGone edge ff := by
  unfold remEdgeGone
  rcases hd with rfl | rfl
  · exact List.mem_append_right _ (by rw [if_pos hne]; exact List.mem_singleton.2 rfl)
  · exact List.mem_append_left _ (by rw [if_pos hne]; exact List.mem_singleton.2 rfl)

/-- A rebound face column is never a dissolved face. -/
theorem rebound_ne (l r ff d v : Int) (hd : d = l ∨ d = r) (hne : d ≠ ff) :
    (if v = l ∨ v = r then ff else v) ≠ d := by
  by_cases c : v = l ∨ v = r
  · rw [if_pos c]; exact fun q => hne q.symm
  · rw [if_neg c]
    intro q
    rw [q] at c
    exact c hd

/-- The flood face is the only value `remEdgeNode` writes. -/
theorem remEdgeNode_face (edge : RTT_ISO_EDGE) (fn ln : Nat) (ff : Int) (n : RTT_ISO_NODE) :
    (remEdgeNode edge fn ln ff n).containing_face = ff ∨
    (remEdgeNode edge fn ln ff n).containing_face = n.containing_face := by
  unfold remEdgeNode
  by_cases c : (fn = 0 ∧ n.node_id = edge.start_node) ∨
      (edge.end_node ≠ edge.start_node ∧ ln = 0 ∧ n.node_id = edge.end_node)
  · rw [if_pos c]; exact Or.inl rfl
  · rw [if_neg c]; exact Or.inr rfl

/-- Claim C17: after a successful `_rtt_RemEdge` (the body of `rtt_RemEdgeModFace` and
`rtt_RemEdgeNewFace`) on a stored edge whose left and right faces differ, in a state
where the rows of the linkage updates fit the two-row arrays the C function fills
(`relinkFits`), with flood
face `ff` (`0` when one side is the universe, else `face_right` for ModFace and the
inserted face for NewFace): no edge row has the removed id; for every face `d` among
`face_left`, `face_right` other than `ff`, no face row has id `d`, no edge has
`face_left` or `face_right` equal to `d` and no node has `containing_face` equal to
`d`; the face columns of the other edges and the `containing_face` of the nodes that
were `face_left` or `face_right` are now `ff`. -/
theorem rtt_RemEdge_no_dissolved_reference (G : GEOM) (T : RTT_TOPOLOGY) (edge_id : Int)
    (modFace : Bool) (hok : (_rtt_RemEdge G T edge_id modFace).2 ≠ -1)
    (hfit : relinkFits T edge_id) :
    ∃ (edge : RTT_ISO_EDGE) (ff : Int) (fn ln : Nat),
      edgeRow T.edges edge_id = some edge ∧
      (edge.face_left ≠ edge.face_right →
        ff = (if edge.face_left = 0 ∨ edge.face_right = 0 then 0
              else if modFace = true then edge.face_right else T.face_seq) ∧
        (∀ e ∈ (_rtt_RemEdge G T edge_id modFace).1.edges, e.edge_id ≠ edge_id) ∧
        (∀ d : Int, (d = edge.face_left ∨ d = edge.face_right) → d ≠ ff →
          (∀ f ∈ (_rtt_RemEdge G T edge_id modFace).1.faces, f.face_id ≠ d) ∧
          (∀ e ∈ (_rtt_RemEdge G T edge_id modFace).1.edges,
            e.face_left ≠ d ∧ e.face_right ≠ d) ∧
          (∀ n ∈ (_rtt_RemEdge G T edge_id modFace).1.nodes, n.containing_face ≠ d)) ∧
        (_rtt_RemEdge G T edge_id modFace).1.edges.map faceView =
          ((T.edges.filter (fun e => !decide (e.edge_id = edge_id))).map
            (fun e => { e with
              face_left := if e.face_left = edge.face_left ∨ e.face_left = edge.face_right
                then ff else e.face_left,
              face_right := if e.face_right = edge.face_left ∨ e.face_right = edge.face_right
                then ff else e.face_right })).map faceView ∧
        (_rtt_RemEdge G T edge_id modFace).1.nodes =
          (T.nodes.map (fun n => { n with containing_face :=
            if n.containing_face = edge.face_left ∨ n.containing_face = edge.face_right
            then ff else n.containing_face })).map (remEdgeNode edge fn ln ff)) := by
  obtain ⟨edge, ff, nf, fn, ln, hrow, hspec, hE, hN, -, -, -⟩ := rtt_RemEdge_rows rfl hok
  refine ⟨edge, ff, fn, ln, hrow, ?_⟩
  intro hlr
  have hedge : ∀ e ∈ (_rtt_RemEdge G T edge_id modFace).1.edges,
      ∃ e0 ∈ T.edges, e0.edge_id ≠ edge_id ∧ e.edge_id = e0.edge_id ∧
        e.face_left = (if e0.face_left = edge.face_left ∨ e0.face_left = edge.face_right
          then ff else e0.face_left) ∧
        e.face_right = (if e0.face_right = edge.face_left ∨ e0.face_right = edge.face_right
          then ff else e0.face_right) := by
    intro e he
    have hm : faceView e ∈ (_rtt_RemEdge G T edge_id modFace).1.edges.map faceView :=
      List.mem_map.2 ⟨e, he, rfl⟩
    rw [hE] at hm
    obtain ⟨e1, he1, hv⟩ := List.mem_map.1 hm
    obtain ⟨e0, he0, rfl⟩ := List.mem_map.1 he1
    obtain ⟨hmem, hk⟩ := List.mem_filter.1 he0
    simp only [Bool.not_eq_true', decide_eq_false_iff_not] at hk
    unfold faceView at hv
    simp only [Prod.mk.injEq] at hv
    exact ⟨e0, hmem, hk, hv.1.symm, hv.2.2.2.1.symm, hv.2.2.2.2.1.symm⟩
  have hfaces : ∀ d : Int, (d = edge.face_left ∨ d = edge.face_right) → d ≠ ff →
      ∀ f ∈ (_rtt_RemEdge G T edge_id modFace).1.faces, f.face_id ≠ d := by
    intro d hd hne f hf q
    have hgone : f.face_id ∈ remEdgeGone edge ff := by
      rw [q]; exact mem_remEdgeGone edge ff d hd hne
    rcases hspec with ⟨e, -⟩ | ⟨-, -, h3, -, h5, -⟩ | ⟨-, -, -, _, _, _, _, hcase⟩
    · exact hlr e
    · rw [h5] at hf
      have := (List.mem_filter.1 hf).2
      simp only [Bool.not_eq_true', decide_eq_false_iff_not] at this
      rw [h3] at hgone
      exact this hgone
    · rcases hcase with ⟨-, -, -, h4, -⟩ | ⟨-, -, -, h4, -⟩
      · rw [h4] at hf
        have := (List.mem_filter.1 hf).2
        simp only [Bool.not_eq_true', decide_eq_false_iff_not] at this
        exact this hgone
      · rw [h4] at hf
        have := (List.mem_filter.1 hf).2
        simp only [Bool.not_eq_true', decide_eq_false_iff_not] at this
        exact this hgone
  refine ⟨?_, ?_, ?_, hE, hN⟩
  · rcases hspec with ⟨e, -⟩ | ⟨-, z, h3, -⟩ | ⟨-, n1, n2, _, _, _, _, hcase⟩
    · exact absurd e hlr
    · rw [if_pos z]; exact h3
    · rw [if_neg (fun q => q.elim n1 n2)]
      rcases hcase with ⟨hm, h2, -⟩ | ⟨hm, h2, -⟩
      · rw [if_pos hm]; exact h2
      · rw [hm, if_neg Bool.false_ne_true]; exact h2
  · intro e he
    obtain ⟨e0, -, hk, hid, -⟩ := hedge e he
    rw [hid]; exact hk
  · intro d hd hne
    refine ⟨hfaces d hd hne, ?_, ?_⟩
    · intro e he
      obtain ⟨e0, -, -, -, hl, hr⟩ := hedge e he
      rw [hl, hr]
      exact ⟨rebound_ne _ _ _ _ _ hd hne, rebound_ne _ _ _ _ _ hd hne⟩
    · intro n hn
      rw [hN] at hn
      obtain ⟨n1, hn1, rfl⟩ := List.mem_map.1 hn
      obtain ⟨n0, -, rfl⟩ := List.mem_map.1 hn1
      rcases remEdgeNode_face edge fn ln ff
        { n0 with containing_face :=
            if n0.containing_face = edge.face_left ∨ n0.containing_face = edge.face_right
            then ff else n0.containing_face } with q | q
      · rw [q]; exact fun q => hne q.symm
      · rw [q]; exact rebound_ne _ _ _ _ _ hd hne

theorem rtt_RemEdge_no_dissolved_reference_witness :
    ∃ (edge : RTT_ISO_EDGE) (ff : Int) (fn ln : Nat),
      edgeRow topoScenario3.edges 2 = some edge ∧
      (edge.face_left ≠ edge.face_right →
        ff = (if edge.face_left = 0 ∨ edge.face_right = 0 then 0
              else if false = true then edge.face_right else topoScenario3.face_seq) ∧
        (∀ e ∈ (_rtt_RemEdge windingKernel topoScenario3 2 false).1.edges, e.edge_id ≠ 2) ∧
        (∀ d : Int, (d = edge.face_left ∨ d = edge.face_right) → d ≠ ff →
          (∀ f ∈ (_rtt_RemEdge windingKernel topoScenario3 2 false).1.faces, f.face_id ≠ d) ∧
          (∀ e ∈ (_rtt_RemEdge windingKernel topoScenario3 2 false).1.edges,
            e.face_left ≠ d ∧ e.face_right ≠ d) ∧
          (∀ n ∈ (_rtt_RemEdge windingKernel topoScenario3 2 false).1.nodes,
            n.containing_face ≠ d)) ∧
        (_rtt_RemEdge windingKernel topoScenario3 2 false).1.edges.map faceView =
          ((topoScenario3.edges.filter (fun e => !decide (e.edge_id = 2))).map
            (fun e => { e with
              face_left := if e.face_left = edge.face_left ∨ e.face_left = edge.face_right
                then ff else e.face_left,
              face_right := if e.face_right = edge.face_left ∨ e.face_right = edge.face_right
                then ff else e.face_right })).map faceView ∧
        (_rtt_RemEdge windingKernel topoScenario3 2 false).1.nodes =
          (topoScenario3.nodes.map (fun n => { n with containing_face :=
            if n.containing_face = edge.face_left ∨ n.containing_face = edge.face_right
            then ff else n.containing_face })).map (remEdgeNode edge fn ln ff)) :=
  rtt_RemEdge_no_dissolved_reference windingKernel topoScenario3 2 false (by decide)
    (by decide)

end RTTopo

namespace RTTopo

/-! ## The node isolation invariant: basic facts and the calls on isolated primitives -/

/-- Rows of a table with distinct identifiers are equal when their identifiers are. -/
theorem edge_unique {es : List RTT_ISO_EDGE} (hnd : (es.map (fun e => e.edge_id)).Nodup)
    {a b : RTT_ISO_EDGE} (ha : a ∈ es) (hb : b ∈ es) (h : a.edge_id = b.edge_id) : a = b :=
  List.inj_on_of_nodup_map hnd ha hb h

theorem node_unique {ns : List RTT_ISO_NODE} (hnd : (ns.map (fun n => n.node_id)).Nodup)
    {a b : RTT_ISO_NODE} (ha : a ∈ ns) (hb : b ∈ ns) (h : a.node_id = b.node_id) : a = b :=
  List.inj_on_of_nodup_map hnd ha hb h

/-- A successful `rtt_AddIsoNode` appends one row with a fresh identifier and a set
`containing_face`. -/
theorem rtt_AddIsoNode_state {G : GEOM} {T : RTT_TOPOLOGY} {face : Int} {pt : POINT2D}
    {skip : Bool} {R : RTT_TOPOLOGY × Int}
    (h : rtt_AddIsoNode G T face pt skip = R) (hok : R.2 ≠ -1) :
    ∃ cf : Int, cf ≠ -1 ∧
      R.1.nodes = T.nodes ++ [{ node_id := T.node_seq, containing_face := cf, geom := pt }] ∧
      R.1.edges = T.edges ∧ R.1.node_seq = T.node_seq + 1 ∧ R.1.edge_seq = T.edge_seq ∧
      R.1.face_seq = T.face_seq := by
  unfold rtt_AddIsoNode at h
  dsimp only at h
  rcases hc1 : (if skip = true then (T, (0 : Int)) else rtt_be_ExistsCoincidentNode G T pt)
    with ⟨T1, r1⟩
  have hT1 : T1 = { T with errors := T1.errors } := by
    by_cases c : skip = true
    · rw [if_pos c] at hc1; cases hc1; rfl
    · rw [if_neg c] at hc1
      have := existsCoincidentNode_rows G T pt
      rw [hc1] at this; exact this
  rw [hc1] at h
  dsimp only at h
  by_cases c1 : r1 ≠ 0
  · rw [if_pos c1] at h; subst h; exact absurd rfl hok
  rw [if_neg c1] at h
  rcases hc2 : (if skip = true then (T1, (0 : Int))
    else rtt_be_ExistsEdgeIntersectingPoint G T1 pt) with ⟨T2, r2⟩
  have hT2 : T2 = { T1 with errors := T2.errors } := by
    by_cases c : skip = true
    · rw [if_pos c] at hc2; cases hc2; rfl
    · rw [if_neg c] at hc2
      have := existsEdgeIntersectingPoint_rows G T1 pt
      rw [hc2] at this; exact this
  rw [hc2] at h
  dsimp only at h
  by_cases c2 : r2 ≠ 0
  · rw [if_pos c2] at h; subst h; exact absurd rfl hok
  rw [if_neg c2] at h
  generalize (if face = -1 ∨ skip = false then rtt_be_getFaceContainingPoint G T2 pt
    else (-1 : Int)) = found0 at h
  by_cases c3 : (face = -1 ∨ skip = false) ∧ found0 = -2
  · rw [if_pos c3] at h; subst h; exact absurd rfl hok
  rw [if_neg c3] at h
  by_cases c4 : face ≠ -1 ∧ skip = false ∧
      (if (face = -1 ∨ skip = false) ∧ found0 = -1 then (0 : Int) else found0) ≠ face
  · rw [if_pos c4] at h; subst h; exact absurd rfl hok
  rw [if_neg c4] at h
  have hcf : (if face = -1 then
      (if (face = -1 ∨ skip = false) ∧ found0 = -1 then (0 : Int) else found0)
      else face) ≠ -1 := by
    by_cases c : face = -1
    · rw [if_pos c]
      by_cases d : found0 = -1
      · rw [if_pos ⟨Or.inl c, d⟩]; decide
      · rw [if_neg (fun q => d q.2)]; exact d
    · rw [if_neg c]; exact c
  generalize (if face = -1 then
      (if (face = -1 ∨ skip = false) ∧ found0 = -1 then (0 : Int) else found0)
      else face) = cf at h hcf
  rcases hn : rtt_be_insertNodes T2 { node_id := -1, containing_face := cf, geom := pt }
    with ⟨T3, row, ret⟩
  rw [hn] at h
  dsimp only at h
  by_cases c5 : ret = 0
  · rw [if_pos c5] at h; subst h; exact absurd rfl hok
  rw [if_neg c5] at h
  obtain ⟨-, hT3⟩ := insertNodes_ok hn c5 rfl
  subst h
  refine ⟨cf, hcf, ?_, ?_, ?_, ?_, ?_⟩
  · show T3.nodes = _
    rw [hT3, hT2, hT1]
  · show T3.edges = _
    rw [hT3, hT2, hT1]
  · show T3.node_seq = _
    rw [hT3, hT2, hT1]
  · show T3.edge_seq = _
    rw [hT3, hT2, hT1]
  · show T3.face_seq = _
    rw [hT3, hT2, hT1]

/-- The call `rtt_AddIsoNode` keeps `isoSound`. -/
theorem isoSound_AddIsoNode (G : GEOM) (T : RTT_TOPOLOGY) (face : Int) (pt : POINT2D)
    (skip : Bool) (hs : isoSound T) (hok : (rtt_AddIsoNode G T face pt skip).2 ≠ -1) :
    isoSound (rtt_AddIsoNode G T face pt skip).1 := by
  obtain ⟨cf, hcf, hN, hE, hns, hes, hfs⟩ := rtt_AddIsoNode_state rfl hok
  generalize (rtt_AddIsoNode G T face pt skip).1 = T' at hN hE hns hes hfs ⊢
  obtain ⟨h1, h2, h3, h4, h5, h6, h7⟩ := hs
  unfold isoSound nodeIsolation
  rw [hN, hE, hns, hes, hfs]
  refine ⟨?_, h2, ?_, h4, ?_, ?_, h7⟩
  · intro n hn
    rcases List.mem_append.1 hn with hn | hn
    · exact h1 n hn
    · rw [List.mem_singleton.1 hn]
      constructor
      · intro _ e he
        have := h3 e he
        constructor
        · show e.start_node ≠ T.node_seq
          omega
        · show e.end_node ≠ T.node_seq
          omega
      · intro _; exact hcf
  · intro e he
    have := h3 e he
    omega
  · intro n hn
    rcases List.mem_append.1 hn with hn | hn
    · have := h5 n hn; omega
    · rw [List.mem_singleton.1 hn]
      show T.node_seq < T.node_seq + 1
      omega
  · rw [List.map_append, List.nodup_append]
    refine ⟨h6, List.nodup_singleton _, ?_⟩
    intro a ha hb
    obtain ⟨n, hn, rfl⟩ := List.mem_map.1 ha
    have := h5 n hn
    rw [List.map_singleton, List.mem_singleton] at hb
    try dsimp only at hb
    omega

/-- A successful `_rtt_GetIsoNode` leaves the state alone and yields a stored row with
the requested identifier whose `containing_face` is set. -/
theorem GetIsoNode_ok {T T1 : RTT_TOPOLOGY} {nid : Int} {node : RTT_ISO_NODE}
    (h : _rtt_GetIsoNode T nid = (T1, some node)) :
    T1 = T ∧ node ∈ T.nodes ∧ node.node_id = nid ∧ node.containing_face ≠ -1 := by
  unfold _rtt_GetIsoNode at h
  cases hg : rtt_be_getNodeById T [nid] with
  | none => rw [hg] at h; simp at h
  | some l =>
    rw [hg] at h
    cases l with
    | nil => simp at h
    | cons o rest =>
      dsimp only at h
      have hl := getNodeById_some hg
      have ho : o ∈ T.nodes.filter (fun n => decide (n.node_id ∈ [nid])) := by
        rw [← hl]; exact List.mem_cons_self _ _
      obtain ⟨hm, hid⟩ := List.mem_filter.1 ho
      simp only [List.mem_singleton, decide_eq_true_eq] at hid
      by_cases c : o.containing_face = -1
      · rw [if_pos c] at h; simp at h
      · rw [if_neg c] at h
        simp only [Prod.mk.injEq, Option.some.injEq] at h
        obtain ⟨rfl, rfl⟩ := h
        exact ⟨rfl, hm, hid, c⟩

/-- A state whose edge rows keep their identifiers and end nodes, whose node rows keep
their identifiers and flags, and whose sequences are kept, is sound when the state it
comes from is. -/
theorem isoSound_congr {T T' : RTT_TOPOLOGY} (hs : isoSound T)
    (hE : T'.edges.map endView = T.edges.map endView)
    (hN : T'.nodes.map nodeFlag = T.nodes.map nodeFlag)
    (hF : ∀ e ∈ T'.edges, e.face_left ≠ -1 ∧ e.face_right ≠ -1)
    (hns : T'.node_seq = T.node_seq) (hes : T'.edge_seq = T.edge_seq)
    (hfs : 0 < T'.face_seq) : isoSound T' := by
  obtain ⟨h1, h2, h3, h4, h5, h6, h7⟩ := hs
  have edge_back : ∀ e ∈ T'.edges, ∃ e0 ∈ T.edges, e0.edge_id = e.edge_id ∧
      e0.start_node = e.start_node ∧ e0.end_node = e.end_node := by
    intro e he
    have hm : endView e ∈ T.edges.map endView := by
      rw [← hE]; exact List.mem_map.2 ⟨e, he, rfl⟩
    obtain ⟨e0, he0, hv⟩ := List.mem_map.1 hm
    unfold endView at hv
    simp only [Prod.mk.injEq] at hv
    exact ⟨e0, he0, hv.1, hv.2.1, hv.2.2⟩
  have edge_forth : ∀ e0 ∈ T.edges, ∃ e ∈ T'.edges, e0.edge_id = e.edge_id ∧
      e0.start_node = e.start_node ∧ e0.end_node = e.end_node := by
    intro e he
    have hm : endView e ∈ T'.edges.map endView := by
      rw [hE]; exact List.mem_map.2 ⟨e, he, rfl⟩
    obtain ⟨e0, he0, hv⟩ := List.mem_map.1 hm
    unfold endView at hv
    simp only [Prod.mk.injEq] at hv
    exact ⟨e0, he0, hv.1.symm, hv.2.1.symm, hv.2.2.symm⟩
  have node_back : ∀ n ∈ T'.nodes, ∃ n0 ∈ T.nodes, n0.node_id = n.node_id ∧
      (n0.containing_face = -1 ↔ n.containing_face = -1) := by
    intro n hn
    have hm : nodeFlag n ∈ T.nodes.map nodeFlag := by
      rw [← hN]; exact List.mem_map.2 ⟨n, hn, rfl⟩
    obtain ⟨n0, hn0, hv⟩ := List.mem_map.1 hm
    unfold nodeFlag at hv
    simp only [Prod.mk.injEq, decide_eq_decide] at hv
    exact ⟨n0, hn0, hv.1, hv.2⟩
  refine ⟨?_, hF, ?_, ?_, ?_, ?_, hfs⟩
  · intro n hn
    obtain ⟨n0, hn0, hid, hfl⟩ := node_back n hn
    refine (not_congr hfl.symm).trans ?_
    refine (h1 n0 hn0).trans ?_
    rw [hid]
    constructor
    · intro q e he
      obtain ⟨e0, he0, -, hs0, ht0⟩ := edge_back e he
      rw [← hs0, ← ht0]; exact q e0 he0
    · intro q e he
      obtain ⟨e0, he0, -, hs0, ht0⟩ := edge_forth e he
      rw [hs0, ht0]; exact q e0 he0
  · intro e he
    obtain ⟨e0, he0, hid, hs0, ht0⟩ := edge_back e he
    rw [← hid, ← hs0, ← ht0, hns, hes]; exact h3 e0 he0
  · have : T'.edges.map (fun e => e.edge_id) = T.edges.map (fun e => e.edge_id) := by
      have := congrArg (List.map (fun v : Int × Int × Int => v.1)) hE
      simpa only [List.map_map] using this
    rw [this]; exact h4
  · intro n hn
    obtain ⟨n0, hn0, hid, -⟩ := node_back n hn
    rw [← hid, hns]; exact h5 n0 hn0
  · have : T'.nodes.map (fun n => n.node_id) = T.nodes.map (fun n => n.node_id) := by
      have := congrArg (List.map (fun v : Int × Bool => v.1)) hN
      simpa only [List.map_map] using this
    rw [this]; exact h6

/-- An existence check leaves every row and every sequence alone. -/
theorem coincident_rows {G : GEOM} {T T1 : RTT_TOPOLOGY} {pt : POINT2D} {r : Int}
    (h : rtt_be_ExistsCoincidentNode G T pt = (T1, r)) :
    T1 = { T with errors := T1.errors } := by
  have := existsCoincidentNode_rows G T pt
  rw [h] at this; exact this

theorem intersecting_rows {G : GEOM} {T T1 : RTT_TOPOLOGY} {pt : POINT2D} {r : Int}
    (h : rtt_be_ExistsEdgeIntersectingPoint G T pt = (T1, r)) :
    T1 = { T with errors := T1.errors } := by
  have := existsEdgeIntersectingPoint_rows G T pt
  rw [h] at this; exact this

/-- The call `rtt_MoveIsoNode` keeps `isoSound`. -/
theorem isoSound_MoveIsoNode (G : GEOM) (T : RTT_TOPOLOGY) (nid : Int) (pt : POINT2D)
    (hs : isoSound T) (hok : (rtt_MoveIsoNode G T nid pt).2 ≠ -1) :
    isoSound (rtt_MoveIsoNode G T nid pt).1 := by
  generalize h : rtt_MoveIsoNode G T nid pt = R at hok ⊢
  unfold rtt_MoveIsoNode at h
  dsimp only at h
  rcases hg : _rtt_GetIsoNode T nid with ⟨T0, o⟩
  rw [hg] at h
  cases o with
  | none => dsimp only at h; subst h; exact absurd rfl hok
  | some node =>
    dsimp only at h
    obtain ⟨rfl, -, -, -⟩ := GetIsoNode_ok hg
    rcases hc1 : rtt_be_ExistsCoincidentNode G T0 pt with ⟨T1, r1⟩
    rw [hc1] at h
    dsimp only at h
    have hT1 := coincident_rows hc1
    by_cases c1 : r1 ≠ 0
    · rw [if_pos c1] at h; subst h; exact absurd rfl hok
    rw [if_neg c1] at h
    rcases hc2 : rtt_be_ExistsEdgeIntersectingPoint G T1 pt with ⟨T2, r2⟩
    rw [hc2] at h
    dsimp only at h
    have hT2 := intersecting_rows hc2
    by_cases c2 : r2 ≠ 0
    · rw [if_pos c2] at h; subst h; exact absurd rfl hok
    rw [if_neg c2] at h
    rcases hu : rtt_be_updateNodesById T2 [{ node with node_id := nid, geom := pt }]
      [RTT_COL_NODE.GEOM] with ⟨T3, r3⟩
    rw [hu] at h
    dsimp only at h
    by_cases c3 : r3 = -1
    · rw [if_pos c3] at h; subst h; exact absurd rfl hok
    rw [if_neg c3] at h
    have hT3 := updateNodesById_ok hu c3
    subst h
    have hE : T3.edges = T0.edges := by rw [hT3, hT2, hT1]
    have hN : T3.nodes = T0.nodes.map (fun n => if n.node_id = nid then
        nodeAssign { node with node_id := nid, geom := pt } [RTT_COL_NODE.GEOM] n else n) := by
      rw [hT3, hT2, hT1]; rfl
    obtain ⟨h1, h2, h3, h4, h5, h6, h7⟩ := hs
    refine isoSound_congr ⟨h1, h2, h3, h4, h5, h6, h7⟩ ?_ ?_ ?_ ?_ ?_ ?_
    · show T3.edges.map endView = _
      rw [hE]
    · show T3.nodes.map nodeFlag = _
      rw [hN, List.map_map]
      apply List.map_congr_left
      intro n _
      simp only [Function.comp]
      split_ifs
      · rfl
      · rfl
    · show ∀ e ∈ T3.edges, _
      rw [hE]; exact h2
    · show T3.node_seq = _
      rw [hT3, hT2, hT1]
    · show T3.edge_seq = _
      rw [hT3, hT2, hT1]
    · show 0 < T3.face_seq
      rw [hT3, hT2, hT1]; exact h7

/-- The call `rtt_RemoveIsoNode` keeps `isoSound`. -/
theorem isoSound_RemoveIsoNode (T : RTT_TOPOLOGY) (nid : Int)
    (hs : isoSound T) (hok : (rtt_RemoveIsoNode T nid).2 ≠ -1) :
    isoSound (rtt_RemoveIsoNode T nid).1 := by
  generalize h : rtt_RemoveIsoNode T nid = R at hok ⊢
  unfold rtt_RemoveIsoNode at h
  dsimp only at h
  rcases hg : _rtt_GetIsoNode T nid with ⟨T0, o⟩
  rw [hg] at h
  cases o with
  | none => dsimp only at h; subst h; exact absurd rfl hok
  | some node =>
    dsimp only at h
    obtain ⟨rfl, -, -, -⟩ := GetIsoNode_ok hg
    rcases hd : rtt_be_deleteNodesById T0 [nid] with ⟨T1, r1⟩
    rw [hd] at h
    dsimp only at h
    by_cases c1 : r1 = -1
    · rw [if_pos c1] at h; subst h; exact absurd rfl hok
    rw [if_neg c1] at h
    by_cases c2 : r1 ≠ 1
    · rw [if_pos c2] at h; subst h; exact absurd rfl hok
    rw [if_neg c2] at h
    have hT1 := deleteNodesById_ok hd c1
    subst h
    obtain ⟨h1, h2, h3, h4, h5, h6, h7⟩ := hs
    have hE : T1.edges = T0.edges := by rw [hT1]
    have hN : T1.nodes = T0.nodes.filter (fun n => !decide (n.node_id ∈ [nid])) := by
      rw [hT1]
    have hns : T1.node_seq = T0.node_seq := by rw [hT1]
    have hes : T1.edge_seq = T0.edge_seq := by rw [hT1]
    have hfs : T1.face_seq = T0.face_seq := by rw [hT1]
    show isoSound T1
    unfold isoSound nodeIsolation
    rw [hE, hN, hns, hes, hfs]
    refine ⟨?_, h2, h3, h4, ?_, ?_, h7⟩
    · intro n hn
      exact h1 n (List.mem_filter.1 hn).1
    · intro n hn
      exact h5 n (List.mem_filter.1 hn).1
    · exact h6.sublist ((List.filter_sublist _).map _)

end RTTopo

namespace RTTopo

/-! ## `rtt_RemIsoEdge` keeps the node isolation invariant -/

/-- Deleting by identifier keeps the rows with another identifier. -/
theorem deleteById_filter (es : List RTT_ISO_EDGE) (id : Int) :
    es.filter (fun e => !edgeMatches { blankEdge with edge_id := id }
      [RTT_COL_EDGE.EDGE_ID] e) = es.filter (fun e => !decide (e.edge_id = id)) := by
  congr 1
  funext x
  simp [edgeMatches]

/-- The `updateNodesById` request of `rtt_RemIsoEdge` and `_rtt_RemEdge`, row by row. -/
theorem updateNodes_face (ns : List RTT_ISO_NODE) (s t f : Int) :
    List.foldl (updateNodeById [RTT_COL_NODE.CONTAINING_FACE]) ns
      ({ blankNode with node_id := s, containing_face := f } ::
        (if t ≠ s then [{ blankNode with node_id := t, containing_face := f }] else [])) =
    ns.map (fun n => if n.node_id = s ∨ n.node_id = t then
      { n with containing_face := f } else n) := by
  by_cases c : t ≠ s
  · rw [if_pos c]
    simp only [List.foldl_cons, List.foldl_nil, updateNodeById, List.map_map]
    apply List.map_congr_left
    intro n _
    rcases n with ⟨id, cf, g⟩
    simp only [Function.comp, nodeAssign]
    by_cases h1 : id = s <;> by_cases h2 : id = t <;> simp_all
  · rw [if_neg c]
    have c' : t = s := not_not.1 c
    simp only [List.foldl_cons, List.foldl_nil, updateNodeById]
    apply List.map_congr_left
    intro n _
    rcases n with ⟨id, cf, g⟩
    simp only [nodeAssign]
    by_cases h1 : id = s <;> simp_all

/-- A successful `rtt_RemIsoEdge` deletes the one row with the identifier, which has the
same face on both sides and is the only edge on its end nodes, and gives that face to
the end nodes. -/
theorem rtt_RemIsoEdge_state {T : RTT_TOPOLOGY} {id : Int} {R : RTT_TOPOLOGY × Int}
    (h : rtt_RemIsoEdge T id = R) (hok : R.2 ≠ -1) :
    ∃ edge : RTT_ISO_EDGE, edge ∈ T.edges ∧ edge.edge_id = id ∧
      (∀ e ∈ T.edges, e.edge_id = id → e = edge) ∧
      (∀ e ∈ T.edges, (e.start_node = edge.start_node ∨ e.start_node = edge.end_node ∨
        e.end_node = edge.start_node ∨ e.end_node = edge.end_node) → e.edge_id = id) ∧
      R.1 = { T with
        edges := T.edges.filter (fun e => !decide (e.edge_id = id))
        nodes := T.nodes.map (fun n =>
          if n.node_id = edge.start_node ∨ n.node_id = edge.end_node then
            { n with containing_face := edge.face_left } else n) } := by
  unfold rtt_RemIsoEdge at h
  cases hg : rtt_be_getEdgeById T [id] with
  | none => rw [hg] at h; subst h; exact absurd rfl hok
  | some l =>
    rw [hg] at h
    cases l with
    | nil => dsimp only at h; subst h; exact absurd rfl hok
    | cons edge more =>
      dsimp only at h
      have hl := getEdgeById_some hg
      by_cases c1 : more.length ≠ 0
      · rw [if_pos c1] at h; subst h; exact absurd rfl hok
      rw [if_neg c1] at h
      have hmore : more = [] := List.length_eq_zero.1 (not_not.1 c1)
      subst hmore
      by_cases c2 : edge.face_left ≠ edge.face_right
      · rw [if_pos c2] at h; subst h; exact absurd rfl hok
      rw [if_neg c2] at h
      cases hn : rtt_be_getEdgeByNode T [edge.start_node, edge.end_node] with
      | none => rw [hn] at h; subst h; exact absurd rfl hok
      | some es =>
        rw [hn] at h
        dsimp only at h
        have hes := getEdgeByNode_some hn
        by_cases c3 : es.any (fun e => !decide (e.edge_id = id)) = true
        · rw [if_pos c3] at h; subst h; exact absurd rfl hok
        rw [if_neg c3] at h
        rcases hd : rtt_be_deleteEdges T { blankEdge with edge_id := id }
          [RTT_COL_EDGE.EDGE_ID] with ⟨T1, r1⟩
        rw [hd] at h
        dsimp only at h
        by_cases c4 : r1 = -1
        · rw [if_pos c4] at h; subst h; exact absurd rfl hok
        rw [if_neg c4] at h
        by_cases c5 : r1 ≠ 1
        · rw [if_pos c5] at h; subst h; exact absurd rfl hok
        rw [if_neg c5] at h
        have hT1 := deleteEdges_ok hd c4
        rcases hu : rtt_be_updateNodesById T1
          ({ blankNode with node_id := edge.start_node,
                            containing_face := edge.face_left } ::
            (if edge.end_node ≠ edge.start_node then
              [{ blankNode with node_id := edge.end_node,
                                containing_face := edge.face_left }] else []))
          [RTT_COL_NODE.CONTAINING_FACE] with ⟨T2, r2⟩
        rw [hu] at h
        dsimp only at h
        by_cases c6 : r2 = -1
        · rw [if_pos c6] at h; subst h; exact absurd rfl hok
        rw [if_neg c6] at h
        have hT2 := updateNodesById_ok hu c6
        subst h
        have hmem : ∀ e, e ∈ T.edges ∧ e.edge_id = id ↔ e = edge := by
          intro e
          have : e ∈ T.edges.filter (fun e => decide (e.edge_id ∈ [id])) ↔ e ∈ [edge] := by
            rw [← hl]
          simp only [List.mem_filter, List.mem_singleton, decide_eq_true_eq] at this
          exact this
        refine ⟨edge, ((hmem edge).2 rfl).1, ((hmem edge).2 rfl).2,
          fun e he hid => (hmem e).1 ⟨he, hid⟩, ?_, ?_⟩
        · intro e he hinc
          by_contra hne
          apply c3
          rw [List.any_eq_true]
          refine ⟨e, ?_, ?_⟩
          · rw [hes]
            refine List.mem_filter.2 ⟨he, ?_⟩
            simp only [List.mem_cons, List.mem_singleton, List.not_mem_nil, or_false,
              Bool.or_eq_true, decide_eq_true_eq]
            tauto
          · simp only [Bool.not_eq_true', decide_eq_false_iff_not]
            exact hne
        · show T2 = _
          rw [hT2, hT1, updateNodes_face, deleteById_filter]

/-- The call `rtt_RemIsoEdge` keeps `isoSound`. -/
theorem isoSound_RemIsoEdge (T : RTT_TOPOLOGY) (id : Int)
    (hs : isoSound T) (hok : (rtt_RemIsoEdge T id).2 ≠ -1) :
    isoSound (rtt_RemIsoEdge T id).1 := by
  obtain ⟨edge, hmem, hid, huniq, halone, hR⟩ := rtt_RemIsoEdge_state rfl hok
  rw [hR]
  obtain ⟨h1, h2, h3, h4, h5, h6, h7⟩ := hs
  refine ⟨?_, ?_, ?_, ?_, ?_, ?_, h7⟩
  · intro n' hn'
    obtain ⟨n, hn, rfl⟩ := List.mem_map.1 hn'
    by_cases c : n.node_id = edge.start_node ∨ n.node_id = edge.end_node
    · rw [if_pos c]
      constructor
      · intro _ e he
        obtain ⟨he0, hne⟩ := List.mem_filter.1 he
        simp only [Bool.not_eq_true', decide_eq_false_iff_not] at hne
        constructor
        · intro q
          apply hne
          apply halone e he0
          rcases c with c | c
          · exact Or.inl (q.trans c)
          · exact Or.inr (Or.inl (q.trans c))
        · intro q
          apply hne
          apply halone e he0
          rcases c with c | c
          · exact Or.inr (Or.inr (Or.inl (q.trans c)))
          · exact Or.inr (Or.inr (Or.inr (q.trans c)))
      · intro _
        exact (h2 edge hmem).1
    · rw [if_neg c]
      refine (h1 n hn).trans ?_
      constructor
      · intro q e he
        exact q e (List.mem_filter.1 he).1
      · intro q e he
        by_cases d : e.edge_id = id
        · have := huniq e he d
          subst this
          constructor
          · intro k; exact c (Or.inl k.symm)
          · intro k; exact c (Or.inr k.symm)
        · exact q e (List.mem_filter.2 ⟨he, by simpa using d⟩)
  · intro e he
    exact h2 e (List.mem_filter.1 he).1
  · intro e he
    exact h3 e (List.mem_filter.1 he).1
  · exact h4.sublist ((List.filter_sublist _).map _)
  · intro n' hn'
    obtain ⟨n, hn, rfl⟩ := List.mem_map.1 hn'
    have := h5 n hn
    split_ifs <;> exact this
  · have : (T.nodes.map (fun n =>
        if n.node_id = edge.start_node ∨ n.node_id = edge.end_node then
          { n with containing_face := edge.face_left } else n)).map (fun n => n.node_id) =
        T.nodes.map (fun n => n.node_id) := by
      rw [List.map_map]
      apply List.map_congr_left
      intro n _
      simp only [Function.comp]
      split_ifs <;> rfl
    show (List.map (fun n : RTT_ISO_NODE => n.node_id) (T.nodes.map _)).Nodup
    rw [this]; exact h6

end RTTopo

namespace RTTopo

/-! ## `rtt_AddIsoEdge` keeps the node isolation invariant -/

/-- A successful `rtt_AddIsoEdge` appends one row with the next identifier and a set
face, and unsets `containing_face` of the two end nodes, of which two rows were fetched. -/
theorem rtt_AddIsoEdge_state {G : GEOM} {T : RTT_TOPOLOGY} {startNode endNode : Int}
    {geom : RTLINE} {R : RTT_TOPOLOGY × Int}
    (h : rtt_AddIsoEdge G T startNode endNode geom = R) (hok : R.2 ≠ -1) :
    ∃ f : Int, f ≠ -1 ∧ startNode ≠ endNode ∧
      2 ≤ (T.nodes.filter (fun n => decide (n.node_id ∈ [startNode, endNode]))).length ∧
      R.1 = { T with
        edges := T.edges ++
          [{ edge_id := T.edge_seq, start_node := startNode, end_node := endNode,
             face_left := f, face_right := f, next_left := -T.edge_seq,
             next_right := T.edge_seq, geom := geom }]
        nodes := T.nodes.map (fun n => if n.node_id = startNode ∨ n.node_id = endNode then
          { n with containing_face := -1 } else n)
        edge_seq := T.edge_seq + 1 } := by
  unfold rtt_AddIsoEdge at h
  dsimp only at h
  by_cases h1 : startNode = endNode
  · rw [if_pos h1] at h; subst h; exact absurd rfl hok
  rw [if_neg h1] at h
  by_cases h2 : (!G.is_simple geom) = true
  · rw [if_pos h2] at h; subst h; exact absurd rfl hok
  rw [if_neg h2] at h
  cases hn : rtt_be_getNodeById T [startNode, endNode] with
  | none => rw [hn] at h; subst h; exact absurd rfl hok
  | some endpoints =>
    rw [hn] at h
    dsimp only at h
    by_cases h3 : endpoints.length < 2
    · rw [if_pos h3] at h; subst h; exact absurd rfl hok
    rw [if_neg h3] at h
    cases hi : isoEdgeEndpoints startNode geom endpoints (-1) with
    | error msg => rw [hi] at h; subst h; exact absurd rfl hok
    | ok cf0 =>
      rw [hi] at h
      dsimp only at h
      rcases hc : _rtt_CheckEdgeCrossing G T startNode endNode geom 0 with ⟨T1, c⟩
      rw [hc] at h
      dsimp only at h
      by_cases h4 : c ≠ 0
      · rw [if_pos h4] at h; subst h; exact absurd rfl hok
      rw [if_neg h4] at h
      rcases hid : rtt_be_getNextEdgeId T1 with ⟨T2, id⟩
      rw [hid] at h
      dsimp only at h
      by_cases h5 : id = -1
      · rw [if_pos h5] at h; subst h; exact absurd rfl hok
      rw [if_neg h5] at h
      have hT1 : T1 = T := by
        have := checkEdgeCrossing_ok G T startNode endNode geom 0 (by rw [hc]; simpa using h4)
        rw [hc] at this; exact this
      subst hT1
      obtain ⟨hidv, hT2⟩ := getNextEdgeId_ok hid h5
      have hf : (if cf0 = -1 then (0 : Int) else cf0) ≠ -1 := by
        by_cases d : cf0 = -1
        · rw [if_pos d]; decide
        · rw [if_neg d]; exact d
      generalize (if cf0 = -1 then (0 : Int) else cf0) = f at h hf
      rcases hins : rtt_be_insertEdges T2
        [{ edge_id := id, start_node := startNode, end_node := endNode, face_left := f,
           face_right := f, next_left := -id, next_right := id, geom := geom }]
        with ⟨T3, rows, ret⟩
      rw [hins] at h
      dsimp only at h
      by_cases h6 : ret = -1
      · rw [if_pos h6] at h; subst h; exact absurd rfl hok
      rw [if_neg h6] at h
      by_cases h7 : ret = 0
      · rw [if_pos h7] at h; subst h; exact absurd rfl hok
      rw [if_neg h7] at h
      have hT3 := insertEdges_one hins h6 h5
      rcases hupd : rtt_be_updateNodesById T3
        [{ node_id := startNode, containing_face := -1, geom := blankNode.geom },
         { node_id := endNode, containing_face := -1, geom := blankNode.geom }]
        [RTT_COL_NODE.CONTAINING_FACE] with ⟨T4, ret2⟩
      rw [hupd] at h
      dsimp only at h
      by_cases h8 : ret2 = -1
      · rw [if_pos h8] at h; subst h; exact absurd rfl hok
      rw [if_neg h8] at h
      have hT4 := updateNodesById_ok hupd h8
      subst h
      refine ⟨f, hf, h1, ?_, ?_⟩
      · rw [← getNodeById_some hn]; omega
      · subst hT4 hT3 hT2 hidv
        show _ = _
        rw [← updateNodes_two] <;> rfl

/-- A list without repetition whose members all equal `s` has at most one member. -/
theorem nodup_const_length {l : List Int} (hnd : l.Nodup) (s : Int) (h : ∀ a ∈ l, a = s) :
    l.length ≤ 1 := by
  cases l with
  | nil => exact Nat.zero_le _
  | cons a rest =>
    cases rest with
    | nil => exact Nat.le_refl _
    | cons b more =>
      exfalso
      have ha := h a (List.mem_cons_self _ _)
      have hb := h b (List.mem_cons_of_mem _ (List.mem_cons_self _ _))
      rw [List.nodup_cons] at hnd
      apply hnd.1
      rw [ha, ← hb]
      exact List.mem_cons_self _ _

/-- Two rows fetched for two identifiers from a table with distinct identifiers: both
identifiers are stored. -/
theorem two_fetched {ns : List RTT_ISO_NODE} (hnd : (ns.map (fun n => n.node_id)).Nodup)
    (s t : Int)
    (h : 2 ≤ (ns.filter (fun n => decide (n.node_id ∈ [s, t]))).length) :
    (∃ n ∈ ns, n.node_id = s) ∧ (∃ n ∈ ns, n.node_id = t) := by
  have hsub : ((ns.filter (fun n => decide (n.node_id ∈ [s, t]))).map
      (fun n => n.node_id)).Nodup := hnd.sublist ((List.filter_sublist _).map _)
  constructor
  · by_contra hno
    have : ∀ a ∈ (ns.filter (fun n => decide (n.node_id ∈ [s, t]))).map
        (fun n => n.node_id), a = t := by
      intro a ha
      obtain ⟨n, hn, rfl⟩ := List.mem_map.1 ha
      obtain ⟨hm, hp⟩ := List.mem_filter.1 hn
      simp only [List.mem_cons, List.mem_singleton, List.not_mem_nil, or_false,
        decide_eq_true_eq] at hp
      rcases hp with hp | hp
      · exact absurd ⟨n, hm, hp⟩ hno
      · exact hp
    have := nodup_const_length hsub t this
    rw [List.length_map] at this
    omega
  · by_contra hno
    have : ∀ a ∈ (ns.filter (fun n => decide (n.node_id ∈ [s, t]))).map
        (fun n => n.node_id), a = s := by
      intro a ha
      obtain ⟨n, hn, rfl⟩ := List.mem_map.1 ha
      obtain ⟨hm, hp⟩ := List.mem_filter.1 hn
      simp only [List.mem_cons, List.mem_singleton, List.not_mem_nil, or_false,
        decide_eq_true_eq] at hp
      rcases hp with hp | hp
      · exact hp
      · exact absurd ⟨n, hm, hp⟩ hno
    have := nodup_const_length hsub s this
    rw [List.length_map] at this
    omega

/-- Appending an edge between two stored nodes and unsetting `containing_face` of these
keeps `isoSound`. -/
theorem isoSound_addEdgeRow {T : RTT_TOPOLOGY} (hs : isoSound T) (N : RTT_ISO_EDGE)
    (hid : N.edge_id = T.edge_seq) (hfl : N.face_left ≠ -1) (hfr : N.face_right ≠ -1)
    (hst : ∃ n ∈ T.nodes, n.node_id = N.start_node)
    (hen : ∃ n ∈ T.nodes, n.node_id = N.end_node)
    {T' : RTT_TOPOLOGY}
    (hE : T'.edges.map endView = (T.edges ++ [N]).map endView)
    (hF : ∀ e ∈ T'.edges, e.face_left ≠ -1 ∧ e.face_right ≠ -1)
    (hN : T'.nodes.map nodeFlag = (T.nodes.map (fun n =>
      if n.node_id = N.start_node ∨ n.node_id = N.end_node then
        { n with containing_face := -1 } else n)).map nodeFlag)
    (hns : T'.node_seq = T.node_seq) (hes : T'.edge_seq = T.edge_seq + 1)
    (hfs : 0 < T'.face_seq) : isoSound T' := by
  obtain ⟨h1, h2, h3, h4, h5, h6, h7⟩ := hs
  have mid : isoSound { T with
      edges := T.edges ++ [N]
      nodes := T.nodes.map (fun n =>
        if n.node_id = N.start_node ∨ n.node_id = N.end_node then
          { n with containing_face := -1 } else n)
      edge_seq := T.edge_seq + 1
      face_seq := T'.face_seq } := by
    refine ⟨?_, ?_, ?_, ?_, ?_, ?_, hfs⟩
    · intro n' hn'
      obtain ⟨n, hn, rfl⟩ := List.mem_map.1 hn'
      by_cases c : n.node_id = N.start_node ∨ n.node_id = N.end_node
      · rw [if_pos c]
        constructor
        · intro q; exact absurd rfl q
        · intro q
          exfalso
          have := q N (List.mem_append_right _ (List.mem_singleton.2 rfl))
          rcases c with c | c
          · exact this.1 c.symm
          · exact this.2 c.symm
      · rw [if_neg c]
        refine (h1 n hn).trans ?_
        constructor
        · intro q e he
          rcases List.mem_append.1 he with he | he
          · exact q e he
          · rw [List.mem_singleton.1 he]
            exact ⟨fun k => c (Or.inl k.symm), fun k => c (Or.inr k.symm)⟩
        · intro q e he
          exact q e (List.mem_append_left _ he)
    · intro e he
      rcases List.mem_append.1 he with he | he
      · exact h2 e he
      · rw [List.mem_singleton.1 he]; exact ⟨hfl, hfr⟩
    · intro e he
      rcases List.mem_append.1 he with he | he
      · have := h3 e he
        exact ⟨by show e.edge_id < T.edge_seq + 1; omega, this.2.1, this.2.2⟩
      · rw [List.mem_singleton.1 he]
        obtain ⟨a, ha, hae⟩ := hst
        obtain ⟨b, hb, hbe⟩ := hen
        have k1 := h5 a ha
        have k2 := h5 b hb
        refine ⟨by show N.edge_id < T.edge_seq + 1; omega, ?_, ?_⟩
        · show N.start_node < T.node_seq
          omega
        · show N.end_node < T.node_seq
          omega
    · show (List.map (fun e => e.edge_id) (T.edges ++ [N])).Nodup
      rw [List.map_append, List.nodup_append]
      refine ⟨h4, List.nodup_singleton _, ?_⟩
      intro a ha hb
      obtain ⟨e, he, rfl⟩ := List.mem_map.1 ha
      have := (h3 e he).1
      rw [List.map_singleton, List.mem_singleton] at hb
      try dsimp only at hb
      omega
    · intro n' hn'
      obtain ⟨n, hn, rfl⟩ := List.mem_map.1 hn'
      have := h5 n hn
      split_ifs <;> exact this
    · have : (T.nodes.map (fun n =>
          if n.node_id = N.start_node ∨ n.node_id = N.end_node then
            { n with containing_face := -1 } else n)).map (fun n => n.node_id) =
          T.nodes.map (fun n => n.node_id) := by
        rw [List.map_map]
        apply List.map_congr_left
        intro n _
        simp only [Function.comp]
        split_ifs <;> rfl
      show (List.map (fun n : RTT_ISO_NODE => n.node_id) (T.nodes.map _)).Nodup
      rw [this]; exact h6
  exact isoSound_congr mid hE hN hF hns hes hfs

/-- The call `rtt_AddIsoEdge` keeps `isoSound`. -/
theorem isoSound_AddIsoEdge (G : GEOM) (T : RTT_TOPOLOGY) (startNode endNode : Int)
    (geom : RTLINE) (hs : isoSound T)
    (hok : (rtt_AddIsoEdge G T startNode endNode geom).2 ≠ -1) :
    isoSound (rtt_AddIsoEdge G T startNode endNode geom).1 := by
  obtain ⟨f, hf, hne, hlen, hR⟩ := rtt_AddIsoEdge_state rfl hok
  rw [hR]
  obtain ⟨hst, hen⟩ := two_fetched hs.2.2.2.2.2.1 startNode endNode hlen
  have h2 := hs.2.1
  refine isoSound_addEdgeRow hs
    { edge_id := T.edge_seq, start_node := startNode, end_node := endNode,
      face_left := f, face_right := f, next_left := -T.edge_seq,
      next_right := T.edge_seq, geom := geom } rfl hf hf hst hen rfl ?_ rfl rfl rfl hs.2.2.2.2.2.2
  intro e he
  rcases List.mem_append.1 he with he | he
  · exact h2 e he
  · rw [List.mem_singleton.1 he]; exact ⟨hf, hf⟩

end RTTopo

namespace RTTopo

/-! ## `rtt_ModEdgeSplit` keeps the node isolation invariant -/

/-- The sequences after a successful `rtt_ModEdgeSplit`. -/
theorem rtt_ModEdgeSplit_seqs {G : GEOM} {T : RTT_TOPOLOGY} {edge : Int} {pt : POINT2D}
    {skip : Bool} {R : RTT_TOPOLOGY × Int}
    (h : rtt_ModEdgeSplit G T edge pt skip = R) (hok : R.2 ≠ -1) :
    R.1.node_seq = T.node_seq + 1 ∧ R.1.edge_seq = T.edge_seq + 1 ∧
    R.1.face_seq = T.face_seq := by
  unfold rtt_ModEdgeSplit at h
  rcases hs : _rtt_EdgeSplit G T edge pt skip with ⟨T1, so⟩
  rw [hs] at h
  dsimp only at h
  cases so with
  | none => dsimp only at h; subst h; exact absurd rfl hok
  | some oc =>
    obtain ⟨old, col⟩ := oc
    dsimp only at h
    obtain ⟨hT1, hrow, hsplit, hlen⟩ := edgeSplit_ok hs
    rcases hn : rtt_be_insertNodes T1 { node_id := -1, containing_face := -1, geom := pt }
      with ⟨T2, row, ret⟩
    rw [hn] at h
    dsimp only at h
    by_cases h1 : ret = 0
    · rw [if_pos h1] at h; subst h; exact absurd rfl hok
    rw [if_neg h1] at h
    obtain ⟨hrowv, hT2⟩ := insertNodes_ok hn h1 rfl
    by_cases h2 : row.node_id = -1
    · rw [if_pos h2] at h; subst h; exact absurd rfl hok
    rw [if_neg h2] at h
    rcases ha : rtt_be_getNextEdgeId T2 with ⟨T3, k⟩
    rw [ha] at h
    dsimp only at h
    by_cases h3 : k = -1
    · rw [if_pos h3] at h; subst h; exact absurd rfl hok
    rw [if_neg h3] at h
    obtain ⟨hk, hT3⟩ := getNextEdgeId_ok ha h3
    rcases hi : rtt_be_insertEdges T3
        [{ edge_id := k, start_node := row.node_id, end_node := old.end_node,
           face_left := old.face_left, face_right := old.face_right,
           next_left := if old.next_left = -old.edge_id then -k else old.next_left,
           next_right := -old.edge_id, geom := col.getD 1 [] }] with ⟨T4, rows, ri⟩
    rw [hi] at h
    dsimp only at h
    by_cases h4 : ri = -1
    · rw [if_pos h4] at h; subst h; exact absurd rfl hok
    rw [if_neg h4] at h
    by_cases h5 : ri = 0
    · rw [if_pos h5] at h; subst h; exact absurd rfl hok
    rw [if_neg h5] at h
    have hT4 := insertEdges_one hi h4 h3
    rcases hu1 : rtt_be_updateEdges T4 old [RTT_COL_EDGE.EDGE_ID]
        { blankEdge with geom := col.getD 0 [], next_left := k, end_node := row.node_id }
        [RTT_COL_EDGE.GEOM, RTT_COL_EDGE.NEXT_LEFT, RTT_COL_EDGE.END_NODE] blankEdge []
        with ⟨T5, r1⟩
    rw [hu1] at h
    dsimp only at h
    by_cases h6 : r1 = -1
    · rw [if_pos h6] at h; subst h; exact absurd rfl hok
    rw [if_neg h6] at h
    by_cases h7 : r1 = 0
    · rw [if_pos h7] at h; subst h; exact absurd rfl hok
    rw [if_neg h7] at h
    by_cases h8 : r1 > 1
    · rw [if_pos h8] at h; subst h; exact absurd rfl hok
    rw [if_neg h8] at h
    obtain ⟨hT5, -⟩ := updateEdges_ok hu1 h6
    rcases hu2 : rtt_be_updateEdges T5
        { blankEdge with next_right := -old.edge_id, start_node := old.end_node }
        [RTT_COL_EDGE.NEXT_RIGHT, RTT_COL_EDGE.START_NODE]
        { blankEdge with geom := col.getD 0 [], next_left := k, end_node := row.node_id,
                         next_right := -k }
        [RTT_COL_EDGE.NEXT_RIGHT] { blankEdge with edge_id := k } [RTT_COL_EDGE.EDGE_ID]
        with ⟨T6, r2⟩
    rw [hu2] at h
    dsimp only at h
    by_cases h9 : r2 = -1
    · rw [if_pos h9] at h; subst h; exact absurd rfl hok
    rw [if_neg h9] at h
    obtain ⟨hT6, -⟩ := updateEdges_ok hu2 h9
    rcases hu3 : rtt_be_updateEdges T6
        { blankEdge with next_right := -old.edge_id, start_node := old.end_node,
                         next_left := -old.edge_id, end_node := old.end_node }
        [RTT_COL_EDGE.NEXT_LEFT, RTT_COL_EDGE.END_NODE]
        { blankEdge with geom := col.getD 0 [], next_left := -k, end_node := row.node_id,
                         next_right := -k }
        [RTT_COL_EDGE.NEXT_LEFT] { blankEdge with edge_id := k } [RTT_COL_EDGE.EDGE_ID]
        with ⟨T7, r3⟩
    rw [hu3] at h
    dsimp only at h
    by_cases h10 : r3 = -1
    · rw [if_pos h10] at h; subst h; exact absurd rfl hok
    rw [if_neg h10] at h
    obtain ⟨hT7, -⟩ := updateEdges_ok hu3 h10
    by_cases h11 : rtt_be_hook T7 BeCall.updateTopoGeomEdgeSplit = 0
    · rw [if_pos h11] at h; subst h; exact absurd rfl hok
    rw [if_neg h11] at h
    subst h
    refine ⟨?_, ?_, ?_⟩
    · show T7.node_seq = _
      rw [hT7, hT6, hT5, hT4, hT3, hT2, hT1]
    · show T7.edge_seq = _
      rw [hT7, hT6, hT5, hT4, hT3, hT2, hT1]
    · show T7.face_seq = _
      rw [hT7, hT6, hT5, hT4, hT3, hT2, hT1]

/-- What `rtt_ModEdgeSplit` does to the identifier, the end nodes and the faces of a row. -/
theorem modEdgeSplitRow_ends (old : RTT_ISO_EDGE) (k m : Int) (g0 : RTLINE)
    (e : RTT_ISO_EDGE) :
    (modEdgeSplitRow old k m g0 e).edge_id = e.edge_id ∧
    (modEdgeSplitRow old k m g0 e).start_node = e.start_node ∧
    (modEdgeSplitRow old k m g0 e).face_left = e.face_left ∧
    (modEdgeSplitRow old k m g0 e).face_right = e.face_right ∧
    (modEdgeSplitRow old k m g0 e).end_node =
      (if e.edge_id = old.edge_id then m else e.end_node) := by
  simp only [modEdgeSplitRow, updateEdgeRow_edge_id, updateEdgeRow_start_node,
    updateEdgeRow_end_node, updateEdgeRow_face_left, updateEdgeRow_face_right,
    edgeSelected, edgeMatches, blankEdge, List.mem_cons, List.mem_singleton,
    List.not_mem_nil, List.isEmpty_nil, List.isEmpty_cons, reduceCtorEq,
    Bool.and_eq_true, decide_eq_true_eq, Bool.not_eq_true', Bool.not_true, Bool.not_false,
    Bool.false_and, Bool.true_and, or_false, false_or, or_true, true_or, false_imp_iff,
    true_imp_iff, and_true, true_and, Bool.and_true, Bool.true_and, decide_True,
    decide_False, Bool.not_eq_false', decide_eq_false_iff_not, Bool.and_false, Bool.false_eq_true,
    and_false, false_and, if_false, if_true, not_false_eq_true, not_true_eq_false, and_self,
    Bool.decide_and, Bool.decide_eq_true, ite_true, ite_false]

/-- Replacing the stored edge `old` by an edge `a` from its start node to a new node
`node_seq` and an edge `b` from there to its end node keeps `isoSound`. -/
theorem isoSound_split {T : RTT_TOPOLOGY} (hs : isoSound T) {old : RTT_ISO_EDGE}
    (hold : old ∈ T.edges) {T' : RTT_TOPOLOGY} (a b : Int)
    (hb : a < b) (hb' : b < T'.edge_seq)
    (hseq : T.edge_seq < T'.edge_seq)
    (hback : ∀ e' ∈ T'.edges,
      (∃ e ∈ T.edges, e.edge_id ≠ old.edge_id ∧ e'.edge_id = e.edge_id ∧
        e'.start_node = e.start_node ∧ e'.end_node = e.end_node ∧
        e'.face_left = e.face_left ∧ e'.face_right = e.face_right) ∨
      (e'.edge_id = a ∧ e'.start_node = old.start_node ∧ e'.end_node = T.node_seq ∧
        e'.face_left = old.face_left ∧ e'.face_right = old.face_right) ∨
      (e'.edge_id = b ∧ e'.start_node = T.node_seq ∧ e'.end_node = old.end_node ∧
        e'.face_left = old.face_left ∧ e'.face_right = old.face_right))
    (hkeep : ∀ e ∈ T.edges, e.edge_id ≠ old.edge_id → ∃ e' ∈ T'.edges,
      e'.start_node = e.start_node ∧ e'.end_node = e.end_node)
    (hfirst : ∃ e' ∈ T'.edges, e'.start_node = old.start_node ∧ e'.end_node = T.node_seq)
    (hsecond : ∃ e' ∈ T'.edges, e'.start_node = T.node_seq ∧ e'.end_node = old.end_node)
    (hnd : (T'.edges.map (fun e => e.edge_id)).Nodup)
    (hN : ∃ pt, T'.nodes = T.nodes ++
      [{ node_id := T.node_seq, containing_face := -1, geom := pt }])
    (hns : T'.node_seq = T.node_seq + 1) (hfs : T'.face_seq = T.face_seq) :
    isoSound T' := by
  obtain ⟨h1, h2, h3, h4, h5, h6, h7⟩ := hs
  obtain ⟨pt, hN⟩ := hN
  have huniq : ∀ e ∈ T.edges, e.edge_id = old.edge_id → e = old :=
    fun e he hid => edge_unique h4 he hold hid
  unfold isoSound nodeIsolation
  rw [hN, hns, hfs]
  refine ⟨?_, ?_, ?_, hnd, ?_, ?_, h7⟩
  · intro n hn
    rcases List.mem_append.1 hn with hn | hn
    · have hlt := h5 n hn
      refine (h1 n hn).trans ?_
      constructor
      · intro q e' he'
        rcases hback e' he' with ⟨e, he, -, -, hs', ht', -⟩ | ⟨-, hs', ht', -⟩ | ⟨-, hs', ht', -⟩
        · rw [hs', ht']; exact q e he
        · rw [hs', ht']; exact ⟨(q old hold).1, by omega⟩
        · rw [hs', ht']; exact ⟨by omega, (q old hold).2⟩
      · intro q e he
        by_cases c : e.edge_id = old.edge_id
        · rw [huniq e he c]
          obtain ⟨e1, he1, hs1, -⟩ := hfirst
          obtain ⟨e2, he2, -, ht2⟩ := hsecond
          constructor
          · rw [← hs1]; exact (q e1 he1).1
          · rw [← ht2]; exact (q e2 he2).2
        · obtain ⟨e', he', hs', ht'⟩ := hkeep e he c
          rw [← hs', ← ht']; exact q e' he'
    · rw [List.mem_singleton.1 hn]
      constructor
      · intro q; exact absurd rfl q
      · intro q
        exfalso
        obtain ⟨e2, he2, hs2, -⟩ := hsecond
        exact (q e2 he2).1 hs2
  · intro e' he'
    rcases hback e' he' with ⟨e, he, -, -, -, -, hl, hr⟩ | ⟨-, -, -, hl, hr⟩ | ⟨-, -, -, hl, hr⟩
    · rw [hl, hr]; exact h2 e he
    · rw [hl, hr]; exact h2 old hold
    · rw [hl, hr]; exact h2 old hold
  · intro e' he'
    have ho := h3 old hold
    rcases hback e' he' with ⟨e, he, -, hi, hs', ht', -⟩ | ⟨hi, hs', ht', -⟩ | ⟨hi, hs', ht', -⟩
    · have := h3 e he
      rw [hi, hs', ht']; omega
    · rw [hi, hs', ht']; omega
    · rw [hi, hs', ht']; omega
  · intro n hn
    rcases List.mem_append.1 hn with hn | hn
    · have := h5 n hn; omega
    · rw [List.mem_singleton.1 hn]
      show T.node_seq < T.node_seq + 1
      omega
  · rw [List.map_append, List.nodup_append]
    refine ⟨h6, List.nodup_singleton _, ?_⟩
    intro x hx hy
    obtain ⟨n, hn, rfl⟩ := List.mem_map.1 hx
    have := h5 n hn
    rw [List.map_singleton, List.mem_singleton] at hy
    try dsimp only at hy
    omega

/-- The call `rtt_ModEdgeSplit` keeps `isoSound`. -/
theorem isoSound_ModEdgeSplit (G : GEOM) (T : RTT_TOPOLOGY) (edge : Int) (pt : POINT2D)
    (skip : Bool) (hs : isoSound T) (hok : (rtt_ModEdgeSplit G T edge pt skip).2 ≠ -1) :
    isoSound (rtt_ModEdgeSplit G T edge pt skip).1 := by
  obtain ⟨old, col, hrow, -, -, -, -, -, hE, hN, -⟩ := rtt_ModEdgeSplit_ok rfl hok
  obtain ⟨hns, hes, hfs⟩ := rtt_ModEdgeSplit_seqs rfl hok
  generalize (rtt_ModEdgeSplit G T edge pt skip).1 = T' at hE hN hns hes hfs ⊢
  obtain ⟨hold, hid⟩ := edgeRow_some hrow
  have h3 := hs.2.2.1
  have h4 := hs.2.2.2.1
  have hlt := (h3 old hold).1
  have hnew := modEdgeSplitRow_ends old T.edge_seq T.node_seq (col.getD 0 [])
    (modEdgeSplitNew old T.edge_seq T.node_seq (col.getD 1 []))
  have hnewid : (modEdgeSplitNew old T.edge_seq T.node_seq (col.getD 1 [])).edge_id ≠
      old.edge_id := by
    show T.edge_seq ≠ old.edge_id
    omega
  rw [if_neg hnewid] at hnew
  have hmemnew : modEdgeSplitRow old T.edge_seq T.node_seq (col.getD 0 [])
      (modEdgeSplitNew old T.edge_seq T.node_seq (col.getD 1 [])) ∈ T'.edges := by
    rw [hE]
    exact List.mem_map.2 ⟨_, List.mem_append_right _ (List.mem_singleton.2 rfl), rfl⟩
  have hmemold : ∀ e ∈ T.edges,
      modEdgeSplitRow old T.edge_seq T.node_seq (col.getD 0 []) e ∈ T'.edges := by
    intro e he
    rw [hE]
    exact List.mem_map.2 ⟨e, List.mem_append_left _ he, rfl⟩
  refine isoSound_split hs hold old.edge_id T.edge_seq hlt (by omega) (by omega) ?_ ?_ ?_ ?_ ?_
    ⟨pt, hN⟩ hns hfs
  · intro e' he'
    rw [hE] at he'
    obtain ⟨e, he, rfl⟩ := List.mem_map.1 he'
    have hr := modEdgeSplitRow_ends old T.edge_seq T.node_seq (col.getD 0 []) e
    rcases List.mem_append.1 he with he | he
    · by_cases c : e.edge_id = old.edge_id
      · rw [if_pos c] at hr
        have := edge_unique h4 he hold c
        subst this
        exact Or.inr (Or.inl ⟨hr.1, hr.2.1, hr.2.2.2.2, hr.2.2.1, hr.2.2.2.1⟩)
      · rw [if_neg c] at hr
        exact Or.inl ⟨e, he, c, hr.1, hr.2.1, hr.2.2.2.2, hr.2.2.1, hr.2.2.2.1⟩
    · rw [List.mem_singleton.1 he]
      exact Or.inr (Or.inr ⟨hnew.1, hnew.2.1, hnew.2.2.2.2, hnew.2.2.1, hnew.2.2.2.1⟩)
  · intro e he c
    have hr := modEdgeSplitRow_ends old T.edge_seq T.node_seq (col.getD 0 []) e
    rw [if_neg c] at hr
    exact ⟨_, hmemold e he, hr.2.1, hr.2.2.2.2⟩
  · have hr := modEdgeSplitRow_ends old T.edge_seq T.node_seq (col.getD 0 []) old
    rw [if_pos rfl] at hr
    exact ⟨_, hmemold old hold, hr.2.1, hr.2.2.2.2⟩
  · exact ⟨_, hmemnew, hnew.2.1, hnew.2.2.2.2⟩
  · rw [hE]
    unfold modEdgeSplitEdges
    rw [List.map_map]
    have : (fun e => e.edge_id) ∘ modEdgeSplitRow old T.edge_seq T.node_seq (col.getD 0 []) =
        (fun e : RTT_ISO_EDGE => e.edge_id) := by
      funext e
      exact (modEdgeSplitRow_ends old T.edge_seq T.node_seq (col.getD 0 []) e).1
    rw [this, List.map_append, List.nodup_append]
    refine ⟨h4, List.nodup_singleton _, ?_⟩
    intro x hx hy
    obtain ⟨e, he, rfl⟩ := List.mem_map.1 hx
    have := (h3 e he).1
    rw [List.map_singleton, List.mem_singleton] at hy
    have hk : (modEdgeSplitNew old T.edge_seq T.node_seq (col.getD 1 [])).edge_id =
      T.edge_seq := rfl
    rw [hk] at hy
    omega

end RTTopo

namespace RTTopo

/-! ## `rtt_NewEdgesSplit` keeps the node isolation invariant -/

theorem endsKept.unchanged (T : RTT_TOPOLOGY) : endsKept T T := ⟨rfl, rfl, rfl, rfl, rfl⟩

theorem endsKept.thenKept {T T1 T2 : RTT_TOPOLOGY} (h1 : endsKept T T1) (h2 : endsKept T1 T2) :
    endsKept T T2 :=
  ⟨h2.1.trans h1.1, h2.2.1.trans h1.2.1, h2.2.2.1.trans h1.2.2.1,
    h2.2.2.2.1.trans h1.2.2.2.1, h2.2.2.2.2.trans h1.2.2.2.2⟩

theorem endsKept_rterror {T T1 : RTT_TOPOLOGY} (msg : String) (h : endsKept T T1) :
    endsKept T (rterror T1 msg) := h

/-- An `updateEdges` request that writes linkage columns only. -/
theorem endsKept_updateEdges (T : RTT_TOPOLOGY) (sel upd exc : RTT_ISO_EDGE)
    (sf uf ef : List RTT_COL_EDGE)
    (hf : ∀ c ∈ uf, c = RTT_COL_EDGE.NEXT_LEFT ∨ c = RTT_COL_EDGE.NEXT_RIGHT) :
    endsKept T (rtt_be_updateEdges T sel sf upd uf exc ef).1 := by
  have h1 : RTT_COL_EDGE.EDGE_ID ∉ uf := fun h => by rcases hf _ h with h | h <;> cases h
  have h2 : RTT_COL_EDGE.START_NODE ∉ uf := fun h => by rcases hf _ h with h | h <;> cases h
  have h3 : RTT_COL_EDGE.END_NODE ∉ uf := fun h => by rcases hf _ h with h | h <;> cases h
  have h4 : RTT_COL_EDGE.FACE_LEFT ∉ uf := fun h => by rcases hf _ h with h | h <;> cases h
  have h5 : RTT_COL_EDGE.FACE_RIGHT ∉ uf := fun h => by rcases hf _ h with h | h <;> cases h
  have h6 : RTT_COL_EDGE.GEOM ∉ uf := fun h => by rcases hf _ h with h | h <;> cases h
  unfold rtt_be_updateEdges
  split_ifs
  · exact endsKept.unchanged T
  · refine ⟨?_, rfl, rfl, rfl, rfl⟩
    show (T.edges.map _).map faceView = _
    rw [List.map_map]
    apply List.map_congr_left
    intro e _
    simp only [Function.comp, updateEdgeRow]
    split_ifs
    · simp [faceView, edgeAssign, h1, h2, h3, h4, h5, h6]
    · rfl

theorem linkCols_left : ∀ c ∈ [RTT_COL_EDGE.NEXT_LEFT],
    c = RTT_COL_EDGE.NEXT_LEFT ∨ c = RTT_COL_EDGE.NEXT_RIGHT :=
  fun _ hc => Or.inl (List.mem_singleton.1 hc)

theorem linkCols_right : ∀ c ∈ [RTT_COL_EDGE.NEXT_RIGHT],
    c = RTT_COL_EDGE.NEXT_LEFT ∨ c = RTT_COL_EDGE.NEXT_RIGHT :=
  fun _ hc => Or.inr (List.mem_singleton.1 hc)

/-- A successful `rtt_NewEdgesSplit` replaces the row of the edge by two rows with the
next two identifiers that meet on a new node. -/
theorem rtt_NewEdgesSplit_state {G : GEOM} {T : RTT_TOPOLOGY} {edge : Int} {pt : POINT2D}
    {skip : Bool} {R : RTT_TOPOLOGY × Int}
    (h : rtt_NewEdgesSplit G T edge pt skip = R) (hok : R.2 ≠ -1) :
    ∃ (old N0 N1 : RTT_ISO_EDGE), edgeRow T.edges edge = some old ∧
      N0.edge_id = T.edge_seq ∧ N0.start_node = old.start_node ∧
      N0.end_node = T.node_seq ∧ N0.face_left = old.face_left ∧
      N0.face_right = old.face_right ∧
      N1.edge_id = T.edge_seq + 1 ∧ N1.start_node = T.node_seq ∧
      N1.end_node = old.end_node ∧ N1.face_left = old.face_left ∧
      N1.face_right = old.face_right ∧
      R.1.edges.map faceView =
        (T.edges.filter (fun e => !decide (e.edge_id = edge)) ++ [N0, N1]).map faceView ∧
      R.1.nodes = T.nodes ++ [{ node_id := T.node_seq, containing_face := -1, geom := pt }] ∧
      R.1.node_seq = T.node_seq + 1 ∧ R.1.edge_seq = T.edge_seq + 2 ∧
      R.1.face_seq = T.face_seq := by
  unfold rtt_NewEdgesSplit at h
  rcases hs : _rtt_EdgeSplit G T edge pt skip with ⟨T1, so⟩
  rw [hs] at h
  dsimp only at h
  cases so with
  | none => dsimp only at h; subst h; exact absurd rfl hok
  | some oc =>
    obtain ⟨old, col⟩ := oc
    dsimp only at h
    obtain ⟨hT1, hrow, -, -⟩ := edgeSplit_ok hs
    rcases hn : rtt_be_insertNodes T1 { node_id := -1, containing_face := -1, geom := pt }
      with ⟨T2, row, ret⟩
    rw [hn] at h
    dsimp only at h
    by_cases h1 : ret = 0
    · rw [if_pos h1] at h; subst h; exact absurd rfl hok
    rw [if_neg h1] at h
    obtain ⟨hrowv, hT2⟩ := insertNodes_ok hn h1 rfl
    by_cases h2 : row.node_id = -1
    · rw [if_pos h2] at h; subst h; exact absurd rfl hok
    rw [if_neg h2] at h
    rcases hd : rtt_be_deleteEdges T2 { blankEdge with edge_id := edge }
      [RTT_COL_EDGE.EDGE_ID] with ⟨T3, rd⟩
    rw [hd] at h
    dsimp only at h
    by_cases h3 : rd = -1
    · rw [if_pos h3] at h; subst h; exact absurd rfl hok
    rw [if_neg h3] at h
    have hT3 := deleteEdges_ok hd h3
    rcases ha0 : rtt_be_getNextEdgeId T3 with ⟨T4, k0⟩
    rw [ha0] at h
    dsimp only at h
    by_cases h4 : k0 = -1
    · rw [if_pos h4] at h; subst h; exact absurd rfl hok
    rw [if_neg h4] at h
    obtain ⟨hk0, hT4⟩ := getNextEdgeId_ok ha0 h4
    rcases ha1 : rtt_be_getNextEdgeId T4 with ⟨T5, k1⟩
    rw [ha1] at h
    dsimp only at h
    by_cases h5 : k1 = -1
    · rw [if_pos h5] at h; subst h; exact absurd rfl hok
    rw [if_neg h5] at h
    obtain ⟨hk1, hT5⟩ := getNextEdgeId_ok ha1 h5
    generalize hN0 :
      ({ edge_id := k0, start_node := old.start_node, end_node := row.node_id,
         face_left := old.face_left, face_right := old.face_right, next_left := k1,
         next_right := if old.next_right = edge then k0
           else if old.next_right = -edge then -k1 else old.next_right,
         geom := col.getD 0 [] } : RTT_ISO_EDGE) = N0 at h
    generalize hN1 :
      ({ edge_id := k1, start_node := row.node_id, end_node := old.end_node,
         face_left := old.face_left, face_right := old.face_right,
         next_left := if old.next_left = -edge then -k1
           else if old.next_left = edge then k0 else old.next_left,
         next_right := -k0, geom := col.getD 1 [] } : RTT_ISO_EDGE) = N1 at h
    rcases hi : rtt_be_insertEdges T5 [N0, N1] with ⟨T6, rows, ri⟩
    rw [hi] at h
    dsimp only at h
    by_cases h6 : ri = -1
    · rw [if_pos h6] at h; subst h; exact absurd rfl hok
    rw [if_neg h6] at h
    by_cases h7 : ri = 0
    · rw [if_pos h7] at h; subst h; exact absurd rfl hok
    rw [if_neg h7] at h
    have hT6 := insertEdges_two hi h6 (by rw [← hN0]; exact h4) (by rw [← hN1]; exact h5)
    have hkept : endsKept T6 R.1 := by
      have k1 := fun sel upd => endsKept_updateEdges T6 sel upd blankEdge
        [RTT_COL_EDGE.NEXT_RIGHT, RTT_COL_EDGE.START_NODE] [RTT_COL_EDGE.NEXT_RIGHT] []
        linkCols_right
      generalize hu1 : rtt_be_updateEdges T6 _ _ _ _ _ _ = u1 at h
      have q1 : endsKept T6 u1.1 := by rw [← hu1]; exact k1 _ _
      clear k1 hu1
      by_cases c1 : u1.2 = -1
      · rw [if_pos c1] at h; subst h; exact q1
      rw [if_neg c1] at h
      generalize hu2 : rtt_be_updateEdges u1.1 _ _ _ _ _ _ = u2 at h
      have q2 : endsKept T6 u2.1 := by
        rw [← hu2]; exact q1.thenKept (endsKept_updateEdges _ _ _ _ _ _ _ linkCols_right)
      clear hu2
      by_cases c2 : u2.2 = -1
      · rw [if_pos c2] at h; subst h; exact q2
      rw [if_neg c2] at h
      generalize hu3 : rtt_be_updateEdges u2.1 _ _ _ _ _ _ = u3 at h
      have q3 : endsKept T6 u3.1 := by
        rw [← hu3]; exact q2.thenKept (endsKept_updateEdges _ _ _ _ _ _ _ linkCols_left)
      clear hu3
      by_cases c3 : u3.2 = -1
      · rw [if_pos c3] at h; subst h; exact q3
      rw [if_neg c3] at h
      generalize hu4 : rtt_be_updateEdges u3.1 _ _ _ _ _ _ = u4 at h
      have q4 : endsKept T6 u4.1 := by
        rw [← hu4]; exact q3.thenKept (endsKept_updateEdges _ _ _ _ _ _ _ linkCols_left)
      clear hu4
      by_cases c4 : u4.2 = -1
      · rw [if_pos c4] at h; subst h; exact q4
      rw [if_neg c4] at h
      by_cases c5 : rtt_be_hook u4.1 BeCall.updateTopoGeomEdgeSplit = 0
      · rw [if_pos c5] at h; subst h; exact q4
      rw [if_neg c5] at h
      subst h; exact q4
    obtain ⟨kE, kN, kns, kes, kfs⟩ := hkept
    have hm : row.node_id = T.node_seq := by rw [hrowv, hT1]
    refine ⟨old, N0, N1, hrow, ?_, ?_, ?_, ?_, ?_, ?_, ?_, ?_, ?_, ?_, ?_, ?_, ?_, ?_, ?_⟩
    · rw [← hN0, hk0, hT3, hT2, hT1]
    · rw [← hN0]
    · rw [← hN0]; exact hm
    · rw [← hN0]
    · rw [← hN0]
    · rw [← hN1, hk1, hT4, hT3, hT2, hT1]
    · rw [← hN1]; exact hm
    · rw [← hN1]
    · rw [← hN1]
    · rw [← hN1]
    · rw [kE, hT6, hT5, hT4, hT3, hT2, hT1, deleteById_filter]
    · rw [kN, hT6, hT5, hT4, hT3, hT2, hT1]
    · rw [kns, hT6, hT5, hT4, hT3, hT2, hT1]
    · rw [kes, hT6, hT5, hT4, hT3, hT2, hT1]
      show T.edge_seq + 1 + 1 = T.edge_seq + 2
      omega
    · rw [kfs, hT6, hT5, hT4, hT3, hT2, hT1]

/-- Rows of two tables that agree on `faceView`: a row of the first has a partner in the
second. -/
theorem faceView_partner {es1 es2 : List RTT_ISO_EDGE}
    (h : es1.map faceView = es2.map faceView) {e : RTT_ISO_EDGE} (he : e ∈ es1) :
    ∃ e2 ∈ es2, e.edge_id = e2.edge_id ∧ e.start_node = e2.start_node ∧
      e.end_node = e2.end_node ∧ e.face_left = e2.face_left ∧
      e.face_right = e2.face_right := by
  have hm : faceView e ∈ es2.map faceView := by
    rw [← h]; exact List.mem_map.2 ⟨e, he, rfl⟩
  obtain ⟨e2, he2, hv⟩ := List.mem_map.1 hm
  unfold faceView at hv
  simp only [Prod.mk.injEq] at hv
  exact ⟨e2, he2, hv.1.symm, hv.2.1.symm, hv.2.2.1.symm, hv.2.2.2.1.symm,
    hv.2.2.2.2.1.symm⟩

theorem faceView_ids {es1 es2 : List RTT_ISO_EDGE}
    (h : es1.map faceView = es2.map faceView) :
    es1.map (fun e => e.edge_id) = es2.map (fun e => e.edge_id) := by
  have := congrArg (List.map (fun v : Int × Int × Int × Int × Int × RTLINE => v.1)) h
  simpa only [List.map_map] using this

/-- The call `rtt_NewEdgesSplit` keeps `isoSound`. -/
theorem isoSound_NewEdgesSplit (G : GEOM) (T : RTT_TOPOLOGY) (edge : Int) (pt : POINT2D)
    (skip : Bool) (hs : isoSound T) (hok : (rtt_NewEdgesSplit G T edge pt skip).2 ≠ -1) :
    isoSound (rtt_NewEdgesSplit G T edge pt skip).1 := by
  obtain ⟨old, N0, N1, hrow, a1, a2, a3, a4, a5, b1, b2, b3, b4, b5, hE, hN, hns, hes, hfs⟩ :=
    rtt_NewEdgesSplit_state rfl hok
  generalize (rtt_NewEdgesSplit G T edge pt skip).1 = T' at hE hN hns hes hfs ⊢
  obtain ⟨hold, hid⟩ := edgeRow_some hrow
  have h3 := hs.2.2.1
  have h4 := hs.2.2.2.1
  refine isoSound_split hs hold T.edge_seq (T.edge_seq + 1) (by omega) (by omega) (by omega)
    ?_ ?_ ?_ ?_ ?_ ⟨pt, hN⟩ hns hfs
  · intro e' he'
    obtain ⟨e, he, p1, p2, p3, p4, p5⟩ := faceView_partner hE he'
    rcases List.mem_append.1 he with he | he
    · obtain ⟨hm, hne⟩ := List.mem_filter.1 he
      simp only [Bool.not_eq_true', decide_eq_false_iff_not] at hne
      exact Or.inl ⟨e, hm, by rw [hid]; exact hne, p1, p2, p3, p4, p5⟩
    · simp only [List.mem_cons, List.mem_singleton, List.not_mem_nil, or_false] at he
      rcases he with rfl | rfl
      · exact Or.inr (Or.inl ⟨p1.trans a1, p2.trans a2, p3.trans a3, p4.trans a4,
          p5.trans a5⟩)
      · exact Or.inr (Or.inr ⟨p1.trans b1, p2.trans b2, p3.trans b3, p4.trans b4,
          p5.trans b5⟩)
  · intro e he c
    have hm : e ∈ T.edges.filter (fun e => !decide (e.edge_id = edge)) ++ [N0, N1] := by
      refine List.mem_append_left _ (List.mem_filter.2 ⟨he, ?_⟩)
      simp only [Bool.not_eq_true', decide_eq_false_iff_not]
      rw [← hid]; exact c
    obtain ⟨e', he', -, p2, p3, -⟩ := faceView_partner hE.symm hm
    exact ⟨e', he', p2.symm, p3.symm⟩
  · have hm : N0 ∈ T.edges.filter (fun e => !decide (e.edge_id = edge)) ++ [N0, N1] :=
      List.mem_append_right _ (List.mem_cons_self _ _)
    obtain ⟨e', he', -, p2, p3, -⟩ := faceView_partner hE.symm hm
    exact ⟨e', he', p2.symm.trans a2, p3.symm.trans a3⟩
  · have hm : N1 ∈ T.edges.filter (fun e => !decide (e.edge_id = edge)) ++ [N0, N1] :=
      List.mem_append_right _ (List.mem_cons_of_mem _ (List.mem_cons_self _ _))
    obtain ⟨e', he', -, p2, p3, -⟩ := faceView_partner hE.symm hm
    exact ⟨e', he', p2.symm.trans b2, p3.symm.trans b3⟩
  · rw [faceView_ids hE, List.map_append, List.nodup_append]
    refine ⟨h4.sublist ((List.filter_sublist _).map _), ?_, ?_⟩
    · simp only [List.map_cons, List.map_nil, List.nodup_cons, List.mem_singleton,
        List.not_mem_nil, not_false_eq_true, List.nodup_nil, and_true]
      rw [a1, b1]; omega
    · intro x hx hy
      obtain ⟨e, he, rfl⟩ := List.mem_map.1 hx
      have := (h3 e (List.mem_filter.1 he).1).1
      simp only [List.map_cons, List.map_nil, List.mem_cons, List.mem_singleton,
        List.not_mem_nil, or_false] at hy
      rw [a1, b1] at hy
      omega

end RTTopo

namespace RTTopo

/-! ## `_rtt_RemEdge` keeps the node isolation invariant -/

/-- Removing the stored edge `edge`, with `containing_face` set again on its end nodes
that are left without an edge, keeps `isoSound`. -/
theorem isoSound_removeEdge {T T' : RTT_TOPOLOGY} (hs : isoSound T) {edge : RTT_ISO_EDGE}
    (hmem : edge ∈ T.edges) {ff : Int} (hff : ff ≠ -1)
    (hback : ∀ e' ∈ T'.edges, ∃ e ∈ T.edges, e.edge_id ≠ edge.edge_id ∧
      e'.edge_id = e.edge_id ∧ e'.start_node = e.start_node ∧ e'.end_node = e.end_node)
    (hF : ∀ e' ∈ T'.edges, e'.face_left ≠ -1 ∧ e'.face_right ≠ -1)
    (hkeep : ∀ e ∈ T.edges, e.edge_id ≠ edge.edge_id → ∃ e' ∈ T'.edges,
      e'.start_node = e.start_node ∧ e'.end_node = e.end_node)
    (hnd : (T'.edges.map (fun e => e.edge_id)).Nodup)
    (g : RTT_ISO_NODE → RTT_ISO_NODE) (hN : T'.nodes = T.nodes.map g)
    (hgid : ∀ n, (g n).node_id = n.node_id)
    (hg : ∀ n ∈ T.nodes,
      ((g n).containing_face = ff ∧
        ∀ e ∈ T.edges, e.edge_id ≠ edge.edge_id →
          e.start_node ≠ n.node_id ∧ e.end_node ≠ n.node_id) ∨
      (((g n).containing_face = -1 ↔ n.containing_face = -1) ∧
        ((n.node_id = edge.start_node ∨ n.node_id = edge.end_node) →
          ∃ e ∈ T.edges, e.edge_id ≠ edge.edge_id ∧
            (e.start_node = n.node_id ∨ e.end_node = n.node_id))))
    (hns : T'.node_seq = T.node_seq) (hes : T'.edge_seq = T.edge_seq)
    (hfs : 0 < T'.face_seq) : isoSound T' := by
  obtain ⟨h1, h2, h3, h4, h5, h6, h7⟩ := hs
  unfold isoSound nodeIsolation
  rw [hN, hns, hes]
  refine ⟨?_, hF, ?_, hnd, ?_, ?_, hfs⟩
  · intro n' hn'
    obtain ⟨n, hn, rfl⟩ := List.mem_map.1 hn'
    rw [hgid]
    rcases hg n hn with ⟨hcf, hfree⟩ | ⟨hcf, hother⟩
    · rw [hcf]
      constructor
      · intro _ e' he'
        obtain ⟨e, he, hne, -, hs', ht'⟩ := hback e' he'
        rw [hs', ht']; exact hfree e he hne
      · intro _; exact hff
    · refine (not_congr hcf).trans ?_
      refine (h1 n hn).trans ?_
      constructor
      · intro q e' he'
        obtain ⟨e, he, -, -, hs', ht'⟩ := hback e' he'
        rw [hs', ht']; exact q e he
      · intro q e he
        by_cases c : e.edge_id = edge.edge_id
        · have := edge_unique h4 he hmem c
          subst this
          by_contra hcon
          have htouch : n.node_id = e.start_node ∨ n.node_id = e.end_node := by
            by_contra hno
            apply hcon
            exact ⟨fun k => hno (Or.inl k.symm), fun k => hno (Or.inr k.symm)⟩
          obtain ⟨e2, he2, hne2, ht2⟩ := hother htouch
          obtain ⟨e', he', hs', ht'⟩ := hkeep e2 he2 hne2
          have := q e' he'
          rw [hs', ht'] at this
          rcases ht2 with k | k
          · exact this.1 k
          · exact this.2 k
        · obtain ⟨e', he', hs', ht'⟩ := hkeep e he c
          rw [← hs', ← ht']; exact q e' he'
  · intro e' he'
    obtain ⟨e, he, -, hi, hs', ht'⟩ := hback e' he'
    rw [hi, hs', ht']; exact h3 e he
  · intro n' hn'
    obtain ⟨n, hn, rfl⟩ := List.mem_map.1 hn'
    rw [hgid]; exact h5 n hn
  · rw [List.map_map]
    have : (fun n => n.node_id) ∘ g = (fun n : RTT_ISO_NODE => n.node_id) := by
      funext n; exact hgid n
    rw [this]; exact h6

/-- The count `fnode_edges` (or `lnode_edges`) is zero when no fetched edge other than
the removed one touches the node. -/
theorem remEdgeNodeEdges_zero (edge_id node : Int) (l : List RTT_ISO_EDGE) :
    remEdgeNodeEdges edge_id node l = 0 ↔
      ∀ e ∈ l, e.edge_id ≠ edge_id → e.start_node ≠ node ∧ e.end_node ≠ node := by
  unfold remEdgeNodeEdges
  rw [List.length_eq_zero, List.filter_eq_nil_iff]
  constructor
  · intro h e he hne
    have := h e he
    simp only [Bool.and_eq_true, Bool.not_eq_true', decide_eq_false_iff_not,
      Bool.or_eq_true, decide_eq_true_eq, not_and, not_or] at this
    exact this hne
  · intro h e he
    simp only [Bool.and_eq_true, Bool.not_eq_true', decide_eq_false_iff_not,
      Bool.or_eq_true, decide_eq_true_eq, not_and, not_or]
    exact h e he

theorem faceRefNode_id (of nf : Int) (n : RTT_ISO_NODE) :
    (faceRefNode of nf n).node_id = n.node_id := rfl

theorem remEdgeNode_id (edge : RTT_ISO_EDGE) (fn ln : Nat) (ff : Int) (n : RTT_ISO_NODE) :
    (remEdgeNode edge fn ln ff n).node_id = n.node_id := by
  unfold remEdgeNode
  split_ifs <;> rfl

/-- The call `_rtt_RemEdge` keeps `isoSound`. -/
theorem isoSound_RemEdge (G : GEOM) (T : RTT_TOPOLOGY) (edge_id : Int) (modFace : Bool)
    (hs : isoSound T) (hok : (_rtt_RemEdge G T edge_id modFace).2 ≠ -1) :
    isoSound (_rtt_RemEdge G T edge_id modFace).1 := by
  obtain ⟨edge, ff, nf, F, hrow, hspec, k1, -⟩ := rtt_RemEdge_state rfl hok
  generalize (_rtt_RemEdge G T edge_id modFace).1 = T' at hspec k1 ⊢
  obtain ⟨hmem, hid⟩ := edgeRow_some hrow
  have h2 := hs.2.1
  have h4 := hs.2.2.2.1
  have h7 := hs.2.2.2.2.2.2
  have hl := (h2 edge hmem).1
  have hr := (h2 edge hmem).2
  have hff : ff ≠ -1 ∧ 0 < T'.face_seq := by
    rcases hspec with ⟨-, a, -, -, b⟩ | ⟨-, -, a, -, -, b⟩ | ⟨-, -, -, _, _, _, _, hc⟩
    · rw [a, b]; exact ⟨hr, h7⟩
    · rw [a, b]; exact ⟨by decide, h7⟩
    · rcases hc with ⟨-, a, -, -, b⟩ | ⟨-, a, -, -, b⟩
      · rw [a, b]; exact ⟨hr, h7⟩
      · rw [a, b]; exact ⟨by omega, by omega⟩
  have hE : T'.edges.map faceView =
      ((T.edges.filter (fun e => !decide (e.edge_id = edge.edge_id))).map
        (fun e => faceRefEdge edge.face_right ff (faceRefEdge edge.face_left ff e))).map
          faceView := by
    have : T'.edges = ((remEdgeRelinked T.edges edge edge_id).map
        (fun e => faceRefEdge edge.face_right ff (faceRefEdge edge.face_left ff e))).filter
          (fun e => !decide (e.edge_id = edge.edge_id)) := by rw [k1]
    rw [this, faceView_rebind_filter _ T.edges _ _ _ _
      (remEdgeRelinked_faceView T.edges edge edge_id)]
  generalize hfn : remEdgeNodeEdges edge_id edge.start_node
    (T.edges.filter (fun e =>
      decide (e.start_node ∈ (if edge.end_node ≠ edge.start_node
        then [edge.start_node, edge.end_node] else [edge.start_node])) ||
      decide (e.end_node ∈ (if edge.end_node ≠ edge.start_node
        then [edge.start_node, edge.end_node] else [edge.start_node])))) = fn at k1
  generalize hln : remEdgeNodeEdges edge_id edge.end_node
    (T.edges.filter (fun e =>
      decide (e.start_node ∈ (if edge.end_node ≠ edge.start_node
        then [edge.start_node, edge.end_node] else [edge.start_node])) ||
      decide (e.end_node ∈ (if edge.end_node ≠ edge.start_node
        then [edge.start_node, edge.end_node] else [edge.start_node])))) = ln at k1
  have hN : T'.nodes = T.nodes.map (fun n => remEdgeNode edge fn ln ff
      (faceRefNode edge.face_right ff (faceRefNode edge.face_left ff n))) := by
    have : T'.nodes = (T.nodes.map
      (fun n => faceRefNode edge.face_right ff (faceRefNode edge.face_left ff n))).map
        (remEdgeNode edge fn ln ff) := by rw [k1]
    rw [this, List.map_map]; rfl
  have hns : T'.node_seq = T.node_seq := by rw [k1]
  have hes : T'.edge_seq = T.edge_seq := by rw [k1]
  clear k1
  have hfnz : fn = 0 → ∀ e ∈ T.edges, e.edge_id ≠ edge.edge_id →
      e.start_node ≠ edge.start_node ∧ e.end_node ≠ edge.start_node := by
    intro hz e he hne
    rw [← hfn, remEdgeNodeEdges_zero] at hz
    by_contra hcon
    have hin : e ∈ T.edges.filter (fun e =>
        decide (e.start_node ∈ (if edge.end_node ≠ edge.start_node
          then [edge.start_node, edge.end_node] else [edge.start_node])) ||
        decide (e.end_node ∈ (if edge.end_node ≠ edge.start_node
          then [edge.start_node, edge.end_node] else [edge.start_node]))) := by
      refine List.mem_filter.2 ⟨he, ?_⟩
      simp only [Bool.or_eq_true, decide_eq_true_eq]
      by_cases c : e.start_node = edge.start_node
      · left; rw [c]; split_ifs <;> simp
      · right
        have : e.end_node = edge.start_node := by
          by_contra k; exact hcon ⟨c, k⟩
        rw [this]; split_ifs <;> simp
    exact hcon (hz e hin (by rw [← hid]; exact hne))
  have hlnz : edge.end_node ≠ edge.start_node → ln = 0 → ∀ e ∈ T.edges,
      e.edge_id ≠ edge.edge_id →
      e.start_node ≠ edge.end_node ∧ e.end_node ≠ edge.end_node := by
    intro hd hz e he hne
    rw [← hln, remEdgeNodeEdges_zero] at hz
    by_contra hcon
    have hin : e ∈ T.edges.filter (fun e =>
        decide (e.start_node ∈ (if edge.end_node ≠ edge.start_node
          then [edge.start_node, edge.end_node] else [edge.start_node])) ||
        decide (e.end_node ∈ (if edge.end_node ≠ edge.start_node
          then [edge.start_node, edge.end_node] else [edge.start_node]))) := by
      refine List.mem_filter.2 ⟨he, ?_⟩
      simp only [Bool.or_eq_true, decide_eq_true_eq]
      rw [if_pos hd]
      by_cases c : e.start_node = edge.end_node
      · left; rw [c]; simp
      · right
        have : e.end_node = edge.end_node := by
          by_contra k; exact hcon ⟨c, k⟩
        rw [this]; simp
    exact hcon (hz e hin (by rw [← hid]; exact hne))
  have hfnn : fn ≠ 0 → ∃ e ∈ T.edges, e.edge_id ≠ edge.edge_id ∧
      (e.start_node = edge.start_node ∨ e.end_node = edge.start_node) := by
    intro hz
    rw [← hfn] at hz
    by_contra hcon
    apply hz
    rw [remEdgeNodeEdges_zero]
    intro e he hne
    have hm := (List.mem_filter.1 he).1
    constructor
    · intro k; exact hcon ⟨e, hm, by rw [hid]; exact hne, Or.inl k⟩
    · intro k; exact hcon ⟨e, hm, by rw [hid]; exact hne, Or.inr k⟩
  have hlnn : ln ≠ 0 → ∃ e ∈ T.edges, e.edge_id ≠ edge.edge_id ∧
      (e.start_node = edge.end_node ∨ e.end_node = edge.end_node) := by
    intro hz
    rw [← hln] at hz
    by_contra hcon
    apply hz
    rw [remEdgeNodeEdges_zero]
    intro e he hne
    have hm := (List.mem_filter.1 he).1
    constructor
    · intro k; exact hcon ⟨e, hm, by rw [hid]; exact hne, Or.inl k⟩
    · intro k; exact hcon ⟨e, hm, by rw [hid]; exact hne, Or.inr k⟩
  have hrebE : ∀ e : RTT_ISO_EDGE, e.face_left ≠ -1 → e.face_right ≠ -1 →
      (faceRefEdge edge.face_right ff (faceRefEdge edge.face_left ff e)).face_left ≠ -1 ∧
      (faceRefEdge edge.face_right ff (faceRefEdge edge.face_left ff e)).face_right ≠ -1 := by
    intro e a b
    rw [faceRef_compose]
    constructor
    · show (if e.face_left = edge.face_left ∨ e.face_left = edge.face_right then ff
        else e.face_left) ≠ -1
      split_ifs
      · exact hff.1
      · exact a
    · show (if e.face_right = edge.face_left ∨ e.face_right = edge.face_right then ff
        else e.face_right) ≠ -1
      split_ifs
      · exact hff.1
      · exact b
  refine isoSound_removeEdge hs hmem hff.1 ?_ ?_ ?_ ?_ _ hN ?_ ?_ hns hes hff.2
  · intro e' he'
    obtain ⟨e1, he1, p1, p2, p3, -⟩ := faceView_partner hE he'
    obtain ⟨e, he, rfl⟩ := List.mem_map.1 he1
    obtain ⟨hm, hne⟩ := List.mem_filter.1 he
    simp only [Bool.not_eq_true', decide_eq_false_iff_not] at hne
    exact ⟨e, hm, hne, p1, p2, p3⟩
  · intro e' he'
    obtain ⟨e1, he1, -, -, -, p4, p5⟩ := faceView_partner hE he'
    obtain ⟨e, he, rfl⟩ := List.mem_map.1 he1
    have := hrebE e (h2 e (List.mem_filter.1 he).1).1 (h2 e (List.mem_filter.1 he).1).2
    rw [p4, p5]; exact this
  · intro e he hne
    have hm : faceRefEdge edge.face_right ff (faceRefEdge edge.face_left ff e) ∈
        (T.edges.filter (fun e => !decide (e.edge_id = edge.edge_id))).map
          (fun e => faceRefEdge edge.face_right ff (faceRefEdge edge.face_left ff e)) := by
      refine List.mem_map.2 ⟨e, List.mem_filter.2 ⟨he, ?_⟩, rfl⟩
      simp only [Bool.not_eq_true', decide_eq_false_iff_not]
      exact hne
    obtain ⟨e', he', -, p2, p3, -⟩ := faceView_partner hE.symm hm
    exact ⟨e', he', p2.symm, p3.symm⟩
  · rw [faceView_ids hE, List.map_map]
    have : (fun e => e.edge_id) ∘
        (fun e => faceRefEdge edge.face_right ff (faceRefEdge edge.face_left ff e)) =
        (fun e : RTT_ISO_EDGE => e.edge_id) := by
      funext e; rfl
    rw [this]
    exact h4.sublist ((List.filter_sublist _).map _)
  · intro n
    rw [remEdgeNode_id]; rfl
  · intro n hn
    have hreb : (faceRefNode edge.face_right ff
        (faceRefNode edge.face_left ff n)).containing_face = -1 ↔
        n.containing_face = -1 := by
      rw [faceRefNode_compose]
      show (if n.containing_face = edge.face_left ∨ n.containing_face = edge.face_right
        then ff else n.containing_face) = -1 ↔ _
      by_cases c : n.containing_face = edge.face_left ∨ n.containing_face = edge.face_right
      · rw [if_pos c]
        constructor
        · intro k; exact absurd k hff.1
        · intro k
          rcases c with c | c
          · exact absurd (c.symm.trans k) hl
          · exact absurd (c.symm.trans k) hr
      · rw [if_neg c]
    unfold remEdgeNode
    by_cases c : (fn = 0 ∧ (faceRefNode edge.face_right ff
          (faceRefNode edge.face_left ff n)).node_id = edge.start_node) ∨
        (edge.end_node ≠ edge.start_node ∧ ln = 0 ∧ (faceRefNode edge.face_right ff
          (faceRefNode edge.face_left ff n)).node_id = edge.end_node)
    · rw [if_pos c]
      left
      refine ⟨rfl, ?_⟩
      rcases c with ⟨z, hx⟩ | ⟨d, z, hx⟩
      · have hx' : n.node_id = edge.start_node := hx
        rw [hx']; exact hfnz z
      · have hx' : n.node_id = edge.end_node := hx
        rw [hx']; exact hlnz d z
    · rw [if_neg c]
      right
      refine ⟨hreb, ?_⟩
      intro htouch
      have c1 : ¬ (fn = 0 ∧ n.node_id = edge.start_node) := fun k => c (Or.inl k)
      have c2 : ¬ (edge.end_node ≠ edge.start_node ∧ ln = 0 ∧ n.node_id = edge.end_node) :=
        fun k => c (Or.inr k)
      by_cases d : n.node_id = edge.start_node
      · have : fn ≠ 0 := fun z => c1 ⟨z, d⟩
        rw [d]; exact hfnn this
      · have d2 : n.node_id = edge.end_node := by
          rcases htouch with k | k
          · exact absurd k d
          · exact k
        have hne : edge.end_node ≠ edge.start_node := by
          rw [← d2]; exact d
        have : ln ≠ 0 := fun z => c2 ⟨hne, z, d2⟩
        rw [d2]; exact hlnn this

end RTTopo

namespace RTTopo

/-! ## `_rtt_HealEdges` keeps the node isolation invariant -/

/-- Replacing two stored edges that meet on the node `c`, on which no other edge lies, by
one edge between their other end nodes, and deleting `c`, keeps `isoSound`. -/
theorem isoSound_healEdges {T T' : RTT_TOPOLOGY} (hs : isoSound T) {e1 e2 : RTT_ISO_EDGE}
    (hm1 : e1 ∈ T.edges) (hm2 : e2 ∈ T.edges) (c newid hst hen : Int)
    (hnewid : newid < T'.edge_seq) (hseq : T.edge_seq ≤ T'.edge_seq)
    (hends : (hst = e1.start_node ∨ hst = e1.end_node ∨ hst = e2.start_node ∨
        hst = e2.end_node) ∧
      (hen = e1.start_node ∨ hen = e1.end_node ∨ hen = e2.start_node ∨ hen = e2.end_node))
    (hcover : ∀ x : Int, x ≠ c →
      (x = e1.start_node ∨ x = e1.end_node ∨ x = e2.start_node ∨ x = e2.end_node) →
      x = hst ∨ x = hen)
    (hback : ∀ e' ∈ T'.edges,
      (∃ e ∈ T.edges, e.edge_id ≠ e1.edge_id ∧ e.edge_id ≠ e2.edge_id ∧
        e'.edge_id = e.edge_id ∧ e'.start_node = e.start_node ∧
        e'.end_node = e.end_node ∧ e'.face_left = e.face_left ∧
        e'.face_right = e.face_right) ∨
      (e'.edge_id = newid ∧ e'.start_node = hst ∧ e'.end_node = hen ∧
        e'.face_left = e1.face_left ∧ e'.face_right = e1.face_right))
    (hkeep : ∀ e ∈ T.edges, e.edge_id ≠ e1.edge_id → e.edge_id ≠ e2.edge_id →
      ∃ e' ∈ T'.edges, e'.start_node = e.start_node ∧ e'.end_node = e.end_node)
    (hhealed : ∃ e' ∈ T'.edges, e'.start_node = hst ∧ e'.end_node = hen)
    (hnd : (T'.edges.map (fun e => e.edge_id)).Nodup)
    (hN : T'.nodes = T.nodes.filter (fun n => !decide (n.node_id ∈ [c])))
    (hns : T'.node_seq = T.node_seq) (hfs : T'.face_seq = T.face_seq) :
    isoSound T' := by
  obtain ⟨h1, h2, h3, h4, h5, h6, h7⟩ := hs
  unfold isoSound nodeIsolation
  rw [hN, hns, hfs]
  have hendlt : hst < T.node_seq ∧ hen < T.node_seq := by
    have a1 := h3 e1 hm1
    have a2 := h3 e2 hm2
    constructor
    · rcases hends.1 with k | k | k | k <;> omega
    · rcases hends.2 with k | k | k | k <;> omega
  refine ⟨?_, ?_, ?_, hnd, ?_, ?_, h7⟩
  · intro n hn
    obtain ⟨hn0, hnc⟩ := List.mem_filter.1 hn
    simp only [List.mem_singleton, Bool.not_eq_true', decide_eq_false_iff_not] at hnc
    refine (h1 n hn0).trans ?_
    constructor
    · intro q e' he'
      rcases hback e' he' with ⟨e, he, -, -, -, hs', ht', -⟩ | ⟨-, hs', ht', -⟩
      · rw [hs', ht']; exact q e he
      · rw [hs', ht']
        have q1 := q e1 hm1
        have q2 := q e2 hm2
        constructor
        · rcases hends.1 with k | k | k | k
          · rw [k]; exact q1.1
          · rw [k]; exact q1.2
          · rw [k]; exact q2.1
          · rw [k]; exact q2.2
        · rcases hends.2 with k | k | k | k
          · rw [k]; exact q1.1
          · rw [k]; exact q1.2
          · rw [k]; exact q2.1
          · rw [k]; exact q2.2
    · intro q e he
      by_cases c1 : e.edge_id = e1.edge_id
      · have := edge_unique h4 he hm1 c1
        subst this
        obtain ⟨e', he', hs', ht'⟩ := hhealed
        have qh := q e' he'
        rw [hs', ht'] at qh
        constructor
        · intro k
          rcases hcover n.node_id hnc (Or.inl k.symm) with z | z
          · exact qh.1 z.symm
          · exact qh.2 z.symm
        · intro k
          rcases hcover n.node_id hnc (Or.inr (Or.inl k.symm)) with z | z
          · exact qh.1 z.symm
          · exact qh.2 z.symm
      · by_cases c2 : e.edge_id = e2.edge_id
        · have := edge_unique h4 he hm2 c2
          subst this
          obtain ⟨e', he', hs', ht'⟩ := hhealed
          have qh := q e' he'
          rw [hs', ht'] at qh
          constructor
          · intro k
            rcases hcover n.node_id hnc (Or.inr (Or.inr (Or.inl k.symm))) with z | z
            · exact qh.1 z.symm
            · exact qh.2 z.symm
          · intro k
            rcases hcover n.node_id hnc (Or.inr (Or.inr (Or.inr k.symm))) with z | z
            · exact qh.1 z.symm
            · exact qh.2 z.symm
        · obtain ⟨e', he', hs', ht'⟩ := hkeep e he c1 c2
          rw [← hs', ← ht']; exact q e' he'
  · intro e' he'
    rcases hback e' he' with ⟨e, he, -, -, -, -, -, hl, hr⟩ | ⟨-, -, -, hl, hr⟩
    · rw [hl, hr]; exact h2 e he
    · rw [hl, hr]; exact h2 e1 hm1
  · intro e' he'
    rcases hback e' he' with ⟨e, he, -, -, hi, hs', ht', -⟩ | ⟨hi, hs', ht', -⟩
    · have := h3 e he
      rw [hi, hs', ht']; omega
    · rw [hi, hs', ht']; omega
  · intro n hn
    exact h5 n (List.mem_filter.1 hn).1
  · exact h6.sublist ((List.filter_sublist _).map _)

/-- The end nodes of the healed edge are the end nodes of the two edges other than the
common node. -/
theorem healPlan_ends {caseno c : Int} {e1 e2 : RTT_ISO_EDGE}
    (hcase : (caseno = 1 ∧ e1.end_node = c ∧ e2.start_node = c) ∨
     (caseno = 2 ∧ e1.end_node = c ∧ e2.end_node = c) ∨
     (caseno = 3 ∧ e1.start_node = c ∧ e2.start_node = c) ∨
     (caseno = 4 ∧ e1.start_node = c ∧ e2.end_node = c)) :
    ((healPlan caseno e1 e2).newedge.start_node = e1.start_node ∨
      (healPlan caseno e1 e2).newedge.start_node = e1.end_node ∨
      (healPlan caseno e1 e2).newedge.start_node = e2.start_node ∨
      (healPlan caseno e1 e2).newedge.start_node = e2.end_node) ∧
    ((healPlan caseno e1 e2).newedge.end_node = e1.start_node ∨
      (healPlan caseno e1 e2).newedge.end_node = e1.end_node ∨
      (healPlan caseno e1 e2).newedge.end_node = e2.start_node ∨
      (healPlan caseno e1 e2).newedge.end_node = e2.end_node) ∧
    (∀ x : Int, x ≠ c →
      (x = e1.start_node ∨ x = e1.end_node ∨ x = e2.start_node ∨ x = e2.end_node) →
      x = (healPlan caseno e1 e2).newedge.start_node ∨
      x = (healPlan caseno e1 e2).newedge.end_node) := by
  rcases hcase with ⟨rfl, a, b⟩ | ⟨rfl, a, b⟩ | ⟨rfl, a, b⟩ | ⟨rfl, a, b⟩
  · refine ⟨Or.inl rfl, Or.inr (Or.inr (Or.inr rfl)), ?_⟩
    intro x hx hin
    rcases hin with k | k | k | k
    · exact Or.inl k
    · exact absurd (k.trans a) hx
    · exact absurd (k.trans b) hx
    · exact Or.inr k
  · refine ⟨Or.inl rfl, Or.inr (Or.inr (Or.inl rfl)), ?_⟩
    intro x hx hin
    rcases hin with k | k | k | k
    · exact Or.inl k
    · exact absurd (k.trans a) hx
    · exact Or.inr k
    · exact absurd (k.trans b) hx
  · refine ⟨Or.inr (Or.inr (Or.inr rfl)), Or.inr (Or.inl rfl), ?_⟩
    intro x hx hin
    rcases hin with k | k | k | k
    · exact absurd (k.trans a) hx
    · exact Or.inr k
    · exact absurd (k.trans b) hx
    · exact Or.inl k
  · refine ⟨Or.inr (Or.inr (Or.inl rfl)), Or.inr (Or.inl rfl), ?_⟩
    intro x hx hin
    rcases hin with k | k | k | k
    · exact absurd (k.trans a) hx
    · exact Or.inr k
    · exact Or.inl k
    · exact absurd (k.trans b) hx

/-- The call `_rtt_HealEdges` keeps `isoSound`. -/
theorem isoSound_HealEdges (T : RTT_TOPOLOGY) (eid1 eid2 : Int) (modEdge : Bool)
    (hs : isoSound T) (hok : (_rtt_HealEdges T eid1 eid2 modEdge).2 ≠ -1) :
    isoSound (_rtt_HealEdges T eid1 eid2 modEdge).1 := by
  have h3 := hs.2.2.1
  have h4 := hs.2.2.2.1
  obtain ⟨e1, e2, s, hm1, hm2, hid1, hid2, hne, -, -, -, -, hcase, -, hR, -⟩ :=
    rtt_HealEdges_ok rfl hok h4
  generalize (_rtt_HealEdges T eid1 eid2 modEdge).1 = T' at hR ⊢
  obtain ⟨he1, he2, hcov⟩ := healPlan_ends hcase
  have hE : T'.edges = healEdges T.edges e1 e2 (if modEdge = true then eid1 else T.edge_seq)
      (healPlan s.caseno e1 e2) modEdge := by rw [hR]
  have hN : T'.nodes = T.nodes.filter (fun n => !decide (n.node_id ∈ [s.commonnode])) := by
    rw [hR]
  have hns : T'.node_seq = T.node_seq := by rw [hR]
  have hes : T'.edge_seq = (if modEdge = true then T.edge_seq else T.edge_seq + 1) := by
    rw [hR]
  have hfs : T'.face_seq = T.face_seq := by rw [hR]
  clear hR
  have l1 := (h3 e1 hm1).1
  have l2 := (h3 e2 hm2).1
  have hne' : e1.edge_id ≠ e2.edge_id := by rw [hid1, hid2]; exact hne
  have hnew : (modEdge = true ∧ (if modEdge = true then eid1 else T.edge_seq) = e1.edge_id) ∨
      (modEdge = false ∧ (if modEdge = true then eid1 else T.edge_seq) ≠ e1.edge_id ∧
        (if modEdge = true then eid1 else T.edge_seq) ≠ e2.edge_id) := by
    cases modEdge with
    | true => left; exact ⟨rfl, by rw [if_pos rfl]; exact hid1.symm⟩
    | false =>
      right
      rw [if_neg Bool.false_ne_true]
      exact ⟨rfl, by omega, by omega⟩
  have hmem := fun e' => @mem_healEdges T.edges e1 e2
    (if modEdge = true then eid1 else T.edge_seq) (healPlan s.caseno e1 e2) modEdge
    hm1 hne' hnew e'
  refine isoSound_healEdges hs hm1 hm2 s.commonnode
    (if modEdge = true then eid1 else T.edge_seq)
    (healPlan s.caseno e1 e2).newedge.start_node
    (healPlan s.caseno e1 e2).newedge.end_node ?_ ?_ ⟨he1, he2⟩ hcov ?_ ?_ ?_ ?_ hN hns hfs
  · rw [hes]
    cases modEdge with
    | true => rw [if_pos rfl, if_pos rfl, ← hid1]; exact l1
    | false =>
      rw [if_neg Bool.false_ne_true, if_neg Bool.false_ne_true]; omega
  · rw [hes]
    split_ifs <;> omega
  · intro e' he'
    rw [hE] at he'
    rcases (hmem e').1 he' with ⟨e, he, n1, n2, rfl⟩ | rfl
    · exact Or.inl ⟨e, he, n1, n2, rfl, rfl, rfl, rfl, rfl⟩
    · exact Or.inr ⟨rfl, rfl, rfl, rfl, rfl⟩
  · intro e he n1 n2
    refine ⟨healRow e1.edge_id e2.edge_id (if modEdge = true then eid1 else T.edge_seq)
      (healPlan s.caseno e1 e2) modEdge e, ?_, rfl, rfl⟩
    rw [hE]
    exact (hmem _).2 (Or.inl ⟨e, he, n1, n2, rfl⟩)
  · refine ⟨healRow e1.edge_id e2.edge_id (if modEdge = true then eid1 else T.edge_seq)
      (healPlan s.caseno e1 e2) modEdge
      (healStored e1 (if modEdge = true then eid1 else T.edge_seq)
        (healPlan s.caseno e1 e2)), ?_, rfl, rfl⟩
    rw [hE]
    exact (hmem _).2 (Or.inr rfl)
  · rw [hE, healEdges_ids]
    refine List.Nodup.sublist (List.filter_sublist _) ?_
    cases modEdge with
    | true => rw [if_pos rfl, List.append_nil]; exact h4
    | false =>
      rw [if_neg Bool.false_ne_true, List.nodup_append]
      refine ⟨h4, List.nodup_singleton _, ?_⟩
      intro x hx hy
      obtain ⟨e, he, rfl⟩ := List.mem_map.1 hx
      have := (h3 e he).1
      rw [List.mem_singleton] at hy
      rw [if_neg Bool.false_ne_true] at hy
      omega

end RTTopo

namespace RTTopo

/-! ## The face split keeps the node flags and the set face columns -/

theorem sideStep.idle (T : RTT_TOPOLOGY) : sideStep T T := fun h => ⟨h, rfl, rfl, rfl⟩

theorem sideStep.thenStep {T T1 T2 : RTT_TOPOLOGY} (h1 : sideStep T T1) (h2 : sideStep T1 T2) :
    sideStep T T2 := by
  intro hp
  obtain ⟨p1, a1, b1, c1⟩ := h1 hp
  obtain ⟨p2, a2, b2, c2⟩ := h2 p1
  exact ⟨p2, a2.trans a1, b2.trans b1, c2.trans c1⟩

theorem sideStep_rterror {T T1 : RTT_TOPOLOGY} (msg : String) (h : sideStep T T1) :
    sideStep T (rterror T1 msg) := h

/-- Node tables with the same flags are consistent together. -/
theorem flagConsistent_of_flags {T T' : RTT_TOPOLOGY}
    (h : T'.nodes.map nodeFlag = T.nodes.map nodeFlag) (hc : flagConsistent T) :
    flagConsistent T' := by
  have back : ∀ n ∈ T'.nodes, ∃ n0 ∈ T.nodes, n0.node_id = n.node_id ∧
      (n0.containing_face = -1 ↔ n.containing_face = -1) := by
    intro n hn
    have hm : nodeFlag n ∈ T.nodes.map nodeFlag := by
      rw [← h]; exact List.mem_map.2 ⟨n, hn, rfl⟩
    obtain ⟨n0, hn0, hv⟩ := List.mem_map.1 hm
    unfold nodeFlag at hv
    simp only [Prod.mk.injEq, decide_eq_decide] at hv
    exact ⟨n0, hn0, hv.1, hv.2⟩
  intro n hn m hm hid hcf
  obtain ⟨n0, hn0, i1, f1⟩ := back n hn
  obtain ⟨m0, hm0, i2, f2⟩ := back m hm
  exact f2.1 (hc n0 hn0 m0 hm0 (by rw [i1, i2]; exact hid) (f1.2 hcf))

/-- A step that touches neither the node rows nor the edge rows nor the node and edge
sequences, and does not lower the face sequence. -/
theorem sideStep_of_rows {T T' : RTT_TOPOLOGY} (hn : T'.nodes = T.nodes)
    (he : T'.edges = T.edges) (hns : T'.node_seq = T.node_seq)
    (hes : T'.edge_seq = T.edge_seq) (hfs : T.face_seq ≤ T'.face_seq) : sideStep T T' := by
  intro hp
  refine ⟨⟨?_, ?_, ?_⟩, by rw [hn], hns, hes⟩
  · unfold flagConsistent; rw [hn]; exact hp.1
  · exact Int.lt_of_lt_of_le hp.2.1 hfs
  · rw [he]; exact hp.2.2

theorem sideStep_updateFacesById (T : RTT_TOPOLOGY) (rows : List RTT_ISO_FACE) :
    sideStep T (rtt_be_updateFacesById T rows).1 := by
  unfold rtt_be_updateFacesById
  dsimp only
  split_ifs <;> exact sideStep_of_rows rfl rfl rfl rfl (Int.le_refl _)

theorem sideStep_deleteFacesById (T : RTT_TOPOLOGY) (ids : List Int) :
    sideStep T (rtt_be_deleteFacesById T ids).1 := by
  unfold rtt_be_deleteFacesById
  dsimp only
  split_ifs <;> exact sideStep_of_rows rfl rfl rfl rfl (Int.le_refl _)

theorem sideStep_insertFaces (T : RTT_TOPOLOGY) (face : RTT_ISO_FACE) :
    sideStep T (rtt_be_insertFaces T face).1 := by
  unfold rtt_be_insertFaces
  dsimp only
  split_ifs
  · exact sideStep_of_rows rfl rfl rfl rfl (Int.le_refl _)
  · refine sideStep_of_rows rfl rfl rfl rfl ?_
    show T.face_seq ≤ T.face_seq + 1
    omega
  · exact sideStep_of_rows rfl rfl rfl rfl (Int.le_refl _)

/-- The identifier of the face stored by a successful `insertFaces` of a row without
identifier. -/
theorem insertFaces_id (T : RTT_TOPOLOGY) (mbr : Option GBOX)
    (h : (rtt_be_insertFaces T { face_id := -1, mbr := mbr }).2.2 ≠ -1) :
    (rtt_be_insertFaces T { face_id := -1, mbr := mbr }).2.1.face_id = T.face_seq := by
  unfold rtt_be_insertFaces at h ⊢
  dsimp only at h ⊢
  by_cases c : BeCall.insertFaces ∈ T.failing
  · rw [if_pos c] at h; exact absurd rfl h
  · rw [if_neg c, if_pos rfl]

/-- Face columns written by id stay set when the written values are set. -/
theorem updateEdgeById_faces (fields : List RTT_COL_EDGE) (rows : List RTT_ISO_EDGE)
    (hrows : ∀ u ∈ rows, (RTT_COL_EDGE.FACE_LEFT ∈ fields → u.face_left ≠ -1) ∧
      (RTT_COL_EDGE.FACE_RIGHT ∈ fields → u.face_right ≠ -1))
    (es : List RTT_ISO_EDGE) (hes : ∀ e ∈ es, e.face_left ≠ -1 ∧ e.face_right ≠ -1) :
    ∀ e ∈ rows.foldl (updateEdgeById fields) es, e.face_left ≠ -1 ∧ e.face_right ≠ -1 := by
  induction rows generalizing es with
  | nil => exact hes
  | cons u rest ih =>
    rw [List.foldl_cons]
    apply ih (fun v hv => hrows v (List.mem_cons_of_mem _ hv))
    intro e' he'
    unfold updateEdgeById at he'
    obtain ⟨e, he, rfl⟩ := List.mem_map.1 he'
    have hu := hrows u (List.mem_cons_self _ _)
    have h0 := hes e he
    by_cases c : e.edge_id = u.edge_id
    · rw [if_pos c]
      unfold edgeAssign
      dsimp only
      constructor
      · by_cases d : RTT_COL_EDGE.FACE_LEFT ∈ fields
        · rw [if_pos d]; exact hu.1 d
        · rw [if_neg d]; exact h0.1
      · by_cases d : RTT_COL_EDGE.FACE_RIGHT ∈ fields
        · rw [if_pos d]; exact hu.2 d
        · rw [if_neg d]; exact h0.2
    · rw [if_neg c]; exact h0

theorem sideStep_updateEdgesById (T : RTT_TOPOLOGY) (rows : List RTT_ISO_EDGE)
    (fields : List RTT_COL_EDGE)
    (hrows : ∀ u ∈ rows, (RTT_COL_EDGE.FACE_LEFT ∈ fields → u.face_left ≠ -1) ∧
      (RTT_COL_EDGE.FACE_RIGHT ∈ fields → u.face_right ≠ -1)) :
    sideStep T (rtt_be_updateEdgesById T rows fields).1 := by
  unfold rtt_be_updateEdgesById
  split_ifs
  · exact sideStep.idle T
  · intro hp
    exact ⟨⟨hp.1, hp.2.1, updateEdgeById_faces fields rows hrows T.edges hp.2.2⟩,
      rfl, rfl, rfl⟩

/-- Setting `containing_face` by id on rows where it is set, to a set value, keeps the
flags. -/
theorem updateNodeById_flags (rows : List RTT_ISO_NODE) (ns : List RTT_ISO_NODE)
    (hrows : ∀ u ∈ rows, u.containing_face ≠ -1 ∧
      ∀ m ∈ ns, m.node_id = u.node_id → m.containing_face ≠ -1) :
    (rows.foldl (updateNodeById [RTT_COL_NODE.CONTAINING_FACE]) ns).map nodeFlag =
      ns.map nodeFlag := by
  induction rows generalizing ns with
  | nil => rfl
  | cons u rest ih =>
    rw [List.foldl_cons]
    have hu := hrows u (List.mem_cons_self _ _)
    have hstep : (updateNodeById [RTT_COL_NODE.CONTAINING_FACE] ns u).map nodeFlag =
        ns.map nodeFlag := by
      unfold updateNodeById
      rw [List.map_map]
      apply List.map_congr_left
      intro m hm
      simp only [Function.comp]
      by_cases c : m.node_id = u.node_id
      · rw [if_pos c]
        have hm1 := hu.2 m hm c
        unfold nodeFlag nodeAssign
        simp only [List.mem_singleton, reduceCtorEq, if_false, if_true, Prod.mk.injEq,
          true_and, decide_eq_decide]
        exact ⟨fun k => absurd k hu.1, fun k => absurd k hm1⟩
      · rw [if_neg c]
    rw [ih, hstep]
    intro v hv
    have hv0 := hrows v (List.mem_cons_of_mem _ hv)
    refine ⟨hv0.1, ?_⟩
    intro m' hm' hid
    unfold updateNodeById at hm'
    obtain ⟨m, hm, rfl⟩ := List.mem_map.1 hm'
    by_cases c : m.node_id = u.node_id
    · rw [if_pos c]
      unfold nodeAssign
      simp only [List.mem_singleton, if_true]
      exact hu.1
    · rw [if_neg c] at hid ⊢
      exact hv0.2 m hm hid

theorem sideStep_updateNodesById (T : RTT_TOPOLOGY) (rows : List RTT_ISO_NODE)
    (hrows : ∀ u ∈ rows, u.containing_face ≠ -1 ∧
      ∃ n ∈ T.nodes, n.node_id = u.node_id ∧ n.containing_face ≠ -1) :
    sideStep T (rtt_be_updateNodesById T rows [RTT_COL_NODE.CONTAINING_FACE]).1 := by
  unfold rtt_be_updateNodesById
  split_ifs
  · exact sideStep.idle T
  · intro hp
    have hfl : (rows.foldl (updateNodeById [RTT_COL_NODE.CONTAINING_FACE]) T.nodes).map
        nodeFlag = T.nodes.map nodeFlag := by
      apply updateNodeById_flags
      intro u hu
      obtain ⟨h1, n, hn, hid, hcf⟩ := hrows u hu
      refine ⟨h1, ?_⟩
      intro m hm hmid k
      exact hcf (hp.1 m hm n hn (hmid.trans hid.symm) k)
    refine ⟨⟨?_, hp.2.1, hp.2.2⟩, hfl, rfl, rfl⟩
    exact @flagConsistent_of_flags T
      { T with nodes := rows.foldl (updateNodeById [RTT_COL_NODE.CONTAINING_FACE]) T.nodes }
      hfl hp.1

/-- The rows collected by the node loop of `_rtt_AddFaceSplit` carry the new face and the
identifier of a scanned node. -/
theorem faceSplitNodes_rows (G : GEOM) (shell : POINTARRAY) (nf : Int) (outside : Bool)
    (l : List RTT_ISO_NODE) (acc res : List RTT_ISO_NODE)
    (h : faceSplitNodes G shell nf outside l acc = .ok res) :
    ∀ u ∈ res, u ∈ acc ∨ (u.containing_face = nf ∧ ∃ n ∈ l, n.node_id = u.node_id) := by
  induction l generalizing acc with
  | nil =>
    unfold faceSplitNodes at h
    cases h
    intro u hu; exact Or.inl hu
  | cons n rest ih =>
    unfold faceSplitNodes at h
    dsimp only at h
    by_cases c1 : G.shell_contains shell n.geom = 2
    · rw [if_pos c1] at h; cases h
    rw [if_neg c1] at h
    by_cases c2 : outside = true ∧ G.shell_contains shell n.geom ≠ 0
    · rw [if_pos c2] at h
      intro u hu
      rcases ih acc h u hu with k | ⟨k1, m, hm, k2⟩
      · exact Or.inl k
      · exact Or.inr ⟨k1, m, List.mem_cons_of_mem _ hm, k2⟩
    rw [if_neg c2] at h
    by_cases c3 : outside = false ∧ G.shell_contains shell n.geom = 0
    · rw [if_pos c3] at h
      intro u hu
      rcases ih acc h u hu with k | ⟨k1, m, hm, k2⟩
      · exact Or.inl k
      · exact Or.inr ⟨k1, m, List.mem_cons_of_mem _ hm, k2⟩
    rw [if_neg c3] at h
    intro u hu
    rcases ih _ h u hu with k | ⟨k1, m, hm, k2⟩
    · rcases List.mem_append.1 k with k | k
      · exact Or.inl k
      · rw [List.mem_singleton.1 k]
        exact Or.inr ⟨rfl, n, List.mem_cons_self _ _, rfl⟩
    · exact Or.inr ⟨k1, m, List.mem_cons_of_mem _ hm, k2⟩

theorem sideStep_addFaceSplitNodes (G : GEOM) (T : RTT_TOPOLOGY) (shell : POINTARRAY)
    (face : Int) (newface : RTT_ISO_FACE) (outside : Bool)
    (hface : face ≠ -1) (hnew : newface.face_id ≠ -1) :
    sideStep T (addFaceSplitNodes G T shell face newface outside).1 := by
  unfold addFaceSplitNodes
  cases hg : rtt_be_getNodeByFace G T [face] newface.mbr with
  | none => exact sideStep.idle T
  | some nodes =>
    dsimp only
    by_cases c1 : nodes.length = 0
    · rw [if_pos c1]; exact sideStep.idle T
    rw [if_neg c1]
    cases hf : faceSplitNodes G shell newface.face_id outside nodes [] with
    | error msg => exact sideStep.idle T
    | ok upd =>
      dsimp only
      by_cases c2 : upd.length = 0
      · rw [if_pos c2]; exact sideStep.idle T
      rw [if_neg c2]
      have hrows : ∀ u ∈ upd, u.containing_face ≠ -1 ∧
          ∃ n ∈ T.nodes, n.node_id = u.node_id ∧ n.containing_face ≠ -1 := by
        intro u hu
        rcases faceSplitNodes_rows G shell newface.face_id outside nodes [] upd hf u hu
          with k | ⟨k1, n, hn, k2⟩
        · exact absurd k (List.not_mem_nil _)
        · refine ⟨by rw [k1]; exact hnew, n, ?_, k2, ?_⟩
          · unfold rtt_be_getNodeByFace at hg
            split_ifs at hg
            cases hg
            exact (List.mem_filter.1 hn).1
          · unfold rtt_be_getNodeByFace at hg
            split_ifs at hg
            cases hg
            have := (List.mem_filter.1 hn).2
            simp only [List.mem_singleton, Bool.and_eq_true, decide_eq_true_eq] at this
            rw [this.1]; exact hface
      have := sideStep_updateNodesById T upd hrows
      split_ifs
      · exact this
      · exact this

end RTTopo

namespace RTTopo

/-! ## The face split keeps the node flags and the set face columns (continued) -/

theorem ringHits_carries (e : RTT_ISO_EDGE) (nf : Int) (l : List Int) (found : Nat)
    (s : FaceSplitScan) (hs : scanCarries nf s) :
    scanCarries nf (ringHits e nf l found s).2 := by
  induction l generalizing found s with
  | nil => exact hs
  | cons seid rest ih =>
    unfold ringHits
    have hfw : scanCarries nf { s with forward_edges :=
        s.forward_edges ++ [{ blankEdge with edge_id := e.edge_id, face_left := nf }] } := by
      refine ⟨?_, hs.2⟩
      intro u hu
      rcases List.mem_append.1 hu with k | k
      · exact hs.1 u k
      · rw [List.mem_singleton.1 k]
    have hbw : scanCarries nf { s with backward_edges :=
        s.backward_edges ++ [{ blankEdge with edge_id := e.edge_id, face_right := nf }] } := by
      refine ⟨hs.1, ?_⟩
      intro u hu
      rcases List.mem_append.1 hu with k | k
      · exact hs.2 u k
      · rw [List.mem_singleton.1 k]
    dsimp only
    split_ifs
    · exact hfw
    · exact ih _ _ hfw
    · exact hbw
    · exact ih _ _ hbw
    · exact ih _ _ hs

theorem faceSplitEdges_carries (G : GEOM) (shell : POINTARRAY) (sids : List Int)
    (face nf : Int) (outside : Bool) (l : List RTT_ISO_EDGE) (s res : FaceSplitScan)
    (hs : scanCarries nf s)
    (h : faceSplitEdges G shell sids face nf outside l s = .ok res) :
    scanCarries nf res := by
  induction l generalizing s with
  | nil =>
    unfold faceSplitEdges at h
    cases h; exact hs
  | cons e rest ih =>
    unfold faceSplitEdges at h
    dsimp only at h
    have hh := ringHits_carries e nf sids 0 s hs
    by_cases c0 : (ringHits e nf sids 0 s).1 ≠ 0
    · rw [if_pos c0] at h; exact ih _ hh h
    rw [if_neg c0] at h
    cases hp : _rtt_GetInteriorEdgePoint G e.geom with
    | none => rw [hp] at h; cases h
    | some ep =>
      rw [hp] at h
      dsimp only at h
      by_cases c1 : G.shell_contains shell ep = 2
      · rw [if_pos c1] at h; cases h
      rw [if_neg c1] at h
      by_cases c2 : outside = true ∧ G.shell_contains shell ep ≠ 0
      · rw [if_pos c2] at h; exact ih _ hs h
      rw [if_neg c2] at h
      by_cases c3 : outside = false ∧ G.shell_contains shell ep = 0
      · rw [if_pos c3] at h; exact ih _ hs h
      rw [if_neg c3] at h
      refine ih _ ?_ h
      have h1 : scanCarries nf (if e.face_left = face then
          { s with forward_edges := s.forward_edges ++
            [{ blankEdge with edge_id := e.edge_id, face_left := nf }] } else s) := by
        split_ifs
        · refine ⟨?_, hs.2⟩
          intro u hu
          rcases List.mem_append.1 hu with k | k
          · exact hs.1 u k
          · rw [List.mem_singleton.1 k]
        · exact hs
      generalize (if e.face_left = face then
          { s with forward_edges := s.forward_edges ++
            [{ blankEdge with edge_id := e.edge_id, face_left := nf }] } else s) = s1 at h1 ⊢
      split_ifs
      · refine ⟨h1.1, ?_⟩
        intro u hu
        rcases List.mem_append.1 hu with k | k
        · exact h1.2 u k
        · rw [List.mem_singleton.1 k]
      · exact h1

theorem sideStep_addFaceSplitEdges (G : GEOM) (T : RTT_TOPOLOGY) (shell : POINTARRAY)
    (sids : List Int) (face : Int) (newface : RTT_ISO_FACE) (outside : Bool)
    (hface : face ≠ -1) (hnew : newface.face_id ≠ -1) :
    sideStep T (addFaceSplitEdges G T shell sids face newface outside).1 := by
  unfold addFaceSplitEdges
  split
  · exact sideStep.idle T
  · split_ifs
    · exact sideStep.idle T
    · exact sideStep_addFaceSplitNodes G T shell face newface outside hface hnew
    · split
      · exact sideStep.idle T
      · rename_i scan hscan
        have hc := faceSplitEdges_carries G shell sids face newface.face_id outside _ _ scan
          ⟨fun u hu => absurd hu (List.not_mem_nil _),
           fun u hu => absurd hu (List.not_mem_nil _)⟩ hscan
        have hL : ∀ u ∈ scan.forward_edges,
            (RTT_COL_EDGE.FACE_LEFT ∈ [RTT_COL_EDGE.FACE_LEFT] → u.face_left ≠ -1) ∧
            (RTT_COL_EDGE.FACE_RIGHT ∈ [RTT_COL_EDGE.FACE_LEFT] → u.face_right ≠ -1) := by
          intro u hu
          refine ⟨fun _ => by rw [hc.1 u hu]; exact hnew, fun k => ?_⟩
          rw [List.mem_singleton] at k
          cases k
        have hR : ∀ u ∈ scan.backward_edges,
            (RTT_COL_EDGE.FACE_LEFT ∈ [RTT_COL_EDGE.FACE_RIGHT] → u.face_left ≠ -1) ∧
            (RTT_COL_EDGE.FACE_RIGHT ∈ [RTT_COL_EDGE.FACE_RIGHT] → u.face_right ≠ -1) := by
          intro u hu
          refine ⟨fun k => ?_, fun _ => by rw [hc.2 u hu]; exact hnew⟩
          rw [List.mem_singleton] at k
          cases k
        dsimp only
        have hf : sideStep T (if scan.forward_edges.length = 0 then (T, (0 : Int))
            else rtt_be_updateEdgesById T scan.forward_edges [RTT_COL_EDGE.FACE_LEFT]).1 := by
          split_ifs
          · exact sideStep.idle T
          · exact sideStep_updateEdgesById T _ _ hL
        generalize (if scan.forward_edges.length = 0 then (T, (0 : Int))
            else rtt_be_updateEdgesById T scan.forward_edges [RTT_COL_EDGE.FACE_LEFT]) = f
          at hf ⊢
        have hb : sideStep T (if scan.backward_edges.length = 0 then (f.1, (0 : Int))
            else rtt_be_updateEdgesById f.1 scan.backward_edges
              [RTT_COL_EDGE.FACE_RIGHT]).1 := by
          split_ifs
          · exact hf
          · exact hf.thenStep (sideStep_updateEdgesById f.1 _ _ hR)
        generalize (if scan.backward_edges.length = 0 then (f.1, (0 : Int))
            else rtt_be_updateEdgesById f.1 scan.backward_edges
              [RTT_COL_EDGE.FACE_RIGHT]) = b at hb ⊢
        split_ifs
        · exact hf
        · exact hf
        · exact hb
        · exact hb
        · exact hb.thenStep
            (sideStep_addFaceSplitNodes G b.1 shell face newface outside hface hnew)

theorem sideStep_addFaceSplitMbr (G : GEOM) (T : RTT_TOPOLOGY) (face : Int)
    (pa : POINTARRAY) : sideStep T (addFaceSplitMbr G T face pa).1 := by
  unfold addFaceSplitMbr
  dsimp only
  split_ifs <;> first
    | exact sideStep.idle T
    | exact sideStep_updateFacesById T _

theorem sideStep_addFaceSplitNew (G : GEOM) (T : RTT_TOPOLOGY) (face : Int)
    (sids : List Int) (pa : POINTARRAY) (hole : Bool) (hface : face ≠ -1) :
    sideStep T (addFaceSplitNew G T face sids pa hole).1 := by
  unfold addFaceSplitNew
  split
  · exact sideStep.idle T
  · rename_i ofs _
    dsimp only
    by_cases c1 : hole = true ∧ ofs.length ≠ 1
    · rw [if_pos c1]; exact sideStep.idle T
    rw [if_neg c1]
    have hid := insertFaces_id T (if hole = true then (ofs.head?.bind (fun f => f.mbr))
      else some (G.bbox pa))
    have hst := sideStep_insertFaces T
      { face_id := -1,
        mbr := if hole = true then (ofs.head?.bind (fun f => f.mbr)) else some (G.bbox pa) }
    generalize rtt_be_insertFaces T _ = i at hid hst ⊢
    by_cases c2 : i.2.2 = -1
    · rw [if_pos c2]; exact hst
    rw [if_neg c2]
    by_cases c3 : i.2.2 ≠ 1
    · rw [if_pos c3]; exact hst
    rw [if_neg c3]
    intro hp
    have hnew : (if hole = true then { i.2.1 with mbr := none } else i.2.1).face_id ≠ -1 := by
      have : (if hole = true then { i.2.1 with mbr := none } else i.2.1).face_id =
          i.2.1.face_id := by
        split_ifs <;> rfl
      rw [this, hid c2]
      have := hp.2.1
      omega
    exact (hst.thenStep (sideStep_addFaceSplitEdges G i.1 pa sids face _ hole hface hnew)) hp

theorem sideStep_addFaceSplit (G : GEOM) (T : RTT_TOPOLOGY) (sedge face : Int)
    (mbr_only : Bool) (hface : face ≠ -1) :
    sideStep T (_rtt_AddFaceSplit G T sedge face mbr_only).1 := by
  unfold _rtt_AddFaceSplit
  split
  · exact sideStep.idle T
  · exact sideStep.idle T
  · split_ifs
    · exact sideStep.idle T
    · exact sideStep_addFaceSplitMbr G T face _
    · exact sideStep_addFaceSplitNew G T face _ _ _ hface

theorem sideStep_addEdgeFinish (T : RTT_TOPOLOGY) (newedge : RTT_ISO_EDGE) (modFace : Bool) :
    sideStep T (addEdgeFinish T newedge modFace).1 := by
  unfold addEdgeFinish
  dsimp only
  split_ifs <;> first
    | exact sideStep.idle T
    | exact sideStep_deleteFacesById T _

theorem sideStep_addEdgeFaceSplit (G : GEOM) (T : RTT_TOPOLOGY) (newedge : RTT_ISO_EDGE)
    (modFace : Bool) (hface : newedge.face_left ≠ -1) :
    sideStep T (addEdgeFaceSplit G T newedge modFace).1 := by
  unfold addEdgeFaceSplit
  by_cases hm : modFace = false
  · rw [if_pos hm]
    dsimp only
    have k1 := sideStep_addFaceSplit G T (-newedge.edge_id) newedge.face_left false hface
    generalize _rtt_AddFaceSplit G T (-newedge.edge_id) newedge.face_left false = r1 at k1 ⊢
    by_cases c : r1.2 = 0
    · rw [if_pos c]; exact k1
    · rw [if_neg c]
      have k2 := sideStep_addFaceSplit G r1.1 newedge.edge_id newedge.face_left false hface
      generalize _rtt_AddFaceSplit G r1.1 newedge.edge_id newedge.face_left false = r at k2 ⊢
      exact (k1.thenStep k2).thenStep (sideStep_addEdgeFinish r.1 newedge modFace)
  · rw [if_neg hm]
    dsimp only
    have k1 := sideStep_addFaceSplit G T newedge.edge_id newedge.face_left false hface
    generalize _rtt_AddFaceSplit G T newedge.edge_id newedge.face_left false = r at k1 ⊢
    by_cases c : r.2 = 0
    · rw [if_pos c]; exact k1
    · rw [if_neg c]
      by_cases c2 : r.2 < 0
      · rw [if_pos c2]
        have k2 := sideStep_addFaceSplit G r.1 (-newedge.edge_id) newedge.face_left false
          hface
        generalize _rtt_AddFaceSplit G r.1 (-newedge.edge_id) newedge.face_left false = r2
          at k2 ⊢
        by_cases c3 : r2.2 < 0
        · rw [if_pos c3]; exact k1.thenStep k2
        · rw [if_neg c3]
          exact (k1.thenStep k2).thenStep (sideStep_addEdgeFinish r2.1 newedge modFace)
      · rw [if_neg c2]
        have k2 := sideStep_addFaceSplit G r.1 (-newedge.edge_id) newedge.face_left true
          hface
        generalize _rtt_AddFaceSplit G r.1 (-newedge.edge_id) newedge.face_left true = r2
          at k2 ⊢
        exact (k1.thenStep k2).thenStep (sideStep_addEdgeFinish r2.1 newedge modFace)

end RTTopo

namespace RTTopo

/-! ## `_rtt_AddEdge` keeps the node isolation invariant -/

/-- The adjacency analysis changes no row, and when it reports incident edges the node
has one. -/
theorem findAdjacentEdges_found (G : GEOM) (T : RTT_TOPOLOGY) (node : Int) (data : edgeend)
    (other : Option edgeend) (myedge_id : Int) :
    (_rtt_FindAdjacentEdges G T node data other myedge_id).1 =
      { T with errors := (_rtt_FindAdjacentEdges G T node data other myedge_id).1.errors } ∧
    ((_rtt_FindAdjacentEdges G T node data other myedge_id).2.2 ≠ 0 →
      ∃ e ∈ T.edges, e.start_node = node ∨ e.end_node = node) := by
  unfold _rtt_FindAdjacentEdges
  dsimp only
  cases hg : rtt_be_getEdgeByNode T [node] with
  | none => exact ⟨rfl, fun k => absurd rfl k⟩
  | some edges =>
    dsimp only
    have hne : edges ≠ [] → ∃ e ∈ T.edges, e.start_node = node ∨ e.end_node = node := by
      intro hn
      cases edges with
      | nil => exact absurd rfl hn
      | cons e rest =>
        have he : e ∈ T.edges.filter (fun e => decide (e.start_node ∈ [node]) ||
            decide (e.end_node ∈ [node])) := by
          rw [← getEdgeByNode_some hg]; exact List.mem_cons_self _ _
        obtain ⟨hm, hp⟩ := List.mem_filter.1 he
        simp only [List.mem_singleton, Bool.or_eq_true, decide_eq_true_eq] at hp
        exact ⟨e, hm, hp⟩
    rcases hl : findAdjacentLoop G node myedge_id edges
      { data := { data with nextCW := 0, nextCCW := 0, cwFace := -1, ccwFace := -1 },
        minaz := (adjInitialAz G data other),
        maxaz := (adjInitialAz G data other) } with ⟨s1, _ | msg⟩
    · dsimp only
      split_ifs with hc
      · exact ⟨rfl, fun _ => hne (fun h => hc.2.1 (by rw [h]; rfl))⟩
      · refine ⟨rfl, fun k => hne (fun h => k ?_)⟩
        rw [h]; rfl
    · dsimp only
      refine ⟨rfl, fun _ => hne ?_⟩
      rintro rfl
      simp [findAdjacentLoop] at hl

theorem endsKept_addEdgeLinkPrev (T : RTT_TOPOLOGY) (prev target : Int) :
    endsKept T (addEdgeLinkPrev T prev target).1 := by
  unfold addEdgeLinkPrev
  split_ifs
  · exact endsKept_updateEdges _ _ _ _ _ _ _ linkCols_left
  · exact endsKept_updateEdges _ _ _ _ _ _ _ linkCols_right

/-- The request that clears `containing_face` of a node, when it succeeds. -/
theorem addEdgeClearNode_ok {T T1 : RTT_TOPOLOGY} {id r : Int}
    (h : addEdgeClearNode T id = (T1, r)) (hr : r ≠ -1) :
    T1 = { T with nodes := T.nodes.map (fun n =>
      if n.node_id = id then { n with containing_face := -1 } else n) } := by
  unfold addEdgeClearNode at h
  rw [updateNodes_ok h hr]
  congr 1
  apply List.map_congr_left
  intro n _
  rcases n with ⟨nid, cf, g⟩
  simp only [updateNodeRow, nodeSelected, nodeMatches, nodeAssign, blankNode]
  by_cases c : nid = id <;> simp [c]

theorem linkView_endView {es1 es2 : List RTT_ISO_EDGE}
    (h : es1.map linkView = es2.map linkView) : es1.map endView = es2.map endView := by
  have := congrArg (List.map
    (fun v : Int × Int × Int × Int × Int => (v.1, v.2.1, v.2.2.1))) h
  simpa only [List.map_map] using this

theorem faceView_endView {es1 es2 : List RTT_ISO_EDGE}
    (h : es1.map faceView = es2.map faceView) : es1.map endView = es2.map endView := by
  have := congrArg (List.map
    (fun v : Int × Int × Int × Int × Int × RTLINE => (v.1, v.2.1, v.2.2.1))) h
  simpa only [List.map_map] using this

/-- Node rows with the same identifier agree on the flag when the isolation invariant
holds. -/
theorem flagConsistent_of_isolation {T : RTT_TOPOLOGY} (h : nodeIsolation T) :
    flagConsistent T := by
  intro n hn m hm hid hcf
  by_contra hne
  have hfree := (h m hm).1 hne
  rw [← hid] at hfree
  exact ((h n hn).2 hfree) hcf

/-- A successful insertion part of `_rtt_AddEdge`: one edge row more, `containing_face`
unset on the two end nodes, every face column set. -/
theorem addEdgeInsert_iso {G : GEOM} {T : RTT_TOPOLOGY} {newedge : RTT_ISO_EDGE}
    {pl pr : Int} {span epan : edgeend} {modFace : Bool} {R : RTT_TOPOLOGY × Int}
    (h : addEdgeInsert G T newedge pl pr span epan modFace = R) (hok : R.2 ≠ -1)
    (hid : newedge.edge_id ≠ -1)
    (hiso : nodeIsolation T)
    (hfaces : ∀ e ∈ T.edges, e.face_left ≠ -1 ∧ e.face_right ≠ -1)
    (hfs : 0 < T.face_seq)
    (hfl : newedge.face_left ≠ -1) (hfr : newedge.face_right ≠ -1)
    (hsp : span.was_isolated = 0 →
      ∃ e ∈ T.edges, e.start_node = newedge.start_node ∨ e.end_node = newedge.start_node)
    (hep : epan.was_isolated = 0 →
      ∃ e ∈ T.edges, e.start_node = newedge.end_node ∨ e.end_node = newedge.end_node) :
    R.1.edges.map endView = (T.edges ++ [newedge]).map endView ∧
    (∀ e ∈ R.1.edges, e.face_left ≠ -1 ∧ e.face_right ≠ -1) ∧
    R.1.nodes.map nodeFlag = (T.nodes.map (fun n =>
      if n.node_id = newedge.start_node ∨ n.node_id = newedge.end_node then
        { n with containing_face := -1 } else n)).map nodeFlag ∧
    R.1.node_seq = T.node_seq ∧ R.1.edge_seq = T.edge_seq ∧ 0 < R.1.face_seq := by
  unfold addEdgeInsert at h
  dsimp only at h
  rcases hi : rtt_be_insertEdges T [newedge] with ⟨T1, rows, ret⟩
  rw [hi] at h
  dsimp only at h
  by_cases c1 : ret = -1
  · rw [if_pos c1] at h; subst h; exact absurd rfl hok
  rw [if_neg c1] at h
  by_cases c2 : ret = 0
  · rw [if_pos c2] at h; subst h; exact absurd rfl hok
  rw [if_neg c2] at h
  have hT1 := insertEdges_one hi c1 hid
  -- the two link requests
  have q1 : endsKept T1 (if llabs pl ≠ newedge.edge_id
      then addEdgeLinkPrev T1 pl newedge.edge_id else (T1, (0 : Int))).1 := by
    split_ifs
    · exact endsKept_addEdgeLinkPrev _ _ _
    · exact endsKept.unchanged _
  generalize (if llabs pl ≠ newedge.edge_id
      then addEdgeLinkPrev T1 pl newedge.edge_id else (T1, (0 : Int))) = u1 at h q1
  by_cases c3 : llabs pl ≠ newedge.edge_id ∧ u1.2 = -1
  · rw [if_pos c3] at h; subst h; exact absurd rfl hok
  rw [if_neg c3] at h
  have q2 : endsKept T1 (if llabs pr ≠ newedge.edge_id
      then addEdgeLinkPrev u1.1 pr (-newedge.edge_id) else (u1.1, (0 : Int))).1 := by
    split_ifs
    · exact q1.thenKept (endsKept_addEdgeLinkPrev _ _ _)
    · exact q1
  generalize (if llabs pr ≠ newedge.edge_id
      then addEdgeLinkPrev u1.1 pr (-newedge.edge_id) else (u1.1, (0 : Int))) = u2 at h q2
  by_cases c4 : llabs pr ≠ newedge.edge_id ∧ u2.2 = -1
  · rw [if_pos c4] at h; subst h; exact absurd rfl hok
  rw [if_neg c4] at h
  clear q1 c3 c4
  -- the two node requests
  rcases hn1 : (if span.was_isolated ≠ 0
      then addEdgeClearNode u2.1 newedge.start_node else (u2.1, (0 : Int))) with ⟨T3, r3⟩
  rw [hn1] at h
  dsimp only at h
  by_cases c5 : span.was_isolated ≠ 0 ∧ r3 = -1
  · rw [if_pos c5] at h; subst h; exact absurd rfl hok
  rw [if_neg c5] at h
  have hT3 : T3 = { u2.1 with nodes := u2.1.nodes.map (fun n =>
      if span.was_isolated ≠ 0 ∧ n.node_id = newedge.start_node then
        { n with containing_face := -1 } else n) } := by
    by_cases d : span.was_isolated ≠ 0
    · rw [if_pos d] at hn1
      rw [addEdgeClearNode_ok hn1 (fun k => c5 ⟨d, k⟩)]
      congr 1
      apply List.map_congr_left
      intro n _
      by_cases e : n.node_id = newedge.start_node
      · rw [if_pos e, if_pos ⟨d, e⟩]
      · rw [if_neg e, if_neg (fun k => e k.2)]
    · rw [if_neg d] at hn1
      cases hn1
      have : (fun n : RTT_ISO_NODE =>
          if span.was_isolated ≠ 0 ∧ n.node_id = newedge.start_node then
            { n with containing_face := -1 } else n) = id := by
        funext n; rw [if_neg (fun k => d k.1)]; rfl
      rw [this, List.map_id]
  rcases hn2 : (if epan.was_isolated ≠ 0
      then addEdgeClearNode T3 newedge.end_node else (T3, (0 : Int))) with ⟨T4, r4⟩
  rw [hn2] at h
  dsimp only at h
  by_cases c6 : epan.was_isolated ≠ 0 ∧ r4 = -1
  · rw [if_pos c6] at h; subst h; exact absurd rfl hok
  rw [if_neg c6] at h
  have hT4 : T4 = { T3 with nodes := T3.nodes.map (fun n =>
      if epan.was_isolated ≠ 0 ∧ n.node_id = newedge.end_node then
        { n with containing_face := -1 } else n) } := by
    by_cases d : epan.was_isolated ≠ 0
    · rw [if_pos d] at hn2
      rw [addEdgeClearNode_ok hn2 (fun k => c6 ⟨d, k⟩)]
      congr 1
      apply List.map_congr_left
      intro n _
      by_cases e : n.node_id = newedge.end_node
      · rw [if_pos e, if_pos ⟨d, e⟩]
      · rw [if_neg e, if_neg (fun k => e k.2)]
    · rw [if_neg d] at hn2
      cases hn2
      have : (fun n : RTT_ISO_NODE =>
          if epan.was_isolated ≠ 0 ∧ n.node_id = newedge.end_node then
            { n with containing_face := -1 } else n) = id := by
        funext n; rw [if_neg (fun k => d k.1)]; rfl
      rw [this, List.map_id]
  clear hn1 hn2 c5 c6 hi
  obtain ⟨kE, kN, kns, kes, kfs⟩ := q2
  have hE4 : T4.edges.map faceView = (T.edges ++ [newedge]).map faceView := by
    rw [hT4, hT3]
    show u2.1.edges.map faceView = _
    rw [kE, hT1]
  have hN4 : T4.nodes = T.nodes.map (fun n =>
      if (span.was_isolated ≠ 0 ∧ n.node_id = newedge.start_node) ∨
          (epan.was_isolated ≠ 0 ∧ n.node_id = newedge.end_node) then
        { n with containing_face := -1 } else n) := by
    rw [hT4, hT3]
    show (u2.1.nodes.map _).map _ = _
    rw [kN, hT1, List.map_map]
    apply List.map_congr_left
    intro n _
    simp only [Function.comp]
    by_cases a : span.was_isolated ≠ 0 ∧ n.node_id = newedge.start_node
    · rw [if_pos a, if_pos (Or.inl a)]
      split_ifs <;> rfl
    · rw [if_neg a]
      by_cases b : epan.was_isolated ≠ 0 ∧ n.node_id = newedge.end_node
      · rw [if_pos b, if_pos (Or.inr b)]
      · rw [if_neg b, if_neg (fun k => k.elim a b)]
  have hns4 : T4.node_seq = T.node_seq := by
    rw [hT4, hT3]; show u2.1.node_seq = _; rw [kns, hT1]
  have hes4 : T4.edge_seq = T.edge_seq := by
    rw [hT4, hT3]; show u2.1.edge_seq = _; rw [kes, hT1]
  have hfs4 : T4.face_seq = T.face_seq := by
    rw [hT4, hT3]; show u2.1.face_seq = _; rw [kfs, hT1]
  clear hT4 hT3 hT1 kE kN kns kes kfs
  have hcons := flagConsistent_of_isolation hiso
  have hpre4 : isoPre T4 := by
    refine ⟨?_, by rw [hfs4]; exact hfs, ?_⟩
    · unfold flagConsistent
      rw [hN4]
      intro n' hn' m' hm' hidm hcf
      obtain ⟨n, hn, rfl⟩ := List.mem_map.1 hn'
      obtain ⟨m, hm, rfl⟩ := List.mem_map.1 hm'
      have hid0 : n.node_id = m.node_id := by
        have e1 : ∀ x : RTT_ISO_NODE, (if (span.was_isolated ≠ 0 ∧
            x.node_id = newedge.start_node) ∨
            (epan.was_isolated ≠ 0 ∧ x.node_id = newedge.end_node) then
            { x with containing_face := -1 } else x).node_id = x.node_id := by
          intro x; split_ifs <;> rfl
        rw [e1, e1] at hidm; exact hidm
      by_cases a : (span.was_isolated ≠ 0 ∧ m.node_id = newedge.start_node) ∨
          (epan.was_isolated ≠ 0 ∧ m.node_id = newedge.end_node)
      · rw [if_pos a]
      · rw [if_neg a]
        have a' : ¬ ((span.was_isolated ≠ 0 ∧ n.node_id = newedge.start_node) ∨
            (epan.was_isolated ≠ 0 ∧ n.node_id = newedge.end_node)) := by
          rw [hid0]; exact a
        rw [if_neg a'] at hcf
        exact hcons n hn m hm hid0 hcf
    · intro e he
      obtain ⟨e0, he0, -, -, -, p4, p5⟩ := faceView_partner hE4 he
      rw [p4, p5]
      rcases List.mem_append.1 he0 with k | k
      · exact hfaces e0 k
      · rw [List.mem_singleton.1 k]; exact ⟨hfl, hfr⟩
  have hside := sideStep_addEdgeFaceSplit G T4 newedge modFace hfl hpre4
  have hlink := (linksKept_addEdgeFaceSplit G T4 newedge modFace).1
  rw [h] at hside hlink
  obtain ⟨hpreR, hNR, hnsR, hesR⟩ := hside
  refine ⟨?_, hpreR.2.2, ?_, hnsR.trans hns4, hesR.trans hes4, hpreR.2.1⟩
  · rw [linkView_endView hlink.1, faceView_endView hE4]
  · rw [hNR, hN4, List.map_map, List.map_map]
    apply List.map_congr_left
    intro n hn
    simp only [Function.comp]
    by_cases a : n.node_id = newedge.start_node ∨ n.node_id = newedge.end_node
    · rw [if_pos a]
      by_cases b : (span.was_isolated ≠ 0 ∧ n.node_id = newedge.start_node) ∨
          (epan.was_isolated ≠ 0 ∧ n.node_id = newedge.end_node)
      · rw [if_pos b]
      · rw [if_neg b]
        have hcf : n.containing_face = -1 := by
          by_contra hne
          have hfree := (hiso n hn).1 hne
          rcases a with a | a
          · by_cases z : span.was_isolated = 0
            · obtain ⟨e, he, ht⟩ := hsp z
              rw [← a] at ht
              rcases ht with t | t
              · exact (hfree e he).1 t
              · exact (hfree e he).2 t
            · by_cases z2 : n.node_id = newedge.end_node
              · by_cases z3 : epan.was_isolated = 0
                · obtain ⟨e, he, ht⟩ := hep z3
                  rw [← z2] at ht
                  rcases ht with t | t
                  · exact (hfree e he).1 t
                  · exact (hfree e he).2 t
                · exact b (Or.inr ⟨z3, z2⟩)
              · exact b (Or.inl ⟨z, a⟩)
          · by_cases z : epan.was_isolated = 0
            · obtain ⟨e, he, ht⟩ := hep z
              rw [← a] at ht
              rcases ht with t | t
              · exact (hfree e he).1 t
              · exact (hfree e he).2 t
            · exact b (Or.inr ⟨z, a⟩)
        unfold nodeFlag
        rw [hcf]
    · rw [if_neg a, if_neg (fun k => k.elim (fun k => a (Or.inl k.2)) (fun k => a (Or.inr k.2)))]

end RTTopo

namespace RTTopo

/-! ## `_rtt_AddEdge` keeps the node isolation invariant (continued) -/

theorem addEdgeLinkEnd_iso {G : GEOM} {T : RTT_TOPOLOGY} {newedge : RTT_ISO_EDGE}
    {pl : Int} {span epan : edgeend} {modFace : Bool} {R : RTT_TOPOLOGY × Int}
    (h : addEdgeLinkEnd G T newedge pl span epan modFace = R) (hok : R.2 ≠ -1)
    (hid : newedge.edge_id ≠ -1)
    (hiso : nodeIsolation T)
    (hfaces : ∀ e ∈ T.edges, e.face_left ≠ -1 ∧ e.face_right ≠ -1)
    (hfs : 0 < T.face_seq)
    (hsp : span.was_isolated = 0 →
      ∃ e ∈ T.edges, e.start_node = newedge.start_node ∨ e.end_node = newedge.start_node) :
    R.1.edges.map endView = T.edges.map endView ++
      [(newedge.edge_id, newedge.start_node, newedge.end_node)] ∧
    (∀ e ∈ R.1.edges, e.face_left ≠ -1 ∧ e.face_right ≠ -1) ∧
    R.1.nodes.map nodeFlag = (T.nodes.map (fun n =>
      if n.node_id = newedge.start_node ∨ n.node_id = newedge.end_node then
        { n with containing_face := -1 } else n)).map nodeFlag ∧
    R.1.node_seq = T.node_seq ∧ R.1.edge_seq = T.edge_seq ∧ 0 < R.1.face_seq := by
  unfold addEdgeLinkEnd at h
  dsimp only at h
  obtain ⟨hb1, hb2⟩ := findAdjacentEdges_found G T newedge.end_node epan
    (if newedge.start_node = newedge.end_node then some span else none) (-1)
  generalize _rtt_FindAdjacentEdges G T newedge.end_node epan _ (-1) = b at h hb1 hb2
  generalize (if b.2.2 ≠ 0 ∧ newedge.face_left = -1 then span.cwFace
    else newedge.face_left) = FL at h
  generalize (if b.2.2 ≠ 0 ∧ newedge.face_right = -1 then span.ccwFace
    else newedge.face_right) = FR at h
  by_cases c1 : FL ≠ FR
  · rw [if_pos c1] at h; subst h; exact absurd rfl hok
  rw [if_neg c1] at h
  by_cases c2 : FL = -1
  · rw [if_pos c2] at h; subst h; exact absurd rfl hok
  rw [if_neg c2] at h
  have c3 : FR ≠ -1 := by rw [← not_not.1 c1]; exact c2
  have e1 : b.1.edges = T.edges := by rw [hb1]
  have e2 : b.1.nodes = T.nodes := by rw [hb1]
  have e3 : b.1.node_seq = T.node_seq := by rw [hb1]
  have e4 : b.1.edge_seq = T.edge_seq := by rw [hb1]
  have e5 : b.1.face_seq = T.face_seq := by rw [hb1]
  have res := addEdgeInsert_iso h hok hid
    (by unfold nodeIsolation; rw [e1, e2]; exact hiso)
    (by rw [e1]; exact hfaces) (by rw [e5]; exact hfs) c2 c3
    (by rw [e1]; exact hsp)
    (by
      rw [e1]
      intro z
      apply hb2
      intro k
      have z' : (if b.2.2 ≠ 0 then (0 : Int) else 1) = 0 := z
      rw [if_neg (not_not.2 k)] at z'
      exact absurd z' (by decide))
  rw [e1, e2, e3, e4] at res
  refine ⟨?_, res.2.1, res.2.2.1, res.2.2.2.1, res.2.2.2.2.1, res.2.2.2.2.2⟩
  rw [res.1, List.map_append]
  rfl

theorem addEdgeLink_iso {G : GEOM} {T : RTT_TOPOLOGY} {newedge : RTT_ISO_EDGE}
    {span epan : edgeend} {modFace : Bool} {R : RTT_TOPOLOGY × Int}
    (h : addEdgeLink G T newedge span epan modFace = R) (hok : R.2 ≠ -1)
    (hid : newedge.edge_id ≠ -1)
    (hiso : nodeIsolation T)
    (hfaces : ∀ e ∈ T.edges, e.face_left ≠ -1 ∧ e.face_right ≠ -1)
    (hfs : 0 < T.face_seq) :
    R.1.edges.map endView = T.edges.map endView ++
      [(newedge.edge_id, newedge.start_node, newedge.end_node)] ∧
    (∀ e ∈ R.1.edges, e.face_left ≠ -1 ∧ e.face_right ≠ -1) ∧
    R.1.nodes.map nodeFlag = (T.nodes.map (fun n =>
      if n.node_id = newedge.start_node ∨ n.node_id = newedge.end_node then
        { n with containing_face := -1 } else n)).map nodeFlag ∧
    R.1.node_seq = T.node_seq ∧ R.1.edge_seq = T.edge_seq ∧ 0 < R.1.face_seq := by
  unfold addEdgeLink at h
  dsimp only at h
  obtain ⟨ha1, ha2⟩ := findAdjacentEdges_found G T newedge.start_node span
    (if newedge.start_node = newedge.end_node then some epan else none) (-1)
  generalize _rtt_FindAdjacentEdges G T newedge.start_node span _ (-1) = a at h ha1 ha2
  have e1 : a.1.edges = T.edges := by rw [ha1]
  have e2 : a.1.nodes = T.nodes := by rw [ha1]
  have e3 : a.1.node_seq = T.node_seq := by rw [ha1]
  have e4 : a.1.edge_seq = T.edge_seq := by rw [ha1]
  have e5 : a.1.face_seq = T.face_seq := by rw [ha1]
  have res := addEdgeLinkEnd_iso h hok hid
    (by unfold nodeIsolation; rw [e1, e2]; exact hiso)
    (by rw [e1]; exact hfaces) (by rw [e5]; exact hfs)
    (by
      rw [e1]
      intro z
      apply ha2
      intro k
      have z' : (if a.2.2 ≠ 0 then (0 : Int) else 1) = 0 := z
      rw [if_neg (not_not.2 k)] at z'
      exact absurd z' (by decide))
  rw [e1, e2, e3, e4] at res
  exact res

/-- A geometry found by the endpoint loop belongs to a fetched node with the identifier. -/
theorem addEdgeEndpoints_found (start_node end_node : Int) (l : List RTT_ISO_NODE)
    (s : RTT_TOPOLOGY × EndpointScan) :
    ((addEdgeEndpoints start_node end_node l s).2.start_node_geom ≠ none →
      s.2.start_node_geom ≠ none ∨ ∃ n ∈ l, n.node_id = start_node) ∧
    ((addEdgeEndpoints start_node end_node l s).2.end_node_geom ≠ none →
      s.2.end_node_geom ≠ none ∨ ∃ n ∈ l, n.node_id = end_node) := by
  induction l generalizing s with
  | nil => exact ⟨fun k => Or.inl k, fun k => Or.inl k⟩
  | cons node rest ih =>
    unfold addEdgeEndpoints
    dsimp only
    have hs1 : (if node.containing_face ≠ -1 then
        if s.2.face = -1 then (s.1, { s.2 with face := node.containing_face })
        else if s.2.face ≠ node.containing_face then
          (rterror s.1 "SQL/MM Spatial exception - geometry crosses an edge", s.2)
        else s
      else s).2.start_node_geom = s.2.start_node_geom ∧
      (if node.containing_face ≠ -1 then
        if s.2.face = -1 then (s.1, { s.2 with face := node.containing_face })
        else if s.2.face ≠ node.containing_face then
          (rterror s.1 "SQL/MM Spatial exception - geometry crosses an edge", s.2)
        else s
      else s).2.end_node_geom = s.2.end_node_geom := by
      split_ifs <;> exact ⟨rfl, rfl⟩
    generalize (if node.containing_face ≠ -1 then
        if s.2.face = -1 then (s.1, { s.2 with face := node.containing_face })
        else if s.2.face ≠ node.containing_face then
          (rterror s.1 "SQL/MM Spatial exception - geometry crosses an edge", s.2)
        else s
      else s) = s1 at hs1 ⊢
    have k := ih (s1.1,
      if node.node_id = end_node then
        { (if node.node_id = start_node then
            { s1.2 with start_node_geom := some node.geom } else s1.2) with
          end_node_geom := some node.geom }
      else (if node.node_id = start_node then
            { s1.2 with start_node_geom := some node.geom } else s1.2))
    constructor
    · intro q
      rcases k.1 q with z | ⟨n, hn, hid⟩
      · by_cases c : node.node_id = start_node
        · exact Or.inr ⟨node, List.mem_cons_self _ _, c⟩
        · left
          have : (if node.node_id = end_node then
              { (if node.node_id = start_node then
                  { s1.2 with start_node_geom := some node.geom } else s1.2) with
                end_node_geom := some node.geom }
            else (if node.node_id = start_node then
                  { s1.2 with start_node_geom := some node.geom }
                  else s1.2)).start_node_geom = s1.2.start_node_geom := by
            rw [if_neg c]
            split_ifs <;> rfl
          rw [← hs1.1, ← this]; exact z
      · exact Or.inr ⟨n, List.mem_cons_of_mem _ hn, hid⟩
    · intro q
      rcases k.2 q with z | ⟨n, hn, hid⟩
      · by_cases c : node.node_id = end_node
        · exact Or.inr ⟨node, List.mem_cons_self _ _, c⟩
        · left
          have : (if node.node_id = end_node then
              { (if node.node_id = start_node then
                  { s1.2 with start_node_geom := some node.geom } else s1.2) with
                end_node_geom := some node.geom }
            else (if node.node_id = start_node then
                  { s1.2 with start_node_geom := some node.geom }
                  else s1.2)).end_node_geom = s1.2.end_node_geom := by
            rw [if_neg c]
            split_ifs <;> rfl
          rw [← hs1.2, ← this]; exact z
      · exact Or.inr ⟨n, List.mem_cons_of_mem _ hn, hid⟩

/-- When the end-node checks of `_rtt_AddEdge` pass, both geometries were found. -/
theorem addEdgeNodeChecks_none {s : EndpointScan} {p1 p2 : POINT2D}
    (h : addEdgeNodeChecks s p1 p2 = none) :
    s.start_node_geom ≠ none ∧ s.end_node_geom ≠ none := by
  unfold addEdgeNodeChecks at h
  cases hs : s.start_node_geom with
  | none => rw [hs] at h; cases h
  | some pn =>
    rw [hs] at h
    dsimp only at h
    by_cases c : pn ≠ p1
    · rw [if_pos c] at h; cases h
    rw [if_neg c] at h
    cases he : s.end_node_geom with
    | none => rw [he] at h; cases h
    | some pm => exact ⟨by simp, by simp⟩

/-- The call `_rtt_AddEdge` with the checks on keeps `isoSound`. -/
theorem isoSound_AddEdge (G : GEOM) (T : RTT_TOPOLOGY) (start_node end_node : Int)
    (geom : RTLINE) (modFace : Bool) (hs : isoSound T)
    (hok : (_rtt_AddEdge G T start_node end_node geom false modFace).2 ≠ -1) :
    isoSound (_rtt_AddEdge G T start_node end_node geom false modFace).1 := by
  generalize h : _rtt_AddEdge G T start_node end_node geom false modFace = R at hok ⊢
  unfold _rtt_AddEdge at h
  by_cases c0 : false = false ∧ G.is_simple geom = false
  · rw [if_pos c0] at h; subst h; exact absurd rfl hok
  rw [if_neg c0] at h
  cases haz : addEdgeAzimuths G geom with
  | error msg => rw [haz] at h; subst h; exact absurd rfl hok
  | ok az =>
    rw [haz] at h
    dsimp only at h
    cases hn : rtt_be_getNodeById T
        (if start_node ≠ end_node then [start_node, end_node] else [start_node]) with
    | none => rw [hn] at h; subst h; exact absurd rfl hok
    | some endpoints =>
      rw [hn] at h
      dsimp only at h
      have ks := addEdgeEndpoints_state start_node end_node endpoints
        (T, { face := -1, start_node_geom := none, end_node_geom := none })
      have kf := addEdgeEndpoints_found start_node end_node endpoints
        (T, { face := -1, start_node_geom := none, end_node_geom := none })
      generalize addEdgeEndpoints start_node end_node endpoints
        (T, { face := -1, start_node_geom := none, end_node_geom := none }) = s at h ks kf
      dsimp only at ks kf
      rw [if_neg Bool.false_ne_true] at h
      cases hchk : addEdgeNodeChecks s.2 az.1 az.2.1 with
      | some msg => rw [hchk] at h; subst h; exact absurd rfl hok
      | none =>
        rw [hchk] at h
        dsimp only at h
        obtain ⟨g1, g2⟩ := addEdgeNodeChecks_none hchk
        have hsub : ∀ n ∈ endpoints, n ∈ T.nodes := by
          intro n hn'
          rw [getNodeById_some hn] at hn'
          exact (List.mem_filter.1 hn').1
        have hst : ∃ n ∈ T.nodes, n.node_id = start_node := by
          rcases kf.1 g1 with z | ⟨n, hn', hid⟩
          · exact absurd rfl z
          · exact ⟨n, hsub n hn', hid⟩
        have hen : ∃ n ∈ T.nodes, n.node_id = end_node := by
          rcases kf.2 g2 with z | ⟨n, hn', hid⟩
          · exact absurd rfl z
          · exact ⟨n, hsub n hn', hid⟩
        rw [if_neg Bool.false_ne_true] at h
        have hc0 := checkEdgeCrossing_ok G s.1 start_node end_node geom 0
        generalize _rtt_CheckEdgeCrossing G s.1 start_node end_node geom 0 = c at h hc0
        by_cases c1 : c.2 ≠ 0
        · rw [if_pos c1] at h; subst h; exact absurd rfl hok
        rw [if_neg c1] at h
        have hc1 := hc0 (not_not.1 c1)
        rcases hid : rtt_be_getNextEdgeId c.1 with ⟨T2, id⟩
        rw [hid] at h
        dsimp only at h
        by_cases c2 : id = -1
        · rw [if_pos c2] at h; subst h; exact absurd rfl hok
        rw [if_neg c2] at h
        obtain ⟨hidv, hT2⟩ := getNextEdgeId_ok hid c2
        have e1 : T2.edges = T.edges := by rw [hT2, hc1, ks]
        have e2 : T2.nodes = T.nodes := by rw [hT2, hc1, ks]
        have e3 : T2.node_seq = T.node_seq := by rw [hT2, hc1, ks]
        have e4 : T2.edge_seq = T.edge_seq + 1 := by rw [hT2, hc1, ks]
        have e5 : T2.face_seq = T.face_seq := by rw [hT2, hc1, ks]
        have hseqv : id = T.edge_seq := by rw [hidv, hc1, ks]
        obtain ⟨h1, h2, h3, h4, h5, h6, h7⟩ := hs
        have res := addEdgeLink_iso h hok c2
          (by unfold nodeIsolation; rw [e1, e2]; exact h1)
          (by rw [e1]; exact h2) (by rw [e5]; exact h7)
        dsimp only at res
        rw [e1, e2, e3, e4, hseqv] at res
        obtain ⟨rE, rF, rN, rns, res', rfs⟩ := res
        exact isoSound_addEdgeRow ⟨h1, h2, h3, h4, h5, h6, h7⟩
          { edge_id := T.edge_seq, start_node := start_node, end_node := end_node,
            face_left := 0, face_right := 0, next_left := 0, next_right := 0, geom := geom }
          rfl (by show (0 : Int) ≠ -1; decide) (by show (0 : Int) ≠ -1; decide) hst hen
          (by rw [rE, List.map_append]; rfl) rF rN rns res' rfs

end RTTopo

namespace RTTopo

/-! ## The node isolation invariant over sequences of calls -/

theorem isoSound_empty : isoSound emptyTopology := by
  refine ⟨?_, ?_, ?_, List.nodup_nil, ?_, List.nodup_nil, by decide⟩
  · intro n hn; exact absurd hn (List.not_mem_nil _)
  · intro e he; exact absurd he (List.not_mem_nil _)
  · intro e he; exact absurd he (List.not_mem_nil _)
  · intro n hn; exact absurd hn (List.not_mem_nil _)

/-- Every successful checked call keeps `isoSound`. -/
theorem isoSound_run (G : GEOM) (T : RTT_TOPOLOGY) (c : TopoCall) (hc : c.checked = true)
    (hs : isoSound T) (hok : (c.run G T).2 ≠ -1) : isoSound (c.run G T).1 := by
  cases c with
  | addIsoNode face pt skip => exact isoSound_AddIsoNode G T face pt skip hs hok
  | addIsoEdge s e geom => exact isoSound_AddIsoEdge G T s e geom hs hok
  | addEdgeModFace s e geom skip =>
    have : skip = false := by
      cases skip with
      | false => rfl
      | true =>
        have k : (!true) = true := hc
        exact absurd k (by decide)
    subst this
    exact isoSound_AddEdge G T s e geom true hs hok
  | addEdgeNewFaces s e geom skip =>
    have : skip = false := by
      cases skip with
      | false => rfl
      | true =>
        have k : (!true) = true := hc
        exact absurd k (by decide)
    subst this
    exact isoSound_AddEdge G T s e geom false hs hok
  | modEdgeSplit edge pt skip => exact isoSound_ModEdgeSplit G T edge pt skip hs hok
  | newEdgesSplit edge pt skip => exact isoSound_NewEdgesSplit G T edge pt skip hs hok
  | moveIsoNode nid pt => exact isoSound_MoveIsoNode G T nid pt hs hok
  | removeIsoNode nid => exact isoSound_RemoveIsoNode T nid hs hok
  | remIsoEdge id => exact isoSound_RemIsoEdge T id hs hok
  | remEdgeModFace edge_id => exact isoSound_RemEdge G T edge_id true hs hok
  | remEdgeNewFace edge_id => exact isoSound_RemEdge G T edge_id false hs hok
  | modEdgeHeal e1 e2 => exact isoSound_HealEdges T e1 e2 true hs hok
  | newEdgeHeal e1 e2 => exact isoSound_HealEdges T e1 e2 false hs hok

theorem isoSound_runCalls (G : GEOM) (cs : List TopoCall) :
    ∀ (T T' : RTT_TOPOLOGY), (∀ c ∈ cs, c.checked = true) → isoSound T →
      runCalls G T cs = some T' → isoSound T' := by
  induction cs with
  | nil =>
    intro T T' _ hs hr
    unfold runCalls at hr
    cases hr; exact hs
  | cons c rest ih =>
    intro T T' hc hs hr
    unfold runCalls at hr
    by_cases k : (c.run G T).2 = -1
    · rw [if_pos k] at hr; cases hr
    · rw [if_neg k] at hr
      exact ih _ T' (fun x hx => hc x (List.mem_cons_of_mem _ hx))
        (isoSound_run G T c (hc c (List.mem_cons_self _ _)) hs k) hr

/-- Claim C8, as stated, fails: from the empty topology the successful calls
`rtt_AddIsoNode(-1, (0,0))`, `rtt_AddEdgeModFace(1, 2, line, skipChecks = 1)` (node `2`
is not stored) and `rtt_AddIsoNode(-1, (5,0))` lead to a state in which node `2` has
`containing_face = 0` while edge `1` ends on it. -/
theorem node_isolation_broken_by_skipChecks :
    runCalls testKernel emptyTopology callsSkipping = some topoDanglingEnd ∧
    (∃ n ∈ topoDanglingEnd.nodes, n.node_id = 2 ∧ n.containing_face = 0 ∧
      ∃ e ∈ topoDanglingEnd.edges, e.end_node = 2) ∧
    ¬ nodeIsolation topoDanglingEnd := by
  decide

/-- Claim C8, amended: in every state reached from the empty topology by successful
calls of the thirteen editing functions in which `rtt_AddEdgeModFace` and
`rtt_AddEdgeNewFaces` are called with `skipChecks = 0`, a node has `containing_face`
set (different from `-1`) if and only if no stored edge has it as `start_node` or
`end_node`. -/
theorem node_isolation_checked (G : GEOM) (cs : List TopoCall) (T : RTT_TOPOLOGY)
    (hchecked : ∀ c ∈ cs, c.checked = true)
    (hrun : runCalls G emptyTopology cs = some T) :
    ∀ n ∈ T.nodes, n.containing_face ≠ -1 ↔
      ∀ e ∈ T.edges, e.start_node ≠ n.node_id ∧ e.end_node ≠ n.node_id :=
  (isoSound_runCalls G cs emptyTopology T hchecked isoSound_empty hrun).1

theorem node_isolation_checked_witness :
    (∀ c ∈ callsChecked, c.checked = true) ∧
    runCalls testKernel emptyTopology callsChecked = some topoCheckedEdge ∧
    ∀ n ∈ topoCheckedEdge.nodes, n.containing_face ≠ -1 ↔
      ∀ e ∈ topoCheckedEdge.edges, e.start_node ≠ n.node_id ∧ e.end_node ≠ n.node_id :=
  ⟨by decide, by decide,
    node_isolation_checked testKernel callsChecked topoCheckedEdge (by decide) (by decide)⟩

end RTTopo

namespace RTTopo

/-! ## Removing the edge that was added restores the linkage -/

/-- Effect of one link request of `_rtt_AddEdge` on a whole row. -/
theorem addEdgeLinkRow_row (prev target : Int) (e : RTT_ISO_EDGE) :
    addEdgeLinkRow prev target e =
      { e with
        next_left := if 0 < prev ∧ e.edge_id = prev then target else e.next_left
        next_right := if ¬ 0 < prev ∧ e.edge_id = -prev then target else e.next_right } := by
  unfold addEdgeLinkRow updateEdgeRow
  by_cases hp : prev > 0
  · have hp' : 0 < prev := hp
    rw [if_pos hp]
    by_cases c : e.edge_id = prev
    · have hs : edgeSelected { blankEdge with edge_id := prev } [RTT_COL_EDGE.EDGE_ID]
          blankEdge [] e = true := by
        simp [edgeSelected, edgeMatches, c]
      rw [if_pos hs]
      simp [edgeAssign, hp', c]
    · have hs : ¬ edgeSelected { blankEdge with edge_id := prev } [RTT_COL_EDGE.EDGE_ID]
          blankEdge [] e = true := by
        simp [edgeSelected, edgeMatches, c]
      rw [if_neg hs]
      simp [hp', c]
  · have hp' : ¬ 0 < prev := hp
    rw [if_neg hp]
    by_cases c : e.edge_id = -prev
    · have hs : edgeSelected { blankEdge with edge_id := -prev } [RTT_COL_EDGE.EDGE_ID]
          blankEdge [] e = true := by
        simp [edgeSelected, edgeMatches, c]
      rw [if_pos hs]
      simp [edgeAssign, hp', c]
    · have hs : ¬ edgeSelected { blankEdge with edge_id := -prev } [RTT_COL_EDGE.EDGE_ID]
          blankEdge [] e = true := by
        simp [edgeSelected, edgeMatches, c]
      rw [if_neg hs]
      simp [hp', c]

/-- The edge table after the insertion and the two link requests, row by row. -/
theorem addEdgeEdges_rows_eq (es : List RTT_ISO_EDGE) (N : RTT_ISO_EDGE) (pl pr : Int) :
    addEdgeEdges es N pl pr = (es ++ [N]).map (addEdgeRow N.edge_id pl pr) := by
  unfold addEdgeEdges
  by_cases h1 : llabs pl ≠ N.edge_id <;> by_cases h2 : llabs pr ≠ N.edge_id
  · rw [if_pos h1, if_pos h2, List.map_map]
    apply List.map_congr_left
    intro e _
    simp only [Function.comp, addEdgeLinkRow_row, addEdgeRow]
    cases e
    simp only [RTT_ISO_EDGE.mk.injEq, true_and, h1, h2, not_false_eq_true, ne_eq]
  · rw [if_pos h1, if_neg h2]
    show List.map _ _ = _
    apply List.map_congr_left
    intro e _
    simp only [addEdgeLinkRow_row, addEdgeRow]
    cases e
    simp only [RTT_ISO_EDGE.mk.injEq, true_and, h1, h2, not_false_eq_true, ne_eq, false_and,
      if_false]
  · rw [if_neg h1, if_pos h2]
    show List.map _ _ = _
    apply List.map_congr_left
    intro e _
    simp only [addEdgeLinkRow_row, addEdgeRow]
    cases e
    simp only [RTT_ISO_EDGE.mk.injEq, true_and, h1, h2, not_false_eq_true, ne_eq, false_and,
      if_false]
  · rw [if_neg h1, if_neg h2]
    show _ = List.map _ _
    rw [← List.map_id (es ++ [N])]
    rw [List.map_map]
    apply List.map_congr_left
    intro e _
    simp only [addEdgeRow, Function.comp, id]
    cases e
    simp only [RTT_ISO_EDGE.mk.injEq, true_and, h1, h2, false_and, if_false, and_self]

/-- Arithmetic of undoing the link on `next_left`: the row that was given `-k` or `k` as
successor gets back the successor it had. -/
theorem remEdge_addEdge_left (k id pl pr nl nr x : Int) (hk : 0 < k) (hid : id ≠ k)
    (hx : x ≠ k ∧ x ≠ -k)
    (h2 : llabs pr ≠ k → 0 < pr → id = pr → x = if nl ≠ k then nl else nr)
    (h1 : llabs pl ≠ k → 0 < pl → id = pl → x = if nr ≠ -k then nr else nl) :
    (if id ≠ k ∧ (if llabs pr ≠ k ∧ 0 < pr ∧ id = pr then -k
          else if llabs pl ≠ k ∧ 0 < pl ∧ id = pl then k else x) = -k then
        (if nl ≠ k then nl else nr)
      else if id ≠ k ∧ (if llabs pr ≠ k ∧ 0 < pr ∧ id = pr then -k
          else if llabs pl ≠ k ∧ 0 < pl ∧ id = pl then k else x) = k then
        (if nr ≠ -k then nr else nl)
      else (if llabs pr ≠ k ∧ 0 < pr ∧ id = pr then -k
          else if llabs pl ≠ k ∧ 0 < pl ∧ id = pl then k else x)) = x := by
  by_cases c1 : llabs pr ≠ k ∧ 0 < pr ∧ id = pr
  · rw [if_pos c1, if_pos ⟨hid, rfl⟩]
    exact (h2 c1.1 c1.2.1 c1.2.2).symm
  · rw [if_neg c1]
    by_cases c2 : llabs pl ≠ k ∧ 0 < pl ∧ id = pl
    · rw [if_pos c2]
      have hne : ¬ (id ≠ k ∧ k = -k) := by
        intro h; omega
      rw [if_neg hne, if_pos ⟨hid, rfl⟩]
      exact (h1 c2.1 c2.2.1 c2.2.2).symm
    · rw [if_neg c2]
      rw [if_neg (fun h => hx.2 h.2), if_neg (fun h => hx.1 h.2)]

/-- Arithmetic of undoing the link on `next_right`. -/
theorem remEdge_addEdge_right (k id pl pr nl nr x : Int) (hk : 0 < k) (hid : id ≠ k)
    (hx : x ≠ k ∧ x ≠ -k)
    (h2 : llabs pr ≠ k → ¬ 0 < pr → id = -pr → x = if nl ≠ k then nl else nr)
    (h1 : llabs pl ≠ k → ¬ 0 < pl → id = -pl → x = if nr ≠ -k then nr else nl) :
    (if id ≠ k ∧ (if llabs pr ≠ k ∧ ¬ 0 < pr ∧ id = -pr then -k
          else if llabs pl ≠ k ∧ ¬ 0 < pl ∧ id = -pl then k else x) = -k then
        (if nl ≠ k then nl else nr)
      else if id ≠ k ∧ (if llabs pr ≠ k ∧ ¬ 0 < pr ∧ id = -pr then -k
          else if llabs pl ≠ k ∧ ¬ 0 < pl ∧ id = -pl then k else x) = k then
        (if nr ≠ -k then nr else nl)
      else (if llabs pr ≠ k ∧ ¬ 0 < pr ∧ id = -pr then -k
          else if llabs pl ≠ k ∧ ¬ 0 < pl ∧ id = -pl then k else x)) = x := by
  by_cases c1 : llabs pr ≠ k ∧ ¬ 0 < pr ∧ id = -pr
  · rw [if_pos c1, if_pos ⟨hid, rfl⟩]
    exact (h2 c1.1 c1.2.1 c1.2.2).symm
  · rw [if_neg c1]
    by_cases c2 : llabs pl ≠ k ∧ ¬ 0 < pl ∧ id = -pl
    · rw [if_pos c2]
      have hne : ¬ (id ≠ k ∧ k = -k) := by
        intro h; omega
      rw [if_neg hne, if_pos ⟨hid, rfl⟩]
      exact (h1 c2.1 c2.2.1 c2.2.2).symm
    · rw [if_neg c2]
      rw [if_neg (fun h => hx.2 h.2), if_neg (fun h => hx.1 h.2)]

/-- Removing the edge `k` that `_rtt_AddEdge` inserted and linked gives back the edge
table as it was, when the rows that were linked to `k` had the successors the removal
writes back. -/
theorem remEdge_addEdge_rows {es : List RTT_ISO_EDGE} (N : RTT_ISO_EDGE) (pl pr : Int)
    (hlink : RingLinked es) (hk : ∀ x ∈ es, x.edge_id < N.edge_id) (hk0 : 0 < N.edge_id)
    (hd1 : llabs pl ≠ N.edge_id →
      nextEdge es pl = if N.next_right ≠ -N.edge_id then N.next_right else N.next_left)
    (hd2 : llabs pr ≠ N.edge_id →
      nextEdge es pr = if N.next_left ≠ N.edge_id then N.next_left else N.next_right)
    (Nk : RTT_ISO_EDGE) (h1 : Nk.edge_id = N.edge_id) (h2 : Nk.next_left = N.next_left)
    (h3 : Nk.next_right = N.next_right) :
    remEdgeEdges (addEdgeEdges es N pl pr) Nk = es := by
  rw [addEdgeEdges_rows_eq]
  unfold remEdgeEdges
  rw [List.map_map, List.map_append, List.filter_append]
  have hlast : List.filter (fun e => !decide (e.edge_id = Nk.edge_id))
      (List.map (remEdgeRow Nk Nk.edge_id ∘ addEdgeRow N.edge_id pl pr) [N]) = [] := by
    simp only [List.map_cons, List.map_nil, Function.comp]
    rw [List.filter_cons_of_neg]
    · rfl
    · simp only [remEdgeRow, addEdgeRow, h1, decide_True, Bool.not_true, Bool.false_eq_true,
        not_false_eq_true]
  rw [hlast, List.append_nil]
  have hnd := hlink.2.1
  have hmap : List.map (remEdgeRow Nk Nk.edge_id ∘ addEdgeRow N.edge_id pl pr) es = es := by
    conv_rhs => rw [← List.map_id es]
    apply List.map_congr_left
    intro e he
    obtain ⟨p0, p1, p2, p3, p4, p5⟩ := hlink.row_facts he hk
    have hid : e.edge_id ≠ N.edge_id := by omega
    have hL := remEdge_addEdge_left N.edge_id e.edge_id pl pr N.next_left N.next_right
      e.next_left hk0 hid ⟨by omega, by omega⟩
      (fun a b c => by
        rw [← hd2 a, ← c]; exact (nextEdge_pos hnd he p0).symm)
      (fun a b c => by
        rw [← hd1 a, ← c]; exact (nextEdge_pos hnd he p0).symm)
    have hR := remEdge_addEdge_right N.edge_id e.edge_id pl pr N.next_left N.next_right
      e.next_right hk0 hid ⟨by omega, by omega⟩
      (fun a b c => by
        have c' : pr = -e.edge_id := by omega
        rw [← hd2 a, c']; exact (nextEdge_neg hnd he p0).symm)
      (fun a b c => by
        have c' : pl = -e.edge_id := by omega
        rw [← hd1 a, c']; exact (nextEdge_neg hnd he p0).symm)
    have hrow : ∀ a b : Int, a = e.next_left → b = e.next_right →
        ({ e with next_left := a, next_right := b } : RTT_ISO_EDGE) = e := by
      intro a b ha hb
      subst ha hb
      rfl
    simp only [Function.comp, id, remEdgeRow, addEdgeRow, h1, h2, h3]
    exact hrow _ _ hL hR
  rw [hmap]
  apply List.filter_eq_self.2
  intro e he
  have := hk e he
  simp only [h1, Bool.not_eq_true', decide_eq_false_iff_not]
  omega

end RTTopo

namespace RTTopo

/-! ## The faces reported by `_rtt_FindAdjacentEdges` -/

theorem sideFace_pos {es : List RTT_ISO_EDGE} {e : RTT_ISO_EDGE}
    (hnd : (es.map (fun e => e.edge_id)).Nodup) (he : e ∈ es) (hp : 0 < e.edge_id) :
    sideFace es e.edge_id = e.face_left := by
  unfold sideFace
  rw [if_pos hp, edgeRow_of_mem hnd he]
  dsimp only
  rw [if_pos hp]

theorem sideFace_neg {es : List RTT_ISO_EDGE} {e : RTT_ISO_EDGE}
    (hnd : (es.map (fun e => e.edge_id)).Nodup) (he : e ∈ es) (hp : 0 < e.edge_id) :
    sideFace es (-e.edge_id) = e.face_right := by
  unfold sideFace
  have h : ¬ 0 < -e.edge_id := by omega
  rw [if_neg h, neg_neg, edgeRow_of_mem hnd he]
  dsimp only
  rw [if_neg h]

/-- A property of the scan data that every update from a stored row keeps holds of the
answer of `_rtt_FindAdjacentEdges`. -/
theorem findAdjacentLoop_carries (G : GEOM) (P : edgeend → Prop) (node myedge_id : Int)
    (edges : List RTT_ISO_EDGE)
    (hstep : ∀ e ∈ edges, ∀ (azdif : Int) (s : AdjScan), P s.data →
      P (adjUpdate e.edge_id e.face_left e.face_right azdif s).data ∧
      P (adjUpdate (-e.edge_id) e.face_right e.face_left azdif s).data)
    (s : AdjScan) (hs : P s.data) :
    P (findAdjacentLoop G node myedge_id edges s).1.data := by
  induction edges generalizing s with
  | nil => exact hs
  | cons edge rest ih =>
    have hrest : ∀ e ∈ rest, ∀ (azdif : Int) (s : AdjScan), P s.data →
        P (adjUpdate e.edge_id e.face_left e.face_right azdif s).data ∧
        P (adjUpdate (-e.edge_id) e.face_right e.face_left azdif s).data :=
      fun e he => hstep e (List.mem_cons_of_mem _ he)
    have hedge := hstep edge (List.mem_cons_self _ _)
    unfold findAdjacentLoop
    by_cases c0 : edge.edge_id = myedge_id
    · rw [if_pos c0]; exact ih hrest s hs
    · rw [if_neg c0]
      by_cases c1 : (rtgeom_remove_repeated_points edge.geom).length < 2
      · rw [if_pos c1]; exact hs
      · rw [if_neg c1]
        have k : P (findAdjacentStart G node edge
            (rtgeom_remove_repeated_points edge.geom) s).1.data := by
          unfold findAdjacentStart
          split_ifs
          · split
            · exact hs
            · exact (hedge _ s hs).1
          · exact hs
        rcases h1 : findAdjacentStart G node edge
          (rtgeom_remove_repeated_points edge.geom) s with ⟨s1, _ | msg⟩
        · rw [h1] at k
          dsimp only at k ⊢
          have k' : P (findAdjacentEnd G node edge
              (rtgeom_remove_repeated_points edge.geom) s1).1.data := by
            unfold findAdjacentEnd
            split_ifs
            · split
              · exact k
              · exact (hedge _ s1 k).2
            · exact k
          rcases h2 : findAdjacentEnd G node edge
            (rtgeom_remove_repeated_points edge.geom) s1 with ⟨s2, _ | msg⟩
          · rw [h2] at k'
            dsimp only at k' ⊢
            exact ih hrest s2 k'
          · rw [h2] at k'
            exact k'
        · rw [h1] at k
          exact k

theorem findAdjacentEdges_carries (G : GEOM) (T : RTT_TOPOLOGY) (P : edgeend → Prop)
    (node : Int) (data : edgeend) (other : Option edgeend) (myedge_id : Int)
    (hstep : ∀ e ∈ T.edges, ∀ (azdif : Int) (s : AdjScan), P s.data →
      P (adjUpdate e.edge_id e.face_left e.face_right azdif s).data ∧
      P (adjUpdate (-e.edge_id) e.face_right e.face_left azdif s).data)
    (h0 : P { data with nextCW := 0, nextCCW := 0, cwFace := -1, ccwFace := -1 }) :
    P (_rtt_FindAdjacentEdges G T node data other myedge_id).2.1 := by
  unfold _rtt_FindAdjacentEdges
  dsimp only
  cases hg : rtt_be_getEdgeByNode T [node] with
  | none => exact h0
  | some edges =>
    dsimp only
    have hsub : ∀ e ∈ edges, e ∈ T.edges := by
      intro e he
      rw [getEdgeByNode_some hg] at he
      exact (List.mem_filter.1 he).1
    have k := findAdjacentLoop_carries G P node myedge_id edges
      (fun e he => hstep e (hsub e he))
      { data := { data with nextCW := 0, nextCCW := 0, cwFace := -1, ccwFace := -1 },
        minaz := (adjInitialAz G data other),
        maxaz := (adjInitialAz G data other) } h0
    rcases hl : findAdjacentLoop G node myedge_id edges
      { data := { data with nextCW := 0, nextCCW := 0, cwFace := -1, ccwFace := -1 },
        minaz := (adjInitialAz G data other),
        maxaz := (adjInitialAz G data other) } with ⟨s1, _ | msg⟩
    · rw [hl] at k
      dsimp only at k ⊢
      split_ifs <;> exact k
    · rw [hl] at k
      exact k

theorem adjUpdate_faces (es : List RTT_ISO_EDGE) (sid cw ccw azdif : Int) (s : AdjScan)
    (h0 : sid ≠ 0) (hcw : cw = sideFace es sid) (hccw : ccw = sideFace es (-sid))
    (hs : neighbourFaces es s.data) :
    neighbourFaces es (adjUpdate sid cw ccw azdif s).data := by
  unfold adjUpdate
  by_cases c1 : s.minaz = -1
  · rw [if_pos c1]
    exact ⟨by dsimp only; rw [if_neg h0]; exact hcw, by dsimp only; rw [if_neg h0]; exact hccw⟩
  rw [if_neg c1]
  by_cases c2 : azdif < s.minaz
  · rw [if_pos c2]
    exact ⟨by dsimp only; rw [if_neg h0]; exact hcw, hs.2⟩
  rw [if_neg c2]
  by_cases c3 : azdif > s.maxaz
  · rw [if_pos c3]
    exact ⟨hs.1, by dsimp only; rw [if_neg h0]; exact hccw⟩
  rw [if_neg c3]
  exact hs

/-- The faces `_rtt_FindAdjacentEdges` reports are those stored on the neighbours it
names. -/
theorem findAdjacentEdges_faces (G : GEOM) (T : RTT_TOPOLOGY) (node : Int) (data : edgeend)
    (other : Option edgeend) (myedge_id : Int)
    (hpos : ∀ e ∈ T.edges, 0 < e.edge_id)
    (hnd : (T.edges.map (fun e => e.edge_id)).Nodup) :
    neighbourFaces T.edges (_rtt_FindAdjacentEdges G T node data other myedge_id).2.1 := by
  apply findAdjacentEdges_carries G T (neighbourFaces T.edges)
  · intro e he azdif s hs
    have hp := hpos e he
    have h1 := sideFace_pos hnd he hp
    have h2 := sideFace_neg hnd he hp
    constructor
    · exact adjUpdate_faces T.edges _ _ _ _ s (by omega) h1.symm h2.symm hs
    · exact adjUpdate_faces T.edges _ _ _ _ s (by omega) h2.symm
        (by rw [neg_neg]; exact h1.symm) hs
  · exact ⟨by rw [if_pos rfl], by rw [if_pos rfl]⟩

end RTTopo

namespace RTTopo

/-! ## The rows written by `_rtt_AddFaceSplit` -/

/-- By-id updates of `face_left` with rows that carry `nf`, on one row. -/
theorem foldl_faceLeft_row (nf : Int) (rows : List RTT_ISO_EDGE)
    (hrows : ∀ u ∈ rows, u.face_left = nf) (x : RTT_ISO_EDGE) :
    rows.foldl (fun acc r => if acc.edge_id = r.edge_id
        then edgeAssign r [RTT_COL_EDGE.FACE_LEFT] acc else acc) x =
      { x with face_left :=
          if x.edge_id ∈ rows.map (fun u => u.edge_id) then nf else x.face_left } := by
  induction rows generalizing x with
  | nil => rfl
  | cons u rest ih =>
    rw [List.foldl_cons, ih (fun v hv => hrows v (List.mem_cons_of_mem _ hv))]
    have hu := hrows u (List.mem_cons_self _ _)
    by_cases c : x.edge_id = u.edge_id
    · rw [if_pos c]
      have hm : x.edge_id ∈ (u :: rest).map (fun u => u.edge_id) := by
        rw [List.map_cons, c]; exact List.mem_cons_self _ _
      rw [if_pos hm]
      simp only [edgeAssign, List.mem_singleton, reduceCtorEq, if_false, if_true, hu,
        ite_self]
    · rw [if_neg c]
      have hm : x.edge_id ∈ (u :: rest).map (fun u => u.edge_id) ↔
          x.edge_id ∈ rest.map (fun u => u.edge_id) := by
        rw [List.map_cons, List.mem_cons]
        exact ⟨fun h => h.resolve_left c, Or.inr⟩
      simp only [hm]

/-- By-id updates of `face_right` with rows that carry `nf`, on one row. -/
theorem foldl_faceRight_row (nf : Int) (rows : List RTT_ISO_EDGE)
    (hrows : ∀ u ∈ rows, u.face_right = nf) (x : RTT_ISO_EDGE) :
    rows.foldl (fun acc r => if acc.edge_id = r.edge_id
        then edgeAssign r [RTT_COL_EDGE.FACE_RIGHT] acc else acc) x =
      { x with face_right :=
          if x.edge_id ∈ rows.map (fun u => u.edge_id) then nf else x.face_right } := by
  induction rows generalizing x with
  | nil => rfl
  | cons u rest ih =>
    rw [List.foldl_cons, ih (fun v hv => hrows v (List.mem_cons_of_mem _ hv))]
    have hu := hrows u (List.mem_cons_self _ _)
    by_cases c : x.edge_id = u.edge_id
    · rw [if_pos c]
      have hm : x.edge_id ∈ (u :: rest).map (fun u => u.edge_id) := by
        rw [List.map_cons, c]; exact List.mem_cons_self _ _
      rw [if_pos hm]
      simp only [edgeAssign, List.mem_singleton, reduceCtorEq, if_false, if_true, hu,
        ite_self]
    · rw [if_neg c]
      have hm : x.edge_id ∈ (u :: rest).map (fun u => u.edge_id) ↔
          x.edge_id ∈ rest.map (fun u => u.edge_id) := by
        rw [List.map_cons, List.mem_cons]
        exact ⟨fun h => h.resolve_left c, Or.inr⟩
      simp only [hm]

/-- The two by-id requests of `_rtt_AddFaceSplit` on the edge table. -/
theorem faceSplit_updates (nf : Int) (fw bw : List RTT_ISO_EDGE)
    (hfw : ∀ u ∈ fw, u.face_left = nf) (hbw : ∀ u ∈ bw, u.face_right = nf)
    (es : List RTT_ISO_EDGE) :
    bw.foldl (updateEdgeById [RTT_COL_EDGE.FACE_RIGHT])
        (fw.foldl (updateEdgeById [RTT_COL_EDGE.FACE_LEFT]) es) =
      es.map (faceSplitRow nf (fw.map (fun u => u.edge_id)) (bw.map (fun u => u.edge_id))) := by
  rw [foldl_updateEdgeById, foldl_updateEdgeById, List.map_map]
  apply List.map_congr_left
  intro e _
  simp only [Function.comp]
  rw [foldl_faceLeft_row nf fw hfw, foldl_faceRight_row nf bw hbw]
  rfl

/-- By-id updates of `containing_face` with rows that carry `nf`. -/
theorem faceSplit_node_updates (nf : Int) (rows : List RTT_ISO_NODE)
    (hrows : ∀ u ∈ rows, u.containing_face = nf) (ns : List RTT_ISO_NODE) :
    rows.foldl (updateNodeById [RTT_COL_NODE.CONTAINING_FACE]) ns =
      ns.map (faceSplitNode nf (rows.map (fun u => u.node_id))) := by
  induction rows generalizing ns with
  | nil =>
    rw [List.foldl_nil]
    conv_lhs => rw [← List.map_id ns]
    apply List.map_congr_left
    intro n _
    simp [faceSplitNode]
  | cons u rest ih =>
    rw [List.foldl_cons, ih (fun v hv => hrows v (List.mem_cons_of_mem _ hv))]
    have hu := hrows u (List.mem_cons_self _ _)
    unfold updateNodeById
    rw [List.map_map]
    apply List.map_congr_left
    intro n _
    simp only [Function.comp]
    by_cases c : n.node_id = u.node_id
    · rw [if_pos c]
      simp only [faceSplitNode, nodeAssign, List.mem_singleton, reduceCtorEq, if_false,
        if_true, hu, ite_self, List.map_cons, c, List.mem_cons, true_or, List.not_mem_nil,
        or_false, false_or]
    · rw [if_neg c]
      have hm : n.node_id ∈ (u :: rest).map (fun u => u.node_id) ↔
          n.node_id ∈ rest.map (fun u => u.node_id) := by
        rw [List.map_cons, List.mem_cons]
        exact ⟨fun h => h.resolve_left c, Or.inr⟩
      simp only [faceSplitNode, hm]

end RTTopo

namespace RTTopo

/-! ## What the edge scan of `_rtt_AddFaceSplit` collects -/

/-- The inner loop over the ring for one row `e`: rows are only added, an added row has
the identifier of `e`, a forward row stands for `e` in the ring and a backward row for its
reverse, a side that is in the ring alone is found, and without a hit neither side is in
the ring. -/
theorem ringHits_facts (e : RTT_ISO_EDGE) (nf : Int) (sids : List Int) (found : Nat)
    (s : FaceSplitScan) :
    (∀ u ∈ s.forward_edges, u ∈ (ringHits e nf sids found s).2.forward_edges) ∧
    (∀ u ∈ s.backward_edges, u ∈ (ringHits e nf sids found s).2.backward_edges) ∧
    (∀ u ∈ (ringHits e nf sids found s).2.forward_edges,
      u ∈ s.forward_edges ∨ (u.edge_id = e.edge_id ∧ e.edge_id ∈ sids)) ∧
    (∀ u ∈ (ringHits e nf sids found s).2.backward_edges,
      u ∈ s.backward_edges ∨ (u.edge_id = e.edge_id ∧ -e.edge_id ∈ sids)) ∧
    (e.edge_id ∈ sids → -e.edge_id ∉ sids →
      ∃ u ∈ (ringHits e nf sids found s).2.forward_edges, u.edge_id = e.edge_id) ∧
    (-e.edge_id ∈ sids → e.edge_id ∉ sids →
      ∃ u ∈ (ringHits e nf sids found s).2.backward_edges, u.edge_id = e.edge_id) ∧
    found ≤ (ringHits e nf sids found s).1 ∧
    ((ringHits e nf sids found s).1 = found → e.edge_id ∉ sids ∧ -e.edge_id ∉ sids) := by
  induction sids generalizing found s with
  | nil =>
    unfold ringHits
    refine ⟨fun u hu => hu, fun u hu => hu, fun u hu => Or.inl hu, fun u hu => Or.inl hu,
      fun h => absurd h (List.not_mem_nil _), fun h => absurd h (List.not_mem_nil _),
      Nat.le_refl _, fun _ => ⟨List.not_mem_nil _, List.not_mem_nil _⟩⟩
  | cons seid rest ih =>
    unfold ringHits
    by_cases c1 : seid = e.edge_id
    · rw [if_pos c1]
      dsimp only
      have hnew : ({ blankEdge with edge_id := e.edge_id, face_left := nf } : RTT_ISO_EDGE) ∈
          s.forward_edges ++ [{ blankEdge with edge_id := e.edge_id, face_left := nf }] :=
        List.mem_append_right _ (List.mem_singleton.2 rfl)
      have hin : e.edge_id ∈ seid :: rest := by rw [c1]; exact List.mem_cons_self _ _
      by_cases c2 : found + 1 = 2
      · rw [if_pos c2]
        dsimp only
        refine ⟨fun u hu => List.mem_append_left _ hu, fun u hu => hu, ?_,
          fun u hu => Or.inl hu, fun _ _ => ⟨_, hnew, rfl⟩, fun _ h => absurd hin h,
          by omega, fun h => by omega⟩
        intro u hu
        rcases List.mem_append.1 hu with k | k
        · exact Or.inl k
        · rw [List.mem_singleton.1 k]; exact Or.inr ⟨rfl, hin⟩
      · rw [if_neg c2]
        obtain ⟨i1, i2, i3, i4, _, _, i7, _⟩ := ih (found + 1)
          { s with forward_edges :=
            s.forward_edges ++ [{ blankEdge with edge_id := e.edge_id, face_left := nf }] }
        refine ⟨fun u hu => i1 u (List.mem_append_left _ hu), i2, ?_, ?_,
          fun _ _ => ⟨_, i1 _ hnew, rfl⟩, fun _ h => absurd hin h, Nat.le_of_succ_le i7,
          fun h => absurd (Nat.lt_of_lt_of_eq i7 h) (Nat.lt_irrefl _)⟩
        · intro u hu
          rcases i3 u hu with k | k
          · rcases List.mem_append.1 k with k | k
            · exact Or.inl k
            · rw [List.mem_singleton.1 k]; exact Or.inr ⟨rfl, hin⟩
          · exact Or.inr ⟨k.1, List.mem_cons_of_mem _ k.2⟩
        · intro u hu
          rcases i4 u hu with k | k
          · exact Or.inl k
          · exact Or.inr ⟨k.1, List.mem_cons_of_mem _ k.2⟩
    · rw [if_neg c1]
      by_cases c3 : -seid = e.edge_id
      · rw [if_pos c3]
        dsimp only
        have hnew : ({ blankEdge with edge_id := e.edge_id, face_right := nf } : RTT_ISO_EDGE) ∈
            s.backward_edges ++ [{ blankEdge with edge_id := e.edge_id, face_right := nf }] :=
          List.mem_append_right _ (List.mem_singleton.2 rfl)
        have hin : -e.edge_id ∈ seid :: rest := by
          have : seid = -e.edge_id := by omega
          rw [this]; exact List.mem_cons_self _ _
        by_cases c2 : found + 1 = 2
        · rw [if_pos c2]
          dsimp only
          refine ⟨fun u hu => hu, fun u hu => List.mem_append_left _ hu,
            fun u hu => Or.inl hu, ?_, fun _ h => absurd hin h, fun _ _ => ⟨_, hnew, rfl⟩,
            by omega, fun h => by omega⟩
          intro u hu
          rcases List.mem_append.1 hu with k | k
          · exact Or.inl k
          · rw [List.mem_singleton.1 k]; exact Or.inr ⟨rfl, hin⟩
        · rw [if_neg c2]
          obtain ⟨i1, i2, i3, i4, _, _, i7, _⟩ := ih (found + 1)
            { s with backward_edges :=
              s.backward_edges ++ [{ blankEdge with edge_id := e.edge_id, face_right := nf }] }
          refine ⟨i1, fun u hu => i2 u (List.mem_append_left _ hu), ?_, ?_,
            fun _ h => absurd hin h, fun _ _ => ⟨_, i2 _ hnew, rfl⟩, Nat.le_of_succ_le i7,
            fun h => absurd (Nat.lt_of_lt_of_eq i7 h) (Nat.lt_irrefl _)⟩
          · intro u hu
            rcases i3 u hu with k | k
            · exact Or.inl k
            · exact Or.inr ⟨k.1, List.mem_cons_of_mem _ k.2⟩
          · intro u hu
            rcases i4 u hu with k | k
            · rcases List.mem_append.1 k with k | k
              · exact Or.inl k
              · rw [List.mem_singleton.1 k]; exact Or.inr ⟨rfl, hin⟩
            · exact Or.inr ⟨k.1, List.mem_cons_of_mem _ k.2⟩
      · rw [if_neg c3]
        obtain ⟨i1, i2, i3, i4, i5, i6, i7, i8⟩ := ih found s
        have n1 : e.edge_id ≠ seid := fun h => c1 h.symm
        have n2 : -e.edge_id ≠ seid := fun h => c3 (by omega)
        refine ⟨i1, i2, ?_, ?_, ?_, ?_, i7, ?_⟩
        · intro u hu
          rcases i3 u hu with k | k
          · exact Or.inl k
          · exact Or.inr ⟨k.1, List.mem_cons_of_mem _ k.2⟩
        · intro u hu
          rcases i4 u hu with k | k
          · exact Or.inl k
          · exact Or.inr ⟨k.1, List.mem_cons_of_mem _ k.2⟩
        · intro a b
          exact i5 ((List.mem_cons.1 a).resolve_left n1)
            (fun h => b (List.mem_cons_of_mem _ h))
        · intro a b
          exact i6 ((List.mem_cons.1 a).resolve_left n2)
            (fun h => b (List.mem_cons_of_mem _ h))
        · intro h
          obtain ⟨k1, k2⟩ := i8 h
          exact ⟨fun a => k1 ((List.mem_cons.1 a).resolve_left n1),
            fun a => k2 ((List.mem_cons.1 a).resolve_left n2)⟩

/-- The edge loop of `_rtt_AddFaceSplit`: rows are only added; a forward row stands for a
scanned edge that is in the ring or has the old face on its left, a backward row for one
whose reverse is in the ring or that has the old face on its right; and a scanned edge
with one side in the ring alone gets its row. -/
theorem faceSplitEdges_facts (G : GEOM) (shell : POINTARRAY) (sids : List Int)
    (face nf : Int) (outside : Bool) (l : List RTT_ISO_EDGE) (s res : FaceSplitScan)
    (h : faceSplitEdges G shell sids face nf outside l s = .ok res) :
    (∀ u ∈ s.forward_edges, u ∈ res.forward_edges) ∧
    (∀ u ∈ s.backward_edges, u ∈ res.backward_edges) ∧
    (∀ u ∈ res.forward_edges, u ∈ s.forward_edges ∨
      ∃ e ∈ l, u.edge_id = e.edge_id ∧
        (e.edge_id ∈ sids ∨ (e.edge_id ∉ sids ∧ -e.edge_id ∉ sids ∧ e.face_left = face))) ∧
    (∀ u ∈ res.backward_edges, u ∈ s.backward_edges ∨
      ∃ e ∈ l, u.edge_id = e.edge_id ∧
        (-e.edge_id ∈ sids ∨ (e.edge_id ∉ sids ∧ -e.edge_id ∉ sids ∧ e.face_right = face))) ∧
    (∀ e ∈ l, e.edge_id ∈ sids → -e.edge_id ∉ sids →
      ∃ u ∈ res.forward_edges, u.edge_id = e.edge_id) ∧
    (∀ e ∈ l, -e.edge_id ∈ sids → e.edge_id ∉ sids →
      ∃ u ∈ res.backward_edges, u.edge_id = e.edge_id) := by
  induction l generalizing s with
  | nil =>
    unfold faceSplitEdges at h
    cases h
    exact ⟨fun u hu => hu, fun u hu => hu, fun u hu => Or.inl hu, fun u hu => Or.inl hu,
      fun e he => absurd he (List.not_mem_nil _), fun e he => absurd he (List.not_mem_nil _)⟩
  | cons e rest ih =>
    unfold faceSplitEdges at h
    dsimp only at h
    obtain ⟨r1, r2, r3, r4, r5, r6, _, r8⟩ := ringHits_facts e nf sids 0 s
    -- what the recursive call gives, lifted over the head row
    have lift : ∀ s' : FaceSplitScan,
        faceSplitEdges G shell sids face nf outside rest s' = .ok res →
        (∀ u ∈ s.forward_edges, u ∈ s'.forward_edges) →
        (∀ u ∈ s.backward_edges, u ∈ s'.backward_edges) →
        (∀ u ∈ s'.forward_edges, u ∈ s.forward_edges ∨ (u.edge_id = e.edge_id ∧
          (e.edge_id ∈ sids ∨ (e.edge_id ∉ sids ∧ -e.edge_id ∉ sids ∧ e.face_left = face)))) →
        (∀ u ∈ s'.backward_edges, u ∈ s.backward_edges ∨ (u.edge_id = e.edge_id ∧
          (-e.edge_id ∈ sids ∨
            (e.edge_id ∉ sids ∧ -e.edge_id ∉ sids ∧ e.face_right = face)))) →
        (e.edge_id ∈ sids → -e.edge_id ∉ sids →
          ∃ u ∈ s'.forward_edges, u.edge_id = e.edge_id) →
        (-e.edge_id ∈ sids → e.edge_id ∉ sids →
          ∃ u ∈ s'.backward_edges, u.edge_id = e.edge_id) →
        (∀ u ∈ s.forward_edges, u ∈ res.forward_edges) ∧
        (∀ u ∈ s.backward_edges, u ∈ res.backward_edges) ∧
        (∀ u ∈ res.forward_edges, u ∈ s.forward_edges ∨
          ∃ e' ∈ e :: rest, u.edge_id = e'.edge_id ∧
            (e'.edge_id ∈ sids ∨
              (e'.edge_id ∉ sids ∧ -e'.edge_id ∉ sids ∧ e'.face_left = face))) ∧
        (∀ u ∈ res.backward_edges, u ∈ s.backward_edges ∨
          ∃ e' ∈ e :: rest, u.edge_id = e'.edge_id ∧
            (-e'.edge_id ∈ sids ∨
              (e'.edge_id ∉ sids ∧ -e'.edge_id ∉ sids ∧ e'.face_right = face))) ∧
        (∀ e' ∈ e :: rest, e'.edge_id ∈ sids → -e'.edge_id ∉ sids →
          ∃ u ∈ res.forward_edges, u.edge_id = e'.edge_id) ∧
        (∀ e' ∈ e :: rest, -e'.edge_id ∈ sids → e'.edge_id ∉ sids →
          ∃ u ∈ res.backward_edges, u.edge_id = e'.edge_id) := by
      intro s' hs' a1 a2 a3 a4 a5 a6
      obtain ⟨i1, i2, i3, i4, i5, i6⟩ := ih s' hs'
      refine ⟨fun u hu => i1 u (a1 u hu), fun u hu => i2 u (a2 u hu), ?_, ?_, ?_, ?_⟩
      · intro u hu
        rcases i3 u hu with k | ⟨e', he', k⟩
        · rcases a3 u k with k | k
          · exact Or.inl k
          · exact Or.inr ⟨e, List.mem_cons_self _ _, k⟩
        · exact Or.inr ⟨e', List.mem_cons_of_mem _ he', k⟩
      · intro u hu
        rcases i4 u hu with k | ⟨e', he', k⟩
        · rcases a4 u k with k | k
          · exact Or.inl k
          · exact Or.inr ⟨e, List.mem_cons_self _ _, k⟩
        · exact Or.inr ⟨e', List.mem_cons_of_mem _ he', k⟩
      · intro e' he' b1 b2
        rcases List.mem_cons.1 he' with k | k
        · subst k
          obtain ⟨u, hu, hid⟩ := a5 b1 b2
          exact ⟨u, i1 u hu, hid⟩
        · exact i5 e' k b1 b2
      · intro e' he' b1 b2
        rcases List.mem_cons.1 he' with k | k
        · subst k
          obtain ⟨u, hu, hid⟩ := a6 b1 b2
          exact ⟨u, i2 u hu, hid⟩
        · exact i6 e' k b1 b2
    by_cases c0 : (ringHits e nf sids 0 s).1 ≠ 0
    · rw [if_pos c0] at h
      refine lift _ h r1 r2 ?_ ?_ r5 r6
      · intro u hu
        rcases r3 u hu with k | k
        · exact Or.inl k
        · exact Or.inr ⟨k.1, Or.inl k.2⟩
      · intro u hu
        rcases r4 u hu with k | k
        · exact Or.inl k
        · exact Or.inr ⟨k.1, Or.inl k.2⟩
    rw [if_neg c0] at h
    have hz : (ringHits e nf sids 0 s).1 = 0 := not_not.1 c0
    obtain ⟨z1, z2⟩ := r8 hz
    cases hp : _rtt_GetInteriorEdgePoint G e.geom with
    | none => rw [hp] at h; cases h
    | some ep =>
      rw [hp] at h
      dsimp only at h
      by_cases c1 : G.shell_contains shell ep = 2
      · rw [if_pos c1] at h; cases h
      rw [if_neg c1] at h
      have skip : faceSplitEdges G shell sids face nf outside rest s = .ok res → _ :=
        fun h' => lift s h' (fun u hu => hu) (fun u hu => hu) (fun u hu => Or.inl hu)
          (fun u hu => Or.inl hu) (fun a => absurd a z1) (fun a => absurd a z2)
      by_cases c2 : outside = true ∧ G.shell_contains shell ep ≠ 0
      · rw [if_pos c2] at h; exact skip h
      rw [if_neg c2] at h
      by_cases c3 : outside = false ∧ G.shell_contains shell ep = 0
      · rw [if_pos c3] at h; exact skip h
      rw [if_neg c3] at h
      have h1 : (∀ u ∈ s.forward_edges, u ∈ (if e.face_left = face then
            { s with forward_edges := s.forward_edges ++
              [{ blankEdge with edge_id := e.edge_id, face_left := nf }] }
            else s).forward_edges) ∧
          (if e.face_left = face then
            { s with forward_edges := s.forward_edges ++
              [{ blankEdge with edge_id := e.edge_id, face_left := nf }] }
            else s).backward_edges = s.backward_edges ∧
          (∀ u ∈ (if e.face_left = face then
            { s with forward_edges := s.forward_edges ++
              [{ blankEdge with edge_id := e.edge_id, face_left := nf }] }
            else s).forward_edges,
            u ∈ s.forward_edges ∨ (u.edge_id = e.edge_id ∧ e.face_left = face)) := by
        by_cases d : e.face_left = face
        · rw [if_pos d]
          refine ⟨fun u hu => List.mem_append_left _ hu, rfl, ?_⟩
          intro u hu
          rcases List.mem_append.1 hu with k | k
          · exact Or.inl k
          · rw [List.mem_singleton.1 k]; exact Or.inr ⟨rfl, d⟩
        · rw [if_neg d]
          exact ⟨fun u hu => hu, rfl, fun u hu => Or.inl hu⟩
      generalize (if e.face_left = face then
            { s with forward_edges := s.forward_edges ++
              [{ blankEdge with edge_id := e.edge_id, face_left := nf }] }
            else s) = s1 at h h1
      have h2 : (if e.face_right = face then
            { s1 with backward_edges := s1.backward_edges ++
              [{ blankEdge with edge_id := e.edge_id, face_right := nf }] }
            else s1).forward_edges = s1.forward_edges ∧
          (∀ u ∈ s1.backward_edges, u ∈ (if e.face_right = face then
            { s1 with backward_edges := s1.backward_edges ++
              [{ blankEdge with edge_id := e.edge_id, face_right := nf }] }
            else s1).backward_edges) ∧
          (∀ u ∈ (if e.face_right = face then
            { s1 with backward_edges := s1.backward_edges ++
              [{ blankEdge with edge_id := e.edge_id, face_right := nf }] }
            else s1).backward_edges,
            u ∈ s1.backward_edges ∨ (u.edge_id = e.edge_id ∧ e.face_right = face)) := by
        by_cases d : e.face_right = face
        · rw [if_pos d]
          refine ⟨rfl, fun u hu => List.mem_append_left _ hu, ?_⟩
          intro u hu
          rcases List.mem_append.1 hu with k | k
          · exact Or.inl k
          · rw [List.mem_singleton.1 k]; exact Or.inr ⟨rfl, d⟩
        · rw [if_neg d]
          exact ⟨rfl, fun u hu => hu, fun u hu => Or.inl hu⟩
      generalize (if e.face_right = face then
            { s1 with backward_edges := s1.backward_edges ++
              [{ blankEdge with edge_id := e.edge_id, face_right := nf }] }
            else s1) = s2 at h h2
      refine lift _ h ?_ ?_ ?_ ?_ (fun a => absurd a z1) (fun a => absurd a z2)
      · intro u hu
        rw [h2.1]; exact h1.1 u hu
      · intro u hu
        apply h2.2.1
        rw [h1.2.1]; exact hu
      · intro u hu
        rw [h2.1] at hu
        rcases h1.2.2 u hu with k | k
        · exact Or.inl k
        · exact Or.inr ⟨k.1, Or.inr ⟨z1, z2, k.2⟩⟩
      · intro u hu
        rcases h2.2.2 u hu with k | k
        · rw [h1.2.1] at k; exact Or.inl k
        · exact Or.inr ⟨k.1, Or.inr ⟨z1, z2, k.2⟩⟩

end RTTopo

namespace RTTopo

/-! ## The error log and the face sequence along a face split -/

theorem logKept.keptRefl (T : RTT_TOPOLOGY) : logKept T T := ⟨Nat.le_refl _, rfl⟩

theorem logKept.thenKept2 {T T1 T2 : RTT_TOPOLOGY} (h1 : logKept T T1) (h2 : logKept T1 T2) :
    logKept T T2 := ⟨Nat.le_trans h1.1 h2.1, h2.2.trans h1.2⟩

theorem logKept_rterror {T T1 : RTT_TOPOLOGY} (msg : String) (h : logKept T T1) :
    logKept T (rterror T1 msg) :=
  ⟨Nat.le_trans h.1 (by unfold rterror; simp), h.2⟩

theorem logKept.grows {T T1 : RTT_TOPOLOGY} (h : logKept T T1) : logGrows T T1 :=
  ⟨h.1, by rw [h.2]⟩

theorem logGrows.growsRefl (T : RTT_TOPOLOGY) : logGrows T T := ⟨Nat.le_refl _, Int.le_refl _⟩

theorem logGrows.thenGrows {T T1 T2 : RTT_TOPOLOGY} (h1 : logGrows T T1)
    (h2 : logGrows T1 T2) : logGrows T T2 :=
  ⟨Nat.le_trans h1.1 h2.1, Int.le_trans h1.2 h2.2⟩

theorem logGrows_rterror {T T1 : RTT_TOPOLOGY} (msg : String) (h : logGrows T T1) :
    logGrows T (rterror T1 msg) :=
  ⟨Nat.le_trans h.1 (by unfold rterror; simp), h.2⟩

theorem logKept_updateFacesById (T : RTT_TOPOLOGY) (rows : List RTT_ISO_FACE) :
    logKept T (rtt_be_updateFacesById T rows).1 := by
  unfold rtt_be_updateFacesById
  dsimp only
  split_ifs <;> exact ⟨Nat.le_refl _, rfl⟩

theorem logKept_deleteFacesById (T : RTT_TOPOLOGY) (ids : List Int) :
    logKept T (rtt_be_deleteFacesById T ids).1 := by
  unfold rtt_be_deleteFacesById
  dsimp only
  split_ifs <;> exact ⟨Nat.le_refl _, rfl⟩

theorem logKept_updateEdgesById (T : RTT_TOPOLOGY) (rows : List RTT_ISO_EDGE)
    (fields : List RTT_COL_EDGE) : logKept T (rtt_be_updateEdgesById T rows fields).1 := by
  unfold rtt_be_updateEdgesById
  split_ifs <;> exact ⟨Nat.le_refl _, rfl⟩

theorem logKept_updateNodesById (T : RTT_TOPOLOGY) (rows : List RTT_ISO_NODE)
    (fields : List RTT_COL_NODE) : logKept T (rtt_be_updateNodesById T rows fields).1 := by
  unfold rtt_be_updateNodesById
  split_ifs <;> exact ⟨Nat.le_refl _, rfl⟩

theorem logGrows_insertFaces (T : RTT_TOPOLOGY) (face : RTT_ISO_FACE) :
    logGrows T (rtt_be_insertFaces T face).1 := by
  unfold rtt_be_insertFaces
  dsimp only
  split_ifs
  · exact logGrows.growsRefl T
  · exact ⟨Nat.le_refl _, by show T.face_seq ≤ T.face_seq + 1; omega⟩
  · exact logGrows.growsRefl T

theorem logKept_addFaceSplitNodes (G : GEOM) (T : RTT_TOPOLOGY) (shell : POINTARRAY)
    (face : Int) (newface : RTT_ISO_FACE) (outside : Bool) :
    logKept T (addFaceSplitNodes G T shell face newface outside).1 := by
  unfold addFaceSplitNodes
  split
  · exact logKept_rterror _ (logKept.keptRefl T)
  · dsimp only
    split_ifs
    · exact logKept.keptRefl T
    · split
      · exact logKept_rterror _ (logKept.keptRefl T)
      · split_ifs
        · exact logKept.keptRefl T
        · exact logKept_rterror _ (logKept_updateNodesById T _ _)
        · exact logKept_updateNodesById T _ _

theorem logKept_addFaceSplitEdges (G : GEOM) (T : RTT_TOPOLOGY) (shell : POINTARRAY)
    (sids : List Int) (face : Int) (newface : RTT_ISO_FACE) (outside : Bool) :
    logKept T (addFaceSplitEdges G T shell sids face newface outside).1 := by
  unfold addFaceSplitEdges
  split
  · exact logKept_rterror _ (logKept.keptRefl T)
  · split_ifs
    · exact logKept_rterror _ (logKept.keptRefl T)
    · exact logKept_addFaceSplitNodes G T shell face newface outside
    · split
      · exact logKept_rterror _ (logKept.keptRefl T)
      · rename_i scan hscan
        dsimp only
        have hf : logKept T (if scan.forward_edges.length = 0 then (T, (0 : Int))
            else rtt_be_updateEdgesById T scan.forward_edges [RTT_COL_EDGE.FACE_LEFT]).1 := by
          split_ifs
          · exact logKept.keptRefl T
          · exact logKept_updateEdgesById T _ _
        generalize (if scan.forward_edges.length = 0 then (T, (0 : Int))
            else rtt_be_updateEdgesById T scan.forward_edges [RTT_COL_EDGE.FACE_LEFT]) = f
          at hf ⊢
        have hb : logKept T (if scan.backward_edges.length = 0 then (f.1, (0 : Int))
            else rtt_be_updateEdgesById f.1 scan.backward_edges
              [RTT_COL_EDGE.FACE_RIGHT]).1 := by
          split_ifs
          · exact hf
          · exact hf.thenKept2 (logKept_updateEdgesById f.1 _ _)
        generalize (if scan.backward_edges.length = 0 then (f.1, (0 : Int))
            else rtt_be_updateEdgesById f.1 scan.backward_edges
              [RTT_COL_EDGE.FACE_RIGHT]) = b at hb ⊢
        split_ifs
        · exact logKept_rterror _ hf
        · exact logKept_rterror _ hf
        · exact logKept_rterror _ hb
        · exact logKept_rterror _ hb
        · exact hb.thenKept2 (logKept_addFaceSplitNodes G b.1 shell face newface outside)

theorem logKept_addFaceSplitMbr (G : GEOM) (T : RTT_TOPOLOGY) (face : Int)
    (pa : POINTARRAY) : logKept T (addFaceSplitMbr G T face pa).1 := by
  unfold addFaceSplitMbr
  dsimp only
  split_ifs <;> first
    | exact logKept.keptRefl T
    | exact logKept_updateFacesById T _
    | exact logKept_rterror _ (logKept_updateFacesById T _)

theorem logGrows_addFaceSplitNew (G : GEOM) (T : RTT_TOPOLOGY) (face : Int)
    (sids : List Int) (pa : POINTARRAY) (hole : Bool) :
    logGrows T (addFaceSplitNew G T face sids pa hole).1 := by
  unfold addFaceSplitNew
  split
  · exact logGrows_rterror _ (logGrows.growsRefl T)
  · rename_i ofs _
    dsimp only
    by_cases c1 : hole = true ∧ ofs.length ≠ 1
    · rw [if_pos c1]; exact logGrows_rterror _ (logGrows.growsRefl T)
    rw [if_neg c1]
    have hst := logGrows_insertFaces T
      { face_id := -1,
        mbr := if hole = true then (ofs.head?.bind (fun f => f.mbr)) else some (G.bbox pa) }
    generalize rtt_be_insertFaces T _ = i at hst ⊢
    by_cases c2 : i.2.2 = -1
    · rw [if_pos c2]; exact logGrows_rterror _ hst
    rw [if_neg c2]
    by_cases c3 : i.2.2 ≠ 1
    · rw [if_pos c3]; exact logGrows_rterror _ hst
    rw [if_neg c3]
    exact hst.thenGrows (logKept_addFaceSplitEdges G _ pa sids face _ hole).grows

theorem logGrows_addFaceSplit (G : GEOM) (T : RTT_TOPOLOGY) (sedge face : Int)
    (mbr_only : Bool) : logGrows T (_rtt_AddFaceSplit G T sedge face mbr_only).1 := by
  unfold _rtt_AddFaceSplit
  split
  · exact logGrows_rterror _ (logGrows.growsRefl T)
  · exact logGrows.growsRefl T
  · split_ifs
    · exact logGrows.growsRefl T
    · exact (logKept_addFaceSplitMbr G T face _).grows
    · exact logGrows_addFaceSplitNew G T face _ _ _

theorem logKept_addEdgeFinish (T : RTT_TOPOLOGY) (newedge : RTT_ISO_EDGE) (modFace : Bool) :
    logKept T (addEdgeFinish T newedge modFace).1 := by
  unfold addEdgeFinish
  dsimp only
  split_ifs <;> first
    | exact logKept.keptRefl T
    | exact logKept_rterror _ (logKept.keptRefl T)
    | exact logKept_deleteFacesById T _
    | exact logKept_rterror _ (logKept_deleteFacesById T _)

end RTTopo

namespace RTTopo

/-! ## What a face split that goes through writes -/

theorem rterror_longer {A X : RTT_TOPOLOGY} (h : A.errors.length ≤ X.errors.length)
    (msg : String) : A.errors.length < (rterror X msg).errors.length := by
  unfold rterror
  simp only [List.length_cons]
  omega

theorem faceSplitNode_none (nf : Int) (ns : List RTT_ISO_NODE) :
    ns.map (faceSplitNode nf []) = ns := by
  conv_rhs => rw [← List.map_id ns]
  apply List.map_congr_left
  intro n _
  simp [faceSplitNode]

/-- The node part of `_rtt_AddFaceSplit`: it fails with a logged error, or moves some
isolated nodes of the old face to the new one. -/
theorem addFaceSplitNodes_outcome (G : GEOM) (X : RTT_TOPOLOGY) (shell : POINTARRAY)
    (face : Int) (newface : RTT_ISO_FACE) (outside : Bool)
    (hnn : (X.nodes.map (fun n => n.node_id)).Nodup) :
    ((addFaceSplitNodes G X shell face newface outside).2 = -2 ∧
      X.errors.length < (addFaceSplitNodes G X shell face newface outside).1.errors.length) ∨
    ((addFaceSplitNodes G X shell face newface outside).2 = newface.face_id ∧
      ∃ ns : List Int,
        (addFaceSplitNodes G X shell face newface outside).1 =
          { X with nodes := X.nodes.map (faceSplitNode newface.face_id ns) } ∧
        ∀ i ∈ ns, ∀ n ∈ X.nodes, n.node_id = i → n.containing_face = face) := by
  have idle : X = { X with nodes := X.nodes.map (faceSplitNode newface.face_id []) } := by
    rw [faceSplitNode_none]
  unfold addFaceSplitNodes
  cases hg : rtt_be_getNodeByFace G X [face] newface.mbr with
  | none => exact Or.inl ⟨rfl, rterror_longer (Nat.le_refl _) _⟩
  | some nodes =>
    dsimp only
    by_cases c1 : nodes.length = 0
    · rw [if_pos c1]
      exact Or.inr ⟨rfl, [], idle, fun i hi => absurd hi (List.not_mem_nil _)⟩
    rw [if_neg c1]
    cases hf : faceSplitNodes G shell newface.face_id outside nodes [] with
    | error msg => exact Or.inl ⟨rfl, rterror_longer (Nat.le_refl _) _⟩
    | ok upd =>
      dsimp only
      by_cases c2 : upd.length = 0
      · rw [if_pos c2]
        exact Or.inr ⟨rfl, [], idle, fun i hi => absurd hi (List.not_mem_nil _)⟩
      rw [if_neg c2]
      have hk := logKept_updateNodesById X upd [RTT_COL_NODE.CONTAINING_FACE]
      rcases hu : rtt_be_updateNodesById X upd [RTT_COL_NODE.CONTAINING_FACE] with ⟨U, ret⟩
      rw [hu] at hk
      dsimp only at hk ⊢
      by_cases c3 : ret = -1
      · rw [if_pos c3]
        exact Or.inl ⟨rfl, rterror_longer hk.1 _⟩
      rw [if_neg c3]
      have hU := updateNodesById_ok hu c3
      have hrows := faceSplitNodes_rows G shell newface.face_id outside nodes [] upd hf
      have hsub : ∀ n ∈ nodes, n ∈ X.nodes ∧ n.containing_face = face := by
        intro n hn
        unfold rtt_be_getNodeByFace at hg
        split_ifs at hg
        cases hg
        have := List.mem_filter.1 hn
        refine ⟨this.1, ?_⟩
        have h2 := this.2
        simp only [List.mem_singleton, Bool.and_eq_true, decide_eq_true_eq] at h2
        exact h2.1
      refine Or.inr ⟨rfl, upd.map (fun u => u.node_id), ?_, ?_⟩
      · rw [hU, faceSplit_node_updates newface.face_id upd]
        intro u hu'
        rcases hrows u hu' with k | k
        · exact absurd k (List.not_mem_nil _)
        · exact k.1
      · intro i hi n hn hid
        obtain ⟨u, hu', rfl⟩ := List.mem_map.1 hi
        rcases hrows u hu' with k | ⟨_, m, hm, hmid⟩
        · exact absurd k (List.not_mem_nil _)
        · obtain ⟨m1, m2⟩ := hsub m hm
          have : n = m := node_unique hnn hn m1 (hid.trans hmid.symm)
          rw [this]; exact m2

/-- The edge and node part of `_rtt_AddFaceSplit` for the ring `sids` of `sedge`, all of
whose members have the old face on the left: it fails with a logged error, or moves sides
of edge rows and isolated nodes from the old face to the new one, the side of `sedge`
among them and the other side of that edge not. -/
theorem addFaceSplitEdges_outcome (G : GEOM) (I : RTT_TOPOLOGY) (shell : POINTARRAY)
    (sids : List Int) (face : Int) (newface : RTT_ISO_FACE) (outside : Bool) (sedge : Int)
    (hpos : ∀ e ∈ I.edges, 0 < e.edge_id)
    (hnd : (I.edges.map (fun e => e.edge_id)).Nodup)
    (hnn : (I.nodes.map (fun n => n.node_id)).Nodup)
    (hring : ∀ h ∈ sids, sideFace I.edges h = face)
    (hin : sedge ∈ sids) (hout : -sedge ∉ sids)
    (hk : ∃ e ∈ I.edges, e.edge_id = llabs sedge ∧
      (match newface.mbr with
       | none => true
       | some b => G.line_in_box b e.geom) = true) :
    ((addFaceSplitEdges G I shell sids face newface outside).2 = -2 ∧
      I.errors.length <
        (addFaceSplitEdges G I shell sids face newface outside).1.errors.length) ∨
    ((addFaceSplitEdges G I shell sids face newface outside).2 = newface.face_id ∧
      ∃ fw bw ns : List Int,
        (addFaceSplitEdges G I shell sids face newface outside).1 =
          { I with edges := I.edges.map (faceSplitRow newface.face_id fw bw),
                   nodes := I.nodes.map (faceSplitNode newface.face_id ns) } ∧
        (∀ i ∈ fw, ∀ e ∈ I.edges, e.edge_id = i → e.face_left = face) ∧
        (∀ i ∈ bw, ∀ e ∈ I.edges, e.edge_id = i → e.face_right = face) ∧
        (∀ i ∈ ns, ∀ n ∈ I.nodes, n.node_id = i → n.containing_face = face) ∧
        (0 < sedge → sedge ∈ fw ∧ sedge ∉ bw) ∧
        (¬ 0 < sedge → -sedge ∈ bw ∧ -sedge ∉ fw)) := by
  obtain ⟨ek, hek, hekid, hekbox⟩ := hk
  have hekpos := hpos ek hek
  unfold addFaceSplitEdges
  cases hg : rtt_be_getEdgeByFace G I [face] newface.mbr with
  | none => exact Or.inl ⟨rfl, rterror_longer (Nat.le_refl _) _⟩
  | some edges =>
    dsimp only
    have hedges : edges = I.edges.filter (fun e =>
        (decide (e.face_left ∈ [face]) || decide (e.face_right ∈ [face])) &&
        (match newface.mbr with
         | none => true
         | some b => G.line_in_box b e.geom)) := by
      unfold rtt_be_getEdgeByFace at hg
      split_ifs at hg
      cases hg
      rfl
    have hsub : ∀ e ∈ edges, e ∈ I.edges := by
      intro e he
      rw [hedges] at he
      exact (List.mem_filter.1 he).1
    -- the row of `sedge` is among the fetched rows
    have hekside : (0 < sedge → ek.edge_id = sedge ∧ ek.face_left = face) ∧
        (¬ 0 < sedge → ek.edge_id = -sedge ∧ ek.face_right = face) := by
      have hs := hring sedge hin
      unfold llabs at hekid
      constructor
      · intro hp
        have h1 : ek.edge_id = sedge := by
          rw [hekid, if_neg (by omega)]
        rw [← h1, sideFace_pos hnd hek hekpos] at hs
        exact ⟨h1, hs⟩
      · intro hp
        have h0 : sedge ≠ 0 := by
          intro h0
          rw [h0] at hekid
          simp at hekid
          omega
        have h1 : ek.edge_id = -sedge := by
          rw [hekid, if_pos (by omega)]
        have h2 : sedge = -ek.edge_id := by omega
        rw [h2, sideFace_neg hnd hek hekpos] at hs
        exact ⟨h1, hs⟩
    have hekin : ek ∈ edges := by
      rw [hedges]
      apply List.mem_filter.2
      refine ⟨hek, ?_⟩
      rw [hekbox, Bool.and_true]
      by_cases hp : 0 < sedge
      · simp [(hekside.1 hp).2]
      · simp [(hekside.2 hp).2]
    by_cases c0 : (!G.geos_shell shell) = true
    · rw [if_pos c0]
      exact Or.inl ⟨rfl, rterror_longer (Nat.le_refl _) _⟩
    rw [if_neg c0]
    by_cases c1 : edges.length = 0
    · have := List.length_pos_of_mem hekin
      omega
    rw [if_neg c1]
    cases hscan : faceSplitEdges G shell sids face newface.face_id outside edges
        { forward_edges := [], backward_edges := [] } with
    | error msg => exact Or.inl ⟨rfl, rterror_longer (Nat.le_refl _) _⟩
    | ok scan =>
      dsimp only
      have hc := faceSplitEdges_carries G shell sids face newface.face_id outside _ _ scan
        ⟨fun u hu => absurd hu (List.not_mem_nil _),
         fun u hu => absurd hu (List.not_mem_nil _)⟩ hscan
      obtain ⟨_, _, f3, f4, f5, f6⟩ := faceSplitEdges_facts G shell sids face
        newface.face_id outside edges _ scan hscan
      -- the forward update
      have hf : logKept I (if scan.forward_edges.length = 0 then (I, (0 : Int))
          else rtt_be_updateEdgesById I scan.forward_edges [RTT_COL_EDGE.FACE_LEFT]).1 ∧
          ((if scan.forward_edges.length = 0 then (I, (0 : Int))
            else rtt_be_updateEdgesById I scan.forward_edges [RTT_COL_EDGE.FACE_LEFT]).2 ≠ -1 →
            (if scan.forward_edges.length = 0 then (I, (0 : Int))
              else rtt_be_updateEdgesById I scan.forward_edges [RTT_COL_EDGE.FACE_LEFT]).1 =
            { I with
              edges := List.foldl (updateEdgeById [RTT_COL_EDGE.FACE_LEFT]) I.edges
                         scan.forward_edges }) ∧
          (scan.forward_edges.length = 0 →
            (if scan.forward_edges.length = 0 then (I, (0 : Int))
              else rtt_be_updateEdgesById I scan.forward_edges [RTT_COL_EDGE.FACE_LEFT]).2 =
              0) := by
        by_cases c : scan.forward_edges.length = 0
        · rw [if_pos c]
          refine ⟨logKept.keptRefl I, fun _ => ?_, fun _ => rfl⟩
          rw [List.length_eq_zero.1 c]
          rfl
        · rw [if_neg c]
          refine ⟨logKept_updateEdgesById I _ _, fun hne => ?_, fun h => absurd h c⟩
          exact updateEdgesById_ok (Prod.mk.eta).symm hne
      generalize (if scan.forward_edges.length = 0 then (I, (0 : Int))
          else rtt_be_updateEdgesById I scan.forward_edges [RTT_COL_EDGE.FACE_LEFT]) = f
        at hf ⊢
      by_cases c2 : scan.forward_edges.length ≠ 0 ∧ f.2 = -1
      · rw [if_pos c2]
        exact Or.inl ⟨rfl, rterror_longer hf.1.1 _⟩
      rw [if_neg c2]
      by_cases c3 : scan.forward_edges.length ≠ 0 ∧ f.2 ≠ (scan.forward_edges.length : Int)
      · rw [if_pos c3]
        exact Or.inl ⟨rfl, rterror_longer hf.1.1 _⟩
      rw [if_neg c3]
      have hfne : f.2 ≠ -1 := by
        intro h
        by_cases c : scan.forward_edges.length = 0
        · have := hf.2.2 c
          omega
        · exact c2 ⟨c, h⟩
      have hF := hf.2.1 hfne
      -- the backward update
      have hb : logKept f.1 (if scan.backward_edges.length = 0 then (f.1, (0 : Int))
          else rtt_be_updateEdgesById f.1 scan.backward_edges [RTT_COL_EDGE.FACE_RIGHT]).1 ∧
          ((if scan.backward_edges.length = 0 then (f.1, (0 : Int))
            else rtt_be_updateEdgesById f.1 scan.backward_edges
              [RTT_COL_EDGE.FACE_RIGHT]).2 ≠ -1 →
            (if scan.backward_edges.length = 0 then (f.1, (0 : Int))
              else rtt_be_updateEdgesById f.1 scan.backward_edges
                [RTT_COL_EDGE.FACE_RIGHT]).1 =
            { f.1 with
              edges := List.foldl (updateEdgeById [RTT_COL_EDGE.FACE_RIGHT]) f.1.edges
                         scan.backward_edges }) ∧
          (scan.backward_edges.length = 0 →
            (if scan.backward_edges.length = 0 then (f.1, (0 : Int))
              else rtt_be_updateEdgesById f.1 scan.backward_edges
                [RTT_COL_EDGE.FACE_RIGHT]).2 = 0) := by
        by_cases c : scan.backward_edges.length = 0
        · rw [if_pos c]
          refine ⟨logKept.keptRefl f.1, fun _ => ?_, fun _ => rfl⟩
          rw [List.length_eq_zero.1 c]
          rfl
        · rw [if_neg c]
          refine ⟨logKept_updateEdgesById f.1 _ _, fun hne => ?_, fun h => absurd h c⟩
          exact updateEdgesById_ok (Prod.mk.eta).symm hne
      generalize (if scan.backward_edges.length = 0 then (f.1, (0 : Int))
          else rtt_be_updateEdgesById f.1 scan.backward_edges [RTT_COL_EDGE.FACE_RIGHT]) = b
        at hb ⊢
      have hIb : I.errors.length ≤ b.1.errors.length := Nat.le_trans hf.1.1 hb.1.1
      by_cases c4 : scan.backward_edges.length ≠ 0 ∧ b.2 = -1
      · rw [if_pos c4]
        exact Or.inl ⟨rfl, rterror_longer hIb _⟩
      rw [if_neg c4]
      by_cases c5 : scan.backward_edges.length ≠ 0 ∧ b.2 ≠ (scan.backward_edges.length : Int)
      · rw [if_pos c5]
        exact Or.inl ⟨rfl, rterror_longer hIb _⟩
      rw [if_neg c5]
      have hbne : b.2 ≠ -1 := by
        intro h
        by_cases c : scan.backward_edges.length = 0
        · have := hb.2.2 c
          omega
        · exact c4 ⟨c, h⟩
      have hB := hb.2.1 hbne
      have hBI : b.1 = { I with edges := I.edges.map (faceSplitRow newface.face_id
          (scan.forward_edges.map (fun u => u.edge_id))
          (scan.backward_edges.map (fun u => u.edge_id))) } := by
        rw [hB, hF]
        dsimp only
        rw [faceSplit_updates newface.face_id _ _ hc.1 hc.2]
      have hbn : b.1.nodes = I.nodes := by rw [hBI]
      rcases addFaceSplitNodes_outcome G b.1 shell face newface outside (by rw [hbn]; exact hnn)
        with ⟨n1, n2⟩ | ⟨n1, ns, n2, n3⟩
      · exact Or.inl ⟨n1, Nat.lt_of_le_of_lt hIb n2⟩
      · refine Or.inr ⟨n1, scan.forward_edges.map (fun u => u.edge_id),
          scan.backward_edges.map (fun u => u.edge_id), ns, ?_, ?_, ?_, ?_, ?_, ?_⟩
        · rw [n2, hbn]
          rw [hBI]
        · intro i hi e he hid
          obtain ⟨u, hu, rfl⟩ := List.mem_map.1 hi
          rcases f3 u hu with k | ⟨e', he', hid', k⟩
          · exact absurd k (List.not_mem_nil _)
          · have he'I := hsub e' he'
            have : e = e' := edge_unique hnd he he'I (hid.trans hid')
            rw [this]
            rcases k with k | k
            · rw [← sideFace_pos hnd he'I (hpos e' he'I)]
              exact hring _ k
            · exact k.2.2
        · intro i hi e he hid
          obtain ⟨u, hu, rfl⟩ := List.mem_map.1 hi
          rcases f4 u hu with k | ⟨e', he', hid', k⟩
          · exact absurd k (List.not_mem_nil _)
          · have he'I := hsub e' he'
            have : e = e' := edge_unique hnd he he'I (hid.trans hid')
            rw [this]
            rcases k with k | k
            · rw [← sideFace_neg hnd he'I (hpos e' he'I)]
              exact hring _ k
            · exact k.2.2
        · intro i hi n hn hid
          exact n3 i hi n (by rw [hbn]; exact hn) hid
        · intro hp
          obtain ⟨k1, _⟩ := hekside.1 hp
          constructor
          · obtain ⟨u, hu, huid⟩ := f5 ek hekin (by rw [k1]; exact hin)
              (by rw [k1]; exact hout)
            exact List.mem_map.2 ⟨u, hu, huid.trans k1⟩
          · intro hmem
            obtain ⟨u, hu, huid⟩ := List.mem_map.1 hmem
            rcases f4 u hu with k | ⟨e', he', hid', k⟩
            · exact absurd k (List.not_mem_nil _)
            · have e1 : e'.edge_id = sedge := hid'.symm.trans huid
              rcases k with k | k
              · rw [e1] at k; exact hout k
              · rw [e1] at k; exact k.1 hin
        · intro hp
          obtain ⟨k1, _⟩ := hekside.2 hp
          have k1' : -ek.edge_id = sedge := by omega
          constructor
          · obtain ⟨u, hu, huid⟩ := f6 ek hekin (by rw [k1']; exact hin)
              (by rw [k1]; exact hout)
            exact List.mem_map.2 ⟨u, hu, huid.trans k1⟩
          · intro hmem
            obtain ⟨u, hu, huid⟩ := List.mem_map.1 hmem
            rcases f3 u hu with k | ⟨e', he', hid', k⟩
            · exact absurd k (List.not_mem_nil _)
            · have e1 : e'.edge_id = -sedge := hid'.symm.trans huid
              rcases k with k | k
              · rw [e1] at k; exact hout k
              · have k2 := k.2.1
                rw [e1, neg_neg] at k2
                exact k2 hin

end RTTopo

namespace RTTopo

/-! ## The ring of the new edge and the outcome of `_rtt_AddFaceSplit` -/

/-- With fuel left the ring walk records the signed edge it stands on. -/
theorem ringWalk_head (es : List RTT_ISO_EDGE) (start : Int) (fuel : Nat) (cur : Int)
    (acc : List Int) : ∃ t, ringWalk es start (fuel + 1) cur acc = acc ++ cur :: t := by
  induction fuel generalizing cur acc with
  | zero =>
    unfold ringWalk
    dsimp only
    split_ifs
    · exact ⟨[], rfl⟩
    · unfold ringWalk
      exact ⟨[], rfl⟩
  | succ n ih =>
    unfold ringWalk
    dsimp only
    split_ifs
    · exact ⟨[], rfl⟩
    · obtain ⟨t, ht⟩ := ih (nextEdge es cur) (acc ++ [cur])
      rw [ht]
      exact ⟨nextEdge es cur :: t, by simp⟩

/-- A signed edge with a stored row has the same face on its left as its successor. -/
theorem sideFace_next {es : List RTT_ISO_EDGE} (hrf : RingFaces es) (h : Int)
    (hn : nextEdge es h ≠ 0) : sideFace es (nextEdge es h) = sideFace es h := by
  unfold nextEdge at hn ⊢
  unfold sideFace
  cases hr : edgeRow es (if 0 < h then h else -h) with
  | none => rw [hr] at hn; exact absurd rfl hn
  | some e =>
    dsimp only
    have he := (edgeRow_some hr).1
    by_cases hp : 0 < h
    · rw [if_pos hp, if_pos hp]
      exact (hrf e he).1
    · rw [if_neg hp, if_neg hp]
      exact (hrf e he).2

/-- Every member of a ring walk has the face on its left that the first one has. -/
theorem ringWalk_faces {es : List RTT_ISO_EDGE} (hrf : RingFaces es) (start f : Int)
    (fuel : Nat) (cur : Int) (acc : List Int)
    (hacc : ∀ h ∈ acc, sideFace es h = f) (hcur : sideFace es cur = f) :
    ∀ h ∈ ringWalk es start fuel cur acc, sideFace es h = f := by
  induction fuel generalizing cur acc with
  | zero =>
    unfold ringWalk
    exact hacc
  | succ n ih =>
    have hnew : ∀ h ∈ acc ++ [cur], sideFace es h = f := by
      intro h hh
      rcases List.mem_append.1 hh with k | k
      · exact hacc h k
      · rw [List.mem_singleton.1 k]; exact hcur
    unfold ringWalk
    dsimp only
    by_cases c : nextEdge es cur = start ∨ nextEdge es cur = 0 ∨
        nextEdge es cur ∈ acc ++ [cur]
    · rw [if_pos c]; exact hnew
    · rw [if_neg c]
      apply ih _ _ hnew
      rw [sideFace_next hrf cur (fun h0 => c (Or.inr (Or.inl h0)))]
      exact hcur

theorem ptarray_append_prefix (p q : POINTARRAY) :
    ∃ tl, ptarray_append_ptarray p q = p ++ tl := by
  unfold ptarray_append_ptarray
  cases q with
  | nil => exact ⟨[], by simp⟩
  | cons a tl =>
    dsimp only
    cases hl : p.getLast? with
    | none =>
      have : p = [] := List.getLast?_eq_none_iff.1 hl
      exact ⟨a :: tl, by rw [this]; rfl⟩
    | some b =>
      dsimp only
      split_ifs
      · exact ⟨tl, rfl⟩
      · exact ⟨[], by simp⟩

/-- The point sequence of a ring starts with the points it was started with. -/
theorem ringPoints_prefix (re : List RTT_ISO_EDGE) (l : List Int) (p pa : POINTARRAY)
    (h : ringPoints re l (some p) = some pa) : ∃ tl, pa = p ++ tl := by
  induction l generalizing p with
  | nil =>
    unfold ringPoints at h
    cases h
    exact ⟨[], by simp⟩
  | cons eid rest ih =>
    unfold ringPoints at h
    cases hr : edgeRow re (llabs eid) with
    | none => rw [hr] at h; cases h
    | some edge =>
      rw [hr] at h
      dsimp only at h
      obtain ⟨t1, h1⟩ := ih _ h
      obtain ⟨t2, h2⟩ := ptarray_append_prefix p
        (if eid < 0 then edge.geom.reverse else edge.geom)
      rw [h2] at h1
      exact ⟨t2 ++ t1, by rw [h1, List.append_assoc]⟩

/-- What a ring that `_rtt_AddFaceSplit` goes on with is: the answer of the back end, with
`sedge` in it and its reverse not, and a point sequence that starts with the points of
the edge `sedge` in walking direction. -/
theorem addFaceSplitRing_facts {A : RTT_TOPOLOGY} {sedge : Int}
    {ring : List Int × POINTARRAY} (h : addFaceSplitRing A sedge = .ok (some ring)) :
    rtt_be_getRingEdges A sedge = some ring.1 ∧ sedge ∈ ring.1 ∧ -sedge ∉ ring.1 ∧
    ∃ e ∈ A.edges, e.edge_id = llabs sedge ∧
      ∃ tl, ring.2 = (if sedge < 0 then e.geom.reverse else e.geom) ++ tl := by
  unfold addFaceSplitRing at h
  cases hg : rtt_be_getRingEdges A sedge with
  | none => rw [hg] at h; cases h
  | some sids =>
    rw [hg] at h
    dsimp only at h
    by_cases c1 : -sedge ∈ sids
    · rw [if_pos c1] at h; cases h
    rw [if_neg c1] at h
    cases hq : rtt_be_getEdgeById A (ringEdgeIds sids []) with
    | none => rw [hq] at h; cases h
    | some ring_edges =>
      rw [hq] at h
      dsimp only at h
      by_cases c2 : ring_edges.length ≠ (ringEdgeIds sids []).length
      · rw [if_pos c2] at h; cases h
      rw [if_neg c2] at h
      cases hp : ringPoints ring_edges sids none with
      | none => rw [hp] at h; cases h
      | some pa =>
        rw [hp] at h
        cases h
        dsimp only
        -- the ring starts with `sedge`
        have hhead : ∃ t, sids = sedge :: t := by
          unfold rtt_be_getRingEdges at hg
          by_cases cf : BeCall.getRingEdges ∈ A.failing
          · rw [if_pos cf] at hg; cases hg
          rw [if_neg cf] at hg
          cases hr : edgeRow A.edges (if 0 < sedge then sedge else -sedge) with
          | none => rw [hr] at hg; cases hg
          | some e0 =>
            rw [hr] at hg
            dsimp only at hg
            have hne : A.edges ≠ [] := by
              intro h0
              rw [h0] at hr
              cases hr
            obtain ⟨m, hm⟩ : ∃ m, 2 * A.edges.length = m + 1 := by
              have := List.length_pos.2 hne
              exact ⟨2 * A.edges.length - 1, by omega⟩
            rw [hm] at hg
            obtain ⟨t, ht⟩ := ringWalk_head A.edges sedge m sedge []
            rw [ht] at hg
            cases hg
            exact ⟨t, rfl⟩
        obtain ⟨t, ht⟩ := hhead
        refine ⟨rfl, by rw [ht]; exact List.mem_cons_self _ _, c1, ?_⟩
        rw [ht] at hp
        unfold ringPoints at hp
        cases hr : edgeRow ring_edges (llabs sedge) with
        | none => rw [hr] at hp; cases hp
        | some edge =>
          rw [hr] at hp
          dsimp only at hp
          obtain ⟨k1, k2⟩ := edgeRow_some hr
          rw [getEdgeById_some hq] at k1
          exact ⟨edge, (List.mem_filter.1 k1).1, k2, ringPoints_prefix _ _ _ _ hp⟩

/-- The part of `_rtt_AddFaceSplit` that creates the face: it fails with a logged error or
the split goes through. -/
theorem addFaceSplitNew_outcome (G : GEOM) (A : RTT_TOPOLOGY) (face : Int) (sids : List Int)
    (pa : POINTARRAY) (hole : Bool) (sedge : Int)
    (hpos : ∀ e ∈ A.edges, 0 < e.edge_id)
    (hnd : (A.edges.map (fun e => e.edge_id)).Nodup)
    (hnn : (A.nodes.map (fun n => n.node_id)).Nodup)
    (hring : ∀ h ∈ sids, sideFace A.edges h = face)
    (hin : sedge ∈ sids) (hout : -sedge ∉ sids)
    (hk : ∃ e ∈ A.edges, e.edge_id = llabs sedge ∧ G.line_in_box (G.bbox pa) e.geom = true) :
    ((addFaceSplitNew G A face sids pa hole).2 = -2 ∧
      A.errors.length < (addFaceSplitNew G A face sids pa hole).1.errors.length) ∨
    ((addFaceSplitNew G A face sids pa hole).2 = A.face_seq ∧
      faceMade face sedge A (addFaceSplitNew G A face sids pa hole).1) := by
  unfold addFaceSplitNew
  cases hq : (if hole = true then rtt_be_getFaceById A [face] else some []) with
  | none => exact Or.inl ⟨rfl, rterror_longer (Nat.le_refl _) _⟩
  | some ofs =>
    dsimp only
    by_cases c1 : hole = true ∧ ofs.length ≠ 1
    · rw [if_pos c1]; exact Or.inl ⟨rfl, rterror_longer (Nat.le_refl _) _⟩
    rw [if_neg c1]
    have hgr := logGrows_insertFaces A
      { face_id := -1,
        mbr := if hole = true then (ofs.head?.bind (fun f => f.mbr)) else some (G.bbox pa) }
    rcases hi : rtt_be_insertFaces A
      { face_id := -1,
        mbr := if hole = true then (ofs.head?.bind (fun f => f.mbr)) else some (G.bbox pa) }
      with ⟨I, row, ret⟩
    rw [hi] at hgr
    dsimp only at hgr ⊢
    by_cases c2 : ret = -1
    · rw [if_pos c2]; exact Or.inl ⟨rfl, rterror_longer hgr.1 _⟩
    rw [if_neg c2]
    by_cases c3 : ret ≠ 1
    · rw [if_pos c3]; exact Or.inl ⟨rfl, rterror_longer hgr.1 _⟩
    rw [if_neg c3]
    obtain ⟨hrow, hI⟩ := insertFaces_ok hi c2
    have hIe : I.edges = A.edges := by rw [hI]
    have hIn : I.nodes = A.nodes := by rw [hI]
    have hnfid : (if hole = true then { row with mbr := none } else row).face_id =
        A.face_seq := by
      rw [hrow]
      split_ifs <;> rfl
    have hk' : ∃ e ∈ I.edges, e.edge_id = llabs sedge ∧
        (match (if hole = true then { row with mbr := none } else row).mbr with
         | none => true
         | some b => G.line_in_box b e.geom) = true := by
      obtain ⟨e, he, hid, hb⟩ := hk
      refine ⟨e, by rw [hIe]; exact he, hid, ?_⟩
      by_cases ch : hole = true
      · rw [if_pos ch]
      · rw [if_neg ch, hrow, if_neg ch]
        exact hb
    rcases addFaceSplitEdges_outcome G I pa sids face
        (if hole = true then { row with mbr := none } else row) hole sedge
        (by rw [hIe]; exact hpos) (by rw [hIe]; exact hnd) (by rw [hIn]; exact hnn)
        (by rw [hIe]; exact hring) hin hout hk'
      with ⟨n1, n2⟩ | ⟨n1, fw, bw, ns, n2, n3, n4, n5, n6, n7⟩
    · exact Or.inl ⟨n1, Nat.lt_of_le_of_lt hgr.1 n2⟩
    · rw [hnfid] at n1 n2
      rw [hIe] at n2 n3 n4
      rw [hIn] at n2 n5
      refine Or.inr ⟨n1, ?_⟩
      rw [n2, hI]
      refine ⟨rfl, ?_, rfl, rfl, rfl, rfl, fw, bw, ns, rfl, rfl, n3, n4, n5, n6, n7⟩
      show List.map (fun f => f.face_id) (A.faces ++ [_]) = _
      rw [List.map_append]
      rfl

theorem updateFaceById_ids (rows : List RTT_ISO_FACE) (fs : List RTT_ISO_FACE) :
    (rows.foldl updateFaceById fs).map (fun f => f.face_id) = fs.map (fun f => f.face_id) := by
  induction rows generalizing fs with
  | nil => rfl
  | cons u rest ih =>
    rw [List.foldl_cons, ih]
    unfold updateFaceById
    rw [List.map_map]
    apply List.map_congr_left
    intro x _
    simp only [Function.comp]
    split_ifs <;> rfl

/-- The `mbr_only` branch of `_rtt_AddFaceSplit` fails with a logged error or leaves the
rows and the face identifiers alone. -/
theorem addFaceSplitMbr_outcome (G : GEOM) (A : RTT_TOPOLOGY) (face : Int)
    (pa : POINTARRAY) :
    ((addFaceSplitMbr G A face pa).2 = -2 ∧
      A.errors.length < (addFaceSplitMbr G A face pa).1.errors.length) ∨
    ((addFaceSplitMbr G A face pa).2 = -1 ∧ idleStep A (addFaceSplitMbr G A face pa).1) := by
  unfold addFaceSplitMbr
  by_cases c : G.isccw pa = true
  · rw [if_pos c]
    have hk := logKept_updateFacesById A [{ face_id := face, mbr := some (G.bbox pa) }]
    rcases hu : rtt_be_updateFacesById A [{ face_id := face, mbr := some (G.bbox pa) }]
      with ⟨U, ret⟩
    rw [hu] at hk
    dsimp only at hk ⊢
    by_cases c1 : ret = -1
    · rw [if_pos c1]; exact Or.inl ⟨rfl, rterror_longer hk.1 _⟩
    rw [if_neg c1]
    by_cases c2 : ret ≠ 1
    · rw [if_pos c2]; exact Or.inl ⟨rfl, rterror_longer hk.1 _⟩
    rw [if_neg c2]
    have hU := updateFacesById_ok hu c1
    refine Or.inr ⟨rfl, ?_⟩
    rw [hU]
    exact ⟨rfl, rfl, updateFaceById_ids _ _, rfl, rfl, rfl, rfl, rfl⟩
  · rw [if_neg c]
    exact Or.inr ⟨rfl, rfl, rfl, rfl, rfl, rfl, rfl, rfl, rfl⟩

/-- Outcome of `_rtt_AddFaceSplit` when a face is asked for (`mbr_only = 0`), in a state
whose rings bound one face each: a logged error, no ring (`0`, nothing written), a
clockwise ring in the universe face (`-1`, nothing written), or a split that went
through. -/
theorem addFaceSplit_outcome (G : GEOM) (A : RTT_TOPOLOGY) (sedge f : Int)
    (hpos : ∀ e ∈ A.edges, 0 < e.edge_id)
    (hnd : (A.edges.map (fun e => e.edge_id)).Nodup)
    (hnn : (A.nodes.map (fun n => n.node_id)).Nodup)
    (hrf : RingFaces A.edges) (hside : sideFace A.edges sedge = f)
    (hbox : ∀ e ∈ A.edges, e.edge_id = llabs sedge → ∀ tl,
      G.line_in_box (G.bbox ((if sedge < 0 then e.geom.reverse else e.geom) ++ tl)) e.geom =
        true) :
    ((_rtt_AddFaceSplit G A sedge f false).2 = -2 ∧
      A.errors.length < (_rtt_AddFaceSplit G A sedge f false).1.errors.length) ∨
    ((_rtt_AddFaceSplit G A sedge f false).2 = 0 ∧
      (_rtt_AddFaceSplit G A sedge f false).1 = A) ∨
    ((_rtt_AddFaceSplit G A sedge f false).2 = -1 ∧ f = 0 ∧
      (_rtt_AddFaceSplit G A sedge f false).1 = A) ∨
    ((_rtt_AddFaceSplit G A sedge f false).2 = A.face_seq ∧
      faceMade f sedge A (_rtt_AddFaceSplit G A sedge f false).1) := by
  unfold _rtt_AddFaceSplit
  cases hr : addFaceSplitRing A sedge with
  | error msg => exact Or.inl ⟨rfl, rterror_longer (Nat.le_refl _) _⟩
  | ok o =>
    cases o with
    | none => exact Or.inr (Or.inl ⟨rfl, rfl⟩)
    | some ring =>
      dsimp only
      by_cases c1 : f = 0 ∧ G.isccw ring.2 = false
      · rw [if_pos c1]; exact Or.inr (Or.inr (Or.inl ⟨rfl, c1.1, rfl⟩))
      rw [if_neg c1]
      have c2 : ¬ ((false : Bool) = true ∧ f ≠ 0) := fun h => Bool.noConfusion h.1
      rw [if_neg c2]
      obtain ⟨g1, g2, g3, e, he, hid, tl, htl⟩ := addFaceSplitRing_facts hr
      have hring : ∀ h ∈ ring.1, sideFace A.edges h = f := by
        unfold rtt_be_getRingEdges at g1
        by_cases cf : BeCall.getRingEdges ∈ A.failing
        · rw [if_pos cf] at g1; cases g1
        rw [if_neg cf] at g1
        cases hrow : edgeRow A.edges (if 0 < sedge then sedge else -sedge) with
        | none => rw [hrow] at g1; cases g1
        | some e0 =>
          rw [hrow] at g1
          dsimp only at g1
          have := Option.some.inj g1
          rw [← this]
          exact ringWalk_faces hrf sedge f _ sedge []
            (fun h hh => absurd hh (List.not_mem_nil _)) hside
      rcases addFaceSplitNew_outcome G A f ring.1 ring.2
          (decide (f ≠ 0 ∧ G.isccw ring.2 = false)) sedge hpos hnd hnn hring g2 g3
          ⟨e, he, hid, by rw [htl]; exact hbox e he hid tl⟩
        with k | k
      · exact Or.inl k
      · exact Or.inr (Or.inr (Or.inr k))

/-- Outcome of any `_rtt_AddFaceSplit`: a logged error, nothing written but possibly an
MBR, or one face identifier allocated. -/
theorem addFaceSplit_coarse (G : GEOM) (A : RTT_TOPOLOGY) (sedge f : Int) (mbr_only : Bool) :
    A.errors.length < (_rtt_AddFaceSplit G A sedge f mbr_only).1.errors.length ∨
    idleStep A (_rtt_AddFaceSplit G A sedge f mbr_only).1 ∨
    (_rtt_AddFaceSplit G A sedge f mbr_only).1.face_seq = A.face_seq + 1 := by
  have hidle : idleStep A A := ⟨rfl, rfl, rfl, rfl, rfl, rfl, rfl, rfl⟩
  unfold _rtt_AddFaceSplit
  cases hr : addFaceSplitRing A sedge with
  | error msg => exact Or.inl (rterror_longer (Nat.le_refl _) _)
  | ok o =>
    cases o with
    | none => exact Or.inr (Or.inl hidle)
    | some ring =>
      dsimp only
      by_cases c1 : f = 0 ∧ G.isccw ring.2 = false
      · rw [if_pos c1]; exact Or.inr (Or.inl hidle)
      rw [if_neg c1]
      by_cases c2 : mbr_only = true ∧ f ≠ 0
      · rw [if_pos c2]
        rcases addFaceSplitMbr_outcome G A f ring.2 with k | k
        · exact Or.inl k.2
        · exact Or.inr (Or.inl k.2)
      rw [if_neg c2]
      unfold addFaceSplitNew
      cases hq : (if decide (f ≠ 0 ∧ G.isccw ring.2 = false) = true
          then rtt_be_getFaceById A [f] else some []) with
      | none => exact Or.inl (rterror_longer (Nat.le_refl _) _)
      | some ofs =>
        dsimp only
        by_cases d1 : decide (f ≠ 0 ∧ G.isccw ring.2 = false) = true ∧ ofs.length ≠ 1
        · rw [if_pos d1]; exact Or.inl (rterror_longer (Nat.le_refl _) _)
        rw [if_neg d1]
        have hgr := logGrows_insertFaces A
          { face_id := -1,
            mbr := if decide (f ≠ 0 ∧ G.isccw ring.2 = false) = true
              then (ofs.head?.bind (fun f => f.mbr)) else some (G.bbox ring.2) }
        rcases hi : rtt_be_insertFaces A
          { face_id := -1,
            mbr := if decide (f ≠ 0 ∧ G.isccw ring.2 = false) = true
              then (ofs.head?.bind (fun f => f.mbr)) else some (G.bbox ring.2) }
          with ⟨I, row, ret⟩
        rw [hi] at hgr
        dsimp only at hgr ⊢
        by_cases d2 : ret = -1
        · rw [if_pos d2]; exact Or.inl (rterror_longer hgr.1 _)
        rw [if_neg d2]
        by_cases d3 : ret ≠ 1
        · rw [if_pos d3]; exact Or.inl (rterror_longer hgr.1 _)
        rw [if_neg d3]
        obtain ⟨_, hI⟩ := insertFaces_ok hi d2
        refine Or.inr (Or.inr ?_)
        rw [(logKept_addFaceSplitEdges G I ring.2 ring.1 f _ _).2, hI]

end RTTopo

namespace RTTopo

/-! ## The faces along the rings after the insertion -/

theorem addEdgeRow_fields (k pl pr : Int) (e : RTT_ISO_EDGE) :
    (addEdgeRow k pl pr e).edge_id = e.edge_id ∧
    (addEdgeRow k pl pr e).face_left = e.face_left ∧
    (addEdgeRow k pl pr e).face_right = e.face_right ∧
    (addEdgeRow k pl pr e).geom = e.geom ∧
    (addEdgeRow k pl pr e).start_node = e.start_node ∧
    (addEdgeRow k pl pr e).end_node = e.end_node :=
  ⟨rfl, rfl, rfl, rfl, rfl, rfl⟩

/-- The edge table after the insertion has distinct positive identifiers. -/
theorem addEdgeEdges_ids {es : List RTT_ISO_EDGE} (N : RTT_ISO_EDGE) (pl pr : Int)
    (hlink : RingLinked es) (hk : ∀ x ∈ es, x.edge_id < N.edge_id) (hk0 : 0 < N.edge_id) :
    ((addEdgeEdges es N pl pr).map (fun e => e.edge_id)).Nodup ∧
    (∀ e ∈ addEdgeEdges es N pl pr, 0 < e.edge_id) ∧
    (addEdgeEdges es N pl pr).map (fun e => e.edge_id) =
      es.map (fun e => e.edge_id) ++ [N.edge_id] := by
  have hids := (addEdgeEdges_rows es N pl pr).1
  refine ⟨?_, ?_, hids⟩
  · rw [hids]
    apply List.Nodup.append hlink.2.1 (List.nodup_singleton _)
    intro x hx hx'
    rw [List.mem_singleton] at hx'
    obtain ⟨e, he, rfl⟩ := List.mem_map.1 hx
    have := hk e he
    omega
  · intro e he
    have : e.edge_id ∈ (addEdgeEdges es N pl pr).map (fun e => e.edge_id) :=
      List.mem_map.2 ⟨e, he, rfl⟩
    rw [hids] at this
    rcases List.mem_append.1 this with k | k
    · obtain ⟨e0, he0, h0⟩ := List.mem_map.1 k
      have := hlink.1 e0 he0
      rw [← h0]; exact this
    · rw [List.mem_singleton.1 k]; exact hk0

/-- The faces on the left of the signed edges after the insertion: those of the stored
rows are as before, the new edge has its own faces. -/
theorem addEdgeEdges_sideFace {es : List RTT_ISO_EDGE} (N : RTT_ISO_EDGE) (pl pr : Int)
    (hlink : RingLinked es) (hk : ∀ x ∈ es, x.edge_id < N.edge_id) (hk0 : 0 < N.edge_id) :
    sideFace (addEdgeEdges es N pl pr) N.edge_id = N.face_left ∧
    sideFace (addEdgeEdges es N pl pr) (-N.edge_id) = N.face_right ∧
    ∀ h ∈ signedIds es, sideFace (addEdgeEdges es N pl pr) h = sideFace es h := by
  obtain ⟨hndL, hposL, _⟩ := addEdgeEdges_ids N pl pr hlink hk hk0
  have hmem : ∀ e ∈ es ++ [N], addEdgeRow N.edge_id pl pr e ∈ addEdgeEdges es N pl pr := by
    intro e he
    rw [addEdgeEdges_rows_eq]
    exact List.mem_map.2 ⟨e, he, rfl⟩
  have hN := hmem N (List.mem_append_right _ (List.mem_singleton.2 rfl))
  refine ⟨?_, ?_, ?_⟩
  · have := sideFace_pos hndL hN hk0
    exact this
  · have := sideFace_neg hndL hN hk0
    exact this
  · intro h hh
    obtain ⟨e, he, hid⟩ := mem_signedIds.1 hh
    have he' := hmem e (List.mem_append_left _ he)
    have hp := hlink.1 e he
    rcases hid with hid | hid
    · rw [hid]
      have h1 := sideFace_pos hndL he' hp
      have h2 := sideFace_pos hlink.2.1 he hp
      rw [h2]; exact h1
    · rw [hid]
      have h1 := sideFace_neg hndL he' hp
      have h2 := sideFace_neg hlink.2.1 he hp
      rw [h2]; exact h1

/-- After the insertion every ring still bounds one face, when the new edge has the face
`f` on both sides and the signed edges it is linked with have `f` on their left. -/
theorem addEdgeEdges_ringFaces {es : List RTT_ISO_EDGE} (N : RTT_ISO_EDGE) (pl pr f : Int)
    (hlink : RingLinked es) (hrf : RingFaces es)
    (hk : ∀ x ∈ es, x.edge_id < N.edge_id) (hk0 : 0 < N.edge_id)
    (hfl : N.face_left = f) (hfr : N.face_right = f)
    (hNl : N.next_left = N.edge_id ∨ N.next_left = -N.edge_id ∨
      (N.next_left ∈ signedIds es ∧ sideFace es N.next_left = f))
    (hNr : N.next_right = N.edge_id ∨ N.next_right = -N.edge_id ∨
      (N.next_right ∈ signedIds es ∧ sideFace es N.next_right = f))
    (hpl : llabs pl ≠ N.edge_id → sideFace es pl = f)
    (hpr : llabs pr ≠ N.edge_id → sideFace es pr = f) :
    RingFaces (addEdgeEdges es N pl pr) := by
  obtain ⟨s1, s2, s3⟩ := addEdgeEdges_sideFace N pl pr hlink hk hk0
  rw [hfl] at s1
  rw [hfr] at s2
  have hnd := hlink.2.1
  intro x hx
  rw [addEdgeEdges_rows_eq] at hx
  obtain ⟨e, he, rfl⟩ := List.mem_map.1 hx
  rcases List.mem_append.1 he with he | he
  · -- a row that was stored
    have hp := hlink.1 e he
    have hlt := hk e he
    have hcl := hlink.2.2.1 e he
    have hr := hrf e he
    have f1 := sideFace_pos hnd he hp
    have f2 := sideFace_neg hnd he hp
    constructor
    · show sideFace _ (if llabs pr ≠ N.edge_id ∧ 0 < pr ∧ e.edge_id = pr then -N.edge_id
          else if llabs pl ≠ N.edge_id ∧ 0 < pl ∧ e.edge_id = pl then N.edge_id
          else e.next_left) = e.face_left
      by_cases c1 : llabs pr ≠ N.edge_id ∧ 0 < pr ∧ e.edge_id = pr
      · rw [if_pos c1, s2, ← f1, c1.2.2]
        exact (hpr c1.1).symm
      rw [if_neg c1]
      by_cases c2 : llabs pl ≠ N.edge_id ∧ 0 < pl ∧ e.edge_id = pl
      · rw [if_pos c2, s1, ← f1, c2.2.2]
        exact (hpl c2.1).symm
      rw [if_neg c2, s3 _ hcl.1]
      exact hr.1
    · show sideFace _ (if llabs pr ≠ N.edge_id ∧ ¬ 0 < pr ∧ e.edge_id = -pr then -N.edge_id
          else if llabs pl ≠ N.edge_id ∧ ¬ 0 < pl ∧ e.edge_id = -pl then N.edge_id
          else e.next_right) = e.face_right
      by_cases c1 : llabs pr ≠ N.edge_id ∧ ¬ 0 < pr ∧ e.edge_id = -pr
      · have hpr' : pr = -e.edge_id := by omega
        rw [if_pos c1, s2, ← f2, ← hpr']
        exact (hpr c1.1).symm
      rw [if_neg c1]
      by_cases c2 : llabs pl ≠ N.edge_id ∧ ¬ 0 < pl ∧ e.edge_id = -pl
      · have hpl' : pl = -e.edge_id := by omega
        rw [if_pos c2, s1, ← f2, ← hpl']
        exact (hpl c2.1).symm
      rw [if_neg c2, s3 _ hcl.2]
      exact hr.2
  · -- the new row
    rw [List.mem_singleton.1 he]
    constructor
    · show sideFace _ (if llabs pr ≠ N.edge_id ∧ 0 < pr ∧ N.edge_id = pr then -N.edge_id
          else if llabs pl ≠ N.edge_id ∧ 0 < pl ∧ N.edge_id = pl then N.edge_id
          else N.next_left) = N.face_left
      rw [addEdge_new_left_arith, hfl]
      rcases hNl with h | h | h
      · rw [h]; exact s1
      · rw [h]; exact s2
      · rw [s3 _ h.1]; exact h.2
    · show sideFace _ (if llabs pr ≠ N.edge_id ∧ ¬ 0 < pr ∧ N.edge_id = -pr then -N.edge_id
          else if llabs pl ≠ N.edge_id ∧ ¬ 0 < pl ∧ N.edge_id = -pl then N.edge_id
          else N.next_right) = N.face_right
      rw [addEdge_new_right_arith, hfr]
      rcases hNr with h | h | h
      · rw [h]; exact s1
      · rw [h]; exact s2
      · rw [s3 _ h.1]; exact h.2

end RTTopo

namespace RTTopo

/-! ## The face-split analysis of `rtt_AddEdgeModFace` -/

theorem faceMade_idle {f sedge : Int} {A B C : RTT_TOPOLOGY} (h1 : faceMade f sedge A B)
    (h2 : idleStep B C) : faceMade f sedge A C := by
  obtain ⟨a1, a2, a3, a4, a5, a6, fw, bw, ns, a7, a8, a9⟩ := h1
  obtain ⟨b1, b2, b3, b4, b5, b6, b7, b8⟩ := h2
  exact ⟨b4.trans a1, b3.trans a2, b5.trans a3, b6.trans a4, b7.trans a5, b8.trans a6,
    fw, bw, ns, b1.trans a7, b2.trans a8, a9⟩

theorem idleStep.idleSame (A : RTT_TOPOLOGY) : idleStep A A :=
  ⟨rfl, rfl, rfl, rfl, rfl, rfl, rfl, rfl⟩

/-- The face-split analysis of `rtt_AddEdgeModFace` for the new edge `N`, when it returns
the edge without logging an error and allocates at most one face identifier: either
nothing is written, or the face `f` of `N` is split with the new face on the left of `N`,
or `f` is the universe face and the new face is on the right of `N`. -/
theorem addEdgeFaceSplit_outcome (G : GEOM) (L : RTT_TOPOLOGY) (N : RTT_ISO_EDGE) (f : Int)
    (hpos : ∀ e ∈ L.edges, 0 < e.edge_id)
    (hnd : (L.edges.map (fun e => e.edge_id)).Nodup)
    (hnn : (L.nodes.map (fun n => n.node_id)).Nodup)
    (hrf : RingFaces L.edges) (hfs : 0 < L.face_seq) (hk0 : 0 < N.edge_id)
    (hNf : N.face_left = f)
    (hs1 : sideFace L.edges N.edge_id = f) (hs2 : sideFace L.edges (-N.edge_id) = f)
    (hbox : ∀ e ∈ L.edges, e.edge_id = N.edge_id → ∀ tl,
      G.line_in_box (G.bbox (e.geom ++ tl)) e.geom = true ∧
      G.line_in_box (G.bbox (e.geom.reverse ++ tl)) e.geom = true)
    (hok : (addEdgeFaceSplit G L N true).2 ≠ -1)
    (hnoerr : (addEdgeFaceSplit G L N true).1.errors.length ≤ L.errors.length)
    (hone : (addEdgeFaceSplit G L N true).1.face_seq ≤ L.face_seq + 1) :
    idleStep L (addEdgeFaceSplit G L N true).1 ∨
    faceMade f N.edge_id L (addEdgeFaceSplit G L N true).1 ∨
    (f = 0 ∧ faceMade f (-N.edge_id) L (addEdgeFaceSplit G L N true).1) := by
  subst hNf
  have hb1 : ∀ e ∈ L.edges, e.edge_id = llabs N.edge_id → ∀ tl,
      G.line_in_box (G.bbox ((if N.edge_id < 0 then e.geom.reverse else e.geom) ++ tl))
        e.geom = true := by
    intro e he hid tl
    rw [llabs_pos hk0] at hid
    rw [if_neg (by omega)]
    exact (hbox e he hid tl).1
  have hb2 : ∀ e ∈ L.edges, e.edge_id = llabs (-N.edge_id) → ∀ tl,
      G.line_in_box (G.bbox ((if -N.edge_id < 0 then e.geom.reverse else e.geom) ++ tl))
        e.geom = true := by
    intro e he hid tl
    rw [llabs_nonpos (by omega), neg_neg] at hid
    rw [if_pos (by omega)]
    exact (hbox e he hid tl).2
  have o1 := addFaceSplit_outcome G L N.edge_id N.face_left hpos hnd hnn hrf hs1 hb1
  have o2 := addFaceSplit_outcome G L (-N.edge_id) N.face_left hpos hnd hnn hrf hs2 hb2
  unfold addEdgeFaceSplit at hok hnoerr hone ⊢
  have hm : ¬ ((true : Bool) = false) := fun h => Bool.noConfusion h
  rw [if_neg hm] at hok hnoerr hone ⊢
  dsimp only at hok hnoerr hone ⊢
  have fin : ∀ X : RTT_TOPOLOGY, logKept X (addEdgeFinish X N true).1 :=
    fun X => logKept_addEdgeFinish X N true
  have finok : ∀ X : RTT_TOPOLOGY, (addEdgeFinish X N true).2 ≠ -1 →
      (addEdgeFinish X N true).1 = X := by
    intro X hX
    unfold addEdgeFinish at hX ⊢
    by_cases c : N.face_left ≠ 0
    · rw [if_pos c] at hX ⊢
      by_cases d : rtt_be_hook X BeCall.updateTopoGeomFaceSplit = 0
      · rw [if_pos d] at hX; exact absurd rfl hX
      · rw [if_neg d, if_neg hm]
    · rw [if_neg c]
  generalize _rtt_AddFaceSplit G L N.edge_id N.face_left false = r at o1 hok hnoerr hone ⊢
  -- whatever follows the first analysis neither shortens the log nor lowers the sequence
  have tail : logGrows r.1 (if r.2 = 0 then (r.1, N.edge_id)
      else if r.2 < 0 then
        if (_rtt_AddFaceSplit G r.1 (-N.edge_id) N.face_left false).2 < 0 then
          ((_rtt_AddFaceSplit G r.1 (-N.edge_id) N.face_left false).1, N.edge_id)
        else addEdgeFinish (_rtt_AddFaceSplit G r.1 (-N.edge_id) N.face_left false).1 N true
      else addEdgeFinish (_rtt_AddFaceSplit G r.1 (-N.edge_id) N.face_left true).1 N true).1 := by
    split_ifs
    · exact logGrows.growsRefl _
    · exact logGrows_addFaceSplit G r.1 _ _ _
    · exact (logGrows_addFaceSplit G r.1 _ _ _).thenGrows (fin _).grows
    · exact (logGrows_addFaceSplit G r.1 _ _ _).thenGrows (fin _).grows
  rcases o1 with ⟨_, e1⟩ | ⟨z1, z2⟩ | ⟨z1, z0, z2⟩ | ⟨z1, z2⟩
  · exact absurd (Nat.lt_of_lt_of_le e1 (Nat.le_trans tail.1 hnoerr)) (Nat.lt_irrefl _)
  · rw [if_pos z1]
    rw [z2]
    exact Or.inl (idleStep.idleSame L)
  · have c1 : ¬ r.2 = 0 := by omega
    have c2 : r.2 < 0 := by omega
    rw [if_neg c1, if_pos c2] at hok hnoerr hone ⊢
    rw [z2] at hok hnoerr hone ⊢
    generalize _rtt_AddFaceSplit G L (-N.edge_id) N.face_left false = r2
      at o2 hok hnoerr hone ⊢
    rcases o2 with ⟨y1, e1⟩ | ⟨y1, y2⟩ | ⟨y1, _, y2⟩ | ⟨y1, y2⟩
    · have c3 : r2.2 < 0 := by omega
      rw [if_pos c3] at hnoerr
      exact absurd (Nat.lt_of_lt_of_le e1 hnoerr) (Nat.lt_irrefl _)
    · have c3 : ¬ r2.2 < 0 := by omega
      rw [if_neg c3] at hok ⊢
      rw [finok _ hok, y2]
      exact Or.inl (idleStep.idleSame L)
    · have c3 : r2.2 < 0 := by omega
      rw [if_pos c3, y2]
      exact Or.inl (idleStep.idleSame L)
    · have c3 : ¬ r2.2 < 0 := by omega
      rw [if_neg c3] at hok ⊢
      rw [finok _ hok]
      exact Or.inr (Or.inr ⟨z0, y2⟩)
  · have c1 : ¬ r.2 = 0 := by omega
    have c2 : ¬ r.2 < 0 := by omega
    rw [if_neg c1, if_neg c2] at hok hnoerr hone ⊢
    rw [finok _ hok] at hnoerr hone ⊢
    rcases addFaceSplit_coarse G r.1 (-N.edge_id) N.face_left true with k | k | k
    · rw [z2.2.2.2.2.2.1] at k
      exact absurd (Nat.lt_of_lt_of_le k hnoerr) (Nat.lt_irrefl _)
    · exact Or.inr (Or.inl (faceMade_idle z2 k))
    · rw [k, z2.1] at hone
      omega

end RTTopo

namespace RTTopo

/-! ## The cases of `_rtt_AddFaceSplit`: universe face, MBR of the new face, `mbr_only` -/

theorem facesKept.keptSame (T : RTT_TOPOLOGY) : facesKept T T := ⟨rfl, rfl⟩

theorem facesKept.thenSame {T T1 T2 : RTT_TOPOLOGY} (h1 : facesKept T T1)
    (h2 : facesKept T1 T2) : facesKept T T2 := ⟨h2.1.trans h1.1, h2.2.trans h1.2⟩

theorem facesKept_rterror {T T1 : RTT_TOPOLOGY} (msg : String) (h : facesKept T T1) :
    facesKept T (rterror T1 msg) := h

theorem facesKept_updateEdgesById (T : RTT_TOPOLOGY) (rows : List RTT_ISO_EDGE)
    (fields : List RTT_COL_EDGE) : facesKept T (rtt_be_updateEdgesById T rows fields).1 := by
  unfold rtt_be_updateEdgesById
  split_ifs <;> exact ⟨rfl, rfl⟩

theorem facesKept_updateNodesById (T : RTT_TOPOLOGY) (rows : List RTT_ISO_NODE)
    (fields : List RTT_COL_NODE) : facesKept T (rtt_be_updateNodesById T rows fields).1 := by
  unfold rtt_be_updateNodesById
  split_ifs <;> exact ⟨rfl, rfl⟩

theorem facesKept_addFaceSplitNodes (G : GEOM) (T : RTT_TOPOLOGY) (shell : POINTARRAY)
    (face : Int) (newface : RTT_ISO_FACE) (outside : Bool) :
    facesKept T (addFaceSplitNodes G T shell face newface outside).1 := by
  unfold addFaceSplitNodes
  split
  · exact facesKept_rterror _ (facesKept.keptSame T)
  · dsimp only
    split_ifs
    · exact facesKept.keptSame T
    · split
      · exact facesKept_rterror _ (facesKept.keptSame T)
      · split_ifs
        · exact facesKept.keptSame T
        · exact facesKept_rterror _ (facesKept_updateNodesById T _ _)
        · exact facesKept_updateNodesById T _ _

theorem facesKept_addFaceSplitEdges (G : GEOM) (T : RTT_TOPOLOGY) (shell : POINTARRAY)
    (sids : List Int) (face : Int) (newface : RTT_ISO_FACE) (outside : Bool) :
    facesKept T (addFaceSplitEdges G T shell sids face newface outside).1 := by
  unfold addFaceSplitEdges
  split
  · exact facesKept_rterror _ (facesKept.keptSame T)
  · split_ifs
    · exact facesKept_rterror _ (facesKept.keptSame T)
    · exact facesKept_addFaceSplitNodes G T shell face newface outside
    · split
      · exact facesKept_rterror _ (facesKept.keptSame T)
      · rename_i scan hscan
        dsimp only
        have hf : facesKept T (if scan.forward_edges.length = 0 then (T, (0 : Int))
            else rtt_be_updateEdgesById T scan.forward_edges [RTT_COL_EDGE.FACE_LEFT]).1 := by
          split_ifs
          · exact facesKept.keptSame T
          · exact facesKept_updateEdgesById T _ _
        generalize (if scan.forward_edges.length = 0 then (T, (0 : Int))
            else rtt_be_updateEdgesById T scan.forward_edges [RTT_COL_EDGE.FACE_LEFT]) = f
          at hf ⊢
        have hb : facesKept T (if scan.backward_edges.length = 0 then (f.1, (0 : Int))
            else rtt_be_updateEdgesById f.1 scan.backward_edges
              [RTT_COL_EDGE.FACE_RIGHT]).1 := by
          split_ifs
          · exact hf
          · exact hf.thenSame (facesKept_updateEdgesById f.1 _ _)
        generalize (if scan.backward_edges.length = 0 then (f.1, (0 : Int))
            else rtt_be_updateEdgesById f.1 scan.backward_edges
              [RTT_COL_EDGE.FACE_RIGHT]) = b at hb ⊢
        split_ifs
        · exact facesKept_rterror _ hf
        · exact facesKept_rterror _ hf
        · exact facesKept_rterror _ hb
        · exact facesKept_rterror _ hb
        · exact hb.thenSame (facesKept_addFaceSplitNodes G b.1 shell face newface outside)

/-- The face table after `addFaceSplitNew`: unchanged, or the old table followed by one
row with a fresh id whose MBR is the one handed to `insertFaces`. -/
theorem addFaceSplitNew_faces (G : GEOM) (T : RTT_TOPOLOGY) (face : Int) (sids : List Int)
    (pa : POINTARRAY) (hole : Bool) :
    (addFaceSplitNew G T face sids pa hole).1.faces = T.faces ∨
    ((addFaceSplitNew G T face sids pa hole).1.faces = T.faces ++
        [{ face_id := T.face_seq,
           mbr := if hole = true
             then ((T.faces.filter (fun f => decide (f.face_id ∈ [face]))).head?.bind
                    (fun f => f.mbr))
             else some (G.bbox pa) }] ∧
     (hole = true → (T.faces.filter (fun f => decide (f.face_id ∈ [face]))).length = 1)) := by
  unfold addFaceSplitNew
  by_cases hh : hole = true
  · subst hh
    simp only [if_true]
    unfold rtt_be_getFaceById
    by_cases cf : BeCall.getFaceById ∈ T.failing
    · rw [if_pos cf]; exact Or.inl rfl
    rw [if_neg cf]
    dsimp only
    by_cases c1 : True ∧ (T.faces.filter (fun f => decide (f.face_id ∈ [face]))).length ≠ 1
    · rw [if_pos c1]; exact Or.inl rfl
    rw [if_neg c1]
    have hlen : (T.faces.filter (fun f => decide (f.face_id ∈ [face]))).length = 1 := by
      by_contra hne; exact c1 ⟨trivial, hne⟩
    unfold rtt_be_insertFaces
    by_cases ci : BeCall.insertFaces ∈ T.failing
    · rw [if_pos ci]; simp only [if_true]; exact Or.inl rfl
    rw [if_neg ci]
    dsimp only
    rw [if_neg (by decide : ¬ ((1 : Int) = -1)), if_neg (by decide : ¬ ((1 : Int) ≠ 1))]
    refine Or.inr ⟨?_, fun _ => hlen⟩
    rw [(facesKept_addFaceSplitEdges G _ pa sids face _ true).1]
    simp only [if_true]
  · have hh2 : hole = false := by cases hole <;> simp_all
    subst hh2
    simp only [Bool.false_eq_true, if_false, false_and]
    unfold rtt_be_insertFaces
    by_cases ci : BeCall.insertFaces ∈ T.failing
    · rw [if_pos ci]; simp only [if_true]; exact Or.inl rfl
    rw [if_neg ci]
    dsimp only
    rw [if_neg (by decide : ¬ ((1 : Int) = -1)), if_neg (by decide : ¬ ((1 : Int) ≠ 1))]
    refine Or.inr ⟨?_, fun h => absurd h (by decide)⟩
    rw [(facesKept_addFaceSplitEdges G _ pa sids face _ false).1]
    simp only [if_true]

theorem filter_single_faceRow (fs : List RTT_ISO_FACE) (face : Int)
    (h : (fs.filter (fun f => decide (f.face_id ∈ [face]))).length = 1) :
    ∃ of, faceRow fs face = some of ∧
      (fs.filter (fun f => decide (f.face_id ∈ [face]))).head? = some of := by
  have hp : (fun f : RTT_ISO_FACE => decide (f.face_id ∈ [face])) =
      (fun f : RTT_ISO_FACE => decide (f.face_id = face)) := by
    funext f; simp only [List.mem_singleton]
  rw [hp] at h ⊢
  unfold faceRow
  clear hp
  induction fs with
  | nil => simp at h
  | cons a rest ih =>
    by_cases c : a.face_id = face
    · refine ⟨a, ?_, ?_⟩
      · rw [List.find?_cons_of_pos _ (by simpa using c)]
      · rw [List.filter_cons_of_pos (by simpa using c)]; rfl
    · rw [List.filter_cons_of_neg (by simpa using c)] at h ⊢
      rw [List.find?_cons_of_neg _ (by simpa using c)]
      exact ih h

theorem addFaceSplitMbr_step (G : GEOM) (T : RTT_TOPOLOGY) (face : Int) (pa : POINTARRAY) :
    mbrOnlyStep face T (addFaceSplitMbr G T face pa).1 ∧
    ((addFaceSplitMbr G T face pa).2 = -1 ∨ (addFaceSplitMbr G T face pa).2 = -2) := by
  unfold addFaceSplitMbr
  dsimp only
  by_cases c : G.isccw pa = true
  · rw [if_pos c]
    have hu : mbrOnlyStep face T
        (rtt_be_updateFacesById T [{ face_id := face, mbr := some (G.bbox pa) }]).1 := by
      unfold rtt_be_updateFacesById
      dsimp only
      split_ifs
      · exact ⟨rfl, rfl, rfl, Or.inl rfl⟩
      · exact ⟨rfl, rfl, rfl, Or.inr ⟨G.bbox pa, rfl⟩⟩
    generalize rtt_be_updateFacesById T _ = u at hu ⊢
    split_ifs
    · exact ⟨hu, Or.inr rfl⟩
    · exact ⟨hu, Or.inr rfl⟩
    · exact ⟨hu, Or.inl rfl⟩
  · rw [if_neg c]
    exact ⟨⟨rfl, rfl, rfl, Or.inl rfl⟩, Or.inl rfl⟩

/-- Claim C26, counterexample: in the state `topoLoop` the ring of edge `1` is `[1]`, does
not hold `-1` and winds counterclockwise, and `_rtt_AddFaceSplit(1, face = 0, mbr_only = 0)`
does not return `-1`: it inserts face `1` and binds the left side of edge `1` to it. -/
theorem addFaceSplit_universe_ccw_creates_face :
    rtt_be_getRingEdges topoLoop 1 = some [1] ∧
    addFaceSplitRing topoLoop 1 =
      .ok (some ([1], [⟨0, 0⟩, ⟨10, 0⟩, ⟨0, 10⟩, ⟨0, 0⟩])) ∧
    windingKernel.isccw [⟨0, 0⟩, ⟨10, 0⟩, ⟨0, 10⟩, ⟨0, 0⟩] = true ∧
    (_rtt_AddFaceSplit windingKernel topoLoop 1 0 false).2 = 1 ∧
    (_rtt_AddFaceSplit windingKernel topoLoop 1 0 false).1.faces.map (fun f => f.face_id)
      = [1] ∧
    topoLoop.faces = [] ∧
    (_rtt_AddFaceSplit windingKernel topoLoop 1 0 false).1.edges.map
      (fun e => (e.edge_id, e.face_left, e.face_right)) = [(1, 1, 0)] :=
  ⟨by decide, rfl, by decide, by decide, by decide, by decide, by decide⟩

/-- Claim C26, amended: when the ring walked from `sedge` does not hold `-sedge` and is
clockwise (not counterclockwise), `_rtt_AddFaceSplit(sedge, face = 0, mbr_only = 0)`
returns `-1` and leaves the whole state as it was: no face row is inserted, no edge and
no node is modified. -/
theorem addFaceSplit_universe_clockwise (G : GEOM) (T : RTT_TOPOLOGY) (sedge : Int)
    (ring : List Int × POINTARRAY)
    (hring : addFaceSplitRing T sedge = .ok (some ring))
    (hcw : G.isccw ring.2 = false) :
    _rtt_AddFaceSplit G T sedge 0 false = (T, -1) := by
  unfold _rtt_AddFaceSplit
  rw [hring]
  dsimp only
  rw [if_pos ⟨rfl, hcw⟩]

theorem addFaceSplit_universe_clockwise_witness :
    _rtt_AddFaceSplit windingKernel topoLoop (-1) 0 false = (topoLoop, -1) :=
  addFaceSplit_universe_clockwise windingKernel topoLoop (-1)
    ([-1], [⟨0, 0⟩, ⟨0, 10⟩, ⟨10, 0⟩, ⟨0, 0⟩]) rfl (by decide)

/-- Claim C27, counterexample: in the state `topoHole` the ring of edge `2` is clockwise,
`_rtt_AddFaceSplit(2, face = 1, mbr_only = 0)` inserts face `2`, and the MBR stored for
face `2` is the MBR of face `1`, not the box of the ring. -/
theorem addFaceSplit_hole_keeps_old_mbr :
    addFaceSplitRing topoHole 2 =
      .ok (some ([2], [⟨20, 20⟩, ⟨20, 30⟩, ⟨30, 20⟩, ⟨20, 20⟩])) ∧
    boxKernel.isccw [⟨20, 20⟩, ⟨20, 30⟩, ⟨30, 20⟩, ⟨20, 20⟩] = false ∧
    boxKernel.bbox [⟨20, 20⟩, ⟨20, 30⟩, ⟨30, 20⟩, ⟨20, 20⟩] =
      { xmin := 20, xmax := 30, ymin := 20, ymax := 30 } ∧
    (_rtt_AddFaceSplit boxKernel topoHole 2 1 false).2 = 2 ∧
    (_rtt_AddFaceSplit boxKernel topoHole 2 1 false).1.faces =
      [ { face_id := 1, mbr := some { xmin := 0, xmax := 100, ymin := 0, ymax := 100 } },
        { face_id := 2, mbr := some { xmin := 0, xmax := 100, ymin := 0, ymax := 100 } } ] :=
  ⟨rfl, by decide, by decide, by decide, by decide⟩

/-- Claim C27, amended: when `_rtt_AddFaceSplit(sedge, face, mbr_only = 0)` with
`face ≠ 0` walks a ring and changes the face table, it appends exactly one row, with the
next face id; for a counterclockwise ring the MBR of that row is the box of the ring, for
a clockwise ring (a hole) it is the MBR stored for `face`. -/
theorem addFaceSplit_new_face_mbr (G : GEOM) (T : RTT_TOPOLOGY) (sedge face : Int)
    (ring : List Int × POINTARRAY) (hf : face ≠ 0)
    (hring : addFaceSplitRing T sedge = .ok (some ring))
    (hins : (_rtt_AddFaceSplit G T sedge face false).1.faces ≠ T.faces) :
    ∃ mbr, (_rtt_AddFaceSplit G T sedge face false).1.faces =
        T.faces ++ [{ face_id := T.face_seq, mbr := mbr }] ∧
      (G.isccw ring.2 = true → mbr = some (G.bbox ring.2)) ∧
      (G.isccw ring.2 = false → ∃ of, faceRow T.faces face = some of ∧ mbr = of.mbr) := by
  unfold _rtt_AddFaceSplit at hins ⊢
  rw [hring] at hins ⊢
  dsimp only at hins ⊢
  rw [if_neg (fun h => hf h.1)] at hins ⊢
  rw [if_neg (fun h => absurd h.1 (by decide))] at hins ⊢
  rcases addFaceSplitNew_faces G T face ring.1 ring.2
      (decide (face ≠ 0 ∧ G.isccw ring.2 = false)) with h | ⟨h, hl⟩
  · exact absurd h hins
  · rw [h]
    by_cases c : G.isccw ring.2 = true
    · have hd : decide (face ≠ 0 ∧ G.isccw ring.2 = false) = false := by
        simp only [c, Bool.true_eq_false, and_false, decide_False]
      rw [hd]
      simp only [Bool.false_eq_true, if_false]
      exact ⟨_, rfl, fun _ => rfl, fun h2 => absurd (c.symm.trans h2) (by decide)⟩
    · have c2 : G.isccw ring.2 = false := by
        cases hx : G.isccw ring.2
        · rfl
        · exact absurd hx c
      have hd : decide (face ≠ 0 ∧ G.isccw ring.2 = false) = true := by
        simp only [c2, and_true, decide_eq_true_eq]; exact hf
      rw [hd] at hl ⊢
      simp only [if_true]
      obtain ⟨of, h1, h2⟩ := filter_single_faceRow T.faces face (hl rfl)
      refine ⟨_, rfl, fun h3 => absurd h3 c, fun _ => ⟨of, h1, ?_⟩⟩
      rw [h2]; rfl

theorem addFaceSplit_new_face_mbr_witness :
    ∃ mbr, (_rtt_AddFaceSplit boxKernel topoHole 2 1 false).1.faces =
        topoHole.faces ++ [{ face_id := topoHole.face_seq, mbr := mbr }] ∧
      (boxKernel.isccw [⟨20, 20⟩, ⟨20, 30⟩, ⟨30, 20⟩, ⟨20, 20⟩] = true →
        mbr = some (boxKernel.bbox [⟨20, 20⟩, ⟨20, 30⟩, ⟨30, 20⟩, ⟨20, 20⟩])) ∧
      (boxKernel.isccw [⟨20, 20⟩, ⟨20, 30⟩, ⟨30, 20⟩, ⟨20, 20⟩] = false →
        ∃ of, faceRow topoHole.faces 1 = some of ∧ mbr = of.mbr) :=
  addFaceSplit_new_face_mbr boxKernel topoHole 2 1
    ([2], [⟨20, 20⟩, ⟨20, 30⟩, ⟨30, 20⟩, ⟨20, 20⟩]) (by decide) rfl (by decide)

/-- Where the `mbr_only` contract holds: a call `_rtt_AddFaceSplit(sedge, face,
mbr_only = 1)` for a real face (`face ≠ 0`), or for the universe face with a ring that is
not counterclockwise,
that does not end in the error answer `-2` returns `0` or `-1`, leaves the edge table, the
node table and the face sequence as they were, and either leaves the face table as it was
or replaces the MBR of the rows with id `face`. -/
theorem addFaceSplit_mbr_only_frame (G : GEOM) (T : RTT_TOPOLOGY) (sedge face : Int)
    (hside : face ≠ 0 ∨
      ∀ ring, addFaceSplitRing T sedge = .ok (some ring) → G.isccw ring.2 = false)
    (hok : (_rtt_AddFaceSplit G T sedge face true).2 ≠ -2) :
    ((_rtt_AddFaceSplit G T sedge face true).2 = 0 ∨
      (_rtt_AddFaceSplit G T sedge face true).2 = -1) ∧
    mbrOnlyStep face T (_rtt_AddFaceSplit G T sedge face true).1 := by
  unfold _rtt_AddFaceSplit at hok ⊢
  cases hr : addFaceSplitRing T sedge with
  | error msg => rw [hr] at hok; exact absurd rfl hok
  | ok o =>
    cases o with
    | none => exact ⟨Or.inl rfl, rfl, rfl, rfl, Or.inl rfl⟩
    | some ring =>
      rw [hr] at hok
      dsimp only at hok ⊢
      by_cases c1 : face = 0 ∧ G.isccw ring.2 = false
      · rw [if_pos c1]
        exact ⟨Or.inr rfl, rfl, rfl, rfl, Or.inl rfl⟩
      rw [if_neg c1] at hok ⊢
      have hf : face ≠ 0 := by
        rcases hside with h | h
        · exact h
        · intro h0; exact c1 ⟨h0, h ring hr⟩
      rw [if_pos ⟨rfl, hf⟩] at hok ⊢
      obtain ⟨h1, h2⟩ := addFaceSplitMbr_step G T face ring.2
      rcases h2 with h2 | h2
      · exact ⟨Or.inr h2, h1⟩
      · exact absurd h2 hok

theorem addFaceSplit_mbr_only_frame_witness :
    ((_rtt_AddFaceSplit boxKernel topoHole (-2) 1 true).2 = 0 ∨
      (_rtt_AddFaceSplit boxKernel topoHole (-2) 1 true).2 = -1) ∧
    mbrOnlyStep 1 topoHole (_rtt_AddFaceSplit boxKernel topoHole (-2) 1 true).1 :=
  addFaceSplit_mbr_only_frame boxKernel topoHole (-2) 1 (Or.inl (by decide)) (by decide)

end RTTopo

namespace RTTopo

/-! ## `_rtt_CheckEdgeCrossing` classifies as the specification says -/

theorem relateMatch_interiors (m : List Char) (h : m.length = 9) :
    GEOSRelatePatternMatch m "F********".toList =
      if m.head? = some 'F' then 1 else 0 := by
  match m, h with
  | [c0, c1, c2, c3, c4, c5, c6, c7, c8], _ =>
    unfold GEOSRelatePatternMatch
    by_cases c : c0 = 'F'
    · subst c; simp
    · simp [c, Ne.symm c]

theorem relateMatch_line (m : List Char) (h : m.length = 9) :
    GEOSRelatePatternMatch m "1********".toList =
      if m.head? = some '1' then 1 else 0 := by
  match m, h with
  | [c0, c1, c2, c3, c4, c5, c6, c7, c8], _ =>
    unfold GEOSRelatePatternMatch
    by_cases c : c0 = '1'
    · subst c; simp
    · simp [c, Ne.symm c]

theorem relateMatch_meet (m : List Char) (h : m.length = 9) :
    GEOSRelatePatternMatch m "T********".toList =
      if m.head? = some 'F' then 0 else 1 := by
  match m, h with
  | [c0, c1, c2, c3, c4, c5, c6, c7, c8], _ =>
    unfold GEOSRelatePatternMatch
    by_cases c : c0 = 'F'
    · subst c; simp
    · simp [c, Ne.symm c]

theorem relateMatch_coincident (m : List Char) (h : m.length = 9) :
    GEOSRelatePatternMatch m "1FFF*FFF2".toList =
      if m.take 4 = ['1', 'F', 'F', 'F'] ∧ m.drop 5 = ['F', 'F', 'F', '2'] then 1 else 0 := by
  match m, h with
  | [c0, c1, c2, c3, c4, c5, c6, c7, c8], _ =>
    unfold GEOSRelatePatternMatch
    simp
    congr 1
    apply propext
    constructor
    · rintro ⟨h0, h1, h2, h3, h5, h6, h7, h8⟩
      exact ⟨⟨h0.symm, h1.symm, h2.symm, h3.symm⟩, h5.symm, h6.symm, h7.symm, h8.symm⟩
    · rintro ⟨⟨h0, h1, h2, h3⟩, h5, h6, h7, h8⟩
      exact ⟨h0.symm, h1.symm, h2.symm, h3.symm, h5.symm, h6.symm, h7.symm, h8.symm⟩

theorem checkCrossingNodes_spec (G : GEOM) (s e : Int) (geom : RTLINE)
    (nodes : List RTT_ISO_NODE) (hnx : ∀ n ∈ nodes, G.line_contains geom n.geom ≠ 2) :
    checkCrossingNodes G s e geom nodes =
      if nodes.any (fun n => decide (n.node_id ≠ s) && decide (n.node_id ≠ e) &&
          decide (G.line_contains geom n.geom ≠ 0)) then
        some "SQL/MM Spatial exception - geometry crosses a node"
      else none := by
  induction nodes with
  | nil => rfl
  | cons n rest ih =>
    have ih2 := ih (fun x hx => hnx x (List.mem_cons_of_mem _ hx))
    have hn := hnx n (List.mem_cons_self _ _)
    unfold checkCrossingNodes
    rw [List.any_cons]
    by_cases c1 : n.node_id = s
    · rw [if_pos c1, ih2]; simp [c1]
    rw [if_neg c1]
    by_cases c2 : n.node_id = e
    · rw [if_pos c2, ih2]; simp [c2]
    rw [if_neg c2]
    dsimp only
    rw [if_neg hn]
    by_cases c3 : G.line_contains geom n.geom ≠ 0
    · rw [if_pos c3]; simp [c1, c2, c3]
    · rw [if_neg c3, ih2]; simp [c1, c2, c3]

theorem checkCrossingEdges_spec (G : GEOM) (geom : RTLINE) (myself : Int)
    (edges : List RTT_ISO_EDGE)
    (hwf : ∀ ed ∈ edges, ed.edge_id ≠ myself →
      G.geos_line ed.geom = true ∧ ∃ m, G.relate ed.geom geom = some m ∧ m.length = 9) :
    checkCrossingEdges G geom myself edges =
      (edges.filter (fun ed => decide (ed.edge_id ≠ myself))).findSome?
        (fun ed => (G.relate ed.geom geom).bind crossingVerdict) := by
  induction edges with
  | nil => rfl
  | cons ed rest ih =>
    have ih2 := ih (fun x hx => hwf x (List.mem_cons_of_mem _ hx))
    unfold checkCrossingEdges
    by_cases c1 : ed.edge_id = myself
    · rw [if_pos c1, ih2, List.filter_cons_of_neg (by simpa using c1)]
    rw [if_neg c1, List.filter_cons_of_pos (by simpa using c1), List.findSome?_cons]
    obtain ⟨hg, m, hm, hl⟩ := hwf ed (List.mem_cons_self _ _) c1
    rw [hg, hm]
    simp only [Bool.not_true, Bool.false_eq_true, if_false, Option.bind_some, Option.some_bind]
    rw [relateMatch_interiors m hl, relateMatch_coincident m hl, relateMatch_line m hl,
      relateMatch_meet m hl]
    by_cases h0 : m.head? = some 'F'
    · have hv : crossingVerdict m = none := by unfold crossingVerdict; rw [if_pos h0]
      rw [hv, if_pos h0, if_pos (by decide), if_neg (by decide), ih2]
    · rw [if_neg h0, if_neg (by decide)]
      by_cases h1 : m.take 4 = ['1', 'F', 'F', 'F'] ∧ m.drop 5 = ['F', 'F', 'F', '2']
      · have hv : crossingVerdict m = some "SQL/MM Spatial exception - coincident edge" := by
          unfold crossingVerdict; rw [if_neg h0, if_pos h1]
        rw [hv, if_pos h1, if_pos (by decide), if_neg (by decide)]
      · rw [if_neg h1, if_neg (by decide)]
        by_cases h2 : m.head? = some '1'
        · have hv : crossingVerdict m = some "Spatial exception - geometry intersects edge" := by
            unfold crossingVerdict; rw [if_neg h0, if_neg h1, if_pos h2]
          rw [hv, if_pos h2, if_pos (by decide), if_neg (by decide)]
        · have hv : crossingVerdict m =
              some "SQL/MM Spatial exception - geometry crosses edge" := by
            unfold crossingVerdict; rw [if_neg h0, if_neg h1, if_neg h2]
          rw [hv, if_neg h2, if_neg (by decide), if_neg h0, if_pos (by decide),
            if_neg (by decide)]

/-- Claim C29: when the candidate line converts, the box queries answer, the kernel raises
no exception on the nodes and every edge other than `myself` has a nine-character matrix,
`_rtt_CheckEdgeCrossing` does what the specification of the crossing check says: a node
other than the end nodes contained in the line is reported before any edge is examined,
edges with the id `myself` are skipped, an edge is accepted exactly when its matrix starts
with `F`, and the first other edge fails with the coincident, overlap or cross verdict. -/
theorem checkEdgeCrossing_classification (G : GEOM) (T : RTT_TOPOLOGY) (s e : Int)
    (geom : RTLINE) (myself : Int) (nodes : List RTT_ISO_NODE) (edges : List RTT_ISO_EDGE)
    (hgeom : G.geos_line geom = true)
    (hn : rtt_be_getNodeWithinBox2D G T (G.bbox geom) = some nodes)
    (he : rtt_be_getEdgeWithinBox2D G T (G.bbox geom) = some edges)
    (hnx : ∀ n ∈ nodes, G.line_contains geom n.geom ≠ 2)
    (hwf : ∀ ed ∈ edges, ed.edge_id ≠ myself →
      G.geos_line ed.geom = true ∧ ∃ m, G.relate ed.geom geom = some m ∧ m.length = 9) :
    _rtt_CheckEdgeCrossing G T s e geom myself = crossingSpec G T s e geom myself nodes edges ∧
    (∀ m, m.length = 9 → (crossingVerdict m = none ↔ m.head? = some 'F')) := by
  refine ⟨?_, ?_⟩
  · unfold _rtt_CheckEdgeCrossing crossingSpec
    rw [hgeom]
    simp only [Bool.not_true, Bool.false_eq_true, if_false]
    rw [hn]
    dsimp only
    rw [checkCrossingNodes_spec G s e geom nodes hnx]
    by_cases c : (nodes.any (fun n => decide (n.node_id ≠ s) && decide (n.node_id ≠ e) &&
          decide (G.line_contains geom n.geom ≠ 0))) = true
    · rw [if_pos c, if_pos c]
    · rw [if_neg c, if_neg c]
      dsimp only
      rw [he]
      dsimp only
      rw [checkCrossingEdges_spec G geom myself edges hwf] <;>
        (cases (edges.filter (fun ed => decide (ed.edge_id ≠ myself))).findSome?
          (fun ed => (G.relate ed.geom geom).bind crossingVerdict) <;> rfl)
  · intro m _
    unfold crossingVerdict
    by_cases h0 : m.head? = some 'F'
    · simp only [h0, if_true]
    · simp only [h0, if_false, iff_false]
      split_ifs <;> simp

theorem checkEdgeCrossing_classification_witness :
    _rtt_CheckEdgeCrossing crossKernel topoOneEdge 1 2 [⟨0, 0⟩, ⟨10, 0⟩] 0 =
      crossingSpec crossKernel topoOneEdge 1 2 [⟨0, 0⟩, ⟨10, 0⟩] 0
        topoOneEdge.nodes topoOneEdge.edges :=
  (checkEdgeCrossing_classification crossKernel topoOneEdge 1 2 [⟨0, 0⟩, ⟨10, 0⟩] 0
    topoOneEdge.nodes topoOneEdge.edges rfl rfl rfl (by decide)
    (by
      intro ed hed _
      have hed2 : ed = ⟨1, 1, 2, 0, 0, -1, 1, [⟨0, 0⟩, ⟨10, 0⟩]⟩ := List.mem_singleton.mp hed
      subst hed2
      exact ⟨rfl, "1FF0FF102".toList, rfl, rfl⟩)).1

end RTTopo

namespace RTTopo

/-! ## `rtt_MoveIsoNode` and `rtt_ChangeEdgeGeom` on worked states -/

/-- Claim C21, failing input: in the state `topoYard` node `2` is isolated in the universe
face (`containing_face = 0`) and the point `(10, 10)` lies in face `1`, on no node and on
no edge; `rtt_MoveIsoNode(2, (10, 10))` does not fail: it returns `0`, reports no error
and stores the new position, the node keeping `containing_face = 0`. -/
theorem rtt_MoveIsoNode_other_face_accepted :
    nodeRow topoYard.nodes 2 =
      some { node_id := 2, containing_face := 0, geom := { x := 200, y := 200 } } ∧
    rtt_be_getFaceContainingPoint yardKernel topoYard { x := 10, y := 10 } = 1 ∧
    (rtt_be_ExistsCoincidentNode yardKernel topoYard { x := 10, y := 10 }).2 = 0 ∧
    (rtt_be_ExistsEdgeIntersectingPoint yardKernel topoYard { x := 10, y := 10 }).2 = 0 ∧
    (rtt_MoveIsoNode yardKernel topoYard 2 { x := 10, y := 10 }).2 = 0 ∧
    (rtt_MoveIsoNode yardKernel topoYard 2 { x := 10, y := 10 }).1.errors = [] ∧
    nodeRow (rtt_MoveIsoNode yardKernel topoYard 2 { x := 10, y := 10 }).1.nodes 2 =
      some { node_id := 2, containing_face := 0, geom := { x := 10, y := 10 } } := by
  decide

/-- Claim C22, counterexample: `topoLens` is a valid state in which, around node `1`,
edge `2` (45 degrees) lies between edge `3` (270 degrees) and edge `1` (68 degrees). The
call `rtt_ChangeEdgeGeom(2, LINESTRING(0 0, 5 1, 10 0))` moves edge `2` below edge `1`
(79 degrees): the new line crosses no edge and passes over no node, so the crossing check
and the motion-range check pass (the nodes in the motion box are the two end nodes), but
the neighbours of the edge around its start node change. The call fails (`-1`) with "Edge
changed disposition around start node", and the geometry stored for edge `2` after the
failed call is the new line, not the old one. -/
theorem rtt_ChangeEdgeGeom_twist_not_atomic :
    roundTripValid topoLens ∧
    (edgeRow topoLens.edges 2).map (fun e => e.geom) =
      some [{ x := 0, y := 0 }, { x := 5, y := 5 }, { x := 10, y := 0 }] ∧
    (_rtt_CheckEdgeCrossing lensKernel topoLens 1 2
      [{ x := 0, y := 0 }, { x := 5, y := 1 }, { x := 10, y := 0 }] 2).2 = 0 ∧
    (rtt_be_getNodeWithinBox2D lensKernel topoLens
      (lensKernel.gbox_merge
        (lensKernel.bbox [{ x := 0, y := 0 }, { x := 5, y := 5 }, { x := 10, y := 0 }])
        (lensKernel.bbox [{ x := 0, y := 0 }, { x := 5, y := 1 }, { x := 10, y := 0 }]))).map
      (fun l => l.map (fun n => n.node_id)) = some [1, 2] ∧
    ((_rtt_FindAdjacentEdges lensKernel topoLens 1 (edgeendOfAzimuth 45) none 2).2.1.nextCW,
      (_rtt_FindAdjacentEdges lensKernel topoLens 1 (edgeendOfAzimuth 45) none 2).2.1.nextCCW)
      = (1, 3) ∧
    ((_rtt_FindAdjacentEdges lensKernel topoLens 1 (edgeendOfAzimuth 79) none 2).2.1.nextCW,
      (_rtt_FindAdjacentEdges lensKernel topoLens 1 (edgeendOfAzimuth 79) none 2).2.1.nextCCW)
      = (3, 1) ∧
    (rtt_ChangeEdgeGeom lensKernel topoLens 2
      [{ x := 0, y := 0 }, { x := 5, y := 1 }, { x := 10, y := 0 }]).2 = -1 ∧
    (rtt_ChangeEdgeGeom lensKernel topoLens 2
      [{ x := 0, y := 0 }, { x := 5, y := 1 }, { x := 10, y := 0 }]).1.errors
      = ["Edge changed disposition around start node"] ∧
    (edgeRow (rtt_ChangeEdgeGeom lensKernel topoLens 2
      [{ x := 0, y := 0 }, { x := 5, y := 1 }, { x := 10, y := 0 }]).1.edges 2).map
        (fun e => e.geom) =
      some [{ x := 0, y := 0 }, { x := 5, y := 1 }, { x := 10, y := 0 }] := by
  refine ⟨by decide, by decide, by decide, by decide, by decide, by decide, by decide,
    by decide, by decide⟩

end RTTopo

namespace RTTopo

/-! ## `_rtt_ReverseElemidArray` and `_rtt_RotateElemidArray` -/

theorem swapElemid_length (ary : List Int) (i j : Int) :
    (swapElemid ary i j).length = ary.length := by
  unfold swapElemid
  simp only [List.length_set]

theorem swapElemid_get (ary : List Int) (i j : Nat) (hi : i < ary.length)
    (hj : j < ary.length) (k : Nat) :
    (swapElemid ary (i : Int) (j : Int))[k]? =
      if k = j then ary[i]? else if k = i then ary[j]? else ary[k]? := by
  unfold swapElemid
  simp only [Int.toNat_ofNat, List.getElem?_set, List.length_set, List.getD_eq_getElem?_getD,
    List.getElem?_eq_getElem hi, List.getElem?_eq_getElem hj, Option.getD_some]
  by_cases c1 : k = j
  · subst c1
    simp only [if_true, hj]
  · rw [if_neg c1, if_neg (fun h => c1 h.symm)]
    by_cases c2 : k = i
    · subst c2
      simp only [if_true, hi]
    · rw [if_neg c2, if_neg (fun h => c2 h.symm)]

theorem reverseElemidLoop_length (n : Nat) (ary : List Int) (a b : Int) :
    (reverseElemidLoop n ary a b).length = ary.length := by
  induction n generalizing ary a b with
  | zero => rfl
  | succ n ih =>
    unfold reverseElemidLoop
    split_ifs
    · rw [ih, swapElemid_length]
    · rfl

theorem reverseElemidLoop_get (n : Nat) (ary : List Int) (i j : Nat)
    (hj : j < ary.length) (hn : j ≤ i + n) (k : Nat) :
    (reverseElemidLoop n ary (i : Int) (j : Int))[k]? =
      if i ≤ k ∧ k ≤ j then ary[i + j - k]? else ary[k]? := by
  induction n generalizing ary i j with
  | zero =>
    unfold reverseElemidLoop
    by_cases c : i ≤ k ∧ k ≤ j
    · rw [if_pos c]
      have : i + j - k = k := by omega
      rw [this]
    · rw [if_neg c]
  | succ n ih =>
    unfold reverseElemidLoop
    by_cases c : (i : Int) < (j : Int)
    · rw [if_pos c]
      have hij : i < j := by exact_mod_cast c
      have e1 : (i : Int) + 1 = ((i + 1 : Nat) : Int) := by push_cast; rfl
      have e2 : (j : Int) - 1 = ((j - 1 : Nat) : Int) := by omega
      rw [e1, e2]
      rw [ih (swapElemid ary i j) (i + 1) (j - 1)
        (by rw [swapElemid_length]; omega) (by omega)]
      have hi : i < ary.length := by omega
      by_cases c2 : i + 1 ≤ k ∧ k ≤ j - 1
      · rw [if_pos c2, if_pos (by omega), swapElemid_get ary i j hi hj,
          if_neg (by omega), if_neg (by omega)]
        congr 1
        omega
      · rw [if_neg c2, swapElemid_get ary i j hi hj]
        by_cases c3 : k = j
        · rw [if_pos c3, if_pos (by omega)]
          congr 1
          omega
        · rw [if_neg c3]
          by_cases c4 : k = i
          · rw [if_pos c4, if_pos (by omega)]
            congr 1
            omega
          · rw [if_neg c4, if_neg (by omega)]
    · rw [if_neg c]
      have hij : j ≤ i := by
        by_contra h
        exact c (by exact_mod_cast (Nat.lt_of_not_le h))
      by_cases c2 : i ≤ k ∧ k ≤ j
      · rw [if_pos c2]
        have : i + j - k = k := by omega
        rw [this]
      · rw [if_neg c2]

/-- The vertex index a reversal of the positions `a .. b` reads position `k` from. -/
theorem reverseElemidArray_get (ary : List Int) (i j : Nat) (hj : j < ary.length) (k : Nat) :
    (_rtt_ReverseElemidArray ary (i : Int) (j : Int))[k]? =
      if i ≤ k ∧ k ≤ j then ary[i + j - k]? else ary[k]? := by
  unfold _rtt_ReverseElemidArray
  exact reverseElemidLoop_get _ ary i j hj (by omega) k

theorem reverseElemidArray_length (ary : List Int) (a b : Int) :
    (_rtt_ReverseElemidArray ary a b).length = ary.length := by
  unfold _rtt_ReverseElemidArray
  exact reverseElemidLoop_length _ ary a b

theorem rotateElemidArray_get (ary : List Int) (f r t : Nat) (h1 : f < r) (h2 : r < t)
    (h3 : t ≤ ary.length) (k : Nat) :
    (_rtt_RotateElemidArray ary (f : Int) (t : Int) (r : Int))[k]? =
      if f ≤ k ∧ k < t then (if k < f + (t - r) then ary[k - f + r]? else ary[k - (t - r)]?)
      else ary[k]? := by
  unfold _rtt_RotateElemidArray
  have e1 : (r : Int) - 1 = ((r - 1 : Nat) : Int) := by omega
  have e2 : (t : Int) - 1 = ((t - 1 : Nat) : Int) := by omega
  rw [e1, e2]
  rw [reverseElemidArray_get _ f (t - 1)
    (by rw [reverseElemidArray_length, reverseElemidArray_length]; omega)]
  by_cases c : f ≤ k ∧ k ≤ t - 1
  · rw [if_pos c, if_pos (by omega)]
    rw [reverseElemidArray_get _ r (t - 1) (by rw [reverseElemidArray_length]; omega)]
    by_cases c2 : k < f + (t - r)
    · rw [if_pos c2, if_pos (by omega)]
      rw [reverseElemidArray_get _ f (r - 1) (by omega), if_neg (by omega)]
      congr 1
      omega
    · rw [if_neg c2, if_neg (by omega)]
      rw [reverseElemidArray_get _ f (r - 1) (by omega), if_pos (by omega)]
      congr 1
      omega
  · rw [if_neg c, if_neg (by omega)]
    rw [reverseElemidArray_get _ r (t - 1) (by rw [reverseElemidArray_length]; omega),
      if_neg (by omega)]
    rw [reverseElemidArray_get _ f (r - 1) (by omega), if_neg (by omega)]

theorem rotateElemidArray_length (ary : List Int) (a b c : Int) :
    (_rtt_RotateElemidArray ary a b c).length = ary.length := by
  unfold _rtt_RotateElemidArray
  rw [reverseElemidArray_length, reverseElemidArray_length, reverseElemidArray_length]

/-- The array after `_rtt_RotateElemidArray(ary, from, to, rotidx)` with
`from < rotidx < to`, as a list. -/
theorem rotateElemidArray_eq (ary : List Int) (f r t : Nat) (h1 : f < r) (h2 : r < t)
    (h3 : t ≤ ary.length) :
    _rtt_RotateElemidArray ary (f : Int) (t : Int) (r : Int) =
      ary.take f ++ ((ary.drop r).take (t - r) ++ (ary.drop f).take (r - f)) ++
        ary.drop t := by
  apply List.ext_getElem?
  intro k
  rw [rotateElemidArray_get ary f r t h1 h2 h3 k]
  by_cases ck : k < f
  · rw [if_neg (by omega), List.append_assoc, List.getElem?_append_left
      (by rw [List.length_take]; omega), List.getElem?_take_of_lt ck]
  · by_cases ck2 : k < t
    · rw [if_pos ⟨by omega, ck2⟩, List.append_assoc,
        List.getElem?_append_right (by rw [List.length_take]; omega),
        List.getElem?_append_left (by
          simp only [List.length_take, List.length_append, List.length_drop]; omega)]
      have hl : (ary.take f).length = f := by rw [List.length_take]; omega
      rw [hl]
      by_cases c2 : k < f + (t - r)
      · rw [if_pos c2, List.getElem?_append_left (by
          simp only [List.length_take, List.length_drop]; omega),
          List.getElem?_take_of_lt (by omega), List.getElem?_drop]
        congr 1
        omega
      · rw [if_neg c2, List.getElem?_append_right (by
          simp only [List.length_take, List.length_drop]; omega)]
        have hl2 : ((ary.drop r).take (t - r)).length = t - r := by
          simp only [List.length_take, List.length_drop]; omega
        rw [hl2, List.getElem?_take_of_lt (by omega), List.getElem?_drop]
        congr 1
        omega
    · rw [if_neg (by omega), List.append_assoc,
        List.getElem?_append_right (by rw [List.length_take]; omega),
        List.getElem?_append_right (by
          simp only [List.length_take, List.length_append, List.length_drop]; omega),
        List.getElem?_drop]
      congr 1
      simp only [List.length_take, List.length_append, List.length_drop]
      omega

end RTTopo

namespace RTTopo

/-! ## The ring-covering loop of `rtt_GetFaceEdges` -/

theorem ringEdgeMatches_two (ring : POINTARRAY) (j : Nat) (e : RTT_ISO_EDGE)
    (h : ringEdgeMatches ring j e = true) : 2 ≤ e.geom.length := by
  unfold ringEdgeMatches at h
  dsimp only at h
  by_contra hlt
  have hl : e.geom.length ≤ 1 := by omega
  have h1 : e.geom.drop 1 = [] := List.drop_eq_nil_of_le hl
  have h2 : e.geom.dropLast = [] := by
    apply List.eq_nil_of_length_eq_zero
    rw [List.length_dropLast]; omega
  rw [h1, h2] at h
  simp at h

theorem findNextRingEdgeFrom_facts (ring : POINTARRAY) (j : Nat) (edges : List RTT_ISO_EDGE)
    (i0 idx : Nat) (h : findNextRingEdgeFrom ring j edges i0 = some idx) :
    i0 ≤ idx ∧ idx - i0 < edges.length ∧
    ringEdgeLive (edges.getD (idx - i0) blankEdge) = true ∧
    ringEdgeMatches ring j (edges.getD (idx - i0) blankEdge) = true ∧
    ∀ dead : RTT_ISO_EDGE, ringEdgeLive dead = false →
      (edges.set (idx - i0) dead).countP ringEdgeLive + 1 = edges.countP ringEdgeLive := by
  induction edges generalizing i0 with
  | nil => simp [findNextRingEdgeFrom] at h
  | cons e rest ih =>
    unfold findNextRingEdgeFrom at h
    by_cases c1 : e.face_left = e.face_right
    · rw [if_pos c1] at h
      obtain ⟨g1, g2, g3, g4, g5⟩ := ih (i0 + 1) h
      have hd : idx - i0 = (idx - (i0 + 1)) + 1 := by omega
      have hdead : ringEdgeLive e = false := by
        unfold ringEdgeLive; simp only [c1, ne_eq, not_true_eq_false, decide_False]
      refine ⟨by omega, by rw [List.length_cons]; omega, ?_, ?_, ?_⟩
      · rw [hd, List.getD_cons_succ]; exact g3
      · rw [hd, List.getD_cons_succ]; exact g4
      · intro dead hdd
        rw [hd, List.set_cons_succ, List.countP_cons_of_neg _ _ (by rw [hdead]; decide),
          List.countP_cons_of_neg _ _ (by rw [hdead]; decide)]
        exact g5 dead hdd
    · rw [if_neg c1] at h
      have hlive : ringEdgeLive e = true := by
        unfold ringEdgeLive; simp only [ne_eq, c1, not_false_eq_true, decide_True]
      by_cases c2 : ringEdgeMatches ring j e = true
      · rw [if_pos c2] at h
        have hi : idx = i0 := (Option.some.inj h).symm
        subst hi
        rw [Nat.sub_self]
        refine ⟨Nat.le_refl _, by rw [List.length_cons]; omega, hlive, c2, ?_⟩
        intro dead hdd
        rw [List.set_cons_zero, List.countP_cons_of_neg _ _ (by rw [hdd]; decide),
          List.countP_cons_of_pos _ _ hlive]
      · rw [if_neg c2] at h
        obtain ⟨g1, g2, g3, g4, g5⟩ := ih (i0 + 1) h
        have hd : idx - i0 = (idx - (i0 + 1)) + 1 := by omega
        refine ⟨by omega, by rw [List.length_cons]; omega, ?_, ?_, ?_⟩
        · rw [hd, List.getD_cons_succ]; exact g3
        · rw [hd, List.getD_cons_succ]; exact g4
        · intro dead hdd
          rw [hd, List.set_cons_succ, List.countP_cons_of_pos _ _ hlive,
            List.countP_cons_of_pos _ _ hlive, g5 dead hdd]

/-- What one match of `_rtt_FindNextRingEdge` gives: a row inside the array that is still
live and has two vertices or more; marking it takes one row off the live ones. -/
theorem findNextRingEdge_facts (ring : POINTARRAY) (j : Nat) (edges : List RTT_ISO_EDGE)
    (idx : Nat) (h : _rtt_FindNextRingEdge ring j edges = some idx) :
    idx < edges.length ∧ ringEdgeLive (edges.getD idx blankEdge) = true ∧
    2 ≤ (edges.getD idx blankEdge).geom.length ∧
    (edges.set idx { edges.getD idx blankEdge with face_left := -1, face_right := -1 }).countP
      ringEdgeLive + 1 = edges.countP ringEdgeLive := by
  obtain ⟨_, g2, g3, g4, g5⟩ := findNextRingEdgeFrom_facts ring j edges 0 idx h
  rw [Nat.sub_zero] at g2 g3 g4 g5
  exact ⟨g2, g3, ringEdgeMatches_two ring j _ g4, g5 _ rfl⟩

theorem faceRingLoop_total (face_id : Int) (ring : POINTARRAY) (fuel j : Nat)
    (edges : List RTT_ISO_EDGE) (seid : List Int)
    (h : edges.countP ringEdgeLive < fuel) :
    faceRingLoop face_id ring fuel j edges seid ≠ none := by
  induction fuel generalizing j edges seid with
  | zero => exact absurd h (Nat.not_lt_zero _)
  | succ n ih =>
    unfold faceRingLoop
    by_cases c : j + 1 < ring.length
    · rw [if_pos c]
      cases hf : _rtt_FindNextRingEdge ring j edges with
      | none => simp
      | some idx =>
        dsimp only
        obtain ⟨_, _, _, g4⟩ := findNextRingEdge_facts ring j edges idx hf
        rw [← g4] at h
        exact ih _ _ _ (Nat.lt_of_succ_lt_succ h)
    · rw [if_neg c]; simp

theorem faceRingLoop_prefix (face_id : Int) (ring : POINTARRAY) (fuel j : Nat)
    (edges : List RTT_ISO_EDGE) (pre acc : List Int) :
    faceRingLoop face_id ring fuel j edges (pre ++ acc) =
      (faceRingLoop face_id ring fuel j edges acc).map
        (fun r => r.map (fun p => (p.1, pre ++ p.2))) := by
  induction fuel generalizing j edges acc with
  | zero => rfl
  | succ n ih =>
    unfold faceRingLoop
    by_cases c : j + 1 < ring.length
    · rw [if_pos c, if_pos c]
      cases hf : _rtt_FindNextRingEdge ring j edges with
      | none => rfl
      | some idx =>
        dsimp only
        rw [List.append_assoc, ih]
    · rw [if_neg c, if_neg c]; rfl

/-- The run of the inner loop as a list of matched row indexes: the ids appended are the
signed ids of these rows, no row is matched twice, every matched row was live and is
marked afterwards, and the other rows are as before. -/
theorem faceRingLoop_trace (face_id : Int) (ring : POINTARRAY) (fuel j : Nat)
    (edges : List RTT_ISO_EDGE) (seid : List Int) (res : List RTT_ISO_EDGE × List Int)
    (h : faceRingLoop face_id ring fuel j edges seid = some (.ok res)) :
    ∃ idxs : List Nat,
      res.2 = seid ++ idxs.map (fun i => faceEdgeSigned face_id (edges.getD i blankEdge)) ∧
      idxs.Nodup ∧
      (∀ i ∈ idxs, i < edges.length ∧ ringEdgeLive (edges.getD i blankEdge) = true) ∧
      res.1.length = edges.length ∧
      (∀ i ∈ idxs, ringEdgeLive (res.1.getD i blankEdge) = false) ∧
      (∀ i, i ∉ idxs → res.1.getD i blankEdge = edges.getD i blankEdge) ∧
      (∀ i, (res.1.getD i blankEdge).edge_id = (edges.getD i blankEdge).edge_id) := by
  induction fuel generalizing j edges seid with
  | zero => simp [faceRingLoop] at h
  | succ n ih =>
    unfold faceRingLoop at h
    by_cases c : j + 1 < ring.length
    · rw [if_pos c] at h
      cases hf : _rtt_FindNextRingEdge ring j edges with
      | none => rw [hf] at h; simp at h
      | some idx =>
        rw [hf] at h
        dsimp only at h
        obtain ⟨g1, g2, _, _⟩ := findNextRingEdge_facts ring j edges idx hf
        obtain ⟨is, e1, e2, e3, e4, e5, e6, e7⟩ := ih _ _ _ h
        have hset : ∀ i, i ≠ idx →
            (edges.set idx { edges.getD idx blankEdge with
              face_left := -1, face_right := -1 }).getD i blankEdge =
            edges.getD i blankEdge := by
          intro i hi
          simp only [List.getD_eq_getElem?_getD, List.getElem?_set]
          rw [if_neg (fun hh => hi hh.symm)]
        have hsame : (edges.set idx { edges.getD idx blankEdge with
              face_left := -1, face_right := -1 }).getD idx blankEdge =
            { edges.getD idx blankEdge with face_left := -1, face_right := -1 } := by
          simp only [List.getD_eq_getElem?_getD, List.getElem?_set, if_true, g1,
            Option.getD_some]
        have hnot : idx ∉ is := by
          intro hin
          have := (e3 idx hin).2
          rw [hsame] at this
          simp [ringEdgeLive] at this
        refine ⟨idx :: is, ?_, ?_, ?_, ?_, ?_, ?_, ?_⟩
        · rw [e1, List.append_assoc, List.map_cons, List.singleton_append]
          congr 2
          apply List.map_congr_left
          intro i hi
          rw [hset i (fun hh => hnot (hh ▸ hi))]
        · exact List.nodup_cons.mpr ⟨hnot, e2⟩
        · intro i hi
          rcases List.mem_cons.mp hi with rfl | hi
          · exact ⟨g1, g2⟩
          · have := e3 i hi
            rw [List.length_set] at this
            rw [hset i (fun hh => hnot (hh ▸ hi))] at this
            exact this
        · rw [e4, List.length_set]
        · intro i hi
          rcases List.mem_cons.mp hi with rfl | hi
          · by_cases hm : i ∈ is
            · exact e5 i hm
            · rw [e6 i hm, hsame]; rfl
          · exact e5 i hi
        · intro i hi
          have h1 : i ≠ idx := fun hh => hi (hh ▸ List.mem_cons_self _ _)
          have h2 : i ∉ is := fun hh => hi (List.mem_cons_of_mem _ hh)
          rw [e6 i h2, hset i h1]
        · intro i
          rw [e7 i]
          by_cases hi : i = idx
          · subst hi; rw [hsame]
          · rw [hset i hi]
    · rw [if_neg c] at h
      have hr : res = (edges, seid) := by
        have := Option.some.inj h
        injection this with h2
        exact h2.symm
      subst hr
      exact ⟨[], by simp, List.nodup_nil, by simp, rfl, by simp, fun _ _ => rfl, fun _ => rfl⟩

end RTTopo

namespace RTTopo

/-! ## The scroll step of `rtt_GetFaceEdges` -/

theorem llabs_nonneg (x : Int) : 0 ≤ llabs x := by
  unfold llabs; split_ifs <;> omega

theorem llabs_eq_zero {x : Int} (h : llabs x = 0) : x = 0 := by
  unfold llabs at h; split_ifs at h <;> omega

theorem faceRingMin_fold_index (seid : List Int) (js : List Nat) (s : Int × Nat)
    (seen : List Nat) (h : (seen = [] ∧ s.1 = 0) ∨ s.2 ∈ seen) :
    (seen ++ js = [] ∧ (js.foldl
      (fun (m : Int × Nat) j =>
        if m.1 = 0 ∨ llabs (seid.getD j 0) < m.1 then (llabs (seid.getD j 0), j) else m)
      s).1 = 0) ∨
    (js.foldl
      (fun (m : Int × Nat) j =>
        if m.1 = 0 ∨ llabs (seid.getD j 0) < m.1 then (llabs (seid.getD j 0), j) else m)
      s).2 ∈ seen ++ js := by
  induction js generalizing s seen with
  | nil => simpa using h
  | cons j rest ih =>
    rw [List.foldl_cons]
    have hstep : (if s.1 = 0 ∨ llabs (seid.getD j 0) < s.1 then (llabs (seid.getD j 0), j)
        else s).2 ∈ seen ++ [j] := by
      by_cases c : s.1 = 0 ∨ llabs (seid.getD j 0) < s.1
      · rw [if_pos c]; simp
      · rw [if_neg c]
        rcases h with ⟨_, h0⟩ | h
        · exact absurd (Or.inl h0) c
        · exact List.mem_append_left _ h
    have := ih _ (seen ++ [j]) (Or.inr hstep)
    rw [List.append_assoc, List.singleton_append] at this
    exact this

theorem faceRingMin_fold_least (seid : List Int) (js : List Nat) (s : Int × Nat)
    (seen : List Nat) (hnz : ∀ j ∈ js, seid.getD j 0 ≠ 0)
    (h : (seen = [] ∧ s.1 = 0) ∨
      (s.1 ≠ 0 ∧ s.1 = llabs (seid.getD s.2 0) ∧ ∀ j ∈ seen, s.1 ≤ llabs (seid.getD j 0))) :
    (seen ++ js = [] ∨
    (llabs (seid.getD (js.foldl
      (fun (m : Int × Nat) j =>
        if m.1 = 0 ∨ llabs (seid.getD j 0) < m.1 then (llabs (seid.getD j 0), j) else m)
      s).2 0) ≠ 0 ∧
      ∀ j ∈ seen ++ js, llabs (seid.getD (js.foldl
      (fun (m : Int × Nat) j =>
        if m.1 = 0 ∨ llabs (seid.getD j 0) < m.1 then (llabs (seid.getD j 0), j) else m)
      s).2 0) ≤ llabs (seid.getD j 0))) := by
  induction js generalizing s seen with
  | nil =>
    rcases h with ⟨h1, _⟩ | ⟨h1, h2, h3⟩
    · left; simpa using h1
    · right
      simp only [List.foldl_nil, List.append_nil]
      rw [← h2]
      exact ⟨h1, h3⟩
  | cons j rest ih =>
    rw [List.foldl_cons]
    have hj : llabs (seid.getD j 0) ≠ 0 := fun h0 =>
      hnz j (List.mem_cons_self _ _) (llabs_eq_zero h0)
    have hstep : (if s.1 = 0 ∨ llabs (seid.getD j 0) < s.1 then (llabs (seid.getD j 0), j)
          else s).1 ≠ 0 ∧
        (if s.1 = 0 ∨ llabs (seid.getD j 0) < s.1 then (llabs (seid.getD j 0), j)
          else s).1 = llabs (seid.getD (if s.1 = 0 ∨ llabs (seid.getD j 0) < s.1
            then (llabs (seid.getD j 0), j) else s).2 0) ∧
        ∀ i ∈ seen ++ [j], (if s.1 = 0 ∨ llabs (seid.getD j 0) < s.1
          then (llabs (seid.getD j 0), j) else s).1 ≤ llabs (seid.getD i 0) := by
      by_cases c : s.1 = 0 ∨ llabs (seid.getD j 0) < s.1
      · rw [if_pos c]
        refine ⟨hj, rfl, ?_⟩
        intro i hi
        rcases List.mem_append.mp hi with hi | hi
        · rcases h with ⟨h1, _⟩ | ⟨h1, _, h3⟩
          · rw [h1] at hi; exact absurd hi (List.not_mem_nil _)
          · rcases c with c | c
            · exact absurd c h1
            · exact Int.le_trans (Int.le_of_lt c) (h3 i hi)
        · rw [List.mem_singleton.mp hi]
      · rw [if_neg c]
        rcases h with ⟨_, h0⟩ | ⟨h1, h2, h3⟩
        · exact absurd (Or.inl h0) c
        · refine ⟨h1, h2, ?_⟩
          intro i hi
          rcases List.mem_append.mp hi with hi | hi
          · exact h3 i hi
          · rw [List.mem_singleton.mp hi]
            by_contra hlt
            exact c (Or.inr (Int.lt_of_not_ge hlt))
    have := ih _ (seen ++ [j]) (fun i hi => hnz i (List.mem_cons_of_mem _ hi)) (Or.inr hstep)
    rw [List.append_assoc, List.singleton_append] at this
    exact this

/-- The index `faceRingMin` answers lies in the block. -/
theorem faceRingMin_index (seid : List Int) (p n : Nat) (h : p < n) :
    p ≤ (faceRingMin seid p n).2 ∧ (faceRingMin seid p n).2 < n := by
  unfold faceRingMin
  rcases faceRingMin_fold_index seid (List.range' p (n - p)) (0, 0) [] (Or.inl ⟨rfl, rfl⟩)
    with ⟨h1, _⟩ | h1
  · rw [List.nil_append] at h1
    have := congrArg List.length h1
    rw [List.length_range'] at this
    simp only [List.length_nil] at this
    omega
  · rw [List.nil_append, List.mem_range'_1] at h1
    omega

/-- With non-zero ids in the block, the id at the index `faceRingMin` answers has the
least absolute value of the block. -/
theorem faceRingMin_least (seid : List Int) (p n : Nat) (h : p < n)
    (hnz : ∀ j, p ≤ j → j < n → seid.getD j 0 ≠ 0) :
    ∀ j, p ≤ j → j < n →
      llabs (seid.getD (faceRingMin seid p n).2 0) ≤ llabs (seid.getD j 0) := by
  unfold faceRingMin
  rcases faceRingMin_fold_least seid (List.range' p (n - p)) (0, 0) []
    (fun j hj => by
      rw [List.mem_range'_1] at hj
      exact hnz j hj.1 (by omega))
    (Or.inl ⟨rfl, rfl⟩) with h1 | ⟨_, h1⟩
  · rw [List.nil_append] at h1
    have := congrArg List.length h1
    rw [List.length_range'] at this
    simp only [List.length_nil] at this
    omega
  · intro j hj1 hj2
    apply h1
    rw [List.nil_append, List.mem_range'_1]
    omega

theorem getD_block (pre ms : List Int) (i : Nat) :
    (pre ++ ms).getD (pre.length + i) 0 = ms.getD i 0 := by
  simp only [List.getD_eq_getElem?_getD]
  rw [List.getElem?_append_right (by omega)]
  congr 2
  omega

theorem smallestFirst_of_least (pre ms : List Int) (k : Nat) (hk : k < ms.length)
    (hleast : ∀ j, pre.length ≤ j → j < pre.length + ms.length →
      llabs ((pre ++ ms).getD (pre.length + k) 0) ≤ llabs ((pre ++ ms).getD j 0)) :
    smallestFirst (ms.rotate k) := by
  intro h hh x hx
  rw [List.mem_rotate] at hx
  rw [List.rotate_eq_drop_append_take (Nat.le_of_lt hk)] at hh
  have hd : (ms.drop k ++ ms.take k).head? = some (ms.getD k 0) := by
    rw [List.head?_append_of_ne_nil _ (by
      intro hnil
      have := congrArg List.length hnil
      rw [List.length_drop] at this
      simp only [List.length_nil] at this
      omega)]
    rw [List.head?_drop, List.getD_eq_getElem?_getD, List.getElem?_eq_getElem hk]
    rfl
  rw [hd] at hh
  have hh2 : h = ms.getD k 0 := (Option.some.inj hh).symm
  obtain ⟨i, hi, rfl⟩ := List.getElem_of_mem hx
  have := hleast (pre.length + i) (by omega) (by omega)
  rw [getD_block, getD_block] at this
  rw [hh2]
  have e : ms.getD i 0 = ms[i] := by
    rw [List.getD_eq_getElem?_getD, List.getElem?_eq_getElem hi]; rfl
  rw [e] at this
  exact this

/-- The scroll step on the block `ms` written after the ids `pre`: the ids before the
block stay, the block is rotated, and with non-zero ids its first id has the smallest
absolute value. -/
theorem faceRingScroll_block (pre ms : List Int) :
    ∃ k, faceRingScroll (pre ++ ms) pre.length (pre ++ ms).length = pre ++ ms.rotate k ∧
      ((∀ x ∈ ms, x ≠ 0) → smallestFirst (ms.rotate k)) := by
  unfold faceRingScroll
  by_cases c : (((pre ++ ms).length : Nat) : Int) - ((pre.length : Nat) : Int) > 1
  · rw [if_pos c]
    have hlen : 2 ≤ ms.length := by
      rw [List.length_append] at c; push_cast at c; omega
    have hpn : pre.length < (pre ++ ms).length := by rw [List.length_append]; omega
    obtain ⟨i1, i2⟩ := faceRingMin_index (pre ++ ms) pre.length (pre ++ ms).length hpn
    have hleast : (∀ x ∈ ms, x ≠ 0) → ∀ j, pre.length ≤ j → j < pre.length + ms.length →
        llabs ((pre ++ ms).getD (faceRingMin (pre ++ ms) pre.length (pre ++ ms).length).2 0)
          ≤ llabs ((pre ++ ms).getD j 0) := by
      intro hnz j hj1 hj2
      apply faceRingMin_least (pre ++ ms) pre.length (pre ++ ms).length hpn _ j hj1
        (by rw [List.length_append]; exact hj2)
      intro i hi1 hi2
      rw [List.length_append] at hi2
      have e : i = pre.length + (i - pre.length) := by omega
      rw [e, getD_block]
      have hlt : i - pre.length < ms.length := by omega
      rw [List.getD_eq_getElem?_getD, List.getElem?_eq_getElem hlt]
      exact hnz _ (List.getElem_mem _)
    generalize (faceRingMin (pre ++ ms) pre.length (pre ++ ms).length).2 = idx at i1 i2 hleast
    rw [List.length_append] at i2
    by_cases c2 : idx ≠ pre.length
    · rw [if_pos c2]
      refine ⟨idx - pre.length, ?_, ?_⟩
      · rw [rotateElemidArray_eq (pre ++ ms) pre.length idx (pre ++ ms).length
          (by omega) (by rw [List.length_append]; omega) (Nat.le_refl _)]
        rw [List.take_left, List.drop_left, List.drop_length, List.append_nil]
        have e : idx = pre.length + (idx - pre.length) := by omega
        have hd : (pre ++ ms).drop idx = ms.drop (idx - pre.length) := by
          conv_lhs => rw [e]
          rw [List.drop_append]
        rw [hd, List.take_of_length_le (by
          rw [List.length_drop, List.length_append]; omega),
          List.rotate_eq_drop_append_take (by omega)]
      · intro hnz
        apply smallestFirst_of_least pre ms (idx - pre.length) (by omega)
        have e : pre.length + (idx - pre.length) = idx := by omega
        rw [e]
        exact hleast hnz
    · rw [if_neg c2]
      have c3 : idx = pre.length := by
        by_contra hne; exact c2 hne
      refine ⟨0, by rw [List.rotate_zero], ?_⟩
      intro hnz
      apply smallestFirst_of_least pre ms 0 (by omega)
      rw [Nat.add_zero]
      have := hleast hnz
      rw [c3] at this
      exact this
  · rw [if_neg c]
    refine ⟨0, by rw [List.rotate_zero], ?_⟩
    intro _
    rw [List.rotate_zero]
    have hlen : ms.length ≤ 1 := by
      rw [List.length_append] at c; push_cast at c; omega
    intro h hh x hx
    match ms, hlen, hh, hx with
    | [a], _, hh, hx =>
      have h1 : h = a := (Option.some.inj hh).symm
      have h2 : x = a := List.mem_singleton.mp hx
      rw [h1, h2]

end RTTopo

namespace RTTopo

/-! ## `rtt_GetFaceEdges`: rings start at their smallest id, the loop terminates -/

theorem faceEdgeSigned_ne_zero (face_id : Int) (e : RTT_ISO_EDGE) (h : e.edge_id ≠ 0) :
    faceEdgeSigned face_id e ≠ 0 := by
  unfold faceEdgeSigned
  split_ifs
  · exact h
  · omega

theorem faceRingLoop_fresh (face_id : Int) (ring : POINTARRAY) (fuel : Nat)
    (edges : List RTT_ISO_EDGE) (seid : List Int) (r : List RTT_ISO_EDGE × List Int)
    (h : faceRingLoop face_id ring fuel 0 edges seid = some (.ok r)) :
    ∃ ms, faceRingLoop face_id ring fuel 0 edges [] = some (.ok (r.1, ms)) ∧
      r.2 = seid ++ ms := by
  have hp := faceRingLoop_prefix face_id ring fuel 0 edges seid []
  rw [List.append_nil, h] at hp
  cases hl : faceRingLoop face_id ring fuel 0 edges [] with
  | none => rw [hl] at hp; simp at hp
  | some x =>
    rw [hl] at hp
    cases x with
    | error msg => simp [Except.map] at hp
    | ok r0 =>
      simp only [Option.map_some', Except.map, Option.some.injEq, Except.ok.injEq] at hp
      refine ⟨r0.2, ?_, ?_⟩
      · rw [hp]
      · rw [hp]

theorem faceRings_total (face_id : Int) (rings : List POINTARRAY) (edges : List RTT_ISO_EDGE)
    (seid : List Int) : faceRings face_id rings edges seid ≠ none := by
  induction rings generalizing edges seid with
  | nil => simp [faceRings]
  | cons ring rest ih =>
    unfold faceRings
    cases hl : faceRingLoop face_id ring (edges.length + 1) 0 edges seid with
    | none =>
      exact absurd hl (faceRingLoop_total face_id ring _ 0 edges seid
        (Nat.lt_succ_of_le (List.countP_le_length _)))
    | some x =>
      cases x with
      | error msg => simp
      | ok r => exact ih _ _

theorem faceRings_blocks (face_id : Int) (rings : List POINTARRAY)
    (edges : List RTT_ISO_EDGE) (seid out : List Int)
    (hids : ∀ i, i < edges.length → (edges.getD i blankEdge).edge_id ≠ 0)
    (h : faceRings face_id rings edges seid = some (.ok out)) :
    ∃ ms bs, faceRingBlocks face_id rings edges = some ms ∧ out = seid ++ bs.flatten ∧
      List.Forall₂ (fun m b => List.IsRotated m b ∧ smallestFirst b) ms bs := by
  induction rings generalizing edges seid with
  | nil =>
    have : out = seid := by
      simp only [faceRings, Option.some.injEq, Except.ok.injEq] at h
      exact h.symm
    exact ⟨[], [], rfl, by simpa using this, List.Forall₂.nil⟩
  | cons ring rest ih =>
    unfold faceRings at h
    cases hl : faceRingLoop face_id ring (edges.length + 1) 0 edges seid with
    | none => rw [hl] at h; simp at h
    | some x =>
      rw [hl] at h
      cases x with
      | error msg => simp at h
      | ok r =>
        dsimp only at h
        obtain ⟨m1, hm1, hr2⟩ := faceRingLoop_fresh face_id ring _ edges seid r hl
        obtain ⟨idxs, t1, _, t3, t4, _, _, t7⟩ :=
          faceRingLoop_trace face_id ring _ 0 edges [] (r.1, m1) hm1
        have hnz : ∀ x ∈ m1, x ≠ 0 := by
          intro x hx
          dsimp only at t1
          rw [t1, List.nil_append, List.mem_map] at hx
          obtain ⟨i, hi, rfl⟩ := hx
          exact faceEdgeSigned_ne_zero _ _ (hids i (t3 i hi).1)
        obtain ⟨k, hk1, hk2⟩ := faceRingScroll_block seid m1
        rw [hr2, hk1] at h
        obtain ⟨ms, bs, e1, e2, e3⟩ := ih r.1 (seid ++ m1.rotate k)
          (by
            intro i hi
            have h7 := t7 i
            dsimp only at h7 t4
            rw [h7]
            exact hids i (by rw [← t4]; exact hi)) h
        refine ⟨m1 :: ms, m1.rotate k :: bs, ?_, ?_, ?_⟩
        · unfold faceRingBlocks
          rw [hm1]
          dsimp only
          rw [e1]; rfl
        · rw [e2, List.flatten_cons, List.append_assoc]
        · exact List.Forall₂.cons ⟨⟨k, rfl⟩, hk2 hnz⟩ e3

theorem faceRings_trace (face_id : Int) (rings : List POINTARRAY)
    (edges : List RTT_ISO_EDGE) (seid out : List Int)
    (h : faceRings face_id rings edges seid = some (.ok out)) :
    ∃ idxs : List Nat, idxs.Nodup ∧
      (∀ i ∈ idxs, i < edges.length ∧ ringEdgeLive (edges.getD i blankEdge) = true) ∧
      List.Perm out
        (seid ++ idxs.map (fun i => faceEdgeSigned face_id (edges.getD i blankEdge))) := by
  induction rings generalizing edges seid with
  | nil =>
    have : out = seid := by
      simp only [faceRings, Option.some.injEq, Except.ok.injEq] at h
      exact h.symm
    exact ⟨[], List.nodup_nil, by simp, by simp [this]⟩
  | cons ring rest ih =>
    unfold faceRings at h
    cases hl : faceRingLoop face_id ring (edges.length + 1) 0 edges seid with
    | none => rw [hl] at h; simp at h
    | some x =>
      rw [hl] at h
      cases x with
      | error msg => simp at h
      | ok r =>
        dsimp only at h
        obtain ⟨m1, hm1, hr2⟩ := faceRingLoop_fresh face_id ring _ edges seid r hl
        obtain ⟨is1, t1, t2, t3, t4, t5, t6, _⟩ :=
          faceRingLoop_trace face_id ring _ 0 edges [] (r.1, m1) hm1
        obtain ⟨k, hk1, _⟩ := faceRingScroll_block seid m1
        rw [hr2, hk1] at h
        obtain ⟨is2, u1, u2, u3⟩ := ih r.1 (seid ++ m1.rotate k) h
        have hdis : ∀ i ∈ is2, i ∉ is1 := by
          intro i hi hi1
          have h1 := (u2 i hi).2
          have h2 := t5 i hi1
          dsimp only at h2
          rw [h2] at h1
          exact absurd h1 (by decide)
        refine ⟨is1 ++ is2, ?_, ?_, ?_⟩
        · exact List.nodup_append.mpr ⟨t2, u1, fun i h1 h2 => hdis i h2 h1⟩
        · intro i hi
          rcases List.mem_append.mp hi with hi | hi
          · exact t3 i hi
          · have := u2 i hi
            dsimp only at t4 t6
            rw [t4, t6 i (hdis i hi)] at this
            exact this
        · have hmap : is2.map (fun i => faceEdgeSigned face_id (r.1.getD i blankEdge)) =
              is2.map (fun i => faceEdgeSigned face_id (edges.getD i blankEdge)) := by
            apply List.map_congr_left
            intro i hi
            have := t6 i (hdis i hi)
            dsimp only at this
            rw [this]
          rw [hmap] at u3
          rw [List.nil_append] at t1
          dsimp only at t1
          rw [List.map_append, ← List.append_assoc]
          refine u3.trans (List.Perm.append_right _ (List.Perm.append_left _ ?_))
          rw [← t1]
          exact List.rotate_perm m1 k

theorem nodup_bounded_length (idxs : List Nat) (n : Nat) (hd : idxs.Nodup)
    (hb : ∀ i ∈ idxs, i < n) : idxs.length ≤ n := by
  have hsub : idxs ⊆ List.range n := fun i hi => List.mem_range.mpr (hb i hi)
  have := (List.subperm_of_subset hd hsub).length_le
  rw [List.length_range] at this
  exact this

theorem rotateElemidArray_spec (ary : List Int) (ifrom ito rotidx : Int) (h0 : 0 ≤ ifrom)
    (h1 : ifrom < rotidx) (h2 : rotidx < ito) (h3 : ito ≤ ary.length) :
    _rtt_RotateElemidArray ary ifrom ito rotidx =
      ary.take ifrom.toNat ++
        ((ary.drop rotidx.toNat).take (ito - rotidx).toNat ++
          (ary.drop ifrom.toNat).take (rotidx - ifrom).toNat) ++
        ary.drop ito.toNat := by
  obtain ⟨f, rfl⟩ := Int.eq_ofNat_of_zero_le h0
  obtain ⟨r, rfl⟩ := Int.eq_ofNat_of_zero_le (by omega : 0 ≤ rotidx)
  obtain ⟨t, rfl⟩ := Int.eq_ofNat_of_zero_le (by omega : 0 ≤ ito)
  have e1 : ((t : Int) - (r : Int)).toNat = t - r := by omega
  have e2 : ((r : Int) - (f : Int)).toNat = r - f := by omega
  rw [e1, e2]
  simp only [Int.toNat_ofNat]
  exact rotateElemidArray_eq ary f r t (by omega) (by omega) (by omega)

/-- Claim C23: when `rtt_GetFaceEdges(face_id)` succeeds on a face whose edges have
non-zero ids and whose geometry is a polygon, its output is the concatenation of one block
for each ring; each block is a cyclic rotation of the sequence in which the inner loop
matched the edges of that ring, and its first id has the smallest absolute value of the
block. `_rtt_RotateElemidArray(ary, from, to, rotidx)` with `0 ≤ from < rotidx < to` inside
the array maps `ary[from..to-1]` to `ary[rotidx..to-1]` followed by `ary[from..rotidx-1]`
and leaves the positions before `from` and from `to` on as they were. -/
theorem getFaceEdges_rings_start_at_smallest (G : GEOM) (B : AREAGEOM) (T : RTT_TOPOLOGY)
    (face_id : Int) (edges : List RTT_ISO_EDGE) (rings : List POINTARRAY)
    (hget : rtt_be_getEdgeByFace G T [face_id] none = some edges)
    (hpoly : _rtt_FaceByEdges B edges = FaceArea.polygon rings)
    (hids : ∀ e ∈ edges, e.edge_id ≠ 0)
    (hok : (rtt_GetFaceEdges G B T face_id).2.1 ≠ -1) :
    (∃ ms bs,
      faceRingBlocks face_id (if face_id ≠ 0 then rings.map List.reverse else rings) edges
        = some ms ∧
      (rtt_GetFaceEdges G B T face_id).2.2 = bs.flatten ∧
      List.Forall₂ (fun m b => List.IsRotated m b ∧ smallestFirst b) ms bs) ∧
    (∀ (ary : List Int) (ifrom ito rotidx : Int), 0 ≤ ifrom → ifrom < rotidx →
      rotidx < ito → ito ≤ ary.length →
      _rtt_RotateElemidArray ary ifrom ito rotidx =
        ary.take ifrom.toNat ++
          ((ary.drop rotidx.toNat).take (ito - rotidx).toNat ++
            (ary.drop ifrom.toNat).take (rotidx - ifrom).toNat) ++
          ary.drop ito.toNat) := by
  refine ⟨?_, rotateElemidArray_spec⟩
  have hne : ¬ edges.length = 0 := by
    intro h0
    unfold _rtt_FaceByEdges at hpoly
    rw [if_pos h0] at hpoly
    exact absurd hpoly (by simp)
  unfold rtt_GetFaceEdges at hok ⊢
  rw [hget] at hok ⊢
  dsimp only at hok ⊢
  rw [if_neg hne] at hok ⊢
  rw [hpoly] at hok ⊢
  dsimp only at hok ⊢
  cases hr : faceRings face_id (if face_id ≠ 0 then rings.map List.reverse else rings)
      edges [] with
  | none => rw [hr] at hok; exact absurd rfl hok
  | some x =>
    cases x with
    | error msg => rw [hr] at hok; exact absurd rfl hok
    | ok seid =>
      obtain ⟨ms, bs, e1, e2, e3⟩ := faceRings_blocks face_id _ edges [] seid
        (by
          intro i hi
          rw [List.getD_eq_getElem?_getD, List.getElem?_eq_getElem hi]
          exact hids _ (List.getElem_mem _)) hr
      exact ⟨ms, bs, e1, by rw [List.nil_append] at e2; exact e2, e3⟩

theorem getFaceEdges_rings_start_at_smallest_witness :
    ∃ ms bs,
      faceRingBlocks 1 (if (1 : Int) ≠ 0
        then [[{ x := 10, y := 0 }, { x := 0, y := 0 }, { x := 5, y := 5 },
          ({ x := 10, y := 0 } : POINT2D)]].map List.reverse
        else [[{ x := 10, y := 0 }, { x := 0, y := 0 }, { x := 5, y := 5 },
          { x := 10, y := 0 }]]) topoScenario3.edges = some ms ∧
      (rtt_GetFaceEdges testKernel roofArea topoScenario3 1).2.2 = bs.flatten ∧
      List.Forall₂ (fun m b => List.IsRotated m b ∧ smallestFirst b) ms bs :=
  (getFaceEdges_rings_start_at_smallest testKernel roofArea topoScenario3 1
    topoScenario3.edges
    [[{ x := 10, y := 0 }, { x := 0, y := 0 }, { x := 5, y := 5 }, { x := 10, y := 0 }]]
    (by decide) (by decide) (by decide) (by decide)).1

/-- Claim C30: the ring-covering loop of `rtt_GetFaceEdges` terminates and stays inside
the output array. Every match of `_rtt_FindNextRingEdge` is a row of the array that was
not matched before (its faces still differ), has two vertices or more (the ring cursor
advances) and is taken off the live rows; the loop over the rings, whose inner loop runs
on one unit of fuel more than there are edges, never runs out of fuel; and when it
succeeds the ids written are, up to their order, the signed ids of distinct rows with
different faces on their sides, so there are no more of them than edges. -/
theorem getFaceEdges_loop_terminates (face_id : Int) (rings : List POINTARRAY)
    (edges : List RTT_ISO_EDGE) :
    (∀ (ring : POINTARRAY) (j : Nat) (es : List RTT_ISO_EDGE) (idx : Nat),
      _rtt_FindNextRingEdge ring j es = some idx →
      idx < es.length ∧ ringEdgeLive (es.getD idx blankEdge) = true ∧
      2 ≤ (es.getD idx blankEdge).geom.length ∧
      (es.set idx { es.getD idx blankEdge with face_left := -1, face_right := -1 }).countP
        ringEdgeLive + 1 = es.countP ringEdgeLive) ∧
    faceRings face_id rings edges [] ≠ none ∧
    (∀ seid, faceRings face_id rings edges [] = some (.ok seid) →
      seid.length ≤ edges.length ∧
      ∃ idxs : List Nat, idxs.Nodup ∧
        (∀ i ∈ idxs, i < edges.length ∧
          (edges.getD i blankEdge).face_left ≠ (edges.getD i blankEdge).face_right) ∧
        List.Perm seid
          (idxs.map (fun i => faceEdgeSigned face_id (edges.getD i blankEdge)))) ∧
    (∀ (G : GEOM) (B : AREAGEOM) (T : RTT_TOPOLOGY),
      rtt_be_getEdgeByFace G T [face_id] none = some edges →
      (rtt_GetFaceEdges G B T face_id).2.2.length ≤ edges.length) := by
  have hmain : ∀ rs seid, faceRings face_id rs edges [] = some (.ok seid) →
      seid.length ≤ edges.length ∧
      ∃ idxs : List Nat, idxs.Nodup ∧
        (∀ i ∈ idxs, i < edges.length ∧
          (edges.getD i blankEdge).face_left ≠ (edges.getD i blankEdge).face_right) ∧
        List.Perm seid
          (idxs.map (fun i => faceEdgeSigned face_id (edges.getD i blankEdge))) := by
    intro rs seid h
    obtain ⟨idxs, h1, h2, h3⟩ := faceRings_trace face_id rs edges [] seid h
    rw [List.nil_append] at h3
    refine ⟨?_, idxs, h1, ?_, h3⟩
    · rw [h3.length_eq, List.length_map]
      exact nodup_bounded_length idxs _ h1 (fun i hi => (h2 i hi).1)
    · intro i hi
      refine ⟨(h2 i hi).1, ?_⟩
      have := (h2 i hi).2
      unfold ringEdgeLive at this
      exact of_decide_eq_true this
  refine ⟨findNextRingEdge_facts, faceRings_total face_id rings edges [], hmain rings, ?_⟩
  intro G B T hget
  unfold rtt_GetFaceEdges
  rw [hget]
  dsimp only
  by_cases c0 : edges.length = 0
  · rw [if_pos c0]; exact Nat.zero_le _
  rw [if_neg c0]
  cases _rtt_FaceByEdges B edges with
  | null msg => cases msg <;> exact Nat.zero_le _
  | empty => exact Nat.zero_le _
  | other => exact Nat.zero_le _
  | polygon rs =>
    dsimp only
    generalize (if face_id ≠ 0 then rs.map List.reverse else rs) = rs2
    cases hs : faceRings face_id rs2 edges [] with
    | none => exact Nat.zero_le _
    | some x =>
      cases x with
      | error msg => exact Nat.zero_le _
      | ok seid => exact (hmain _ seid hs).1

theorem getFaceEdges_loop_terminates_witness :
    faceRings 1 [[{ x := 10, y := 0 }, { x := 5, y := 5 }, { x := 0, y := 0 },
      { x := 10, y := 0 }]] topoScenario3.edges [] ≠ none :=
  (getFaceEdges_loop_terminates 1
    [[{ x := 10, y := 0 }, { x := 5, y := 5 }, { x := 0, y := 0 }, { x := 10, y := 0 }]]
    topoScenario3.edges).2.1

end RTTopo

namespace RTTopo

/-! ## `rtt_AddPoint`: the node found, and the second call -/

theorem sortByScore_mem {α : Type} (score : α → Int) (l : List α) (x : α) :
    x ∈ sortByScore score l ↔ x ∈ l := by
  unfold sortByScore
  exact (List.perm_insertionSort _ l).mem_iff

/-- The node loop of `rtt_AddPoint` keeps this: either no id is held and no node seen so
far is closer than `tol`, or the id held is that of a node seen that is closer than `tol`
and nearest among the nodes seen that are closer than `tol`. -/
theorem addPointNodes_scan (S : SNAPGEOM) (pt : POINT2D) (tol : Int)
    (l seen : List RTT_ISO_NODE) (s : Int × Int)
    (hids : ∀ n ∈ l, n.node_id ≠ 0)
    (h : (s.1 = 0 ∧ ∀ m ∈ seen, S.pt_distance m.geom pt ≥ tol) ∨
      (s.1 ≠ 0 ∧ ∃ n ∈ seen, s = (n.node_id, S.pt_distance n.geom pt) ∧
        S.pt_distance n.geom pt < tol ∧
        ∀ m ∈ seen, S.pt_distance m.geom pt < tol →
          S.pt_distance n.geom pt ≤ S.pt_distance m.geom pt)) :
    ((addPointNodes S pt tol l s).1 = 0 ∧ ∀ m ∈ seen ++ l, S.pt_distance m.geom pt ≥ tol) ∨
      ((addPointNodes S pt tol l s).1 ≠ 0 ∧ ∃ n ∈ seen ++ l,
        addPointNodes S pt tol l s = (n.node_id, S.pt_distance n.geom pt) ∧
        S.pt_distance n.geom pt < tol ∧
        ∀ m ∈ seen ++ l, S.pt_distance m.geom pt < tol →
          S.pt_distance n.geom pt ≤ S.pt_distance m.geom pt) := by
  induction l generalizing seen s with
  | nil => simpa [addPointNodes] using h
  | cons a rest ih =>
    have hrest : ∀ n ∈ rest, n.node_id ≠ 0 := fun n hn => hids n (List.mem_cons_of_mem _ hn)
    have ha : a.node_id ≠ 0 := hids a (List.mem_cons_self _ _)
    have hcat : seen ++ a :: rest = (seen ++ [a]) ++ rest := by simp
    rw [hcat]
    unfold addPointNodes
    by_cases c1 : S.pt_distance a.geom pt ≥ tol
    · rw [if_pos c1]
      apply ih (seen ++ [a]) s hrest
      rcases h with ⟨h1, h2⟩ | ⟨h0, n, hn, h1, h2, h3⟩
      · left
        refine ⟨h1, ?_⟩
        intro m hm
        rcases List.mem_append.mp hm with hm | hm
        · exact h2 m hm
        · rw [List.mem_singleton.mp hm]; exact c1
      · right
        refine ⟨h0, n, List.mem_append_left _ hn, h1, h2, ?_⟩
        intro m hm hlt
        rcases List.mem_append.mp hm with hm | hm
        · exact h3 m hm hlt
        · rw [List.mem_singleton.mp hm] at hlt; omega
    · rw [if_neg c1]
      by_cases c2 : s.1 = 0 ∨ S.pt_distance a.geom pt < s.2
      · rw [if_pos c2]
        apply ih (seen ++ [a]) _ hrest
        right
        refine ⟨ha, a, by simp, rfl, by omega, ?_⟩
        intro m hm hlt
        rcases List.mem_append.mp hm with hm | hm
        · rcases h with ⟨_, h2⟩ | ⟨h0, n, hn, h1, h2, h3⟩
          · have := h2 m hm; omega
          · rcases c2 with c2 | c2
            · exact absurd c2 h0
            · rw [h1] at c2
              have := h3 m hm hlt
              dsimp only at c2
              omega
        · rw [List.mem_singleton.mp hm]
      · rw [if_neg c2]
        apply ih (seen ++ [a]) s hrest
        rcases h with ⟨h1, _⟩ | ⟨h0, n, hn, h1, h2, h3⟩
        · exact absurd (Or.inl h1) c2
        · right
          refine ⟨h0, n, List.mem_append_left _ hn, h1, h2, ?_⟩
          intro m hm hlt
          rcases List.mem_append.mp hm with hm | hm
          · exact h3 m hm hlt
          · rw [List.mem_singleton.mp hm]
            rw [h1] at c2
            dsimp only at c2
            omega

/-- Claim C24, failing input: in the state `topoOneEdge`, with distances measured along
the axes, the point `(5, 3)` lies at distance `3` of edge `1` and farther of both nodes.
`rtt_AddPoint((5 3), tol = 3)` splits edge `1` at the projection `(5, 0)` and returns the
new node `3`, which lies at distance `3` of the point; the same call on the resulting
state does not return `3`: it fails (`-1`) with the error of a coincident node. -/
theorem rtt_AddPoint_twice_fails_at_tolerance :
    (rtt_AddPoint taxiKernel taxiSnap topoOneEdge { x := 5, y := 3 } 3).2 = 3 ∧
    (rtt_AddPoint taxiKernel taxiSnap topoOneEdge { x := 5, y := 3 } 3).1.errors = [] ∧
    nodeRow (rtt_AddPoint taxiKernel taxiSnap topoOneEdge { x := 5, y := 3 } 3).1.nodes 3 =
      some { node_id := 3, containing_face := -1, geom := { x := 5, y := 0 } } ∧
    taxiSnap.pt_distance { x := 5, y := 0 } { x := 5, y := 3 } = 3 ∧
    (rtt_AddPoint taxiKernel taxiSnap
      (rtt_AddPoint taxiKernel taxiSnap topoOneEdge { x := 5, y := 3 } 3).1
      { x := 5, y := 3 } 3).2 = -1 ∧
    (rtt_AddPoint taxiKernel taxiSnap
      (rtt_AddPoint taxiKernel taxiSnap topoOneEdge { x := 5, y := 3 } 3).1
      { x := 5, y := 3 } 3).1.errors =
      ["rtt_ModEdgeSplit failed", "SQL/MM Spatial exception - coincident node"] := by
  decide

/-- Claim C25, counterexample: in the state `topoTwoNodes`, with distances measured along
the axes, the back end answers node `1` for the query around `(3, 0)` with tolerance `3`
(its distance is `3`); `rtt_AddPoint` does not return node `1`: it inserts node `3` at
`(3, 0)` and returns `3`. -/
theorem rtt_AddPoint_node_at_tolerance_skipped :
    (rtt_be_getNodeWithinDistance2D taxiKernel topoTwoNodes { x := 3, y := 0 } 3).map
      (fun l => l.map (fun n => n.node_id)) = some [1] ∧
    taxiSnap.pt_distance { x := 0, y := 0 } { x := 3, y := 0 } = 3 ∧
    (rtt_AddPoint taxiKernel taxiSnap topoTwoNodes { x := 3, y := 0 } 3).2 = 3 ∧
    (rtt_AddPoint taxiKernel taxiSnap topoTwoNodes { x := 3, y := 0 } 3).1.nodes.map
      (fun n => (n.node_id, n.geom)) =
      [(1, { x := 0, y := 0 }), (2, { x := 10, y := 0 }), (3, { x := 3, y := 0 })] ∧
    (rtt_AddPoint taxiKernel taxiSnap topoTwoNodes { x := 3, y := 0 } 3).1.errors = [] := by
  decide

/-- Claim C25, amended: when the back end's `getNodeWithinDistance2D(point, tol)` with
`tol ≠ 0` returns nodes with non-zero ids of which at least one is closer to the point
than `tol`, `rtt_AddPoint` returns the id of a returned node whose distance to the point
is minimal among the returned nodes, and leaves the state as it was (no insertion, split
or geometry change, no error). -/
theorem rtt_AddPoint_prefers_closer_node (G : GEOM) (S : SNAPGEOM) (T : RTT_TOPOLOGY)
    (pt : POINT2D) (tol : Int) (nodes : List RTT_ISO_NODE) (htol : tol ≠ 0)
    (hq : rtt_be_getNodeWithinDistance2D G T pt tol = some nodes)
    (hids : ∀ n ∈ nodes, n.node_id ≠ 0)
    (hnear : ∃ n ∈ nodes, S.pt_distance n.geom pt < tol) :
    ∃ n ∈ nodes, rtt_AddPoint G S T pt tol = (T, n.node_id) ∧
      ∀ m ∈ nodes, S.pt_distance n.geom pt ≤ S.pt_distance m.geom pt := by
  have hmem : ∀ x, x ∈ (if nodes.length > 1
      then sortByScore (fun n => S.pt_distance n.geom pt) nodes else nodes) ↔ x ∈ nodes := by
    intro x
    split_ifs
    · exact sortByScore_mem _ nodes x
    · exact Iff.rfl
  have hscan := addPointNodes_scan S pt tol
    (if nodes.length > 1 then sortByScore (fun n => S.pt_distance n.geom pt) nodes else nodes)
    [] (0, 0) (fun n hn => hids n ((hmem n).mp hn)) (Or.inl ⟨rfl, by simp⟩)
  rw [List.nil_append] at hscan
  rcases hscan with ⟨_, h2⟩ | ⟨h0, n, hn, h1, h2, h3⟩
  · obtain ⟨m, hm, hlt⟩ := hnear
    have := h2 m ((hmem m).mpr hm)
    omega
  · refine ⟨n, (hmem n).mp hn, ?_, ?_⟩
    · unfold rtt_AddPoint
      rw [if_neg htol]
      dsimp only
      rw [hq]
      dsimp only
      have hlen : nodes.length ≠ 0 := by
        intro hl
        have := (hmem n).mp hn
        rw [List.eq_nil_of_length_eq_zero hl] at this
        exact absurd this (List.not_mem_nil _)
      rw [if_pos ⟨hlen, h0⟩, h1]
    · intro m hm
      by_cases c : S.pt_distance m.geom pt < tol
      · exact h3 m ((hmem m).mpr hm) c
      · omega

theorem rtt_AddPoint_prefers_closer_node_witness :
    ∃ n ∈ [({ node_id := 1, containing_face := 0, geom := { x := 0, y := 0 } } : RTT_ISO_NODE)],
      rtt_AddPoint taxiKernel taxiSnap topoTwoNodes { x := 2, y := 0 } 3 =
        (topoTwoNodes, n.node_id) ∧
      ∀ m ∈ [({ node_id := 1, containing_face := 0, geom := { x := 0, y := 0 } } :
          RTT_ISO_NODE)],
        taxiSnap.pt_distance n.geom { x := 2, y := 0 } ≤
          taxiSnap.pt_distance m.geom { x := 2, y := 0 } :=
  rtt_AddPoint_prefers_closer_node taxiKernel taxiSnap topoTwoNodes { x := 2, y := 0 } 3
    [{ node_id := 1, containing_face := 0, geom := { x := 0, y := 0 } }]
    (by decide) (by decide) (by decide) ⟨_, List.mem_singleton.mpr rfl, by decide⟩

end RTTopo

namespace RTTopo

/-! ## The exact state `_rtt_AddEdge` hands to the face-split analysis -/

theorem addEdgeEndpoints_errors (s e : Int) (l : List RTT_ISO_NODE)
    (st : RTT_TOPOLOGY × EndpointScan) :
    st.1.errors.length ≤ (addEdgeEndpoints s e l st).1.errors.length := by
  induction l generalizing st with
  | nil => exact Nat.le_refl _
  | cons node rest ih =>
    unfold addEdgeEndpoints
    dsimp only
    refine Nat.le_trans ?_ (ih _)
    dsimp only
    split_ifs <;> first
      | exact Nat.le_refl _
      | (unfold rterror; simp)

theorem findAdjacentEdges_errors (G : GEOM) (T : RTT_TOPOLOGY) (node : Int) (data : edgeend)
    (other : Option edgeend) (myedge_id : Int) :
    T.errors.length ≤ (_rtt_FindAdjacentEdges G T node data other myedge_id).1.errors.length := by
  unfold _rtt_FindAdjacentEdges
  dsimp only
  split
  · unfold rterror; simp
  · split
    · unfold rterror; simp
    · split_ifs
      · unfold rterror; simp
      · exact Nat.le_refl _

theorem addEdgeNode_twice (s e : Int) (si ei : Bool) (ns : List RTT_ISO_NODE) :
    (ns.map (fun n => if si = true ∧ n.node_id = s
        then { n with containing_face := -1 } else n)).map
      (fun n => if ei = true ∧ n.node_id = e then { n with containing_face := -1 } else n) =
    ns.map (addEdgeNode s e si ei) := by
  rw [List.map_map]
  apply List.map_congr_left
  intro n _
  unfold addEdgeNode
  simp only [Function.comp]
  by_cases c1 : si = true ∧ n.node_id = s
  · rw [if_pos c1, if_pos (Or.inl c1)]
    split_ifs <;> rfl
  · rw [if_neg c1]
    by_cases c2 : ei = true ∧ n.node_id = e
    · rw [if_pos c2, if_pos (Or.inr c2)]
    · rw [if_neg c2, if_neg (fun h => h.elim c1 c2)]

/-- A successful insertion part of `_rtt_AddEdge` is the face-split analysis run on the
linked state. -/
theorem addEdgeInsert_state {G : GEOM} {T : RTT_TOPOLOGY} {newedge : RTT_ISO_EDGE}
    {pl pr : Int} {span epan : edgeend} {modFace : Bool} {R : RTT_TOPOLOGY × Int}
    (h : addEdgeInsert G T newedge pl pr span epan modFace = R) (hok : R.2 ≠ -1)
    (hid : newedge.edge_id ≠ -1) :
    R = addEdgeFaceSplit G
      (addEdgeLinked T newedge pl pr (decide (span.was_isolated ≠ 0))
        (decide (epan.was_isolated ≠ 0))) newedge modFace := by
  unfold addEdgeInsert at h
  dsimp only at h
  rcases hi : rtt_be_insertEdges T [newedge] with ⟨T1, rows, ret⟩
  rw [hi] at h
  dsimp only at h
  by_cases c1 : ret = -1
  · rw [if_pos c1] at h; subst h; exact absurd rfl hok
  rw [if_neg c1] at h
  by_cases c2 : ret = 0
  · rw [if_pos c2] at h; subst h; exact absurd rfl hok
  rw [if_neg c2] at h
  have hT1 := insertEdges_one hi c1 hid
  have key1 : ∀ u1 : RTT_TOPOLOGY × Int,
      u1 = (if llabs pl ≠ newedge.edge_id
        then addEdgeLinkPrev T1 pl newedge.edge_id else (T1, (0 : Int))) →
      ¬ (llabs pl ≠ newedge.edge_id ∧ u1.2 = -1) →
      u1.1 = { T1 with edges := (if llabs pl ≠ newedge.edge_id
        then List.map (addEdgeLinkRow pl newedge.edge_id) else id) T1.edges } := by
    intro u1 hu1 hne
    by_cases c : llabs pl ≠ newedge.edge_id
    · rw [if_pos c] at hu1 ⊢
      have : u1.2 ≠ -1 := fun h => hne ⟨c, h⟩
      have hu1' : addEdgeLinkPrev T1 pl newedge.edge_id = (u1.1, u1.2) := hu1.symm
      exact addEdgeLinkPrev_ok hu1' this
    · rw [if_neg c] at hu1 ⊢
      rw [hu1]; rfl
  generalize hu1 : (if llabs pl ≠ newedge.edge_id
        then addEdgeLinkPrev T1 pl newedge.edge_id else (T1, (0 : Int))) = u1 at h
  by_cases c3 : llabs pl ≠ newedge.edge_id ∧ u1.2 = -1
  · rw [if_pos c3] at h; subst h; exact absurd rfl hok
  rw [if_neg c3] at h
  have hU1 := key1 u1 hu1.symm c3
  have key2 : ∀ u2 : RTT_TOPOLOGY × Int,
      u2 = (if llabs pr ≠ newedge.edge_id
        then addEdgeLinkPrev u1.1 pr (-newedge.edge_id) else (u1.1, (0 : Int))) →
      ¬ (llabs pr ≠ newedge.edge_id ∧ u2.2 = -1) →
      u2.1 = { u1.1 with edges := (if llabs pr ≠ newedge.edge_id
        then List.map (addEdgeLinkRow pr (-newedge.edge_id)) else id) u1.1.edges } := by
    intro u2 hu2 hne
    by_cases c : llabs pr ≠ newedge.edge_id
    · rw [if_pos c] at hu2 ⊢
      have : u2.2 ≠ -1 := fun h => hne ⟨c, h⟩
      have hu2' : addEdgeLinkPrev u1.1 pr (-newedge.edge_id) = (u2.1, u2.2) := hu2.symm
      exact addEdgeLinkPrev_ok hu2' this
    · rw [if_neg c] at hu2 ⊢
      rw [hu2]; rfl
  generalize hu2 : (if llabs pr ≠ newedge.edge_id
        then addEdgeLinkPrev u1.1 pr (-newedge.edge_id) else (u1.1, (0 : Int))) = u2 at h
  by_cases c4 : llabs pr ≠ newedge.edge_id ∧ u2.2 = -1
  · rw [if_pos c4] at h; subst h; exact absurd rfl hok
  rw [if_neg c4] at h
  have hU2 := key2 u2 hu2.symm c4
  have hu2s : u2.1 = { T with edges := addEdgeEdges T.edges newedge pl pr } := by
    rw [hU2, hU1, hT1]; rfl
  -- node updates
  have keyn : ∀ (X : RTT_TOPOLOGY) (c : Prop) [Decidable c] (nid : Int)
      (n : RTT_TOPOLOGY × Int),
      n = (if c then addEdgeClearNode X nid else (X, (0 : Int))) →
      ¬ (c ∧ n.2 = -1) →
      n.1 = { X with nodes := X.nodes.map (fun m =>
        if decide c = true ∧ m.node_id = nid then { m with containing_face := -1 }
        else m) } := by
    intro X c _ nid n hn hne
    by_cases cc : c
    · rw [if_pos cc] at hn
      have hr : n.2 ≠ -1 := fun h => hne ⟨cc, h⟩
      have hn' : addEdgeClearNode X nid = (n.1, n.2) := hn.symm
      rw [addEdgeClearNode_ok hn' hr]
      congr 1
      apply List.map_congr_left
      intro m _
      simp only [cc, decide_True, true_and]
    · rw [if_neg cc] at hn
      rw [hn]
      show X = _
      have : X.nodes.map (fun m =>
          if decide c = true ∧ m.node_id = nid then { m with containing_face := -1 }
          else m) = X.nodes := by
        conv_rhs => rw [← List.map_id X.nodes]
        apply List.map_congr_left
        intro m _
        simp only [cc, decide_False, Bool.false_eq_true, false_and, if_false]
        rfl
      rw [this]
  generalize hn1 : (if span.was_isolated ≠ 0
          then addEdgeClearNode u2.1 newedge.start_node else (u2.1, (0 : Int))) = n1 at h
  by_cases c5 : span.was_isolated ≠ 0 ∧ n1.2 = -1
  · rw [if_pos c5] at h; subst h; exact absurd rfl hok
  rw [if_neg c5] at h
  have hN1 := keyn u2.1 (span.was_isolated ≠ 0) newedge.start_node n1 hn1.symm c5
  generalize hn2 : (if epan.was_isolated ≠ 0
            then addEdgeClearNode n1.1 newedge.end_node else (n1.1, (0 : Int))) = n2 at h
  by_cases c6 : epan.was_isolated ≠ 0 ∧ n2.2 = -1
  · rw [if_pos c6] at h; subst h; exact absurd rfl hok
  rw [if_neg c6] at h
  have hN2 := keyn n1.1 (epan.was_isolated ≠ 0) newedge.end_node n2 hn2.symm c6
  have hL : n2.1 = addEdgeLinked T newedge pl pr (decide (span.was_isolated ≠ 0))
      (decide (epan.was_isolated ≠ 0)) := by
    rw [hN2, hN1, hu2s]
    unfold addEdgeLinked
    dsimp only
    rw [addEdgeNode_twice]
  rw [← h, hL]

end RTTopo

namespace RTTopo

/-! ## `_rtt_AddEdge` as a plan followed by the face-split analysis -/

/-- A successful adjacency part of `_rtt_AddEdge`: the face-split analysis run on the state
linked along the plan read off the two analyses. -/
theorem addEdgeLink_state {G : GEOM} {T : RTT_TOPOLOGY} {k s t face0 : Int} {g : RTLINE}
    {span epan : edgeend} {modFace : Bool} {R : RTT_TOPOLOGY × Int}
    (h : addEdgeLink G T
      { edge_id := k, start_node := s, end_node := t, face_left := face0,
        face_right := face0, next_left := 0, next_right := 0, geom := g }
      span epan modFace = R)
    (hok : R.2 ≠ -1) (hid : k ≠ -1)
    (hpos : ∀ e ∈ T.edges, 0 < e.edge_id)
    (hnd : (T.edges.map (fun e => e.edge_id)).Nodup) :
    ∃ (X : RTT_TOPOLOGY) (A B : edgeend × Int),
      A = (_rtt_FindAdjacentEdges G T s span (if s = t then some epan else none) (-1)).2 ∧
      B = (_rtt_FindAdjacentEdges G T t epan (if s = t then some span else none) (-1)).2 ∧
      X = { T with errors := X.errors } ∧ T.errors.length ≤ X.errors.length ∧
      addEdgeFaceLeft face0 A.1 A.2 B.2 = addEdgeFaceRight face0 A.1 A.2 B.2 ∧
      addEdgeFaceLeft face0 A.1 A.2 B.2 ≠ -1 ∧
      R = addEdgeFaceSplit G
        (addEdgeLinked X
          (addEdgePlanRow k s t A.1 B.1 A.2 B.2 (addEdgeFaceLeft face0 A.1 A.2 B.2) g)
          (addEdgePrevLeft k s t A.1 A.2) (addEdgePrevRight k s t B.1 B.2)
          (decide (A.2 = 0)) (decide (B.2 = 0)))
        (addEdgePlanRow k s t A.1 B.1 A.2 B.2 (addEdgeFaceLeft face0 A.1 A.2 B.2) g)
        modFace := by
  unfold addEdgeLink at h
  dsimp only at h
  have sa := findAdjacentEdges_sound G T s span (if s = t then some epan else none) (-1)
    hpos hnd
  have ea := findAdjacentEdges_errors G T s span (if s = t then some epan else none) (-1)
  have hb : ∀ x : edgeend, x.myaz = span.myaz →
      (_rtt_FindAdjacentEdges G
        (_rtt_FindAdjacentEdges G T s span (if s = t then some epan else none) (-1)).1
        t epan (if s = t then some x else none) (-1)).2 =
      (_rtt_FindAdjacentEdges G T t epan (if s = t then some span else none) (-1)).2 := by
    intro x hx
    apply findAdjacentEdges_congr
    · rw [sa.1]
    · rw [sa.1]
    · split_ifs
      · simp [hx]
      · rfl
  have sb : ∀ x : edgeend,
      (_rtt_FindAdjacentEdges G
        (_rtt_FindAdjacentEdges G T s span (if s = t then some epan else none) (-1)).1
        t epan (if s = t then some x else none) (-1)).1 =
      { (_rtt_FindAdjacentEdges G T s span (if s = t then some epan else none) (-1)).1 with
        errors := (_rtt_FindAdjacentEdges G
          (_rtt_FindAdjacentEdges G T s span (if s = t then some epan else none) (-1)).1
          t epan (if s = t then some x else none) (-1)).1.errors } :=
    fun x => (findAdjacentEdges_found G _ t epan _ (-1)).1
  have eb : ∀ x : edgeend,
      (_rtt_FindAdjacentEdges G T s span (if s = t then some epan else none)
        (-1)).1.errors.length ≤
      (_rtt_FindAdjacentEdges G
        (_rtt_FindAdjacentEdges G T s span (if s = t then some epan else none) (-1)).1
        t epan (if s = t then some x else none) (-1)).1.errors.length :=
    fun x => findAdjacentEdges_errors G _ t epan _ (-1)
  generalize _rtt_FindAdjacentEdges G T s span (if s = t then some epan else none) (-1) = a
    at h sa ea hb sb eb
  obtain ⟨aX, ad, an⟩ := a
  dsimp only at h sa ea hb sb eb
  unfold addEdgeLinkEnd at h
  dsimp only at h
  have hb' := hb { ad with was_isolated := if an ≠ 0 then 0 else 1 } sa.2.2.1
  have sb' := sb { ad with was_isolated := if an ≠ 0 then 0 else 1 }
  have eb' := eb { ad with was_isolated := if an ≠ 0 then 0 else 1 }
  clear hb sb eb
  generalize _rtt_FindAdjacentEdges G aX t epan
    (if s = t then some { ad with was_isolated := if an ≠ 0 then 0 else 1 } else none) (-1) = b
    at h hb' sb' eb'
  obtain ⟨bX, bd, bn⟩ := b
  dsimp only at h hb' sb' eb'
  refine ⟨bX, (ad, an), (bd, bn), rfl, hb', ?_, Nat.le_trans ea eb', ?_⟩
  · rw [sb', sa.1]
  dsimp only
  unfold addEdgeFaceLeft addEdgeFaceRight
  by_cases c1 : (if bn ≠ 0 ∧ (if an ≠ 0 ∧ face0 = -1 then ad.ccwFace else face0) = -1
      then ad.cwFace else (if an ≠ 0 ∧ face0 = -1 then ad.ccwFace else face0)) ≠
      (if bn ≠ 0 ∧ (if an ≠ 0 ∧ face0 = -1 then ad.cwFace else face0) = -1
      then ad.ccwFace else (if an ≠ 0 ∧ face0 = -1 then ad.cwFace else face0))
  · rw [if_pos c1] at h; subst h; exact absurd rfl hok
  rw [if_neg c1] at h
  by_cases c2 : (if bn ≠ 0 ∧ (if an ≠ 0 ∧ face0 = -1 then ad.ccwFace else face0) = -1
      then ad.cwFace else (if an ≠ 0 ∧ face0 = -1 then ad.ccwFace else face0)) = -1
  · rw [if_pos c2] at h; subst h; exact absurd rfl hok
  rw [if_neg c2] at h
  have c1' := not_not.1 c1
  refine ⟨c1', c2, ?_⟩
  have := addEdgeInsert_state h hok hid
  rw [this]
  unfold addEdgePlanRow addEdgePrevLeft addEdgePrevRight
  dsimp only
  have hd1 : decide ((if an ≠ 0 then (0 : Int) else 1) ≠ 0) = decide (an = 0) := by
    by_cases c : an = 0 <;> simp [c]
  have hd2 : decide ((if bn ≠ 0 then (0 : Int) else 1) ≠ 0) = decide (bn = 0) := by
    by_cases c : bn = 0 <;> simp [c]
  rw [hd1, hd2, ← c1']

theorem addEdgeEndpoints_face (P : Int → Prop) (s e : Int) (l : List RTT_ISO_NODE)
    (st : RTT_TOPOLOGY × EndpointScan)
    (h0 : st.2.face = -1 ∨ P st.2.face)
    (hl : ∀ n ∈ l, n.containing_face ≠ -1 → P n.containing_face) :
    (addEdgeEndpoints s e l st).2.face = -1 ∨ P (addEdgeEndpoints s e l st).2.face := by
  induction l generalizing st with
  | nil => exact h0
  | cons node rest ih =>
    unfold addEdgeEndpoints
    dsimp only
    apply ih _ _ (fun n hn => hl n (List.mem_cons_of_mem _ hn))
    have hn := hl node (List.mem_cons_self _ _)
    by_cases c1 : node.containing_face ≠ -1
    · rw [if_pos c1]
      by_cases c2 : st.2.face = -1
      · rw [if_pos c2]
        split_ifs <;> exact Or.inr (hn c1)
      · rw [if_neg c2]
        by_cases c3 : st.2.face ≠ node.containing_face
        · rw [if_pos c3]
          split_ifs <;> exact h0
        · rw [if_neg c3]
          split_ifs <;> exact h0
    · rw [if_neg c1]
      split_ifs <;> exact h0

/-- A successful `rtt_AddEdgeModFace` or `rtt_AddEdgeNewFaces`: the face-split analysis run
on the state that holds the new row, linked along the plan read off the two adjacency
analyses; the face of the new row is the one derived from the end nodes and the start
analysis, the same on both sides and set. -/
theorem rtt_AddEdge_state {G : GEOM} {T : RTT_TOPOLOGY} {s e : Int}
    {geom : RTLINE} {skipChecks modFace : Bool} {R : RTT_TOPOLOGY × Int}
    (h : _rtt_AddEdge G T s e geom skipChecks modFace = R)
    (hok : R.2 ≠ -1)
    (hpos : ∀ x ∈ T.edges, 0 < x.edge_id)
    (hnd : (T.edges.map (fun x => x.edge_id)).Nodup)
    (hseq : 0 < T.edge_seq) :
    ∃ (az : POINT2D × POINT2D × Int × Int) (X : RTT_TOPOLOGY) (face0 : Int)
      (A B : edgeend × Int),
      addEdgeAzimuths G geom = .ok az ∧
      A = (_rtt_FindAdjacentEdges G T s (edgeendOfAzimuth az.2.2.1)
        (if s = e then some (edgeendOfAzimuth az.2.2.2) else none) (-1)).2 ∧
      B = (_rtt_FindAdjacentEdges G T e (edgeendOfAzimuth az.2.2.2)
        (if s = e then some (edgeendOfAzimuth az.2.2.1) else none) (-1)).2 ∧
      X = { T with edge_seq := T.edge_seq + 1, errors := X.errors } ∧
      T.errors.length ≤ X.errors.length ∧
      (face0 = -1 ∨ ∃ n ∈ T.nodes, (n.node_id = s ∨ n.node_id = e) ∧
        n.containing_face ≠ -1 ∧ face0 = n.containing_face) ∧
      addEdgeFaceLeft face0 A.1 A.2 B.2 = addEdgeFaceRight face0 A.1 A.2 B.2 ∧
      addEdgeFaceLeft face0 A.1 A.2 B.2 ≠ -1 ∧
      R = addEdgeFaceSplit G
        (addEdgeLinked X
          (addEdgePlanRow T.edge_seq s e A.1 B.1 A.2 B.2
            (addEdgeFaceLeft face0 A.1 A.2 B.2) geom)
          (addEdgePrevLeft T.edge_seq s e A.1 A.2) (addEdgePrevRight T.edge_seq s e B.1 B.2)
          (decide (A.2 = 0)) (decide (B.2 = 0)))
        (addEdgePlanRow T.edge_seq s e A.1 B.1 A.2 B.2
          (addEdgeFaceLeft face0 A.1 A.2 B.2) geom)
        modFace := by
  unfold _rtt_AddEdge at h
  by_cases c0 : skipChecks = false ∧ G.is_simple geom = false
  · rw [if_pos c0] at h; subst h; exact absurd rfl hok
  rw [if_neg c0] at h
  cases haz : addEdgeAzimuths G geom with
  | error msg => rw [haz] at h; subst h; exact absurd rfl hok
  | ok az =>
    rw [haz] at h
    dsimp only at h
    cases hn : rtt_be_getNodeById T (if s ≠ e then [s, e] else [s]) with
    | none => rw [hn] at h; subst h; exact absurd rfl hok
    | some endpoints =>
      rw [hn] at h
      dsimp only at h
      have ks := addEdgeEndpoints_state s e endpoints
        (T, { face := -1, start_node_geom := none, end_node_geom := none })
      have ke := addEdgeEndpoints_errors s e endpoints
        (T, { face := -1, start_node_geom := none, end_node_geom := none })
      have kf := addEdgeEndpoints_face
        (fun f => ∃ n ∈ T.nodes, (n.node_id = s ∨ n.node_id = e) ∧
          n.containing_face ≠ -1 ∧ f = n.containing_face) s e endpoints
        (T, { face := -1, start_node_geom := none, end_node_geom := none }) (Or.inl rfl)
        (by
          intro n hn' hcf
          rw [getNodeById_some hn] at hn'
          obtain ⟨h1, h2⟩ := List.mem_filter.1 hn'
          refine ⟨n, h1, ?_, hcf, rfl⟩
          have h3 := of_decide_eq_true h2
          by_cases hse : s ≠ e
          · rw [if_pos hse] at h3
            simpa using h3
          · rw [if_neg hse] at h3
            left; simpa using h3)
      generalize addEdgeEndpoints s e endpoints
        (T, { face := -1, start_node_geom := none, end_node_geom := none }) = st at h ks ke kf
      dsimp only at ks ke
      cases hchk : (if skipChecks then none else addEdgeNodeChecks st.2 az.1 az.2.1) with
      | some msg => rw [hchk] at h; subst h; exact absurd rfl hok
      | none =>
        rw [hchk] at h
        dsimp only at h
        have kc : ∀ c : RTT_TOPOLOGY × Int,
            c = (if skipChecks then (st.1, (0 : Int))
              else _rtt_CheckEdgeCrossing G st.1 s e geom 0) →
            c.2 = 0 → c.1 = st.1 := by
          intro c hc h0
          by_cases hsk : skipChecks = true
          · rw [if_pos hsk] at hc; rw [hc]
          · rw [if_neg hsk] at hc
            rw [hc] at h0 ⊢
            exact checkEdgeCrossing_ok G st.1 s e geom 0 h0
        generalize hc : (if skipChecks then (st.1, (0 : Int))
              else _rtt_CheckEdgeCrossing G st.1 s e geom 0) = c at h
        by_cases c1 : c.2 ≠ 0
        · rw [if_pos c1] at h; subst h; exact absurd rfl hok
        rw [if_neg c1] at h
        have hc1 := kc c hc.symm (not_not.1 c1)
        rcases hid : rtt_be_getNextEdgeId c.1 with ⟨T2, id⟩
        rw [hid] at h
        dsimp only at h
        by_cases c2 : id = -1
        · rw [if_pos c2] at h; subst h; exact absurd rfl hok
        rw [if_neg c2] at h
        obtain ⟨hidv, hT2⟩ := getNextEdgeId_ok hid c2
        have hE : T2.edges = T.edges := by rw [hT2, hc1, ks]
        have hF : T2.failing = T.failing := by rw [hT2, hc1, ks]
        have hseqv : id = T.edge_seq := by rw [hidv, hc1, ks]
        subst hseqv
        have cg : ∀ (node : Int) (d : edgeend) (o : Option edgeend),
            (_rtt_FindAdjacentEdges G T2 node d o (-1)).2 =
              (_rtt_FindAdjacentEdges G T node d o (-1)).2 :=
          fun node d o => findAdjacentEdges_congr G T T2 node d o o (-1) hE hF rfl
        obtain ⟨X, A, B, hA, hB, hX, hXe, hfe, hfn, hR⟩ :=
          addEdgeLink_state h hok (by omega) (by rw [hE]; exact hpos) (by rw [hE]; exact hnd)
        rw [cg] at hA hB
        refine ⟨az, X, st.2.face, A, B, rfl, hA, hB, ?_, ?_, kf, hfe, hfn, hR⟩
        · rw [hX, hT2, hc1, ks]
        · have h2 : T2.errors = st.1.errors := by rw [hT2, hc1]
          rw [h2] at hXe
          exact Nat.le_trans ke hXe

end RTTopo

namespace RTTopo

/-! ## The plan of `_rtt_AddEdge`: faces and successors around the new edge -/

theorem sideFace_bound {es : List RTT_ISO_EDGE} (hpos : ∀ e ∈ es, 0 < e.edge_id)
    (hnd : (es.map (fun e => e.edge_id)).Nodup) {q : Int}
    (hq : ∀ x ∈ es, x.face_left < q ∧ x.face_right < q) {h : Int}
    (hh : h ∈ signedIds es) : sideFace es h < q := by
  obtain ⟨e, he, rfl | rfl⟩ := mem_signedIds.1 hh
  · rw [sideFace_pos hnd he (hpos e he)]; exact (hq e he).1
  · rw [sideFace_neg hnd he (hpos e he)]; exact (hq e he).2

/-- The face `_rtt_AddEdge` derives for the new edge is the face `f` the edge runs in, when
it is set at all. -/
theorem addEdgeFaceLeft_eq {es : List RTT_ISO_EDGE} (face0 f : Int) (A : edgeend)
    (fa fb : Int) (h0 : face0 = -1 ∨ face0 = f) (hnf : neighbourFaces es A)
    (hcw : A.nextCW ≠ 0 → sideFace es A.nextCW = f)
    (hccw : A.nextCCW ≠ 0 → sideFace es (-A.nextCCW) = f)
    (hne : addEdgeFaceLeft face0 A fa fb ≠ -1) : addEdgeFaceLeft face0 A fa fb = f := by
  have c1 : A.cwFace = -1 ∨ A.cwFace = f := by
    have := hnf.1
    by_cases c : A.nextCW = 0
    · rw [if_pos c] at this; exact Or.inl this
    · rw [if_neg c] at this; right; rw [this]; exact hcw c
  have c2 : A.ccwFace = -1 ∨ A.ccwFace = f := by
    have := hnf.2
    by_cases c : A.nextCCW = 0
    · rw [if_pos c] at this; exact Or.inl this
    · rw [if_neg c] at this; right; rw [this]; exact hccw c
  have key : ∀ x : Int, (x = -1 ∨ x = f) → x ≠ -1 → x = f := by
    intro x hx hx'
    rcases hx with h | h
    · exact absurd h hx'
    · exact h
  unfold addEdgeFaceLeft at hne ⊢
  split_ifs at hne ⊢ <;>
    first
    | exact key _ c1 hne
    | exact key _ c2 hne
    | exact key _ h0 hne

theorem llabs_self_pos {k : Int} (hk : 0 < k) : llabs k = k ∧ llabs (-k) = k := by
  unfold llabs
  constructor <;> split_ifs <;> omega

/-- Undoing the link of `prev_left`: the successor the removal writes back on the signed
edge the new edge was linked after is the one it had. -/
theorem addEdgePlan_undo_left {es : List RTT_ISO_EDGE} (k s t : Int) (hk0 : 0 < k)
    (hbd : ∀ x ∈ signedIds es, -k < x ∧ x < k)
    (A B : edgeend) (fa fb f : Int) (g : RTLINE)
    (hA : neighboursAtNode es s A) (hB : neighboursAtNode es t B)
    (hzero : s = t → (fa = 0 ↔ fb = 0))
    (hcons : if s = t then (fa ≠ 0 → neighboursLinkedClosed es A B)
      else ((fa ≠ 0 → neighboursLinked es A) ∧ (fb ≠ 0 → neighboursLinked es B)))
    (hl : llabs (addEdgePrevLeft k s t A fa) ≠ k) :
    nextEdge es (addEdgePrevLeft k s t A fa) =
      if (addEdgePlanRow k s t A B fa fb f g).next_right ≠ -k
      then (addEdgePlanRow k s t A B fa fb f g).next_right
      else (addEdgePlanRow k s t A B fa fb f g).next_left := by
  obtain ⟨l1, l2⟩ := llabs_self_pos hk0
  unfold addEdgePrevLeft at hl ⊢
  unfold addEdgePlanRow
  dsimp only
  by_cases hfa : fa = 0
  · exfalso
    simp only [hfa, ne_eq, not_true_eq_false, if_false] at hl
    split_ifs at hl
    · exact hl l1
    · exact hl l2
  by_cases a2 : A.nextCCW = 0
  · exfalso
    simp only [hfa, a2, ne_eq, not_true_eq_false, not_false_eq_true, if_true, if_false] at hl
    exact hl l1
  have bcw : A.nextCW ≠ 0 → A.nextCW ≠ -k := by
    intro h0
    rcases hA.1 with h | h
    · exact absurd h h0
    · have := hbd _ h.1; omega
  have bcwB : B.nextCW ≠ 0 → B.nextCW ≠ -k := by
    intro h0
    rcases hB.1 with h | h
    · exact absurd h h0
    · have := hbd _ h.1; omega
  by_cases hst : s = t
  · rw [if_pos hst] at hcons
    obtain ⟨c1, c2, c3, c4, c5⟩ := hcons hfa
    have hfb : ¬ fb = 0 := fun h => hfa ((hzero hst).2 h)
    have b1 : ¬ B.nextCW = 0 := fun h => a2 (c2.1 h)
    have e3 := c3 a2
    by_cases a1 : A.nextCW = 0
    · simp only [hfa, hfb, a1, a2, b1, ne_eq, not_true_eq_false, not_false_eq_true, if_true,
        if_false] at e3 ⊢
      exact e3
    · have := bcw a1
      simp only [hfa, hfb, a1, a2, b1, this, ne_eq, not_true_eq_false, not_false_eq_true,
        if_true, if_false] at e3 ⊢
      exact e3
  · rw [if_neg hst] at hcons
    obtain ⟨n1, n2, n3⟩ := hcons.1 hfa
    have := bcw n1
    simp only [hfa, n1, a2, this, ne_eq, not_true_eq_false, not_false_eq_true, if_true,
      if_false]
    exact n3

/-- Undoing the link of `prev_right`. -/
theorem addEdgePlan_undo_right {es : List RTT_ISO_EDGE} (k s t : Int) (hk0 : 0 < k)
    (hbd : ∀ x ∈ signedIds es, -k < x ∧ x < k)
    (A B : edgeend) (fa fb f : Int) (g : RTLINE)
    (hA : neighboursAtNode es s A) (hB : neighboursAtNode es t B)
    (hzero : s = t → (fa = 0 ↔ fb = 0))
    (hcons : if s = t then (fa ≠ 0 → neighboursLinkedClosed es A B)
      else ((fa ≠ 0 → neighboursLinked es A) ∧ (fb ≠ 0 → neighboursLinked es B)))
    (hl : llabs (addEdgePrevRight k s t B fb) ≠ k) :
    nextEdge es (addEdgePrevRight k s t B fb) =
      if (addEdgePlanRow k s t A B fa fb f g).next_left ≠ k
      then (addEdgePlanRow k s t A B fa fb f g).next_left
      else (addEdgePlanRow k s t A B fa fb f g).next_right := by
  obtain ⟨l1, l2⟩ := llabs_self_pos hk0
  unfold addEdgePrevRight at hl ⊢
  unfold addEdgePlanRow
  dsimp only
  by_cases hfb : fb = 0
  · exfalso
    simp only [hfb, ne_eq, not_true_eq_false, if_false] at hl
    split_ifs at hl
    · exact hl l2
    · exact hl l1
  by_cases b2 : B.nextCCW = 0
  · exfalso
    simp only [hfb, b2, ne_eq, not_true_eq_false, not_false_eq_true, if_true, if_false] at hl
    exact hl l2
  have bcw : A.nextCW ≠ 0 → A.nextCW ≠ k := by
    intro h0
    rcases hA.1 with h | h
    · exact absurd h h0
    · have := hbd _ h.1; omega
  have bcwB : B.nextCW ≠ 0 → B.nextCW ≠ k := by
    intro h0
    rcases hB.1 with h | h
    · exact absurd h h0
    · have := hbd _ h.1; omega
  by_cases hst : s = t
  · rw [if_pos hst] at hcons
    have hfa : ¬ fa = 0 := fun h => hfb ((hzero hst).1 h)
    obtain ⟨c1, c2, c3, c4, c5⟩ := hcons hfa
    have a1 : ¬ A.nextCW = 0 := fun h => b2 (c1.1 h)
    have e4 := c4 b2
    by_cases b1 : B.nextCW = 0
    · simp only [hfa, hfb, a1, b2, b1, ne_eq, not_true_eq_false, not_false_eq_true, if_true,
        if_false] at e4 ⊢
      exact e4
    · have := bcwB b1
      simp only [hfa, hfb, a1, b2, b1, this, ne_eq, not_true_eq_false, not_false_eq_true,
        if_true, if_false] at e4 ⊢
      exact e4
  · rw [if_neg hst] at hcons
    obtain ⟨n1, n2, n3⟩ := hcons.2 hfb
    have := bcwB n1
    simp only [hfb, n1, b2, this, ne_eq, not_true_eq_false, not_false_eq_true, if_true,
      if_false]
    exact n3

/-- The signed edges the plan links the new edge with have the face `f` on their left. -/
theorem addEdgePlan_faces {es : List RTT_ISO_EDGE} (k s t : Int) (hk0 : 0 < k)
    (A B : edgeend) (fa fb f : Int) (g : RTLINE)
    (hA : neighboursAtNode es s A) (hB : neighboursAtNode es t B)
    (hAcw : A.nextCW ≠ 0 → sideFace es A.nextCW = f)
    (hAccw : A.nextCCW ≠ 0 → sideFace es (-A.nextCCW) = f)
    (hBcw : B.nextCW ≠ 0 → sideFace es B.nextCW = f)
    (hBccw : B.nextCCW ≠ 0 → sideFace es (-B.nextCCW) = f) :
    ((addEdgePlanRow k s t A B fa fb f g).next_left = k ∨
      (addEdgePlanRow k s t A B fa fb f g).next_left = -k ∨
      ((addEdgePlanRow k s t A B fa fb f g).next_left ∈ signedIds es ∧
        sideFace es (addEdgePlanRow k s t A B fa fb f g).next_left = f)) ∧
    ((addEdgePlanRow k s t A B fa fb f g).next_right = k ∨
      (addEdgePlanRow k s t A B fa fb f g).next_right = -k ∨
      ((addEdgePlanRow k s t A B fa fb f g).next_right ∈ signedIds es ∧
        sideFace es (addEdgePlanRow k s t A B fa fb f g).next_right = f)) ∧
    (llabs (addEdgePrevLeft k s t A fa) ≠ k → sideFace es (addEdgePrevLeft k s t A fa) = f) ∧
    (llabs (addEdgePrevRight k s t B fb) ≠ k →
      sideFace es (addEdgePrevRight k s t B fb) = f) := by
  obtain ⟨l1, l2⟩ := llabs_self_pos hk0
  refine ⟨?_, ?_, ?_, ?_⟩
  · unfold addEdgePlanRow
    dsimp only
    split_ifs with c1 c2 c3
    · rcases hB.1 with h | h
      · exact absurd h c2
      · exact Or.inr (Or.inr ⟨h.1, hBcw c2⟩)
    · exact Or.inl rfl
    · exact Or.inl rfl
    · exact Or.inr (Or.inl rfl)
  · unfold addEdgePlanRow
    dsimp only
    split_ifs with c1 c2 c3
    · rcases hA.1 with h | h
      · exact absurd h c2
      · exact Or.inr (Or.inr ⟨h.1, hAcw c2⟩)
    · exact Or.inr (Or.inl rfl)
    · exact Or.inr (Or.inl rfl)
    · exact Or.inl rfl
  · unfold addEdgePrevLeft
    split_ifs with c1 c2 c3
    · intro _; exact hAccw c2
    · intro h; exact absurd l1 h
    · intro h; exact absurd l1 h
    · intro h; exact absurd l2 h
  · unfold addEdgePrevRight
    split_ifs with c1 c2 c3
    · intro _; exact hBccw c2
    · intro h; exact absurd l2 h
    · intro h; exact absurd l2 h
    · intro h; exact absurd l1 h

end RTTopo

namespace RTTopo

/-! ## What a successful `rtt_AddEdgeModFace` leaves, read on the state before -/

theorem addEdgeNode_id (s e : Int) (si ei : Bool) (n : RTT_ISO_NODE) :
    (addEdgeNode s e si ei n).node_id = n.node_id := by
  unfold addEdgeNode
  split_ifs <;> rfl

theorem addEdgeFaceLeft_cases (face0 : Int) (A : edgeend) (fa fb : Int) :
    addEdgeFaceLeft face0 A fa fb = face0 ∨ addEdgeFaceLeft face0 A fa fb = A.cwFace ∨
      addEdgeFaceLeft face0 A fa fb = A.ccwFace := by
  unfold addEdgeFaceLeft
  split_ifs
  · exact Or.inr (Or.inl rfl)
  · exact Or.inr (Or.inr rfl)
  · exact Or.inr (Or.inl rfl)
  · exact Or.inl rfl

/-- A successful `rtt_AddEdgeModFace` that logs no error and allocates at most one face
identifier, on a valid state where the new edge runs in the face `f`: the state `L` with
the new row `N` linked in, from which removing the row gives the edge table back, and the
outcome of the face-split analysis on `L`. -/
theorem rtt_AddEdgeModFace_outcome {G : GEOM} {T : RTT_TOPOLOGY} {s e : Int}
    {line : RTLINE} {skipChecks : Bool} {f : Int} {R : RTT_TOPOLOGY × Int}
    (hv : roundTripValid T) (hadj : AdjacencyConsistent G T s e line)
    (hEnd : EndFaces G T s e line f) (hboxc : boxCoversLine G line)
    (h : rtt_AddEdgeModFace G T s e line skipChecks = R) (hok : R.2 ≠ -1)
    (hnoerr : R.1.errors.length ≤ T.errors.length)
    (hone : R.1.face_seq ≤ T.face_seq + 1) :
    ∃ (L : RTT_TOPOLOGY) (N : RTT_ISO_EDGE) (pl pr : Int) (si ei : Bool),
      N.edge_id = T.edge_seq ∧ N.start_node = s ∧ N.end_node = e ∧
      N.face_left = f ∧ N.face_right = f ∧ R.2 = T.edge_seq ∧
      f < T.face_seq ∧ f ≠ -1 ∧
      L.edges = addEdgeEdges T.edges N pl pr ∧
      L.nodes = T.nodes.map (addEdgeNode s e si ei) ∧
      L.faces = T.faces ∧ L.face_seq = T.face_seq ∧ L.failing = T.failing ∧
      (∀ Nk : RTT_ISO_EDGE, Nk.edge_id = N.edge_id → Nk.next_left = N.next_left →
        Nk.next_right = N.next_right → remEdgeEdges L.edges Nk = T.edges) ∧
      RingLinked R.1.edges ∧
      (idleStep L R.1 ∨ faceMade f T.edge_seq L R.1 ∨
        (f = 0 ∧ faceMade f (-T.edge_seq) L R.1)) := by
  obtain ⟨hlink, hrf, hiso, hnn, hseq, hfresh, hfs, hef, hnf, hff, _⟩ := hv
  have hpos := hlink.1
  have hnd := hlink.2.1
  unfold rtt_AddEdgeModFace at h
  have ok := rtt_AddEdge_ok h hok hlink hseq hfresh hadj
  obtain ⟨az, X, face0, A, B, haz, hA, hB, hX, hXe, hface0, hfe, hfn, hR⟩ :=
    rtt_AddEdge_state h hok hpos hnd hseq
  have hbd : ∀ x ∈ signedIds T.edges, -T.edge_seq < x ∧ x < T.edge_seq := by
    intro x hx
    obtain ⟨r, hr, hxr⟩ := mem_signedIds.1 hx
    have := hpos r hr
    have := hfresh r hr
    omega
  -- the two analyses
  have sa := findAdjacentEdges_sound G T s (edgeendOfAzimuth az.2.2.1)
    (if s = e then some (edgeendOfAzimuth az.2.2.2) else none) (-1) hpos hnd
  have sb := findAdjacentEdges_sound G T e (edgeendOfAzimuth az.2.2.2)
    (if s = e then some (edgeendOfAzimuth az.2.2.1) else none) (-1) hpos hnd
  have na := findAdjacentEdges_faces G T s (edgeendOfAzimuth az.2.2.1)
    (if s = e then some (edgeendOfAzimuth az.2.2.2) else none) (-1) hpos hnd
  rw [← hA] at sa na
  rw [← hB] at sb
  have hzero : s = e → (A.2 = 0 ↔ B.2 = 0) := by
    intro hst
    rw [sa.2.2.2, sb.2.2.2, hst]
  unfold EndFaces at hEnd
  rw [haz] at hEnd
  dsimp only at hEnd
  rw [← hA, ← hB] at hEnd
  obtain ⟨hEn, hAcw, hAccw, hBcw, hBccw⟩ := hEnd
  have hcons : if s = e then (A.2 ≠ 0 → neighboursLinkedClosed T.edges A.1 B.1)
      else ((A.2 ≠ 0 → neighboursLinked T.edges A.1) ∧
        (B.2 ≠ 0 → neighboursLinked T.edges B.1)) := by
    unfold AdjacencyConsistent at hadj
    rw [haz] at hadj
    dsimp only at hadj
    by_cases hst : s = e
    · rw [if_pos hst] at hadj hA hB ⊢
      rw [← hA, ← hB] at hadj
      exact hadj
    · rw [if_neg hst] at hadj hA hB ⊢
      rw [← hA, ← hB] at hadj
      exact hadj
  -- the face of the new row
  have h0 : face0 = -1 ∨ face0 = f := by
    rcases hface0 with h1 | ⟨n, hn, hid, hcf, h1⟩
    · exact Or.inl h1
    · right; rw [h1]; exact hEn n hn hid hcf
  have hfl := addEdgeFaceLeft_eq face0 f A.1 A.2 B.2 h0 na hAcw hAccw hfn
  have hfm : f ≠ -1 := by rw [← hfl]; exact hfn
  have hflt : f < T.face_seq := by
    rcases addEdgeFaceLeft_cases face0 A.1 A.2 B.2 with c | c | c
    · rw [hfl] at c
      rcases hface0 with h1 | ⟨n, hn, hid, hcf, h1⟩
      · exact absurd (c.trans h1) hfm
      · rw [c, h1]; exact hnf n hn
    · rw [hfl] at c
      have h1 := na.1
      by_cases z : A.1.nextCW = 0
      · rw [if_pos z] at h1; exact absurd (c.trans h1) hfm
      · rcases sa.2.1.1 with k | k
        · exact absurd k z
        · rw [← hAcw z]; exact sideFace_bound hpos hnd hef k.1
    · rw [hfl] at c
      have h1 := na.2
      by_cases z : A.1.nextCCW = 0
      · rw [if_pos z] at h1; exact absurd (c.trans h1) hfm
      · rcases sa.2.1.2 with k | k
        · exact absurd k z
        · rw [← hAccw z]
          exact sideFace_bound hpos hnd hef (neg_signed hpos hnd ⟨k.1, k.2⟩).1
  rw [hfl] at hR
  have hXE : X.edges = T.edges := by rw [hX]
  have hXN : X.nodes = T.nodes := by rw [hX]
  have hXF : X.faces = T.faces := by rw [hX]
  have hXS : X.face_seq = T.face_seq := by rw [hX]
  have hXL : X.failing = T.failing := by rw [hX]
  -- the plan
  have hd1 := addEdgePlan_undo_left T.edge_seq s e hseq hbd A.1 B.1 A.2 B.2 f line
    sa.2.1 sb.2.1 hzero hcons
  have hd2 := addEdgePlan_undo_right T.edge_seq s e hseq hbd A.1 B.1 A.2 B.2 f line
    sa.2.1 sb.2.1 hzero hcons
  obtain ⟨hNl, hNr, hpl, hpr⟩ := addEdgePlan_faces T.edge_seq s e hseq A.1 B.1 A.2 B.2 f line
    sa.2.1 sb.2.1 hAcw hAccw hBcw hBccw
  generalize hN : addEdgePlanRow T.edge_seq s e A.1 B.1 A.2 B.2 f line = N
    at hR hd1 hd2 hNl hNr
  generalize addEdgePrevLeft T.edge_seq s e A.1 A.2 = pl at hR hd1 hpl
  generalize addEdgePrevRight T.edge_seq s e B.1 B.2 = pr at hR hd2 hpr
  have hNid : N.edge_id = T.edge_seq := by rw [← hN]; rfl
  have hNs : N.start_node = s := by rw [← hN]; rfl
  have hNe : N.end_node = e := by rw [← hN]; rfl
  have hNfl : N.face_left = f := by rw [← hN]; rfl
  have hNfr : N.face_right = f := by rw [← hN]; rfl
  have hNg : N.geom = line := by rw [← hN]; rfl
  have hk : ∀ x ∈ T.edges, x.edge_id < N.edge_id := by rw [hNid]; exact hfresh
  have hk0 : 0 < N.edge_id := by rw [hNid]; exact hseq
  rw [← hNid] at hd1 hd2 hNl hNr hpl hpr
  obtain ⟨iN, iP, _⟩ := addEdgeEdges_ids N pl pr hlink hk hk0
  obtain ⟨s1, s2, _⟩ := addEdgeEdges_sideFace N pl pr hlink hk hk0
  have rfL := addEdgeEdges_ringFaces N pl pr f hlink hrf hk hk0 hNfl hNfr hNl hNr hpl hpr
  have hLE : (addEdgeLinked X N pl pr (decide (A.2 = 0)) (decide (B.2 = 0))).edges =
      addEdgeEdges T.edges N pl pr := by
    unfold addEdgeLinked; rw [hXE]
  have hLN : (addEdgeLinked X N pl pr (decide (A.2 = 0)) (decide (B.2 = 0))).nodes =
      T.nodes.map (addEdgeNode s e (decide (A.2 = 0)) (decide (B.2 = 0))) := by
    unfold addEdgeLinked; rw [hXN, hNs, hNe]
  have hLF : (addEdgeLinked X N pl pr (decide (A.2 = 0)) (decide (B.2 = 0))).faces =
      T.faces := by
    unfold addEdgeLinked; exact hXF
  have hLS : (addEdgeLinked X N pl pr (decide (A.2 = 0)) (decide (B.2 = 0))).face_seq =
      T.face_seq := by
    unfold addEdgeLinked; exact hXS
  have hLL : (addEdgeLinked X N pl pr (decide (A.2 = 0)) (decide (B.2 = 0))).failing =
      T.failing := by
    unfold addEdgeLinked; exact hXL
  have hLR : (addEdgeLinked X N pl pr (decide (A.2 = 0)) (decide (B.2 = 0))).errors =
      X.errors := by
    unfold addEdgeLinked; rfl
  generalize addEdgeLinked X N pl pr (decide (A.2 = 0)) (decide (B.2 = 0)) = L
    at hR hLE hLN hLF hLS hLL hLR
  subst hR
  have out := addEdgeFaceSplit_outcome G L N f
    (by rw [hLE]; exact iP) (by rw [hLE]; exact iN)
    (by
      rw [hLN, List.map_map]
      have : ((fun n : RTT_ISO_NODE => n.node_id) ∘
          addEdgeNode s e (decide (A.2 = 0)) (decide (B.2 = 0))) =
          (fun n : RTT_ISO_NODE => n.node_id) := by
        funext n; exact addEdgeNode_id _ _ _ _ n
      rw [this]; exact hnn)
    (by rw [hLE]; exact rfL) (by rw [hLS]; exact hfs) hk0 hNfl
    (by rw [hLE, s1]; exact hNfl) (by rw [hLE, s2]; exact hNfr)
    (by
      intro r hr hid tl
      rw [hLE, addEdgeEdges_rows_eq] at hr
      obtain ⟨x, hx, rfl⟩ := List.mem_map.1 hr
      have hxid : x.edge_id = N.edge_id := hid
      have hxN : x = N := by
        rcases List.mem_append.1 hx with c | c
        · have := hk x c; omega
        · exact List.mem_singleton.1 c
      have hg : (addEdgeRow N.edge_id pl pr x).geom = line := by
        rw [hxN]; exact hNg
      rw [hg]
      exact hboxc tl)
    hok (by rw [hLR]; exact Nat.le_trans hnoerr hXe) (by rw [hLS]; exact hone)
  rw [hNid] at out
  refine ⟨L, N, pl, pr, decide (A.2 = 0), decide (B.2 = 0), hNid, hNs, hNe, hNfl, hNfr,
    ok.2.1, hflt, hfm, hLE, hLN, hLF, hLS, hLL, ?_, ok.1, out⟩
  intro Nk k1 k2 k3
  rw [hLE]
  exact remEdge_addEdge_rows N pl pr hlink hk hk0 hd1 hd2 Nk k1 k2 k3

end RTTopo

namespace RTTopo

/-! ## Removing the edge that was added: the rows -/

/-- Arithmetic of one face reference through a face split and the face updates of the
removal: a reference below the new face identifier `q` that was moved to `q` only from
`f` comes back. -/
theorem roundTrip_face_arith (q f FL FR x0 : Int) (m : Prop) [Decidable m] (hx : x0 < q)
    (hm : m → x0 = f) (hfq : f < q)
    (hsh : (FL = f ∧ FR = f ∧ ¬ m) ∨ (FL = q ∧ FR = f) ∨ (FL = f ∧ FR = q)) :
    (if (if (if m then q else x0) = FL then f else (if m then q else x0)) = FR then f
      else (if (if m then q else x0) = FL then f else (if m then q else x0))) = x0 := by
  by_cases c : m
  · have := hm c
    simp only [if_pos c]
    rcases hsh with ⟨_, _, h⟩ | ⟨h1, h2⟩ | ⟨h1, h2⟩
    · exact absurd c h
    · subst h1 h2; split_ifs <;> omega
    · subst h1 h2; split_ifs <;> omega
  · simp only [if_neg c]
    rcases hsh with ⟨h1, h2, _⟩ | ⟨h1, h2⟩ | ⟨h1, h2⟩
    · subst h1 h2; split_ifs <;> omega
    · subst h1 h2; split_ifs <;> omega
    · subst h1 h2; split_ifs <;> omega

theorem node_row_ext {a b : RTT_ISO_NODE} (h1 : a.node_id = b.node_id)
    (h2 : a.containing_face = b.containing_face) (h3 : a.geom = b.geom) : a = b := by
  cases a; cases b
  simp only [RTT_ISO_NODE.mk.injEq]
  exact ⟨h1, h2, h3⟩

theorem remEdgeRow_faceSplitRow (edge : RTT_ISO_EDGE) (k q : Int) (fw bw : List Int)
    (x : RTT_ISO_EDGE) :
    remEdgeRow edge k (faceSplitRow q fw bw x) = faceSplitRow q fw bw (remEdgeRow edge k x) :=
  rfl

theorem faceSplitRow_nil (q : Int) (x : RTT_ISO_EDGE) : faceSplitRow q [] [] x = x := by
  unfold faceSplitRow
  simp

theorem faceSplitNode_nil (q : Int) (n : RTT_ISO_NODE) : faceSplitNode q [] n = n := by
  unfold faceSplitNode
  simp

/-- The linkage updates of `_rtt_RemEdge` on a well-formed table, row by row. -/
theorem remEdgeRelinked_rows {es : List RTT_ISO_EDGE} (hlink : RingLinked es)
    {edge : RTT_ISO_EDGE} (hedge : edge ∈ es) :
    remEdgeRelinked es edge edge.edge_id = es.map (remEdgeRow edge edge.edge_id) := by
  unfold remEdgeRelinked
  apply remEdge_relink_rows hlink hedge
  · split_ifs <;> simp
  · split_ifs with c
    · simp
    · simp; exact not_not.1 c

/-- The row of the new edge after the insertion and a face split. -/
theorem roundTrip_new_row {es : List RTT_ISO_EDGE} (N : RTT_ISO_EDGE) (pl pr q : Int)
    (fw bw : List Int) (hk : ∀ x ∈ es, x.edge_id < N.edge_id) {edge : RTT_ISO_EDGE}
    (hedge : edge ∈ (addEdgeEdges es N pl pr).map (faceSplitRow q fw bw))
    (hid : edge.edge_id = N.edge_id) :
    edge.next_left = N.next_left ∧ edge.next_right = N.next_right ∧
    edge.start_node = N.start_node ∧ edge.end_node = N.end_node ∧
    edge.face_left = (if N.edge_id ∈ fw then q else N.face_left) ∧
    edge.face_right = (if N.edge_id ∈ bw then q else N.face_right) := by
  rw [addEdgeEdges_rows_eq, List.map_map] at hedge
  obtain ⟨y, hy, rfl⟩ := List.mem_map.1 hedge
  have hyid : y.edge_id = N.edge_id := hid
  have hyN : y = N := by
    rcases List.mem_append.1 hy with c | c
    · have := hk y c; omega
    · exact List.mem_singleton.1 c
  subst hyN
  refine ⟨?_, ?_, rfl, rfl, rfl, rfl⟩
  · exact addEdge_new_left_arith y.edge_id pl pr y.next_left
  · exact addEdge_new_right_arith y.edge_id pl pr y.next_right

/-- Removing the new edge after the insertion and a face split gives every stored edge
row back. -/
theorem roundTrip_edges {es Les Aes : List RTT_ISO_EDGE} (N : RTT_ISO_EDGE) (pl pr q f : Int)
    (fw bw : List Int) (edge : RTT_ISO_EDGE)
    (hk : ∀ x ∈ es, x.edge_id < N.edge_id)
    (hL : Les = addEdgeEdges es N pl pr)
    (hA : Aes = Les.map (faceSplitRow q fw bw))
    (hlinkA : RingLinked Aes) (hedge : edge ∈ Aes) (hid : edge.edge_id = N.edge_id)
    (hundo : ∀ Nk : RTT_ISO_EDGE, Nk.edge_id = N.edge_id → Nk.next_left = N.next_left →
      Nk.next_right = N.next_right → remEdgeEdges Les Nk = es)
    (hq : ∀ x ∈ es, x.face_left < q ∧ x.face_right < q) (hfq : f < q)
    (hfw : ∀ i ∈ fw, ∀ e ∈ Les, e.edge_id = i → e.face_left = f)
    (hbw : ∀ i ∈ bw, ∀ e ∈ Les, e.edge_id = i → e.face_right = f)
    (hsh : (edge.face_left = f ∧ edge.face_right = f ∧ fw = [] ∧ bw = []) ∨
      (edge.face_left = q ∧ edge.face_right = f) ∨
      (edge.face_left = f ∧ edge.face_right = q)) :
    ((remEdgeRelinked Aes edge edge.edge_id).map
      (fun e => faceRefEdge edge.face_right f (faceRefEdge edge.face_left f e))).filter
        (fun e => !decide (e.edge_id = edge.edge_id)) = es := by
  rw [remEdgeRelinked_rows hlinkA hedge]
  have hrow := roundTrip_new_row N pl pr q fw bw hk (by rw [← hL, ← hA]; exact hedge) hid
  have key : ((Aes.map (remEdgeRow edge edge.edge_id)).map
      (fun e => faceRefEdge edge.face_right f (faceRefEdge edge.face_left f e))).filter
        (fun e => !decide (e.edge_id = edge.edge_id)) =
      (remEdgeEdges Les edge).map
        (fun e => faceRefEdge edge.face_right f (faceRefEdge edge.face_left f
          (faceSplitRow q fw bw e))) := by
    rw [hA]
    unfold remEdgeEdges
    rw [List.map_map, List.map_map, List.filter_map, List.filter_map, List.map_map]
    rfl
  rw [key, hundo edge hid hrow.1 hrow.2.1]
  conv_rhs => rw [← List.map_id es]
  apply List.map_congr_left
  intro e he
  have hmem : addEdgeRow N.edge_id pl pr e ∈ Les := by
    rw [hL, addEdgeEdges_rows_eq]
    exact List.mem_map.2 ⟨e, List.mem_append_left _ he, rfl⟩
  have a1 := roundTrip_face_arith q f edge.face_left edge.face_right e.face_left
    (e.edge_id ∈ fw) (hq e he).1 (fun m => hfw _ m (addEdgeRow N.edge_id pl pr e) hmem rfl) hfq
    (by
      rcases hsh with ⟨h1, h2, h3, _⟩ | h | h
      · exact Or.inl ⟨h1, h2, by rw [h3]; simp⟩
      · exact Or.inr (Or.inl h)
      · exact Or.inr (Or.inr h))
  have a2 := roundTrip_face_arith q f edge.face_left edge.face_right e.face_right
    (e.edge_id ∈ bw) (hq e he).2 (fun m => hbw _ m (addEdgeRow N.edge_id pl pr e) hmem rfl) hfq
    (by
      rcases hsh with ⟨h1, h2, _, h3⟩ | h | h
      · exact Or.inl ⟨h1, h2, by rw [h3]; simp⟩
      · exact Or.inr (Or.inl h)
      · exact Or.inr (Or.inr h))
  exact edge_row_ext rfl rfl rfl a1 a2 rfl rfl rfl

/-- The count `_rtt_RemEdge` makes of the other edges on an end node of the new edge is
zero exactly when no stored edge was on the node before the insertion. -/
theorem roundTrip_count {es : List RTT_ISO_EDGE} (N : RTT_ISO_EDGE) (pl pr q : Int)
    (fw bw : List Int) (hk : ∀ x ∈ es, x.edge_id < N.edge_id) (ids : List Int) (v : Int)
    (hv : v ∈ ids) :
    remEdgeNodeEdges N.edge_id v
      (((addEdgeEdges es N pl pr).map (faceSplitRow q fw bw)).filter
        (fun e => decide (e.start_node ∈ ids) || decide (e.end_node ∈ ids))) = 0 ↔
      ∀ x ∈ es, x.start_node ≠ v ∧ x.end_node ≠ v := by
  rw [remEdgeNodeEdges_zero, addEdgeEdges_rows_eq, List.map_map]
  constructor
  · intro h x hx
    have hm : (faceSplitRow q fw bw ∘ addEdgeRow N.edge_id pl pr) x ∈
        List.map (faceSplitRow q fw bw ∘ addEdgeRow N.edge_id pl pr) (es ++ [N]) :=
      List.mem_map.2 ⟨x, List.mem_append_left _ hx, rfl⟩
    by_contra hc
    have hne : ((faceSplitRow q fw bw ∘ addEdgeRow N.edge_id pl pr) x).edge_id ≠ N.edge_id := by
      have := hk x hx
      show x.edge_id ≠ N.edge_id
      omega
    have htouch : x.start_node = v ∨ x.end_node = v := by
      by_contra h2
      exact hc ⟨fun a => h2 (Or.inl a), fun a => h2 (Or.inr a)⟩
    have hf : (faceSplitRow q fw bw ∘ addEdgeRow N.edge_id pl pr) x ∈
        (List.map (faceSplitRow q fw bw ∘ addEdgeRow N.edge_id pl pr) (es ++ [N])).filter
          (fun e => decide (e.start_node ∈ ids) || decide (e.end_node ∈ ids)) := by
      apply List.mem_filter.2 ⟨hm, ?_⟩
      simp only [Bool.or_eq_true, decide_eq_true_eq]
      rcases htouch with a | a
      · left; show x.start_node ∈ ids; rw [a]; exact hv
      · right; show x.end_node ∈ ids; rw [a]; exact hv
    exact hc (h ((faceSplitRow q fw bw ∘ addEdgeRow N.edge_id pl pr) x) hf hne)
  · intro h x' hx' hne
    obtain ⟨hm, _⟩ := List.mem_filter.1 hx'
    obtain ⟨y, hy, rfl⟩ := List.mem_map.1 hm
    rcases List.mem_append.1 hy with c | c
    · exact h y c
    · rw [List.mem_singleton.1 c] at hne
      exact absurd rfl hne

/-- One node row through the insertion, a face split and the removal. -/
theorem roundTrip_node (s e : Int) (si ei : Bool) (q f FL FR : Int) (ns : List Int)
    (edge : RTT_ISO_EDGE) (c1 c2 : Nat) (n : RTT_ISO_NODE)
    (hes : edge.start_node = s) (hee : edge.end_node = e)
    (hcf : n.containing_face < q) (hfq : f < q)
    (hns : n.node_id ∈ ns → (addEdgeNode s e si ei n).containing_face = f)
    (hsh : (FL = f ∧ FR = f ∧ ns = []) ∨ (FL = q ∧ FR = f) ∨ (FL = f ∧ FR = q))
    (hs : n.node_id = s →
      ((c1 = 0 → n.containing_face = f) ∧ (c1 ≠ 0 → n.containing_face = -1)))
    (he : n.node_id = e →
      ((c2 = 0 → n.containing_face = f) ∧ (c2 ≠ 0 → n.containing_face = -1))) :
    remEdgeNode edge c1 c2 f (faceRefNode FR f (faceRefNode FL f
      (faceSplitNode q ns (addEdgeNode s e si ei n)))) = n := by
  have i1 : (addEdgeNode s e si ei n).node_id = n.node_id := addEdgeNode_id s e si ei n
  have g1 : (addEdgeNode s e si ei n).geom = n.geom := by
    unfold addEdgeNode; split_ifs <;> rfl
  have f1 : (addEdgeNode s e si ei n).containing_face =
      if (si = true ∧ n.node_id = s) ∨ (ei = true ∧ n.node_id = e) then -1
      else n.containing_face := by
    unfold addEdgeNode; split_ifs <;> rfl
  generalize addEdgeNode s e si ei n = n1 at i1 g1 f1 hns
  unfold remEdgeNode
  rw [hes, hee]
  have i2 : (faceRefNode FR f (faceRefNode FL f (faceSplitNode q ns n1))).node_id =
      n.node_id := i1
  rw [i2]
  by_cases C : (c1 = 0 ∧ n.node_id = s) ∨ (e ≠ s ∧ c2 = 0 ∧ n.node_id = e)
  · rw [if_pos C]
    refine node_row_ext rfl ?_ g1
    show f = n.containing_face
    rcases C with ⟨a, b⟩ | ⟨_, a, b⟩
    · exact ((hs b).1 a).symm
    · exact ((he b).1 a).symm
  · rw [if_neg C]
    refine node_row_ext i1 ?_ g1
    have hsame : n1.containing_face = n.containing_face := by
      rw [f1]
      by_cases D : (si = true ∧ n.node_id = s) ∨ (ei = true ∧ n.node_id = e)
      · rw [if_pos D]
        rcases D with ⟨_, b⟩ | ⟨_, b⟩
        · have : c1 ≠ 0 := fun a => C (Or.inl ⟨a, b⟩)
          exact ((hs b).2 this).symm
        · by_cases hse : e = s
          · have b' : n.node_id = s := by rw [b, hse]
            have : c1 ≠ 0 := fun a => C (Or.inl ⟨a, b'⟩)
            exact ((hs b').2 this).symm
          · have : c2 ≠ 0 := fun a => C (Or.inr ⟨hse, a, b⟩)
            exact ((he b).2 this).symm
      · rw [if_neg D]
    have ar := roundTrip_face_arith q f FL FR n1.containing_face (n1.node_id ∈ ns)
      (by rw [hsame]; exact hcf) (fun m => hns (by rw [← i1]; exact m)) hfq
      (by
        rcases hsh with ⟨h1, h2, h3⟩ | h | h
        · exact Or.inl ⟨h1, h2, by rw [h3]; simp⟩
        · exact Or.inr (Or.inl h)
        · exact Or.inr (Or.inr h))
    exact Eq.trans ar hsame

/-- The face identifiers after the insertion made the face `q` and the removal deleted
it. -/
theorem roundTrip_faces (Tf Af : List RTT_ISO_FACE) (q : Int)
    (g : RTT_ISO_FACE → RTT_ISO_FACE) (hg : ∀ x, (g x).face_id = x.face_id)
    (hA : Af.map (fun x => x.face_id) = Tf.map (fun x => x.face_id) ++ [q])
    (hq : ∀ x ∈ Tf, x.face_id < q) :
    ((Af.map g).filter (fun x => !decide (x.face_id ∈ [q]))).map (fun x => x.face_id) =
      Tf.map (fun x => x.face_id) := by
  have key : ∀ l : List RTT_ISO_FACE,
      ((l.map g).filter (fun x => !decide (x.face_id ∈ [q]))).map (fun x => x.face_id) =
        (l.map (fun x => x.face_id)).filter (fun i => !decide (i ∈ [q])) := by
    intro l
    induction l with
    | nil => rfl
    | cons a t ih =>
      simp only [List.map_cons]
      by_cases c : a.face_id ∈ [q]
      · rw [List.filter_cons_of_neg (by simp only [hg]; simpa using c),
          List.filter_cons_of_neg (by simpa using c)]
        exact ih
      · rw [List.filter_cons_of_pos (by simp only [hg]; simpa using c),
          List.filter_cons_of_pos (by simpa using c), List.map_cons, ih, hg]
  rw [key, hA, List.filter_append]
  have h1 : List.filter (fun i => !decide (i ∈ [q])) [q] = [] := by simp
  rw [h1, List.append_nil]
  apply List.filter_eq_self.2
  intro i hi
  obtain ⟨x, hx, rfl⟩ := List.mem_map.1 hi
  have := hq x hx
  simp only [List.mem_singleton, Bool.not_eq_true', decide_eq_false_iff_not]
  omega

end RTTopo

namespace RTTopo

/-! ## Adding an edge and removing it again: the claim -/

/-- The outcome of the face-split analysis in one shape: rows moved to the face `q`, none
when nothing was written. -/
theorem roundTrip_shape {f k : Int} {L A : RTT_TOPOLOGY} (hk0 : 0 < k)
    (out : idleStep L A ∨ faceMade f k L A ∨ (f = 0 ∧ faceMade f (-k) L A)) :
    ∃ fw bw ns : List Int,
      A.edges = L.edges.map (faceSplitRow L.face_seq fw bw) ∧
      A.nodes = L.nodes.map (faceSplitNode L.face_seq ns) ∧
      (∀ i ∈ fw, ∀ x ∈ L.edges, x.edge_id = i → x.face_left = f) ∧
      (∀ i ∈ bw, ∀ x ∈ L.edges, x.edge_id = i → x.face_right = f) ∧
      (∀ i ∈ ns, ∀ n ∈ L.nodes, n.node_id = i → n.containing_face = f) ∧
      ((fw = [] ∧ bw = [] ∧ ns = [] ∧
          A.faces.map (fun x => x.face_id) = L.faces.map (fun x => x.face_id)) ∨
        (A.faces.map (fun x => x.face_id) = L.faces.map (fun x => x.face_id) ++ [L.face_seq] ∧
          ((k ∈ fw ∧ k ∉ bw) ∨ (f = 0 ∧ k ∈ bw ∧ k ∉ fw)))) := by
  rcases out with h | h | ⟨h0, h⟩
  · obtain ⟨b1, b2, b3, _⟩ := h
    refine ⟨[], [], [], ?_, ?_, ?_, ?_, ?_, Or.inl ⟨rfl, rfl, rfl, b3⟩⟩
    · rw [b1]
      conv_lhs => rw [← List.map_id L.edges]
      apply List.map_congr_left
      intro x _
      exact (faceSplitRow_nil _ x).symm
    · rw [b2]
      conv_lhs => rw [← List.map_id L.nodes]
      apply List.map_congr_left
      intro x _
      exact (faceSplitNode_nil _ x).symm
    · intro i hi; simp at hi
    · intro i hi; simp at hi
    · intro i hi; simp at hi
  · obtain ⟨a1, a2, a3, a4, a5, a6, fw, bw, ns, a7, a8, a9, a10, a11, a12, a13⟩ := h
    exact ⟨fw, bw, ns, a7, a8, a9, a10, a11, Or.inr ⟨a2, Or.inl (a12 hk0)⟩⟩
  · obtain ⟨a1, a2, a3, a4, a5, a6, fw, bw, ns, a7, a8, a9, a10, a11, a12, a13⟩ := h
    have := a13 (by omega)
    rw [neg_neg] at this
    exact ⟨fw, bw, ns, a7, a8, a9, a10, a11, Or.inr ⟨a2, Or.inr ⟨h0, this⟩⟩⟩

/-- Claim C7: on a valid state (well-formed linkage, one face around every ring, the
node isolation invariant, identifiers and face references below the sequences, sequences
within the C type `int`) where the adjacency analyses agree with the linkage and the new
edge runs in one face `f`, for every geometry kernel (whatever interior points, windings
and containments it reports), a
successful `rtt_AddEdgeModFace(s, e, line)` that logs no error and allocates at most one
face identifier, followed by a successful `rtt_RemEdgeModFace` of the edge it returned,
restores every node row, every edge row and the list of face identifiers, whether or not
a face was created and whether `f` is the universe face or not. -/
theorem addEdge_remEdge_restores (G : GEOM) (T : RTT_TOPOLOGY) (s e : Int) (line : RTLINE)
    (skipChecks : Bool) (f : Int)
    (hv : roundTripValid T) (hadj : AdjacencyConsistent G T s e line)
    (hEnd : EndFaces G T s e line f) (hboxc : boxCoversLine G line)
    (hok : (rtt_AddEdgeModFace G T s e line skipChecks).2 ≠ -1)
    (hnoerr : (rtt_AddEdgeModFace G T s e line skipChecks).1.errors.length ≤ T.errors.length)
    (hone : (rtt_AddEdgeModFace G T s e line skipChecks).1.face_seq ≤ T.face_seq + 1)
    (hok2 : (rtt_RemEdgeModFace G (rtt_AddEdgeModFace G T s e line skipChecks).1
      (rtt_AddEdgeModFace G T s e line skipChecks).2).2 ≠ -1) :
    (rtt_RemEdgeModFace G (rtt_AddEdgeModFace G T s e line skipChecks).1
      (rtt_AddEdgeModFace G T s e line skipChecks).2).1.nodes = T.nodes ∧
    (rtt_RemEdgeModFace G (rtt_AddEdgeModFace G T s e line skipChecks).1
      (rtt_AddEdgeModFace G T s e line skipChecks).2).1.edges = T.edges ∧
    (rtt_RemEdgeModFace G (rtt_AddEdgeModFace G T s e line skipChecks).1
      (rtt_AddEdgeModFace G T s e line skipChecks).2).1.faces.map (fun x => x.face_id) =
      T.faces.map (fun x => x.face_id) := by
  generalize hA : rtt_AddEdgeModFace G T s e line skipChecks = A at hok hnoerr hone hok2 ⊢
  obtain ⟨L, N, pl, pr, si, ei, hNid, hNs, hNe, hNfl, hNfr, hA2, hflt, hfm, hLE, hLN, hLF,
    hLS, hLL, hundo, hlinkA, out⟩ :=
    rtt_AddEdgeModFace_outcome hv hadj hEnd hboxc hA hok hnoerr hone
  obtain ⟨hlink, hrf, hiso, hnn, hseq, hfresh, hfs, hef, hnf, hff, _⟩ := hv
  have hEn := hEnd.1
  rw [hA2] at hok2 ⊢
  unfold rtt_RemEdgeModFace at hok2 ⊢
  obtain ⟨edge, ff, nf, F, hrow, hbr, hst, _⟩ :=
    rtt_RemEdge_state (rfl : _rtt_RemEdge G A.1 T.edge_seq true = _) hok2
  generalize _rtt_RemEdge G A.1 T.edge_seq true = R2 at hok2 hbr hst ⊢
  obtain ⟨hedge, heid⟩ := edgeRow_some hrow
  obtain ⟨fw, bw, ns, sE, sN, sfw, sbw, sns, sF⟩ := roundTrip_shape hseq out
  rw [hLS] at sE sN sF
  rw [hLF] at sF
  have hk : ∀ x ∈ T.edges, x.edge_id < N.edge_id := by rw [hNid]; exact hfresh
  have heN : edge.edge_id = N.edge_id := heid.trans hNid.symm
  have hedge' : edge ∈ (addEdgeEdges T.edges N pl pr).map (faceSplitRow T.face_seq fw bw) := by
    rw [← hLE, ← sE]; exact hedge
  obtain ⟨r1, r2, r3, r4, r5, r6⟩ := roundTrip_new_row N pl pr T.face_seq fw bw hk hedge' heN
  rw [hNid, hNfl] at r5
  rw [hNid, hNfr] at r6
  rw [hNs] at r3
  rw [hNe] at r4
  -- the faces on the two sides of the new edge, and the face identifiers
  have hsh : (edge.face_left = f ∧ edge.face_right = f ∧ fw = [] ∧ bw = [] ∧ ns = [] ∧
        A.1.faces.map (fun x => x.face_id) = T.faces.map (fun x => x.face_id)) ∨
      (A.1.faces.map (fun x => x.face_id) = T.faces.map (fun x => x.face_id) ++ [T.face_seq] ∧
        ((edge.face_left = T.face_seq ∧ edge.face_right = f) ∨
          (f = 0 ∧ edge.face_left = f ∧ edge.face_right = T.face_seq))) := by
    rcases sF with ⟨h1, h2, h3, h4⟩ | ⟨h4, ⟨m1, m2⟩ | ⟨h0, m1, m2⟩⟩
    · left
      rw [h1] at r5
      rw [h2] at r6
      exact ⟨by rw [r5]; simp, by rw [r6]; simp, h1, h2, h3, h4⟩
    · right
      rw [if_pos m1] at r5
      rw [if_neg m2] at r6
      exact ⟨h4, Or.inl ⟨r5, r6⟩⟩
    · right
      rw [if_neg m2] at r5
      rw [if_pos m1] at r6
      exact ⟨h4, Or.inr ⟨h0, r5, r6⟩⟩
  have hfq : f ≠ T.face_seq := by omega
  have hq0 : T.face_seq ≠ 0 := by omega
  -- the flood face is `f`, and the face identifiers come back
  have hflood : ff = f ∧ F.map (fun x => x.face_id) = T.faces.map (fun x => x.face_id) := by
    rcases hbr with ⟨b1, b2, b3, b4, b5⟩ | ⟨b1, b2, b3, b4, b5, b6⟩ |
        ⟨b1, b2, b3, box1, box2, _, _, ⟨_, b4, b5, b6, b7⟩ | ⟨b4, _⟩⟩
    · rcases hsh with ⟨h1, h2, _, _, _, h6⟩ | ⟨_, ⟨h1, h2⟩ | ⟨_, h1, h2⟩⟩
      · exact ⟨by rw [b2, h2], by rw [b4]; exact h6⟩
      · rw [h1, h2] at b1; exact absurd b1.symm hfq
      · rw [h1, h2] at b1; exact absurd b1 hfq
    · rcases hsh with ⟨h1, h2, _⟩ | ⟨h6, ⟨h1, h2⟩ | ⟨h0, h1, h2⟩⟩
      · rw [h1, h2] at b1; exact absurd rfl b1
      · have hf0 : f = 0 := by
          rcases b2 with c | c
          · rw [h1] at c; exact absurd c hq0
          · rw [h2] at c; exact c
        refine ⟨by rw [b3, hf0], ?_⟩
        have hg : remEdgeGone edge 0 = [T.face_seq] := by
          unfold remEdgeGone
          rw [h1, h2, hf0]
          simp [hq0]
        rw [b5, hg]
        have := roundTrip_faces T.faces A.1.faces T.face_seq id (fun _ => rfl) h6 hff
        rw [List.map_id] at this
        exact this
      · refine ⟨by rw [b3, h0], ?_⟩
        have hg : remEdgeGone edge 0 = [T.face_seq] := by
          unfold remEdgeGone
          rw [h1, h2, h0]
          simp [hq0]
        rw [b5, hg]
        have := roundTrip_faces T.faces A.1.faces T.face_seq id (fun _ => rfl) h6 hff
        rw [List.map_id] at this
        exact this
    · rcases hsh with ⟨h1, h2, _⟩ | ⟨h6, ⟨h1, h2⟩ | ⟨h0, h1, h2⟩⟩
      · rw [h1, h2] at b1; exact absurd rfl b1
      · refine ⟨by rw [b4, h2], ?_⟩
        have hg : remEdgeGone edge ff = [T.face_seq] := by
          unfold remEdgeGone
          rw [b4, h1, h2]
          simp [Ne.symm hfq]
        rw [b6, hg]
        exact roundTrip_faces T.faces A.1.faces T.face_seq _
          (fun x => by split_ifs <;> rfl) h6 hff
      · rw [h1, h0] at b2; exact absurd rfl b2
    · exact absurd b4 (by decide)
  obtain ⟨hff1, hFid⟩ := hflood
  subst hff1
  have hshE : (edge.face_left = ff ∧ edge.face_right = ff ∧ fw = [] ∧ bw = []) ∨
      (edge.face_left = T.face_seq ∧ edge.face_right = ff) ∨
      (edge.face_left = ff ∧ edge.face_right = T.face_seq) := by
    rcases hsh with ⟨h1, h2, h3, h4, _⟩ | ⟨_, h | ⟨_, h1, h2⟩⟩
    · exact Or.inl ⟨h1, h2, h3, h4⟩
    · exact Or.inr (Or.inl h)
    · exact Or.inr (Or.inr ⟨h1, h2⟩)
  have hshN : (edge.face_left = ff ∧ edge.face_right = ff ∧ ns = []) ∨
      (edge.face_left = T.face_seq ∧ edge.face_right = ff) ∨
      (edge.face_left = ff ∧ edge.face_right = T.face_seq) := by
    rcases hsh with ⟨h1, h2, _, _, h5, _⟩ | ⟨_, h | ⟨_, h1, h2⟩⟩
    · exact Or.inl ⟨h1, h2, h5⟩
    · exact Or.inr (Or.inl h)
    · exact Or.inr (Or.inr ⟨h1, h2⟩)
  -- the counts of other edges on the end nodes
  have hcnt : ∀ v : Int,
      v ∈ (if edge.end_node ≠ edge.start_node then [edge.start_node, edge.end_node]
        else [edge.start_node]) →
      (remEdgeNodeEdges T.edge_seq v
        (A.1.edges.filter (fun x =>
          decide (x.start_node ∈ (if edge.end_node ≠ edge.start_node
            then [edge.start_node, edge.end_node] else [edge.start_node])) ||
          decide (x.end_node ∈ (if edge.end_node ≠ edge.start_node
            then [edge.start_node, edge.end_node] else [edge.start_node])))) = 0 ↔
        ∀ x ∈ T.edges, x.start_node ≠ v ∧ x.end_node ≠ v) := by
    intro v hv
    have := roundTrip_count N pl pr T.face_seq fw bw hk _ v hv
    rw [hNid, ← hLE, ← sE] at this
    exact this
  have hc1 := hcnt edge.start_node (by split_ifs <;> simp)
  have hc2 := hcnt edge.end_node (by
    split_ifs with c
    · simp
    · simp; exact not_not.1 c)
  conv at hc1 => rhs; rw [r3]
  conv at hc2 => rhs; rw [r4]
  have hN : R2.1.nodes = (A.1.nodes.map
      (fun n => faceRefNode edge.face_right ff (faceRefNode edge.face_left ff n))).map
        (remEdgeNode edge
          (remEdgeNodeEdges T.edge_seq edge.start_node
            (A.1.edges.filter (fun x =>
              decide (x.start_node ∈ (if edge.end_node ≠ edge.start_node
                then [edge.start_node, edge.end_node] else [edge.start_node])) ||
              decide (x.end_node ∈ (if edge.end_node ≠ edge.start_node
                then [edge.start_node, edge.end_node] else [edge.start_node])))))
          (remEdgeNodeEdges T.edge_seq edge.end_node
            (A.1.edges.filter (fun x =>
              decide (x.start_node ∈ (if edge.end_node ≠ edge.start_node
                then [edge.start_node, edge.end_node] else [edge.start_node])) ||
              decide (x.end_node ∈ (if edge.end_node ≠ edge.start_node
                then [edge.start_node, edge.end_node] else [edge.start_node])))))
          ff) := by
    rw [hst]
  have hE : R2.1.edges = ((remEdgeRelinked A.1.edges edge T.edge_seq).map
      (fun x => faceRefEdge edge.face_right ff (faceRefEdge edge.face_left ff x))).filter
        (fun x => !decide (x.edge_id = edge.edge_id)) := by
    rw [hst]
  have hFa : R2.1.faces = F := by
    rw [hst]
  generalize remEdgeNodeEdges T.edge_seq edge.start_node
    (A.1.edges.filter (fun x =>
      decide (x.start_node ∈ (if edge.end_node ≠ edge.start_node
        then [edge.start_node, edge.end_node] else [edge.start_node])) ||
      decide (x.end_node ∈ (if edge.end_node ≠ edge.start_node
        then [edge.start_node, edge.end_node] else [edge.start_node])))) = c1 at hc1 hN
  generalize remEdgeNodeEdges T.edge_seq edge.end_node
    (A.1.edges.filter (fun x =>
      decide (x.start_node ∈ (if edge.end_node ≠ edge.start_node
        then [edge.start_node, edge.end_node] else [edge.start_node])) ||
      decide (x.end_node ∈ (if edge.end_node ≠ edge.start_node
        then [edge.start_node, edge.end_node] else [edge.start_node])))) = c2 at hc2 hN
  refine ⟨?_, ?_, ?_⟩
  · rw [hN, sN, hLN, List.map_map, List.map_map, List.map_map]
    conv_rhs => rw [← List.map_id T.nodes]
    apply List.map_congr_left
    intro n hn
    have hi := hiso n hn
    show remEdgeNode edge c1 c2 ff (faceRefNode edge.face_right ff
      (faceRefNode edge.face_left ff (faceSplitNode T.face_seq ns
        (addEdgeNode s e si ei n)))) = n
    apply roundTrip_node s e si ei T.face_seq ff edge.face_left edge.face_right ns edge c1 c2 n
      r3 r4 (hnf n hn) hflt
    · intro m
      apply sns _ m (addEdgeNode s e si ei n)
      · rw [hLN]; exact List.mem_map.2 ⟨n, hn, rfl⟩
      · exact addEdgeNode_id s e si ei n
    · exact hshN
    · intro hid
      rw [hid] at hi
      constructor
      · intro z
        exact hEn n hn (Or.inl hid) (hi.2 (hc1.1 z))
      · intro z
        by_contra hc
        exact z (hc1.2 (hi.1 hc))
    · intro hid
      rw [hid] at hi
      constructor
      · intro z
        exact hEn n hn (Or.inr hid) (hi.2 (hc2.1 z))
      · intro z
        by_contra hc
        exact z (hc2.2 (hi.1 hc))
  · rw [hE, ← heid]
    exact roundTrip_edges N pl pr T.face_seq ff fw bw edge hk hLE sE hlinkA hedge heN hundo
      hef hflt
      sfw sbw hshE
  · rw [hFa]; exact hFid

theorem addEdge_remEdge_restores_witness :
    roundTripValid topoOneEdge ∧
    AdjacencyConsistent windingKernel topoOneEdge 1 2
      [{ x := 0, y := 0 }, { x := 5, y := 5 }, { x := 10, y := 0 }] ∧
    EndFaces windingKernel topoOneEdge 1 2
      [{ x := 0, y := 0 }, { x := 5, y := 5 }, { x := 10, y := 0 }] 0 ∧
    (rtt_AddEdgeModFace windingKernel topoOneEdge 1 2
      [{ x := 0, y := 0 }, { x := 5, y := 5 }, { x := 10, y := 0 }] false).2 = 2 ∧
    (rtt_AddEdgeModFace windingKernel topoOneEdge 1 2
      [{ x := 0, y := 0 }, { x := 5, y := 5 }, { x := 10, y := 0 }] false).1.faces.map
        (fun x => x.face_id) = [1] ∧
    (rtt_RemEdgeModFace windingKernel (rtt_AddEdgeModFace windingKernel topoOneEdge 1 2
        [{ x := 0, y := 0 }, { x := 5, y := 5 }, { x := 10, y := 0 }] false).1
      (rtt_AddEdgeModFace windingKernel topoOneEdge 1 2
        [{ x := 0, y := 0 }, { x := 5, y := 5 }, { x := 10, y := 0 }] false).2).1.nodes =
      topoOneEdge.nodes ∧
    (rtt_RemEdgeModFace windingKernel (rtt_AddEdgeModFace windingKernel topoOneEdge 1 2
        [{ x := 0, y := 0 }, { x := 5, y := 5 }, { x := 10, y := 0 }] false).1
      (rtt_AddEdgeModFace windingKernel topoOneEdge 1 2
        [{ x := 0, y := 0 }, { x := 5, y := 5 }, { x := 10, y := 0 }] false).2).1.edges =
      topoOneEdge.edges ∧
    (rtt_RemEdgeModFace windingKernel (rtt_AddEdgeModFace windingKernel topoOneEdge 1 2
        [{ x := 0, y := 0 }, { x := 5, y := 5 }, { x := 10, y := 0 }] false).1
      (rtt_AddEdgeModFace windingKernel topoOneEdge 1 2
        [{ x := 0, y := 0 }, { x := 5, y := 5 }, { x := 10, y := 0 }] false).2).1.faces.map
        (fun x => x.face_id) = topoOneEdge.faces.map (fun x => x.face_id) :=
  have h := addEdge_remEdge_restores windingKernel topoOneEdge 1 2
    [{ x := 0, y := 0 }, { x := 5, y := 5 }, { x := 10, y := 0 }] false 0
    (by decide) (by decide) (by decide) (fun _ => ⟨rfl, rfl⟩) (by decide) (by decide)
    (by decide) (by decide)
  ⟨by decide, by decide, by decide, by decide, by decide, h.1, h.2.1, h.2.2⟩

end RTTopo

namespace RTTopo

/-! ## `rtt_ChangeEdgeGeom`: the state after a failure -/

theorem changeEdgeFrame_error {edge_id : Int} {geom : RTLINE} {T X : RTT_TOPOLOGY}
    (hn : X.nodes = T.nodes)
    (he : X.edges = T.edges ∨ X.edges = geomStored T.edges edge_id geom)
    {msg : String} (hm : ¬ twistMessage msg) :
    changeEdgeFrame edge_id geom T (rterror X msg, -1) := by
  refine ⟨hn, he, ?_⟩
  rintro - ⟨m, h1, h2⟩
  have : m = msg := by
    have h3 : some msg = some m := h1
    exact (Option.some.inj h3).symm
  rw [this] at h2
  exact absurd h2 hm

theorem changeEdgeShape_msg {G : GEOM} {o : RTT_ISO_EDGE} {g : RTLINE} {m : String}
    (h : changeEdgeShape G o g = some m) : ¬ twistMessage m := by
  unfold changeEdgeShape at h
  split_ifs at h <;>
    first
    | (rw [← Option.some.inj h]; decide)
    | cases h

theorem checkCrossingNodes_msg (G : GEOM) (s e : Int) (geom : RTLINE)
    (nodes : List RTT_ISO_NODE) {m : String}
    (h : checkCrossingNodes G s e geom nodes = some m) : ¬ twistMessage m := by
  induction nodes with
  | nil => exact absurd h (by simp [checkCrossingNodes])
  | cons node rest ih =>
    unfold checkCrossingNodes at h
    dsimp only at h
    split_ifs at h <;>
      first
      | (rw [← Option.some.inj h]; decide)
      | exact ih h

theorem checkCrossingEdges_msg (G : GEOM) (geom : RTLINE) (myself : Int)
    (edges : List RTT_ISO_EDGE) {m : String}
    (h : checkCrossingEdges G geom myself edges = some m) : ¬ twistMessage m := by
  induction edges with
  | nil => exact absurd h (by simp [checkCrossingEdges])
  | cons edge rest ih =>
    unfold checkCrossingEdges at h
    by_cases c0 : edge.edge_id = myself
    · rw [if_pos c0] at h; exact ih h
    rw [if_neg c0] at h
    by_cases c1 : (!G.geos_line edge.geom) = true
    · rw [if_pos c1] at h; rw [← Option.some.inj h]; decide
    rw [if_neg c1] at h
    cases hr : G.relate edge.geom geom with
    | none => rw [hr] at h; rw [← Option.some.inj h]; decide
    | some relate =>
      rw [hr] at h
      dsimp only at h
      split_ifs at h <;>
        first
        | (rw [← Option.some.inj h]; decide)
        | exact ih h

theorem checkEdgeCrossing_frame (G : GEOM) (T : RTT_TOPOLOGY) (s e : Int) (geom : RTLINE)
    (myself : Int) (h : (_rtt_CheckEdgeCrossing G T s e geom myself).2 ≠ 0) :
    ∃ m, ¬ twistMessage m ∧
      _rtt_CheckEdgeCrossing G T s e geom myself = (rterror T m, -1) := by
  unfold _rtt_CheckEdgeCrossing at h ⊢
  dsimp only at h ⊢
  by_cases c0 : (!G.geos_line geom) = true
  · rw [if_pos c0]; exact ⟨_, by decide, rfl⟩
  rw [if_neg c0] at h ⊢
  cases hn : rtt_be_getNodeWithinBox2D G T (G.bbox geom) with
  | none => exact ⟨_, by decide, rfl⟩
  | some nodes =>
    rw [hn] at h
    dsimp only at h ⊢
    cases hc : checkCrossingNodes G s e geom nodes with
    | some msg => exact ⟨msg, checkCrossingNodes_msg G s e geom nodes hc, rfl⟩
    | none =>
      rw [hc] at h
      dsimp only at h ⊢
      cases he : rtt_be_getEdgeWithinBox2D G T (G.bbox geom) with
      | none => exact ⟨_, by decide, rfl⟩
      | some edges =>
        rw [he] at h
        dsimp only at h ⊢
        cases hd : checkCrossingEdges G geom myself edges with
        | some msg => exact ⟨msg, checkCrossingEdges_msg G geom myself edges hd, rfl⟩
        | none => rw [hd] at h; exact absurd rfl h

theorem changeEdgeMotionNodes_msg (G : GEOM) (o : RTT_ISO_EDGE) (geom : RTLINE)
    (isclosed : Bool) (nodes : List RTT_ISO_NODE) {m : String}
    (h : changeEdgeMotionNodes G o geom isclosed nodes = some m) : ¬ twistMessage m := by
  induction nodes with
  | nil => exact absurd h (by simp [changeEdgeMotionNodes])
  | cons n rest ih =>
    unfold changeEdgeMotionNodes at h
    split_ifs at h <;>
      first
      | (rw [← Option.some.inj h]; decide)
      | exact ih h

theorem changeEdgeMotion_msg {G : GEOM} {T : RTT_TOPOLOGY} {o : RTT_ISO_EDGE} {geom : RTLINE}
    {isclosed : Bool} {m : String}
    (h : changeEdgeMotion G T o geom isclosed = some m) : ¬ twistMessage m := by
  unfold changeEdgeMotion at h
  cases hn : rtt_be_getNodeWithinBox2D G T
      (G.gbox_merge (G.bbox o.geom) (G.bbox geom)) with
  | none => rw [hn] at h; rw [← Option.some.inj h]; decide
  | some nodes =>
    rw [hn] at h
    dsimp only at h
    split_ifs at h <;>
      first
      | (rw [← Option.some.inj h]; decide)
      | exact changeEdgeMotionNodes_msg G o geom isclosed nodes h
      | cases h

theorem initEdgeEndByLine_msg {G : GEOM} {edge : RTLINE} {fp lp : POINT2D} {m : String}
    (h : _rtt_InitEdgeEndByLine G edge fp lp = .error m) : ¬ twistMessage m := by
  unfold _rtt_InitEdgeEndByLine at h
  repeat' split at h
  all_goals first
    | (injection h with h; rw [← h]; decide)
    | cases h

theorem getFaceGeometry_msg {G : GEOM} {T : RTT_TOPOLOGY} {f : Int} {m : String}
    (h : rtt_GetFaceGeometry G T f = .error m) : ¬ twistMessage m := by
  unfold rtt_GetFaceGeometry at h
  repeat' split at h
  all_goals first
    | (injection h with h; rw [← h]; decide)
    | cases h

theorem getFaceGeometry_map_msg {G : GEOM} {T : RTT_TOPOLOGY} {f : Int} {m : String}
    {α : Type} (g : Option GBOX → α)
    (h : (rtt_GetFaceGeometry G T f).map g = .error m) : ¬ twistMessage m := by
  cases hx : rtt_GetFaceGeometry G T f with
  | error e =>
    rw [hx] at h
    have : e = m := by injection h
    rw [← this]
    exact getFaceGeometry_msg hx
  | ok v => rw [hx] at h; cases h

/-- The face part of `rtt_ChangeEdgeGeom` writes to the face table only, and reports a
failure with a message of its own. -/
theorem changeEdgeFaces_frame (G : GEOM) (X : RTT_TOPOLOGY) (oldedge : RTT_ISO_EDGE) :
    (changeEdgeFaces G X oldedge).1.nodes = X.nodes ∧
    (changeEdgeFaces G X oldedge).1.edges = X.edges ∧
    ((changeEdgeFaces G X oldedge).2 = -1 →
      ∃ m, (changeEdgeFaces G X oldedge).1.errors.head? = some m ∧ ¬ twistMessage m) := by
  unfold changeEdgeFaces
  cases h1 : (if oldedge.face_left ≠ 0 then
      (rtt_GetFaceGeometry G X oldedge.face_left).map
        (fun b => [({ face_id := oldedge.face_left, mbr := b } : RTT_ISO_FACE)])
    else .ok []) with
  | error msg =>
    refine ⟨rfl, rfl, fun _ => ⟨msg, rfl, ?_⟩⟩
    by_cases c : oldedge.face_left ≠ 0
    · rw [if_pos c] at h1; exact getFaceGeometry_map_msg _ h1
    · rw [if_neg c] at h1; cases h1
  | ok faces1 =>
    dsimp only
    cases h2 : (if oldedge.face_right ≠ 0 ∧ oldedge.face_right ≠ oldedge.face_left then
        (rtt_GetFaceGeometry G X oldedge.face_right).map
          (fun b => [({ face_id := oldedge.face_right, mbr := b } : RTT_ISO_FACE)])
      else .ok []) with
    | error msg =>
      refine ⟨rfl, rfl, fun _ => ⟨msg, rfl, ?_⟩⟩
      by_cases c : oldedge.face_right ≠ 0 ∧ oldedge.face_right ≠ oldedge.face_left
      · rw [if_pos c] at h2; exact getFaceGeometry_map_msg _ h2
      · rw [if_neg c] at h2; cases h2
    | ok faces2 =>
      dsimp only
      by_cases c : (faces1 ++ faces2).length ≠ 0
      · rw [if_pos c]
        have hu : (rtt_be_updateFacesById X (faces1 ++ faces2)).1.nodes = X.nodes ∧
            (rtt_be_updateFacesById X (faces1 ++ faces2)).1.edges = X.edges := by
          unfold rtt_be_updateFacesById
          dsimp only
          split_ifs <;> exact ⟨rfl, rfl⟩
        generalize rtt_be_updateFacesById X (faces1 ++ faces2) = u at hu ⊢
        by_cases d : u.2 ≠ ((faces1 ++ faces2).length : Int)
        · rw [if_pos d]
          refine ⟨hu.1, hu.2, fun _ => ⟨_, rfl, ?_⟩⟩
          split_ifs <;> decide
        · rw [if_neg d]
          refine ⟨hu.1, hu.2, fun k => ?_⟩
          have k2 : (0 : Int) = -1 := k
          exact absurd k2 (by decide)
      · rw [if_neg c]
        refine ⟨rfl, rfl, fun k => ?_⟩
        have k2 : (0 : Int) = -1 := k
        exact absurd k2 (by decide)

theorem changeEdgeAdjacent_state (G : GEOM) (T : RTT_TOPOLOGY) (oldedge : RTT_ISO_EDGE)
    (span epan : edgeend) (isclosed : Bool) (edge_id : Int) :
    (changeEdgeAdjacent G T oldedge span epan isclosed edge_id).1 =
      { T with errors := (changeEdgeAdjacent G T oldedge span epan isclosed edge_id).1.errors } := by
  unfold changeEdgeAdjacent
  dsimp only
  have h1 := (findAdjacentEdges_found G T oldedge.start_node span
    (if isclosed then some epan else none) edge_id).1
  generalize _rtt_FindAdjacentEdges G T oldedge.start_node span
    (if isclosed then some epan else none) edge_id = a at h1 ⊢
  have h2 := (findAdjacentEdges_found G a.1 oldedge.end_node epan
    (if isclosed then some a.2.1 else none) edge_id).1
  generalize _rtt_FindAdjacentEdges G a.1 oldedge.end_node epan
    (if isclosed then some a.2.1 else none) edge_id = b at h2 ⊢
  rw [h2, h1]

theorem updateEdgesById_geom (X : RTT_TOPOLOGY) (edge_id : Int) (geom : RTLINE) :
    (rtt_be_updateEdgesById X [{ blankEdge with edge_id := edge_id, geom := geom }]
      [RTT_COL_EDGE.GEOM]).1.nodes = X.nodes ∧
    (rtt_be_updateEdgesById X [{ blankEdge with edge_id := edge_id, geom := geom }]
      [RTT_COL_EDGE.GEOM]).1.faces = X.faces ∧
    ((rtt_be_updateEdgesById X [{ blankEdge with edge_id := edge_id, geom := geom }]
      [RTT_COL_EDGE.GEOM]).1.edges = X.edges ∨
     (rtt_be_updateEdgesById X [{ blankEdge with edge_id := edge_id, geom := geom }]
      [RTT_COL_EDGE.GEOM]).1.edges = geomStored X.edges edge_id geom) ∧
    ((rtt_be_updateEdgesById X [{ blankEdge with edge_id := edge_id, geom := geom }]
      [RTT_COL_EDGE.GEOM]).2 ≠ -1 →
     (rtt_be_updateEdgesById X [{ blankEdge with edge_id := edge_id, geom := geom }]
      [RTT_COL_EDGE.GEOM]).1.edges = geomStored X.edges edge_id geom) := by
  unfold rtt_be_updateEdgesById
  by_cases c : BeCall.updateEdgesById ∈ X.failing
  · rw [if_pos c]
    exact ⟨rfl, rfl, Or.inl rfl, fun k => absurd rfl k⟩
  · rw [if_neg c]
    have he : List.foldl (updateEdgeById [RTT_COL_EDGE.GEOM]) X.edges
        [{ blankEdge with edge_id := edge_id, geom := geom }] =
        geomStored X.edges edge_id geom := by
      unfold geomStored
      rw [List.foldl_cons, List.foldl_nil]
      unfold updateEdgeById
      apply List.map_congr_left
      intro e _
      by_cases d : e.edge_id = edge_id
      · rw [if_pos d, if_pos d]
        unfold edgeAssign
        simp
      · rw [if_neg d, if_neg d]
    exact ⟨rfl, rfl, Or.inr he, fun _ => he⟩

theorem changeEdgeStore_frame (G : GEOM) (T : RTT_TOPOLOGY) (oldedge : RTT_ISO_EDGE)
    (edge_id : Int) (geom : RTLINE) (isclosed : Bool) :
    changeEdgeFrame edge_id geom T (changeEdgeStore G T oldedge edge_id geom isclosed) := by
  unfold changeEdgeStore
  cases h1 : _rtt_InitEdgeEndByLine G oldedge.geom (getPoint2d_p oldedge.geom 0)
      (getPoint2d_p oldedge.geom (oldedge.geom.length - 1)) with
  | error msg => exact changeEdgeFrame_error rfl (Or.inl rfl) (initEdgeEndByLine_msg h1)
  | ok pre =>
    dsimp only
    have ka := changeEdgeAdjacent_state G T oldedge pre.1 pre.2 isclosed edge_id
    generalize changeEdgeAdjacent G T oldedge pre.1 pre.2 isclosed edge_id = a at ka ⊢
    have aN : a.1.nodes = T.nodes := by rw [ka]
    have aE : a.1.edges = T.edges := by rw [ka]
    have aF : a.1.faces = T.faces := by rw [ka]
    obtain ⟨uN, uF, uE, uS⟩ := updateEdgesById_geom a.1 edge_id geom
    rw [aN] at uN
    rw [aF] at uF
    rw [aE] at uE uS
    generalize rtt_be_updateEdgesById a.1
      [{ blankEdge with edge_id := edge_id, geom := geom }] [RTT_COL_EDGE.GEOM] = u
      at uN uF uE uS ⊢
    by_cases c1 : u.2 = -1
    · rw [if_pos c1]; exact changeEdgeFrame_error uN uE (by decide)
    rw [if_neg c1]
    have uS' := uS c1
    by_cases c2 : u.2 = 0
    · rw [if_pos c2]; exact changeEdgeFrame_error uN uE (by decide)
    rw [if_neg c2]
    cases h2 : _rtt_InitEdgeEndByLine G geom (getPoint2d_p oldedge.geom 0)
        (getPoint2d_p oldedge.geom (oldedge.geom.length - 1)) with
    | error msg => exact changeEdgeFrame_error uN uE (initEdgeEndByLine_msg h2)
    | ok post =>
      dsimp only
      have kb := changeEdgeAdjacent_state G u.1 oldedge post.1 post.2 isclosed edge_id
      generalize changeEdgeAdjacent G u.1 oldedge post.1 post.2 isclosed edge_id = b at kb ⊢
      have bN : b.1.nodes = T.nodes := by rw [kb]; exact uN
      have bE : b.1.edges = geomStored T.edges edge_id geom := by rw [kb]; exact uS'
      have bF : b.1.faces = T.faces := by rw [kb]; exact uF
      by_cases c3 : a.2.1.nextCW ≠ b.2.1.nextCW ∨ a.2.1.nextCCW ≠ b.2.1.nextCCW
      · rw [if_pos c3]
        exact ⟨bN, Or.inr bE, fun _ _ => ⟨bF, bE⟩⟩
      rw [if_neg c3]
      by_cases c4 : a.2.2.nextCW ≠ b.2.2.nextCW ∨ a.2.2.nextCCW ≠ b.2.2.nextCCW
      · rw [if_pos c4]
        exact ⟨bN, Or.inr bE, fun _ _ => ⟨bF, bE⟩⟩
      rw [if_neg c4]
      obtain ⟨fN, fE, fM⟩ := changeEdgeFaces_frame G b.1 oldedge
      refine ⟨fN.trans bN, Or.inr (fE.trans bE), ?_⟩
      intro hfail ⟨m, h3, h4⟩
      obtain ⟨m2, h5, h6⟩ := fM hfail
      rw [h3] at h5
      rw [Option.some.inj h5] at h4
      exact absurd h4 h6

theorem rtt_ChangeEdgeGeom_frame (G : GEOM) (T : RTT_TOPOLOGY) (edge_id : Int)
    (geom : RTLINE) :
    changeEdgeFrame edge_id geom T (rtt_ChangeEdgeGeom G T edge_id geom) := by
  unfold rtt_ChangeEdgeGeom
  by_cases c0 : G.is_simple geom = false
  · rw [if_pos c0]; exact changeEdgeFrame_error rfl (Or.inl rfl) (by decide)
  rw [if_neg c0]
  cases hg : rtt_be_getEdgeById T [edge_id] with
  | none => exact changeEdgeFrame_error rfl (Or.inl rfl) (by decide)
  | some l =>
    cases l with
    | nil => exact changeEdgeFrame_error rfl (Or.inl rfl) (by decide)
    | cons oldedge rest =>
      dsimp only
      cases hs : changeEdgeShape G oldedge geom with
      | some msg => exact changeEdgeFrame_error rfl (Or.inl rfl) (changeEdgeShape_msg hs)
      | none =>
        dsimp only
        by_cases c1 : (_rtt_CheckEdgeCrossing G T oldedge.start_node oldedge.end_node geom
            edge_id).2 ≠ 0
        · rw [if_pos c1]
          obtain ⟨m, hm, hc⟩ := checkEdgeCrossing_frame G T oldedge.start_node
            oldedge.end_node geom edge_id c1
          rw [hc]
          exact changeEdgeFrame_error rfl (Or.inl rfl) hm
        rw [if_neg c1]
        have hc := checkEdgeCrossing_ok G T oldedge.start_node oldedge.end_node geom edge_id
          (not_not.1 c1)
        rw [hc]
        cases hm : changeEdgeMotion G T oldedge geom
            (decide (oldedge.start_node = oldedge.end_node)) with
        | some msg => exact changeEdgeFrame_error rfl (Or.inl rfl) (changeEdgeMotion_msg hm)
        | none => exact changeEdgeStore_frame G T oldedge edge_id geom _

/-- Claim C22, as amended: for every state and every call `rtt_ChangeEdgeGeom(edge_id,
geom)` that fails, the node rows are the same after the call as before it and the edge
rows are the same or differ only by the geometry stored for `edge_id`; when the failure
is `EdgeTwistAroundEndpoint` (the neighbours of the edge around its start or end node
changed), every face row, hence every face MBR, is the same as before and the geometry
stored for the edge is the new line: the function stores it to find the new neighbours
and does not undo the update. -/
theorem rtt_ChangeEdgeGeom_twist_keeps_faces (G : GEOM) (T : RTT_TOPOLOGY) (edge_id : Int)
    (geom : RTLINE) (hfail : (rtt_ChangeEdgeGeom G T edge_id geom).2 = -1) :
    (rtt_ChangeEdgeGeom G T edge_id geom).1.nodes = T.nodes ∧
    ((rtt_ChangeEdgeGeom G T edge_id geom).1.edges = T.edges ∨
      (rtt_ChangeEdgeGeom G T edge_id geom).1.edges = geomStored T.edges edge_id geom) ∧
    ((∃ m, (rtt_ChangeEdgeGeom G T edge_id geom).1.errors.head? = some m ∧ twistMessage m) →
      (rtt_ChangeEdgeGeom G T edge_id geom).1.faces = T.faces ∧
      (rtt_ChangeEdgeGeom G T edge_id geom).1.edges = geomStored T.edges edge_id geom) := by
  obtain ⟨h1, h2, h3⟩ := rtt_ChangeEdgeGeom_frame G T edge_id geom
  exact ⟨h1, h2, h3 hfail⟩

theorem rtt_ChangeEdgeGeom_twist_keeps_faces_witness :
    (rtt_ChangeEdgeGeom lensKernel topoLens 2
      [{ x := 0, y := 0 }, { x := 5, y := 1 }, { x := 10, y := 0 }]).2 = -1 ∧
    (rtt_ChangeEdgeGeom lensKernel topoLens 2
      [{ x := 0, y := 0 }, { x := 5, y := 1 }, { x := 10, y := 0 }]).1.errors.head? =
      some "Edge changed disposition around start node" ∧
    (rtt_ChangeEdgeGeom lensKernel topoLens 2
      [{ x := 0, y := 0 }, { x := 5, y := 1 }, { x := 10, y := 0 }]).1.nodes =
      topoLens.nodes ∧
    (rtt_ChangeEdgeGeom lensKernel topoLens 2
      [{ x := 0, y := 0 }, { x := 5, y := 1 }, { x := 10, y := 0 }]).1.faces =
      topoLens.faces ∧
    (rtt_ChangeEdgeGeom lensKernel topoLens 2
      [{ x := 0, y := 0 }, { x := 5, y := 1 }, { x := 10, y := 0 }]).1.edges =
      geomStored topoLens.edges 2
        [{ x := 0, y := 0 }, { x := 5, y := 1 }, { x := 10, y := 0 }] :=
  have h := rtt_ChangeEdgeGeom_twist_keeps_faces lensKernel topoLens 2
    [{ x := 0, y := 0 }, { x := 5, y := 1 }, { x := 10, y := 0 }] (by decide)
  have k := h.2.2 ⟨"Edge changed disposition around start node", by decide, by decide⟩
  ⟨by decide, by decide, h.1, k.1, k.2⟩

end RTTopo

namespace RTTopo

/-! ## `_rtt_AddFaceSplit` with `mbr_only` in the universe face -/

/-- Claim C28, failing input: in the state `topoLoop` (a closed counterclockwise edge
stored with the universe face on both sides, as `_rtt_AddEdge` has it when it starts the
face-split analysis) the call `_rtt_AddFaceSplit(1, face = 0, mbr_only = 1)` meets no
error, returns `1`, inserts face `1` and rebinds the left side of edge `1`, where the
comment of the function announces that with `mbr_only` no face is created and `-1` is
returned. The same call is reached through `rtt_AddEdgeModFace`: on `topoDot`, with a
winding test that counts a ring of zero area as counterclockwise, adding the closed edge
`foldLine` with `skipChecks = 1` makes face `1` on the left side, and the call
`_rtt_AddFaceSplit(-1, face = 0, mbr_only = 1)` that follows returns `2` and inserts
face `2` on the right side. -/
theorem addFaceSplit_mbr_only_universe_creates_face :
    (_rtt_AddFaceSplit windingKernel topoLoop 1 0 true).2 = 1 ∧
    (_rtt_AddFaceSplit windingKernel topoLoop 1 0 true).1.errors = [] ∧
    topoLoop.faces = [] ∧
    (_rtt_AddFaceSplit windingKernel topoLoop 1 0 true).1.faces.map (fun f => f.face_id)
      = [1] ∧
    topoLoop.edges.map (fun e => (e.edge_id, e.face_left, e.face_right)) = [(1, 0, 0)] ∧
    (_rtt_AddFaceSplit windingKernel topoLoop 1 0 true).1.edges.map
      (fun e => (e.edge_id, e.face_left, e.face_right)) = [(1, 1, 0)] ∧
    roundTripValid topoDot ∧
    tieKernel.isccw foldLine = true ∧ tieKernel.isccw foldLine.reverse = true ∧
    (_rtt_AddFaceSplit tieKernel topoFold 1 0 false).2 = 1 ∧
    (_rtt_AddFaceSplit tieKernel topoFold 1 0 false).1.edges.map
      (fun e => (e.edge_id, e.face_left, e.face_right)) = [(1, 1, 0)] ∧
    (_rtt_AddFaceSplit tieKernel
      (_rtt_AddFaceSplit tieKernel topoFold 1 0 false).1 (-1) 0 true).2 = 2 ∧
    (_rtt_AddFaceSplit tieKernel
      (_rtt_AddFaceSplit tieKernel topoFold 1 0 false).1 (-1) 0 true).1.faces.map
      (fun f => f.face_id) = [1, 2] ∧
    (rtt_AddEdgeModFace tieKernel topoDot 1 1 foldLine true).2 = 1 ∧
    (rtt_AddEdgeModFace tieKernel topoDot 1 1 foldLine true).1.errors = [] ∧
    (rtt_AddEdgeModFace tieKernel topoDot 1 1 foldLine true).1.faces.map
      (fun f => f.face_id) = [1, 2] ∧
    (rtt_AddEdgeModFace tieKernel topoDot 1 1 foldLine true).1.edges.map
      (fun e => (e.edge_id, e.face_left, e.face_right)) = [(1, 1, 2)] := by
  decide

end RTTopo
